import Mathlib

/-!
# neatcc parser (`ncc.c`): a shallow embedding and its verified properties

The parser keeps all of its state in file-scope variables; here that state is
one record, `State`, threaded through a state-and-error monad `P`.  The
tokenizer (`tok_*`) and the code generator (`o_*`) are external: the tokenizer
is a cursor over a token list, the generator is the list of calls it received
(`State.out`) together with an oracle for the values it returns.
-/

set_option linter.dupNamespace false
set_option linter.unusedVariables false

namespace Ncc

/-! ## Constants of the headers -/

/-- Modelled from the spec: `BT_SZMASK` of `ncc.h` (not under src/), the mask of
the width field of a packed base type ("a size field plus a signed flag"). -/
def BT_SZMASK : Nat := 0xff

/-- Modelled from the spec: `BT_SIGNED` of `ncc.h` (not under src/), the signed
flag of a packed base type. -/
def BT_SIGNED : Nat := 0x100

/-- Modelled from the spec: the macro `BT_SZ(bt)` of `ncc.h` (not under src/),
the width in bytes of a packed base type. -/
def BT_SZ (bt : Nat) : Nat := bt &&& BT_SZMASK

/-- Modelled from the spec: the macro `BT(sign, size)` of `ncc.h` (not under
src/), which packs a signed flag and a width into a base type. -/
def BT (sign size : Nat) : Nat := (sign &&& BT_SIGNED) ||| (size &&& BT_SZMASK)

/-- The macro `T_ARRAY`. -/
def T_ARRAY : Nat := 0x01
/-- The macro `T_STRUCT`. -/
def T_STRUCT : Nat := 0x02
/-- The macro `T_FUNC`. -/
def T_FUNC : Nat := 0x04
/-- The macro `F_STATIC`. -/
def F_STATIC : Nat := 0x01
/-- The macro `F_EXTERN`. -/
def F_EXTERN : Nat := 0x02

/-- The macro `MIN(a, b)`. -/
def MIN (a b : Int) : Int := if a < b then a else b
/-- The macro `MAX(a, b)`. -/
def MAX (a b : Int) : Int := if a < b then b else a
/-- The macro `MAX(a, b)` at type `unsigned`/non-negative `int`. -/
def MAXn (a b : Nat) : Nat := if a < b then b else a
/-- The macro `ALIGN(x, a)`: `((x) + (a) - 1) & ~((a) - 1)`. -/
def ALIGN (x a : Int) : Int := Int.land (x + a - 1) (~~~(a - 1))

/-- Conversion of an `int` to `unsigned` (32 bits). -/
def toUnsigned (i : Int) : Nat := (i % 4294967296).toNat
/-- Conversion of an `unsigned` to `int` (32 bits, two's complement). -/
def toInt32 (u : Nat) : Int :=
  if u % 4294967296 < 2147483648 then ((u % 4294967296 : Nat) : Int)
  else ((u % 4294967296 : Nat) : Int) - 4294967296

/-! ## Data model -/

/-- The C `struct type`.  `id` only ever holds an index of a descriptor table. -/
structure type where
  bt : Nat
  flags : Nat
  ptr : Int
  id : Nat
  addr : Nat
deriving DecidableEq, Repr

/-- The all-zero `struct type` (static storage, `memset`, `= {}`). -/
def type.zero : Ncc.type := { bt := 0, flags := 0, ptr := 0, id := 0, addr := 0 }

instance : Inhabited Ncc.type := ⟨type.zero⟩

/-- The C `struct name`. -/
structure name where
  name : String
  elfname : String
  type : type
  addr : Int
deriving DecidableEq, Repr

/-- The all-zero `struct name`. -/
def name.zero : Ncc.name :=
  { name := "", elfname := "", type := Ncc.type.zero, addr := 0 }

instance : Inhabited Ncc.name := ⟨name.zero⟩

/-- The C `struct enumval`. -/
structure enumval where
  name : String
  n : Int
deriving DecidableEq, Repr

/-- The all-zero `struct enumval`. -/
def enumval.zero : enumval := { name := "", n := 0 }

/-- The C `struct typdefinfo`. -/
structure typdefinfo where
  name : String
  type : type
deriving DecidableEq, Repr

/-- The all-zero `struct typdefinfo`. -/
def typdefinfo.zero : typdefinfo := { name := "", type := Ncc.type.zero }

/-- The C `struct array`. -/
structure array where
  type : type
  n : Int
deriving DecidableEq, Repr

/-- The all-zero `struct array`. -/
def array.zero : array := { type := Ncc.type.zero, n := 0 }

/-- The C `struct structinfo`.  `fields` holds the entries `fields[0 .. nfields)`; the
descriptor is zeroed when created and entries are only ever appended, so every
entry at or beyond `nfields` is all-zero. -/
structure structinfo where
  name : String
  fields : List Ncc.name
  isunion : Int
  size : Int
deriving DecidableEq, Repr

/-- The all-zero `struct structinfo`. -/
def structinfo.zero : structinfo := { name := "", fields := [], isunion := 0, size := 0 }

/-- The member `nfields` of `struct structinfo`. -/
def structinfo.nfields (si : structinfo) : Nat := si.fields.length

/-- The C `struct funcinfo`.  `args` and `argnames` hold the entries `[0 .. nargs)`. -/
structure funcinfo where
  args : List Ncc.type
  ret : Ncc.type
  nargs : Int
  varg : Int
  argnames : List String
  name : String
deriving DecidableEq, Repr

/-- The all-zero `struct funcinfo`. -/
def funcinfo.zero : funcinfo :=
  { args := [], ret := Ncc.type.zero, nargs := 0, varg := 0, argnames := [], name := "" }

/-- Store `x` at index `i` of a statically allocated (zero-initialised) table. -/
def tset {α : Type} (z : α) (l : List α) (i : Nat) (x : α) : List α :=
  if i < l.length then l.set i x else l ++ List.replicate (i - l.length) z ++ [x]

/-! ## Tokens -/

/-- Token kinds: the values `tok_see()` and `tok_get()` return. -/
inductive Tok where
  | EOF | NAME | NUM | STR
  | lbrace | rbrace | lparen | rparen | lbrack | rbrack
  | semi | comma | colon | quest | assign | amp | star | bang | plus | minus
  | tilde | slash | percent | lt | gt | caret | bar | dot
  | inc | dec | arrow | shl | shr | le | ge | eqeq | neq | andand | oror
  | addeq | subeq | muleq | diveq | modeq | shleq | shreq | andeq | oreq | xoreq
  | ellipsis
  | VOID | STATIC | EXTERN | RETURN | UNSIGNED | SIGNED | SHORT | LONG | INT | CHAR
  | STRUCT | UNION | ENUM | TYPEDEF | IF | ELSE | FOR | WHILE | DO | SWITCH | CASE
  | SIZEOF | BREAK | CONTINUE | DEFAULT | GOTO
deriving DecidableEq, Repr

/-- One token of the preprocessed input: its kind, and what `tok_id`, `tok_num`
and `tok_str` report for it. -/
structure Token where
  kind : Tok
  id : String
  num : Int
  bt : Nat
  str : List Nat
deriving DecidableEq, Repr

/-! ## Code generator interface -/

/-- Binary and unary operator codes of `gen.h` (`O_ADD`, ...). -/
inductive Op where
  | ADD | SUB | AND | OR | XOR | SHL | SHR | MUL | DIV | MOD
  | LT | GT | LE | GE | EQ | NEQ | NEG | NOT | LNOT
deriving DecidableEq, Repr

/-- A call of a code generator function `o_*`, with its arguments.  For `bop`
the flag is the `O_SIGNED` bit or-ed into the operator code. -/
inductive Call where
  | bop (op : Op) (signed : Bool)
  | uop (op : Op)
  | cast (bt : Nat)
  | memcpy | memset
  | call (argc : Int) (ret : Nat)
  | ret (r : Int)
  | assign (bt : Nat)
  | deref (bt : Nat)
  | load
  | popnum
  | num (n : Int)
  | local_ (addr : Int)
  | sym (s : String)
  | tmpdrop (n : Int)
  | tmpswap | tmpcopy
  | label (id : Int)
  | jz (id : Int) | jnz (id : Int) | jmp (id : Int)
  | fork | forkpush | forkjoin
  | mklocal (sz : Int)
  | rmlocal (addr : Int) (sz : Int)
  | arg2loc (i : Int)
  | func_beg (nm : String) (argc : Int) (glob : Int) (varg : Int)
  | func_end | pass1 | pass2
  | dsnew (nm : String) (sz : Int) (glob : Int)
  | dscpy (addr : Int) (buf : List Nat) (len : Int)
  | dsset (nm : String) (off : Int) (bt : Nat)
  | bsnew (nm : String) (sz : Int) (glob : Int)
deriving DecidableEq, Repr

/-- Build configuration and environment of the parser: the constants of the
headers that depend on the target, and the values the code generator returns,
as functions of the calls it has received so far. -/
structure Env where
  LONGSZ : Nat
  NLOCALS : Nat
  NGLOBALS : Nat
  NENUMS : Nat
  NTYPEDEFS : Nat
  NARRAYS : Nat
  NSTRUCTS : Nat
  NFUNCS : Nat
  NCCWORDCAST : Bool
  popnum : List Call → Option Int
  mklocal : List Call → Int → Int
  arg2loc : List Call → Int → Int
  dsnew : List Call → String → Int → Int → Int
  garbage : Int

/-! ## Parser state -/

/-- All file-scope variables of `ncc.c`, the token cursor and the calls the code
generator has received. -/
structure State where
  toks : List Token
  pos : Nat
  tokid : String
  toknum : Int
  tokbt : Nat
  tokstr : List Nat
  nogen : Int
  ts : List Ncc.type
  nts : Nat
  locals : List Ncc.name
  nlocals : Nat
  globals : List Ncc.name
  nglobals : Nat
  label : Int
  l_break : Int
  l_cont : Int
  enums : List enumval
  nenums : Nat
  typedefs : List typdefinfo
  ntypedefs : Nat
  arrays : List array
  narrays : Nat
  structs : List structinfo
  nstructs : Nat
  ncexpr : Int
  caseexpr : Int
  tmpid : Nat
  funcs : List funcinfo
  nfuncs : Nat
  func_name : String
  labels : List (String × Int)
  nlabels : Nat
  out : List Call
deriving DecidableEq

/-- The state at program start: every static variable is zero. -/
def State.init (toks : List Token) : State :=
  { toks := toks, pos := 0, tokid := "", toknum := 0, tokbt := 0, tokstr := [],
    nogen := 0, ts := [], nts := 0, locals := [], nlocals := 0, globals := [],
    nglobals := 0, label := 0, l_break := 0, l_cont := 0, enums := [], nenums := 0,
    typedefs := [], ntypedefs := 0, arrays := [], narrays := 0, structs := [],
    nstructs := 0, ncexpr := 0, caseexpr := 0, tmpid := 0, funcs := [], nfuncs := 0,
    func_name := "", labels := [], nlabels := 0, out := [] }

/-- Ways in which a run of the parser fails to return: `err` is the C `err()`
(which aborts the process), `ub` an access outside an object, `fuel` a
computation that has not finished within the step bound it was given. -/
inductive Err where
  | err (msg : String)
  | ub (msg : String)
  | fuel
deriving DecidableEq, Repr

/-- Result of running a parser action. -/
abbrev Res (α : Type) := Except Err (α × State)

/-- Equality of results is decidable. -/
instance {α : Type} [DecidableEq α] : DecidableEq (Res α)
  | .ok a, .ok b => if h : a = b then isTrue (by rw [h]) else isFalse (fun h1 => h (by cases h1; rfl))
  | .error a, .error b =>
    if h : a = b then isTrue (by rw [h]) else isFalse (fun h1 => h (by cases h1; rfl))
  | .ok _, .error _ => isFalse (fun h => by cases h)
  | .error _, .ok _ => isFalse (fun h => by cases h)

/-- A parser action: a C function that reads and writes the file-scope state. -/
def P (α : Type) : Type := State → Res α

/-- Return without touching the state. -/
def P.pure {α : Type} (a : α) : P α := fun s => .ok (a, s)

/-- Sequencing; an error aborts. -/
def P.bind {α β : Type} (m : P α) (f : α → P β) : P β := fun s =>
  match m s with
  | .ok (a, s1) => f a s1
  | .error e => .error e

instance : Monad P where
  pure := P.pure
  bind := P.bind

/-- The C `err(msg)`: abort with a message. -/
def err {α : Type} (msg : String) : P α := fun _ => .error (Err.err msg)

/-- Abort on undefined behaviour. -/
def ub {α : Type} (msg : String) : P α := fun _ => .error (Err.ub msg)

/-- Abort because the step bound is exhausted. -/
def outOfFuel {α : Type} : P α := fun _ => .error Err.fuel

/-- Read the state. -/
def getS : P State := fun s => .ok (s, s)

/-- Update the state. -/
def modS (f : State → State) : P Unit := fun s => .ok ((), f s)

/-- A C loop: run `body` until it answers `false` (the loop was left), at most
`fuel` times. -/
def loop (body : P Bool) : Nat → P Unit
  | 0 => outOfFuel
  | k + 1 => P.bind body (fun again => if again then loop body k else P.pure ())

/-! ## Code generator calls -/

/-- Hand a call to the code generator (a function of `gen.h` that `ncc.c`
does not wrap in a `nogen` macro). -/
def emit (c : Call) : P Unit := modS fun s => { s with out := s.out ++ [c] }

/-- The macros `#define o_x(...) {if (!nogen) o_x(...);}`: the call is made
only while `nogen` is zero. -/
def gen (c : Call) : P Unit := fun s => if s.nogen = 0 then emit c s else .ok ((), s)

/-- The macro `o_bop(op)`; `sg` is the `O_SIGNED` bit of the operator code. -/
def o_bop (op : Op) (sg : Bool) : P Unit := gen (.bop op sg)
/-- The macro `o_uop(op)`. -/
def o_uop (op : Op) : P Unit := gen (.uop op)
/-- The macro `o_cast(bt)`. -/
def o_cast (bt : Nat) : P Unit := gen (.cast bt)
/-- The macro `o_memcpy()`. -/
def o_memcpy : P Unit := gen .memcpy
/-- The macro `o_memset()`. -/
def o_memset : P Unit := gen .memset
/-- The macro `o_call(argc, ret)`. -/
def o_call (argc : Int) (ret : Nat) : P Unit := gen (.call argc ret)
/-- The macro `o_ret(ret)`. -/
def o_ret (ret : Int) : P Unit := gen (.ret ret)
/-- The macro `o_assign(bt)`. -/
def o_assign (bt : Nat) : P Unit := gen (.assign bt)
/-- The macro `o_deref(bt)`. -/
def o_deref (bt : Nat) : P Unit := gen (.deref bt)
/-- The macro `o_load()`. -/
def o_load : P Unit := gen .load
/-- The macro `o_num(n)`. -/
def o_num (n : Int) : P Unit := gen (.num n)
/-- The macro `o_local(addr)`. -/
def o_local (addr : Int) : P Unit := gen (.local_ addr)
/-- The macro `o_sym(sym)`. -/
def o_sym (sym : String) : P Unit := gen (.sym sym)
/-- The macro `o_tmpdrop(n)`. -/
def o_tmpdrop (n : Int) : P Unit := gen (.tmpdrop n)
/-- The macro `o_tmpswap()`. -/
def o_tmpswap : P Unit := gen .tmpswap
/-- The macro `o_tmpcopy()`. -/
def o_tmpcopy : P Unit := gen .tmpcopy
/-- The macro `o_label(id)`. -/
def o_label (id : Int) : P Unit := gen (.label id)
/-- The macro `o_jz(id)`. -/
def o_jz (id : Int) : P Unit := gen (.jz id)
/-- The macro `o_jnz(id)`. -/
def o_jnz (id : Int) : P Unit := gen (.jnz id)
/-- The macro `o_jmp(id)`. -/
def o_jmp (id : Int) : P Unit := gen (.jmp id)
/-- The macro `o_fork()`. -/
def o_fork : P Unit := gen .fork
/-- The macro `o_forkpush()`. -/
def o_forkpush : P Unit := gen .forkpush
/-- The macro `o_forkjoin()`. -/
def o_forkjoin : P Unit := gen .forkjoin

/-- The macro `o_popnum(c)`: `(nogen ? 0 : o_popnum(c))`.  The argument is the
value the variable `c` holds before the call, the result is the return value
and the value of `c` afterwards. -/
def o_popnum (e : Env) (c : Int) : P (Int × Int) := fun s =>
  if s.nogen ≠ 0 then .ok ((0, c), s)
  else match e.popnum s.out with
    | some n => .ok ((0, n), { s with out := s.out ++ [Call.popnum] })
    | none => .ok ((1, c), { s with out := s.out ++ [Call.popnum] })

/-- The generator function `o_mklocal(sz)`. -/
def o_mklocal (e : Env) (sz : Int) : P Int := fun s =>
  .ok (e.mklocal s.out sz, { s with out := s.out ++ [Call.mklocal sz] })

/-- The generator function `o_arg2loc(i)`. -/
def o_arg2loc (e : Env) (i : Int) : P Int := fun s =>
  .ok (e.arg2loc s.out i, { s with out := s.out ++ [Call.arg2loc i] })

/-- The generator function `o_dsnew(name, size, global)`. -/
def o_dsnew (e : Env) (nm : String) (sz : Int) (glob : Int) : P Int := fun s =>
  .ok (e.dsnew s.out nm sz glob, { s with out := s.out ++ [Call.dsnew nm sz glob] })

/-! ## Tokenizer -/

/-- Modelled from the spec: the token at the cursor (the tokenizer, `tok.c`, is
not under src/); past the end of the input it is the end-of-file token. -/
def curTok (s : State) : Token :=
  s.toks.getD s.pos { kind := Tok.EOF, id := "", num := 0, bt := 0, str := [] }

/-- Modelled from the spec: reading a token makes its payload what `tok_id`,
`tok_num` and `tok_str` report (the tokenizer is not under src/). -/
def tokLoad (s : State) : State :=
  { s with
    tokid := if (curTok s).kind = Tok.NAME then (curTok s).id else s.tokid,
    toknum := if (curTok s).kind = Tok.NUM then (curTok s).num else s.toknum,
    tokbt := if (curTok s).kind = Tok.NUM then (curTok s).bt else s.tokbt,
    tokstr := if (curTok s).kind = Tok.STR then (curTok s).str else s.tokstr }

/-- Modelled from the spec: `tok_see()`, "peek current kind" (not under src/). -/
def tok_see : P Tok := fun s => .ok ((curTok s).kind, tokLoad s)

/-- Modelled from the spec: the state after the token at the cursor has been
consumed (the tokenizer is not under src/). -/
def advance (s : State) : State := { tokLoad s with pos := s.pos + 1 }

/-- Modelled from the spec: `tok_get()`, "consume" (not under src/); at the end
of the input it keeps returning the end-of-file token. -/
def tok_get : P Tok := fun s =>
  .ok ((curTok s).kind, if (curTok s).kind = Tok.EOF then s else advance s)

/-- Modelled from the spec: `tok_addr()`, "save logical cursor" (not under src/). -/
def tok_addr : P Nat := fun s => .ok (s.pos, s)

/-- Modelled from the spec: `tok_jump(a)`, "restore logical cursor" (not under src/). -/
def tok_jump (a : Nat) : P Unit := modS fun s => { s with pos := a }

/-- Modelled from the spec: `tok_id()`, the identifier of the last name token
read (not under src/). -/
def tok_id : P String := fun s => .ok (s.tokid, s)

/-- Modelled from the spec: `tok_num(&n)`, "returns the integer and its base
type" (not under src/); the result is the pair of return value and `n`. -/
def tok_num : P (Nat × Int) := fun s => .ok ((s.tokbt, s.toknum), s)

/-- Modelled from the spec: `tok_str(&buf, &len)`, "returns literal bytes" (not
under src/). -/
def tok_str : P (List Nat × Int) := fun s => .ok ((s.tokstr, (s.tokstr.length : Int)), s)

/-- The function `tok_jmp`. -/
def tok_jmp (tok : Tok) : P Int := do
  if (← tok_see) ≠ tok then
    pure 1
  else
    let _ ← tok_get
    pure 0

/-- The function `tok_expect`. -/
def tok_expect (tok : Tok) : P Unit := do
  if (← tok_get) ≠ tok then
    err "syntax error\n"
  else
    pure ()

/-! ## Type model -/

/-- The macro `TYPE_BT(t)`. -/
def TYPE_BT (e : Env) (t : type) : Nat := if t.ptr ≠ 0 then e.LONGSZ else t.bt

/-- The macro `TYPE_SZ(t)`. -/
def TYPE_SZ (e : Env) (t : type) : Nat := if t.ptr ≠ 0 then e.LONGSZ else t.bt &&& BT_SZMASK

/-- The macro `TYPE_VOID(t)`. -/
def TYPE_VOID (t : type) : Bool := t.bt = 0 ∧ t.flags = 0 ∧ t.ptr = 0

/-- The function `array2ptr`, on a copy of the array table. -/
def array2ptr (arrays : List array) (t : type) : type :=
  if t.flags &&& T_ARRAY ≠ 0 ∧ t.ptr = 0 then
    { (arrays.getD t.id array.zero).type with ptr := (arrays.getD t.id array.zero).type.ptr + 1 }
  else t

/-- The function `type_totsz` with a bound on the depth of the recursion.  The
function returns `int` and `arrays[t->id].n * type_totsz(...)` is a product of two
`int`s: it is taken in 32 bits, two's complement. -/
def type_totsz_aux (arrays : List array) (structs : List structinfo) (L : Nat) :
    Nat → type → Option Int
  | 0, _ => none
  | k + 1, t =>
    if t.ptr ≠ 0 then some (L : Int)
    else if t.flags &&& T_ARRAY ≠ 0 then
      match type_totsz_aux arrays structs L k (arrays.getD t.id array.zero).type with
      | some z => some (toInt32 (toUnsigned ((arrays.getD t.id array.zero).n * z)))
      | none => none
    else
      some (if t.flags &&& T_STRUCT ≠ 0 then (structs.getD t.id structinfo.zero).size
            else ((BT_SZ t.bt : Nat) : Int))

/-- The function `type_totsz` on a given state; `none` when the recursion through
the array table does not end (a cyclic chain of array descriptors). -/
def totsz (e : Env) (s : State) (t : type) : Option Int :=
  type_totsz_aux s.arrays s.structs e.LONGSZ (s.arrays.length + 2) t

/-- The function `type_totsz`. -/
def type_totsz (e : Env) (t : type) : P Int := fun s =>
  match totsz e s t with
  | some z => .ok (z, s)
  | none => .error Err.fuel

/-- The function `type_szde` on a given state (its result is `unsigned`). -/
def szde (e : Env) (s : State) (t : type) : Option Nat :=
  match totsz e s { array2ptr s.arrays t with ptr := (array2ptr s.arrays t).ptr - 1 } with
  | some z => some (toUnsigned z)
  | none => none

/-- The function `type_szde`. -/
def type_szde (e : Env) (t : type) : P Nat := fun s =>
  match szde e s t with
  | some z => .ok (z, s)
  | none => .error Err.fuel

/-- The function `type_alignment` with a bound on the depth of the recursion. -/
def type_alignment_aux (arrays : List array) (structs : List structinfo) (L : Nat) :
    Nat → type → Option Int
  | 0, _ => none
  | k + 1, t =>
    if t.flags &&& T_ARRAY ≠ 0 ∧ t.ptr = 0 then
      type_alignment_aux arrays structs L k (arrays.getD t.id array.zero).type
    else if t.flags &&& T_STRUCT ≠ 0 ∧ t.ptr = 0 then
      type_alignment_aux arrays structs L k
        ((structs.getD t.id structinfo.zero).fields.getD 0 name.zero).type
    else
      match type_totsz_aux arrays structs L (arrays.length + 2) t with
      | some z => some (MIN (L : Int) z)
      | none => none

/-- The function `type_alignment` on a given state. -/
def alignment (e : Env) (s : State) (t : type) : Option Int :=
  type_alignment_aux s.arrays s.structs e.LONGSZ (s.arrays.length + s.structs.length + 2) t

/-- The function `type_alignment`. -/
def type_alignment (e : Env) (t : type) : P Int := fun s =>
  match alignment e s t with
  | some z => .ok (z, s)
  | none => .error Err.fuel

/-- The function `bt_op`. -/
def bt_op (bt1 bt2 : Nat) : Nat :=
  ((bt1 ||| bt2) &&& BT_SIGNED) ||| MAXn (MAXn (BT_SZ bt1) (BT_SZ bt2)) 4

/-- The function `bt_uop`. -/
def bt_uop (bt : Nat) : Nat := bt_op bt 4

/-! ## Type stack -/

/-- The function `ts_push_bt`: the slot's `id` member is not written. -/
def ts_push_bt (e : Env) (bt : Nat) : P Unit := do
  modS fun s =>
    { s with
      ts := tset type.zero s.ts s.nts
        { (s.ts.getD s.nts type.zero) with ptr := 0, flags := 0, addr := 0, bt := bt },
      nts := s.nts + 1 }
  if e.NCCWORDCAST then o_cast bt else pure ()

/-- The function `ts_push`. -/
def ts_push (t : type) : P Unit :=
  modS fun s => { s with ts := tset type.zero s.ts s.nts t, nts := s.nts + 1 }

/-- The function `ts_push_addr`. -/
def ts_push_addr (t : type) : P Unit := ts_push { t with addr := 1 }

/-- The function `ts_pop`; the result is the entry popped (what `*type` receives).
Popping the empty stack is treated as undefined behaviour. -/
def ts_pop : P type := fun s =>
  if s.nts = 0 then .error (Err.ub "ts_pop: empty type stack")
  else .ok (s.ts.getD (s.nts - 1) type.zero, { s with nts := s.nts - 1 })

/-- The function `ts_de`.  On an empty stack `t` is `&ts[-1]`, in front of the array:
with `deref = 0` the call only writes that slot, which is not part of the state kept
here, so it changes nothing; with `deref != 0` what it does depends on what that slot
holds, and it is treated as undefined behaviour. -/
def ts_de (e : Env) (deref : Int) : P Unit := do
  let s ← getS
  if s.nts = 0 then
    if deref = 0 then pure () else ub "ts_de: empty type stack"
  else
    let t := array2ptr s.arrays (s.ts.getD (s.nts - 1) type.zero)
    modS fun s => { s with ts := tset type.zero s.ts (s.nts - 1) t }
    if deref ≠ 0 ∧ t.addr ≠ 0 ∧ (t.ptr ≠ 0 ∨ t.flags &&& T_FUNC = 0) then
      o_deref (TYPE_BT e t)
    else pure ()
    modS fun s => { s with ts := tset type.zero s.ts (s.nts - 1) { t with addr := 0 } }

/-- The function `ts_pop_de`. -/
def ts_pop_de (e : Env) : P type := do
  ts_de e 1
  ts_pop

/-- The function `ts_pop_de2`; the result is the pair `(t1, t2)`. -/
def ts_pop_de2 (e : Env) : P (type × type) := do
  let t1 ← ts_pop_de e
  o_tmpswap
  let t2 ← ts_pop_de e
  o_tmpswap
  pure (t1, t2)

/-- The function `ts_binop`. -/
def ts_binop (e : Env) (op : Op) : P Unit := do
  let (t1, t2) ← ts_pop_de2 e
  let bt1 := TYPE_BT e t1
  let bt2 := TYPE_BT e t2
  let bt := bt_op bt1 bt2
  let bt := if op = Op.DIV ∨ op = Op.MOD then BT (bt2 &&& BT_SIGNED) bt else bt
  o_bop op (bt &&& BT_SIGNED ≠ 0)
  ts_push_bt e bt

/-- The function `ts_addop`. -/
def ts_addop (e : Env) (op : Op) : P Unit := do
  let (t1, t2) ← ts_pop_de2 e
  if t1.ptr = 0 ∧ t2.ptr = 0 then
    o_bop op false
    ts_push_bt e (bt_op (TYPE_BT e t1) (TYPE_BT e t2))
  else
    if t1.ptr ≠ 0 ∧ t2.ptr = 0 then o_tmpswap else pure ()
    if t1.ptr = 0 ∧ t2.ptr ≠ 0 then
      if (← type_szde e t2) > 1 then
        o_num ((← type_szde e t2) : Nat)
        o_bop Op.MUL false
      else pure ()
    else pure ()
    if t1.ptr ≠ 0 ∧ t2.ptr = 0 then o_tmpswap else pure ()
    o_bop op false
    if t1.ptr ≠ 0 ∧ t2.ptr ≠ 0 then
      let sz := toInt32 (← type_szde e t1)
      if sz > 1 then
        o_num sz
        o_bop Op.DIV false
      else pure ()
      ts_push_bt e (e.LONGSZ ||| BT_SIGNED)
    else
      ts_push (if t1.ptr ≠ 0 then t1 else t2)

/-! ## Struct and union layout -/

/-- Write the member `size` of the descriptor `structs[id]`. -/
def setStructSize (id : Nat) (size : Int) (s : State) : State :=
  { s with
    structs := tset structinfo.zero s.structs id
      { (s.structs.getD id structinfo.zero) with size := size } }

/-- Store `nm` in `fields[nfields++]` of the descriptor `structs[id]`. -/
def addField (id : Nat) (nm : name) (s : State) : State :=
  { s with
    structs := tset structinfo.zero s.structs id
      { (s.structs.getD id structinfo.zero) with
        fields := (s.structs.getD id structinfo.zero).fields ++ [nm] } }

/-- The function `structdef`; `id` is the index of the descriptor `data` points to. -/
def structdef (e : Env) (id : Nat) (nm : name) (flags : Nat) : P Unit := do
  let s ← getS
  if (s.structs.getD id structinfo.zero).isunion ≠ 0 then
    let sz ← type_totsz e nm.type
    if (s.structs.getD id structinfo.zero).size < sz then
      modS (setStructSize id sz)
    else pure ()
    modS (addField id { nm with addr := 0 })
  else
    let t := nm.type
    let al ← type_alignment e t
    let al ←
      if t.flags &&& T_ARRAY ≠ 0 ∧ t.ptr = 0 then do
        let z ← type_totsz e (s.arrays.getD t.id array.zero).type
        pure (MIN (e.LONGSZ : Int) z)
      else pure al
    let size := ALIGN (s.structs.getD id structinfo.zero).size al
    modS (setStructSize id size)
    let sz ← type_totsz e nm.type
    modS (setStructSize id (size + sz))
    modS (addField id { nm with addr := size })

/-! ## Symbol tables -/

/-- The function `local_add`. -/
def local_add (e : Env) (nm : name) : P Unit := do
  let s ← getS
  if s.nlocals ≥ e.NLOCALS then err "nomem: NLOCALS reached!\n"
  else
    modS fun s => { s with locals := tset name.zero s.locals s.nlocals nm,
                           nlocals := s.nlocals + 1 }

/-- The loop of `local_find` and `global_find`: the largest index below `n` whose
entry is called `nm`, or -1. -/
def name_find (tbl : List name) (nm : String) : Nat → Int
  | 0 => -1
  | i + 1 => if (tbl.getD i name.zero).name = nm then (i : Int) else name_find tbl nm i

/-- The function `local_find`. -/
def local_find (nm : String) : P Int := fun s => .ok (name_find s.locals nm s.nlocals, s)

/-- The function `global_find`. -/
def global_find (nm : String) : P Int := fun s => .ok (name_find s.globals nm s.nglobals, s)

/-- The function `global_add`. -/
def global_add (e : Env) (nm : name) : P Unit := do
  let s ← getS
  if s.nglobals ≥ e.NGLOBALS then err "nomem: NGLOBALS reached!\n"
  else
    modS fun s => { s with globals := tset name.zero s.globals s.nglobals nm,
                           nglobals := s.nglobals + 1 }

/-- The macro `LABEL()`: `(++label)`. -/
def LABEL : P Int := fun s => .ok (s.label + 1, { s with label := s.label + 1 })

/-- The function `enum_add`: the counter is incremented before it is checked.  The
parameter is `int val`: the argument is converted to `int` (32 bits). -/
def enum_add (e : Env) (nm : String) (val : Int) : P Unit := do
  let s ← getS
  modS fun s => { s with nenums := s.nenums + 1 }
  if s.nenums + 1 ≥ e.NENUMS then err "nomem: NENUMS reached!\n"
  else
    modS fun s1 =>
      { s1 with
        enums := tset enumval.zero s1.enums s.nenums { name := nm, n := toInt32 (toUnsigned val) } }

/-- The loop of `enum_find`. -/
def enum_find_aux (tbl : List enumval) (nm : String) : Nat → Option Int
  | 0 => none
  | i + 1 =>
    if nm = (tbl.getD i enumval.zero).name then some (tbl.getD i enumval.zero).n
    else enum_find_aux tbl nm i

/-- The function `enum_find`; `some n` stands for the return value 0 with `*val = n`,
`none` for the return value 1. -/
def enum_find (nm : String) : P (Option Int) := fun s =>
  .ok (enum_find_aux s.enums nm s.nenums, s)

/-- The function `typedef_add`: the counter is incremented before it is checked. -/
def typedef_add (e : Env) (nm : String) (t : type) : P Unit := do
  let s ← getS
  modS fun s => { s with ntypedefs := s.ntypedefs + 1 }
  if s.ntypedefs + 1 ≥ e.NTYPEDEFS then err "nomem: NTYPEDEFS reached!\n"
  else
    modS fun s1 =>
      { s1 with
        typedefs := tset typdefinfo.zero s1.typedefs s.ntypedefs { name := nm, type := t } }

/-- The loop of `typedef_find`. -/
def typedef_find_aux (tbl : List typdefinfo) (nm : String) : Nat → Int
  | 0 => -1
  | i + 1 =>
    if nm = (tbl.getD i typdefinfo.zero).name then (i : Int) else typedef_find_aux tbl nm i

/-- The function `typedef_find`. -/
def typedef_find (nm : String) : P Int := fun s =>
  .ok (typedef_find_aux s.typedefs nm s.ntypedefs, s)

/-- The function `array_add`: the counter is incremented before it is checked.  The
parameter is `int n`: the argument is converted to `int` (32 bits). -/
def array_add (e : Env) (t : type) (n : Int) : P Nat := do
  let s ← getS
  modS fun s => { s with narrays := s.narrays + 1 }
  if s.narrays + 1 ≥ e.NARRAYS then err "nomem: NARRAYS reached!\n"
  else
    modS fun s1 =>
      { s1 with
        arrays := tset array.zero s1.arrays s.narrays { type := t, n := toInt32 (toUnsigned n) } }
    pure s.narrays

/-- The search loop of `struct_find`. -/
def struct_find_aux (tbl : List structinfo) (nm : String) (isunion : Int) : Nat → Option Nat
  | 0 => none
  | i + 1 =>
    if (tbl.getD i structinfo.zero).name ≠ "" ∧ nm = (tbl.getD i structinfo.zero).name ∧
        (tbl.getD i structinfo.zero).isunion = isunion then some i
    else struct_find_aux tbl nm isunion i

/-- The function `struct_find`. -/
def struct_find (e : Env) (nm : String) (isunion : Int) : P Nat := do
  let s ← getS
  match struct_find_aux s.structs nm isunion s.nstructs with
  | some i => pure i
  | none =>
    modS fun s => { s with nstructs := s.nstructs + 1 }
    if s.nstructs + 1 ≥ e.NSTRUCTS then err "nomem: NSTRUCTS reached!\n"
    else
      modS fun s1 =>
        { s1 with
          structs := tset structinfo.zero s1.structs s.nstructs
            { structinfo.zero with name := nm, isunion := isunion } }
      pure s.nstructs

/-- The search loop of `struct_field`. -/
def struct_field_aux (nm : String) : List name → Option name
  | [] => none
  | f :: r => if nm = f.name then some f else struct_field_aux nm r

/-- The function `struct_field`; the result is the member found. -/
def struct_field (id : Nat) (nm : String) : P name := do
  let s ← getS
  match struct_field_aux nm (s.structs.getD id structinfo.zero).fields with
  | some f => pure f
  | none => err "field not found\n"

/-- The function `func_create`: the counter is incremented before it is checked. -/
def func_create (e : Env) (ret : type) (nm : String) (argnames : List String)
    (args : List type) (nargs : Nat) (varg : Int) : P Nat := do
  let s ← getS
  modS fun s => { s with nfuncs := s.nfuncs + 1 }
  if s.nfuncs + 1 ≥ e.NFUNCS then err "nomem: NFUNCS reached!\n"
  else
    modS fun s1 =>
      { s1 with
        funcs := tset funcinfo.zero s1.funcs s.nfuncs
          { args := args.take nargs, ret := ret, nargs := nargs, varg := varg,
            argnames := argnames.take nargs, name := nm } }
    pure s.nfuncs

/-- The function `krdef`; `fid` is the index of the descriptor `data` points to. -/
def krdef (fid : Nat) (nm : name) (flags : Nat) : P Unit :=
  modS fun s =>
    { s with
      funcs := tset funcinfo.zero s.funcs fid
        { (s.funcs.getD fid funcinfo.zero) with
          args := List.zipWith (fun (t : type) (an : String) => if an = nm.name then nm.type else t)
            (s.funcs.getD fid funcinfo.zero).args (s.funcs.getD fid funcinfo.zero).argnames } }

/-- The function `tmp_str`; `tmpid` is its static variable `id`. -/
def tmp_str (e : Env) (buf : List Nat) (len : Int) : P String := do
  let s ← getS
  modS fun s => { s with tmpid := s.tmpid + 1 }
  let a ← o_dsnew e ("__neatcc.s" ++ toString s.tmpid) len 0
  emit (Call.dscpy a buf len)
  pure ("__neatcc.s" ++ toString s.tmpid)

/-- The statement `o_sym(tmp_str(buf, len))`.  `o_sym` is the macro
`{if (!nogen) o_sym(sym);}`: its argument `tmp_str(buf, len)` is evaluated, and the
call made, only while `nogen` is zero. -/
def o_sym_tmp_str (e : Env) (buf : List Nat) (len : Int) : P Unit := do
  let s ← getS
  if s.nogen = 0 then
    let nm ← tmp_str e buf len
    emit (Call.sym nm)
  else pure ()

/-- The function `label_id`; `labels[i]` is the pair `(label_name[i], label_ids[i])`. -/
def label_find (tbl : List (String × Int)) (nm : String) : Nat → Option Int
  | 0 => none
  | i + 1 =>
    if (tbl.getD i ("", 0)).1 = nm then some (tbl.getD i ("", 0)).2 else label_find tbl nm i

/-- The function `label_id`. -/
def label_id (nm : String) : P Int := do
  let s ← getS
  match label_find s.labels nm s.nlabels with
  | some id => pure id
  | none =>
    let id ← LABEL
    modS fun s => { s with labels := tset ("", 0) s.labels s.nlabels (nm, id),
                           nlabels := s.nlabels + 1 }
    pure id

/-- The statement `o_jmp(label_id(tok_id()))`.  `o_jmp` is the macro
`{if (!nogen) o_jmp(id);}`: its argument `label_id(tok_id())` is evaluated, and the
call made, only while `nogen` is zero. -/
def o_jmp_label_id : P Unit := do
  let s ← getS
  if s.nogen = 0 then
    let id ← label_id (← tok_id)
    emit (Call.jmp id)
  else pure ()

/-- The statement `o_label(label_id(tok_id()))`.  `o_label` is the macro
`{if (!nogen) o_label(id);}`: its argument `label_id(tok_id())` is evaluated, and the
call made, only while `nogen` is zero. -/
def o_label_label_id : P Unit := do
  let s ← getS
  if s.nogen = 0 then
    let id ← label_id (← tok_id)
    emit (Call.label id)
  else pure ()
/-! ## The recursive structure of the parser

The functions of the parser call each other recursively.  Each function below
takes a record `r : Rec` with the functions it reaches through a forward
declaration (or calls recursively); `recN` at the end ties the knot with a bound
on the depth of these calls.  Loops run through `iter` with the bound `r.fuel`. -/

/-- A C loop with loop-carried variables `σ`: run `body` until it answers `false`
(the loop was left), at most `fuel` times. -/
def iter {σ : Type} (body : σ → P (σ × Bool)) : Nat → σ → P σ
  | 0, _ => outOfFuel
  | k + 1, x => P.bind (body x) (fun r => if r.2 then iter body k r.1 else P.pure r.1)

/-- The callbacks `readdefs` is called with, each with its `data` argument. -/
inductive DefCb where
  | structdef (id : Nat)
  | localdef
  | typedefdef
  | krdef (fid : Nat)
  | globaldef
deriving DecidableEq, Repr

/-- The callbacks `initexpr` is called with, each with its `obj` argument:
`globalinit` with the `struct name` of the variable, `localinit` with its stack
address. -/
inductive InitCb where
  | globalinit (nm : name)
  | localinit (addr : Int)
deriving DecidableEq, Repr

/-- The functions reached through recursion. -/
structure Rec where
  fuel : Nat
  readexpr : P Unit
  readpre : P Unit
  readcexpr : P Unit
  readname : Bool → Option type → P (Int × type × String)
  readdefs : DefCb → P Int
  initexpr : type → Int → InitCb → P Unit
  readstmt : P Unit
  readfunc : name → Nat → P Unit

/-- The function `enum_create`. -/
def enum_create (e : Env) (r : Rec) : P Unit := do
  tok_expect Tok.lbrace
  let _ ← iter (fun (n : Int) => do
    if (← tok_jmp Tok.rbrace) = 0 then pure (n, false)
    else
      tok_expect Tok.NAME
      let nm ← tok_id
      let n ←
        if (← tok_jmp Tok.assign) = 0 then do
          r.readexpr
          let _ ← ts_pop_de e
          let c ← o_popnum e n
          if c.1 ≠ 0 then err "const expr expected!\n" else pure c.2
        else pure n
      enum_add e nm n
      let _ ← tok_jmp Tok.comma
      pure (n + 1, true)) r.fuel 0
  pure ()

/-- The function `struct_create`. -/
def struct_create (e : Env) (r : Rec) (nm : String) (isunion : Int) : P Nat := do
  let id ← struct_find e nm isunion
  tok_expect Tok.lbrace
  loop (do
    if (← tok_jmp Tok.rbrace) = 0 then pure false
    else
      let _ ← r.readdefs (DefCb.structdef id)
      tok_expect Tok.semi
      pure true) r.fuel
  pure id

/-- The local variables of `basetype` that its loop carries, and its result once it
has returned from inside the loop. -/
structure BaseVars where
  sign : Int
  size : Nat
  i : Int
  flags : Nat
  t : type
  ret : Option Int

/-- One pass through the `while (!done)` loop of `basetype`. -/
def basetype_step (e : Env) (r : Rec) (v : BaseVars) : P (BaseVars × Bool) := do
  let advance (v : BaseVars) (done : Bool) : P (BaseVars × Bool) := do
    let _ ← tok_get
    pure ({ v with i := v.i + 1 }, !done)
  match (← tok_see) with
  | Tok.STATIC => advance { v with flags := v.flags ||| F_STATIC } false
  | Tok.EXTERN => advance { v with flags := v.flags ||| F_EXTERN } false
  | Tok.VOID => advance { v with sign := 0, size := 0 } true
  | Tok.INT => advance v true
  | Tok.CHAR => advance { v with size := 1 } true
  | Tok.SHORT => advance { v with size := 2 } false
  | Tok.LONG => advance { v with size := e.LONGSZ } false
  | Tok.SIGNED => advance v false
  | Tok.UNSIGNED => advance { v with sign := 0 } false
  | Tok.UNION | Tok.STRUCT =>
    let isunion : Int := if (← tok_get) = Tok.UNION then 1 else 0
    let nm ← if (← tok_jmp Tok.NAME) = 0 then tok_id else pure ""
    let id ← if (← tok_see) = Tok.lbrace then struct_create e r nm isunion
             else struct_find e nm isunion
    pure ({ v with t := { v.t with id := id, flags := v.t.flags ||| T_STRUCT, bt := e.LONGSZ },
                   ret := some 0 }, false)
  | Tok.ENUM =>
    let _ ← tok_get
    let _ ← tok_jmp Tok.NAME
    if (← tok_see) = Tok.lbrace then enum_create e r else pure ()
    pure ({ v with t := { v.t with bt := 4 ||| BT_SIGNED }, ret := some 0 }, false)
  | _ =>
    let td ← if (← tok_see) = Tok.NAME then typedef_find (← tok_id) else pure (-1)
    if td ≠ -1 then
      let _ ← tok_get
      let s ← getS
      pure ({ v with t := (s.typedefs.getD td.toNat typdefinfo.zero).type, ret := some 0 }, false)
    else if v.i = 0 then pure ({ v with ret := some 1 }, false)
    else pure (v, false)

/-- The function `basetype`; `t0` is what `*type` holds on entry, the result is the
return value, `*type` and `*flags`. -/
def basetype (e : Env) (r : Rec) (t0 : type) : P (Int × type × Nat) := do
  let v ← iter (basetype_step e r) r.fuel
    { sign := 1, size := 4, i := 0, flags := 0,
      t := { t0 with flags := 0, ptr := 0, addr := 0 }, ret := none }
  match v.ret with
  | some rc => pure (rc, v.t, v.flags)
  | none =>
    pure (0, { v.t with bt := v.size ||| (if v.sign ≠ 0 then BT_SIGNED else 0) }, v.flags)

/-- The function `readptrs`. -/
def readptrs (r : Rec) (t : type) : P type :=
  iter (fun (t : type) => do
    if (← tok_jmp Tok.star) = 0 then
      pure ({ t with ptr := t.ptr + 1, bt := if t.bt = 0 then 1 else t.bt }, true)
    else pure (t, false)) r.fuel t

/-- The function `readarrays`; the result is the new `*type` and, for the pointer it
returns, the index of the array descriptor whose element type it points to. -/
def readarrays (e : Env) (r : Rec) (t : type) : P (type × Option Nat) := do
  let arsz ← iter (fun (arsz : List Int) => do
    if (← tok_jmp Tok.lbrack) = 0 then
      let n ←
        if (← tok_jmp Tok.rbrack) ≠ 0 then do
          r.readexpr
          let _ ← ts_pop_de e
          let c ← o_popnum e 0
          if c.1 ≠ 0 then err "const expr expected\n"
          else
            tok_expect Tok.rbrack
            pure c.2
        else pure 0
      pure (arsz ++ [n], true)
    else pure (arsz, false)) r.fuel []
  arsz.reverse.foldlM (fun (acc : type × Option Nat) (n : Int) => do
    let id ← array_add e acc.1 n
    pure ({ acc.1 with id := id, flags := T_ARRAY, bt := e.LONGSZ, ptr := 0 },
      match acc.2 with
      | none => some id
      | some k => some k)) (t, none)

/-- The function `readargs`; the result is the return value, the arrays `args` and
`argnames` as far as they were filled, and `*varg`. -/
def readargs (e : Env) (r : Rec) : P (Nat × List type × List String × Int) := do
  tok_expect Tok.lparen
  let v ← iter (fun (v : List type × List String × Int) => do
    if (← tok_see) = Tok.rparen then pure (v, false)
    else if (← tok_jmp Tok.ellipsis) = 0 then pure ((v.1, v.2.1, 1), false)
    else
      let a ← r.readname true none
      let a ←
        if a.1 ≠ 0 then do
          tok_expect Tok.NAME
          pure ({ type.zero with bt := 4 ||| BT_SIGNED }, ← tok_id)
        else pure (a.2.1, a.2.2)
      let s ← getS
      let v1 := (v.1 ++ [array2ptr s.arrays a.1], v.2.1 ++ [a.2], v.2.2)
      if (← tok_jmp Tok.comma) ≠ 0 then pure (v1, false) else pure (v1, true)) r.fuel ([], [], 0)
  tok_expect Tok.rparen
  if v.1.length = 1 ∧ TYPE_BT e (v.1.getD 0 type.zero) = 0 then pure (0, v.1, v.2.1, v.2.2)
  else pure (v.1.length, v.1, v.2.1, v.2.2)

/-- Write through the pointer `ptype` of `readname`: it points either to the slot
`type` points to (`none`) or to the element type of `arrays[id]` (`some id`). -/
def setFuncType (e : Env) (cur : type) (loc : Option Nat) (fid : Nat) : P type :=
  match loc with
  | none => pure { cur with flags := T_FUNC, bt := e.LONGSZ, id := fid }
  | some k => do
    modS fun s =>
      { s with
        arrays := tset array.zero s.arrays k
          { (s.arrays.getD k array.zero) with
            type := { (s.arrays.getD k array.zero).type with
                      flags := T_FUNC, bt := e.LONGSZ, id := fid } } }
    pure cur

/-- The function `readname`.  `hasName` says whether `name` is not `NULL`, `base` is
`*base` when `base` is not `NULL`; the result is the return value, `*main` and the
string `name`.  The slot `tpool[0]` is never written once `type` has moved on, so
`btype` is kept as a value; `ptype` is `none` for `NULL`, `some none` when it points
to the slot `type` points to, and `some (some k)` when it points into `arrays[k]`. -/
def readname (e : Env) (r : Rec) (hasName : Bool) (base : Option type) :
    P (Int × type × String) := do
  let b ← match base with
    | none => basetype e r type.zero
    | some t => pure (0, t, 0)
  if b.1 ≠ 0 then pure (1, type.zero, "")
  else
    let t0 ← readptrs r b.2.1
    let paren ← tok_jmp Tok.lparen
    let cur ← if paren = 0 then readptrs r type.zero else pure t0
    let ptype : Option (Option Nat) := if paren = 0 then some none else none
    let nm ← if (← tok_jmp Tok.NAME) = 0 ∧ hasName then tok_id else pure ""
    let ar ← readarrays e r cur
    let cur := ar.1
    let ptype : Option (Option Nat) :=
      match ptype, ar.2 with
      | some _, some k => some (some k)
      | p, _ => p
    if ptype.isSome then tok_expect Tok.rparen else pure ()
    if (← tok_see) = Tok.lparen then
      let a ← readargs e r
      let btype := if ptype.isSome then t0 else cur
      let cur := if ptype.isSome then cur else type.zero
      let loc : Option Nat := match ptype with
        | some l => l
        | none => none
      let fid ← func_create e btype nm a.2.2.1 a.2.1 a.1 a.2.2.2
      let cur ← setFuncType e cur loc fid
      if (← tok_see) ≠ Tok.semi then
        loop (do
          if (← tok_see) = Tok.lbrace then pure false
          else if (← r.readdefs (DefCb.krdef fid)) ≠ 0 then pure false
          else
            tok_expect Tok.semi
            pure true) r.fuel
      else pure ()
      pure (0, cur, nm)
    else
      if ptype.isSome then
        let ar2 ← readarrays e r cur
        match ar2.2 with
        | some _ =>
          let s ← getS
          pure (0, array2ptr s.arrays ar2.1, nm)
        | none => pure (0, ar2.1, nm)
      else pure (0, cur, nm)

/-- The function `readtype`. -/
def readtype (e : Env) (r : Rec) : P (Int × type) := do
  let a ← readname e r false none
  pure (a.1, a.2.1)

/-! ## Expressions -/

/-- The function `readprimary`. -/
def readprimary (e : Env) (r : Rec) : P Unit := do
  if (← tok_jmp Tok.NUM) = 0 then
    let n ← tok_num
    o_num n.2
    ts_push_bt e n.1
  else if (← tok_jmp Tok.STR) = 0 then
    let b ← tok_str
    let id ← array_add e { type.zero with bt := 1 ||| BT_SIGNED } b.2
    o_sym_tmp_str e b.1 b.2
    ts_push { type.zero with id := id, flags := T_ARRAY }
  else if (← tok_jmp Tok.NAME) = 0 then
    let nm ← tok_id
    let s ← getS
    let isLabel ← if s.ncexpr = 0 ∧ s.caseexpr = 0 then (do pure (decide ((← tok_see) = Tok.colon)))
                  else pure false
    if isLabel then pure ()
    else
      let n ← local_find nm
      if n ≠ -1 then
        let s ← getS
        o_local (s.locals.getD n.toNat name.zero).addr
        ts_push_addr (s.locals.getD n.toNat name.zero).type
      else
        let n ← global_find nm
        if n ≠ -1 then
          let s ← getS
          let g := s.globals.getD n.toNat name.zero
          o_sym (if g.elfname ≠ "" then g.elfname else g.name)
          ts_push_addr g.type
        else
          match (← enum_find nm) with
          | some v =>
            o_num v
            ts_push_bt e (4 ||| BT_SIGNED)
          | none =>
            if (← tok_see) ≠ Tok.lparen then err ("unknown symbol <" ++ nm ++ ">\n")
            else
              global_add e { name.zero with name := nm }
              o_sym nm
              ts_push_bt e e.LONGSZ
  else if (← tok_jmp Tok.lparen) = 0 then
    let t ← readtype e r
    if t.1 = 0 then
      tok_expect Tok.rparen
      r.readpre
      let o ← ts_pop_de e
      ts_push t.2
      if t.2.ptr = 0 ∨ o.ptr = 0 then o_cast (TYPE_BT e t.2) else pure ()
    else
      r.readexpr
      loop (do
        if (← tok_jmp Tok.rparen) = 0 then pure false
        else
          tok_expect Tok.comma
          let _ ← ts_pop
          o_tmpdrop 1
          r.readexpr
          pure true) r.fuel
  else pure ()

/-- The function `arrayderef`. -/
def arrayderef (e : Env) : P Unit := do
  let _ ← ts_pop_de e
  let t ← ts_pop
  if ¬ (t.flags &&& T_ARRAY ≠ 0 ∧ t.ptr = 0) ∧ t.addr ≠ 0 then
    o_tmpswap
    o_deref (TYPE_BT e t)
    o_tmpswap
  else pure ()
  let s ← getS
  let t1 := { array2ptr s.arrays t with ptr := (array2ptr s.arrays t).ptr - 1 }
  let sz ← type_totsz e t1
  if sz > 1 then
    o_num sz
    o_bop Op.MUL false
  else pure ()
  o_bop Op.ADD false
  ts_push { t1 with addr := 1 }

/-- The function `inc_post`. -/
def inc_post (e : Env) (op : Op) : P Unit := do
  let s ← getS
  if s.nts = 0 then ub "inc_post: empty type stack"
  else
    let t := s.ts.getD (s.nts - 1) type.zero
    o_tmpcopy
    ts_de e 1
    o_load
    o_tmpswap
    o_tmpcopy
    ts_push t
    let t ← ts_pop_de e
    let d ← if t.ptr > 0 then (do pure (((← type_szde e t) : Nat) : Int)) else pure 1
    o_num d
    o_bop op false
    o_assign (TYPE_BT e t)
    o_tmpdrop 1

/-- The function `readfield`. -/
def readfield : P Unit := do
  tok_expect Tok.NAME
  let t ← ts_pop
  let s ← getS
  let field ← struct_field (array2ptr s.arrays t).id (← tok_id)
  if field.addr ≠ 0 then
    o_num field.addr
    o_bop Op.ADD false
  else pure ()
  ts_push_addr field.type

/-- The function `readcall`. -/
def readcall (e : Env) (r : Rec) : P Unit := do
  let t ← ts_pop
  if t.flags &&& T_FUNC ≠ 0 ∧ t.ptr > 0 then o_deref e.LONGSZ else pure ()
  let argc ←
    if (← tok_see) ≠ Tok.rparen then
      iter (fun (argc : Int) => do
        r.readexpr
        let _ ← ts_pop_de e
        if (← tok_jmp Tok.comma) = 0 then pure (argc + 1, true) else pure (argc + 1, false))
        r.fuel 0
    else pure 0
  tok_expect Tok.rparen
  let s ← getS
  if t.flags &&& T_FUNC ≠ 0 then
    let ret := (s.funcs.getD t.id funcinfo.zero).ret
    o_call argc (TYPE_BT e ret)
    if TYPE_BT e ret ≠ 0 then o_cast (TYPE_BT e ret) else pure ()
    ts_push ret
  else
    o_call argc (4 ||| BT_SIGNED)
    ts_push_bt e (4 ||| BT_SIGNED)

/-- The function `readpost`. -/
def readpost (e : Env) (r : Rec) : P Unit := do
  readprimary e r
  loop (do
    if (← tok_jmp Tok.lbrack) = 0 then
      r.readexpr
      tok_expect Tok.rbrack
      arrayderef e
      pure true
    else if (← tok_jmp Tok.lparen) = 0 then
      readcall e r
      pure true
    else if (← tok_jmp Tok.inc) = 0 then
      inc_post e Op.ADD
      pure true
    else if (← tok_jmp Tok.dec) = 0 then
      inc_post e Op.SUB
      pure true
    else if (← tok_jmp Tok.dot) = 0 then
      readfield
      pure true
    else if (← tok_jmp Tok.arrow) = 0 then
      ts_de e 1
      readfield
      pure true
    else pure false) r.fuel

/-- The function `inc_pre`. -/
def inc_pre (e : Env) (r : Rec) (op : Op) : P Unit := do
  r.readpre
  o_tmpcopy
  let s ← getS
  if s.nts = 0 then ub "inc_pre: empty type stack"
  else
    ts_push (s.ts.getD (s.nts - 1) type.zero)
    let t ← ts_pop_de e
    let d ← if t.ptr > 0 then (do pure (((← type_szde e t) : Nat) : Int)) else pure 1
    o_num d
    o_bop op false
    o_assign (TYPE_BT e t)
    ts_de e 0

/-- The statement `nogen++`. -/
def nogen_inc : P Unit := modS fun s => { s with nogen := s.nogen + 1 }

/-- The statement `nogen--`. -/
def nogen_dec : P Unit := modS fun s => { s with nogen := s.nogen - 1 }

/-- The function `readpre`. -/
def readpre (e : Env) (r : Rec) : P Unit := do
  if (← tok_jmp Tok.amp) = 0 then
    r.readpre
    let t ← ts_pop
    if t.addr = 0 then err "cannot use the address\n"
    else ts_push { t with ptr := t.ptr + 1, addr := 0 }
  else if (← tok_jmp Tok.star) = 0 then
    r.readpre
    let t ← ts_pop
    let s ← getS
    let t := array2ptr s.arrays t
    if t.ptr = 0 then err "dereferencing non-pointer\n"
    else
      if t.addr ≠ 0 then o_deref (TYPE_BT e t) else pure ()
      ts_push { t with ptr := t.ptr - 1, addr := 1 }
  else if (← tok_jmp Tok.bang) = 0 then
    r.readpre
    let _ ← ts_pop_de e
    o_uop Op.LNOT
    ts_push_bt e (4 ||| BT_SIGNED)
  else if (← tok_jmp Tok.plus) = 0 then
    r.readpre
    ts_de e 1
    let t ← ts_pop
    ts_push_bt e (bt_uop (TYPE_BT e t))
  else if (← tok_jmp Tok.minus) = 0 then
    r.readpre
    ts_de e 1
    let t ← ts_pop
    o_uop Op.NEG
    ts_push_bt e (bt_uop (TYPE_BT e t))
  else if (← tok_jmp Tok.tilde) = 0 then
    r.readpre
    ts_de e 1
    let t ← ts_pop
    o_uop Op.NOT
    ts_push_bt e (bt_uop (TYPE_BT e t))
  else if (← tok_jmp Tok.inc) = 0 then inc_pre e r Op.ADD
  else if (← tok_jmp Tok.dec) = 0 then inc_pre e r Op.SUB
  else if (← tok_jmp Tok.SIZEOF) = 0 then
    let op ← tok_jmp Tok.lparen
    let t ← readtype e r
    let t ←
      if t.1 ≠ 0 then do
        nogen_inc
        if op = 0 then r.readexpr else r.readpre
        nogen_dec
        ts_pop
      else pure t.2
    o_num (← type_totsz e t)
    ts_push_bt e e.LONGSZ
    if op = 0 then tok_expect Tok.rparen else pure ()
  else readpost e r

/-- The function `readmul`. -/
def readmul (e : Env) (r : Rec) : P Unit := do
  readpre e r
  loop (do
    if (← tok_jmp Tok.star) = 0 then
      readpre e r
      ts_binop e Op.MUL
      pure true
    else if (← tok_jmp Tok.slash) = 0 then
      readpre e r
      ts_binop e Op.DIV
      pure true
    else if (← tok_jmp Tok.percent) = 0 then
      readpre e r
      ts_binop e Op.MOD
      pure true
    else pure false) r.fuel

/-- The function `readadd`. -/
def readadd (e : Env) (r : Rec) : P Unit := do
  readmul e r
  loop (do
    if (← tok_jmp Tok.plus) = 0 then
      readmul e r
      ts_addop e Op.ADD
      pure true
    else if (← tok_jmp Tok.minus) = 0 then
      readmul e r
      ts_addop e Op.SUB
      pure true
    else pure false) r.fuel

/-- The function `shift`. -/
def shift (e : Env) (r : Rec) (op : Op) : P Unit := do
  readadd e r
  let t ← ts_pop_de2 e
  o_bop op (BT_SIGNED &&& TYPE_BT e t.2 ≠ 0)
  ts_push_bt e (bt_uop (TYPE_BT e t.2))

/-- The function `readshift`. -/
def readshift (e : Env) (r : Rec) : P Unit := do
  readadd e r
  loop (do
    if (← tok_jmp Tok.shl) = 0 then
      shift e r Op.SHL
      pure true
    else if (← tok_jmp Tok.shr) = 0 then
      shift e r Op.SHR
      pure true
    else pure false) r.fuel

/-- The function `cmp`. -/
def cmp (e : Env) (r : Rec) (op : Op) : P Unit := do
  readshift e r
  let t ← ts_pop_de2 e
  o_bop op (bt_op (TYPE_BT e t.1) (TYPE_BT e t.2) &&& BT_SIGNED ≠ 0)
  ts_push_bt e (4 ||| BT_SIGNED)

/-- The function `readcmp`. -/
def readcmp (e : Env) (r : Rec) : P Unit := do
  readshift e r
  loop (do
    if (← tok_jmp Tok.lt) = 0 then
      cmp e r Op.LT
      pure true
    else if (← tok_jmp Tok.gt) = 0 then
      cmp e r Op.GT
      pure true
    else if (← tok_jmp Tok.le) = 0 then
      cmp e r Op.LE
      pure true
    else if (← tok_jmp Tok.ge) = 0 then
      cmp e r Op.GE
      pure true
    else pure false) r.fuel

/-- The function `eq`. -/
def eq (e : Env) (r : Rec) (op : Op) : P Unit := do
  readcmp e r
  let _ ← ts_pop_de2 e
  o_bop op false
  ts_push_bt e (4 ||| BT_SIGNED)

/-- The function `readeq`. -/
def readeq (e : Env) (r : Rec) : P Unit := do
  readcmp e r
  loop (do
    if (← tok_jmp Tok.eqeq) = 0 then
      eq e r Op.EQ
      pure true
    else if (← tok_jmp Tok.neq) = 0 then
      eq e r Op.NEQ
      pure true
    else pure false) r.fuel

/-- The function `readbitand`. -/
def readbitand (e : Env) (r : Rec) : P Unit := do
  readeq e r
  loop (do
    if (← tok_jmp Tok.amp) = 0 then
      readeq e r
      ts_binop e Op.AND
      pure true
    else pure false) r.fuel

/-- The function `readxor`. -/
def readxor (e : Env) (r : Rec) : P Unit := do
  readbitand e r
  loop (do
    if (← tok_jmp Tok.caret) = 0 then
      readbitand e r
      ts_binop e Op.XOR
      pure true
    else pure false) r.fuel

/-- The function `readbitor`. -/
def readbitor (e : Env) (r : Rec) : P Unit := do
  readxor e r
  loop (do
    if (← tok_jmp Tok.bar) = 0 then
      readxor e r
      ts_binop e Op.OR
      pure true
    else pure false) r.fuel

/-- The function `readand`. -/
def readand (e : Env) (r : Rec) : P Unit := do
  readbitor e r
  if (← tok_see) ≠ Tok.andand then pure ()
  else
    let l_out ← LABEL
    let l_fail ← LABEL
    o_fork
    let _ ← ts_pop_de e
    o_jz l_fail
    loop (do
      if (← tok_jmp Tok.andand) = 0 then
        readbitor e r
        let _ ← ts_pop_de e
        o_jz l_fail
        pure true
      else pure false) r.fuel
    o_num 1
    o_forkpush
    o_jmp l_out
    o_label l_fail
    o_num 0
    o_forkpush
    o_forkjoin
    o_label l_out
    ts_push_bt e (4 ||| BT_SIGNED)

/-- The function `reador`. -/
def reador (e : Env) (r : Rec) : P Unit := do
  readand e r
  if (← tok_see) ≠ Tok.oror then pure ()
  else
    let l_pass ← LABEL
    let l_end ← LABEL
    o_fork
    let _ ← ts_pop_de e
    o_jnz l_pass
    loop (do
      if (← tok_jmp Tok.oror) = 0 then
        readand e r
        let _ ← ts_pop_de e
        o_jnz l_pass
        pure true
      else pure false) r.fuel
    o_num 0
    o_forkpush
    o_jmp l_end
    o_label l_pass
    o_num 1
    o_forkpush
    o_forkjoin
    o_label l_end
    ts_push_bt e (4 ||| BT_SIGNED)

/-- The function `readcexpr_const`; its local `c` is not initialised and holds
`e.garbage` until `o_popnum` writes it. -/
def readcexpr_const (e : Env) (r : Rec) : P Int := do
  let c ← o_popnum e e.garbage
  if c.1 ≠ 0 then pure (-1)
  else
    if c.2 = 0 then nogen_inc else pure ()
    r.readcexpr
    let _ ← ts_pop_de e
    tok_expect Tok.colon
    if c.2 ≠ 0 then nogen_inc else nogen_dec
    r.readcexpr
    ts_de e 1
    if c.2 ≠ 0 then nogen_dec else pure ()
    pure 0

/-- The function `readcexpr`. -/
def readcexpr (e : Env) (r : Rec) : P Unit := do
  reador e r
  if (← tok_jmp Tok.quest) ≠ 0 then pure ()
  else
    modS fun s => { s with ncexpr := s.ncexpr + 1 }
    let _ ← ts_pop_de e
    o_fork
    if (← readcexpr_const e r) ≠ 0 then
      let l_fail ← LABEL
      let l_end ← LABEL
      o_jz l_fail
      r.readcexpr
      let ret ← ts_pop_de e
      if ¬ TYPE_VOID ret then o_forkpush else pure ()
      o_jmp l_end
      tok_expect Tok.colon
      o_label l_fail
      r.readcexpr
      ts_de e 1
      if ¬ TYPE_VOID ret then
        o_forkpush
        o_forkjoin
      else pure ()
      o_label l_end
    else pure ()
    modS fun s => { s with ncexpr := s.ncexpr - 1 }

/-- The function `opassign`. -/
def opassign (e : Env) (r : Rec) (op : Op) (ptrop : Int) : P Unit := do
  let s ← getS
  if s.nts = 0 then ub "opassign: empty type stack"
  else
    o_tmpcopy
    ts_push (s.ts.getD (s.nts - 1) type.zero)
    r.readexpr
    if op = Op.ADD ∨ op = Op.SUB then ts_addop e op else ts_binop e op
    let s ← getS
    if s.nts < 2 then ub "opassign: type stack underflow"
    else
      o_assign (TYPE_BT e (s.ts.getD (s.nts - 2) type.zero))
      let _ ← ts_pop
      ts_de e 0

/-- The function `doassign`. -/
def doassign (e : Env) : P Unit := do
  let s ← getS
  if s.nts = 0 then ub "doassign: empty type stack"
  else
    let t := s.ts.getD (s.nts - 1) type.zero
    if t.ptr = 0 ∧ t.flags &&& T_STRUCT ≠ 0 then
      let _ ← ts_pop
      o_num (← type_totsz e t)
      o_memcpy
    else
      let _ ← ts_pop_de e
      let s ← getS
      if s.nts = 0 then ub "doassign: type stack underflow"
      else
        o_assign (TYPE_BT e (s.ts.getD (s.nts - 1) type.zero))
        ts_de e 0

/-- The function `readexpr`. -/
def readexpr (e : Env) (r : Rec) : P Unit := do
  readcexpr e r
  if (← tok_jmp Tok.assign) = 0 then
    r.readexpr
    doassign e
  else if (← tok_jmp Tok.addeq) = 0 then opassign e r Op.ADD 1
  else if (← tok_jmp Tok.subeq) = 0 then opassign e r Op.SUB 1
  else if (← tok_jmp Tok.muleq) = 0 then opassign e r Op.MUL 0
  else if (← tok_jmp Tok.diveq) = 0 then opassign e r Op.DIV 0
  else if (← tok_jmp Tok.modeq) = 0 then opassign e r Op.MOD 0
  else if (← tok_jmp Tok.shleq) = 0 then opassign e r Op.SHL 0
  else if (← tok_jmp Tok.shreq) = 0 then opassign e r Op.SHR 0
  else if (← tok_jmp Tok.andeq) = 0 then opassign e r Op.AND 0
  else if (← tok_jmp Tok.oreq) = 0 then opassign e r Op.OR 0
  else if (← tok_jmp Tok.xoreq) = 0 then opassign e r Op.XOR 0
  else pure ()

/-- The function `readestmt`. -/
def readestmt (e : Env) (r : Rec) : P Unit :=
  loop (do
    o_tmpdrop (-1)
    modS fun s => { s with nts := 0 }
    readexpr e r
    if (← tok_jmp Tok.comma) = 0 then pure true else pure false) r.fuel

/-! ## Initializers -/

/-- The function `jumpbrace`. -/
def jumpbrace (r : Rec) : P Unit := do
  let _ ← iter (fun (depth : Int) => do
    if (← tok_see) ≠ Tok.rbrace then
      if (← tok_get) = Tok.lbrace then pure (depth + 1, true) else pure (depth, true)
    else if depth ≠ 0 then
      if (← tok_get) = Tok.lbrace then pure (depth - 1 + 1, true) else pure (depth - 1, true)
    else pure (depth - 1, false)) r.fuel 0
  tok_expect Tok.rbrace

/-- The function `initsize`. -/
def initsize (e : Env) (r : Rec) : P Int := do
  let addr ← tok_addr
  if (← tok_jmp Tok.assign) ≠ 0 then pure 0
  else if (← tok_jmp Tok.STR) = 0 then
    let b ← tok_str
    tok_jump addr
    pure b.2
  else
    tok_expect Tok.lbrace
    let n ← iter (fun (n : Int) => do
      if (← tok_jmp Tok.rbrace) = 0 then pure (n, false)
      else
        let idx ←
          if (← tok_jmp Tok.lbrack) = 0 then do
            readexpr e r
            let _ ← ts_pop_de e
            let c ← o_popnum e n
            tok_expect Tok.rbrack
            tok_expect Tok.assign
            pure c.2
          else pure n
        let n := if n < idx + 1 then idx + 1 else n
        loop (do
          if (← tok_see) ≠ Tok.rbrace then
            if (← tok_see) ≠ Tok.comma then
              if (← tok_get) = Tok.lbrace then jumpbrace r else pure ()
              pure true
            else pure false
          else pure false) r.fuel
        let _ ← tok_jmp Tok.comma
        pure (n, true)) r.fuel 0
    tok_jump addr
    pure n

/-- The function `innertype` with a bound on the depth of the recursion. -/
def innertype_aux (arrays : List array) : Nat → type → Option type
  | 0, _ => none
  | k + 1, t =>
    if t.flags &&& T_ARRAY ≠ 0 ∧ t.ptr = 0 then
      innertype_aux arrays k (arrays.getD t.id array.zero).type
    else some t

/-- The function `innertype`. -/
def innertype (t : type) : P type := fun s =>
  match innertype_aux s.arrays (s.arrays.length + 2) t with
  | some t1 => .ok (t1, s)
  | none => .error Err.fuel

/-- The function `o_localoff`. -/
def o_localoff (addr : Int) (off : Int) : P Unit := do
  o_local addr
  if off ≠ 0 then
    o_num off
    o_bop Op.ADD false
  else pure ()

/-- The function `globalinit`; `nm` is the `struct name` that `obj` points to. -/
def globalinit (e : Env) (r : Rec) (nm : name) (off : Int) (t : type) : P Unit := do
  let s ← getS
  let t_de := (s.arrays.getD t.id array.zero).type
  let str ← if t.flags &&& T_ARRAY ≠ 0 then (do pure (decide ((← tok_see) = Tok.STR)))
            else pure false
  if str ∧ t_de.ptr = 0 ∧ t_de.flags = 0 ∧ TYPE_SZ e t_de = 1 then
    tok_expect Tok.STR
    let b ← tok_str
    emit (Call.dscpy (nm.addr + off) b.1 b.2)
  else
    readexpr e r
    emit (Call.dsset (if nm.elfname ≠ "" then nm.elfname else nm.name) off (TYPE_BT e t))
    let _ ← ts_pop
    pure ()

/-- The function `localinit`; `addr` is the `long` that `obj` points to. -/
def localinit (e : Env) (r : Rec) (addr : Int) (off : Int) (t : type) : P Unit := do
  let s ← getS
  let t_de := (s.arrays.getD t.id array.zero).type
  let str ← if t.flags &&& T_ARRAY ≠ 0 then (do pure (decide ((← tok_see) = Tok.STR)))
            else pure false
  if str ∧ t_de.ptr = 0 ∧ t_de.flags = 0 ∧ TYPE_SZ e t_de = 1 then
    tok_expect Tok.STR
    let b ← tok_str
    o_localoff addr off
    o_sym_tmp_str e b.1 b.2
    o_num b.2
    o_memcpy
    o_tmpdrop 1
  else
    o_localoff addr off
    ts_push t
    readexpr e r
    doassign e
    let _ ← ts_pop
    o_tmpdrop 1

/-- The call `set(obj, off, t)` of `initexpr`. -/
def initset (e : Env) (r : Rec) (cb : InitCb) (off : Int) (t : type) : P Unit :=
  match cb with
  | InitCb.globalinit nm => globalinit e r nm off t
  | InitCb.localinit addr => localinit e r addr off t

/-- The function `initexpr`. -/
def initexpr (e : Env) (r : Rec) (t : type) (off : Int) (cb : InitCb) : P Unit := do
  if (← tok_jmp Tok.lbrace) ≠ 0 then initset e r cb off t
  else if t.ptr = 0 ∧ t.flags &&& T_STRUCT ≠ 0 then
    let _ ← iter (fun (i : Nat) => do
      let s ← getS
      let more ← if i < (s.structs.getD t.id structinfo.zero).nfields then
                   (do pure (decide ((← tok_see) ≠ Tok.rbrace)))
                 else pure false
      if more then
        let field ←
          if (← tok_jmp Tok.dot) = 0 then do
            tok_expect Tok.NAME
            let f ← struct_field t.id (← tok_id)
            tok_expect Tok.assign
            pure f
          else pure ((s.structs.getD t.id structinfo.zero).fields.getD i name.zero)
        r.initexpr field.type (off + field.addr) cb
        if (← tok_jmp Tok.comma) ≠ 0 then pure (i, false) else pure (i + 1, true)
      else pure (i, false)) r.fuel 0
    tok_expect Tok.rbrace
  else if t.flags &&& T_ARRAY ≠ 0 then
    let s ← getS
    let str ← if TYPE_SZ e (s.arrays.getD t.id array.zero).type = 1 then
                (do pure (decide ((← tok_see) = Tok.STR)))
              else pure false
    if str then
      initset e r cb off t
      tok_expect Tok.rbrace
    else
      let _ ← iter (fun (i : Int) => do
        if (← tok_see) = Tok.rbrace then pure (i, false)
        else
          let idx ←
            if (← tok_jmp Tok.lbrack) = 0 then do
              readexpr e r
              let _ ← ts_pop_de e
              let c ← o_popnum e i
              tok_expect Tok.rbrack
              tok_expect Tok.assign
              pure c.2
            else pure i
          let s ← getS
          let t_de := (s.arrays.getD t.id array.zero).type
          let inner ←
            if (← tok_see) ≠ Tok.lbrace then
              if (← tok_see) ≠ Tok.STR then pure true
              else pure (decide (t_de.flags &&& T_ARRAY = 0))
            else pure false
          let it ← if inner then innertype t_de else pure t_de
          r.initexpr it (off + (← type_totsz e it) * idx) cb
          if (← tok_jmp Tok.comma) ≠ 0 then pure (i, false) else pure (i + 1, true)) r.fuel 0
      tok_expect Tok.rbrace
  else tok_expect Tok.rbrace

/-! ## Definitions and statements -/

/-- The macro `F_GLOBAL(flags)`. -/
def F_GLOBAL (flags : Nat) : Int := if flags &&& F_STATIC = 0 then 1 else 0

/-- Write the member `n` of the descriptor `arrays[id]`. -/
def setArrayLen (id : Nat) (n : Int) (s : State) : State :=
  { s with
    arrays := tset array.zero s.arrays id { (s.arrays.getD id array.zero) with n := n } }

/-- The function `globaldef`. -/
def globaldef (e : Env) (r : Rec) (nm : name) (flags : Nat) : P Unit := do
  let t := nm.type
  let elfname := if nm.elfname ≠ "" then nm.elfname else nm.name
  let s ← getS
  if t.flags &&& T_ARRAY ≠ 0 ∧ t.ptr = 0 ∧ (s.arrays.getD t.id array.zero).n = 0 then
    if flags &&& F_EXTERN = 0 then
      let n ← initsize e r
      modS (setArrayLen t.id n)
    else pure ()
  else pure ()
  let sz ← type_totsz e t
  let nm ←
    if flags &&& F_EXTERN = 0 ∧ (t.flags &&& T_FUNC = 0 ∨ t.ptr ≠ 0) then
      if (← tok_see) = Tok.assign then do
        let a ← o_dsnew e elfname sz (F_GLOBAL flags)
        pure { nm with addr := a }
      else do
        emit (Call.bsnew elfname sz (F_GLOBAL flags))
        pure nm
    else pure nm
  global_add e nm
  if (← tok_jmp Tok.assign) = 0 then initexpr e r t 0 (InitCb.globalinit nm) else pure ()
  if (← tok_see) = Tok.lbrace ∧ nm.type.flags &&& T_FUNC ≠ 0 then r.readfunc nm flags
  else pure ()

/-- The function `localdef`. -/
def localdef (e : Env) (r : Rec) (nm : name) (flags : Nat) : P Unit := do
  let t := nm.type
  if flags &&& F_EXTERN ≠ 0 ∨ (t.flags &&& T_FUNC ≠ 0 ∧ t.ptr = 0) then global_add e nm
  else if flags &&& F_STATIC ≠ 0 then
    let s ← getS
    globaldef e r { nm with elfname := "__neatcc." ++ s.func_name ++ "." ++ nm.name } flags
  else
    let s ← getS
    if t.flags &&& T_ARRAY ≠ 0 ∧ t.ptr = 0 ∧ (s.arrays.getD t.id array.zero).n = 0 then
      let n ← initsize e r
      modS (setArrayLen t.id n)
    else pure ()
    let a ← o_mklocal e (← type_totsz e nm.type)
    local_add e { nm with addr := a }
    if (← tok_jmp Tok.assign) = 0 then
      if t.flags &&& (T_ARRAY ||| T_STRUCT) ≠ 0 ∧ t.ptr = 0 then
        o_local a
        o_num 0
        o_num (← type_totsz e t)
        o_memset
        o_tmpdrop 1
      else pure ()
      initexpr e r t 0 (InitCb.localinit a)
    else pure ()

/-- The function `typedefdef`. -/
def typedefdef (e : Env) (nm : name) (flags : Nat) : P Unit := typedef_add e nm.name nm.type

/-- The call `def(data, &name, flags)` of `readdefs` and `readdefs_int`. -/
def calldef (e : Env) (r : Rec) (cb : DefCb) (nm : name) (flags : Nat) : P Unit :=
  match cb with
  | DefCb.structdef id => structdef e id nm flags
  | DefCb.localdef => localdef e r nm flags
  | DefCb.typedefdef => typedefdef e nm flags
  | DefCb.krdef fid => krdef fid nm flags
  | DefCb.globaldef => globaldef e r nm flags

/-- The `do ... while (!tok_jmp(','))` loop of `readdefs` and `readdefs_int`. -/
def readdefs_loop (e : Env) (r : Rec) (cb : DefCb) (base : type) (flags : Nat) : P Unit :=
  loop (do
    let a ← readname e r true (some base)
    if a.1 ≠ 0 then pure false
    else
      calldef e r cb { name.zero with name := a.2.2, type := a.2.1 } flags
      if (← tok_jmp Tok.comma) = 0 then pure true else pure false) r.fuel

/-- The function `readdefs`; its local `base` is not initialised, and of what it
holds on entry only the member `id` can survive `basetype`. -/
def readdefs (e : Env) (r : Rec) (cb : DefCb) : P Int := do
  let b ← basetype e r { type.zero with id := e.garbage.toNat }
  if b.1 ≠ 0 then pure 1
  else if (← tok_see) = Tok.semi then pure 0
  else if (← tok_see) = Tok.lbrace then pure 0
  else
    readdefs_loop e r cb b.2.1 b.2.2
    pure 0

/-- The function `readdefs_int`. -/
def readdefs_int (e : Env) (r : Rec) (cb : DefCb) : P Int := do
  let b ← basetype e r { type.zero with id := e.garbage.toNat }
  let nobase ← if b.1 ≠ 0 then (do pure (decide ((← tok_see) ≠ Tok.NAME))) else pure false
  if nobase then pure 1
  else
    let base := if b.1 ≠ 0 then { type.zero with bt := 4 ||| BT_SIGNED } else b.2.1
    let flags := b.2.2
    if (← tok_see) ≠ Tok.semi then readdefs_loop e r cb base flags else pure ()
    pure 0

/-- The local variables of `readswitch` that its loop carries. -/
structure SwitchVars where
  ncases : Int
  l_failed : Int
  l_matched : Int
  l_default : Int

/-- The function `readswitch`. -/
def readswitch (e : Env) (r : Rec) : P Unit := do
  let o_break := (← getS).l_break
  let val_addr ← o_mklocal e e.LONGSZ
  let l_failed ← LABEL
  let l_matched ← LABEL
  let lb ← LABEL
  modS fun s => { s with l_break := lb }
  tok_expect Tok.lparen
  readexpr e r
  let t ← ts_pop_de e
  o_local val_addr
  o_tmpswap
  o_assign (TYPE_BT e t)
  ts_de e 0
  o_tmpdrop 1
  tok_expect Tok.rparen
  tok_expect Tok.lbrace
  let v ← iter (fun (v : SwitchVars) => do
    if (← tok_jmp Tok.rbrace) = 0 then pure (v, false)
    else
      let iscase ← if (← tok_see) ≠ Tok.CASE then (do pure (decide ((← tok_see) = Tok.DEFAULT)))
                   else pure true
      if ¬ iscase then
        r.readstmt
        pure (v, true)
      else
        if v.ncases ≠ 0 then o_jmp v.l_matched else pure ()
        let v ←
          if (← tok_get) = Tok.CASE then do
            o_label v.l_failed
            let lf ← LABEL
            modS fun s => { s with caseexpr := 1 }
            readexpr e r
            let _ ← ts_pop_de e
            modS fun s => { s with caseexpr := 0 }
            o_local val_addr
            o_deref (TYPE_BT e t)
            o_bop Op.EQ false
            o_jz lf
            o_tmpdrop 1
            pure { v with l_failed := lf }
          else do
            if v.ncases = 0 then o_jmp v.l_failed else pure ()
            let ld ← LABEL
            o_label ld
            pure { v with l_default := ld }
        tok_expect Tok.colon
        o_label v.l_matched
        let lm ← LABEL
        pure ({ v with l_matched := lm, ncases := v.ncases + 1 }, true)) r.fuel
    { ncases := 0, l_failed := l_failed, l_matched := l_matched, l_default := 0 }
  emit (Call.rmlocal val_addr e.LONGSZ)
  let lb ← (do pure (← getS).l_break)
  o_jmp lb
  o_label v.l_failed
  if v.l_default ≠ 0 then o_jmp v.l_default else pure ()
  o_label lb
  modS fun s => { s with l_break := o_break }

/-- The function `readstmt`. -/
def readstmt (e : Env) (r : Rec) : P Unit := do
  o_tmpdrop (-1)
  modS fun s => { s with nts := 0 }
  if (← tok_jmp Tok.lbrace) = 0 then
    let s0 ← getS
    loop (do
      if (← tok_jmp Tok.rbrace) = 0 then pure false
      else
        r.readstmt
        pure true) r.fuel
    modS fun s =>
      { s with nlocals := s0.nlocals, nenums := s0.nenums, ntypedefs := s0.ntypedefs,
               nstructs := s0.nstructs, nfuncs := s0.nfuncs, narrays := s0.narrays,
               nglobals := s0.nglobals }
  else if (← readdefs e r DefCb.localdef) = 0 then tok_expect Tok.semi
  else if (← tok_jmp Tok.TYPEDEF) = 0 then
    let _ ← readdefs e r DefCb.typedefdef
    tok_expect Tok.semi
  else if (← tok_jmp Tok.IF) = 0 then
    let l_fail ← LABEL
    let l_end ← LABEL
    tok_expect Tok.lparen
    readestmt e r
    tok_expect Tok.rparen
    let _ ← ts_pop_de e
    o_jz l_fail
    r.readstmt
    if (← tok_jmp Tok.ELSE) = 0 then
      o_jmp l_end
      o_label l_fail
      r.readstmt
      o_label l_end
    else o_label l_fail
  else if (← tok_jmp Tok.WHILE) = 0 then
    let s0 ← getS
    let lb ← LABEL
    let lc ← LABEL
    modS fun s => { s with l_break := lb, l_cont := lc }
    o_label lc
    tok_expect Tok.lparen
    readestmt e r
    tok_expect Tok.rparen
    let _ ← ts_pop_de e
    o_jz (← getS).l_break
    r.readstmt
    o_jmp (← getS).l_cont
    o_label (← getS).l_break
    modS fun s => { s with l_break := s0.l_break, l_cont := s0.l_cont }
  else if (← tok_jmp Tok.DO) = 0 then
    let s0 ← getS
    let l_beg ← LABEL
    let lb ← LABEL
    let lc ← LABEL
    modS fun s => { s with l_break := lb, l_cont := lc }
    o_label l_beg
    r.readstmt
    tok_expect Tok.WHILE
    tok_expect Tok.lparen
    o_label (← getS).l_cont
    readexpr e r
    let _ ← ts_pop_de e
    o_jnz l_beg
    tok_expect Tok.rparen
    o_label (← getS).l_break
    tok_expect Tok.semi
    modS fun s => { s with l_break := s0.l_break, l_cont := s0.l_cont }
  else if (← tok_jmp Tok.FOR) = 0 then
    let s0 ← getS
    let l_check ← LABEL
    let l_body ← LABEL
    let lc ← LABEL
    let lb ← LABEL
    modS fun s => { s with l_cont := lc, l_break := lb }
    tok_expect Tok.lparen
    if (← tok_see) ≠ Tok.semi then readestmt e r else pure ()
    tok_expect Tok.semi
    o_label l_check
    if (← tok_see) ≠ Tok.semi then
      readestmt e r
      let _ ← ts_pop_de e
      o_jz (← getS).l_break
    else pure ()
    tok_expect Tok.semi
    o_jmp l_body
    o_label (← getS).l_cont
    if (← tok_see) ≠ Tok.rparen then readestmt e r else pure ()
    tok_expect Tok.rparen
    o_jmp l_check
    o_label l_body
    r.readstmt
    o_jmp (← getS).l_cont
    o_label (← getS).l_break
    modS fun s => { s with l_break := s0.l_break, l_cont := s0.l_cont }
  else if (← tok_jmp Tok.SWITCH) = 0 then readswitch e r
  else if (← tok_jmp Tok.RETURN) = 0 then
    let ret ← tok_see
    if ret ≠ Tok.semi then
      readexpr e r
      let _ ← ts_pop_de e
    else pure ()
    tok_expect Tok.semi
    o_ret (if ret ≠ Tok.semi then 1 else 0)
  else if (← tok_jmp Tok.BREAK) = 0 then
    tok_expect Tok.semi
    o_jmp (← getS).l_break
  else if (← tok_jmp Tok.CONTINUE) = 0 then
    tok_expect Tok.semi
    o_jmp (← getS).l_cont
  else if (← tok_jmp Tok.GOTO) = 0 then
    tok_expect Tok.NAME
    o_jmp_label_id
    tok_expect Tok.semi
  else
    readestmt e r
    if (← tok_jmp Tok.colon) = 0 then o_label_label_id
    else tok_expect Tok.semi

/-- The function `readfunc`. -/
def readfunc (e : Env) (r : Rec) (nm : name) (flags : Nat) : P Unit := do
  let fid := nm.type.id
  let beg ← tok_addr
  modS fun s => { s with func_name := (s.funcs.getD fid funcinfo.zero).name }
  let s ← getS
  emit (Call.func_beg s.func_name (s.funcs.getD fid funcinfo.zero).nargs (F_GLOBAL flags)
    (s.funcs.getD fid funcinfo.zero).varg)
  let _ ← iter (fun (i : Nat) => do
    let s ← getS
    let fi := s.funcs.getD fid funcinfo.zero
    if (i : Int) < fi.nargs then
      let a ← o_arg2loc e i
      local_add e { name := fi.argnames.getD i "", elfname := "",
                    type := fi.args.getD i type.zero, addr := a }
      pure (i + 1, true)
    else pure (i, false)) r.fuel 0
  modS fun s => { s with label := 0, nlabels := 0 }
  emit Call.pass1
  readstmt e r
  tok_jump beg
  modS fun s => { s with label := 0, nlabels := 0 }
  emit Call.pass2
  readstmt e r
  emit Call.func_end
  modS fun s => { s with func_name := "", nlocals := 0 }

/-- The function `readdecl`. -/
def readdecl (e : Env) (r : Rec) : P Unit := do
  if (← tok_jmp Tok.TYPEDEF) = 0 then
    let _ ← readdefs e r DefCb.typedefdef
    tok_expect Tok.semi
  else
    let _ ← readdefs_int e r DefCb.globaldef
    let _ ← tok_jmp Tok.semi
    pure ()

/-- The function `parse`. -/
def parse (e : Env) (r : Rec) : P Unit :=
  loop (do
    if (← tok_see) ≠ Tok.EOF then
      readdecl e r
      pure true
    else pure false) r.fuel

/-- No recursive call is left. -/
def Rec.bottom : Rec :=
  { fuel := 0, readexpr := outOfFuel, readpre := outOfFuel, readcexpr := outOfFuel,
    readname := fun _ _ => outOfFuel, readdefs := fun _ => outOfFuel,
    initexpr := fun _ _ _ => outOfFuel, readstmt := outOfFuel, readfunc := fun _ _ => outOfFuel }

/-- The recursive functions of the parser with at most `n` nested recursive calls
and at most `n` passes through any one loop. -/
def recN (e : Env) : Nat → Rec
  | 0 => Rec.bottom
  | n + 1 =>
    { fuel := n + 1,
      readexpr := readexpr e (recN e n),
      readpre := readpre e (recN e n),
      readcexpr := readcexpr e (recN e n),
      readname := readname e (recN e n),
      readdefs := readdefs e (recN e n),
      initexpr := initexpr e (recN e n),
      readstmt := readstmt e (recN e n),
      readfunc := readfunc e (recN e n) }

/-! ## The growable buffer of `mem.c` -/

/-- What `mem.c` takes from outside src/.  The header `mem.h`, which declares
`struct mem`, is not under src/: the integer type of the members `sz` and `n` is a
parameter, given by its largest value `imax`.  And `fresh i` is the byte that a block
returned by `malloc` holds at index `i` before it is written. -/
structure MemEnv where
  imax : Int
  fresh : Nat → Nat

/-- The type `struct mem`, with the members `mem.c` uses: `s` is `none` for a null
pointer and otherwise the bytes of the block it points to (the size of the block is the
length of the list), `sz` the recorded size, `n` the number of bytes stored. -/
structure mem where
  s : Option (List Nat)
  sz : Int
  n : Int
deriving DecidableEq

/-- The macro `MEMSZ`. -/
def MEMSZ : Int := 512

/-- Addition in the type of the members `sz` and `n`; a result outside the type is a
signed overflow, which is undefined. -/
def madd (e : MemEnv) (a b : Int) : Except Err Int :=
  if a + b > e.imax ∨ a + b < -e.imax - 1 then .error (Err.ub "signed overflow")
  else .ok (a + b)

/-- The library function `malloc(sz)`, taken to succeed: a block of `sz` bytes. -/
def malloc (e : MemEnv) (sz : Int) : List Nat := (List.range sz.toNat).map e.fresh

/-- The library function `memcpy(dst + off, src, len)` on the block `dst`; it is
undefined when the `len` bytes do not lie inside `dst` or `src` holds fewer. -/
def memcpy (dst : List Nat) (off : Int) (src : List Nat) (len : Int) : Except Err (List Nat) :=
  if 0 ≤ off ∧ 0 ≤ len ∧ off + len ≤ dst.length ∧ len ≤ src.length then
    .ok (dst.take off.toNat ++ src.take len.toNat ++ dst.drop (off.toNat + len.toNat))
  else .error (Err.ub "memcpy outside the block")

/-- The library function `memset(dst + off, 0, len)` on the block `dst`. -/
def memset0 (dst : List Nat) (off : Int) (len : Int) : Except Err (List Nat) :=
  if 0 ≤ off ∧ 0 ≤ len ∧ off + len ≤ dst.length then
    .ok (dst.take off.toNat ++ List.replicate len.toNat 0 ++ dst.drop (off.toNat + len.toNat))
  else .error (Err.ub "memset outside the block")

/-- The function `mem_extend`. -/
def mem_extend (e : MemEnv) (m : mem) : Except Err mem := do
  let s := m.s
  let sz ← if m.sz ≠ 0 then madd e m.sz m.sz else pure MEMSZ
  let blk := malloc e sz
  let blk ←
    if m.n ≠ 0 then
      match s with
      | some old => memcpy blk 0 old m.n
      | none => .error (Err.ub "memcpy from a null pointer")
    else pure blk
  pure { s := some blk, sz := sz, n := m.n }

/-- The function `mem_init`. -/
def mem_init : mem := { s := none, sz := 0, n := 0 }

/-- The function `mem_done`. -/
def mem_done (_m : mem) : mem := { s := none, sz := 0, n := 0 }

/-- The function `mem_cut`. -/
def mem_cut (m : mem) (pos : Int) : mem := { m with n := if pos < m.n then pos else m.n }

/-- The function `mem_cpy`. -/
def mem_cpy (m : mem) (off : Int) (buf : List Nat) (len : Int) : Except Err mem :=
  match m.s with
  | some b => do
    let b1 ← memcpy b off buf len
    pure { m with s := some b1 }
  | none => .error (Err.ub "memcpy to a null pointer")

/-- The `while` loop of `mem_put` and `mem_putz`, with a bound on its passes. -/
def mem_grow (e : MemEnv) (len : Int) : Nat → mem → Except Err mem
  | 0, _ => .error Err.fuel
  | k + 1, m => do
    let a ← madd e m.n len
    let b ← madd e a 1
    if b ≥ m.sz then mem_grow e len k (← mem_extend e m) else pure m

/-- The function `mem_put`; `fuel` bounds the passes through its loop. -/
def mem_put (e : MemEnv) (fuel : Nat) (m : mem) (buf : List Nat) (len : Int) : Except Err mem := do
  let m ← mem_grow e len fuel m
  let m ← mem_cpy m m.n buf len
  let n ← madd e m.n len
  pure { m with n := n }

/-- The function `mem_putc`; the byte stored is `c` converted to `char`. -/
def mem_putc (e : MemEnv) (m : mem) (c : Int) : Except Err mem := do
  let a ← madd e m.n 2
  let m ← if a ≥ m.sz then mem_extend e m else pure m
  match m.s with
  | some b =>
    if 0 ≤ m.n ∧ m.n < b.length then do
      let n ← madd e m.n 1
      pure { m with s := some (b.set m.n.toNat (c % 256).toNat), n := n }
    else .error (Err.ub "store outside the block")
  | none => .error (Err.ub "store through a null pointer")

/-- The function `mem_putz`; `fuel` bounds the passes through its loop. -/
def mem_putz (e : MemEnv) (fuel : Nat) (m : mem) (sz : Int) : Except Err mem := do
  let m ← mem_grow e sz fuel m
  match m.s with
  | some b => do
    let b1 ← memset0 b m.n sz
    let n ← madd e m.n sz
    pure { m with s := some b1, n := n }
  | none => .error (Err.ub "memset through a null pointer")

/-- The function `mem_buf`; the result is the bytes the returned pointer points to (the
string literal `""` for an empty buffer) and the buffer afterwards. -/
def mem_buf (m : mem) : Except Err (List Nat × mem) :=
  match m.s with
  | none => .ok ([0], m)
  | some b =>
    if 0 ≤ m.n ∧ m.n < b.length then
      .ok (b.set m.n.toNat 0, { m with s := some (b.set m.n.toNat 0) })
    else .error (Err.ub "store outside the block")

/-- The function `mem_len`; its result is an `int`. -/
def mem_len (m : mem) : Int := toInt32 (toUnsigned m.n)

/-! ## Auxiliary definitions used to state the theorems -/

/-- What the `nogen` macros let through. -/
def gate (nogen : Int) (l : List Call) : List Call := if nogen = 0 then l else []

/-- The entry `ts_de` leaves in place of `t`. -/
def deval (s : State) (t : type) : type := { array2ptr s.arrays t with addr := 0 }

/-- The calls `ts_de(deref)` makes for the entry `t`. -/
def dcalls (e : Env) (s : State) (deref : Int) (t : type) : List Call :=
  if deref ≠ 0 ∧ (array2ptr s.arrays t).addr ≠ 0 ∧
      ((array2ptr s.arrays t).ptr ≠ 0 ∨ (array2ptr s.arrays t).flags &&& T_FUNC = 0) then
    [Call.deref (TYPE_BT e (array2ptr s.arrays t))]
  else []

/-- The value of the local variable `alignment` of `structdef` for a member of
type `t`, when the recursions of `type_alignment` and `type_totsz` end. -/
def structAlign (e : Env) (s : State) (t : type) : Option Int :=
  match alignment e s t with
  | none => none
  | some al =>
    if t.flags &&& T_ARRAY ≠ 0 ∧ t.ptr = 0 then
      match totsz e s (s.arrays.getD t.id array.zero).type with
      | some z => some (MIN (e.LONGSZ : Int) z)
      | none => none
    else some al

/-- One member as `structdef` handles it: the `struct name` it is given, the
alignment it computes for it (unused, and recorded as 0, for a union) and the
`type_totsz` of its type at that moment. -/
structure FieldDecl where
  nm : name
  al : Int
  sz : Int

/-- A series of `structdef` calls on the descriptor `structs[id]`: `Adds e id s l s1`
says that, starting in state `s`, the members `l` were handed to `structdef` one
after the other and `s1` was reached.  Between the calls the parser may change
the state in any way that leaves `structs[id]` alone (it reads the next
declarator, which can create array, function and other struct descriptors). -/
inductive Adds (e : Env) (id : Nat) : State → List FieldDecl → State → Prop where
  | nil (s : State) : Adds e id s [] s
  | other (s s1 s2 : State) (l : List FieldDecl) :
      Adds e id s l s1 →
      s2.structs.getD id structinfo.zero = s1.structs.getD id structinfo.zero →
      Adds e id s l s2
  | addUnion (s s1 s2 : State) (l : List FieldDecl) (nm : name) (flags : Nat) (z : Int) :
      Adds e id s l s1 →
      (s1.structs.getD id structinfo.zero).isunion ≠ 0 →
      totsz e s1 nm.type = some z →
      structdef e id nm flags s1 = .ok ((), s2) →
      Adds e id s (l ++ [{ nm := nm, al := 0, sz := z }]) s2
  | addStruct (s s1 s2 : State) (l : List FieldDecl) (nm : name) (flags : Nat) (a z : Int) :
      Adds e id s l s1 →
      (s1.structs.getD id structinfo.zero).isunion = 0 →
      structAlign e s1 nm.type = some a →
      totsz e (setStructSize id (ALIGN (s1.structs.getD id structinfo.zero).size a) s1) nm.type
        = some z →
      structdef e id nm flags s1 = .ok ((), s2) →
      Adds e id s (l ++ [{ nm := nm, al := a, sz := z }]) s2

/-- The members `structdef` stores for the declarations `l` when the running
size of the struct is `size`: each is placed at `ALIGN(size, alignment)` and
the running size moves to the end of the member. -/
def laidOut (size : Int) : List FieldDecl → List name
  | [] => []
  | d :: r => { d.nm with addr := ALIGN size d.al } :: laidOut (ALIGN size d.al + d.sz) r

/-- The running size of the struct after the declarations `l`. -/
def endSize (size : Int) : List FieldDecl → Int
  | [] => size
  | d :: r => endSize (ALIGN size d.al + d.sz) r

/-- What parsing a number literal that is followed by `;` does to the type stack and
the cursor. -/
def NumParsed (t t1 : State) : Prop :=
  t1.nts = t.nts + 1 ∧ (curTok t1).kind = Tok.semi ∧ t1.pos = t.pos + 1


/-! ## State properties preserved by the parser -/

/-- The entries of the typedef table below `n0` are those of `base`, and the struct
descriptors below `m0` have the names and union flags of those of `sbase`. -/
def Kept (n0 : Nat) (base : List typdefinfo) (m0 : Nat) (sbase : List structinfo)
    (s : State) : Prop :=
  (n0 ≤ s.ntypedefs ∧ ∀ i, i < n0 → s.typedefs.getD i typdefinfo.zero = base.getD i typdefinfo.zero) ∧
  (m0 ≤ s.nstructs ∧ ∀ i, i < m0 →
    (s.structs.getD i structinfo.zero).name = (sbase.getD i structinfo.zero).name ∧
    (s.structs.getD i structinfo.zero).isunion = (sbase.getD i structinfo.zero).isunion)

/-- The action `m` preserves the state property `I`. -/
def Pres {α : Type} (I : State → Prop) (m : P α) : Prop :=
  ∀ s a s1, I s → m s = .ok (a, s1) → I s1


/-- Every function reached through `r` preserves `I`. -/
structure PresRec (I : State → Prop) (r : Rec) : Prop where
  readexpr : Pres I r.readexpr
  readpre : Pres I r.readpre
  readcexpr : Pres I r.readcexpr
  readname : ∀ b t, Pres I (r.readname b t)
  readdefs : ∀ cb, Pres I (r.readdefs cb)
  initexpr : ∀ t o cb, Pres I (r.initexpr t o cb)
  readstmt : Pres I r.readstmt
  readfunc : ∀ nm fl, Pres I (r.readfunc nm fl)


/-! ## Concrete inputs -/

/-- A 64-bit build with small tables, and a code generator that folds a number
literal (its `o_popnum` succeeds exactly when the last call it received is
`o_num`), puts every local at address 0 and argument `i` at address `i`. -/
def demoEnv : Env :=
  { LONGSZ := 8, NLOCALS := 16, NGLOBALS := 16, NENUMS := 16, NTYPEDEFS := 16, NARRAYS := 16,
    NSTRUCTS := 16, NFUNCS := 16, NCCWORDCAST := false,
    popnum := fun out => match out.getLast? with
      | some (Call.num n) => some n
      | _ => none,
    mklocal := fun _ _ => 0, arg2loc := fun _ i => i, dsnew := fun _ _ _ _ => 0, garbage := 0 }

/-- The type `int`. -/
def tInt : type := { bt := 4 ||| BT_SIGNED, flags := 0, ptr := 0, id := 0, addr := 0 }
/-- The type `unsigned int`. -/
def tUInt : type := { bt := 4, flags := 0, ptr := 0, id := 0, addr := 0 }
/-- The type `int *`. -/
def tIntPtr : type := { bt := 4 ||| BT_SIGNED, flags := 0, ptr := 1, id := 0, addr := 0 }
/-- The type `char`. -/
def tChar : type := { bt := 1 ||| BT_SIGNED, flags := 0, ptr := 0, id := 0, addr := 0 }
/-- The type `void`. -/
def tVoid : type := { bt := 0, flags := 0, ptr := 0, id := 0, addr := 0 }

/-- A state whose type stack holds `l` (bottom first) and that is otherwise initial. -/
def stackOf (l : List type) : State := { State.init [] with ts := l, nts := l.length }

/-- The calls the code generator has received after a run. -/
def outOf {α : Type} (r : Res α) : Option (List Call) := r.toOption.map (fun x => x.2.out)

/-- The top entry of the type stack after a run. -/
def topOf {α : Type} (r : Res α) : Option type :=
  r.toOption.map (fun x => x.2.ts.getD (x.2.nts - 1) type.zero)

/-- The type `char [2][2]` when `arrays[0]` is `char [2]` and `arrays[1]` is an
array of two of those (the descriptors `readarrays` creates for it). -/
def tChar22 : type := { bt := 8, flags := T_ARRAY, ptr := 0, id := 1, addr := 0 }

/-- A state with the array descriptors of `char [2][2]` and one fresh struct
descriptor `S` (what `struct_find` creates). -/
def structState : State :=
  { State.init [] with
    arrays := [{ type := tChar, n := 2 },
      { type := { bt := 8, flags := T_ARRAY, ptr := 0, id := 0, addr := 0 }, n := 2 }],
    narrays := 2,
    structs := [{ structinfo.zero with name := "S" }],
    nstructs := 1 }

/-- A member declaration `t nm`. -/
def member (nm : String) (t : type) : name := { name := nm, elfname := "", type := t, addr := 0 }

/-- Names and offsets of the members of `structs[id]` after a run. -/
def fieldsOf {α : Type} (id : Nat) (r : Res α) : Option (List (String × Int)) :=
  r.toOption.map (fun x =>
    (x.2.structs.getD id structinfo.zero).fields.map (fun f => (f.name, f.addr)))

/-- The member `size` of `structs[id]` after a run. -/
def sizeOf {α : Type} (id : Nat) (r : Res α) : Option Int :=
  r.toOption.map (fun x => (x.2.structs.getD id structinfo.zero).size)

/-- The state a run ends in (the given state if it fails). -/
def endState {α : Type} (r : Res α) (s : State) : State :=
  match r with
  | .ok (_, s1) => s1
  | .error _ => s

/-- The state `structState` after `structdef` has added `char c`. -/
def structState1 : State :=
  endState (structdef demoEnv 0 (member "c" tChar) 0 structState) structState

/-- The state `structState1` after `structdef` has added `int i`. -/
def structState2 : State :=
  endState (structdef demoEnv 0 (member "i" tInt) 0 structState1) structState1

/-- A state with one fresh union descriptor `U`. -/
def unionState : State :=
  { State.init [] with structs := [{ structinfo.zero with name := "U", isunion := 1 }],
                       nstructs := 1 }

/-- The state `unionState` after `structdef` has added `char c`. -/
def unionState1 : State :=
  endState (structdef demoEnv 0 (member "c" tChar) 0 unionState) unionState

/-- The state `unionState1` after `structdef` has added `int i`. -/
def unionState2 : State :=
  endState (structdef demoEnv 0 (member "i" tInt) 0 unionState1) unionState1

/-- A token without payload. -/
def tk (k : Tok) : Token := { kind := k, id := "", num := 0, bt := 0, str := [] }

/-- An identifier token. -/
def ident (s : String) : Token := { kind := Tok.NAME, id := s, num := 0, bt := 0, str := [] }

/-- A decimal literal of type `int`. -/
def intlit (n : Int) : Token :=
  { kind := Tok.NUM, id := "", num := n, bt := 4 ||| BT_SIGNED, str := [] }

/-- The tokens of `1;`. -/
def numStmt : List Token := [intlit 1, tk Tok.semi]

/-- The tokens of `struct S { int a; };` followed by the block
`{ struct S { int b; }; }`. -/
def blockProg : List Token :=
  [tk Tok.STRUCT, ident "S", tk Tok.lbrace, tk Tok.INT, ident "a", tk Tok.semi, tk Tok.rbrace,
   tk Tok.semi,
   tk Tok.lbrace, tk Tok.STRUCT, ident "S", tk Tok.lbrace, tk Tok.INT, ident "b", tk Tok.semi,
   tk Tok.rbrace, tk Tok.semi, tk Tok.rbrace]

/-- The state in which the block of `blockProg` is entered: `readdecl` has read the
declaration of `struct S`. -/
def blockEntry : State :=
  endState (readdecl demoEnv (recN demoEnv 20) (State.init blockProg)) (State.init blockProg)

/-- The state after `readstmt` has read the block of `blockProg`. -/
def blockExit : State :=
  endState (readstmt demoEnv (recN demoEnv 20) blockEntry) blockEntry

/-- The tokens of `struct S; int f() { struct S { char c; } *p; p + 1; }`. -/
def twoPassProg : List Token :=
  [tk Tok.STRUCT, ident "S", tk Tok.semi,
   tk Tok.INT, ident "f", tk Tok.lparen, tk Tok.rparen, tk Tok.lbrace,
   tk Tok.STRUCT, ident "S", tk Tok.lbrace, tk Tok.CHAR, ident "c", tk Tok.semi, tk Tok.rbrace,
   tk Tok.star, ident "p", tk Tok.semi,
   ident "p", tk Tok.plus, intlit 1, tk Tok.semi, tk Tok.rbrace]

/-- The calls the code generator received between `o_pass1()` and `o_pass2()`. -/
def pass1Calls (l : List Call) : List Call :=
  ((l.dropWhile (fun c => c ≠ Call.pass1)).drop 1).takeWhile (fun c => c ≠ Call.pass2)

/-- The calls the code generator received between `o_pass2()` and `o_func_end()`. -/
def pass2Calls (l : List Call) : List Call :=
  ((l.dropWhile (fun c => c ≠ Call.pass2)).drop 1).takeWhile (fun c => c ≠ Call.func_end)

/-- The tokens of `int f(int i, int *p) { i + p; p + i; }`. -/
def ptrAddProg : List Token :=
  [tk Tok.INT, ident "f", tk Tok.lparen, tk Tok.INT, ident "i", tk Tok.comma, tk Tok.INT,
   tk Tok.star, ident "p", tk Tok.rparen, tk Tok.lbrace,
   ident "i", tk Tok.plus, ident "p", tk Tok.semi,
   ident "p", tk Tok.plus, ident "i", tk Tok.semi, tk Tok.rbrace]

/-- The tokens of `struct S { char c; char a[2][2]; };`. -/
def arrayMemberProg : List Token :=
  [tk Tok.STRUCT, ident "S", tk Tok.lbrace, tk Tok.CHAR, ident "c", tk Tok.semi,
   tk Tok.CHAR, ident "a", tk Tok.lbrack, intlit 2, tk Tok.rbrack, tk Tok.lbrack, intlit 2,
   tk Tok.rbrack, tk Tok.semi, tk Tok.rbrace, tk Tok.semi]

/-- The tokens of `struct S { int a; void v; int b; };`. -/
def voidMemberProg : List Token :=
  [tk Tok.STRUCT, ident "S", tk Tok.lbrace, tk Tok.INT, ident "a", tk Tok.semi,
   tk Tok.VOID, ident "v", tk Tok.semi, tk Tok.INT, ident "b", tk Tok.semi, tk Tok.rbrace,
   tk Tok.semi]

/-! ## Definitions for the second group of claims -/

/-- A state with the locals `x`, `y` (both `int`). -/
def shadowState : State :=
  { State.init [] with locals := [member "x" tInt, member "y" tInt], nlocals := 2 }

/-- The descriptor `structs[i]` of `s` carries the tag `nm` with union flag `u`. -/
def hasTag (s : State) (nm : String) (u : Int) (i : Nat) : Prop :=
  (s.structs.getD i structinfo.zero).name = nm ∧ (s.structs.getD i structinfo.zero).isunion = u

instance (s : State) (nm : String) (u : Int) (i : Nat) : Decidable (hasTag s nm u i) := by
  unfold hasTag
  infer_instance

/-- The state `struct_find` leaves when it creates a descriptor for `(nm, u)`. -/
def withNewStruct (s : State) (nm : String) (u : Int) : State :=
  { s with nstructs := s.nstructs + 1,
           structs := tset structinfo.zero s.structs s.nstructs
             { structinfo.zero with name := nm, isunion := u } }

/-- The label table of `s` is in order: the recorded ids increase with the index and
none exceeds the label counter. -/
def LabelsOk (s : State) : Prop :=
  (∀ i, i < s.nlabels → (s.labels.getD i ("", 0)).2 ≤ s.label) ∧
  (∀ i j, i < j → j < s.nlabels → (s.labels.getD i ("", 0)).2 < (s.labels.getD j ("", 0)).2)

/-- What the parser does to the labels between two points of one function body: calls
of `label_id`, and other work, which leaves the label table alone and can only move the
label counter up (through `LABEL()`). -/
inductive LabelRun : State → State → Prop where
  | refl (s : State) : LabelRun s s
  | id (s s1 s2 : State) (nm : String) (i : Int) :
      LabelRun s s1 → label_id nm s1 = .ok (i, s2) → LabelRun s s2
  | other (s s1 s2 : State) :
      LabelRun s s1 → s2.labels = s1.labels → s2.nlabels = s1.nlabels →
      s1.label ≤ s2.label → LabelRun s s2

/-- The state `label_id` leaves when it records `nm` for the first time. -/
def withNewLabel (s : State) (nm : String) : State :=
  { s with label := s.label + 1,
           labels := tset ("", 0) s.labels s.nlabels (nm, s.label + 1),
           nlabels := s.nlabels + 1 }

/-- The state in which a pass over a function body starts: no label is recorded. -/
def passStart : State := State.init []

/-- The type `t` is one `type_totsz` recurses on: an array of pointer depth 0. -/
def isArr (t : type) : Prop := t.ptr = 0 ∧ t.flags &&& T_ARRAY ≠ 0

instance (t : type) : Decidable (isArr t) := by
  unfold isArr
  infer_instance

/-- The element type the array table records for `t`. -/
def elemOf (arrays : List array) (t : type) : type := (arrays.getD t.id array.zero).type

/-- The type reached from `t` after `i` steps from an array to its element type. -/
def elemAt (arrays : List array) : Nat → type → type
  | 0, t => t
  | i + 1, t => elemAt arrays i (elemOf arrays t)

/-- The array descriptors under `t` are well-founded: going from an array of pointer
depth 0 to its element type ends after finitely many steps. -/
inductive ArrWF (arrays : List array) : type → Prop where
  | leaf (t : type) : ¬ isArr t → ArrWF arrays t
  | node (t : type) : isArr t → ArrWF arrays (elemOf arrays t) → ArrWF arrays t

/-- The tokens of `int f() { int x; x[0]; }`. -/
def indexIntProg : List Token :=
  [tk Tok.INT, ident "f", tk Tok.lparen, tk Tok.rparen, tk Tok.lbrace,
   tk Tok.INT, ident "x", tk Tok.semi,
   ident "x", tk Tok.lbrack, intlit 0, tk Tok.rbrack, tk Tok.semi, tk Tok.rbrace]

/-- The type `arrayderef` hands to `type_totsz` for `x[0]` when `x` is an `int`: the
type of `x` with the pointer depth decremented. -/
def tIntBelow : type := { bt := 4 ||| BT_SIGNED, flags := 0, ptr := -1, id := 0, addr := 0 }

/-- The state after `ts_pop_de(NULL)` and the jump call `c` that follows it. -/
def afterJump (e : Env) (s : State) (c : Call) : State :=
  { s with
    ts := tset type.zero s.ts (s.nts - 1) (deval s (s.ts.getD (s.nts - 1) type.zero)),
    nts := s.nts - 1,
    out := s.out ++ gate s.nogen (dcalls e s 1 (s.ts.getD (s.nts - 1) type.zero) ++ [c]) }

/-- The state after the first operand of a `&&` or `||` chain has been handled: the
operator has been seen, the two labels are allocated, `o_fork()` is issued, and the
operand is popped and tested with the jump call `c`. -/
def shortHead (e : Env) (c : Call) (s1 : State) : State :=
  afterJump e { tokLoad s1 with label := s1.label + 2,
                                out := s1.out ++ gate s1.nogen [Call.fork] } c

/-- The passes through the loop of `readand` or `reador`: while the operator `sep` is
at the cursor it is consumed, `operand` reads the next operand, which leaves one more
entry on the type stack, and the entry is popped and tested with the jump call `c`; the
index counts the operands read. -/
inductive ShortRest (e : Env) (operand : P Unit) (sep : Tok) (c : Call) :
    Nat → State → State → Prop where
  | stop (s : State) : (curTok s).kind ≠ sep → ShortRest e operand sep c 0 s (tokLoad s)
  | more (n : Nat) (s s1 s2 : State) :
      (curTok s).kind = sep → operand (advance s) = .ok ((), s1) → s1.nts = s.nts + 1 →
      ShortRest e operand sep c n (afterJump e s1 c) s2 →
      ShortRest e operand sep c (n + 1) s s2

/-- The state after the closing sequence of `readand` or `reador`: the literal `a` on
the fall-through path, the literal `b` at the label `l2` the operands jump to, both
handed over with `o_forkpush()`, the join at `l1`, and the type `int` pushed. -/
def shortTail (e : Env) (a b l1 l2 : Int) (s : State) : State :=
  { s with
    ts := tset type.zero s.ts s.nts
      { (s.ts.getD s.nts type.zero) with ptr := 0, flags := 0, addr := 0, bt := 4 ||| BT_SIGNED },
    nts := s.nts + 1,
    out := s.out ++ gate s.nogen
      ([Call.num a, Call.forkpush, Call.jmp l1, Call.label l2, Call.num b, Call.forkpush,
        Call.forkjoin, Call.label l1] ++
       (if e.NCCWORDCAST then [Call.cast (4 ||| BT_SIGNED)] else [])) }

/-- The tokens of `1 && 2 && 3;`. -/
def andProg : List Token :=
  [intlit 1, tk Tok.andand, intlit 2, tk Tok.andand, intlit 3, tk Tok.semi]

/-- The state after `readbitor` has read the first operand of `andProg`. -/
def andS1 : State :=
  endState (readbitor demoEnv (recN demoEnv 20) (State.init andProg)) (State.init andProg)

/-- The state after the second operand of `andProg` has been read. -/
def andS2 : State :=
  endState (readbitor demoEnv (recN demoEnv 20)
    (advance (shortHead demoEnv (Call.jz 2) andS1))) andS1

/-- The state after the third operand of `andProg` has been read. -/
def andS3 : State :=
  endState (readbitor demoEnv (recN demoEnv 20)
    (advance (afterJump demoEnv andS2 (Call.jz 2)))) andS2

/-- A string literal token; `l` holds its bytes, the terminating 0 included. -/
def strlit (l : List Nat) : Token := { kind := Tok.STR, id := "", num := 0, bt := 0, str := l }

/-- The tokens of `int f() { -c; }` after `unsigned char c;` has been declared in the
body: `int f() { unsigned char c; -c; }`. -/
def negUCharProg : List Token :=
  [tk Tok.INT, ident "f", tk Tok.lparen, tk Tok.rparen, tk Tok.lbrace,
   tk Tok.UNSIGNED, tk Tok.CHAR, ident "c", tk Tok.semi,
   tk Tok.minus, ident "c", tk Tok.semi, tk Tok.rbrace]

/-- The tokens of `int f() { int a[3]; a; }`. -/
def arrayUseProg : List Token :=
  [tk Tok.INT, ident "f", tk Tok.lparen, tk Tok.rparen, tk Tok.lbrace,
   tk Tok.INT, ident "a", tk Tok.lbrack, intlit 3, tk Tok.rbrack, tk Tok.semi,
   ident "a", tk Tok.semi, tk Tok.rbrace]

/-- The state after `arrayUseProg` has been parsed: the entry of `a`, an array with
`addr` set, is on the type stack and its descriptor is `arrays[0]`. -/
def arrayUseEnd : State :=
  endState (parse demoEnv (recN demoEnv 30) (State.init arrayUseProg)) (State.init arrayUseProg)

/-- The tokens of `sizeof "ab";`. -/
def sizeofStrStmt : List Token := [tk Tok.SIZEOF, strlit [97, 98, 0], tk Tok.semi]

/-- The tokens of the initializer `= { (1, 2), 3 };`. -/
def parenInit : List Token :=
  [tk Tok.assign, tk Tok.lbrace, tk Tok.lparen, intlit 1, tk Tok.comma, intlit 2, tk Tok.rparen,
   tk Tok.comma, intlit 3, tk Tok.rbrace, tk Tok.semi]

/-- The tokens of the initializer `= { 1, 2, 3, 4, 5 };`. -/
def fiveInit : List Token :=
  [tk Tok.assign, tk Tok.lbrace, intlit 1, tk Tok.comma, intlit 2, tk Tok.comma, intlit 3,
   tk Tok.comma, intlit 4, tk Tok.comma, intlit 5, tk Tok.rbrace, tk Tok.semi]

/-- The tokens of the initializer `= { 1, { 2, 3 }, 4 };`. -/
def nestedInit : List Token :=
  [tk Tok.assign, tk Tok.lbrace, intlit 1, tk Tok.comma, tk Tok.lbrace, intlit 2, tk Tok.comma,
   intlit 3, tk Tok.rbrace, tk Tok.comma, intlit 4, tk Tok.rbrace, tk Tok.semi]

/-- The tokens of `int a[] = { (1, 2), 3 };`. -/
def parenArrayProg : List Token :=
  [tk Tok.INT, ident "a", tk Tok.lbrack, tk Tok.rbrack] ++ parenInit

/-- The value and the cursor `initsize` returns with on the tokens `l`. -/
def initsizeOf (l : List Token) : Option (Int × Nat) :=
  (initsize demoEnv (recN demoEnv 20) (State.init l)).toOption.map (fun x => (x.1, x.2.pos))

/-! ## Further notions used by the statements -/

/-- The globals that the state `g0` holds are still in the table of `s`, each at its
index. -/
def GKept (g0 s : State) : Prop :=
  g0.nglobals ≤ s.nglobals ∧
    ∀ i, i < g0.nglobals → s.globals.getD i name.zero = g0.globals.getD i name.zero

/-- The tokens of `int g;` followed by the block `{ extern int x; h(); }`. -/
def globProg : List Token :=
  [tk Tok.INT, ident "g", tk Tok.semi,
   tk Tok.lbrace, tk Tok.EXTERN, tk Tok.INT, ident "x", tk Tok.semi, ident "h", tk Tok.lparen,
   tk Tok.rparen, tk Tok.semi, tk Tok.rbrace]

/-- The state in which the block of `globProg` is entered: `readdecl` has read the
declaration of `g`. -/
def globEntry : State :=
  endState (readdecl demoEnv (recN demoEnv 20) (State.init globProg)) (State.init globProg)

/-- The state after `readstmt` has read the block of `globProg`. -/
def globExit : State :=
  endState (readstmt demoEnv (recN demoEnv 20) globEntry) globEntry

/-- The tokens of `int g;` followed by the block `{ extern int x; h(); }` and the
statement `k();`. -/
def cutProg : List Token :=
  globProg ++ [ident "k", tk Tok.lparen, tk Tok.rparen, tk Tok.semi]

/-- The state in which the block of `cutProg` is entered: `readdecl` has read the
declaration of `g`. -/
def cutEntry : State :=
  endState (readdecl demoEnv (recN demoEnv 20) (State.init cutProg)) (State.init cutProg)

/-- The state in which `readstmt`, reading the block of `cutProg`, calls `readstmt` for
the first statement of the block: it has dropped the temporaries, emptied the type
stack, consumed the `{` and looked for a `}`. -/
def cutInner : State :=
  endState ((do
    o_tmpdrop (-1)
    modS fun s => { s with nts := 0 }
    let _ ← tok_jmp Tok.lbrace
    let _ ← tok_jmp Tok.rbrace
    pure ()) cutEntry) cutEntry

/-- The state after the first statement of the block, `extern int x;`, has been read. -/
def cutInner1 : State :=
  endState (readstmt demoEnv (recN demoEnv 19) cutInner) cutInner

/-- The state after the second statement of the block, `h();`, has been read. -/
def cutInner2 : State :=
  endState (readstmt demoEnv (recN demoEnv 19) (tokLoad cutInner1)) cutInner1

/-- The state after `readstmt` has read the whole block of `cutProg`. -/
def cutExit : State :=
  endState (readstmt demoEnv (recN demoEnv 20) cutEntry) cutEntry

/-- The state after `readstmt` has read the statement `k();` that follows the block. -/
def cutNext : State :=
  endState (readstmt demoEnv (recN demoEnv 20) cutExit) cutExit

/-- The tokens of `enum { a0, a1, ..., a15, };`: sixteen enumerators. -/
def enum16Prog : List Token :=
  [tk Tok.ENUM, tk Tok.lbrace, ident "a0", tk Tok.comma, ident "a1", tk Tok.comma, ident "a2",
   tk Tok.comma, ident "a3", tk Tok.comma, ident "a4", tk Tok.comma, ident "a5", tk Tok.comma,
   ident "a6", tk Tok.comma, ident "a7", tk Tok.comma, ident "a8", tk Tok.comma, ident "a9", tk
   Tok.comma, ident "a10", tk Tok.comma, ident "a11", tk Tok.comma, ident "a12", tk Tok.comma,
   ident "a13", tk Tok.comma, ident "a14", tk Tok.comma, ident "a15", tk Tok.comma, tk
   Tok.rbrace, tk Tok.semi]

/-- The tokens of `enum16Prog` without the last enumerator: fifteen enumerators. -/
def enum15Prog : List Token := enum16Prog.take 32 ++ [tk Tok.rbrace, tk Tok.semi]

/-- A state in which every table holds fifteen entries. -/
def fifteen : State :=
  { State.init [] with nlocals := 15, nglobals := 15, nenums := 15, ntypedefs := 15,
                       narrays := 15, nstructs := 15, nfuncs := 15 }

/-- Whether a run ended in the error `msg` of `err()`. -/
def failsWith {α : Type} (r : Res α) (msg : String) : Bool :=
  match r with
  | .error (Err.err m) => m == msg
  | _ => false

/-- Whether a run returned. -/
def returns {α : Type} (r : Res α) : Bool :=
  match r with
  | .ok _ => true
  | .error _ => false

/-- The tokens `&x;` in a state in which `x` is a local variable of type `int`. -/
def addrState : State :=
  { State.init [tk Tok.amp, ident "x", tk Tok.semi] with
    locals := [member "x" tInt], nlocals := 1 }

/-- The state after the operand `x` of `addrState` has been read. -/
def addrOperand : State :=
  endState ((recN demoEnv 20).readpre (advance addrState)) addrState

/-- The tokens of `&1;`. -/
def addrNumState : State := State.init [tk Tok.amp, intlit 1, tk Tok.semi]

/-- The state after the operand `1` of `addrNumState` has been read. -/
def addrNumOperand : State :=
  endState ((recN demoEnv 20).readpre (advance addrNumState)) addrNumState

/-- The tokens of `int a[] = { [2] = 7, 8 };`. -/
def desigProg : List Token :=
  [tk Tok.INT, ident "a", tk Tok.lbrack, tk Tok.rbrack, tk Tok.assign, tk Tok.lbrace,
   tk Tok.lbrack, intlit 2, tk Tok.rbrack, tk Tok.assign, intlit 7, tk Tok.comma, intlit 8,
   tk Tok.rbrace, tk Tok.semi]

/-- The tokens of `= { [2] = 7, 8 };`, the initializer of `desigProg`. -/
def desigInit : List Token := desigProg.drop 4

/-- The tokens of `int f(int x, int y) { switch (x) { case y: ; } }`. -/
def caseVarProg : List Token :=
  [tk Tok.INT, ident "f", tk Tok.lparen, tk Tok.INT, ident "x", tk Tok.comma, tk Tok.INT,
   ident "y", tk Tok.rparen, tk Tok.lbrace, tk Tok.SWITCH, tk Tok.lparen, ident "x",
   tk Tok.rparen, tk Tok.lbrace, tk Tok.CASE, ident "y", tk Tok.colon, tk Tok.semi,
   tk Tok.rbrace, tk Tok.rbrace]

/-- A code generator like that of `demoEnv` whose `o_popnum` never folds. -/
def neverFold : Env := { demoEnv with popnum := fun _ => none }

/-- The tokens of `= { 1`: a braced initializer that the end of the input cuts off. -/
def openInit : List Token := [tk Tok.assign, tk Tok.lbrace, intlit 1]

/-- The state after `ts_pop_de(NULL)`. -/
def afterPop (e : Env) (s : State) : State :=
  { s with
    ts := tset type.zero s.ts (s.nts - 1) (deval s (s.ts.getD (s.nts - 1) type.zero)),
    nts := s.nts - 1,
    out := s.out ++ gate s.nogen (dcalls e s 1 (s.ts.getD (s.nts - 1) type.zero)) }

/-- The state after `nogen++`. -/
def incNogen (s : State) : State := { s with nogen := s.nogen + 1 }

/-- The state after `nogen--`. -/
def decNogen (s : State) : State := { s with nogen := s.nogen - 1 }

/-- The state in which `readcexpr_const` reads the arm before the `:`, when the
condition has folded to `c` and `o_popnum` has left the state `s0`: `nogen` is
incremented if `c` is zero. -/
def armA (c : Int) (s0 : State) : State := if c = 0 then incNogen s0 else s0

/-- The state in which `readcexpr_const` reads the arm after the `:`, when the condition
has folded to `c` and the first arm has left the state `a1`: the entry of the first arm
is popped, the `:` is consumed and `nogen` is incremented if `c` is not zero,
decremented otherwise. -/
def armB (e : Env) (c : Int) (a1 : State) : State :=
  if c ≠ 0 then incNogen (advance (afterPop e a1)) else decNogen (advance (afterPop e a1))

/-- The state after `ts_de(1)`. -/
def afterDe (e : Env) (s : State) : State :=
  { s with
    ts := tset type.zero s.ts (s.nts - 1) (deval s (s.ts.getD (s.nts - 1) type.zero)),
    out := s.out ++ gate s.nogen (dcalls e s 1 (s.ts.getD (s.nts - 1) type.zero)) }

/-- The state in which `readcexpr_const` returns, when the condition has folded to `c`
and the second arm has left the state `b1`: the entry of the second arm has gone through
`ts_de(1)` and `nogen` is decremented if `c` is not zero. -/
def armEnd (e : Env) (c : Int) (b1 : State) : State :=
  if c ≠ 0 then decNogen (afterDe e b1) else afterDe e b1

/-- A code generator like that of `demoEnv` whose `o_popnum` also folds a number literal
that is followed by calls of `o_fork()`. -/
def forkEnv : Env :=
  { demoEnv with
    popnum := fun out => match (out.reverse.dropWhile (fun c => c = Call.fork)).head? with
      | some (Call.num n) => some n
      | _ => none }

/-- The tokens `2 : 3;` in the state in which `readcexpr` calls `readcexpr_const` for
`c ? 2 : 3;`: the condition, the literal `c`, has been read, popped and forked. -/
def condState (c : Int) : State :=
  { State.init [intlit 2, tk Tok.colon, intlit 3, tk Tok.semi] with
    out := [Call.num c, Call.fork] }

/-- The state after `o_popnum` has folded the condition of `condState c`. -/
def condFolded (c : Int) : State :=
  endState (o_popnum forkEnv forkEnv.garbage (condState c)) (condState c)

/-- The state after the first arm of `condState c` has been read. -/
def condArmA (c : Int) : State :=
  endState ((recN forkEnv 20).readcexpr (armA c (condFolded c))) (condFolded c)

/-- The state after the second arm of `condState c` has been read. -/
def condArmB (c : Int) : State :=
  endState ((recN forkEnv 20).readcexpr (armB forkEnv c (condArmA c))) (condArmA c)

/-- The body of the loop of `readswitch`, one pass: the closing brace, a statement, or a
`case` or `default` label of the switch block; `val_addr` is the local that holds the
switch value and `t` the type of that value. -/
def switchStep (e : Env) (r : Rec) (val_addr : Int) (t : type) (v : SwitchVars) :
    P (SwitchVars × Bool) := do
  if (← tok_jmp Tok.rbrace) = 0 then pure (v, false)
  else
    let iscase ← if (← tok_see) ≠ Tok.CASE then (do pure (decide ((← tok_see) = Tok.DEFAULT)))
                 else pure true
    if ¬ iscase then
      r.readstmt
      pure (v, true)
    else
      if v.ncases ≠ 0 then o_jmp v.l_matched else pure ()
      let v ←
        if (← tok_get) = Tok.CASE then do
          o_label v.l_failed
          let lf ← LABEL
          modS fun s => { s with caseexpr := 1 }
          readexpr e r
          let _ ← ts_pop_de e
          modS fun s => { s with caseexpr := 0 }
          o_local val_addr
          o_deref (TYPE_BT e t)
          o_bop Op.EQ false
          o_jz lf
          o_tmpdrop 1
          pure { v with l_failed := lf }
        else do
          if v.ncases = 0 then o_jmp v.l_failed else pure ()
          let ld ← LABEL
          o_label ld
          pure { v with l_default := ld }
      tok_expect Tok.colon
      o_label v.l_matched
      let lm ← LABEL
      pure ({ v with l_matched := lm, ncases := v.ncases + 1 }, true)

/-- The state in which `readswitch` reads the expression of a `case` label found in the
state `s`: the jump to the matched label is issued unless this is the first label, the
keyword is consumed, the label for the failed comparison is placed and a new one is
allocated, and `caseexpr` is set. -/
def caseEntry (v : SwitchVars) (s : State) : State :=
  { advance s with
    out := s.out ++ gate s.nogen
      ((if v.ncases ≠ 0 then [Call.jmp v.l_matched] else []) ++ [Call.label v.l_failed]),
    label := s.label + 1, caseexpr := 1 }

/-- The tokens `case y: ; }` in a state in which `y` is a local variable of type `int`
and three labels have been allocated. -/
def caseState : State :=
  { State.init [tk Tok.CASE, ident "y", tk Tok.colon, tk Tok.semi, tk Tok.rbrace] with
    locals := [member "y" tInt], nlocals := 1, label := 3 }

/-- The variables of `readswitch` when its loop starts with the labels 1 and 2. -/
def caseVars : SwitchVars := { ncases := 0, l_failed := 1, l_matched := 2, l_default := 0 }

/-- The state after the expression `y` of the label of `caseState` has been read. -/
def caseLabelEnd : State :=
  endState (readexpr neverFold (recN neverFold 20) (caseEntry caseVars caseState)) caseState

/-- One parameter as `readargs` reads it from the state `s`: either `readname` accepts a
declaration of type `t` and name `nm`, or it declines and the parameter is a bare
identifier, which gets the type `int`. -/
def ParamRead (r : Rec) (s : State) (t : type) (nm : String) (s1 : State) : Prop :=
  r.readname true none s = .ok ((0, t, nm), s1) ∨
  ∃ rc t0 nm0 s0, rc ≠ 0 ∧ r.readname true none s = .ok ((rc, t0, nm0), s0) ∧
    (curTok s0).kind = Tok.NAME ∧ t = { type.zero with bt := 4 ||| BT_SIGNED } ∧
    nm = (curTok s0).id ∧ s1 = advance s0

/-- The parameters of a parameter list, read from the state after `(`: the list ends
at `)` or at `...`, or it holds a parameter that is the last one or is followed by `,`
and the rest of the list.  The result is the types of the parameters, each array type
replaced by the pointer to its element type, their names, and whether `...` was met. -/
inductive ArgsRead (r : Rec) : State → List type → List String → Int → State → Prop where
  | close (s : State) : (curTok s).kind = Tok.rparen → ArgsRead r s [] [] 0 (tokLoad s)
  | dots (s : State) : (curTok s).kind = Tok.ellipsis → ArgsRead r s [] [] 1 (advance s)
  | last (s : State) (t : type) (nm : String) (s1 : State) :
      (curTok s).kind ≠ Tok.rparen → (curTok s).kind ≠ Tok.ellipsis →
      ParamRead r (tokLoad s) t nm s1 → (curTok s1).kind ≠ Tok.comma →
      ArgsRead r s [array2ptr s1.arrays t] [nm] 0 (tokLoad s1)
  | more (s : State) (t : type) (nm : String) (s1 : State) (ts : List type)
      (nms : List String) (varg : Int) (s2 : State) :
      (curTok s).kind ≠ Tok.rparen → (curTok s).kind ≠ Tok.ellipsis →
      ParamRead r (tokLoad s) t nm s1 → (curTok s1).kind = Tok.comma →
      ArgsRead r (advance s1) ts nms varg s2 →
      ArgsRead r s (array2ptr s1.arrays t :: ts) (nm :: nms) varg s2

/-- The type `int [3]` when its descriptor is `arrays[0]`. -/
def tIntArr3 : type := { bt := 8, flags := T_ARRAY, ptr := 0, id := 0, addr := 0 }

/-- The tokens of the parameter list `(int a[3], char b)`. -/
def arrParams : List Token :=
  [tk Tok.lparen, tk Tok.INT, ident "a", tk Tok.lbrack, intlit 3, tk Tok.rbrack, tk Tok.comma,
   tk Tok.CHAR, ident "b", tk Tok.rparen]

/-- The state after the parameter `int a[3]` of `arrParams` has been read. -/
def arrParamA : State :=
  endState ((recN demoEnv 20).readname true none (tokLoad (advance (State.init arrParams))))
    (State.init arrParams)

/-- The state after the parameter `char b` of `arrParams` has been read. -/
def arrParamB : State :=
  endState ((recN demoEnv 20).readname true none (tokLoad (advance arrParamA))) arrParamA

/-- The tokens of the parameter list `(void)`. -/
def voidParams : List Token := [tk Tok.lparen, tk Tok.VOID, tk Tok.rparen]

/-- The state after the parameter `void` of `voidParams` has been read. -/
def voidParamEnd : State :=
  endState ((recN demoEnv 20).readname true none (tokLoad (advance (State.init voidParams))))
    (State.init voidParams)

/-- The tokens of the parameter list `(void *p)`. -/
def voidPtrParams : List Token :=
  [tk Tok.lparen, tk Tok.VOID, tk Tok.star, ident "p", tk Tok.rparen]

/-- The value a run returned. -/
def valueOf {α : Type} (r : Res α) : Option α := r.toOption.map (fun x => x.1)

/-- The type `readarrays` leaves in `*type` once it has added, at `id`, the descriptor
of an array of `t`. -/
def arrayOver (e : Env) (t : type) (id : Nat) : type :=
  { t with id := id, flags := T_ARRAY, bt := e.LONGSZ, ptr := 0 }

/-- The type of a declarator with the dimensions `ds` (outermost first) over `t`, when
the descriptors are added from the index `n0` on, innermost first. -/
def dimsType (e : Env) (t : type) (n0 : Nat) : List Int → type
  | [] => t
  | _ :: ds => arrayOver e (dimsType e t n0 ds) (n0 + ds.length)

/-- The array table `arrays` after the descriptors of the dimensions `ds` (outermost
first) over `t` have been added from the index `n0` on, innermost first. -/
def dimsArrays (e : Env) (t : type) (n0 : Nat) (arrays : List array) : List Int → List array
  | [] => arrays
  | d :: ds =>
    tset array.zero (dimsArrays e t n0 arrays ds) (n0 + ds.length)
      { type := dimsType e t n0 ds, n := d }

/-- The array descriptors under `t` lie below the index `n`. -/
inductive Below (arrays : List array) (n : Nat) : type → Prop where
  | leaf (t : type) : ¬ isArr t → Below arrays n t
  | node (t : type) : isArr t → t.id < n → Below arrays n (elemOf arrays t) → Below arrays n t

/-- The dimensions of a declarator as `readarrays` reads them from the state `s`: no
`[`, or `[]` (dimension 0), or `[expr]` where `expr` leaves an entry on the type stack
and `o_popnum` folds it to `d`, followed by the remaining dimensions. -/
inductive DimsRead (e : Env) (r : Rec) : State → List Int → State → Prop where
  | stop (s : State) : (curTok s).kind ≠ Tok.lbrack → DimsRead e r s [] (tokLoad s)
  | empty (s : State) (ds : List Int) (s3 : State) :
      (curTok s).kind = Tok.lbrack → (curTok (advance s)).kind = Tok.rbrack →
      DimsRead e r (advance (advance s)) ds s3 → DimsRead e r s (0 :: ds) s3
  | dim (s s1 s2 : State) (d : Int) (ds : List Int) (s3 : State) :
      (curTok s).kind = Tok.lbrack → (curTok (advance s)).kind ≠ Tok.rbrack →
      r.readexpr (tokLoad (advance s)) = .ok ((), s1) → s1.nts ≠ 0 →
      o_popnum e 0 (afterPop e s1) = .ok ((0, d), s2) → (curTok s2).kind = Tok.rbrack →
      DimsRead e r (advance s2) ds s3 → DimsRead e r s (d :: ds) s3

/-- The tokens `[2][3];` of the declarator of `int a[2][3];`. -/
def dimToks : List Token :=
  [tk Tok.lbrack, intlit 2, tk Tok.rbrack, tk Tok.lbrack, intlit 3, tk Tok.rbrack, tk Tok.semi]

/-- The state after the expression of the first dimension of `dimToks` has been read. -/
def dimA1 : State :=
  endState ((recN demoEnv 20).readexpr (tokLoad (advance (State.init dimToks))))
    (State.init dimToks)

/-- The state after `o_popnum` has folded the first dimension of `dimToks`. -/
def dimA2 : State := endState (o_popnum demoEnv 0 (afterPop demoEnv dimA1)) dimA1

/-- The state after the expression of the second dimension of `dimToks` has been read. -/
def dimB1 : State :=
  endState ((recN demoEnv 20).readexpr (tokLoad (advance (advance dimA2)))) dimA2

/-- The state after `o_popnum` has folded the second dimension of `dimToks`. -/
def dimB2 : State := endState (o_popnum demoEnv 0 (afterPop demoEnv dimB1)) dimB1

/-- The state a run ends in. -/
def stateOf {α : Type} (r : Res α) : Option State := r.toOption.map (fun x => x.2)

/-! ## Notions and inputs for the buffer and the initializer claims -/

/-- The buffer `m` holds the bytes `data`: they are the first `n` bytes of its block,
the block has the recorded size `sz`, and `n` does not exceed `sz`; a buffer of size 0
(as `mem_init` leaves it) holds no byte. -/
def Holds (m : mem) (data : List Nat) : Prop :=
  m.n = data.length ∧ m.n ≤ m.sz ∧
    (m.sz ≠ 0 → ∃ b, m.s = some b ∧ (b.length : Int) = m.sz ∧ b.take data.length = data)

/-- A 32-bit `int` for the members of `struct mem`, and blocks that `malloc` returns
filled with the byte 170. -/
def memEnv : MemEnv := { imax := 2147483647, fresh := fun _ => 170 }

/-- The buffer a run of a function of `mem.c` returns (the empty buffer if it fails). -/
def memOf (r : Except Err mem) : mem :=
  match r with
  | .ok m => m
  | .error _ => mem_init

/-- The buffer after `mem_put` has stored the three bytes 1, 2, 3 in a fresh buffer: one
block of 512 bytes. -/
def mem3 : mem := memOf (mem_put memEnv 10 mem_init [1, 2, 3] 3)

/-- Six hundred bytes 7. -/
def bytes600 : List Nat := List.replicate 600 7

/-- The tokens of `int a[] = { 1, [0] = 2, 3 };`. -/
def backDesigProg : List Token :=
  [tk Tok.INT, ident "a", tk Tok.lbrack, tk Tok.rbrack, tk Tok.assign, tk Tok.lbrace, intlit 1,
   tk Tok.comma, tk Tok.lbrack, intlit 0, tk Tok.rbrack, tk Tok.assign, intlit 2, tk Tok.comma,
   intlit 3, tk Tok.rbrace, tk Tok.semi]

/-- The tokens of `= { 1, [0] = 2, 3 };`, the initializer of `backDesigProg`. -/
def backDesigInit : List Token := backDesigProg.drop 4

/-- The tokens of `int f() { int a[] = { 1, [0] = 2, 3 }; }`. -/
def backDesigLocal : List Token :=
  [tk Tok.INT, ident "f", tk Tok.lparen, tk Tok.rparen, tk Tok.lbrace] ++ backDesigProg ++
    [tk Tok.rbrace]

/-! ## Notions for the claim on `sizeof` -/

/-- The counter `nogen` of `s` is `g`, a positive value, and the calls the code
generator has received are `o`. -/
def Quiet (g : Int) (o : List Call) (s : State) : Prop := 0 < g ∧ s.nogen = g ∧ s.out = o

/-- The callbacks of `readdefs` that hand nothing to the code generator: `structdef`,
`krdef` and `typedefdef` (`localdef` and `globaldef` allocate storage). -/
def DefCb.silent : DefCb → Bool
  | DefCb.structdef _ => true
  | DefCb.krdef _ => true
  | DefCb.typedefdef => true
  | DefCb.localdef => false
  | DefCb.globaldef => false

/-- The functions an expression reaches through `r` keep `nogen` and make no call to
the code generator while `nogen` is positive. -/
structure QuietRec (r : Rec) : Prop where
  readexpr : ∀ g o, Pres (Quiet g o) r.readexpr
  readpre : ∀ g o, Pres (Quiet g o) r.readpre
  readcexpr : ∀ g o, Pres (Quiet g o) r.readcexpr
  readname : ∀ g o b t, Pres (Quiet g o) (r.readname b t)
  readdefs : ∀ g o cb, DefCb.silent cb = true → Pres (Quiet g o) (r.readdefs cb)

/-- The token at the cursor starts a type name for `basetype`: it is one of the keywords
`basetype` knows, or a name that `typedef_find` finds. -/
def startsType (s : State) : Bool :=
  decide ((curTok s).kind ∈ [Tok.STATIC, Tok.EXTERN, Tok.VOID, Tok.INT, Tok.CHAR, Tok.SHORT,
    Tok.LONG, Tok.SIGNED, Tok.UNSIGNED, Tok.UNION, Tok.STRUCT, Tok.ENUM]) ||
  (decide ((curTok s).kind = Tok.NAME) &&
    decide (typedef_find_aux s.typedefs (curTok s).id s.ntypedefs ≠ -1))

/-- Where the operand of a `sizeof` begins when the keyword is the token at the cursor of
`s`: the keyword and, if one follows it, the opening parenthesis have been consumed. -/
def sizeofOperandAt (s : State) : State :=
  if (curTok (advance s)).kind = Tok.lparen then advance (advance s) else advance s

/-- The state in which `readpre` parses the operand of that `sizeof` when the operand is
an expression: `readtype` has peeked the first token of the operand and `nogen` has been
incremented. -/
def sizeofOperandState (s : State) : State := incNogen (tokLoad (sizeofOperandAt s))

/-- The parse of the operand: `readexpr` after a parenthesis, `readpre` otherwise. -/
def sizeofOperand (r : Rec) (s : State) : P Unit :=
  if (curTok (advance s)).kind = Tok.lparen then r.readexpr else r.readpre

/-- The tokens of `sizeof(g(1));`, where `g` is not declared. -/
def sizeofCallStmt : List Token :=
  [tk Tok.SIZEOF, tk Tok.lparen, ident "g", tk Tok.lparen, intlit 1, tk Tok.rparen,
   tk Tok.rparen, tk Tok.semi]

/-- The state after `readpre` has read `sizeof "ab"`. -/
def sizeofStrEnd : State :=
  endState (readpre demoEnv (recN demoEnv 20) (State.init sizeofStrStmt)) (State.init sizeofStrStmt)

/-- The state after `readpre` has read `sizeof(g(1))`. -/
def sizeofCallEnd : State :=
  endState (readpre demoEnv (recN demoEnv 20) (State.init sizeofCallStmt))
    (State.init sizeofCallStmt)


/-! # Theorems -/

/-! ## Bit arithmetic -/

theorem testBit_of_lt_256 {m : Nat} (h : m < 256) {i : Nat} (hi : 8 ≤ i) : m.testBit i = false := by
  apply Nat.testBit_lt_two_pow
  calc m < 2 ^ 8 := by simpa using h
    _ ≤ 2 ^ i := Nat.pow_le_pow_right (by decide) hi

theorem testBit_256 (i : Nat) : (256 : Nat).testBit i = decide (8 = i) := by
  have : (256 : Nat) = 2 ^ 8 := by norm_num
  rw [this, Nat.testBit_two_pow]

theorem testBit_255 (i : Nat) : (255 : Nat).testBit i = decide (i < 8) := by
  have : (255 : Nat) = 2 ^ 8 - 1 := by norm_num
  rw [this, Nat.testBit_two_pow_sub_one]

theorem and_256_ne_zero (x : Nat) : x &&& 256 ≠ 0 ↔ x.testBit 8 = true := by
  constructor
  · intro h
    by_contra hb
    apply h
    apply Nat.eq_of_testBit_eq
    intro i
    simp only [Nat.testBit_and, testBit_256, Nat.zero_testBit]
    by_cases hi : 8 = i
    · subst hi; simp [hb]
    · simp [hi]
  · intro h h0
    have := congrArg (fun y => Nat.testBit y 8) h0
    simp [Nat.testBit_and, testBit_256, h] at this

theorem sign_or_width (s m : Nat) (h : m < 256) :
    ((s &&& 256) ||| m) &&& 256 = s &&& 256 ∧ ((s &&& 256) ||| m) &&& 255 = m := by
  constructor
  · apply Nat.eq_of_testBit_eq
    intro i
    simp only [Nat.testBit_and, Nat.testBit_or, testBit_256]
    by_cases hi : 8 = i
    · subst hi; simp [testBit_of_lt_256 h (le_refl 8)]
    · simp [hi]
  · apply Nat.eq_of_testBit_eq
    intro i
    simp only [Nat.testBit_and, Nat.testBit_or, testBit_256, testBit_255]
    by_cases hi : i < 8
    · have : ¬ (8 = i) := by omega
      simp [hi, this]
    · have : m.testBit i = false := testBit_of_lt_256 h (by omega)
      simp [hi, this]

theorem BT_SZ_lt (bt : Nat) : BT_SZ bt < 256 := by
  unfold BT_SZ BT_SZMASK
  have : (0xff : Nat) = 2 ^ 8 - 1 := by norm_num
  rw [this, Nat.and_pow_two_sub_one_eq_mod]
  exact Nat.mod_lt _ (by norm_num)


theorem le_ldiff_add : ∀ y m : ℕ, y ≤ Nat.ldiff y m + m := by
  intro y
  induction y using Nat.binaryRec with
  | z => intro m; exact Nat.zero_le _
  | f b y ih =>
    intro m
    induction m using Nat.binaryRec with
    | z =>
      have : Nat.ldiff (Nat.bit b y) 0 = Nat.bit b y := by
        simp [Nat.ldiff]
      rw [this]; omega
    | f c m _ =>
      rw [Nat.ldiff_bit]
      have := ih m
      simp only [Nat.bit_val]
      cases b <;> cases c <;> simp <;> omega

theorem lor_le_add : ∀ m n : ℕ, m ||| n ≤ m + n := by
  intro m
  induction m using Nat.binaryRec with
  | z => intro n; simp
  | f b m ih =>
    intro n
    induction n using Nat.binaryRec with
    | z => simp
    | f c n _ =>
      have h : Nat.bit b m ||| Nat.bit c n = Nat.bit (b || c) (m ||| n) := Nat.lor_bit b m c n
      rw [h]
      have := ih n
      simp only [Nat.bit_val]
      cases b <;> cases c <;> simp <;> omega

theorem land_not_ge (y m : Int) (hm : 0 ≤ m) : y - m ≤ Int.land y (~~~m) := by
  obtain ⟨n, rfl⟩ := Int.eq_ofNat_of_zero_le hm
  have hn : ~~~(n : Int) = Int.negSucc n := rfl
  rw [hn]
  cases y with
  | ofNat k =>
    show ((k : Int)) - n ≤ ((Nat.ldiff k n : Nat) : Int)
    have := le_ldiff_add k n
    omega
  | negSucc k =>
    show Int.negSucc k - n ≤ Int.negSucc (k ||| n)
    have := lor_le_add k n
    simp only [Int.negSucc_eq]
    omega

theorem le_ALIGN (x a : Int) (ha : 1 ≤ a) : x ≤ ALIGN x a := by
  have := land_not_ge (x + a - 1) (a - 1) (by omega)
  unfold ALIGN
  omega

theorem ldiff_two_pow (y j : ℕ) : Nat.ldiff y (2 ^ j - 1) = y / 2 ^ j * 2 ^ j := by
  apply Nat.eq_of_testBit_eq
  intro i
  rw [Nat.testBit_ldiff, Nat.testBit_two_pow_sub_one, Nat.mul_comm, Nat.testBit_mul_pow_two,
    ← Nat.shiftRight_eq_div_pow, Nat.testBit_shiftRight]
  by_cases h : i < j
  · have : ¬ (j ≤ i) := by omega
    simp [h, this]
  · have h2 : j ≤ i := by omega
    have : j + (i - j) = i := by omega
    simp [h, h2, this]

theorem ALIGN_two_pow (x : Int) (j : ℕ) (hx : 0 ≤ x) :
    ALIGN x (2 ^ j) = (x + 2 ^ j - 1) / 2 ^ j * 2 ^ j := by
  obtain ⟨n, rfl⟩ := Int.eq_ofNat_of_zero_le hx
  have hp : (1 : Int) ≤ 2 ^ j := by exact_mod_cast Nat.one_le_two_pow
  have h1 : ((n : Int) + 2 ^ j - 1) = ((n + 2 ^ j - 1 : ℕ) : Int) := by
    have := Nat.one_le_two_pow (n := j)
    push_cast [Nat.cast_sub (show 1 ≤ n + 2 ^ j by omega)]
    ring
  have h2 : ((2 : Int) ^ j - 1) = ((2 ^ j - 1 : ℕ) : Int) := by
    have := Nat.one_le_two_pow (n := j)
    push_cast [Nat.cast_sub this]
    ring
  unfold ALIGN
  rw [h1, h2]
  show (((Nat.ldiff (n + 2 ^ j - 1) (2 ^ j - 1) : ℕ)) : Int) = _
  rw [ldiff_two_pow]
  push_cast
  rfl

/-! ## Running the primitives -/

@[simp] theorem bind_apply {α β : Type} (m : P α) (f : α → P β) (s : State) :
    (m >>= f) s = match m s with
      | .ok (a, s1) => f a s1
      | .error e => .error e := rfl
@[simp] theorem pure_apply {α : Type} (a : α) (s : State) : (pure a : P α) s = .ok (a, s) := rfl
@[simp] theorem Ppure_apply {α : Type} (a : α) (s : State) : (P.pure a : P α) s = .ok (a, s) := rfl
@[simp] theorem getS_apply (s : State) : getS s = .ok (s, s) := rfl
@[simp] theorem modS_apply (f : State → State) (s : State) : modS f s = .ok ((), f s) := rfl
@[simp] theorem emit_apply (c : Call) (s : State) :
    emit c s = .ok ((), { s with out := s.out ++ [c] }) := rfl
theorem gen_apply (c : Call) (s : State) :
    gen c s = .ok ((), { s with out := s.out ++ gate s.nogen [c] }) := by
  unfold gen gate
  split <;> simp

theorem getD_tset_self {α : Type} (z : α) (l : List α) (i : Nat) (x : α) :
    (tset z l i x).getD i z = x := by
  unfold tset
  split
  · simp [List.getD_eq_getElem?_getD, *]
  · next h =>
    have : (l ++ List.replicate (i - l.length) z).length = i := by
      simp; omega
    rw [List.getD_eq_getElem?_getD, List.getElem?_append_right (by omega)]
    simp [this]

theorem getD_tset_ne {α : Type} (z : α) (l : List α) (i j : Nat) (x : α) (h : j ≠ i) :
    (tset z l i x).getD j z = l.getD j z := by
  unfold tset
  split
  · simp [List.getD_eq_getElem?_getD, List.getElem?_set, h.symm]
  · next hl =>
    simp only [List.getD_eq_getElem?_getD]
    by_cases hj : j < l.length
    · rw [List.append_assoc, List.getElem?_append_left hj]
    · have hlen : l.length ≤ j := by omega
      rw [List.getElem?_eq_none (l := l) hlen]
      by_cases hj2 : j < i
      · rw [List.getElem?_append_left (by simp; omega), List.getElem?_append_right hlen]
        simp only [List.getElem?_replicate]
        split <;> rfl
      · rw [List.getElem?_eq_none]
        simp; omega

theorem tset_tset {α : Type} (z : α) (l : List α) (i : Nat) (x y : α) :
    tset z (tset z l i x) i y = tset z l i y := by
  unfold tset
  by_cases h : i < l.length
  · simp [h]
  · have hl : (l ++ List.replicate (i - l.length) z).length = i := by simp; omega
    simp only [h, if_false]
    rw [if_pos (by simp; omega)]
    rw [List.set_append_right _ _ (by omega)]
    simp [hl]

theorem ts_pop_apply (s : State) (h : s.nts ≠ 0) :
    ts_pop s = .ok (s.ts.getD (s.nts - 1) type.zero, { s with nts := s.nts - 1 }) := by
  simp [ts_pop, h]

theorem ts_de_apply (e : Env) (d : Int) (s : State) (h : s.nts ≠ 0) :
    ts_de e d s = .ok ((), { s with
      ts := tset type.zero s.ts (s.nts - 1) (deval s (s.ts.getD (s.nts - 1) type.zero)),
      out := s.out ++ gate s.nogen (dcalls e s d (s.ts.getD (s.nts - 1) type.zero)) }) := by
  unfold ts_de
  simp only [bind_apply, getS_apply, h, if_false, modS_apply]
  by_cases hc : d ≠ 0 ∧ (array2ptr s.arrays (s.ts.getD (s.nts - 1) type.zero)).addr ≠ 0 ∧
      ((array2ptr s.arrays (s.ts.getD (s.nts - 1) type.zero)).ptr ≠ 0 ∨
        (array2ptr s.arrays (s.ts.getD (s.nts - 1) type.zero)).flags &&& T_FUNC = 0)
  · rw [if_pos hc]
    simp only [bind_apply, o_deref, gen_apply, modS_apply, tset_tset, dcalls, if_pos hc, deval]
  · rw [if_neg hc]
    simp only [bind_apply, pure_apply, modS_apply, tset_tset, dcalls, if_neg hc, deval, List.append_nil, gate, ite_self]

theorem ts_pop_de_apply (e : Env) (s : State) (h : s.nts ≠ 0) :
    ts_pop_de e s = .ok (deval s (s.ts.getD (s.nts - 1) type.zero), { s with
      ts := tset type.zero s.ts (s.nts - 1) (deval s (s.ts.getD (s.nts - 1) type.zero)),
      nts := s.nts - 1,
      out := s.out ++ gate s.nogen (dcalls e s 1 (s.ts.getD (s.nts - 1) type.zero)) }) := by
  simp only [ts_pop_de, bind_apply, ts_de_apply e 1 s h, ts_pop, h, if_false, getD_tset_self]

theorem gate_append (n : Int) (a b : List Call) : gate n a ++ gate n b = gate n (a ++ b) := by
  unfold gate; split <;> simp

theorem ts_pop_de2_apply (e : Env) (s : State) (k : Nat) (h : s.nts = k + 2) :
    ts_pop_de2 e s = .ok ((deval s (s.ts.getD (k + 1) type.zero), deval s (s.ts.getD k type.zero)),
      { s with
        ts := tset type.zero (tset type.zero s.ts (k + 1) (deval s (s.ts.getD (k + 1) type.zero))) k
          (deval s (s.ts.getD k type.zero)),
        nts := k,
        out := s.out ++ gate s.nogen (dcalls e s 1 (s.ts.getD (k + 1) type.zero) ++ [Call.tmpswap] ++
          dcalls e s 1 (s.ts.getD k type.zero) ++ [Call.tmpswap]) }) := by
  have e1 : s.nts - 1 = k + 1 := by omega
  have e2 : k + 1 - 1 = k := by omega
  have e3 : k + 1 ≠ 0 := by omega
  unfold ts_pop_de2
  simp only [bind_apply]
  rw [ts_pop_de_apply e s (by omega)]
  simp only [o_tmpswap, gen_apply, e1]
  rw [ts_pop_de_apply e _ e3]
  simp only [e2, pure_apply, deval, dcalls, List.append_assoc, gate_append,
    getD_tset_ne type.zero s.ts (k + 1) k _ (by omega)]

theorem ts_push_bt_apply (e : Env) (bt : Nat) (s : State) :
    ts_push_bt e bt s = .ok ((), { s with
      ts := tset type.zero s.ts s.nts
        { (s.ts.getD s.nts type.zero) with ptr := 0, flags := 0, addr := 0, bt := bt },
      nts := s.nts + 1,
      out := s.out ++ gate s.nogen (if e.NCCWORDCAST then [Call.cast bt] else []) }) := by
  unfold ts_push_bt
  by_cases h : e.NCCWORDCAST
  · simp only [bind_apply, modS_apply, h, if_true, o_cast, gen_apply]
  · simp only [bind_apply, modS_apply, h, pure_apply, gate, List.append_nil, ite_self]
    simp

theorem BT_sign (b z : Nat) : BT (b &&& BT_SIGNED) z &&& BT_SIGNED = b &&& BT_SIGNED := by
  unfold BT BT_SIGNED BT_SZMASK
  have hm : z &&& 255 < 256 := by
    have : (255 : Nat) = 2 ^ 8 - 1 := by norm_num
    rw [this, Nat.and_pow_two_sub_one_eq_mod]
    exact Nat.mod_lt _ (by norm_num)
  have := (sign_or_width (b &&& 256) _ hm).1
  show ((b &&& 256 &&& 256) ||| (z &&& 255)) &&& 256 = b &&& 256
  rw [this, Nat.and_assoc, Nat.and_self]

theorem type_szde_apply (e : Env) (s : State) (t : type) (z : Nat) (h : szde e s t = some z) :
    type_szde e t s = .ok (z, s) := by
  simp only [type_szde, h]

/-! ## Struct layout -/

theorem type_totsz_apply (e : Env) (s : State) (t : type) (z : Int) (h : totsz e s t = some z) :
    type_totsz e t s = .ok (z, s) := by
  simp only [type_totsz, h]

theorem type_totsz_none (e : Env) (s : State) (t : type) (h : totsz e s t = none) :
    type_totsz e t s = .error Err.fuel := by
  simp only [type_totsz, h]

theorem type_alignment_apply (e : Env) (s : State) (t : type) (z : Int)
    (h : alignment e s t = some z) : type_alignment e t s = .ok (z, s) := by
  simp only [type_alignment, h]

theorem type_alignment_none (e : Env) (s : State) (t : type) (h : alignment e s t = none) :
    type_alignment e t s = .error Err.fuel := by
  simp only [type_alignment, h]

theorem structdef_union_ok (e : Env) (id : Nat) (nm : name) (flags : Nat) (s s1 : State)
    (hu : (s.structs.getD id structinfo.zero).isunion ≠ 0)
    (h : structdef e id nm flags s = .ok ((), s1)) :
    ∃ z, totsz e s nm.type = some z ∧
      s1.structs.getD id structinfo.zero =
        { (s.structs.getD id structinfo.zero) with
          size := max (s.structs.getD id structinfo.zero).size z,
          fields := (s.structs.getD id structinfo.zero).fields ++ [{ nm with addr := 0 }] } := by
  unfold structdef at h
  simp only [bind_apply, getS_apply, hu, ne_eq, not_false_eq_true, if_true] at h
  cases hz : totsz e s nm.type with
  | none => rw [type_totsz_none e s _ hz] at h; cases h
  | some z =>
    rw [type_totsz_apply e s _ z hz] at h
    refine ⟨z, rfl, ?_⟩
    by_cases hlt : (s.structs.getD id structinfo.zero).size < z
    · simp only [hlt, if_true, bind_apply, modS_apply] at h
      injection h with h; injection h with _ h; subst h
      simp only [addField, setStructSize, getD_tset_self, max_eq_right (le_of_lt hlt)]
    · simp only [hlt, if_false, bind_apply, pure_apply, modS_apply] at h
      injection h with h; injection h with _ h; subst h
      simp only [addField, getD_tset_self, max_eq_left (not_lt.mp hlt)]

theorem structdef_struct_ok (e : Env) (id : Nat) (nm : name) (flags : Nat) (s s1 : State)
    (hu : (s.structs.getD id structinfo.zero).isunion = 0)
    (h : structdef e id nm flags s = .ok ((), s1)) :
    ∃ a z, structAlign e s nm.type = some a ∧
      totsz e (setStructSize id (ALIGN (s.structs.getD id structinfo.zero).size a) s) nm.type
        = some z ∧
      s1.structs.getD id structinfo.zero =
        { (s.structs.getD id structinfo.zero) with
          size := ALIGN (s.structs.getD id structinfo.zero).size a + z,
          fields := (s.structs.getD id structinfo.zero).fields ++
            [{ nm with addr := ALIGN (s.structs.getD id structinfo.zero).size a }] } := by
  unfold structdef at h
  simp only [bind_apply, getS_apply, hu, ne_eq, not_true_eq_false, if_false] at h
  cases hal : alignment e s nm.type with
  | none => rw [type_alignment_none e s _ hal] at h; cases h
  | some al =>
    rw [type_alignment_apply e s _ al hal] at h
    simp only at h
    by_cases harr : nm.type.flags &&& T_ARRAY ≠ 0 ∧ nm.type.ptr = 0
    · rw [if_pos harr] at h
      cases hze : totsz e s (s.arrays.getD nm.type.id array.zero).type with
      | none => simp only [bind_apply, type_totsz_none e s _ hze] at h; cases h
      | some ze =>
        simp only [bind_apply, type_totsz_apply e s _ ze hze, pure_apply, modS_apply] at h
        cases hz : totsz e (setStructSize id
            (ALIGN (s.structs.getD id structinfo.zero).size (MIN (e.LONGSZ : Int) ze)) s) nm.type with
        | none => rw [type_totsz_none e _ _ hz] at h; cases h
        | some z =>
          rw [type_totsz_apply e _ _ z hz] at h
          injection h with h; injection h with _ h; subst h
          refine ⟨MIN (e.LONGSZ : Int) ze, z, ?_, hz, ?_⟩
          · simp only [structAlign, hal, harr, hze, ne_eq, not_false_eq_true, and_self, if_true]
          · simp only [addField, setStructSize, getD_tset_self, tset_tset]
    · rw [if_neg harr] at h
      simp only [bind_apply, pure_apply, modS_apply] at h
      cases hz : totsz e (setStructSize id
          (ALIGN (s.structs.getD id structinfo.zero).size al) s) nm.type with
      | none => rw [type_totsz_none e _ _ hz] at h; cases h
      | some z =>
        rw [type_totsz_apply e _ _ z hz] at h
        injection h with h; injection h with _ h; subst h
        refine ⟨al, z, ?_, hz, ?_⟩
        · simp only [structAlign, hal, harr, if_false]
        · simp only [addField, setStructSize, getD_tset_self, tset_tset]
theorem laidOut_append (size : Int) (l : List FieldDecl) (d : FieldDecl) :
    laidOut size (l ++ [d]) =
      laidOut size l ++ [{ d.nm with addr := ALIGN (endSize size l) d.al }] := by
  induction l generalizing size with
  | nil => rfl
  | cons c r ih =>
    show _ :: laidOut _ (r ++ [d]) = _
    rw [ih]; rfl

theorem endSize_append (size : Int) (l : List FieldDecl) (d : FieldDecl) :
    endSize size (l ++ [d]) = ALIGN (endSize size l) d.al + d.sz := by
  induction l generalizing size with
  | nil => rfl
  | cons c r ih =>
    show endSize _ (r ++ [d]) = _
    rw [ih]; rfl

theorem adds_union (e : Env) (id : Nat) (s s1 : State) (l : List FieldDecl)
    (h : Adds e id s l s1) (hu : (s.structs.getD id structinfo.zero).isunion ≠ 0) :
    (s1.structs.getD id structinfo.zero).isunion = (s.structs.getD id structinfo.zero).isunion ∧
    (s1.structs.getD id structinfo.zero).fields =
      (s.structs.getD id structinfo.zero).fields ++ l.map (fun d => { d.nm with addr := 0 }) ∧
    (s1.structs.getD id structinfo.zero).size =
      (l.map (fun d => d.sz)).foldl max (s.structs.getD id structinfo.zero).size := by
  induction h with
  | nil => simp
  | other s1 s2 l _ heq ih => rw [heq]; exact ih
  | addUnion s1 s2 l nm flags z _ hu1 hz hdef ih =>
    obtain ⟨z1, hz1, hs2⟩ := structdef_union_ok e id nm flags s1 s2 hu1 hdef
    rw [hz] at hz1
    cases hz1
    rw [hs2]
    simp only [ih.1, ih.2.1, ih.2.2, List.map_append, List.map_cons, List.map_nil,
      List.foldl_append, List.foldl_cons, List.foldl_nil, List.append_assoc, and_self]
  | addStruct s1 s2 l nm flags a z _ hu1 _ _ _ ih =>
    rw [ih.1] at hu1
    exact absurd hu1 hu

theorem adds_struct (e : Env) (id : Nat) (s s1 : State) (l : List FieldDecl)
    (h : Adds e id s l s1) (hu : (s.structs.getD id structinfo.zero).isunion = 0) :
    (s1.structs.getD id structinfo.zero).isunion = 0 ∧
    (s1.structs.getD id structinfo.zero).fields =
      (s.structs.getD id structinfo.zero).fields ++
        laidOut (s.structs.getD id structinfo.zero).size l ∧
    (s1.structs.getD id structinfo.zero).size =
      endSize (s.structs.getD id structinfo.zero).size l := by
  induction h with
  | nil => exact ⟨hu, by simp [laidOut], rfl⟩
  | other s1 s2 l _ heq ih => rw [heq]; exact ih
  | addUnion s1 s2 l nm flags z _ hu1 _ _ ih => exact absurd ih.1 hu1
  | addStruct s1 s2 l nm flags a z _ hu1 ha hz hdef ih =>
    obtain ⟨a1, z1, ha1, hz1, hs2⟩ := structdef_struct_ok e id nm flags s1 s2 hu1 hdef
    rw [ha] at ha1
    cases ha1
    rw [hz] at hz1
    cases hz1
    rw [hs2]
    simp only [ih.1, ih.2.1, ih.2.2, laidOut_append, endSize_append, List.append_assoc, and_self]

theorem laidOut_forall₂ (size : Int) (l : List FieldDecl) :
    List.Forall₂ (fun d f => f = { d.nm with addr := f.addr }) l (laidOut size l) := by
  induction l generalizing size with
  | nil => exact List.Forall₂.nil
  | cons d r ih => exact List.Forall₂.cons rfl (ih _)

theorem laidOut_chain (size : Int) (l : List FieldDecl) :
    List.Chain' (fun p q : FieldDecl × name => 1 ≤ q.1.al → p.2.addr + p.1.sz ≤ q.2.addr)
      (List.zip l (laidOut size l)) := by
  induction l generalizing size with
  | nil => exact List.chain'_nil
  | cons d r ih =>
    cases r with
    | nil => simp [laidOut]
    | cons d2 r2 =>
      have := ih (ALIGN size d.al + d.sz)
      simp only [laidOut, List.zip_cons_cons, List.chain'_cons] at this ⊢
      exact ⟨fun h1 => le_ALIGN _ _ h1, this⟩

theorem laidOut_last (size : Int) (l : List FieldDecl) (d : FieldDecl) (f : name)
    (h : (List.zip l (laidOut size l)).getLast? = some (d, f)) :
    endSize size l = f.addr + d.sz := by
  induction l generalizing size with
  | nil => simp [laidOut] at h
  | cons c r ih =>
    cases r with
    | nil =>
      simp only [laidOut, List.zip_cons_cons, List.zip_nil_right, List.getLast?_singleton,
        Option.some.injEq, Prod.mk.injEq] at h
      obtain ⟨rfl, rfl⟩ := h
      rfl
    | cons d2 r2 =>
      apply ih (ALIGN size c.al + c.sz)
      simpa only [laidOut, List.zip_cons_cons, List.getLast?_cons_cons] using h
/-! ## Running the parser on a number statement -/

theorem curTok_tokLoad (s : State) : curTok (tokLoad s) = curTok s := rfl

theorem tokLoad_idem (s : State) : tokLoad (tokLoad s) = tokLoad s := by
  simp only [tokLoad, curTok, ite_eq_left_iff]
  congr 1 <;> split <;> rfl

theorem tok_see_apply (s : State) : tok_see s = .ok ((curTok s).kind, tokLoad s) := rfl

theorem tok_jmp_ne (s : State) (tok : Tok) (h : (curTok s).kind ≠ tok) :
    tok_jmp tok s = .ok (1, tokLoad s) := by
  simp only [tok_jmp, bind_apply, tok_see_apply, h, ne_eq, not_false_eq_true, if_true, pure_apply]

theorem tok_jmp_eq (s : State) (tok : Tok) (h : (curTok s).kind = tok) (hne : tok ≠ Tok.EOF) :
    tok_jmp tok s = .ok (0, advance s) := by
  have h2 : (curTok (tokLoad s)).kind ≠ Tok.EOF := by rw [curTok_tokLoad, h]; exact hne
  have h3 : (tokLoad s).pos = s.pos := rfl
  have h4 : advance (tokLoad s) = advance s := by
    show { tokLoad (tokLoad s) with pos := (tokLoad s).pos + 1 } = _
    rw [tokLoad_idem]; rfl
  simp only [tok_jmp, bind_apply, tok_see_apply, h, ne_eq, not_true_eq_false, if_false, tok_get,
    h2, pure_apply, h4]

theorem tok_expect_eq (s : State) (tok : Tok) (h : (curTok s).kind = tok) (hne : tok ≠ Tok.EOF) :
    tok_expect tok s = .ok ((), advance s) := by
  have h2 : (curTok s).kind ≠ Tok.EOF := by rw [h]; exact hne
  simp only [tok_expect, bind_apply, tok_get, h, hne, ne_eq, not_true_eq_false, if_false, pure_apply]

theorem readstmt_resets (e : Env) (r : Rec) (s : State) :
    readstmt e r s = readstmt e r { s with nts := 0 } := by
  unfold readstmt
  simp only [bind_apply, o_tmpdrop, gen_apply, modS_apply]

theorem loop_succ (body : P Bool) (k : Nat) (s : State) :
    loop body (k + 1) s = match body s with
      | .ok (again, s1) => if again then loop body k s1 else .ok ((), s1)
      | .error e => .error e := by
  show P.bind body _ s = _
  unfold P.bind
  cases body s with
  | error e => rfl
  | ok a => cases a with
    | mk b s1 => cases b <;> rfl

theorem iter_succ {σ : Type} (body : σ → P (σ × Bool)) (k : Nat) (x : σ) (s : State) :
    iter body (k + 1) x s = match body x s with
      | .ok (r, s1) => if r.2 then iter body k r.1 s1 else .ok (r.1, s1)
      | .error e => .error e := by
  show P.bind (body x) _ s = _
  unfold P.bind
  cases body x s with
  | error e => rfl
  | ok a => cases a with
    | mk b s1 => cases hb : b.2 <;> simp [hb]

theorem loop_exit (body : P Bool) (k : Nat) (s : State) (h : body s = .ok (false, s)) :
    loop body (k + 1) s = .ok ((), s) := by
  rw [loop_succ, h]; rfl

theorem tokLoad_of_plain (s : State) (h1 : (curTok s).kind ≠ Tok.NAME)
    (h2 : (curTok s).kind ≠ Tok.NUM) (h3 : (curTok s).kind ≠ Tok.STR) : tokLoad s = s := by
  simp only [tokLoad, h1, h2, h3, if_false]

theorem tok_jmp_semi (s : State) (tok : Tok) (h : (curTok s).kind = Tok.semi)
    (hne : tok ≠ Tok.semi) : tok_jmp tok s = .ok (1, s) := by
  rw [tok_jmp_ne s tok (by rw [h]; exact hne.symm),
    tokLoad_of_plain s (by rw [h]; decide) (by rw [h]; decide) (by rw [h]; decide)]

theorem tok_see_semi (s : State) (h : (curTok s).kind = Tok.semi) :
    tok_see s = .ok (Tok.semi, s) := by
  rw [tok_see_apply, h,
    tokLoad_of_plain s (by rw [h]; decide) (by rw [h]; decide) (by rw [h]; decide)]

theorem readprimary_num (e : Env) (r : Rec) (t : State) (hnum : (curTok t).kind = Tok.NUM)
    (hsemi : (curTok (advance t)).kind = Tok.semi) :
    ∃ t1, readprimary e r t = .ok ((), t1) ∧ NumParsed t t1 := by
  unfold readprimary
  simp only [bind_apply]
  rw [tok_jmp_eq t Tok.NUM hnum (by decide)]
  simp only [if_true, tok_num, bind_apply, o_num, gen_apply, ts_push_bt_apply]
  exact ⟨_, rfl, rfl, hsemi, rfl⟩

theorem readpost_num (e : Env) (r : Rec) (t : State) (k : Nat) (hf : r.fuel = k + 1)
    (hnum : (curTok t).kind = Tok.NUM) (hsemi : (curTok (advance t)).kind = Tok.semi) :
    ∃ t1, readpost e r t = .ok ((), t1) ∧ NumParsed t t1 := by
  obtain ⟨t1, h1, hq⟩ := readprimary_num e r t hnum hsemi
  refine ⟨t1, ?_, hq⟩
  unfold readpost
  simp only [bind_apply, h1, hf]
  apply loop_exit
  simp only [bind_apply, tok_jmp_semi t1 _ hq.2.1, ne_eq, reduceCtorEq, not_false_eq_true,
    one_ne_zero, if_false, pure_apply]

theorem tok_jmp_num (s : State) (tok : Tok) (h : (curTok s).kind = Tok.NUM)
    (hne : tok ≠ Tok.NUM) : tok_jmp tok s = .ok (1, tokLoad s) :=
  tok_jmp_ne s tok (by rw [h]; exact hne.symm)

theorem readpre_num (e : Env) (r : Rec) (t : State) (k : Nat) (hf : r.fuel = k + 1)
    (hnum : (curTok t).kind = Tok.NUM) (hsemi : (curTok (advance t)).kind = Tok.semi) :
    ∃ t1, readpre e r t = .ok ((), t1) ∧ NumParsed t t1 := by
  have hnum1 : (curTok (tokLoad t)).kind = Tok.NUM := hnum
  have hsemi1 : (curTok (advance (tokLoad t))).kind = Tok.semi := hsemi
  obtain ⟨t1, h1, hq⟩ := readpost_num e r (tokLoad t) k hf hnum1 hsemi1
  refine ⟨t1, ?_, hq⟩
  unfold readpre
  simp only [bind_apply, tok_jmp_num t _ hnum, tok_jmp_num (tokLoad t) _ hnum1, tokLoad_idem,
    ne_eq, reduceCtorEq, not_false_eq_true, one_ne_zero, if_false, h1]

theorem readmul_num (e : Env) (r : Rec) (t : State) (k : Nat) (hf : r.fuel = k + 1)
    (hnum : (curTok t).kind = Tok.NUM) (hsemi : (curTok (advance t)).kind = Tok.semi) :
    ∃ t1, readmul e r t = .ok ((), t1) ∧ NumParsed t t1 := by
  obtain ⟨t1, h1, hq⟩ := readpre_num e r t k hf hnum hsemi
  refine ⟨t1, ?_, hq⟩
  unfold readmul
  simp only [bind_apply, h1, hf]
  apply loop_exit
  simp only [bind_apply, tok_jmp_semi t1 _ hq.2.1, ne_eq, reduceCtorEq, not_false_eq_true,
    one_ne_zero, if_false, pure_apply]

theorem readadd_num (e : Env) (r : Rec) (t : State) (k : Nat) (hf : r.fuel = k + 1)
    (hnum : (curTok t).kind = Tok.NUM) (hsemi : (curTok (advance t)).kind = Tok.semi) :
    ∃ t1, readadd e r t = .ok ((), t1) ∧ NumParsed t t1 := by
  obtain ⟨t1, h1, hq⟩ := readmul_num e r t k hf hnum hsemi
  refine ⟨t1, ?_, hq⟩
  unfold readadd
  simp only [bind_apply, h1, hf]
  apply loop_exit
  simp only [bind_apply, tok_jmp_semi t1 _ hq.2.1, ne_eq, reduceCtorEq, not_false_eq_true,
    one_ne_zero, if_false, pure_apply]

theorem readshift_num (e : Env) (r : Rec) (t : State) (k : Nat) (hf : r.fuel = k + 1)
    (hnum : (curTok t).kind = Tok.NUM) (hsemi : (curTok (advance t)).kind = Tok.semi) :
    ∃ t1, readshift e r t = .ok ((), t1) ∧ NumParsed t t1 := by
  obtain ⟨t1, h1, hq⟩ := readadd_num e r t k hf hnum hsemi
  refine ⟨t1, ?_, hq⟩
  unfold readshift
  simp only [bind_apply, h1, hf]
  apply loop_exit
  simp only [bind_apply, tok_jmp_semi t1 _ hq.2.1, ne_eq, reduceCtorEq, not_false_eq_true,
    one_ne_zero, if_false, pure_apply]

theorem readcmp_num (e : Env) (r : Rec) (t : State) (k : Nat) (hf : r.fuel = k + 1)
    (hnum : (curTok t).kind = Tok.NUM) (hsemi : (curTok (advance t)).kind = Tok.semi) :
    ∃ t1, readcmp e r t = .ok ((), t1) ∧ NumParsed t t1 := by
  obtain ⟨t1, h1, hq⟩ := readshift_num e r t k hf hnum hsemi
  refine ⟨t1, ?_, hq⟩
  unfold readcmp
  simp only [bind_apply, h1, hf]
  apply loop_exit
  simp only [bind_apply, tok_jmp_semi t1 _ hq.2.1, ne_eq, reduceCtorEq, not_false_eq_true,
    one_ne_zero, if_false, pure_apply]

theorem readeq_num (e : Env) (r : Rec) (t : State) (k : Nat) (hf : r.fuel = k + 1)
    (hnum : (curTok t).kind = Tok.NUM) (hsemi : (curTok (advance t)).kind = Tok.semi) :
    ∃ t1, readeq e r t = .ok ((), t1) ∧ NumParsed t t1 := by
  obtain ⟨t1, h1, hq⟩ := readcmp_num e r t k hf hnum hsemi
  refine ⟨t1, ?_, hq⟩
  unfold readeq
  simp only [bind_apply, h1, hf]
  apply loop_exit
  simp only [bind_apply, tok_jmp_semi t1 _ hq.2.1, ne_eq, reduceCtorEq, not_false_eq_true,
    one_ne_zero, if_false, pure_apply]

theorem readbitand_num (e : Env) (r : Rec) (t : State) (k : Nat) (hf : r.fuel = k + 1)
    (hnum : (curTok t).kind = Tok.NUM) (hsemi : (curTok (advance t)).kind = Tok.semi) :
    ∃ t1, readbitand e r t = .ok ((), t1) ∧ NumParsed t t1 := by
  obtain ⟨t1, h1, hq⟩ := readeq_num e r t k hf hnum hsemi
  refine ⟨t1, ?_, hq⟩
  unfold readbitand
  simp only [bind_apply, h1, hf]
  apply loop_exit
  simp only [bind_apply, tok_jmp_semi t1 _ hq.2.1, ne_eq, reduceCtorEq, not_false_eq_true,
    one_ne_zero, if_false, pure_apply]

theorem readxor_num (e : Env) (r : Rec) (t : State) (k : Nat) (hf : r.fuel = k + 1)
    (hnum : (curTok t).kind = Tok.NUM) (hsemi : (curTok (advance t)).kind = Tok.semi) :
    ∃ t1, readxor e r t = .ok ((), t1) ∧ NumParsed t t1 := by
  obtain ⟨t1, h1, hq⟩ := readbitand_num e r t k hf hnum hsemi
  refine ⟨t1, ?_, hq⟩
  unfold readxor
  simp only [bind_apply, h1, hf]
  apply loop_exit
  simp only [bind_apply, tok_jmp_semi t1 _ hq.2.1, ne_eq, reduceCtorEq, not_false_eq_true,
    one_ne_zero, if_false, pure_apply]

theorem readbitor_num (e : Env) (r : Rec) (t : State) (k : Nat) (hf : r.fuel = k + 1)
    (hnum : (curTok t).kind = Tok.NUM) (hsemi : (curTok (advance t)).kind = Tok.semi) :
    ∃ t1, readbitor e r t = .ok ((), t1) ∧ NumParsed t t1 := by
  obtain ⟨t1, h1, hq⟩ := readxor_num e r t k hf hnum hsemi
  refine ⟨t1, ?_, hq⟩
  unfold readbitor
  simp only [bind_apply, h1, hf]
  apply loop_exit
  simp only [bind_apply, tok_jmp_semi t1 _ hq.2.1, ne_eq, reduceCtorEq, not_false_eq_true,
    one_ne_zero, if_false, pure_apply]

theorem readand_num (e : Env) (r : Rec) (t : State) (k : Nat) (hf : r.fuel = k + 1)
    (hnum : (curTok t).kind = Tok.NUM) (hsemi : (curTok (advance t)).kind = Tok.semi) :
    ∃ t1, readand e r t = .ok ((), t1) ∧ NumParsed t t1 := by
  obtain ⟨t1, h1, hq⟩ := readbitor_num e r t k hf hnum hsemi
  refine ⟨t1, ?_, hq⟩
  unfold readand
  simp only [bind_apply, h1, tok_see_semi t1 hq.2.1, ne_eq, reduceCtorEq, not_false_eq_true,
    if_true, pure_apply]

theorem reador_num (e : Env) (r : Rec) (t : State) (k : Nat) (hf : r.fuel = k + 1)
    (hnum : (curTok t).kind = Tok.NUM) (hsemi : (curTok (advance t)).kind = Tok.semi) :
    ∃ t1, reador e r t = .ok ((), t1) ∧ NumParsed t t1 := by
  obtain ⟨t1, h1, hq⟩ := readand_num e r t k hf hnum hsemi
  refine ⟨t1, ?_, hq⟩
  unfold reador
  simp only [bind_apply, h1, tok_see_semi t1 hq.2.1, ne_eq, reduceCtorEq, not_false_eq_true,
    if_true, pure_apply]

theorem readcexpr_num (e : Env) (r : Rec) (t : State) (k : Nat) (hf : r.fuel = k + 1)
    (hnum : (curTok t).kind = Tok.NUM) (hsemi : (curTok (advance t)).kind = Tok.semi) :
    ∃ t1, readcexpr e r t = .ok ((), t1) ∧ NumParsed t t1 := by
  obtain ⟨t1, h1, hq⟩ := reador_num e r t k hf hnum hsemi
  refine ⟨t1, ?_, hq⟩
  unfold readcexpr
  simp only [bind_apply, h1, tok_jmp_semi t1 _ hq.2.1, ne_eq, reduceCtorEq, not_false_eq_true,
    one_ne_zero, if_true, pure_apply]

theorem readexpr_num (e : Env) (r : Rec) (t : State) (k : Nat) (hf : r.fuel = k + 1)
    (hnum : (curTok t).kind = Tok.NUM) (hsemi : (curTok (advance t)).kind = Tok.semi) :
    ∃ t1, readexpr e r t = .ok ((), t1) ∧ NumParsed t t1 := by
  obtain ⟨t1, h1, hq⟩ := readcexpr_num e r t k hf hnum hsemi
  refine ⟨t1, ?_, hq⟩
  unfold readexpr
  simp only [bind_apply, h1, tok_jmp_semi t1 _ hq.2.1, ne_eq, reduceCtorEq, not_false_eq_true,
    one_ne_zero, if_false, pure_apply]
theorem loop_last (body : P Bool) (k : Nat) (s s1 : State) (h : body s = .ok (false, s1)) :
    loop body (k + 1) s = .ok ((), s1) := by
  rw [loop_succ, h]; rfl

theorem readestmt_num (e : Env) (r : Rec) (t : State) (k : Nat) (hf : r.fuel = k + 1)
    (hnum : (curTok t).kind = Tok.NUM) (hsemi : (curTok (advance t)).kind = Tok.semi) :
    ∃ t1, readestmt e r t = .ok ((), t1) ∧ t1.nts = 1 ∧ (curTok t1).kind = Tok.semi ∧
      t1.pos = t.pos + 1 := by
  obtain ⟨t1, h1, hq⟩ := readexpr_num e r
    { t with nts := 0, out := t.out ++ gate t.nogen [Call.tmpdrop (-1)] } k hf hnum hsemi
  refine ⟨t1, ?_, hq.1, hq.2.1, hq.2.2⟩
  unfold readestmt
  rw [hf]
  apply loop_last
  simp only [bind_apply, o_tmpdrop, gen_apply, modS_apply, h1, tok_jmp_semi t1 _ hq.2.1, ne_eq,
    reduceCtorEq, not_false_eq_true, one_ne_zero, if_false, pure_apply]

theorem readdefs_num (e : Env) (r : Rec) (cb : DefCb) (t : State) (k : Nat) (hf : r.fuel = k + 1)
    (hnum : (curTok t).kind = Tok.NUM) :
    readdefs e r cb t = .ok (1, tokLoad t) := by
  have hnum1 : (curTok (tokLoad t)).kind = Tok.NUM := hnum
  unfold readdefs basetype
  simp only [bind_apply, hf, iter_succ, basetype_step, tok_see_apply, hnum, hnum1, tokLoad_idem,
    reduceCtorEq, if_false, pure_apply, ne_eq, not_true_eq_false, if_true, Bool.false_eq_true,
    one_ne_zero, not_false_eq_true]

theorem readstmt_num (e : Env) (r : Rec) (s : State) (k : Nat) (hf : r.fuel = k + 1)
    (hnum : (curTok s).kind = Tok.NUM) (hsemi : (curTok (advance s)).kind = Tok.semi) :
    ∃ s1, readstmt e r s = .ok ((), s1) ∧ s1.nts = 1 ∧ s1.pos = s.pos + 2 := by
  have hnum1 : (curTok (tokLoad
      { s with nts := 0, out := s.out ++ gate s.nogen [Call.tmpdrop (-1)] })).kind = Tok.NUM := hnum
  have hnum0 : (curTok
      { s with nts := 0, out := s.out ++ gate s.nogen [Call.tmpdrop (-1)] }).kind = Tok.NUM := hnum
  obtain ⟨t1, h1, hn, hk, hp⟩ := readestmt_num e r
    (tokLoad { s with nts := 0, out := s.out ++ gate s.nogen [Call.tmpdrop (-1)] }) k hf hnum1 hsemi
  refine ⟨advance t1, ?_, hn, ?_⟩
  · unfold readstmt
    simp only [bind_apply, o_tmpdrop, gen_apply, modS_apply, tok_jmp_num _ _ hnum0,
      tok_jmp_num _ _ hnum1, readdefs_num e r _ _ k hf hnum1, tokLoad_idem, h1,
      tok_jmp_semi t1 _ hk, tok_expect_eq t1 Tok.semi hk, ne_eq, reduceCtorEq,
      not_false_eq_true, one_ne_zero, if_false]
  · show t1.pos + 1 = s.pos + 2
    rw [hp]; rfl
/-! ## Preservation of the typedef table and of struct names

Every function of the parser preserves `Kept`: entries of the typedef table below the
entry length are never written, and a struct descriptor below the entry length keeps
its name and its union flag. -/

section Preservation
set_option maxRecDepth 2048
set_option linter.unusedTactic false
set_option linter.unreachableTactic false

theorem Pres_pure {α : Type} (I : State → Prop) (a : α) : Pres I (pure a : P α) := by
  intro s b s1 hI h
  cases h
  exact hI

theorem Pres_bind {α β : Type} (I : State → Prop) (m : P α) (f : α → P β)
    (hm : Pres I m) (hf : ∀ a, Pres I (f a)) : Pres I (m >>= f) := by
  intro s b s1 hI h
  rw [bind_apply] at h
  split at h
  · next a s2 hms => exact hf a s2 b s1 (hm s a s2 hI hms) h
  · cases h

theorem Pres_getS_bind {β : Type} (I : State → Prop) (f : State → P β)
    (hf : ∀ s0, I s0 → Pres I (f s0)) : Pres I (getS >>= f) := by
  intro s b s1 hI h
  exact hf s hI s b s1 hI h

theorem Pres_ite {α : Type} (I : State → Prop) (c : Prop) [Decidable c] (m1 m2 : P α)
    (h1 : Pres I m1) (h2 : Pres I m2) : Pres I (if c then m1 else m2) := by
  split <;> assumption

theorem Pres_fail {α : Type} (I : State → Prop) (e : Err) : Pres I (fun _ => .error e : P α) := by
  intro s b s1 _ h
  cases h

theorem Pres_modS (I : State → Prop) (f : State → State) (h : ∀ s, I s → I (f s)) :
    Pres I (modS f) := by
  intro s b s1 hI h1
  cases h1
  exact h s hI

theorem Pres_frame {α : Type} (n0 : Nat) (base : List typdefinfo) (m0 : Nat)
    (sbase : List structinfo) (m : P α)
    (h : ∀ s a s1, m s = .ok (a, s1) → s1.typedefs = s.typedefs ∧ s1.ntypedefs = s.ntypedefs ∧
      s1.structs = s.structs ∧ s1.nstructs = s.nstructs) : Pres (Kept n0 base m0 sbase) m := by
  intro s a s1 hI hm
  obtain ⟨h1, h2, h3, h4⟩ := h s a s1 hm
  unfold Kept
  rw [h1, h2, h3, h4]
  exact hI

theorem Pres_gen (n0 : Nat) (base : List typdefinfo) (m0 : Nat) (sbase : List structinfo)
    (c : Call) : Pres (Kept n0 base m0 sbase) (gen c) := by
  apply Pres_frame
  intro s a s1 h
  rw [gen_apply] at h
  cases h
  exact ⟨rfl, rfl, rfl, rfl⟩

theorem Pres_tok_see (n0 : Nat) (base : List typdefinfo) (m0 : Nat) (sbase : List structinfo) :
    Pres (Kept n0 base m0 sbase) tok_see := by
  apply Pres_frame
  intro s a s1 h
  cases h
  exact ⟨rfl, rfl, rfl, rfl⟩

theorem Pres_tok_get (n0 : Nat) (base : List typdefinfo) (m0 : Nat) (sbase : List structinfo) :
    Pres (Kept n0 base m0 sbase) tok_get := by
  apply Pres_frame
  intro s a s1 h
  unfold tok_get at h
  cases h
  split <;> exact ⟨rfl, rfl, rfl, rfl⟩

theorem Pres_loop (I : State → Prop) (body : P Bool) (hb : Pres I body) (k : Nat) :
    Pres I (loop body k) := by
  induction k with
  | zero => exact Pres_fail I Err.fuel
  | succ k ih =>
    intro s a s1 hI h
    rw [loop_succ] at h
    split at h
    · next again s2 hbs =>
      have h2 := hb s again s2 hI hbs
      split at h
      · exact ih s2 a s1 h2 h
      · cases h; exact h2
    · cases h

theorem Pres_iter {σ : Type} (I : State → Prop) (body : σ → P (σ × Bool))
    (hb : ∀ x, Pres I (body x)) (k : Nat) (x : σ) : Pres I (iter body k x) := by
  induction k generalizing x with
  | zero => exact Pres_fail I Err.fuel
  | succ k ih =>
    intro s a s1 hI h
    rw [iter_succ] at h
    split at h
    · next r s2 hbs =>
      have h2 := hb x s r s2 hI hbs
      split at h
      · exact ih r.1 s2 a s1 h2 h
      · cases h; exact h2
    · cases h

theorem Pres_foldlM {α β : Type} (I : State → Prop) (f : β → α → P β)
    (hf : ∀ b a, Pres I (f b a)) (l : List α) (b : β) : Pres I (l.foldlM f b) := by
  induction l generalizing b with
  | nil => exact Pres_pure I b
  | cons a l ih =>
    rw [List.foldlM_cons]
    exact Pres_bind I _ _ (hf b a) (fun b1 => ih b1)

theorem Pres_o_popnum (n0 : Nat) (base : List typdefinfo) (m0 : Nat) (sbase : List structinfo) (e : Env) (c : Int) :
    Pres (Kept n0 base m0 sbase) (o_popnum e c) := by
  apply Pres_frame
  intro s a s1 h
  unfold o_popnum at h
  split at h
  · cases h; exact ⟨rfl, rfl, rfl, rfl⟩
  · split at h <;> cases h <;> exact ⟨rfl, rfl, rfl, rfl⟩

theorem Pres_o_mklocal (n0 : Nat) (base : List typdefinfo) (m0 : Nat) (sbase : List structinfo) (e : Env) (z : Int) :
    Pres (Kept n0 base m0 sbase) (o_mklocal e z) := by
  apply Pres_frame
  intro s a s1 h
  cases h; exact ⟨rfl, rfl, rfl, rfl⟩

theorem Pres_o_arg2loc (n0 : Nat) (base : List typdefinfo) (m0 : Nat) (sbase : List structinfo) (e : Env) (z : Int) :
    Pres (Kept n0 base m0 sbase) (o_arg2loc e z) := by
  apply Pres_frame
  intro s a s1 h
  cases h; exact ⟨rfl, rfl, rfl, rfl⟩

theorem Pres_o_dsnew (n0 : Nat) (base : List typdefinfo) (m0 : Nat) (sbase : List structinfo) (e : Env) (nm : String) (z g : Int) :
    Pres (Kept n0 base m0 sbase) (o_dsnew e nm z g) := by
  apply Pres_frame
  intro s a s1 h
  cases h; exact ⟨rfl, rfl, rfl, rfl⟩

theorem Pres_tok_addr (n0 : Nat) (base : List typdefinfo) (m0 : Nat) (sbase : List structinfo)  :
    Pres (Kept n0 base m0 sbase) (tok_addr) := by
  apply Pres_frame
  intro s a s1 h
  cases h; exact ⟨rfl, rfl, rfl, rfl⟩

theorem Pres_tok_id (n0 : Nat) (base : List typdefinfo) (m0 : Nat) (sbase : List structinfo)  :
    Pres (Kept n0 base m0 sbase) (tok_id) := by
  apply Pres_frame
  intro s a s1 h
  cases h; exact ⟨rfl, rfl, rfl, rfl⟩

theorem Pres_tok_num (n0 : Nat) (base : List typdefinfo) (m0 : Nat) (sbase : List structinfo)  :
    Pres (Kept n0 base m0 sbase) (tok_num) := by
  apply Pres_frame
  intro s a s1 h
  cases h; exact ⟨rfl, rfl, rfl, rfl⟩

theorem Pres_tok_str (n0 : Nat) (base : List typdefinfo) (m0 : Nat) (sbase : List structinfo)  :
    Pres (Kept n0 base m0 sbase) (tok_str) := by
  apply Pres_frame
  intro s a s1 h
  cases h; exact ⟨rfl, rfl, rfl, rfl⟩

theorem Pres_type_totsz (n0 : Nat) (base : List typdefinfo) (m0 : Nat) (sbase : List structinfo) (e : Env) (t : type) :
    Pres (Kept n0 base m0 sbase) (type_totsz e t) := by
  apply Pres_frame
  intro s a s1 h
  unfold type_totsz at h
  split at h <;> cases h
  exact ⟨rfl, rfl, rfl, rfl⟩

theorem Pres_type_szde (n0 : Nat) (base : List typdefinfo) (m0 : Nat) (sbase : List structinfo) (e : Env) (t : type) :
    Pres (Kept n0 base m0 sbase) (type_szde e t) := by
  apply Pres_frame
  intro s a s1 h
  unfold type_szde at h
  split at h <;> cases h
  exact ⟨rfl, rfl, rfl, rfl⟩

theorem Pres_type_alignment (n0 : Nat) (base : List typdefinfo) (m0 : Nat) (sbase : List structinfo) (e : Env) (t : type) :
    Pres (Kept n0 base m0 sbase) (type_alignment e t) := by
  apply Pres_frame
  intro s a s1 h
  unfold type_alignment at h
  split at h <;> cases h
  exact ⟨rfl, rfl, rfl, rfl⟩

theorem Pres_innertype (n0 : Nat) (base : List typdefinfo) (m0 : Nat) (sbase : List structinfo) (t : type) :
    Pres (Kept n0 base m0 sbase) (innertype t) := by
  apply Pres_frame
  intro s a s1 h
  unfold innertype at h
  split at h <;> cases h
  exact ⟨rfl, rfl, rfl, rfl⟩

theorem Pres_ts_pop (n0 : Nat) (base : List typdefinfo) (m0 : Nat) (sbase : List structinfo)  :
    Pres (Kept n0 base m0 sbase) (ts_pop) := by
  apply Pres_frame
  intro s a s1 h
  unfold ts_pop at h
  split at h <;> cases h
  exact ⟨rfl, rfl, rfl, rfl⟩

theorem Pres_local_find (n0 : Nat) (base : List typdefinfo) (m0 : Nat) (sbase : List structinfo) (nm : String) :
    Pres (Kept n0 base m0 sbase) (local_find nm) := by
  apply Pres_frame
  intro s a s1 h
  cases h; exact ⟨rfl, rfl, rfl, rfl⟩

theorem Pres_global_find (n0 : Nat) (base : List typdefinfo) (m0 : Nat) (sbase : List structinfo) (nm : String) :
    Pres (Kept n0 base m0 sbase) (global_find nm) := by
  apply Pres_frame
  intro s a s1 h
  cases h; exact ⟨rfl, rfl, rfl, rfl⟩

theorem Pres_enum_find (n0 : Nat) (base : List typdefinfo) (m0 : Nat) (sbase : List structinfo) (nm : String) :
    Pres (Kept n0 base m0 sbase) (enum_find nm) := by
  apply Pres_frame
  intro s a s1 h
  cases h; exact ⟨rfl, rfl, rfl, rfl⟩

theorem Pres_typedef_find (n0 : Nat) (base : List typdefinfo) (m0 : Nat) (sbase : List structinfo) (nm : String) :
    Pres (Kept n0 base m0 sbase) (typedef_find nm) := by
  apply Pres_frame
  intro s a s1 h
  cases h; exact ⟨rfl, rfl, rfl, rfl⟩

theorem Pres_LABEL (n0 : Nat) (base : List typdefinfo) (m0 : Nat) (sbase : List structinfo)  :
    Pres (Kept n0 base m0 sbase) (LABEL) := by
  apply Pres_frame
  intro s a s1 h
  cases h; exact ⟨rfl, rfl, rfl, rfl⟩

theorem Kept_setStructSize (n0 : Nat) (base : List typdefinfo) (m0 : Nat)
    (sbase : List structinfo) (id : Nat) (z : Int) (s : State) (h : Kept n0 base m0 sbase s) :
    Kept n0 base m0 sbase (setStructSize id z s) := by
  refine ⟨h.1, h.2.1, ?_⟩
  intro i hi
  have h2 := h.2.2 i hi
  by_cases hid : i = id
  · subst hid
    simp only [setStructSize, getD_tset_self]
    exact h2
  · simp only [setStructSize]
    rw [getD_tset_ne _ _ _ _ _ hid]
    exact h2

theorem Kept_addField (n0 : Nat) (base : List typdefinfo) (m0 : Nat)
    (sbase : List structinfo) (id : Nat) (nm : name) (s : State) (h : Kept n0 base m0 sbase s) :
    Kept n0 base m0 sbase (addField id nm s) := by
  refine ⟨h.1, h.2.1, ?_⟩
  intro i hi
  have h2 := h.2.2 i hi
  by_cases hid : i = id
  · subst hid
    simp only [addField, getD_tset_self]
    exact h2
  · simp only [addField]
    rw [getD_tset_ne _ _ _ _ _ hid]
    exact h2

theorem Kept_restore (n0 : Nat) (base : List typdefinfo) (m0 : Nat)
    (sbase : List structinfo) (s0 s : State) (h0 : Kept n0 base m0 sbase s0)
    (h : Kept n0 base m0 sbase s) :
    Kept n0 base m0 sbase
      { s with nlocals := s0.nlocals, nenums := s0.nenums, ntypedefs := s0.ntypedefs,
               nstructs := s0.nstructs, nfuncs := s0.nfuncs, narrays := s0.narrays,
               nglobals := s0.nglobals } :=
  ⟨⟨h0.1.1, h.1.2⟩, h0.2.1, h.2.2⟩

theorem Kept_typedef_add (n0 : Nat) (base : List typdefinfo) (m0 : Nat)
    (sbase : List structinfo) (s0 s : State) (x : typdefinfo) (h0 : Kept n0 base m0 sbase s0)
    (h : Kept n0 base m0 sbase s) :
    Kept n0 base m0 sbase { s with typedefs := tset typdefinfo.zero s.typedefs s0.ntypedefs x } := by
  refine ⟨⟨h.1.1, ?_⟩, h.2⟩
  intro i hi
  show (tset typdefinfo.zero s.typedefs s0.ntypedefs x).getD i typdefinfo.zero = _
  rw [getD_tset_ne _ _ _ _ _ (by have := h0.1.1; omega)]
  exact h.1.2 i hi

theorem Kept_struct_add (n0 : Nat) (base : List typdefinfo) (m0 : Nat)
    (sbase : List structinfo) (s0 s : State) (x : structinfo) (h0 : Kept n0 base m0 sbase s0)
    (h : Kept n0 base m0 sbase s) :
    Kept n0 base m0 sbase { s with structs := tset structinfo.zero s.structs s0.nstructs x } := by
  refine ⟨h.1, h.2.1, ?_⟩
  intro i hi
  show (((tset structinfo.zero s.structs s0.nstructs x).getD i structinfo.zero).name = _ ∧ _)
  rw [getD_tset_ne _ _ _ _ _ (by have := h0.2.1; omega)]
  exact h.2.2 i hi

theorem Kept_bump_typedefs (n0 : Nat) (base : List typdefinfo) (m0 : Nat)
    (sbase : List structinfo) (s : State) (h : Kept n0 base m0 sbase s) :
    Kept n0 base m0 sbase { s with ntypedefs := s.ntypedefs + 1 } :=
  ⟨⟨Nat.le_succ_of_le h.1.1, h.1.2⟩, h.2⟩

theorem Kept_bump_structs (n0 : Nat) (base : List typdefinfo) (m0 : Nat)
    (sbase : List structinfo) (s : State) (h : Kept n0 base m0 sbase s) :
    Kept n0 base m0 sbase { s with nstructs := s.nstructs + 1 } :=
  ⟨h.1, Nat.le_succ_of_le h.2.1, h.2.2⟩

theorem Pres_o_bop (n0 : Nat) (base : List typdefinfo) (m0 : Nat) (sbase : List structinfo) (op : Op) (sg : Bool) :
    Pres (Kept n0 base m0 sbase) (o_bop op sg) :=
  Pres_gen _ _ _ _ _

theorem Pres_o_uop (n0 : Nat) (base : List typdefinfo) (m0 : Nat) (sbase : List structinfo) (op : Op) :
    Pres (Kept n0 base m0 sbase) (o_uop op) :=
  Pres_gen _ _ _ _ _

theorem Pres_o_cast (n0 : Nat) (base : List typdefinfo) (m0 : Nat) (sbase : List structinfo) (bt : Nat) :
    Pres (Kept n0 base m0 sbase) (o_cast bt) :=
  Pres_gen _ _ _ _ _

theorem Pres_o_memcpy (n0 : Nat) (base : List typdefinfo) (m0 : Nat) (sbase : List structinfo)  :
    Pres (Kept n0 base m0 sbase) (o_memcpy) :=
  Pres_gen _ _ _ _ _

theorem Pres_o_memset (n0 : Nat) (base : List typdefinfo) (m0 : Nat) (sbase : List structinfo)  :
    Pres (Kept n0 base m0 sbase) (o_memset) :=
  Pres_gen _ _ _ _ _

theorem Pres_o_call (n0 : Nat) (base : List typdefinfo) (m0 : Nat) (sbase : List structinfo) (a : Int) (b : Nat) :
    Pres (Kept n0 base m0 sbase) (o_call a b) :=
  Pres_gen _ _ _ _ _

theorem Pres_o_ret (n0 : Nat) (base : List typdefinfo) (m0 : Nat) (sbase : List structinfo) (a : Int) :
    Pres (Kept n0 base m0 sbase) (o_ret a) :=
  Pres_gen _ _ _ _ _

theorem Pres_o_assign (n0 : Nat) (base : List typdefinfo) (m0 : Nat) (sbase : List structinfo) (bt : Nat) :
    Pres (Kept n0 base m0 sbase) (o_assign bt) :=
  Pres_gen _ _ _ _ _

theorem Pres_o_deref (n0 : Nat) (base : List typdefinfo) (m0 : Nat) (sbase : List structinfo) (bt : Nat) :
    Pres (Kept n0 base m0 sbase) (o_deref bt) :=
  Pres_gen _ _ _ _ _

theorem Pres_o_load (n0 : Nat) (base : List typdefinfo) (m0 : Nat) (sbase : List structinfo)  :
    Pres (Kept n0 base m0 sbase) (o_load) :=
  Pres_gen _ _ _ _ _

theorem Pres_o_num (n0 : Nat) (base : List typdefinfo) (m0 : Nat) (sbase : List structinfo) (a : Int) :
    Pres (Kept n0 base m0 sbase) (o_num a) :=
  Pres_gen _ _ _ _ _

theorem Pres_o_local (n0 : Nat) (base : List typdefinfo) (m0 : Nat) (sbase : List structinfo) (a : Int) :
    Pres (Kept n0 base m0 sbase) (o_local a) :=
  Pres_gen _ _ _ _ _

theorem Pres_o_sym (n0 : Nat) (base : List typdefinfo) (m0 : Nat) (sbase : List structinfo) (a : String) :
    Pres (Kept n0 base m0 sbase) (o_sym a) :=
  Pres_gen _ _ _ _ _

theorem Pres_o_tmpdrop (n0 : Nat) (base : List typdefinfo) (m0 : Nat) (sbase : List structinfo) (a : Int) :
    Pres (Kept n0 base m0 sbase) (o_tmpdrop a) :=
  Pres_gen _ _ _ _ _

theorem Pres_o_tmpswap (n0 : Nat) (base : List typdefinfo) (m0 : Nat) (sbase : List structinfo)  :
    Pres (Kept n0 base m0 sbase) (o_tmpswap) :=
  Pres_gen _ _ _ _ _

theorem Pres_o_tmpcopy (n0 : Nat) (base : List typdefinfo) (m0 : Nat) (sbase : List structinfo)  :
    Pres (Kept n0 base m0 sbase) (o_tmpcopy) :=
  Pres_gen _ _ _ _ _

theorem Pres_o_label (n0 : Nat) (base : List typdefinfo) (m0 : Nat) (sbase : List structinfo) (a : Int) :
    Pres (Kept n0 base m0 sbase) (o_label a) :=
  Pres_gen _ _ _ _ _

theorem Pres_o_jz (n0 : Nat) (base : List typdefinfo) (m0 : Nat) (sbase : List structinfo) (a : Int) :
    Pres (Kept n0 base m0 sbase) (o_jz a) :=
  Pres_gen _ _ _ _ _

theorem Pres_o_jnz (n0 : Nat) (base : List typdefinfo) (m0 : Nat) (sbase : List structinfo) (a : Int) :
    Pres (Kept n0 base m0 sbase) (o_jnz a) :=
  Pres_gen _ _ _ _ _

theorem Pres_o_jmp (n0 : Nat) (base : List typdefinfo) (m0 : Nat) (sbase : List structinfo) (a : Int) :
    Pres (Kept n0 base m0 sbase) (o_jmp a) :=
  Pres_gen _ _ _ _ _

theorem Pres_o_fork (n0 : Nat) (base : List typdefinfo) (m0 : Nat) (sbase : List structinfo)  :
    Pres (Kept n0 base m0 sbase) (o_fork) :=
  Pres_gen _ _ _ _ _

theorem Pres_o_forkpush (n0 : Nat) (base : List typdefinfo) (m0 : Nat) (sbase : List structinfo)  :
    Pres (Kept n0 base m0 sbase) (o_forkpush) :=
  Pres_gen _ _ _ _ _

theorem Pres_o_forkjoin (n0 : Nat) (base : List typdefinfo) (m0 : Nat) (sbase : List structinfo)  :
    Pres (Kept n0 base m0 sbase) (o_forkjoin) :=
  Pres_gen _ _ _ _ _

theorem Pres_emit (n0 : Nat) (base : List typdefinfo) (m0 : Nat) (sbase : List structinfo) (c : Call) :
    Pres (Kept n0 base m0 sbase) (emit c) :=
  Pres_modS _ _ (fun _ hs => hs)

theorem Pres_err {α : Type} (I : State → Prop) (msg : String) : Pres I (err msg : P α) :=
  Pres_fail I _

theorem Pres_ub {α : Type} (I : State → Prop) (msg : String) : Pres I (ub msg : P α) :=
  Pres_fail I _

theorem Pres_outOfFuel {α : Type} (I : State → Prop) : Pres I (outOfFuel : P α) :=
  Pres_fail I _

theorem Pres_getS (I : State → Prop) : Pres I getS := by
  intro s a s1 hI h
  cases h
  exact hI

theorem Pres_tok_jump (n0 : Nat) (base : List typdefinfo) (m0 : Nat) (sbase : List structinfo) (a : Nat) :
    Pres (Kept n0 base m0 sbase) (tok_jump a) := by
  apply Pres_frame
  intro s a s1 h
  cases h; exact ⟨rfl, rfl, rfl, rfl⟩

theorem tok_jmp_pres (n0 : Nat) (base : List typdefinfo) (m0 : Nat) (sbase : List structinfo) (t : Tok) :
    Pres (Kept n0 base m0 sbase) (tok_jmp t) := by
  unfold tok_jmp
  repeat (with_reducible first
    | ((first | lift_lets | skip); intro x; first
        | (have hx : ∀ a b c, Pres (Kept n0 base m0 sbase) (x a b c) := ?_; clear_value x)
        | (have hx : ∀ a b, Pres (Kept n0 base m0 sbase) (x a b) := ?_; clear_value x)
        | (have hx : ∀ a, Pres (Kept n0 base m0 sbase) (x a) := ?_; clear_value x)
        | clear_value x)
    | (apply Pres_getS_bind; intro s0 hs0)
    | apply Pres_bind
    | apply Pres_pure
    | apply Pres_ite
    | intro _
    | apply_assumption
    | apply Pres_loop
    | apply Pres_iter
    | apply Pres_foldlM
    | apply Pres_gen
    | (apply Pres_modS; intro s hs; with_unfolding_all first | exact hs | exact Kept_setStructSize _ _ _ _ _ _ s hs | exact Kept_addField _ _ _ _ _ _ s hs | exact Kept_restore _ _ _ _ s0 s hs0 hs | exact Kept_bump_typedefs _ _ _ _ s hs | exact Kept_bump_structs _ _ _ _ s hs | exact Kept_typedef_add _ _ _ _ s0 s _ hs0 hs | exact Kept_struct_add _ _ _ _ s0 s _ hs0 hs)
    | apply Pres_tok_see
    | apply Pres_tok_get
    | exact hr
    | split
    | dsimp only)

theorem tok_expect_pres (n0 : Nat) (base : List typdefinfo) (m0 : Nat) (sbase : List structinfo) (t : Tok) :
    Pres (Kept n0 base m0 sbase) (tok_expect t) := by
  unfold tok_expect
  repeat (with_reducible first
    | ((first | lift_lets | skip); intro x; first
        | (have hx : ∀ a b c, Pres (Kept n0 base m0 sbase) (x a b c) := ?_; clear_value x)
        | (have hx : ∀ a b, Pres (Kept n0 base m0 sbase) (x a b) := ?_; clear_value x)
        | (have hx : ∀ a, Pres (Kept n0 base m0 sbase) (x a) := ?_; clear_value x)
        | clear_value x)
    | (apply Pres_getS_bind; intro s0 hs0)
    | apply Pres_bind
    | apply Pres_pure
    | apply Pres_ite
    | intro _
    | apply_assumption
    | apply Pres_loop
    | apply Pres_iter
    | apply Pres_foldlM
    | apply Pres_gen
    | (apply Pres_modS; intro s hs; with_unfolding_all first | exact hs | exact Kept_setStructSize _ _ _ _ _ _ s hs | exact Kept_addField _ _ _ _ _ _ s hs | exact Kept_restore _ _ _ _ s0 s hs0 hs | exact Kept_bump_typedefs _ _ _ _ s hs | exact Kept_bump_structs _ _ _ _ s hs | exact Kept_typedef_add _ _ _ _ s0 s _ hs0 hs | exact Kept_struct_add _ _ _ _ s0 s _ hs0 hs)
    | apply Pres_tok_get
    | apply Pres_err
    | exact hr
    | split
    | dsimp only)

theorem ts_push_bt_pres (n0 : Nat) (base : List typdefinfo) (m0 : Nat) (sbase : List structinfo) (e : Env) (bt : Nat) :
    Pres (Kept n0 base m0 sbase) (ts_push_bt e bt) := by
  unfold ts_push_bt
  repeat (with_reducible first
    | ((first | lift_lets | skip); intro x; first
        | (have hx : ∀ a b c, Pres (Kept n0 base m0 sbase) (x a b c) := ?_; clear_value x)
        | (have hx : ∀ a b, Pres (Kept n0 base m0 sbase) (x a b) := ?_; clear_value x)
        | (have hx : ∀ a, Pres (Kept n0 base m0 sbase) (x a) := ?_; clear_value x)
        | clear_value x)
    | (apply Pres_getS_bind; intro s0 hs0)
    | apply Pres_bind
    | apply Pres_pure
    | apply Pres_ite
    | intro _
    | apply_assumption
    | apply Pres_loop
    | apply Pres_iter
    | apply Pres_foldlM
    | apply Pres_gen
    | (apply Pres_modS; intro s hs; with_unfolding_all first | exact hs | exact Kept_setStructSize _ _ _ _ _ _ s hs | exact Kept_addField _ _ _ _ _ _ s hs | exact Kept_restore _ _ _ _ s0 s hs0 hs | exact Kept_bump_typedefs _ _ _ _ s hs | exact Kept_bump_structs _ _ _ _ s hs | exact Kept_typedef_add _ _ _ _ s0 s _ hs0 hs | exact Kept_struct_add _ _ _ _ s0 s _ hs0 hs)
    | apply Pres_o_cast
    | exact hr
    | split
    | dsimp only)

theorem ts_push_pres (n0 : Nat) (base : List typdefinfo) (m0 : Nat) (sbase : List structinfo) (t : type) :
    Pres (Kept n0 base m0 sbase) (ts_push t) := by
  unfold ts_push
  repeat (with_reducible first
    | ((first | lift_lets | skip); intro x; first
        | (have hx : ∀ a b c, Pres (Kept n0 base m0 sbase) (x a b c) := ?_; clear_value x)
        | (have hx : ∀ a b, Pres (Kept n0 base m0 sbase) (x a b) := ?_; clear_value x)
        | (have hx : ∀ a, Pres (Kept n0 base m0 sbase) (x a) := ?_; clear_value x)
        | clear_value x)
    | (apply Pres_getS_bind; intro s0 hs0)
    | apply Pres_bind
    | apply Pres_pure
    | apply Pres_ite
    | intro _
    | apply_assumption
    | apply Pres_loop
    | apply Pres_iter
    | apply Pres_foldlM
    | apply Pres_gen
    | (apply Pres_modS; intro s hs; with_unfolding_all first | exact hs | exact Kept_setStructSize _ _ _ _ _ _ s hs | exact Kept_addField _ _ _ _ _ _ s hs | exact Kept_restore _ _ _ _ s0 s hs0 hs | exact Kept_bump_typedefs _ _ _ _ s hs | exact Kept_bump_structs _ _ _ _ s hs | exact Kept_typedef_add _ _ _ _ s0 s _ hs0 hs | exact Kept_struct_add _ _ _ _ s0 s _ hs0 hs)
    | exact hr
    | split
    | dsimp only)

theorem ts_push_addr_pres (n0 : Nat) (base : List typdefinfo) (m0 : Nat) (sbase : List structinfo) (t : type) :
    Pres (Kept n0 base m0 sbase) (ts_push_addr t) := by
  unfold ts_push_addr
  repeat (with_reducible first
    | ((first | lift_lets | skip); intro x; first
        | (have hx : ∀ a b c, Pres (Kept n0 base m0 sbase) (x a b c) := ?_; clear_value x)
        | (have hx : ∀ a b, Pres (Kept n0 base m0 sbase) (x a b) := ?_; clear_value x)
        | (have hx : ∀ a, Pres (Kept n0 base m0 sbase) (x a) := ?_; clear_value x)
        | clear_value x)
    | (apply Pres_getS_bind; intro s0 hs0)
    | apply Pres_bind
    | apply Pres_pure
    | apply Pres_ite
    | intro _
    | apply_assumption
    | apply Pres_loop
    | apply Pres_iter
    | apply Pres_foldlM
    | apply Pres_gen
    | (apply Pres_modS; intro s hs; with_unfolding_all first | exact hs | exact Kept_setStructSize _ _ _ _ _ _ s hs | exact Kept_addField _ _ _ _ _ _ s hs | exact Kept_restore _ _ _ _ s0 s hs0 hs | exact Kept_bump_typedefs _ _ _ _ s hs | exact Kept_bump_structs _ _ _ _ s hs | exact Kept_typedef_add _ _ _ _ s0 s _ hs0 hs | exact Kept_struct_add _ _ _ _ s0 s _ hs0 hs)
    | apply ts_push_pres
    | exact hr
    | split
    | dsimp only)

theorem ts_de_pres (n0 : Nat) (base : List typdefinfo) (m0 : Nat) (sbase : List structinfo) (e : Env) (d : Int) :
    Pres (Kept n0 base m0 sbase) (ts_de e d) := by
  unfold ts_de
  repeat (with_reducible first
    | ((first | lift_lets | skip); intro x; first
        | (have hx : ∀ a b c, Pres (Kept n0 base m0 sbase) (x a b c) := ?_; clear_value x)
        | (have hx : ∀ a b, Pres (Kept n0 base m0 sbase) (x a b) := ?_; clear_value x)
        | (have hx : ∀ a, Pres (Kept n0 base m0 sbase) (x a) := ?_; clear_value x)
        | clear_value x)
    | (apply Pres_getS_bind; intro s0 hs0)
    | apply Pres_bind
    | apply Pres_pure
    | apply Pres_ite
    | intro _
    | apply_assumption
    | apply Pres_loop
    | apply Pres_iter
    | apply Pres_foldlM
    | apply Pres_gen
    | (apply Pres_modS; intro s hs; with_unfolding_all first | exact hs | exact Kept_setStructSize _ _ _ _ _ _ s hs | exact Kept_addField _ _ _ _ _ _ s hs | exact Kept_restore _ _ _ _ s0 s hs0 hs | exact Kept_bump_typedefs _ _ _ _ s hs | exact Kept_bump_structs _ _ _ _ s hs | exact Kept_typedef_add _ _ _ _ s0 s _ hs0 hs | exact Kept_struct_add _ _ _ _ s0 s _ hs0 hs)
    | apply Pres_ub
    | apply Pres_getS
    | apply Pres_o_deref
    | exact hr
    | split
    | dsimp only)

theorem ts_pop_de_pres (n0 : Nat) (base : List typdefinfo) (m0 : Nat) (sbase : List structinfo) (e : Env) :
    Pres (Kept n0 base m0 sbase) (ts_pop_de e) := by
  unfold ts_pop_de
  repeat (with_reducible first
    | ((first | lift_lets | skip); intro x; first
        | (have hx : ∀ a b c, Pres (Kept n0 base m0 sbase) (x a b c) := ?_; clear_value x)
        | (have hx : ∀ a b, Pres (Kept n0 base m0 sbase) (x a b) := ?_; clear_value x)
        | (have hx : ∀ a, Pres (Kept n0 base m0 sbase) (x a) := ?_; clear_value x)
        | clear_value x)
    | (apply Pres_getS_bind; intro s0 hs0)
    | apply Pres_bind
    | apply Pres_pure
    | apply Pres_ite
    | intro _
    | apply_assumption
    | apply Pres_loop
    | apply Pres_iter
    | apply Pres_foldlM
    | apply Pres_gen
    | (apply Pres_modS; intro s hs; with_unfolding_all first | exact hs | exact Kept_setStructSize _ _ _ _ _ _ s hs | exact Kept_addField _ _ _ _ _ _ s hs | exact Kept_restore _ _ _ _ s0 s hs0 hs | exact Kept_bump_typedefs _ _ _ _ s hs | exact Kept_bump_structs _ _ _ _ s hs | exact Kept_typedef_add _ _ _ _ s0 s _ hs0 hs | exact Kept_struct_add _ _ _ _ s0 s _ hs0 hs)
    | apply Pres_ts_pop
    | apply ts_de_pres
    | exact hr
    | split
    | dsimp only)

theorem ts_pop_de2_pres (n0 : Nat) (base : List typdefinfo) (m0 : Nat) (sbase : List structinfo) (e : Env) :
    Pres (Kept n0 base m0 sbase) (ts_pop_de2 e) := by
  unfold ts_pop_de2
  repeat (with_reducible first
    | ((first | lift_lets | skip); intro x; first
        | (have hx : ∀ a b c, Pres (Kept n0 base m0 sbase) (x a b c) := ?_; clear_value x)
        | (have hx : ∀ a b, Pres (Kept n0 base m0 sbase) (x a b) := ?_; clear_value x)
        | (have hx : ∀ a, Pres (Kept n0 base m0 sbase) (x a) := ?_; clear_value x)
        | clear_value x)
    | (apply Pres_getS_bind; intro s0 hs0)
    | apply Pres_bind
    | apply Pres_pure
    | apply Pres_ite
    | intro _
    | apply_assumption
    | apply Pres_loop
    | apply Pres_iter
    | apply Pres_foldlM
    | apply Pres_gen
    | (apply Pres_modS; intro s hs; with_unfolding_all first | exact hs | exact Kept_setStructSize _ _ _ _ _ _ s hs | exact Kept_addField _ _ _ _ _ _ s hs | exact Kept_restore _ _ _ _ s0 s hs0 hs | exact Kept_bump_typedefs _ _ _ _ s hs | exact Kept_bump_structs _ _ _ _ s hs | exact Kept_typedef_add _ _ _ _ s0 s _ hs0 hs | exact Kept_struct_add _ _ _ _ s0 s _ hs0 hs)
    | apply Pres_o_tmpswap
    | apply ts_pop_de_pres
    | exact hr
    | split
    | dsimp only)

theorem ts_binop_pres (n0 : Nat) (base : List typdefinfo) (m0 : Nat) (sbase : List structinfo) (e : Env) (op : Op) :
    Pres (Kept n0 base m0 sbase) (ts_binop e op) := by
  unfold ts_binop
  repeat (with_reducible first
    | ((first | lift_lets | skip); intro x; first
        | (have hx : ∀ a b c, Pres (Kept n0 base m0 sbase) (x a b c) := ?_; clear_value x)
        | (have hx : ∀ a b, Pres (Kept n0 base m0 sbase) (x a b) := ?_; clear_value x)
        | (have hx : ∀ a, Pres (Kept n0 base m0 sbase) (x a) := ?_; clear_value x)
        | clear_value x)
    | (apply Pres_getS_bind; intro s0 hs0)
    | apply Pres_bind
    | apply Pres_pure
    | apply Pres_ite
    | intro _
    | apply_assumption
    | apply Pres_loop
    | apply Pres_iter
    | apply Pres_foldlM
    | apply Pres_gen
    | (apply Pres_modS; intro s hs; with_unfolding_all first | exact hs | exact Kept_setStructSize _ _ _ _ _ _ s hs | exact Kept_addField _ _ _ _ _ _ s hs | exact Kept_restore _ _ _ _ s0 s hs0 hs | exact Kept_bump_typedefs _ _ _ _ s hs | exact Kept_bump_structs _ _ _ _ s hs | exact Kept_typedef_add _ _ _ _ s0 s _ hs0 hs | exact Kept_struct_add _ _ _ _ s0 s _ hs0 hs)
    | apply Pres_o_bop
    | apply ts_push_bt_pres
    | apply ts_pop_de2_pres
    | exact hr
    | split
    | dsimp only)

theorem ts_addop_pres (n0 : Nat) (base : List typdefinfo) (m0 : Nat) (sbase : List structinfo) (e : Env) (op : Op) :
    Pres (Kept n0 base m0 sbase) (ts_addop e op) := by
  unfold ts_addop
  repeat (with_reducible first
    | ((first | lift_lets | skip); intro x; first
        | (have hx : ∀ a b c, Pres (Kept n0 base m0 sbase) (x a b c) := ?_; clear_value x)
        | (have hx : ∀ a b, Pres (Kept n0 base m0 sbase) (x a b) := ?_; clear_value x)
        | (have hx : ∀ a, Pres (Kept n0 base m0 sbase) (x a) := ?_; clear_value x)
        | clear_value x)
    | (apply Pres_getS_bind; intro s0 hs0)
    | apply Pres_bind
    | apply Pres_pure
    | apply Pres_ite
    | intro _
    | apply_assumption
    | apply Pres_loop
    | apply Pres_iter
    | apply Pres_foldlM
    | apply Pres_gen
    | (apply Pres_modS; intro s hs; with_unfolding_all first | exact hs | exact Kept_setStructSize _ _ _ _ _ _ s hs | exact Kept_addField _ _ _ _ _ _ s hs | exact Kept_restore _ _ _ _ s0 s hs0 hs | exact Kept_bump_typedefs _ _ _ _ s hs | exact Kept_bump_structs _ _ _ _ s hs | exact Kept_typedef_add _ _ _ _ s0 s _ hs0 hs | exact Kept_struct_add _ _ _ _ s0 s _ hs0 hs)
    | apply Pres_type_szde
    | apply Pres_o_bop
    | apply Pres_o_num
    | apply Pres_o_tmpswap
    | apply ts_push_bt_pres
    | apply ts_push_pres
    | apply ts_pop_de2_pres
    | exact hr
    | split
    | dsimp only)

theorem structdef_pres (n0 : Nat) (base : List typdefinfo) (m0 : Nat) (sbase : List structinfo) (e : Env) (id : Nat) (nm : name) (fl : Nat) :
    Pres (Kept n0 base m0 sbase) (structdef e id nm fl) := by
  unfold structdef
  repeat (with_reducible first
    | ((first | lift_lets | skip); intro x; first
        | (have hx : ∀ a b c, Pres (Kept n0 base m0 sbase) (x a b c) := ?_; clear_value x)
        | (have hx : ∀ a b, Pres (Kept n0 base m0 sbase) (x a b) := ?_; clear_value x)
        | (have hx : ∀ a, Pres (Kept n0 base m0 sbase) (x a) := ?_; clear_value x)
        | clear_value x)
    | (apply Pres_getS_bind; intro s0 hs0)
    | apply Pres_bind
    | apply Pres_pure
    | apply Pres_ite
    | intro _
    | apply_assumption
    | apply Pres_loop
    | apply Pres_iter
    | apply Pres_foldlM
    | apply Pres_gen
    | (apply Pres_modS; intro s hs; with_unfolding_all first | exact hs | exact Kept_setStructSize _ _ _ _ _ _ s hs | exact Kept_addField _ _ _ _ _ _ s hs | exact Kept_restore _ _ _ _ s0 s hs0 hs | exact Kept_bump_typedefs _ _ _ _ s hs | exact Kept_bump_structs _ _ _ _ s hs | exact Kept_typedef_add _ _ _ _ s0 s _ hs0 hs | exact Kept_struct_add _ _ _ _ s0 s _ hs0 hs)
    | apply Pres_type_totsz
    | apply Pres_type_alignment
    | apply Pres_getS
    | exact hr
    | split
    | dsimp only)

theorem local_add_pres (n0 : Nat) (base : List typdefinfo) (m0 : Nat) (sbase : List structinfo) (e : Env) (nm : name) :
    Pres (Kept n0 base m0 sbase) (local_add e nm) := by
  unfold local_add
  repeat (with_reducible first
    | ((first | lift_lets | skip); intro x; first
        | (have hx : ∀ a b c, Pres (Kept n0 base m0 sbase) (x a b c) := ?_; clear_value x)
        | (have hx : ∀ a b, Pres (Kept n0 base m0 sbase) (x a b) := ?_; clear_value x)
        | (have hx : ∀ a, Pres (Kept n0 base m0 sbase) (x a) := ?_; clear_value x)
        | clear_value x)
    | (apply Pres_getS_bind; intro s0 hs0)
    | apply Pres_bind
    | apply Pres_pure
    | apply Pres_ite
    | intro _
    | apply_assumption
    | apply Pres_loop
    | apply Pres_iter
    | apply Pres_foldlM
    | apply Pres_gen
    | (apply Pres_modS; intro s hs; with_unfolding_all first | exact hs | exact Kept_setStructSize _ _ _ _ _ _ s hs | exact Kept_addField _ _ _ _ _ _ s hs | exact Kept_restore _ _ _ _ s0 s hs0 hs | exact Kept_bump_typedefs _ _ _ _ s hs | exact Kept_bump_structs _ _ _ _ s hs | exact Kept_typedef_add _ _ _ _ s0 s _ hs0 hs | exact Kept_struct_add _ _ _ _ s0 s _ hs0 hs)
    | apply Pres_err
    | apply Pres_getS
    | exact hr
    | split
    | dsimp only)

theorem global_add_pres (n0 : Nat) (base : List typdefinfo) (m0 : Nat) (sbase : List structinfo) (e : Env) (nm : name) :
    Pres (Kept n0 base m0 sbase) (global_add e nm) := by
  unfold global_add
  repeat (with_reducible first
    | ((first | lift_lets | skip); intro x; first
        | (have hx : ∀ a b c, Pres (Kept n0 base m0 sbase) (x a b c) := ?_; clear_value x)
        | (have hx : ∀ a b, Pres (Kept n0 base m0 sbase) (x a b) := ?_; clear_value x)
        | (have hx : ∀ a, Pres (Kept n0 base m0 sbase) (x a) := ?_; clear_value x)
        | clear_value x)
    | (apply Pres_getS_bind; intro s0 hs0)
    | apply Pres_bind
    | apply Pres_pure
    | apply Pres_ite
    | intro _
    | apply_assumption
    | apply Pres_loop
    | apply Pres_iter
    | apply Pres_foldlM
    | apply Pres_gen
    | (apply Pres_modS; intro s hs; with_unfolding_all first | exact hs | exact Kept_setStructSize _ _ _ _ _ _ s hs | exact Kept_addField _ _ _ _ _ _ s hs | exact Kept_restore _ _ _ _ s0 s hs0 hs | exact Kept_bump_typedefs _ _ _ _ s hs | exact Kept_bump_structs _ _ _ _ s hs | exact Kept_typedef_add _ _ _ _ s0 s _ hs0 hs | exact Kept_struct_add _ _ _ _ s0 s _ hs0 hs)
    | apply Pres_err
    | apply Pres_getS
    | exact hr
    | split
    | dsimp only)

theorem enum_add_pres (n0 : Nat) (base : List typdefinfo) (m0 : Nat) (sbase : List structinfo) (e : Env) (nm : String) (v : Int) :
    Pres (Kept n0 base m0 sbase) (enum_add e nm v) := by
  unfold enum_add
  repeat (with_reducible first
    | ((first | lift_lets | skip); intro x; first
        | (have hx : ∀ a b c, Pres (Kept n0 base m0 sbase) (x a b c) := ?_; clear_value x)
        | (have hx : ∀ a b, Pres (Kept n0 base m0 sbase) (x a b) := ?_; clear_value x)
        | (have hx : ∀ a, Pres (Kept n0 base m0 sbase) (x a) := ?_; clear_value x)
        | clear_value x)
    | (apply Pres_getS_bind; intro s0 hs0)
    | apply Pres_bind
    | apply Pres_pure
    | apply Pres_ite
    | intro _
    | apply_assumption
    | apply Pres_loop
    | apply Pres_iter
    | apply Pres_foldlM
    | apply Pres_gen
    | (apply Pres_modS; intro s hs; with_unfolding_all first | exact hs | exact Kept_setStructSize _ _ _ _ _ _ s hs | exact Kept_addField _ _ _ _ _ _ s hs | exact Kept_restore _ _ _ _ s0 s hs0 hs | exact Kept_bump_typedefs _ _ _ _ s hs | exact Kept_bump_structs _ _ _ _ s hs | exact Kept_typedef_add _ _ _ _ s0 s _ hs0 hs | exact Kept_struct_add _ _ _ _ s0 s _ hs0 hs)
    | apply Pres_err
    | apply Pres_getS
    | exact hr
    | split
    | dsimp only)

theorem typedef_add_pres (n0 : Nat) (base : List typdefinfo) (m0 : Nat) (sbase : List structinfo) (e : Env) (nm : String) (t : type) :
    Pres (Kept n0 base m0 sbase) (typedef_add e nm t) := by
  unfold typedef_add
  repeat (with_reducible first
    | ((first | lift_lets | skip); intro x; first
        | (have hx : ∀ a b c, Pres (Kept n0 base m0 sbase) (x a b c) := ?_; clear_value x)
        | (have hx : ∀ a b, Pres (Kept n0 base m0 sbase) (x a b) := ?_; clear_value x)
        | (have hx : ∀ a, Pres (Kept n0 base m0 sbase) (x a) := ?_; clear_value x)
        | clear_value x)
    | (apply Pres_getS_bind; intro s0 hs0)
    | apply Pres_bind
    | apply Pres_pure
    | apply Pres_ite
    | intro _
    | apply_assumption
    | apply Pres_loop
    | apply Pres_iter
    | apply Pres_foldlM
    | apply Pres_gen
    | (apply Pres_modS; intro s hs; with_unfolding_all first | exact hs | exact Kept_setStructSize _ _ _ _ _ _ s hs | exact Kept_addField _ _ _ _ _ _ s hs | exact Kept_restore _ _ _ _ s0 s hs0 hs | exact Kept_bump_typedefs _ _ _ _ s hs | exact Kept_bump_structs _ _ _ _ s hs | exact Kept_typedef_add _ _ _ _ s0 s _ hs0 hs | exact Kept_struct_add _ _ _ _ s0 s _ hs0 hs)
    | apply Pres_err
    | apply Pres_getS
    | exact hr
    | split
    | dsimp only)

theorem struct_find_pres (n0 : Nat) (base : List typdefinfo) (m0 : Nat) (sbase : List structinfo) (e : Env) (nm : String) (u : Int) :
    Pres (Kept n0 base m0 sbase) (struct_find e nm u) := by
  unfold struct_find
  repeat (with_reducible first
    | ((first | lift_lets | skip); intro x; first
        | (have hx : ∀ a b c, Pres (Kept n0 base m0 sbase) (x a b c) := ?_; clear_value x)
        | (have hx : ∀ a b, Pres (Kept n0 base m0 sbase) (x a b) := ?_; clear_value x)
        | (have hx : ∀ a, Pres (Kept n0 base m0 sbase) (x a) := ?_; clear_value x)
        | clear_value x)
    | (apply Pres_getS_bind; intro s0 hs0)
    | apply Pres_bind
    | apply Pres_pure
    | apply Pres_ite
    | intro _
    | apply_assumption
    | apply Pres_loop
    | apply Pres_iter
    | apply Pres_foldlM
    | apply Pres_gen
    | (apply Pres_modS; intro s hs; with_unfolding_all first | exact hs | exact Kept_setStructSize _ _ _ _ _ _ s hs | exact Kept_addField _ _ _ _ _ _ s hs | exact Kept_restore _ _ _ _ s0 s hs0 hs | exact Kept_bump_typedefs _ _ _ _ s hs | exact Kept_bump_structs _ _ _ _ s hs | exact Kept_typedef_add _ _ _ _ s0 s _ hs0 hs | exact Kept_struct_add _ _ _ _ s0 s _ hs0 hs)
    | apply Pres_err
    | apply Pres_getS
    | exact hr
    | split
    | dsimp only)

theorem array_add_pres (n0 : Nat) (base : List typdefinfo) (m0 : Nat) (sbase : List structinfo) (e : Env) (t : type) (n : Int) :
    Pres (Kept n0 base m0 sbase) (array_add e t n) := by
  unfold array_add
  repeat (with_reducible first
    | ((first | lift_lets | skip); intro x; first
        | (have hx : ∀ a b c, Pres (Kept n0 base m0 sbase) (x a b c) := ?_; clear_value x)
        | (have hx : ∀ a b, Pres (Kept n0 base m0 sbase) (x a b) := ?_; clear_value x)
        | (have hx : ∀ a, Pres (Kept n0 base m0 sbase) (x a) := ?_; clear_value x)
        | clear_value x)
    | (apply Pres_getS_bind; intro s0 hs0)
    | apply Pres_bind
    | apply Pres_pure
    | apply Pres_ite
    | intro _
    | apply_assumption
    | apply Pres_loop
    | apply Pres_iter
    | apply Pres_foldlM
    | apply Pres_gen
    | (apply Pres_modS; intro s hs; with_unfolding_all first | exact hs | exact Kept_setStructSize _ _ _ _ _ _ s hs | exact Kept_addField _ _ _ _ _ _ s hs | exact Kept_restore _ _ _ _ s0 s hs0 hs | exact Kept_bump_typedefs _ _ _ _ s hs | exact Kept_bump_structs _ _ _ _ s hs | exact Kept_typedef_add _ _ _ _ s0 s _ hs0 hs | exact Kept_struct_add _ _ _ _ s0 s _ hs0 hs)
    | apply Pres_err
    | apply Pres_getS
    | exact hr
    | split
    | dsimp only)

theorem struct_field_pres (n0 : Nat) (base : List typdefinfo) (m0 : Nat) (sbase : List structinfo) (id : Nat) (nm : String) :
    Pres (Kept n0 base m0 sbase) (struct_field id nm) := by
  unfold struct_field
  repeat (with_reducible first
    | ((first | lift_lets | skip); intro x; first
        | (have hx : ∀ a b c, Pres (Kept n0 base m0 sbase) (x a b c) := ?_; clear_value x)
        | (have hx : ∀ a b, Pres (Kept n0 base m0 sbase) (x a b) := ?_; clear_value x)
        | (have hx : ∀ a, Pres (Kept n0 base m0 sbase) (x a) := ?_; clear_value x)
        | clear_value x)
    | (apply Pres_getS_bind; intro s0 hs0)
    | apply Pres_bind
    | apply Pres_pure
    | apply Pres_ite
    | intro _
    | apply_assumption
    | apply Pres_loop
    | apply Pres_iter
    | apply Pres_foldlM
    | apply Pres_gen
    | (apply Pres_modS; intro s hs; with_unfolding_all first | exact hs | exact Kept_setStructSize _ _ _ _ _ _ s hs | exact Kept_addField _ _ _ _ _ _ s hs | exact Kept_restore _ _ _ _ s0 s hs0 hs | exact Kept_bump_typedefs _ _ _ _ s hs | exact Kept_bump_structs _ _ _ _ s hs | exact Kept_typedef_add _ _ _ _ s0 s _ hs0 hs | exact Kept_struct_add _ _ _ _ s0 s _ hs0 hs)
    | apply Pres_err
    | apply Pres_getS
    | exact hr
    | split
    | dsimp only)

theorem func_create_pres (n0 : Nat) (base : List typdefinfo) (m0 : Nat) (sbase : List structinfo) (e : Env) (ret : type) (nm : String) (an : List String) (args : List type) (na : Nat) (varg : Int) :
    Pres (Kept n0 base m0 sbase) (func_create e ret nm an args na varg) := by
  unfold func_create
  repeat (with_reducible first
    | ((first | lift_lets | skip); intro x; first
        | (have hx : ∀ a b c, Pres (Kept n0 base m0 sbase) (x a b c) := ?_; clear_value x)
        | (have hx : ∀ a b, Pres (Kept n0 base m0 sbase) (x a b) := ?_; clear_value x)
        | (have hx : ∀ a, Pres (Kept n0 base m0 sbase) (x a) := ?_; clear_value x)
        | clear_value x)
    | (apply Pres_getS_bind; intro s0 hs0)
    | apply Pres_bind
    | apply Pres_pure
    | apply Pres_ite
    | intro _
    | apply_assumption
    | apply Pres_loop
    | apply Pres_iter
    | apply Pres_foldlM
    | apply Pres_gen
    | (apply Pres_modS; intro s hs; with_unfolding_all first | exact hs | exact Kept_setStructSize _ _ _ _ _ _ s hs | exact Kept_addField _ _ _ _ _ _ s hs | exact Kept_restore _ _ _ _ s0 s hs0 hs | exact Kept_bump_typedefs _ _ _ _ s hs | exact Kept_bump_structs _ _ _ _ s hs | exact Kept_typedef_add _ _ _ _ s0 s _ hs0 hs | exact Kept_struct_add _ _ _ _ s0 s _ hs0 hs)
    | apply Pres_err
    | apply Pres_getS
    | exact hr
    | split
    | dsimp only)

theorem krdef_pres (n0 : Nat) (base : List typdefinfo) (m0 : Nat) (sbase : List structinfo) (fid : Nat) (nm : name) (fl : Nat) :
    Pres (Kept n0 base m0 sbase) (krdef fid nm fl) := by
  unfold krdef
  repeat (with_reducible first
    | ((first | lift_lets | skip); intro x; first
        | (have hx : ∀ a b c, Pres (Kept n0 base m0 sbase) (x a b c) := ?_; clear_value x)
        | (have hx : ∀ a b, Pres (Kept n0 base m0 sbase) (x a b) := ?_; clear_value x)
        | (have hx : ∀ a, Pres (Kept n0 base m0 sbase) (x a) := ?_; clear_value x)
        | clear_value x)
    | (apply Pres_getS_bind; intro s0 hs0)
    | apply Pres_bind
    | apply Pres_pure
    | apply Pres_ite
    | intro _
    | apply_assumption
    | apply Pres_loop
    | apply Pres_iter
    | apply Pres_foldlM
    | apply Pres_gen
    | (apply Pres_modS; intro s hs; with_unfolding_all first | exact hs | exact Kept_setStructSize _ _ _ _ _ _ s hs | exact Kept_addField _ _ _ _ _ _ s hs | exact Kept_restore _ _ _ _ s0 s hs0 hs | exact Kept_bump_typedefs _ _ _ _ s hs | exact Kept_bump_structs _ _ _ _ s hs | exact Kept_typedef_add _ _ _ _ s0 s _ hs0 hs | exact Kept_struct_add _ _ _ _ s0 s _ hs0 hs)
    | exact hr
    | split
    | dsimp only)

theorem tmp_str_pres (n0 : Nat) (base : List typdefinfo) (m0 : Nat) (sbase : List structinfo) (e : Env) (buf : List Nat) (len : Int) :
    Pres (Kept n0 base m0 sbase) (tmp_str e buf len) := by
  unfold tmp_str
  repeat (with_reducible first
    | ((first | lift_lets | skip); intro x; first
        | (have hx : ∀ a b c, Pres (Kept n0 base m0 sbase) (x a b c) := ?_; clear_value x)
        | (have hx : ∀ a b, Pres (Kept n0 base m0 sbase) (x a b) := ?_; clear_value x)
        | (have hx : ∀ a, Pres (Kept n0 base m0 sbase) (x a) := ?_; clear_value x)
        | clear_value x)
    | (apply Pres_getS_bind; intro s0 hs0)
    | apply Pres_bind
    | apply Pres_pure
    | apply Pres_ite
    | intro _
    | apply_assumption
    | apply Pres_loop
    | apply Pres_iter
    | apply Pres_foldlM
    | apply Pres_gen
    | (apply Pres_modS; intro s hs; with_unfolding_all first | exact hs | exact Kept_setStructSize _ _ _ _ _ _ s hs | exact Kept_addField _ _ _ _ _ _ s hs | exact Kept_restore _ _ _ _ s0 s hs0 hs | exact Kept_bump_typedefs _ _ _ _ s hs | exact Kept_bump_structs _ _ _ _ s hs | exact Kept_typedef_add _ _ _ _ s0 s _ hs0 hs | exact Kept_struct_add _ _ _ _ s0 s _ hs0 hs)
    | apply Pres_o_dsnew
    | apply Pres_emit
    | apply Pres_getS
    | exact hr
    | split
    | dsimp only)

theorem o_sym_tmp_str_pres (n0 : Nat) (base : List typdefinfo) (m0 : Nat) (sbase : List structinfo) (e : Env) (buf : List Nat) (len : Int) :
    Pres (Kept n0 base m0 sbase) (o_sym_tmp_str e buf len) := by
  unfold o_sym_tmp_str
  repeat (with_reducible first
    | ((first | lift_lets | skip); intro x; first
        | (have hx : ∀ a b c, Pres (Kept n0 base m0 sbase) (x a b c) := ?_; clear_value x)
        | (have hx : ∀ a b, Pres (Kept n0 base m0 sbase) (x a b) := ?_; clear_value x)
        | (have hx : ∀ a, Pres (Kept n0 base m0 sbase) (x a) := ?_; clear_value x)
        | clear_value x)
    | (apply Pres_getS_bind; intro s0 hs0)
    | apply Pres_bind
    | apply Pres_pure
    | apply Pres_ite
    | intro _
    | apply_assumption
    | apply Pres_loop
    | apply Pres_iter
    | apply Pres_foldlM
    | apply Pres_gen
    | (apply Pres_modS; intro s hs; with_unfolding_all first | exact hs | exact Kept_setStructSize _ _ _ _ _ _ s hs | exact Kept_addField _ _ _ _ _ _ s hs | exact Kept_restore _ _ _ _ s0 s hs0 hs | exact Kept_bump_typedefs _ _ _ _ s hs | exact Kept_bump_structs _ _ _ _ s hs | exact Kept_typedef_add _ _ _ _ s0 s _ hs0 hs | exact Kept_struct_add _ _ _ _ s0 s _ hs0 hs)
    | apply Pres_o_dsnew
    | apply Pres_emit
    | apply Pres_getS
    | apply tmp_str_pres
    | exact hr
    | split
    | dsimp only)

theorem label_id_pres (n0 : Nat) (base : List typdefinfo) (m0 : Nat) (sbase : List structinfo) (nm : String) :
    Pres (Kept n0 base m0 sbase) (label_id nm) := by
  unfold label_id
  repeat (with_reducible first
    | ((first | lift_lets | skip); intro x; first
        | (have hx : ∀ a b c, Pres (Kept n0 base m0 sbase) (x a b c) := ?_; clear_value x)
        | (have hx : ∀ a b, Pres (Kept n0 base m0 sbase) (x a b) := ?_; clear_value x)
        | (have hx : ∀ a, Pres (Kept n0 base m0 sbase) (x a) := ?_; clear_value x)
        | clear_value x)
    | (apply Pres_getS_bind; intro s0 hs0)
    | apply Pres_bind
    | apply Pres_pure
    | apply Pres_ite
    | intro _
    | apply_assumption
    | apply Pres_loop
    | apply Pres_iter
    | apply Pres_foldlM
    | apply Pres_gen
    | (apply Pres_modS; intro s hs; with_unfolding_all first | exact hs | exact Kept_setStructSize _ _ _ _ _ _ s hs | exact Kept_addField _ _ _ _ _ _ s hs | exact Kept_restore _ _ _ _ s0 s hs0 hs | exact Kept_bump_typedefs _ _ _ _ s hs | exact Kept_bump_structs _ _ _ _ s hs | exact Kept_typedef_add _ _ _ _ s0 s _ hs0 hs | exact Kept_struct_add _ _ _ _ s0 s _ hs0 hs)
    | apply Pres_LABEL
    | apply Pres_getS
    | exact hr
    | split
    | dsimp only)

theorem o_jmp_label_id_pres (n0 : Nat) (base : List typdefinfo) (m0 : Nat) (sbase : List structinfo) :
    Pres (Kept n0 base m0 sbase) o_jmp_label_id := by
  unfold o_jmp_label_id
  repeat (with_reducible first
    | ((first | lift_lets | skip); intro x; first
        | (have hx : ∀ a b c, Pres (Kept n0 base m0 sbase) (x a b c) := ?_; clear_value x)
        | (have hx : ∀ a b, Pres (Kept n0 base m0 sbase) (x a b) := ?_; clear_value x)
        | (have hx : ∀ a, Pres (Kept n0 base m0 sbase) (x a) := ?_; clear_value x)
        | clear_value x)
    | (apply Pres_getS_bind; intro s0 hs0)
    | apply Pres_bind
    | apply Pres_pure
    | apply Pres_ite
    | intro _
    | apply_assumption
    | apply Pres_loop
    | apply Pres_iter
    | apply Pres_foldlM
    | apply Pres_gen
    | (apply Pres_modS; intro s hs; with_unfolding_all first | exact hs | exact Kept_setStructSize _ _ _ _ _ _ s hs | exact Kept_addField _ _ _ _ _ _ s hs | exact Kept_restore _ _ _ _ s0 s hs0 hs | exact Kept_bump_typedefs _ _ _ _ s hs | exact Kept_bump_structs _ _ _ _ s hs | exact Kept_typedef_add _ _ _ _ s0 s _ hs0 hs | exact Kept_struct_add _ _ _ _ s0 s _ hs0 hs)
    | apply Pres_o_dsnew
    | apply Pres_emit
    | apply Pres_getS
    | apply label_id_pres
    | apply Pres_tok_id
    | exact hr
    | split
    | dsimp only)

theorem o_label_label_id_pres (n0 : Nat) (base : List typdefinfo) (m0 : Nat) (sbase : List structinfo) :
    Pres (Kept n0 base m0 sbase) o_label_label_id := by
  unfold o_label_label_id
  repeat (with_reducible first
    | ((first | lift_lets | skip); intro x; first
        | (have hx : ∀ a b c, Pres (Kept n0 base m0 sbase) (x a b c) := ?_; clear_value x)
        | (have hx : ∀ a b, Pres (Kept n0 base m0 sbase) (x a b) := ?_; clear_value x)
        | (have hx : ∀ a, Pres (Kept n0 base m0 sbase) (x a) := ?_; clear_value x)
        | clear_value x)
    | (apply Pres_getS_bind; intro s0 hs0)
    | apply Pres_bind
    | apply Pres_pure
    | apply Pres_ite
    | intro _
    | apply_assumption
    | apply Pres_loop
    | apply Pres_iter
    | apply Pres_foldlM
    | apply Pres_gen
    | (apply Pres_modS; intro s hs; with_unfolding_all first | exact hs | exact Kept_setStructSize _ _ _ _ _ _ s hs | exact Kept_addField _ _ _ _ _ _ s hs | exact Kept_restore _ _ _ _ s0 s hs0 hs | exact Kept_bump_typedefs _ _ _ _ s hs | exact Kept_bump_structs _ _ _ _ s hs | exact Kept_typedef_add _ _ _ _ s0 s _ hs0 hs | exact Kept_struct_add _ _ _ _ s0 s _ hs0 hs)
    | apply Pres_o_dsnew
    | apply Pres_emit
    | apply Pres_getS
    | apply label_id_pres
    | apply Pres_tok_id
    | exact hr
    | split
    | dsimp only)

theorem enum_create_pres (n0 : Nat) (base : List typdefinfo) (m0 : Nat) (sbase : List structinfo) (r : Rec) (hr : PresRec (Kept n0 base m0 sbase) r) (e : Env) :
    Pres (Kept n0 base m0 sbase) (enum_create e r) := by
  unfold enum_create
  repeat (with_reducible first
    | ((first | lift_lets | skip); intro x; first
        | (have hx : ∀ a b c, Pres (Kept n0 base m0 sbase) (x a b c) := ?_; clear_value x)
        | (have hx : ∀ a b, Pres (Kept n0 base m0 sbase) (x a b) := ?_; clear_value x)
        | (have hx : ∀ a, Pres (Kept n0 base m0 sbase) (x a) := ?_; clear_value x)
        | clear_value x)
    | (apply Pres_getS_bind; intro s0 hs0)
    | apply Pres_bind
    | apply Pres_pure
    | apply Pres_ite
    | intro _
    | apply_assumption
    | apply Pres_loop
    | apply Pres_iter
    | apply Pres_foldlM
    | apply Pres_gen
    | (apply Pres_modS; intro s hs; with_unfolding_all first | exact hs | exact Kept_setStructSize _ _ _ _ _ _ s hs | exact Kept_addField _ _ _ _ _ _ s hs | exact Kept_restore _ _ _ _ s0 s hs0 hs | exact Kept_bump_typedefs _ _ _ _ s hs | exact Kept_bump_structs _ _ _ _ s hs | exact Kept_typedef_add _ _ _ _ s0 s _ hs0 hs | exact Kept_struct_add _ _ _ _ s0 s _ hs0 hs)
    | apply Pres_o_popnum
    | apply Pres_tok_id
    | apply Pres_err
    | apply tok_jmp_pres
    | apply tok_expect_pres
    | apply ts_pop_de_pres
    | apply enum_add_pres
    | apply hr.readexpr
    | exact hr
    | split
    | dsimp only)

theorem struct_create_pres (n0 : Nat) (base : List typdefinfo) (m0 : Nat) (sbase : List structinfo) (r : Rec) (hr : PresRec (Kept n0 base m0 sbase) r) (e : Env) (nm : String) (u : Int) :
    Pres (Kept n0 base m0 sbase) (struct_create e r nm u) := by
  unfold struct_create
  repeat (with_reducible first
    | ((first | lift_lets | skip); intro x; first
        | (have hx : ∀ a b c, Pres (Kept n0 base m0 sbase) (x a b c) := ?_; clear_value x)
        | (have hx : ∀ a b, Pres (Kept n0 base m0 sbase) (x a b) := ?_; clear_value x)
        | (have hx : ∀ a, Pres (Kept n0 base m0 sbase) (x a) := ?_; clear_value x)
        | clear_value x)
    | (apply Pres_getS_bind; intro s0 hs0)
    | apply Pres_bind
    | apply Pres_pure
    | apply Pres_ite
    | intro _
    | apply_assumption
    | apply Pres_loop
    | apply Pres_iter
    | apply Pres_foldlM
    | apply Pres_gen
    | (apply Pres_modS; intro s hs; with_unfolding_all first | exact hs | exact Kept_setStructSize _ _ _ _ _ _ s hs | exact Kept_addField _ _ _ _ _ _ s hs | exact Kept_restore _ _ _ _ s0 s hs0 hs | exact Kept_bump_typedefs _ _ _ _ s hs | exact Kept_bump_structs _ _ _ _ s hs | exact Kept_typedef_add _ _ _ _ s0 s _ hs0 hs | exact Kept_struct_add _ _ _ _ s0 s _ hs0 hs)
    | apply tok_jmp_pres
    | apply tok_expect_pres
    | apply struct_find_pres
    | apply hr.readdefs
    | exact hr
    | split
    | dsimp only)

theorem basetype_step_pres (n0 : Nat) (base : List typdefinfo) (m0 : Nat) (sbase : List structinfo) (r : Rec) (hr : PresRec (Kept n0 base m0 sbase) r) (e : Env) (v : BaseVars) :
    Pres (Kept n0 base m0 sbase) (basetype_step e r v) := by
  unfold basetype_step
  repeat (with_reducible first
    | apply Pres_bind
    | apply Pres_pure
    | apply Pres_ite
    | intro _
    | apply Pres_loop
    | apply Pres_iter
    | apply Pres_foldlM
    | apply Pres_gen
    | (apply Pres_modS; intro s hs; with_unfolding_all first | exact hs | exact Kept_setStructSize _ _ _ _ _ _ s hs | exact Kept_addField _ _ _ _ _ _ s hs | exact Kept_restore _ _ _ _ s0 s hs0 hs | exact Kept_bump_typedefs _ _ _ _ s hs | exact Kept_bump_structs _ _ _ _ s hs | exact Kept_typedef_add _ _ _ _ s0 s _ hs0 hs | exact Kept_struct_add _ _ _ _ s0 s _ hs0 hs)
    | apply Pres_tok_see
    | apply Pres_tok_get
    | apply Pres_tok_id
    | apply Pres_typedef_find
    | apply Pres_getS
    | apply tok_jmp_pres
    | apply struct_find_pres
    | apply enum_create_pres
    | apply struct_create_pres
    | exact hr
    | split
    | dsimp only)

theorem basetype_pres (n0 : Nat) (base : List typdefinfo) (m0 : Nat) (sbase : List structinfo) (r : Rec) (hr : PresRec (Kept n0 base m0 sbase) r) (e : Env) (t0 : type) :
    Pres (Kept n0 base m0 sbase) (basetype e r t0) := by
  unfold basetype
  repeat (with_reducible first
    | ((first | lift_lets | skip); intro x; first
        | (have hx : ∀ a b c, Pres (Kept n0 base m0 sbase) (x a b c) := ?_; clear_value x)
        | (have hx : ∀ a b, Pres (Kept n0 base m0 sbase) (x a b) := ?_; clear_value x)
        | (have hx : ∀ a, Pres (Kept n0 base m0 sbase) (x a) := ?_; clear_value x)
        | clear_value x)
    | (apply Pres_getS_bind; intro s0 hs0)
    | apply Pres_bind
    | apply Pres_pure
    | apply Pres_ite
    | intro _
    | apply_assumption
    | apply Pres_loop
    | apply Pres_iter
    | apply Pres_foldlM
    | apply Pres_gen
    | (apply Pres_modS; intro s hs; with_unfolding_all first | exact hs | exact Kept_setStructSize _ _ _ _ _ _ s hs | exact Kept_addField _ _ _ _ _ _ s hs | exact Kept_restore _ _ _ _ s0 s hs0 hs | exact Kept_bump_typedefs _ _ _ _ s hs | exact Kept_bump_structs _ _ _ _ s hs | exact Kept_typedef_add _ _ _ _ s0 s _ hs0 hs | exact Kept_struct_add _ _ _ _ s0 s _ hs0 hs)
    | apply basetype_step_pres
    | exact hr
    | split
    | dsimp only)

theorem readptrs_pres (n0 : Nat) (base : List typdefinfo) (m0 : Nat) (sbase : List structinfo) (r : Rec) (t : type) :
    Pres (Kept n0 base m0 sbase) (readptrs r t) := by
  unfold readptrs
  repeat (with_reducible first
    | ((first | lift_lets | skip); intro x; first
        | (have hx : ∀ a b c, Pres (Kept n0 base m0 sbase) (x a b c) := ?_; clear_value x)
        | (have hx : ∀ a b, Pres (Kept n0 base m0 sbase) (x a b) := ?_; clear_value x)
        | (have hx : ∀ a, Pres (Kept n0 base m0 sbase) (x a) := ?_; clear_value x)
        | clear_value x)
    | (apply Pres_getS_bind; intro s0 hs0)
    | apply Pres_bind
    | apply Pres_pure
    | apply Pres_ite
    | intro _
    | apply_assumption
    | apply Pres_loop
    | apply Pres_iter
    | apply Pres_foldlM
    | apply Pres_gen
    | (apply Pres_modS; intro s hs; with_unfolding_all first | exact hs | exact Kept_setStructSize _ _ _ _ _ _ s hs | exact Kept_addField _ _ _ _ _ _ s hs | exact Kept_restore _ _ _ _ s0 s hs0 hs | exact Kept_bump_typedefs _ _ _ _ s hs | exact Kept_bump_structs _ _ _ _ s hs | exact Kept_typedef_add _ _ _ _ s0 s _ hs0 hs | exact Kept_struct_add _ _ _ _ s0 s _ hs0 hs)
    | apply tok_jmp_pres
    | exact hr
    | split
    | dsimp only)

theorem readarrays_pres (n0 : Nat) (base : List typdefinfo) (m0 : Nat) (sbase : List structinfo) (r : Rec) (hr : PresRec (Kept n0 base m0 sbase) r) (e : Env) (t : type) :
    Pres (Kept n0 base m0 sbase) (readarrays e r t) := by
  unfold readarrays
  repeat (with_reducible first
    | ((first | lift_lets | skip); intro x; first
        | (have hx : ∀ a b c, Pres (Kept n0 base m0 sbase) (x a b c) := ?_; clear_value x)
        | (have hx : ∀ a b, Pres (Kept n0 base m0 sbase) (x a b) := ?_; clear_value x)
        | (have hx : ∀ a, Pres (Kept n0 base m0 sbase) (x a) := ?_; clear_value x)
        | clear_value x)
    | (apply Pres_getS_bind; intro s0 hs0)
    | apply Pres_bind
    | apply Pres_pure
    | apply Pres_ite
    | intro _
    | apply_assumption
    | apply Pres_loop
    | apply Pres_iter
    | apply Pres_foldlM
    | apply Pres_gen
    | (apply Pres_modS; intro s hs; with_unfolding_all first | exact hs | exact Kept_setStructSize _ _ _ _ _ _ s hs | exact Kept_addField _ _ _ _ _ _ s hs | exact Kept_restore _ _ _ _ s0 s hs0 hs | exact Kept_bump_typedefs _ _ _ _ s hs | exact Kept_bump_structs _ _ _ _ s hs | exact Kept_typedef_add _ _ _ _ s0 s _ hs0 hs | exact Kept_struct_add _ _ _ _ s0 s _ hs0 hs)
    | apply Pres_o_popnum
    | apply Pres_err
    | apply tok_jmp_pres
    | apply tok_expect_pres
    | apply ts_pop_de_pres
    | apply array_add_pres
    | apply hr.readexpr
    | exact hr
    | split
    | dsimp only)

theorem readargs_pres (n0 : Nat) (base : List typdefinfo) (m0 : Nat) (sbase : List structinfo) (r : Rec) (hr : PresRec (Kept n0 base m0 sbase) r) (e : Env) :
    Pres (Kept n0 base m0 sbase) (readargs e r) := by
  unfold readargs
  repeat (with_reducible first
    | ((first | lift_lets | skip); intro x; first
        | (have hx : ∀ a b c, Pres (Kept n0 base m0 sbase) (x a b c) := ?_; clear_value x)
        | (have hx : ∀ a b, Pres (Kept n0 base m0 sbase) (x a b) := ?_; clear_value x)
        | (have hx : ∀ a, Pres (Kept n0 base m0 sbase) (x a) := ?_; clear_value x)
        | clear_value x)
    | (apply Pres_getS_bind; intro s0 hs0)
    | apply Pres_bind
    | apply Pres_pure
    | apply Pres_ite
    | intro _
    | apply_assumption
    | apply Pres_loop
    | apply Pres_iter
    | apply Pres_foldlM
    | apply Pres_gen
    | (apply Pres_modS; intro s hs; with_unfolding_all first | exact hs | exact Kept_setStructSize _ _ _ _ _ _ s hs | exact Kept_addField _ _ _ _ _ _ s hs | exact Kept_restore _ _ _ _ s0 s hs0 hs | exact Kept_bump_typedefs _ _ _ _ s hs | exact Kept_bump_structs _ _ _ _ s hs | exact Kept_typedef_add _ _ _ _ s0 s _ hs0 hs | exact Kept_struct_add _ _ _ _ s0 s _ hs0 hs)
    | apply Pres_tok_see
    | apply Pres_tok_id
    | apply Pres_getS
    | apply tok_jmp_pres
    | apply tok_expect_pres
    | apply hr.readname
    | exact hr
    | split
    | dsimp only)

theorem setFuncType_pres (n0 : Nat) (base : List typdefinfo) (m0 : Nat) (sbase : List structinfo) (e : Env) (cur : type) (loc : Option Nat) (fid : Nat) :
    Pres (Kept n0 base m0 sbase) (setFuncType e cur loc fid) := by
  unfold setFuncType
  repeat (with_reducible first
    | ((first | lift_lets | skip); intro x; first
        | (have hx : ∀ a b c, Pres (Kept n0 base m0 sbase) (x a b c) := ?_; clear_value x)
        | (have hx : ∀ a b, Pres (Kept n0 base m0 sbase) (x a b) := ?_; clear_value x)
        | (have hx : ∀ a, Pres (Kept n0 base m0 sbase) (x a) := ?_; clear_value x)
        | clear_value x)
    | (apply Pres_getS_bind; intro s0 hs0)
    | apply Pres_bind
    | apply Pres_pure
    | apply Pres_ite
    | intro _
    | apply_assumption
    | apply Pres_loop
    | apply Pres_iter
    | apply Pres_foldlM
    | apply Pres_gen
    | (apply Pres_modS; intro s hs; with_unfolding_all first | exact hs | exact Kept_setStructSize _ _ _ _ _ _ s hs | exact Kept_addField _ _ _ _ _ _ s hs | exact Kept_restore _ _ _ _ s0 s hs0 hs | exact Kept_bump_typedefs _ _ _ _ s hs | exact Kept_bump_structs _ _ _ _ s hs | exact Kept_typedef_add _ _ _ _ s0 s _ hs0 hs | exact Kept_struct_add _ _ _ _ s0 s _ hs0 hs)
    | exact hr
    | split
    | dsimp only)

theorem readname_pres (n0 : Nat) (base : List typdefinfo) (m0 : Nat) (sbase : List structinfo) (r : Rec) (hr : PresRec (Kept n0 base m0 sbase) r) (e : Env) (hn : Bool) (b : Option type) :
    Pres (Kept n0 base m0 sbase) (readname e r hn b) := by
  unfold readname
  repeat (with_reducible first
    | ((first | lift_lets | skip); intro x; first
        | (have hx : ∀ a b c, Pres (Kept n0 base m0 sbase) (x a b c) := ?_; clear_value x)
        | (have hx : ∀ a b, Pres (Kept n0 base m0 sbase) (x a b) := ?_; clear_value x)
        | (have hx : ∀ a, Pres (Kept n0 base m0 sbase) (x a) := ?_; clear_value x)
        | clear_value x)
    | (apply Pres_getS_bind; intro s0 hs0)
    | apply Pres_bind
    | apply Pres_pure
    | apply Pres_ite
    | intro _
    | apply_assumption
    | apply Pres_loop
    | apply Pres_iter
    | apply Pres_foldlM
    | apply Pres_gen
    | (apply Pres_modS; intro s hs; with_unfolding_all first | exact hs | exact Kept_setStructSize _ _ _ _ _ _ s hs | exact Kept_addField _ _ _ _ _ _ s hs | exact Kept_restore _ _ _ _ s0 s hs0 hs | exact Kept_bump_typedefs _ _ _ _ s hs | exact Kept_bump_structs _ _ _ _ s hs | exact Kept_typedef_add _ _ _ _ s0 s _ hs0 hs | exact Kept_struct_add _ _ _ _ s0 s _ hs0 hs)
    | apply Pres_tok_see
    | apply Pres_tok_id
    | apply Pres_getS
    | apply tok_jmp_pres
    | apply tok_expect_pres
    | apply func_create_pres
    | apply basetype_pres
    | apply readptrs_pres
    | apply readarrays_pres
    | apply readargs_pres
    | apply setFuncType_pres
    | apply hr.readdefs
    | exact hr
    | split
    | dsimp only)

theorem readtype_pres (n0 : Nat) (base : List typdefinfo) (m0 : Nat) (sbase : List structinfo) (r : Rec) (hr : PresRec (Kept n0 base m0 sbase) r) (e : Env) :
    Pres (Kept n0 base m0 sbase) (readtype e r) := by
  unfold readtype
  repeat (with_reducible first
    | ((first | lift_lets | skip); intro x; first
        | (have hx : ∀ a b c, Pres (Kept n0 base m0 sbase) (x a b c) := ?_; clear_value x)
        | (have hx : ∀ a b, Pres (Kept n0 base m0 sbase) (x a b) := ?_; clear_value x)
        | (have hx : ∀ a, Pres (Kept n0 base m0 sbase) (x a) := ?_; clear_value x)
        | clear_value x)
    | (apply Pres_getS_bind; intro s0 hs0)
    | apply Pres_bind
    | apply Pres_pure
    | apply Pres_ite
    | intro _
    | apply_assumption
    | apply Pres_loop
    | apply Pres_iter
    | apply Pres_foldlM
    | apply Pres_gen
    | (apply Pres_modS; intro s hs; with_unfolding_all first | exact hs | exact Kept_setStructSize _ _ _ _ _ _ s hs | exact Kept_addField _ _ _ _ _ _ s hs | exact Kept_restore _ _ _ _ s0 s hs0 hs | exact Kept_bump_typedefs _ _ _ _ s hs | exact Kept_bump_structs _ _ _ _ s hs | exact Kept_typedef_add _ _ _ _ s0 s _ hs0 hs | exact Kept_struct_add _ _ _ _ s0 s _ hs0 hs)
    | apply readname_pres
    | exact hr
    | split
    | dsimp only)

theorem readprimary_pres (n0 : Nat) (base : List typdefinfo) (m0 : Nat) (sbase : List structinfo) (r : Rec) (hr : PresRec (Kept n0 base m0 sbase) r) (e : Env) :
    Pres (Kept n0 base m0 sbase) (readprimary e r) := by
  unfold readprimary
  repeat (with_reducible first
    | ((first | lift_lets | skip); intro x; first
        | (have hx : ∀ a b c, Pres (Kept n0 base m0 sbase) (x a b c) := ?_; clear_value x)
        | (have hx : ∀ a b, Pres (Kept n0 base m0 sbase) (x a b) := ?_; clear_value x)
        | (have hx : ∀ a, Pres (Kept n0 base m0 sbase) (x a) := ?_; clear_value x)
        | clear_value x)
    | (apply Pres_getS_bind; intro s0 hs0)
    | apply Pres_bind
    | apply Pres_pure
    | apply Pres_ite
    | intro _
    | apply_assumption
    | apply Pres_loop
    | apply Pres_iter
    | apply Pres_foldlM
    | apply Pres_gen
    | (apply Pres_modS; intro s hs; with_unfolding_all first | exact hs | exact Kept_setStructSize _ _ _ _ _ _ s hs | exact Kept_addField _ _ _ _ _ _ s hs | exact Kept_restore _ _ _ _ s0 s hs0 hs | exact Kept_bump_typedefs _ _ _ _ s hs | exact Kept_bump_structs _ _ _ _ s hs | exact Kept_typedef_add _ _ _ _ s0 s _ hs0 hs | exact Kept_struct_add _ _ _ _ s0 s _ hs0 hs)
    | apply Pres_tok_see
    | apply Pres_tok_id
    | apply Pres_tok_num
    | apply Pres_tok_str
    | apply Pres_ts_pop
    | apply Pres_local_find
    | apply Pres_global_find
    | apply Pres_enum_find
    | apply Pres_err
    | apply Pres_getS
    | apply Pres_o_cast
    | apply Pres_o_num
    | apply Pres_o_local
    | apply Pres_o_sym
    | apply Pres_o_tmpdrop
    | apply tok_jmp_pres
    | apply tok_expect_pres
    | apply ts_push_bt_pres
    | apply ts_push_pres
    | apply ts_push_addr_pres
    | apply ts_pop_de_pres
    | apply global_add_pres
    | apply array_add_pres
    | apply tmp_str_pres
    | apply o_sym_tmp_str_pres
    | apply readtype_pres
    | apply hr.readexpr
    | apply hr.readpre
    | exact hr
    | split
    | dsimp only)

theorem arrayderef_pres (n0 : Nat) (base : List typdefinfo) (m0 : Nat) (sbase : List structinfo) (e : Env) :
    Pres (Kept n0 base m0 sbase) (arrayderef e) := by
  unfold arrayderef
  repeat (with_reducible first
    | ((first | lift_lets | skip); intro x; first
        | (have hx : ∀ a b c, Pres (Kept n0 base m0 sbase) (x a b c) := ?_; clear_value x)
        | (have hx : ∀ a b, Pres (Kept n0 base m0 sbase) (x a b) := ?_; clear_value x)
        | (have hx : ∀ a, Pres (Kept n0 base m0 sbase) (x a) := ?_; clear_value x)
        | clear_value x)
    | (apply Pres_getS_bind; intro s0 hs0)
    | apply Pres_bind
    | apply Pres_pure
    | apply Pres_ite
    | intro _
    | apply_assumption
    | apply Pres_loop
    | apply Pres_iter
    | apply Pres_foldlM
    | apply Pres_gen
    | (apply Pres_modS; intro s hs; with_unfolding_all first | exact hs | exact Kept_setStructSize _ _ _ _ _ _ s hs | exact Kept_addField _ _ _ _ _ _ s hs | exact Kept_restore _ _ _ _ s0 s hs0 hs | exact Kept_bump_typedefs _ _ _ _ s hs | exact Kept_bump_structs _ _ _ _ s hs | exact Kept_typedef_add _ _ _ _ s0 s _ hs0 hs | exact Kept_struct_add _ _ _ _ s0 s _ hs0 hs)
    | apply Pres_type_totsz
    | apply Pres_ts_pop
    | apply Pres_getS
    | apply Pres_o_bop
    | apply Pres_o_deref
    | apply Pres_o_num
    | apply Pres_o_tmpswap
    | apply ts_push_pres
    | apply ts_pop_de_pres
    | exact hr
    | split
    | dsimp only)

theorem inc_post_pres (n0 : Nat) (base : List typdefinfo) (m0 : Nat) (sbase : List structinfo) (e : Env) (op : Op) :
    Pres (Kept n0 base m0 sbase) (inc_post e op) := by
  unfold inc_post
  repeat (with_reducible first
    | ((first | lift_lets | skip); intro x; first
        | (have hx : ∀ a b c, Pres (Kept n0 base m0 sbase) (x a b c) := ?_; clear_value x)
        | (have hx : ∀ a b, Pres (Kept n0 base m0 sbase) (x a b) := ?_; clear_value x)
        | (have hx : ∀ a, Pres (Kept n0 base m0 sbase) (x a) := ?_; clear_value x)
        | clear_value x)
    | (apply Pres_getS_bind; intro s0 hs0)
    | apply Pres_bind
    | apply Pres_pure
    | apply Pres_ite
    | intro _
    | apply_assumption
    | apply Pres_loop
    | apply Pres_iter
    | apply Pres_foldlM
    | apply Pres_gen
    | (apply Pres_modS; intro s hs; with_unfolding_all first | exact hs | exact Kept_setStructSize _ _ _ _ _ _ s hs | exact Kept_addField _ _ _ _ _ _ s hs | exact Kept_restore _ _ _ _ s0 s hs0 hs | exact Kept_bump_typedefs _ _ _ _ s hs | exact Kept_bump_structs _ _ _ _ s hs | exact Kept_typedef_add _ _ _ _ s0 s _ hs0 hs | exact Kept_struct_add _ _ _ _ s0 s _ hs0 hs)
    | apply Pres_type_szde
    | apply Pres_ub
    | apply Pres_getS
    | apply Pres_o_bop
    | apply Pres_o_assign
    | apply Pres_o_load
    | apply Pres_o_num
    | apply Pres_o_tmpdrop
    | apply Pres_o_tmpswap
    | apply Pres_o_tmpcopy
    | apply ts_push_pres
    | apply ts_de_pres
    | apply ts_pop_de_pres
    | exact hr
    | split
    | dsimp only)

theorem readfield_pres (n0 : Nat) (base : List typdefinfo) (m0 : Nat) (sbase : List structinfo)  :
    Pres (Kept n0 base m0 sbase) (readfield) := by
  unfold readfield
  repeat (with_reducible first
    | ((first | lift_lets | skip); intro x; first
        | (have hx : ∀ a b c, Pres (Kept n0 base m0 sbase) (x a b c) := ?_; clear_value x)
        | (have hx : ∀ a b, Pres (Kept n0 base m0 sbase) (x a b) := ?_; clear_value x)
        | (have hx : ∀ a, Pres (Kept n0 base m0 sbase) (x a) := ?_; clear_value x)
        | clear_value x)
    | (apply Pres_getS_bind; intro s0 hs0)
    | apply Pres_bind
    | apply Pres_pure
    | apply Pres_ite
    | intro _
    | apply_assumption
    | apply Pres_loop
    | apply Pres_iter
    | apply Pres_foldlM
    | apply Pres_gen
    | (apply Pres_modS; intro s hs; with_unfolding_all first | exact hs | exact Kept_setStructSize _ _ _ _ _ _ s hs | exact Kept_addField _ _ _ _ _ _ s hs | exact Kept_restore _ _ _ _ s0 s hs0 hs | exact Kept_bump_typedefs _ _ _ _ s hs | exact Kept_bump_structs _ _ _ _ s hs | exact Kept_typedef_add _ _ _ _ s0 s _ hs0 hs | exact Kept_struct_add _ _ _ _ s0 s _ hs0 hs)
    | apply Pres_tok_id
    | apply Pres_ts_pop
    | apply Pres_getS
    | apply Pres_o_bop
    | apply Pres_o_num
    | apply tok_expect_pres
    | apply ts_push_addr_pres
    | apply struct_field_pres
    | exact hr
    | split
    | dsimp only)

theorem readcall_pres (n0 : Nat) (base : List typdefinfo) (m0 : Nat) (sbase : List structinfo) (r : Rec) (hr : PresRec (Kept n0 base m0 sbase) r) (e : Env) :
    Pres (Kept n0 base m0 sbase) (readcall e r) := by
  unfold readcall
  repeat (with_reducible first
    | ((first | lift_lets | skip); intro x; first
        | (have hx : ∀ a b c, Pres (Kept n0 base m0 sbase) (x a b c) := ?_; clear_value x)
        | (have hx : ∀ a b, Pres (Kept n0 base m0 sbase) (x a b) := ?_; clear_value x)
        | (have hx : ∀ a, Pres (Kept n0 base m0 sbase) (x a) := ?_; clear_value x)
        | clear_value x)
    | (apply Pres_getS_bind; intro s0 hs0)
    | apply Pres_bind
    | apply Pres_pure
    | apply Pres_ite
    | intro _
    | apply_assumption
    | apply Pres_loop
    | apply Pres_iter
    | apply Pres_foldlM
    | apply Pres_gen
    | (apply Pres_modS; intro s hs; with_unfolding_all first | exact hs | exact Kept_setStructSize _ _ _ _ _ _ s hs | exact Kept_addField _ _ _ _ _ _ s hs | exact Kept_restore _ _ _ _ s0 s hs0 hs | exact Kept_bump_typedefs _ _ _ _ s hs | exact Kept_bump_structs _ _ _ _ s hs | exact Kept_typedef_add _ _ _ _ s0 s _ hs0 hs | exact Kept_struct_add _ _ _ _ s0 s _ hs0 hs)
    | apply Pres_tok_see
    | apply Pres_ts_pop
    | apply Pres_getS
    | apply Pres_o_cast
    | apply Pres_o_call
    | apply Pres_o_deref
    | apply tok_jmp_pres
    | apply tok_expect_pres
    | apply ts_push_bt_pres
    | apply ts_push_pres
    | apply ts_pop_de_pres
    | apply hr.readexpr
    | exact hr
    | split
    | dsimp only)

theorem readpost_pres (n0 : Nat) (base : List typdefinfo) (m0 : Nat) (sbase : List structinfo) (r : Rec) (hr : PresRec (Kept n0 base m0 sbase) r) (e : Env) :
    Pres (Kept n0 base m0 sbase) (readpost e r) := by
  unfold readpost
  repeat (with_reducible first
    | ((first | lift_lets | skip); intro x; first
        | (have hx : ∀ a b c, Pres (Kept n0 base m0 sbase) (x a b c) := ?_; clear_value x)
        | (have hx : ∀ a b, Pres (Kept n0 base m0 sbase) (x a b) := ?_; clear_value x)
        | (have hx : ∀ a, Pres (Kept n0 base m0 sbase) (x a) := ?_; clear_value x)
        | clear_value x)
    | (apply Pres_getS_bind; intro s0 hs0)
    | apply Pres_bind
    | apply Pres_pure
    | apply Pres_ite
    | intro _
    | apply_assumption
    | apply Pres_loop
    | apply Pres_iter
    | apply Pres_foldlM
    | apply Pres_gen
    | (apply Pres_modS; intro s hs; with_unfolding_all first | exact hs | exact Kept_setStructSize _ _ _ _ _ _ s hs | exact Kept_addField _ _ _ _ _ _ s hs | exact Kept_restore _ _ _ _ s0 s hs0 hs | exact Kept_bump_typedefs _ _ _ _ s hs | exact Kept_bump_structs _ _ _ _ s hs | exact Kept_typedef_add _ _ _ _ s0 s _ hs0 hs | exact Kept_struct_add _ _ _ _ s0 s _ hs0 hs)
    | apply tok_jmp_pres
    | apply tok_expect_pres
    | apply ts_de_pres
    | apply readprimary_pres
    | apply arrayderef_pres
    | apply inc_post_pres
    | apply readfield_pres
    | apply readcall_pres
    | apply hr.readexpr
    | exact hr
    | split
    | dsimp only)

theorem inc_pre_pres (n0 : Nat) (base : List typdefinfo) (m0 : Nat) (sbase : List structinfo) (r : Rec) (hr : PresRec (Kept n0 base m0 sbase) r) (e : Env) (op : Op) :
    Pres (Kept n0 base m0 sbase) (inc_pre e r op) := by
  unfold inc_pre
  repeat (with_reducible first
    | ((first | lift_lets | skip); intro x; first
        | (have hx : ∀ a b c, Pres (Kept n0 base m0 sbase) (x a b c) := ?_; clear_value x)
        | (have hx : ∀ a b, Pres (Kept n0 base m0 sbase) (x a b) := ?_; clear_value x)
        | (have hx : ∀ a, Pres (Kept n0 base m0 sbase) (x a) := ?_; clear_value x)
        | clear_value x)
    | (apply Pres_getS_bind; intro s0 hs0)
    | apply Pres_bind
    | apply Pres_pure
    | apply Pres_ite
    | intro _
    | apply_assumption
    | apply Pres_loop
    | apply Pres_iter
    | apply Pres_foldlM
    | apply Pres_gen
    | (apply Pres_modS; intro s hs; with_unfolding_all first | exact hs | exact Kept_setStructSize _ _ _ _ _ _ s hs | exact Kept_addField _ _ _ _ _ _ s hs | exact Kept_restore _ _ _ _ s0 s hs0 hs | exact Kept_bump_typedefs _ _ _ _ s hs | exact Kept_bump_structs _ _ _ _ s hs | exact Kept_typedef_add _ _ _ _ s0 s _ hs0 hs | exact Kept_struct_add _ _ _ _ s0 s _ hs0 hs)
    | apply Pres_type_szde
    | apply Pres_ub
    | apply Pres_getS
    | apply Pres_o_bop
    | apply Pres_o_assign
    | apply Pres_o_num
    | apply Pres_o_tmpcopy
    | apply ts_push_pres
    | apply ts_de_pres
    | apply ts_pop_de_pres
    | apply hr.readpre
    | exact hr
    | split
    | dsimp only)

theorem nogen_inc_pres (n0 : Nat) (base : List typdefinfo) (m0 : Nat) (sbase : List structinfo)  :
    Pres (Kept n0 base m0 sbase) (nogen_inc) := by
  unfold nogen_inc
  repeat (with_reducible first
    | ((first | lift_lets | skip); intro x; first
        | (have hx : ∀ a b c, Pres (Kept n0 base m0 sbase) (x a b c) := ?_; clear_value x)
        | (have hx : ∀ a b, Pres (Kept n0 base m0 sbase) (x a b) := ?_; clear_value x)
        | (have hx : ∀ a, Pres (Kept n0 base m0 sbase) (x a) := ?_; clear_value x)
        | clear_value x)
    | (apply Pres_getS_bind; intro s0 hs0)
    | apply Pres_bind
    | apply Pres_pure
    | apply Pres_ite
    | intro _
    | apply_assumption
    | apply Pres_loop
    | apply Pres_iter
    | apply Pres_foldlM
    | apply Pres_gen
    | (apply Pres_modS; intro s hs; with_unfolding_all first | exact hs | exact Kept_setStructSize _ _ _ _ _ _ s hs | exact Kept_addField _ _ _ _ _ _ s hs | exact Kept_restore _ _ _ _ s0 s hs0 hs | exact Kept_bump_typedefs _ _ _ _ s hs | exact Kept_bump_structs _ _ _ _ s hs | exact Kept_typedef_add _ _ _ _ s0 s _ hs0 hs | exact Kept_struct_add _ _ _ _ s0 s _ hs0 hs)
    | exact hr
    | split
    | dsimp only)

theorem nogen_dec_pres (n0 : Nat) (base : List typdefinfo) (m0 : Nat) (sbase : List structinfo)  :
    Pres (Kept n0 base m0 sbase) (nogen_dec) := by
  unfold nogen_dec
  repeat (with_reducible first
    | ((first | lift_lets | skip); intro x; first
        | (have hx : ∀ a b c, Pres (Kept n0 base m0 sbase) (x a b c) := ?_; clear_value x)
        | (have hx : ∀ a b, Pres (Kept n0 base m0 sbase) (x a b) := ?_; clear_value x)
        | (have hx : ∀ a, Pres (Kept n0 base m0 sbase) (x a) := ?_; clear_value x)
        | clear_value x)
    | (apply Pres_getS_bind; intro s0 hs0)
    | apply Pres_bind
    | apply Pres_pure
    | apply Pres_ite
    | intro _
    | apply_assumption
    | apply Pres_loop
    | apply Pres_iter
    | apply Pres_foldlM
    | apply Pres_gen
    | (apply Pres_modS; intro s hs; with_unfolding_all first | exact hs | exact Kept_setStructSize _ _ _ _ _ _ s hs | exact Kept_addField _ _ _ _ _ _ s hs | exact Kept_restore _ _ _ _ s0 s hs0 hs | exact Kept_bump_typedefs _ _ _ _ s hs | exact Kept_bump_structs _ _ _ _ s hs | exact Kept_typedef_add _ _ _ _ s0 s _ hs0 hs | exact Kept_struct_add _ _ _ _ s0 s _ hs0 hs)
    | exact hr
    | split
    | dsimp only)

theorem readpre_pres (n0 : Nat) (base : List typdefinfo) (m0 : Nat) (sbase : List structinfo) (r : Rec) (hr : PresRec (Kept n0 base m0 sbase) r) (e : Env) :
    Pres (Kept n0 base m0 sbase) (readpre e r) := by
  unfold readpre
  repeat (with_reducible first
    | ((first | lift_lets | skip); intro x; first
        | (have hx : ∀ a b c, Pres (Kept n0 base m0 sbase) (x a b c) := ?_; clear_value x)
        | (have hx : ∀ a b, Pres (Kept n0 base m0 sbase) (x a b) := ?_; clear_value x)
        | (have hx : ∀ a, Pres (Kept n0 base m0 sbase) (x a) := ?_; clear_value x)
        | clear_value x)
    | (apply Pres_getS_bind; intro s0 hs0)
    | apply Pres_bind
    | apply Pres_pure
    | apply Pres_ite
    | intro _
    | apply_assumption
    | apply Pres_loop
    | apply Pres_iter
    | apply Pres_foldlM
    | apply Pres_gen
    | (apply Pres_modS; intro s hs; with_unfolding_all first | exact hs | exact Kept_setStructSize _ _ _ _ _ _ s hs | exact Kept_addField _ _ _ _ _ _ s hs | exact Kept_restore _ _ _ _ s0 s hs0 hs | exact Kept_bump_typedefs _ _ _ _ s hs | exact Kept_bump_structs _ _ _ _ s hs | exact Kept_typedef_add _ _ _ _ s0 s _ hs0 hs | exact Kept_struct_add _ _ _ _ s0 s _ hs0 hs)
    | apply Pres_type_totsz
    | apply Pres_ts_pop
    | apply Pres_err
    | apply Pres_getS
    | apply Pres_o_uop
    | apply Pres_o_deref
    | apply Pres_o_num
    | apply tok_jmp_pres
    | apply tok_expect_pres
    | apply ts_push_bt_pres
    | apply ts_push_pres
    | apply ts_de_pres
    | apply ts_pop_de_pres
    | apply readtype_pres
    | apply readpost_pres
    | apply inc_pre_pres
    | apply nogen_inc_pres
    | apply nogen_dec_pres
    | apply hr.readexpr
    | apply hr.readpre
    | exact hr
    | split
    | dsimp only)

theorem readmul_pres (n0 : Nat) (base : List typdefinfo) (m0 : Nat) (sbase : List structinfo) (r : Rec) (hr : PresRec (Kept n0 base m0 sbase) r) (e : Env) :
    Pres (Kept n0 base m0 sbase) (readmul e r) := by
  unfold readmul
  repeat (with_reducible first
    | ((first | lift_lets | skip); intro x; first
        | (have hx : ∀ a b c, Pres (Kept n0 base m0 sbase) (x a b c) := ?_; clear_value x)
        | (have hx : ∀ a b, Pres (Kept n0 base m0 sbase) (x a b) := ?_; clear_value x)
        | (have hx : ∀ a, Pres (Kept n0 base m0 sbase) (x a) := ?_; clear_value x)
        | clear_value x)
    | (apply Pres_getS_bind; intro s0 hs0)
    | apply Pres_bind
    | apply Pres_pure
    | apply Pres_ite
    | intro _
    | apply_assumption
    | apply Pres_loop
    | apply Pres_iter
    | apply Pres_foldlM
    | apply Pres_gen
    | (apply Pres_modS; intro s hs; with_unfolding_all first | exact hs | exact Kept_setStructSize _ _ _ _ _ _ s hs | exact Kept_addField _ _ _ _ _ _ s hs | exact Kept_restore _ _ _ _ s0 s hs0 hs | exact Kept_bump_typedefs _ _ _ _ s hs | exact Kept_bump_structs _ _ _ _ s hs | exact Kept_typedef_add _ _ _ _ s0 s _ hs0 hs | exact Kept_struct_add _ _ _ _ s0 s _ hs0 hs)
    | apply tok_jmp_pres
    | apply ts_binop_pres
    | apply readpre_pres
    | exact hr
    | split
    | dsimp only)

theorem readadd_pres (n0 : Nat) (base : List typdefinfo) (m0 : Nat) (sbase : List structinfo) (r : Rec) (hr : PresRec (Kept n0 base m0 sbase) r) (e : Env) :
    Pres (Kept n0 base m0 sbase) (readadd e r) := by
  unfold readadd
  repeat (with_reducible first
    | ((first | lift_lets | skip); intro x; first
        | (have hx : ∀ a b c, Pres (Kept n0 base m0 sbase) (x a b c) := ?_; clear_value x)
        | (have hx : ∀ a b, Pres (Kept n0 base m0 sbase) (x a b) := ?_; clear_value x)
        | (have hx : ∀ a, Pres (Kept n0 base m0 sbase) (x a) := ?_; clear_value x)
        | clear_value x)
    | (apply Pres_getS_bind; intro s0 hs0)
    | apply Pres_bind
    | apply Pres_pure
    | apply Pres_ite
    | intro _
    | apply_assumption
    | apply Pres_loop
    | apply Pres_iter
    | apply Pres_foldlM
    | apply Pres_gen
    | (apply Pres_modS; intro s hs; with_unfolding_all first | exact hs | exact Kept_setStructSize _ _ _ _ _ _ s hs | exact Kept_addField _ _ _ _ _ _ s hs | exact Kept_restore _ _ _ _ s0 s hs0 hs | exact Kept_bump_typedefs _ _ _ _ s hs | exact Kept_bump_structs _ _ _ _ s hs | exact Kept_typedef_add _ _ _ _ s0 s _ hs0 hs | exact Kept_struct_add _ _ _ _ s0 s _ hs0 hs)
    | apply tok_jmp_pres
    | apply ts_addop_pres
    | apply readmul_pres
    | exact hr
    | split
    | dsimp only)

theorem shift_pres (n0 : Nat) (base : List typdefinfo) (m0 : Nat) (sbase : List structinfo) (r : Rec) (hr : PresRec (Kept n0 base m0 sbase) r) (e : Env) (op : Op) :
    Pres (Kept n0 base m0 sbase) (shift e r op) := by
  unfold shift
  repeat (with_reducible first
    | ((first | lift_lets | skip); intro x; first
        | (have hx : ∀ a b c, Pres (Kept n0 base m0 sbase) (x a b c) := ?_; clear_value x)
        | (have hx : ∀ a b, Pres (Kept n0 base m0 sbase) (x a b) := ?_; clear_value x)
        | (have hx : ∀ a, Pres (Kept n0 base m0 sbase) (x a) := ?_; clear_value x)
        | clear_value x)
    | (apply Pres_getS_bind; intro s0 hs0)
    | apply Pres_bind
    | apply Pres_pure
    | apply Pres_ite
    | intro _
    | apply_assumption
    | apply Pres_loop
    | apply Pres_iter
    | apply Pres_foldlM
    | apply Pres_gen
    | (apply Pres_modS; intro s hs; with_unfolding_all first | exact hs | exact Kept_setStructSize _ _ _ _ _ _ s hs | exact Kept_addField _ _ _ _ _ _ s hs | exact Kept_restore _ _ _ _ s0 s hs0 hs | exact Kept_bump_typedefs _ _ _ _ s hs | exact Kept_bump_structs _ _ _ _ s hs | exact Kept_typedef_add _ _ _ _ s0 s _ hs0 hs | exact Kept_struct_add _ _ _ _ s0 s _ hs0 hs)
    | apply Pres_o_bop
    | apply ts_push_bt_pres
    | apply ts_pop_de2_pres
    | apply readadd_pres
    | exact hr
    | split
    | dsimp only)

theorem readshift_pres (n0 : Nat) (base : List typdefinfo) (m0 : Nat) (sbase : List structinfo) (r : Rec) (hr : PresRec (Kept n0 base m0 sbase) r) (e : Env) :
    Pres (Kept n0 base m0 sbase) (readshift e r) := by
  unfold readshift
  repeat (with_reducible first
    | ((first | lift_lets | skip); intro x; first
        | (have hx : ∀ a b c, Pres (Kept n0 base m0 sbase) (x a b c) := ?_; clear_value x)
        | (have hx : ∀ a b, Pres (Kept n0 base m0 sbase) (x a b) := ?_; clear_value x)
        | (have hx : ∀ a, Pres (Kept n0 base m0 sbase) (x a) := ?_; clear_value x)
        | clear_value x)
    | (apply Pres_getS_bind; intro s0 hs0)
    | apply Pres_bind
    | apply Pres_pure
    | apply Pres_ite
    | intro _
    | apply_assumption
    | apply Pres_loop
    | apply Pres_iter
    | apply Pres_foldlM
    | apply Pres_gen
    | (apply Pres_modS; intro s hs; with_unfolding_all first | exact hs | exact Kept_setStructSize _ _ _ _ _ _ s hs | exact Kept_addField _ _ _ _ _ _ s hs | exact Kept_restore _ _ _ _ s0 s hs0 hs | exact Kept_bump_typedefs _ _ _ _ s hs | exact Kept_bump_structs _ _ _ _ s hs | exact Kept_typedef_add _ _ _ _ s0 s _ hs0 hs | exact Kept_struct_add _ _ _ _ s0 s _ hs0 hs)
    | apply tok_jmp_pres
    | apply readadd_pres
    | apply shift_pres
    | exact hr
    | split
    | dsimp only)

theorem cmp_pres (n0 : Nat) (base : List typdefinfo) (m0 : Nat) (sbase : List structinfo) (r : Rec) (hr : PresRec (Kept n0 base m0 sbase) r) (e : Env) (op : Op) :
    Pres (Kept n0 base m0 sbase) (cmp e r op) := by
  unfold cmp
  repeat (with_reducible first
    | ((first | lift_lets | skip); intro x; first
        | (have hx : ∀ a b c, Pres (Kept n0 base m0 sbase) (x a b c) := ?_; clear_value x)
        | (have hx : ∀ a b, Pres (Kept n0 base m0 sbase) (x a b) := ?_; clear_value x)
        | (have hx : ∀ a, Pres (Kept n0 base m0 sbase) (x a) := ?_; clear_value x)
        | clear_value x)
    | (apply Pres_getS_bind; intro s0 hs0)
    | apply Pres_bind
    | apply Pres_pure
    | apply Pres_ite
    | intro _
    | apply_assumption
    | apply Pres_loop
    | apply Pres_iter
    | apply Pres_foldlM
    | apply Pres_gen
    | (apply Pres_modS; intro s hs; with_unfolding_all first | exact hs | exact Kept_setStructSize _ _ _ _ _ _ s hs | exact Kept_addField _ _ _ _ _ _ s hs | exact Kept_restore _ _ _ _ s0 s hs0 hs | exact Kept_bump_typedefs _ _ _ _ s hs | exact Kept_bump_structs _ _ _ _ s hs | exact Kept_typedef_add _ _ _ _ s0 s _ hs0 hs | exact Kept_struct_add _ _ _ _ s0 s _ hs0 hs)
    | apply Pres_o_bop
    | apply ts_push_bt_pres
    | apply ts_pop_de2_pres
    | apply readshift_pres
    | exact hr
    | split
    | dsimp only)

theorem readcmp_pres (n0 : Nat) (base : List typdefinfo) (m0 : Nat) (sbase : List structinfo) (r : Rec) (hr : PresRec (Kept n0 base m0 sbase) r) (e : Env) :
    Pres (Kept n0 base m0 sbase) (readcmp e r) := by
  unfold readcmp
  repeat (with_reducible first
    | ((first | lift_lets | skip); intro x; first
        | (have hx : ∀ a b c, Pres (Kept n0 base m0 sbase) (x a b c) := ?_; clear_value x)
        | (have hx : ∀ a b, Pres (Kept n0 base m0 sbase) (x a b) := ?_; clear_value x)
        | (have hx : ∀ a, Pres (Kept n0 base m0 sbase) (x a) := ?_; clear_value x)
        | clear_value x)
    | (apply Pres_getS_bind; intro s0 hs0)
    | apply Pres_bind
    | apply Pres_pure
    | apply Pres_ite
    | intro _
    | apply_assumption
    | apply Pres_loop
    | apply Pres_iter
    | apply Pres_foldlM
    | apply Pres_gen
    | (apply Pres_modS; intro s hs; with_unfolding_all first | exact hs | exact Kept_setStructSize _ _ _ _ _ _ s hs | exact Kept_addField _ _ _ _ _ _ s hs | exact Kept_restore _ _ _ _ s0 s hs0 hs | exact Kept_bump_typedefs _ _ _ _ s hs | exact Kept_bump_structs _ _ _ _ s hs | exact Kept_typedef_add _ _ _ _ s0 s _ hs0 hs | exact Kept_struct_add _ _ _ _ s0 s _ hs0 hs)
    | apply tok_jmp_pres
    | apply readshift_pres
    | apply cmp_pres
    | exact hr
    | split
    | dsimp only)

theorem eq_pres (n0 : Nat) (base : List typdefinfo) (m0 : Nat) (sbase : List structinfo) (r : Rec) (hr : PresRec (Kept n0 base m0 sbase) r) (e : Env) (op : Op) :
    Pres (Kept n0 base m0 sbase) (eq e r op) := by
  unfold eq
  repeat (with_reducible first
    | ((first | lift_lets | skip); intro x; first
        | (have hx : ∀ a b c, Pres (Kept n0 base m0 sbase) (x a b c) := ?_; clear_value x)
        | (have hx : ∀ a b, Pres (Kept n0 base m0 sbase) (x a b) := ?_; clear_value x)
        | (have hx : ∀ a, Pres (Kept n0 base m0 sbase) (x a) := ?_; clear_value x)
        | clear_value x)
    | (apply Pres_getS_bind; intro s0 hs0)
    | apply Pres_bind
    | apply Pres_pure
    | apply Pres_ite
    | intro _
    | apply_assumption
    | apply Pres_loop
    | apply Pres_iter
    | apply Pres_foldlM
    | apply Pres_gen
    | (apply Pres_modS; intro s hs; with_unfolding_all first | exact hs | exact Kept_setStructSize _ _ _ _ _ _ s hs | exact Kept_addField _ _ _ _ _ _ s hs | exact Kept_restore _ _ _ _ s0 s hs0 hs | exact Kept_bump_typedefs _ _ _ _ s hs | exact Kept_bump_structs _ _ _ _ s hs | exact Kept_typedef_add _ _ _ _ s0 s _ hs0 hs | exact Kept_struct_add _ _ _ _ s0 s _ hs0 hs)
    | apply Pres_o_bop
    | apply ts_push_bt_pres
    | apply ts_pop_de2_pres
    | apply readcmp_pres
    | exact hr
    | split
    | dsimp only)

theorem readeq_pres (n0 : Nat) (base : List typdefinfo) (m0 : Nat) (sbase : List structinfo) (r : Rec) (hr : PresRec (Kept n0 base m0 sbase) r) (e : Env) :
    Pres (Kept n0 base m0 sbase) (readeq e r) := by
  unfold readeq
  repeat (with_reducible first
    | ((first | lift_lets | skip); intro x; first
        | (have hx : ∀ a b c, Pres (Kept n0 base m0 sbase) (x a b c) := ?_; clear_value x)
        | (have hx : ∀ a b, Pres (Kept n0 base m0 sbase) (x a b) := ?_; clear_value x)
        | (have hx : ∀ a, Pres (Kept n0 base m0 sbase) (x a) := ?_; clear_value x)
        | clear_value x)
    | (apply Pres_getS_bind; intro s0 hs0)
    | apply Pres_bind
    | apply Pres_pure
    | apply Pres_ite
    | intro _
    | apply_assumption
    | apply Pres_loop
    | apply Pres_iter
    | apply Pres_foldlM
    | apply Pres_gen
    | (apply Pres_modS; intro s hs; with_unfolding_all first | exact hs | exact Kept_setStructSize _ _ _ _ _ _ s hs | exact Kept_addField _ _ _ _ _ _ s hs | exact Kept_restore _ _ _ _ s0 s hs0 hs | exact Kept_bump_typedefs _ _ _ _ s hs | exact Kept_bump_structs _ _ _ _ s hs | exact Kept_typedef_add _ _ _ _ s0 s _ hs0 hs | exact Kept_struct_add _ _ _ _ s0 s _ hs0 hs)
    | apply tok_jmp_pres
    | apply readcmp_pres
    | apply eq_pres
    | exact hr
    | split
    | dsimp only)

theorem readbitand_pres (n0 : Nat) (base : List typdefinfo) (m0 : Nat) (sbase : List structinfo) (r : Rec) (hr : PresRec (Kept n0 base m0 sbase) r) (e : Env) :
    Pres (Kept n0 base m0 sbase) (readbitand e r) := by
  unfold readbitand
  repeat (with_reducible first
    | ((first | lift_lets | skip); intro x; first
        | (have hx : ∀ a b c, Pres (Kept n0 base m0 sbase) (x a b c) := ?_; clear_value x)
        | (have hx : ∀ a b, Pres (Kept n0 base m0 sbase) (x a b) := ?_; clear_value x)
        | (have hx : ∀ a, Pres (Kept n0 base m0 sbase) (x a) := ?_; clear_value x)
        | clear_value x)
    | (apply Pres_getS_bind; intro s0 hs0)
    | apply Pres_bind
    | apply Pres_pure
    | apply Pres_ite
    | intro _
    | apply_assumption
    | apply Pres_loop
    | apply Pres_iter
    | apply Pres_foldlM
    | apply Pres_gen
    | (apply Pres_modS; intro s hs; with_unfolding_all first | exact hs | exact Kept_setStructSize _ _ _ _ _ _ s hs | exact Kept_addField _ _ _ _ _ _ s hs | exact Kept_restore _ _ _ _ s0 s hs0 hs | exact Kept_bump_typedefs _ _ _ _ s hs | exact Kept_bump_structs _ _ _ _ s hs | exact Kept_typedef_add _ _ _ _ s0 s _ hs0 hs | exact Kept_struct_add _ _ _ _ s0 s _ hs0 hs)
    | apply tok_jmp_pres
    | apply ts_binop_pres
    | apply readeq_pres
    | exact hr
    | split
    | dsimp only)

theorem readxor_pres (n0 : Nat) (base : List typdefinfo) (m0 : Nat) (sbase : List structinfo) (r : Rec) (hr : PresRec (Kept n0 base m0 sbase) r) (e : Env) :
    Pres (Kept n0 base m0 sbase) (readxor e r) := by
  unfold readxor
  repeat (with_reducible first
    | ((first | lift_lets | skip); intro x; first
        | (have hx : ∀ a b c, Pres (Kept n0 base m0 sbase) (x a b c) := ?_; clear_value x)
        | (have hx : ∀ a b, Pres (Kept n0 base m0 sbase) (x a b) := ?_; clear_value x)
        | (have hx : ∀ a, Pres (Kept n0 base m0 sbase) (x a) := ?_; clear_value x)
        | clear_value x)
    | (apply Pres_getS_bind; intro s0 hs0)
    | apply Pres_bind
    | apply Pres_pure
    | apply Pres_ite
    | intro _
    | apply_assumption
    | apply Pres_loop
    | apply Pres_iter
    | apply Pres_foldlM
    | apply Pres_gen
    | (apply Pres_modS; intro s hs; with_unfolding_all first | exact hs | exact Kept_setStructSize _ _ _ _ _ _ s hs | exact Kept_addField _ _ _ _ _ _ s hs | exact Kept_restore _ _ _ _ s0 s hs0 hs | exact Kept_bump_typedefs _ _ _ _ s hs | exact Kept_bump_structs _ _ _ _ s hs | exact Kept_typedef_add _ _ _ _ s0 s _ hs0 hs | exact Kept_struct_add _ _ _ _ s0 s _ hs0 hs)
    | apply tok_jmp_pres
    | apply ts_binop_pres
    | apply readbitand_pres
    | exact hr
    | split
    | dsimp only)

theorem readbitor_pres (n0 : Nat) (base : List typdefinfo) (m0 : Nat) (sbase : List structinfo) (r : Rec) (hr : PresRec (Kept n0 base m0 sbase) r) (e : Env) :
    Pres (Kept n0 base m0 sbase) (readbitor e r) := by
  unfold readbitor
  repeat (with_reducible first
    | ((first | lift_lets | skip); intro x; first
        | (have hx : ∀ a b c, Pres (Kept n0 base m0 sbase) (x a b c) := ?_; clear_value x)
        | (have hx : ∀ a b, Pres (Kept n0 base m0 sbase) (x a b) := ?_; clear_value x)
        | (have hx : ∀ a, Pres (Kept n0 base m0 sbase) (x a) := ?_; clear_value x)
        | clear_value x)
    | (apply Pres_getS_bind; intro s0 hs0)
    | apply Pres_bind
    | apply Pres_pure
    | apply Pres_ite
    | intro _
    | apply_assumption
    | apply Pres_loop
    | apply Pres_iter
    | apply Pres_foldlM
    | apply Pres_gen
    | (apply Pres_modS; intro s hs; with_unfolding_all first | exact hs | exact Kept_setStructSize _ _ _ _ _ _ s hs | exact Kept_addField _ _ _ _ _ _ s hs | exact Kept_restore _ _ _ _ s0 s hs0 hs | exact Kept_bump_typedefs _ _ _ _ s hs | exact Kept_bump_structs _ _ _ _ s hs | exact Kept_typedef_add _ _ _ _ s0 s _ hs0 hs | exact Kept_struct_add _ _ _ _ s0 s _ hs0 hs)
    | apply tok_jmp_pres
    | apply ts_binop_pres
    | apply readxor_pres
    | exact hr
    | split
    | dsimp only)

theorem readand_pres (n0 : Nat) (base : List typdefinfo) (m0 : Nat) (sbase : List structinfo) (r : Rec) (hr : PresRec (Kept n0 base m0 sbase) r) (e : Env) :
    Pres (Kept n0 base m0 sbase) (readand e r) := by
  unfold readand
  repeat (with_reducible first
    | ((first | lift_lets | skip); intro x; first
        | (have hx : ∀ a b c, Pres (Kept n0 base m0 sbase) (x a b c) := ?_; clear_value x)
        | (have hx : ∀ a b, Pres (Kept n0 base m0 sbase) (x a b) := ?_; clear_value x)
        | (have hx : ∀ a, Pres (Kept n0 base m0 sbase) (x a) := ?_; clear_value x)
        | clear_value x)
    | (apply Pres_getS_bind; intro s0 hs0)
    | apply Pres_bind
    | apply Pres_pure
    | apply Pres_ite
    | intro _
    | apply_assumption
    | apply Pres_loop
    | apply Pres_iter
    | apply Pres_foldlM
    | apply Pres_gen
    | (apply Pres_modS; intro s hs; with_unfolding_all first | exact hs | exact Kept_setStructSize _ _ _ _ _ _ s hs | exact Kept_addField _ _ _ _ _ _ s hs | exact Kept_restore _ _ _ _ s0 s hs0 hs | exact Kept_bump_typedefs _ _ _ _ s hs | exact Kept_bump_structs _ _ _ _ s hs | exact Kept_typedef_add _ _ _ _ s0 s _ hs0 hs | exact Kept_struct_add _ _ _ _ s0 s _ hs0 hs)
    | apply Pres_tok_see
    | apply Pres_LABEL
    | apply Pres_o_num
    | apply Pres_o_label
    | apply Pres_o_jz
    | apply Pres_o_jmp
    | apply Pres_o_fork
    | apply Pres_o_forkpush
    | apply Pres_o_forkjoin
    | apply tok_jmp_pres
    | apply ts_push_bt_pres
    | apply ts_pop_de_pres
    | apply readbitor_pres
    | exact hr
    | split
    | dsimp only)

theorem reador_pres (n0 : Nat) (base : List typdefinfo) (m0 : Nat) (sbase : List structinfo) (r : Rec) (hr : PresRec (Kept n0 base m0 sbase) r) (e : Env) :
    Pres (Kept n0 base m0 sbase) (reador e r) := by
  unfold reador
  repeat (with_reducible first
    | ((first | lift_lets | skip); intro x; first
        | (have hx : ∀ a b c, Pres (Kept n0 base m0 sbase) (x a b c) := ?_; clear_value x)
        | (have hx : ∀ a b, Pres (Kept n0 base m0 sbase) (x a b) := ?_; clear_value x)
        | (have hx : ∀ a, Pres (Kept n0 base m0 sbase) (x a) := ?_; clear_value x)
        | clear_value x)
    | (apply Pres_getS_bind; intro s0 hs0)
    | apply Pres_bind
    | apply Pres_pure
    | apply Pres_ite
    | intro _
    | apply_assumption
    | apply Pres_loop
    | apply Pres_iter
    | apply Pres_foldlM
    | apply Pres_gen
    | (apply Pres_modS; intro s hs; with_unfolding_all first | exact hs | exact Kept_setStructSize _ _ _ _ _ _ s hs | exact Kept_addField _ _ _ _ _ _ s hs | exact Kept_restore _ _ _ _ s0 s hs0 hs | exact Kept_bump_typedefs _ _ _ _ s hs | exact Kept_bump_structs _ _ _ _ s hs | exact Kept_typedef_add _ _ _ _ s0 s _ hs0 hs | exact Kept_struct_add _ _ _ _ s0 s _ hs0 hs)
    | apply Pres_tok_see
    | apply Pres_LABEL
    | apply Pres_o_num
    | apply Pres_o_label
    | apply Pres_o_jnz
    | apply Pres_o_jmp
    | apply Pres_o_fork
    | apply Pres_o_forkpush
    | apply Pres_o_forkjoin
    | apply tok_jmp_pres
    | apply ts_push_bt_pres
    | apply ts_pop_de_pres
    | apply readand_pres
    | exact hr
    | split
    | dsimp only)

theorem readcexpr_const_pres (n0 : Nat) (base : List typdefinfo) (m0 : Nat) (sbase : List structinfo) (r : Rec) (hr : PresRec (Kept n0 base m0 sbase) r) (e : Env) :
    Pres (Kept n0 base m0 sbase) (readcexpr_const e r) := by
  unfold readcexpr_const
  repeat (with_reducible first
    | ((first | lift_lets | skip); intro x; first
        | (have hx : ∀ a b c, Pres (Kept n0 base m0 sbase) (x a b c) := ?_; clear_value x)
        | (have hx : ∀ a b, Pres (Kept n0 base m0 sbase) (x a b) := ?_; clear_value x)
        | (have hx : ∀ a, Pres (Kept n0 base m0 sbase) (x a) := ?_; clear_value x)
        | clear_value x)
    | (apply Pres_getS_bind; intro s0 hs0)
    | apply Pres_bind
    | apply Pres_pure
    | apply Pres_ite
    | intro _
    | apply_assumption
    | apply Pres_loop
    | apply Pres_iter
    | apply Pres_foldlM
    | apply Pres_gen
    | (apply Pres_modS; intro s hs; with_unfolding_all first | exact hs | exact Kept_setStructSize _ _ _ _ _ _ s hs | exact Kept_addField _ _ _ _ _ _ s hs | exact Kept_restore _ _ _ _ s0 s hs0 hs | exact Kept_bump_typedefs _ _ _ _ s hs | exact Kept_bump_structs _ _ _ _ s hs | exact Kept_typedef_add _ _ _ _ s0 s _ hs0 hs | exact Kept_struct_add _ _ _ _ s0 s _ hs0 hs)
    | apply Pres_o_popnum
    | apply tok_expect_pres
    | apply ts_de_pres
    | apply ts_pop_de_pres
    | apply nogen_inc_pres
    | apply nogen_dec_pres
    | apply hr.readcexpr
    | exact hr
    | split
    | dsimp only)

theorem readcexpr_pres (n0 : Nat) (base : List typdefinfo) (m0 : Nat) (sbase : List structinfo) (r : Rec) (hr : PresRec (Kept n0 base m0 sbase) r) (e : Env) :
    Pres (Kept n0 base m0 sbase) (readcexpr e r) := by
  unfold readcexpr
  repeat (with_reducible first
    | ((first | lift_lets | skip); intro x; first
        | (have hx : ∀ a b c, Pres (Kept n0 base m0 sbase) (x a b c) := ?_; clear_value x)
        | (have hx : ∀ a b, Pres (Kept n0 base m0 sbase) (x a b) := ?_; clear_value x)
        | (have hx : ∀ a, Pres (Kept n0 base m0 sbase) (x a) := ?_; clear_value x)
        | clear_value x)
    | (apply Pres_getS_bind; intro s0 hs0)
    | apply Pres_bind
    | apply Pres_pure
    | apply Pres_ite
    | intro _
    | apply_assumption
    | apply Pres_loop
    | apply Pres_iter
    | apply Pres_foldlM
    | apply Pres_gen
    | (apply Pres_modS; intro s hs; with_unfolding_all first | exact hs | exact Kept_setStructSize _ _ _ _ _ _ s hs | exact Kept_addField _ _ _ _ _ _ s hs | exact Kept_restore _ _ _ _ s0 s hs0 hs | exact Kept_bump_typedefs _ _ _ _ s hs | exact Kept_bump_structs _ _ _ _ s hs | exact Kept_typedef_add _ _ _ _ s0 s _ hs0 hs | exact Kept_struct_add _ _ _ _ s0 s _ hs0 hs)
    | apply Pres_LABEL
    | apply Pres_o_label
    | apply Pres_o_jz
    | apply Pres_o_jmp
    | apply Pres_o_fork
    | apply Pres_o_forkpush
    | apply Pres_o_forkjoin
    | apply tok_jmp_pres
    | apply tok_expect_pres
    | apply ts_de_pres
    | apply ts_pop_de_pres
    | apply reador_pres
    | apply readcexpr_const_pres
    | apply hr.readcexpr
    | exact hr
    | split
    | dsimp only)

theorem opassign_pres (n0 : Nat) (base : List typdefinfo) (m0 : Nat) (sbase : List structinfo) (r : Rec) (hr : PresRec (Kept n0 base m0 sbase) r) (e : Env) (op : Op) (p : Int) :
    Pres (Kept n0 base m0 sbase) (opassign e r op p) := by
  unfold opassign
  repeat (with_reducible first
    | ((first | lift_lets | skip); intro x; first
        | (have hx : ∀ a b c, Pres (Kept n0 base m0 sbase) (x a b c) := ?_; clear_value x)
        | (have hx : ∀ a b, Pres (Kept n0 base m0 sbase) (x a b) := ?_; clear_value x)
        | (have hx : ∀ a, Pres (Kept n0 base m0 sbase) (x a) := ?_; clear_value x)
        | clear_value x)
    | (apply Pres_getS_bind; intro s0 hs0)
    | apply Pres_bind
    | apply Pres_pure
    | apply Pres_ite
    | intro _
    | apply_assumption
    | apply Pres_loop
    | apply Pres_iter
    | apply Pres_foldlM
    | apply Pres_gen
    | (apply Pres_modS; intro s hs; with_unfolding_all first | exact hs | exact Kept_setStructSize _ _ _ _ _ _ s hs | exact Kept_addField _ _ _ _ _ _ s hs | exact Kept_restore _ _ _ _ s0 s hs0 hs | exact Kept_bump_typedefs _ _ _ _ s hs | exact Kept_bump_structs _ _ _ _ s hs | exact Kept_typedef_add _ _ _ _ s0 s _ hs0 hs | exact Kept_struct_add _ _ _ _ s0 s _ hs0 hs)
    | apply Pres_ts_pop
    | apply Pres_ub
    | apply Pres_getS
    | apply Pres_o_assign
    | apply Pres_o_tmpcopy
    | apply ts_push_pres
    | apply ts_de_pres
    | apply ts_binop_pres
    | apply ts_addop_pres
    | apply hr.readexpr
    | exact hr
    | split
    | dsimp only)

theorem doassign_pres (n0 : Nat) (base : List typdefinfo) (m0 : Nat) (sbase : List structinfo) (e : Env) :
    Pres (Kept n0 base m0 sbase) (doassign e) := by
  unfold doassign
  repeat (with_reducible first
    | ((first | lift_lets | skip); intro x; first
        | (have hx : ∀ a b c, Pres (Kept n0 base m0 sbase) (x a b c) := ?_; clear_value x)
        | (have hx : ∀ a b, Pres (Kept n0 base m0 sbase) (x a b) := ?_; clear_value x)
        | (have hx : ∀ a, Pres (Kept n0 base m0 sbase) (x a) := ?_; clear_value x)
        | clear_value x)
    | (apply Pres_getS_bind; intro s0 hs0)
    | apply Pres_bind
    | apply Pres_pure
    | apply Pres_ite
    | intro _
    | apply_assumption
    | apply Pres_loop
    | apply Pres_iter
    | apply Pres_foldlM
    | apply Pres_gen
    | (apply Pres_modS; intro s hs; with_unfolding_all first | exact hs | exact Kept_setStructSize _ _ _ _ _ _ s hs | exact Kept_addField _ _ _ _ _ _ s hs | exact Kept_restore _ _ _ _ s0 s hs0 hs | exact Kept_bump_typedefs _ _ _ _ s hs | exact Kept_bump_structs _ _ _ _ s hs | exact Kept_typedef_add _ _ _ _ s0 s _ hs0 hs | exact Kept_struct_add _ _ _ _ s0 s _ hs0 hs)
    | apply Pres_type_totsz
    | apply Pres_ts_pop
    | apply Pres_ub
    | apply Pres_getS
    | apply Pres_o_memcpy
    | apply Pres_o_assign
    | apply Pres_o_num
    | apply ts_de_pres
    | apply ts_pop_de_pres
    | exact hr
    | split
    | dsimp only)

theorem readexpr_pres (n0 : Nat) (base : List typdefinfo) (m0 : Nat) (sbase : List structinfo) (r : Rec) (hr : PresRec (Kept n0 base m0 sbase) r) (e : Env) :
    Pres (Kept n0 base m0 sbase) (readexpr e r) := by
  unfold readexpr
  repeat (with_reducible first
    | ((first | lift_lets | skip); intro x; first
        | (have hx : ∀ a b c, Pres (Kept n0 base m0 sbase) (x a b c) := ?_; clear_value x)
        | (have hx : ∀ a b, Pres (Kept n0 base m0 sbase) (x a b) := ?_; clear_value x)
        | (have hx : ∀ a, Pres (Kept n0 base m0 sbase) (x a) := ?_; clear_value x)
        | clear_value x)
    | (apply Pres_getS_bind; intro s0 hs0)
    | apply Pres_bind
    | apply Pres_pure
    | apply Pres_ite
    | intro _
    | apply_assumption
    | apply Pres_loop
    | apply Pres_iter
    | apply Pres_foldlM
    | apply Pres_gen
    | (apply Pres_modS; intro s hs; with_unfolding_all first | exact hs | exact Kept_setStructSize _ _ _ _ _ _ s hs | exact Kept_addField _ _ _ _ _ _ s hs | exact Kept_restore _ _ _ _ s0 s hs0 hs | exact Kept_bump_typedefs _ _ _ _ s hs | exact Kept_bump_structs _ _ _ _ s hs | exact Kept_typedef_add _ _ _ _ s0 s _ hs0 hs | exact Kept_struct_add _ _ _ _ s0 s _ hs0 hs)
    | apply tok_jmp_pres
    | apply readcexpr_pres
    | apply opassign_pres
    | apply doassign_pres
    | apply hr.readexpr
    | exact hr
    | split
    | dsimp only)

theorem readestmt_pres (n0 : Nat) (base : List typdefinfo) (m0 : Nat) (sbase : List structinfo) (r : Rec) (hr : PresRec (Kept n0 base m0 sbase) r) (e : Env) :
    Pres (Kept n0 base m0 sbase) (readestmt e r) := by
  unfold readestmt
  repeat (with_reducible first
    | ((first | lift_lets | skip); intro x; first
        | (have hx : ∀ a b c, Pres (Kept n0 base m0 sbase) (x a b c) := ?_; clear_value x)
        | (have hx : ∀ a b, Pres (Kept n0 base m0 sbase) (x a b) := ?_; clear_value x)
        | (have hx : ∀ a, Pres (Kept n0 base m0 sbase) (x a) := ?_; clear_value x)
        | clear_value x)
    | (apply Pres_getS_bind; intro s0 hs0)
    | apply Pres_bind
    | apply Pres_pure
    | apply Pres_ite
    | intro _
    | apply_assumption
    | apply Pres_loop
    | apply Pres_iter
    | apply Pres_foldlM
    | apply Pres_gen
    | (apply Pres_modS; intro s hs; with_unfolding_all first | exact hs | exact Kept_setStructSize _ _ _ _ _ _ s hs | exact Kept_addField _ _ _ _ _ _ s hs | exact Kept_restore _ _ _ _ s0 s hs0 hs | exact Kept_bump_typedefs _ _ _ _ s hs | exact Kept_bump_structs _ _ _ _ s hs | exact Kept_typedef_add _ _ _ _ s0 s _ hs0 hs | exact Kept_struct_add _ _ _ _ s0 s _ hs0 hs)
    | apply Pres_o_tmpdrop
    | apply tok_jmp_pres
    | apply readexpr_pres
    | exact hr
    | split
    | dsimp only)

theorem jumpbrace_pres (n0 : Nat) (base : List typdefinfo) (m0 : Nat) (sbase : List structinfo) (r : Rec)  :
    Pres (Kept n0 base m0 sbase) (jumpbrace r) := by
  unfold jumpbrace
  repeat (with_reducible first
    | ((first | lift_lets | skip); intro x; first
        | (have hx : ∀ a b c, Pres (Kept n0 base m0 sbase) (x a b c) := ?_; clear_value x)
        | (have hx : ∀ a b, Pres (Kept n0 base m0 sbase) (x a b) := ?_; clear_value x)
        | (have hx : ∀ a, Pres (Kept n0 base m0 sbase) (x a) := ?_; clear_value x)
        | clear_value x)
    | (apply Pres_getS_bind; intro s0 hs0)
    | apply Pres_bind
    | apply Pres_pure
    | apply Pres_ite
    | intro _
    | apply_assumption
    | apply Pres_loop
    | apply Pres_iter
    | apply Pres_foldlM
    | apply Pres_gen
    | (apply Pres_modS; intro s hs; with_unfolding_all first | exact hs | exact Kept_setStructSize _ _ _ _ _ _ s hs | exact Kept_addField _ _ _ _ _ _ s hs | exact Kept_restore _ _ _ _ s0 s hs0 hs | exact Kept_bump_typedefs _ _ _ _ s hs | exact Kept_bump_structs _ _ _ _ s hs | exact Kept_typedef_add _ _ _ _ s0 s _ hs0 hs | exact Kept_struct_add _ _ _ _ s0 s _ hs0 hs)
    | apply Pres_tok_see
    | apply Pres_tok_get
    | apply tok_expect_pres
    | exact hr
    | split
    | dsimp only)

theorem initsize_pres (n0 : Nat) (base : List typdefinfo) (m0 : Nat) (sbase : List structinfo) (r : Rec) (hr : PresRec (Kept n0 base m0 sbase) r) (e : Env) :
    Pres (Kept n0 base m0 sbase) (initsize e r) := by
  unfold initsize
  repeat (with_reducible first
    | ((first | lift_lets | skip); intro x; first
        | (have hx : ∀ a b c, Pres (Kept n0 base m0 sbase) (x a b c) := ?_; clear_value x)
        | (have hx : ∀ a b, Pres (Kept n0 base m0 sbase) (x a b) := ?_; clear_value x)
        | (have hx : ∀ a, Pres (Kept n0 base m0 sbase) (x a) := ?_; clear_value x)
        | clear_value x)
    | (apply Pres_getS_bind; intro s0 hs0)
    | apply Pres_bind
    | apply Pres_pure
    | apply Pres_ite
    | intro _
    | apply_assumption
    | apply Pres_loop
    | apply Pres_iter
    | apply Pres_foldlM
    | apply Pres_gen
    | (apply Pres_modS; intro s hs; with_unfolding_all first | exact hs | exact Kept_setStructSize _ _ _ _ _ _ s hs | exact Kept_addField _ _ _ _ _ _ s hs | exact Kept_restore _ _ _ _ s0 s hs0 hs | exact Kept_bump_typedefs _ _ _ _ s hs | exact Kept_bump_structs _ _ _ _ s hs | exact Kept_typedef_add _ _ _ _ s0 s _ hs0 hs | exact Kept_struct_add _ _ _ _ s0 s _ hs0 hs)
    | apply Pres_o_popnum
    | apply Pres_tok_see
    | apply Pres_tok_get
    | apply Pres_tok_addr
    | apply Pres_tok_str
    | apply Pres_tok_jump
    | apply tok_jmp_pres
    | apply tok_expect_pres
    | apply ts_pop_de_pres
    | apply readexpr_pres
    | apply jumpbrace_pres
    | exact hr
    | split
    | dsimp only)

theorem o_localoff_pres (n0 : Nat) (base : List typdefinfo) (m0 : Nat) (sbase : List structinfo) (a o : Int) :
    Pres (Kept n0 base m0 sbase) (o_localoff a o) := by
  unfold o_localoff
  repeat (with_reducible first
    | ((first | lift_lets | skip); intro x; first
        | (have hx : ∀ a b c, Pres (Kept n0 base m0 sbase) (x a b c) := ?_; clear_value x)
        | (have hx : ∀ a b, Pres (Kept n0 base m0 sbase) (x a b) := ?_; clear_value x)
        | (have hx : ∀ a, Pres (Kept n0 base m0 sbase) (x a) := ?_; clear_value x)
        | clear_value x)
    | (apply Pres_getS_bind; intro s0 hs0)
    | apply Pres_bind
    | apply Pres_pure
    | apply Pres_ite
    | intro _
    | apply_assumption
    | apply Pres_loop
    | apply Pres_iter
    | apply Pres_foldlM
    | apply Pres_gen
    | (apply Pres_modS; intro s hs; with_unfolding_all first | exact hs | exact Kept_setStructSize _ _ _ _ _ _ s hs | exact Kept_addField _ _ _ _ _ _ s hs | exact Kept_restore _ _ _ _ s0 s hs0 hs | exact Kept_bump_typedefs _ _ _ _ s hs | exact Kept_bump_structs _ _ _ _ s hs | exact Kept_typedef_add _ _ _ _ s0 s _ hs0 hs | exact Kept_struct_add _ _ _ _ s0 s _ hs0 hs)
    | apply Pres_o_bop
    | apply Pres_o_num
    | apply Pres_o_local
    | exact hr
    | split
    | dsimp only)

theorem globalinit_pres (n0 : Nat) (base : List typdefinfo) (m0 : Nat) (sbase : List structinfo) (r : Rec) (hr : PresRec (Kept n0 base m0 sbase) r) (e : Env) (nm : name) (off : Int) (t : type) :
    Pres (Kept n0 base m0 sbase) (globalinit e r nm off t) := by
  unfold globalinit
  repeat (with_reducible first
    | ((first | lift_lets | skip); intro x; first
        | (have hx : ∀ a b c, Pres (Kept n0 base m0 sbase) (x a b c) := ?_; clear_value x)
        | (have hx : ∀ a b, Pres (Kept n0 base m0 sbase) (x a b) := ?_; clear_value x)
        | (have hx : ∀ a, Pres (Kept n0 base m0 sbase) (x a) := ?_; clear_value x)
        | clear_value x)
    | (apply Pres_getS_bind; intro s0 hs0)
    | apply Pres_bind
    | apply Pres_pure
    | apply Pres_ite
    | intro _
    | apply_assumption
    | apply Pres_loop
    | apply Pres_iter
    | apply Pres_foldlM
    | apply Pres_gen
    | (apply Pres_modS; intro s hs; with_unfolding_all first | exact hs | exact Kept_setStructSize _ _ _ _ _ _ s hs | exact Kept_addField _ _ _ _ _ _ s hs | exact Kept_restore _ _ _ _ s0 s hs0 hs | exact Kept_bump_typedefs _ _ _ _ s hs | exact Kept_bump_structs _ _ _ _ s hs | exact Kept_typedef_add _ _ _ _ s0 s _ hs0 hs | exact Kept_struct_add _ _ _ _ s0 s _ hs0 hs)
    | apply Pres_tok_see
    | apply Pres_tok_str
    | apply Pres_ts_pop
    | apply Pres_emit
    | apply Pres_getS
    | apply tok_expect_pres
    | apply readexpr_pres
    | exact hr
    | split
    | dsimp only)

theorem localinit_pres (n0 : Nat) (base : List typdefinfo) (m0 : Nat) (sbase : List structinfo) (r : Rec) (hr : PresRec (Kept n0 base m0 sbase) r) (e : Env) (a : Int) (off : Int) (t : type) :
    Pres (Kept n0 base m0 sbase) (localinit e r a off t) := by
  unfold localinit
  repeat (with_reducible first
    | ((first | lift_lets | skip); intro x; first
        | (have hx : ∀ a b c, Pres (Kept n0 base m0 sbase) (x a b c) := ?_; clear_value x)
        | (have hx : ∀ a b, Pres (Kept n0 base m0 sbase) (x a b) := ?_; clear_value x)
        | (have hx : ∀ a, Pres (Kept n0 base m0 sbase) (x a) := ?_; clear_value x)
        | clear_value x)
    | (apply Pres_getS_bind; intro s0 hs0)
    | apply Pres_bind
    | apply Pres_pure
    | apply Pres_ite
    | intro _
    | apply_assumption
    | apply Pres_loop
    | apply Pres_iter
    | apply Pres_foldlM
    | apply Pres_gen
    | (apply Pres_modS; intro s hs; with_unfolding_all first | exact hs | exact Kept_setStructSize _ _ _ _ _ _ s hs | exact Kept_addField _ _ _ _ _ _ s hs | exact Kept_restore _ _ _ _ s0 s hs0 hs | exact Kept_bump_typedefs _ _ _ _ s hs | exact Kept_bump_structs _ _ _ _ s hs | exact Kept_typedef_add _ _ _ _ s0 s _ hs0 hs | exact Kept_struct_add _ _ _ _ s0 s _ hs0 hs)
    | apply Pres_tok_see
    | apply Pres_tok_str
    | apply Pres_ts_pop
    | apply Pres_getS
    | apply Pres_o_memcpy
    | apply Pres_o_num
    | apply Pres_o_sym
    | apply Pres_o_tmpdrop
    | apply tok_expect_pres
    | apply ts_push_pres
    | apply tmp_str_pres
    | apply o_sym_tmp_str_pres
    | apply doassign_pres
    | apply readexpr_pres
    | apply o_localoff_pres
    | exact hr
    | split
    | dsimp only)

theorem initset_pres (n0 : Nat) (base : List typdefinfo) (m0 : Nat) (sbase : List structinfo) (r : Rec) (hr : PresRec (Kept n0 base m0 sbase) r) (e : Env) (cb : InitCb) (off : Int) (t : type) :
    Pres (Kept n0 base m0 sbase) (initset e r cb off t) := by
  unfold initset
  repeat (with_reducible first
    | ((first | lift_lets | skip); intro x; first
        | (have hx : ∀ a b c, Pres (Kept n0 base m0 sbase) (x a b c) := ?_; clear_value x)
        | (have hx : ∀ a b, Pres (Kept n0 base m0 sbase) (x a b) := ?_; clear_value x)
        | (have hx : ∀ a, Pres (Kept n0 base m0 sbase) (x a) := ?_; clear_value x)
        | clear_value x)
    | (apply Pres_getS_bind; intro s0 hs0)
    | apply Pres_bind
    | apply Pres_pure
    | apply Pres_ite
    | intro _
    | apply_assumption
    | apply Pres_loop
    | apply Pres_iter
    | apply Pres_foldlM
    | apply Pres_gen
    | (apply Pres_modS; intro s hs; with_unfolding_all first | exact hs | exact Kept_setStructSize _ _ _ _ _ _ s hs | exact Kept_addField _ _ _ _ _ _ s hs | exact Kept_restore _ _ _ _ s0 s hs0 hs | exact Kept_bump_typedefs _ _ _ _ s hs | exact Kept_bump_structs _ _ _ _ s hs | exact Kept_typedef_add _ _ _ _ s0 s _ hs0 hs | exact Kept_struct_add _ _ _ _ s0 s _ hs0 hs)
    | apply globalinit_pres
    | apply localinit_pres
    | exact hr
    | split
    | dsimp only)

theorem initexpr_pres (n0 : Nat) (base : List typdefinfo) (m0 : Nat) (sbase : List structinfo) (r : Rec) (hr : PresRec (Kept n0 base m0 sbase) r) (e : Env) (t : type) (off : Int) (cb : InitCb) :
    Pres (Kept n0 base m0 sbase) (initexpr e r t off cb) := by
  unfold initexpr
  repeat (with_reducible first
    | ((first | lift_lets | skip); intro x; first
        | (have hx : ∀ a b c, Pres (Kept n0 base m0 sbase) (x a b c) := ?_; clear_value x)
        | (have hx : ∀ a b, Pres (Kept n0 base m0 sbase) (x a b) := ?_; clear_value x)
        | (have hx : ∀ a, Pres (Kept n0 base m0 sbase) (x a) := ?_; clear_value x)
        | clear_value x)
    | (apply Pres_getS_bind; intro s0 hs0)
    | apply Pres_bind
    | apply Pres_pure
    | apply Pres_ite
    | intro _
    | apply_assumption
    | apply Pres_loop
    | apply Pres_iter
    | apply Pres_foldlM
    | apply Pres_gen
    | (apply Pres_modS; intro s hs; with_unfolding_all first | exact hs | exact Kept_setStructSize _ _ _ _ _ _ s hs | exact Kept_addField _ _ _ _ _ _ s hs | exact Kept_restore _ _ _ _ s0 s hs0 hs | exact Kept_bump_typedefs _ _ _ _ s hs | exact Kept_bump_structs _ _ _ _ s hs | exact Kept_typedef_add _ _ _ _ s0 s _ hs0 hs | exact Kept_struct_add _ _ _ _ s0 s _ hs0 hs)
    | apply Pres_o_popnum
    | apply Pres_tok_see
    | apply Pres_tok_id
    | apply Pres_type_totsz
    | apply Pres_innertype
    | apply Pres_getS
    | apply tok_jmp_pres
    | apply tok_expect_pres
    | apply ts_pop_de_pres
    | apply struct_field_pres
    | apply readexpr_pres
    | apply initset_pres
    | apply hr.initexpr
    | exact hr
    | split
    | dsimp only)

theorem globaldef_pres (n0 : Nat) (base : List typdefinfo) (m0 : Nat) (sbase : List structinfo) (r : Rec) (hr : PresRec (Kept n0 base m0 sbase) r) (e : Env) (nm : name) (fl : Nat) :
    Pres (Kept n0 base m0 sbase) (globaldef e r nm fl) := by
  unfold globaldef
  repeat (with_reducible first
    | ((first | lift_lets | skip); intro x; first
        | (have hx : ∀ a b c, Pres (Kept n0 base m0 sbase) (x a b c) := ?_; clear_value x)
        | (have hx : ∀ a b, Pres (Kept n0 base m0 sbase) (x a b) := ?_; clear_value x)
        | (have hx : ∀ a, Pres (Kept n0 base m0 sbase) (x a) := ?_; clear_value x)
        | clear_value x)
    | (apply Pres_getS_bind; intro s0 hs0)
    | apply Pres_bind
    | apply Pres_pure
    | apply Pres_ite
    | intro _
    | apply_assumption
    | apply Pres_loop
    | apply Pres_iter
    | apply Pres_foldlM
    | apply Pres_gen
    | (apply Pres_modS; intro s hs; with_unfolding_all first | exact hs | exact Kept_setStructSize _ _ _ _ _ _ s hs | exact Kept_addField _ _ _ _ _ _ s hs | exact Kept_restore _ _ _ _ s0 s hs0 hs | exact Kept_bump_typedefs _ _ _ _ s hs | exact Kept_bump_structs _ _ _ _ s hs | exact Kept_typedef_add _ _ _ _ s0 s _ hs0 hs | exact Kept_struct_add _ _ _ _ s0 s _ hs0 hs)
    | apply Pres_o_dsnew
    | apply Pres_tok_see
    | apply Pres_type_totsz
    | apply Pres_emit
    | apply Pres_getS
    | apply tok_jmp_pres
    | apply global_add_pres
    | apply initsize_pres
    | apply initexpr_pres
    | apply hr.readfunc
    | exact hr
    | split
    | dsimp only)

theorem localdef_pres (n0 : Nat) (base : List typdefinfo) (m0 : Nat) (sbase : List structinfo) (r : Rec) (hr : PresRec (Kept n0 base m0 sbase) r) (e : Env) (nm : name) (fl : Nat) :
    Pres (Kept n0 base m0 sbase) (localdef e r nm fl) := by
  unfold localdef
  repeat (with_reducible first
    | ((first | lift_lets | skip); intro x; first
        | (have hx : ∀ a b c, Pres (Kept n0 base m0 sbase) (x a b c) := ?_; clear_value x)
        | (have hx : ∀ a b, Pres (Kept n0 base m0 sbase) (x a b) := ?_; clear_value x)
        | (have hx : ∀ a, Pres (Kept n0 base m0 sbase) (x a) := ?_; clear_value x)
        | clear_value x)
    | (apply Pres_getS_bind; intro s0 hs0)
    | apply Pres_bind
    | apply Pres_pure
    | apply Pres_ite
    | intro _
    | apply_assumption
    | apply Pres_loop
    | apply Pres_iter
    | apply Pres_foldlM
    | apply Pres_gen
    | (apply Pres_modS; intro s hs; with_unfolding_all first | exact hs | exact Kept_setStructSize _ _ _ _ _ _ s hs | exact Kept_addField _ _ _ _ _ _ s hs | exact Kept_restore _ _ _ _ s0 s hs0 hs | exact Kept_bump_typedefs _ _ _ _ s hs | exact Kept_bump_structs _ _ _ _ s hs | exact Kept_typedef_add _ _ _ _ s0 s _ hs0 hs | exact Kept_struct_add _ _ _ _ s0 s _ hs0 hs)
    | apply Pres_o_mklocal
    | apply Pres_type_totsz
    | apply Pres_getS
    | apply Pres_o_memset
    | apply Pres_o_num
    | apply Pres_o_local
    | apply Pres_o_tmpdrop
    | apply tok_jmp_pres
    | apply local_add_pres
    | apply global_add_pres
    | apply initsize_pres
    | apply initexpr_pres
    | apply globaldef_pres
    | exact hr
    | split
    | dsimp only)

theorem typedefdef_pres (n0 : Nat) (base : List typdefinfo) (m0 : Nat) (sbase : List structinfo) (e : Env) (nm : name) (fl : Nat) :
    Pres (Kept n0 base m0 sbase) (typedefdef e nm fl) := by
  unfold typedefdef
  repeat (with_reducible first
    | ((first | lift_lets | skip); intro x; first
        | (have hx : ∀ a b c, Pres (Kept n0 base m0 sbase) (x a b c) := ?_; clear_value x)
        | (have hx : ∀ a b, Pres (Kept n0 base m0 sbase) (x a b) := ?_; clear_value x)
        | (have hx : ∀ a, Pres (Kept n0 base m0 sbase) (x a) := ?_; clear_value x)
        | clear_value x)
    | (apply Pres_getS_bind; intro s0 hs0)
    | apply Pres_bind
    | apply Pres_pure
    | apply Pres_ite
    | intro _
    | apply_assumption
    | apply Pres_loop
    | apply Pres_iter
    | apply Pres_foldlM
    | apply Pres_gen
    | (apply Pres_modS; intro s hs; with_unfolding_all first | exact hs | exact Kept_setStructSize _ _ _ _ _ _ s hs | exact Kept_addField _ _ _ _ _ _ s hs | exact Kept_restore _ _ _ _ s0 s hs0 hs | exact Kept_bump_typedefs _ _ _ _ s hs | exact Kept_bump_structs _ _ _ _ s hs | exact Kept_typedef_add _ _ _ _ s0 s _ hs0 hs | exact Kept_struct_add _ _ _ _ s0 s _ hs0 hs)
    | apply typedef_add_pres
    | exact hr
    | split
    | dsimp only)

theorem calldef_pres (n0 : Nat) (base : List typdefinfo) (m0 : Nat) (sbase : List structinfo) (r : Rec) (hr : PresRec (Kept n0 base m0 sbase) r) (e : Env) (cb : DefCb) (nm : name) (fl : Nat) :
    Pres (Kept n0 base m0 sbase) (calldef e r cb nm fl) := by
  unfold calldef
  repeat (with_reducible first
    | ((first | lift_lets | skip); intro x; first
        | (have hx : ∀ a b c, Pres (Kept n0 base m0 sbase) (x a b c) := ?_; clear_value x)
        | (have hx : ∀ a b, Pres (Kept n0 base m0 sbase) (x a b) := ?_; clear_value x)
        | (have hx : ∀ a, Pres (Kept n0 base m0 sbase) (x a) := ?_; clear_value x)
        | clear_value x)
    | (apply Pres_getS_bind; intro s0 hs0)
    | apply Pres_bind
    | apply Pres_pure
    | apply Pres_ite
    | intro _
    | apply_assumption
    | apply Pres_loop
    | apply Pres_iter
    | apply Pres_foldlM
    | apply Pres_gen
    | (apply Pres_modS; intro s hs; with_unfolding_all first | exact hs | exact Kept_setStructSize _ _ _ _ _ _ s hs | exact Kept_addField _ _ _ _ _ _ s hs | exact Kept_restore _ _ _ _ s0 s hs0 hs | exact Kept_bump_typedefs _ _ _ _ s hs | exact Kept_bump_structs _ _ _ _ s hs | exact Kept_typedef_add _ _ _ _ s0 s _ hs0 hs | exact Kept_struct_add _ _ _ _ s0 s _ hs0 hs)
    | apply structdef_pres
    | apply krdef_pres
    | apply globaldef_pres
    | apply localdef_pres
    | apply typedefdef_pres
    | exact hr
    | split
    | dsimp only)

theorem readdefs_loop_pres (n0 : Nat) (base : List typdefinfo) (m0 : Nat) (sbase : List structinfo) (r : Rec) (hr : PresRec (Kept n0 base m0 sbase) r) (e : Env) (cb : DefCb) (b : type) (fl : Nat) :
    Pres (Kept n0 base m0 sbase) (readdefs_loop e r cb b fl) := by
  unfold readdefs_loop
  repeat (with_reducible first
    | ((first | lift_lets | skip); intro x; first
        | (have hx : ∀ a b c, Pres (Kept n0 base m0 sbase) (x a b c) := ?_; clear_value x)
        | (have hx : ∀ a b, Pres (Kept n0 base m0 sbase) (x a b) := ?_; clear_value x)
        | (have hx : ∀ a, Pres (Kept n0 base m0 sbase) (x a) := ?_; clear_value x)
        | clear_value x)
    | (apply Pres_getS_bind; intro s0 hs0)
    | apply Pres_bind
    | apply Pres_pure
    | apply Pres_ite
    | intro _
    | apply_assumption
    | apply Pres_loop
    | apply Pres_iter
    | apply Pres_foldlM
    | apply Pres_gen
    | (apply Pres_modS; intro s hs; with_unfolding_all first | exact hs | exact Kept_setStructSize _ _ _ _ _ _ s hs | exact Kept_addField _ _ _ _ _ _ s hs | exact Kept_restore _ _ _ _ s0 s hs0 hs | exact Kept_bump_typedefs _ _ _ _ s hs | exact Kept_bump_structs _ _ _ _ s hs | exact Kept_typedef_add _ _ _ _ s0 s _ hs0 hs | exact Kept_struct_add _ _ _ _ s0 s _ hs0 hs)
    | apply tok_jmp_pres
    | apply readname_pres
    | apply calldef_pres
    | exact hr
    | split
    | dsimp only)

theorem readdefs_pres (n0 : Nat) (base : List typdefinfo) (m0 : Nat) (sbase : List structinfo) (r : Rec) (hr : PresRec (Kept n0 base m0 sbase) r) (e : Env) (cb : DefCb) :
    Pres (Kept n0 base m0 sbase) (readdefs e r cb) := by
  unfold readdefs
  repeat (with_reducible first
    | ((first | lift_lets | skip); intro x; first
        | (have hx : ∀ a b c, Pres (Kept n0 base m0 sbase) (x a b c) := ?_; clear_value x)
        | (have hx : ∀ a b, Pres (Kept n0 base m0 sbase) (x a b) := ?_; clear_value x)
        | (have hx : ∀ a, Pres (Kept n0 base m0 sbase) (x a) := ?_; clear_value x)
        | clear_value x)
    | (apply Pres_getS_bind; intro s0 hs0)
    | apply Pres_bind
    | apply Pres_pure
    | apply Pres_ite
    | intro _
    | apply_assumption
    | apply Pres_loop
    | apply Pres_iter
    | apply Pres_foldlM
    | apply Pres_gen
    | (apply Pres_modS; intro s hs; with_unfolding_all first | exact hs | exact Kept_setStructSize _ _ _ _ _ _ s hs | exact Kept_addField _ _ _ _ _ _ s hs | exact Kept_restore _ _ _ _ s0 s hs0 hs | exact Kept_bump_typedefs _ _ _ _ s hs | exact Kept_bump_structs _ _ _ _ s hs | exact Kept_typedef_add _ _ _ _ s0 s _ hs0 hs | exact Kept_struct_add _ _ _ _ s0 s _ hs0 hs)
    | apply Pres_tok_see
    | apply basetype_pres
    | apply readdefs_loop_pres
    | exact hr
    | split
    | dsimp only)

theorem readdefs_int_pres (n0 : Nat) (base : List typdefinfo) (m0 : Nat) (sbase : List structinfo) (r : Rec) (hr : PresRec (Kept n0 base m0 sbase) r) (e : Env) (cb : DefCb) :
    Pres (Kept n0 base m0 sbase) (readdefs_int e r cb) := by
  unfold readdefs_int
  repeat (with_reducible first
    | ((first | lift_lets | skip); intro x; first
        | (have hx : ∀ a b c, Pres (Kept n0 base m0 sbase) (x a b c) := ?_; clear_value x)
        | (have hx : ∀ a b, Pres (Kept n0 base m0 sbase) (x a b) := ?_; clear_value x)
        | (have hx : ∀ a, Pres (Kept n0 base m0 sbase) (x a) := ?_; clear_value x)
        | clear_value x)
    | (apply Pres_getS_bind; intro s0 hs0)
    | apply Pres_bind
    | apply Pres_pure
    | apply Pres_ite
    | intro _
    | apply_assumption
    | apply Pres_loop
    | apply Pres_iter
    | apply Pres_foldlM
    | apply Pres_gen
    | (apply Pres_modS; intro s hs; with_unfolding_all first | exact hs | exact Kept_setStructSize _ _ _ _ _ _ s hs | exact Kept_addField _ _ _ _ _ _ s hs | exact Kept_restore _ _ _ _ s0 s hs0 hs | exact Kept_bump_typedefs _ _ _ _ s hs | exact Kept_bump_structs _ _ _ _ s hs | exact Kept_typedef_add _ _ _ _ s0 s _ hs0 hs | exact Kept_struct_add _ _ _ _ s0 s _ hs0 hs)
    | apply Pres_tok_see
    | apply basetype_pres
    | apply readdefs_loop_pres
    | exact hr
    | split
    | dsimp only)

theorem readswitch_pres (n0 : Nat) (base : List typdefinfo) (m0 : Nat) (sbase : List structinfo) (r : Rec) (hr : PresRec (Kept n0 base m0 sbase) r) (e : Env) :
    Pres (Kept n0 base m0 sbase) (readswitch e r) := by
  unfold readswitch
  repeat (with_reducible first
    | ((first | lift_lets | skip); intro x; first
        | (have hx : ∀ a b c, Pres (Kept n0 base m0 sbase) (x a b c) := ?_; clear_value x)
        | (have hx : ∀ a b, Pres (Kept n0 base m0 sbase) (x a b) := ?_; clear_value x)
        | (have hx : ∀ a, Pres (Kept n0 base m0 sbase) (x a) := ?_; clear_value x)
        | clear_value x)
    | (apply Pres_getS_bind; intro s0 hs0)
    | apply Pres_bind
    | apply Pres_pure
    | apply Pres_ite
    | intro _
    | apply_assumption
    | apply Pres_loop
    | apply Pres_iter
    | apply Pres_foldlM
    | apply Pres_gen
    | (apply Pres_modS; intro s hs; with_unfolding_all first | exact hs | exact Kept_setStructSize _ _ _ _ _ _ s hs | exact Kept_addField _ _ _ _ _ _ s hs | exact Kept_restore _ _ _ _ s0 s hs0 hs | exact Kept_bump_typedefs _ _ _ _ s hs | exact Kept_bump_structs _ _ _ _ s hs | exact Kept_typedef_add _ _ _ _ s0 s _ hs0 hs | exact Kept_struct_add _ _ _ _ s0 s _ hs0 hs)
    | apply Pres_o_mklocal
    | apply Pres_tok_see
    | apply Pres_tok_get
    | apply Pres_LABEL
    | apply Pres_emit
    | apply Pres_getS
    | apply Pres_o_bop
    | apply Pres_o_assign
    | apply Pres_o_deref
    | apply Pres_o_local
    | apply Pres_o_tmpdrop
    | apply Pres_o_tmpswap
    | apply Pres_o_label
    | apply Pres_o_jz
    | apply Pres_o_jmp
    | apply tok_jmp_pres
    | apply tok_expect_pres
    | apply ts_de_pres
    | apply ts_pop_de_pres
    | apply readexpr_pres
    | apply hr.readstmt
    | exact hr
    | split
    | dsimp only)

theorem readstmt_pres (n0 : Nat) (base : List typdefinfo) (m0 : Nat) (sbase : List structinfo) (r : Rec) (hr : PresRec (Kept n0 base m0 sbase) r) (e : Env) :
    Pres (Kept n0 base m0 sbase) (readstmt e r) := by
  unfold readstmt
  repeat (with_reducible first
    | ((first | lift_lets | skip); intro x; first
        | (have hx : ∀ a b c, Pres (Kept n0 base m0 sbase) (x a b c) := ?_; clear_value x)
        | (have hx : ∀ a b, Pres (Kept n0 base m0 sbase) (x a b) := ?_; clear_value x)
        | (have hx : ∀ a, Pres (Kept n0 base m0 sbase) (x a) := ?_; clear_value x)
        | clear_value x)
    | (apply Pres_getS_bind; intro s0 hs0)
    | apply Pres_bind
    | apply Pres_pure
    | apply Pres_ite
    | intro _
    | apply_assumption
    | apply Pres_loop
    | apply Pres_iter
    | apply Pres_foldlM
    | apply Pres_gen
    | (apply Pres_modS; intro s hs; with_unfolding_all first | exact hs | exact Kept_setStructSize _ _ _ _ _ _ s hs | exact Kept_addField _ _ _ _ _ _ s hs | exact Kept_restore _ _ _ _ s0 s hs0 hs | exact Kept_bump_typedefs _ _ _ _ s hs | exact Kept_bump_structs _ _ _ _ s hs | exact Kept_typedef_add _ _ _ _ s0 s _ hs0 hs | exact Kept_struct_add _ _ _ _ s0 s _ hs0 hs)
    | apply Pres_tok_see
    | apply Pres_tok_id
    | apply Pres_LABEL
    | apply Pres_getS
    | apply Pres_o_ret
    | apply Pres_o_tmpdrop
    | apply Pres_o_label
    | apply Pres_o_jz
    | apply Pres_o_jnz
    | apply Pres_o_jmp
    | apply tok_jmp_pres
    | apply tok_expect_pres
    | apply ts_pop_de_pres
    | apply label_id_pres
    | apply o_jmp_label_id_pres
    | apply o_label_label_id_pres
    | apply readexpr_pres
    | apply readestmt_pres
    | apply readdefs_pres
    | apply readswitch_pres
    | apply hr.readstmt
    | exact hr
    | split
    | dsimp only)

theorem readfunc_pres (n0 : Nat) (base : List typdefinfo) (m0 : Nat) (sbase : List structinfo) (r : Rec) (hr : PresRec (Kept n0 base m0 sbase) r) (e : Env) (nm : name) (fl : Nat) :
    Pres (Kept n0 base m0 sbase) (readfunc e r nm fl) := by
  unfold readfunc
  repeat (with_reducible first
    | ((first | lift_lets | skip); intro x; first
        | (have hx : ∀ a b c, Pres (Kept n0 base m0 sbase) (x a b c) := ?_; clear_value x)
        | (have hx : ∀ a b, Pres (Kept n0 base m0 sbase) (x a b) := ?_; clear_value x)
        | (have hx : ∀ a, Pres (Kept n0 base m0 sbase) (x a) := ?_; clear_value x)
        | clear_value x)
    | (apply Pres_getS_bind; intro s0 hs0)
    | apply Pres_bind
    | apply Pres_pure
    | apply Pres_ite
    | intro _
    | apply_assumption
    | apply Pres_loop
    | apply Pres_iter
    | apply Pres_foldlM
    | apply Pres_gen
    | (apply Pres_modS; intro s hs; with_unfolding_all first | exact hs | exact Kept_setStructSize _ _ _ _ _ _ s hs | exact Kept_addField _ _ _ _ _ _ s hs | exact Kept_restore _ _ _ _ s0 s hs0 hs | exact Kept_bump_typedefs _ _ _ _ s hs | exact Kept_bump_structs _ _ _ _ s hs | exact Kept_typedef_add _ _ _ _ s0 s _ hs0 hs | exact Kept_struct_add _ _ _ _ s0 s _ hs0 hs)
    | apply Pres_o_arg2loc
    | apply Pres_tok_addr
    | apply Pres_tok_jump
    | apply Pres_emit
    | apply Pres_getS
    | apply local_add_pres
    | apply readstmt_pres
    | exact hr
    | split
    | dsimp only)

theorem readdecl_pres (n0 : Nat) (base : List typdefinfo) (m0 : Nat) (sbase : List structinfo) (r : Rec) (hr : PresRec (Kept n0 base m0 sbase) r) (e : Env) :
    Pres (Kept n0 base m0 sbase) (readdecl e r) := by
  unfold readdecl
  repeat (with_reducible first
    | ((first | lift_lets | skip); intro x; first
        | (have hx : ∀ a b c, Pres (Kept n0 base m0 sbase) (x a b c) := ?_; clear_value x)
        | (have hx : ∀ a b, Pres (Kept n0 base m0 sbase) (x a b) := ?_; clear_value x)
        | (have hx : ∀ a, Pres (Kept n0 base m0 sbase) (x a) := ?_; clear_value x)
        | clear_value x)
    | (apply Pres_getS_bind; intro s0 hs0)
    | apply Pres_bind
    | apply Pres_pure
    | apply Pres_ite
    | intro _
    | apply_assumption
    | apply Pres_loop
    | apply Pres_iter
    | apply Pres_foldlM
    | apply Pres_gen
    | (apply Pres_modS; intro s hs; with_unfolding_all first | exact hs | exact Kept_setStructSize _ _ _ _ _ _ s hs | exact Kept_addField _ _ _ _ _ _ s hs | exact Kept_restore _ _ _ _ s0 s hs0 hs | exact Kept_bump_typedefs _ _ _ _ s hs | exact Kept_bump_structs _ _ _ _ s hs | exact Kept_typedef_add _ _ _ _ s0 s _ hs0 hs | exact Kept_struct_add _ _ _ _ s0 s _ hs0 hs)
    | apply tok_jmp_pres
    | apply tok_expect_pres
    | apply readdefs_pres
    | apply readdefs_int_pres
    | exact hr
    | split
    | dsimp only)

theorem parse_pres (n0 : Nat) (base : List typdefinfo) (m0 : Nat) (sbase : List structinfo) (r : Rec) (hr : PresRec (Kept n0 base m0 sbase) r) (e : Env) :
    Pres (Kept n0 base m0 sbase) (parse e r) := by
  unfold parse
  repeat (with_reducible first
    | ((first | lift_lets | skip); intro x; first
        | (have hx : ∀ a b c, Pres (Kept n0 base m0 sbase) (x a b c) := ?_; clear_value x)
        | (have hx : ∀ a b, Pres (Kept n0 base m0 sbase) (x a b) := ?_; clear_value x)
        | (have hx : ∀ a, Pres (Kept n0 base m0 sbase) (x a) := ?_; clear_value x)
        | clear_value x)
    | (apply Pres_getS_bind; intro s0 hs0)
    | apply Pres_bind
    | apply Pres_pure
    | apply Pres_ite
    | intro _
    | apply_assumption
    | apply Pres_loop
    | apply Pres_iter
    | apply Pres_foldlM
    | apply Pres_gen
    | (apply Pres_modS; intro s hs; with_unfolding_all first | exact hs | exact Kept_setStructSize _ _ _ _ _ _ s hs | exact Kept_addField _ _ _ _ _ _ s hs | exact Kept_restore _ _ _ _ s0 s hs0 hs | exact Kept_bump_typedefs _ _ _ _ s hs | exact Kept_bump_structs _ _ _ _ s hs | exact Kept_typedef_add _ _ _ _ s0 s _ hs0 hs | exact Kept_struct_add _ _ _ _ s0 s _ hs0 hs)
    | apply Pres_tok_see
    | apply readdecl_pres
    | exact hr
    | split
    | dsimp only)

theorem recN_pres (n0 : Nat) (base : List typdefinfo) (m0 : Nat) (sbase : List structinfo)
    (e : Env) (n : Nat) : PresRec (Kept n0 base m0 sbase) (recN e n) := by
  induction n with
  | zero =>
    exact ⟨Pres_outOfFuel _, Pres_outOfFuel _, Pres_outOfFuel _, fun _ _ => Pres_outOfFuel _,
      fun _ => Pres_outOfFuel _, fun _ _ _ => Pres_outOfFuel _, Pres_outOfFuel _,
      fun _ _ => Pres_outOfFuel _⟩
  | succ n ih =>
    exact ⟨readexpr_pres _ _ _ _ _ ih e, readpre_pres _ _ _ _ _ ih e,
      readcexpr_pres _ _ _ _ _ ih e, fun b t => readname_pres _ _ _ _ _ ih e b t,
      fun cb => readdefs_pres _ _ _ _ _ ih e cb, fun t o cb => initexpr_pres _ _ _ _ _ ih e t o cb,
      readstmt_pres _ _ _ _ _ ih e, fun nm fl => readfunc_pres _ _ _ _ _ ih e nm fl⟩

end Preservation

/-! ## Lemmas for the second group of claims -/

theorem or4_and_256 (bt : Nat) : (bt ||| 4) &&& 256 = bt &&& 256 := by
  apply Nat.eq_of_testBit_eq
  intro i
  simp only [Nat.testBit_and, Nat.testBit_or, testBit_256]
  by_cases hi : 8 = i
  · subst hi
    have : (4 : Nat).testBit 8 = false := by decide
    simp [this]
  · simp [hi]

theorem name_find_spec (tbl : List name) (nm : String) (n : Nat) :
    (name_find tbl nm n = -1 ↔ ∀ i, i < n → (tbl.getD i name.zero).name ≠ nm) ∧
    (∀ k : Nat, name_find tbl nm n = (k : Int) ↔
      (k < n ∧ (tbl.getD k name.zero).name = nm ∧
        ∀ j, k < j → j < n → (tbl.getD j name.zero).name ≠ nm)) := by
  induction n with
  | zero =>
    refine ⟨by simp [name_find], fun k => ?_⟩
    simp only [name_find]
    constructor
    · intro h; omega
    · intro h; omega
  | succ n ih =>
    by_cases hn : (tbl.getD n name.zero).name = nm
    · have hf : name_find tbl nm (n + 1) = (n : Int) := by
        show (if _ then _ else _) = _
        rw [if_pos hn]
      rw [hf]
      refine ⟨?_, fun k => ?_⟩
      · constructor
        · intro h; omega
        · intro h; exact absurd hn (h n (Nat.lt_succ_self n))
      · constructor
        · intro h
          have hk : k = n := by omega
          subst hk
          exact ⟨Nat.lt_succ_self _, hn, fun j h1 h2 => by omega⟩
        · rintro ⟨h1, h2, h3⟩
          by_cases hk : k = n
          · subst hk; rfl
          · exact absurd hn (h3 n (by omega) (Nat.lt_succ_self n))
    · have hf : name_find tbl nm (n + 1) = name_find tbl nm n := by
        show (if _ then _ else _) = _
        rw [if_neg hn]
      rw [hf]
      refine ⟨?_, fun k => ?_⟩
      · rw [ih.1]
        constructor
        · intro h i hi
          by_cases hin : i = n
          · subst hin; exact hn
          · exact h i (by omega)
        · intro h i hi; exact h i (by omega)
      · rw [ih.2 k]
        constructor
        · rintro ⟨h1, h2, h3⟩
          refine ⟨by omega, h2, fun j hj1 hj2 => ?_⟩
          by_cases hjn : j = n
          · subst hjn; exact hn
          · exact h3 j hj1 (by omega)
        · rintro ⟨h1, h2, h3⟩
          have hkn : k ≠ n := fun hk => hn (hk ▸ h2)
          exact ⟨by omega, h2, fun j hj1 hj2 => h3 j hj1 (by omega)⟩

theorem local_add_ok (e : Env) (x : name) (s : State) (h : s.nlocals < e.NLOCALS) :
    local_add e x s = .ok ((), { s with locals := tset name.zero s.locals s.nlocals x,
                                        nlocals := s.nlocals + 1 }) := by
  unfold local_add
  simp only [bind_apply, getS_apply]
  rw [if_neg (by omega)]
  rfl

theorem local_add_inv (e : Env) (x : name) (s s1 : State) (h : local_add e x s = .ok ((), s1)) :
    s.nlocals < e.NLOCALS ∧
    s1 = { s with locals := tset name.zero s.locals s.nlocals x, nlocals := s.nlocals + 1 } := by
  by_cases hc : s.nlocals < e.NLOCALS
  · rw [local_add_ok e x s hc] at h
    injection h with h; injection h with _ h
    exact ⟨hc, h.symm⟩
  · unfold local_add at h
    simp only [bind_apply, getS_apply] at h
    rw [if_pos (by omega)] at h
    cases h

theorem struct_find_aux_succ (tbl : List structinfo) (nm : String) (u : Int) (n : Nat) :
    struct_find_aux tbl nm u (n + 1) =
      if (tbl.getD n structinfo.zero).name ≠ "" ∧ nm = (tbl.getD n structinfo.zero).name ∧
        (tbl.getD n structinfo.zero).isunion = u then some n
      else struct_find_aux tbl nm u n := rfl

theorem struct_find_aux_some (tbl : List structinfo) (nm : String) (u : Int) (n i : Nat) :
    struct_find_aux tbl nm u n = some i ↔
      (i < n ∧ ((tbl.getD i structinfo.zero).name ≠ "" ∧ nm = (tbl.getD i structinfo.zero).name ∧
          (tbl.getD i structinfo.zero).isunion = u) ∧
        ∀ j, i < j → j < n → ¬ ((tbl.getD j structinfo.zero).name ≠ "" ∧
          nm = (tbl.getD j structinfo.zero).name ∧ (tbl.getD j structinfo.zero).isunion = u)) := by
  induction n with
  | zero =>
    constructor
    · intro h; cases h
    · intro h; omega
  | succ n ih =>
    rw [struct_find_aux_succ]
    split
    · next hp =>
      constructor
      · intro h
        injection h with h
        subst h
        exact ⟨Nat.lt_succ_self _, hp, fun j h1 h2 => by omega⟩
      · rintro ⟨h1, h2, h3⟩
        by_cases hk : i = n
        · rw [hk]
        · exact absurd hp (h3 n (by omega) (Nat.lt_succ_self n))
    · next hp =>
      rw [ih]
      constructor
      · rintro ⟨h1, h2, h3⟩
        refine ⟨by omega, h2, fun j hj1 hj2 => ?_⟩
        by_cases hjn : j = n
        · subst hjn; exact hp
        · exact h3 j hj1 (by omega)
      · rintro ⟨h1, h2, h3⟩
        have hkn : i ≠ n := fun hk => hp (hk ▸ h2)
        exact ⟨by omega, h2, fun j hj1 hj2 => h3 j hj1 (by omega)⟩

theorem struct_find_aux_none (tbl : List structinfo) (nm : String) (u : Int) (n : Nat) :
    struct_find_aux tbl nm u n = none ↔
      ∀ i, i < n → ¬ ((tbl.getD i structinfo.zero).name ≠ "" ∧
        nm = (tbl.getD i structinfo.zero).name ∧ (tbl.getD i structinfo.zero).isunion = u) := by
  induction n with
  | zero => exact ⟨fun _ i hi => absurd hi (Nat.not_lt_zero i), fun _ => rfl⟩
  | succ n ih =>
    rw [struct_find_aux_succ]
    split
    · next hp =>
      constructor
      · intro h; cases h
      · intro h; exact absurd hp (h n (Nat.lt_succ_self n))
    · next hp =>
      rw [ih]
      constructor
      · intro h i hi
        by_cases hin : i = n
        · subst hin; exact hp
        · exact h i (by omega)
      · intro h i hi; exact h i (by omega)

theorem struct_find_found (e : Env) (nm : String) (u : Int) (s : State) (i : Nat)
    (h : struct_find_aux s.structs nm u s.nstructs = some i) :
    struct_find e nm u s = .ok (i, s) := by
  unfold struct_find
  simp only [bind_apply, getS_apply, h, pure_apply]

theorem struct_find_new (e : Env) (nm : String) (u : Int) (s : State)
    (h : struct_find_aux s.structs nm u s.nstructs = none) (hcap : s.nstructs + 1 < e.NSTRUCTS) :
    struct_find e nm u s = .ok (s.nstructs,
      { s with nstructs := s.nstructs + 1,
               structs := tset structinfo.zero s.structs s.nstructs
                 { structinfo.zero with name := nm, isunion := u } }) := by
  unfold struct_find
  simp only [bind_apply, getS_apply, h, modS_apply]
  rw [if_neg (by omega)]
  rfl

theorem struct_find_full (e : Env) (nm : String) (u : Int) (s : State)
    (h : struct_find_aux s.structs nm u s.nstructs = none) (hcap : ¬ s.nstructs + 1 < e.NSTRUCTS) :
    struct_find e nm u s = .error (Err.err "nomem: NSTRUCTS reached!\n") := by
  unfold struct_find
  simp only [bind_apply, getS_apply, h, modS_apply]
  rw [if_pos (by omega)]
  rfl

theorem hasTag_iff (s : State) (nm : String) (u : Int) (i : Nat) (hnm : nm ≠ "") :
    ((s.structs.getD i structinfo.zero).name ≠ "" ∧ nm = (s.structs.getD i structinfo.zero).name ∧
      (s.structs.getD i structinfo.zero).isunion = u) ↔ hasTag s nm u i := by
  unfold hasTag
  constructor
  · rintro ⟨_, h2, h3⟩; exact ⟨h2.symm, h3⟩
  · rintro ⟨h2, h3⟩; exact ⟨by rw [h2]; exact hnm, h2.symm, h3⟩

theorem struct_find_result (e : Env) (nm : String) (u : Int) (s s1 : State) (i : Nat)
    (hnm : nm ≠ "") (h : struct_find e nm u s = .ok (i, s1)) :
    i < s1.nstructs ∧ hasTag s1 nm u i := by
  cases hf : struct_find_aux s.structs nm u s.nstructs with
  | some k =>
    rw [struct_find_found e nm u s k hf] at h
    injection h with h; injection h with h1 h2
    subst h1; subst h2
    have := (struct_find_aux_some _ _ _ _ _).1 hf
    exact ⟨this.1, (hasTag_iff s nm u k hnm).1 this.2.1⟩
  | none =>
    by_cases hcap : s.nstructs + 1 < e.NSTRUCTS
    · rw [struct_find_new e nm u s hf hcap] at h
      injection h with h; injection h with h1 h2
      subst h1; subst h2
      refine ⟨Nat.lt_succ_self _, ?_⟩
      unfold hasTag
      show (List.getD (tset structinfo.zero s.structs s.nstructs _) s.nstructs structinfo.zero).name = nm ∧ _
      rw [getD_tset_self]
      exact ⟨rfl, rfl⟩
    · rw [struct_find_full e nm u s hf hcap] at h
      cases h

theorem label_find_succ (tbl : List (String × Int)) (nm : String) (n : Nat) :
    label_find tbl nm (n + 1) =
      if (tbl.getD n ("", 0)).1 = nm then some (tbl.getD n ("", 0)).2
      else label_find tbl nm n := rfl

theorem label_find_some (tbl : List (String × Int)) (nm : String) (n : Nat) (v : Int) :
    label_find tbl nm n = some v → ∃ i, i < n ∧ tbl.getD i ("", 0) = (nm, v) := by
  induction n with
  | zero => intro h; cases h
  | succ n ih =>
    rw [label_find_succ]
    split
    · next hp =>
      intro h
      injection h with h
      exact ⟨n, Nat.lt_succ_self _, Prod.ext hp h⟩
    · intro h
      obtain ⟨i, hi, he⟩ := ih h
      exact ⟨i, by omega, he⟩

theorem label_find_none (tbl : List (String × Int)) (nm : String) (n : Nat) :
    label_find tbl nm n = none ↔ ∀ i, i < n → (tbl.getD i ("", 0)).1 ≠ nm := by
  induction n with
  | zero => exact ⟨fun _ i hi => absurd hi (Nat.not_lt_zero i), fun _ => rfl⟩
  | succ n ih =>
    rw [label_find_succ]
    split
    · next hp =>
      constructor
      · intro h; cases h
      · intro h; exact absurd hp (h n (Nat.lt_succ_self n))
    · next hp =>
      rw [ih]
      constructor
      · intro h i hi
        by_cases hin : i = n
        · subst hin; exact hp
        · exact h i (by omega)
      · intro h i hi; exact h i (by omega)

theorem label_id_known (nm : String) (s : State) (v : Int)
    (h : label_find s.labels nm s.nlabels = some v) : label_id nm s = .ok (v, s) := by
  unfold label_id
  simp only [bind_apply, getS_apply, h, pure_apply]

theorem label_id_fresh (nm : String) (s : State)
    (h : label_find s.labels nm s.nlabels = none) :
    label_id nm s = .ok (s.label + 1, withNewLabel s nm) := by
  unfold label_id
  simp only [bind_apply, getS_apply, h]
  rfl

theorem label_find_withNewLabel (nm : String) (s : State) :
    label_find (withNewLabel s nm).labels nm (withNewLabel s nm).nlabels = some (s.label + 1) := by
  show label_find (tset ("", 0) s.labels s.nlabels (nm, s.label + 1)) nm (s.nlabels + 1) = _
  rw [label_find_succ, getD_tset_self]
  simp

theorem label_find_keep (nm a : String) (s : State) (v : Int)
    (h : label_find s.labels a s.nlabels = some v) (hne : a ≠ nm) :
    label_find (withNewLabel s nm).labels a (withNewLabel s nm).nlabels = some v := by
  show label_find (tset ("", 0) s.labels s.nlabels (nm, s.label + 1)) a (s.nlabels + 1) = _
  rw [label_find_succ, getD_tset_self, if_neg (fun hx => hne hx.symm)]
  have key : ∀ n, n ≤ s.nlabels →
      label_find (tset ("", 0) s.labels s.nlabels (nm, s.label + 1)) a n
        = label_find s.labels a n := by
    intro n
    induction n with
    | zero => intro _; rfl
    | succ n ih =>
      intro hn
      rw [label_find_succ, label_find_succ, getD_tset_ne _ _ _ _ _ (by omega), ih (by omega)]
  rw [key _ (le_refl _)]
  exact h

theorem LabelsOk_withNewLabel (nm : String) (s : State) (h : LabelsOk s) :
    LabelsOk (withNewLabel s nm) := by
  constructor
  · intro i hi
    show (List.getD (tset ("", 0) s.labels s.nlabels (nm, s.label + 1)) i ("", 0)).2 ≤ s.label + 1
    by_cases hin : i = s.nlabels
    · subst hin; rw [getD_tset_self]
    · rw [getD_tset_ne _ _ _ _ _ hin]
      have hi1 : i < s.nlabels + 1 := hi
      have := h.1 i (by omega)
      omega
  · intro i j hij hj
    show (List.getD (tset ("", 0) s.labels s.nlabels (nm, s.label + 1)) i ("", 0)).2 <
      (List.getD (tset ("", 0) s.labels s.nlabels (nm, s.label + 1)) j ("", 0)).2
    have hj1 : j < s.nlabels + 1 := hj
    rw [getD_tset_ne _ _ _ _ _ (by omega : i ≠ s.nlabels)]
    by_cases hjn : j = s.nlabels
    · subst hjn
      rw [getD_tset_self]
      have := h.1 i hij
      show _ < s.label + 1
      omega
    · rw [getD_tset_ne _ _ _ _ _ hjn]
      exact h.2 i j hij (by omega)

theorem label_id_cases (nm : String) (s s1 : State) (i : Int) (h : label_id nm s = .ok (i, s1)) :
    (label_find s.labels nm s.nlabels = some i ∧ s1 = s) ∨
    (label_find s.labels nm s.nlabels = none ∧ i = s.label + 1 ∧ s1 = withNewLabel s nm) := by
  cases hf : label_find s.labels nm s.nlabels with
  | some v =>
    rw [label_id_known nm s v hf] at h
    injection h with h; injection h with h1 h2
    exact Or.inl ⟨by rw [h1], h2.symm⟩
  | none =>
    rw [label_id_fresh nm s hf] at h
    injection h with h; injection h with h1 h2
    exact Or.inr ⟨rfl, h1.symm, h2.symm⟩

theorem LabelRun_ok (s t : State) (hs : LabelsOk s) (hr : LabelRun s t) : LabelsOk t := by
  induction hr with
  | refl => exact hs
  | id s1 s2 nm i _ hid ih =>
    rcases label_id_cases nm s1 s2 i hid with ⟨_, h2⟩ | ⟨_, _, h3⟩
    · rw [h2]; exact ih
    · rw [h3]; exact LabelsOk_withNewLabel nm s1 ih
  | other s1 s2 _ hl hn hc ih =>
    constructor
    · intro i hi
      rw [hl]
      have := ih.1 i (by rw [← hn]; exact hi)
      omega
    · intro i j hij hj
      rw [hl]
      exact ih.2 i j hij (by rw [← hn]; exact hj)

theorem LabelRun_keep (s t : State) (a : String) (v : Int) (hr : LabelRun s t)
    (h : label_find s.labels a s.nlabels = some v) :
    label_find t.labels a t.nlabels = some v := by
  induction hr with
  | refl => exact h
  | id s1 s2 nm i _ hid ih =>
    rcases label_id_cases nm s1 s2 i hid with ⟨_, h2⟩ | ⟨hnone, _, h3⟩
    · rw [h2]; exact ih
    · rw [h3]
      apply label_find_keep nm a s1 v ih
      intro hx
      rw [hx, hnone] at ih
      cases ih
  | other s1 s2 _ hl hn _ ih =>
    rw [hl, hn]; exact ih

theorem LabelsOk_distinct (s : State) (a b : String) (i j : Int) (hs : LabelsOk s)
    (ha : label_find s.labels a s.nlabels = some i) (hb : label_find s.labels b s.nlabels = some j)
    (hab : a ≠ b) : i ≠ j := by
  obtain ⟨p, hp, ep⟩ := label_find_some _ _ _ _ ha
  obtain ⟨q, hq, eq⟩ := label_find_some _ _ _ _ hb
  have hpq : p ≠ q := by
    intro h
    subst h
    rw [ep] at eq
    exact hab (congrArg Prod.fst eq)
  have e1 : (s.labels.getD p ("", 0)).2 = i := by rw [ep]
  have e2 : (s.labels.getD q ("", 0)).2 = j := by rw [eq]
  rcases Nat.lt_or_gt_of_ne hpq with h | h
  · have := hs.2 p q h hq; omega
  · have := hs.2 q p h hp; omega

theorem LabelsOk_of_nlabels_zero (s : State) (h0 : s.nlabels = 0) :
    LabelsOk s := by
  constructor
  · intro i hi; rw [h0] at hi; exact absurd hi (Nat.not_lt_zero i)
  · intro i j _ hj; rw [h0] at hj; exact absurd hj (Nat.not_lt_zero j)

theorem gate_nil (n : Int) : gate n [] = [] := by
  unfold gate; split <;> rfl

/-- A value in the range of `int` is unchanged by the conversion to 32 bits. -/
theorem toInt32_toUnsigned_range (i : Int) (h0 : -2147483648 ≤ i) (h1 : i ≤ 2147483647) :
    toInt32 (toUnsigned i) = i := by
  unfold toInt32 toUnsigned
  have e2 : ((i % 4294967296).toNat : Int) = i % 4294967296 :=
    Int.toNat_of_nonneg (Int.emod_nonneg _ (by decide))
  have e3 : (i % 4294967296).toNat % 4294967296 = (i % 4294967296).toNat :=
    Nat.mod_eq_of_lt (by omega)
  rw [e3]
  split <;> omega

/-- The conversion to 32 bits keeps the value modulo 2^32. -/
theorem toInt32_toUnsigned_emod (i : Int) :
    toInt32 (toUnsigned i) % 4294967296 = i % 4294967296 := by
  unfold toInt32 toUnsigned
  have e2 : ((i % 4294967296).toNat : Int) = i % 4294967296 :=
    Int.toNat_of_nonneg (Int.emod_nonneg _ (by decide))
  have e3 : (i % 4294967296).toNat % 4294967296 = (i % 4294967296).toNat :=
    Nat.mod_eq_of_lt (by omega)
  rw [e3]
  split <;> omega

/-- The result of the conversion to 32 bits is in the range of `int`. -/
theorem toInt32_toUnsigned_bounds (i : Int) :
    -2147483648 ≤ toInt32 (toUnsigned i) ∧ toInt32 (toUnsigned i) ≤ 2147483647 := by
  unfold toInt32 toUnsigned
  have e2 : ((i % 4294967296).toNat : Int) = i % 4294967296 :=
    Int.toNat_of_nonneg (Int.emod_nonneg _ (by decide))
  have e3 : (i % 4294967296).toNat % 4294967296 = (i % 4294967296).toNat :=
    Nat.mod_eq_of_lt (by omega)
  rw [e3]
  split <;> omega

/-- Values equal modulo 2^32 have the same conversion to 32 bits. -/
theorem toInt32_toUnsigned_congr (a b : Int) (h : a % 4294967296 = b % 4294967296) :
    toInt32 (toUnsigned a) = toInt32 (toUnsigned b) := by
  unfold toUnsigned
  rw [h]

/-- A 32-bit product of a 32-bit product is the 32-bit product of the three factors. -/
theorem int32_mul_int32 (a b : Int) :
    toInt32 (toUnsigned (a * toInt32 (toUnsigned b))) = toInt32 (toUnsigned (a * b)) := by
  apply toInt32_toUnsigned_congr
  rw [Int.mul_emod, toInt32_toUnsigned_emod, ← Int.mul_emod]

/-- The conversion to 32 bits of the first factor does not change a 32-bit product. -/
theorem int32_mul_left (a b : Int) :
    toInt32 (toUnsigned (toInt32 (toUnsigned a) * b)) = toInt32 (toUnsigned (a * b)) := by
  apply toInt32_toUnsigned_congr
  rw [Int.mul_emod, toInt32_toUnsigned_emod, ← Int.mul_emod]

theorem type_totsz_aux_succ (arrays : List array) (structs : List structinfo) (L k : Nat)
    (t : type) :
    type_totsz_aux arrays structs L (k + 1) t =
      if t.ptr ≠ 0 then some (L : Int)
      else if t.flags &&& T_ARRAY ≠ 0 then
        match type_totsz_aux arrays structs L k (arrays.getD t.id array.zero).type with
        | some z => some (toInt32 (toUnsigned ((arrays.getD t.id array.zero).n * z)))
        | none => none
      else
        some (if t.flags &&& T_STRUCT ≠ 0 then (structs.getD t.id structinfo.zero).size
              else ((BT_SZ t.bt : Nat) : Int)) := rfl

theorem type_totsz_aux_leaf (arrays : List array) (structs : List structinfo) (L k : Nat)
    (t : type) (h : ¬ isArr t) :
    type_totsz_aux arrays structs L (k + 1) t =
      some (if t.ptr ≠ 0 then (L : Int)
            else if t.flags &&& T_STRUCT ≠ 0 then (structs.getD t.id structinfo.zero).size
            else ((BT_SZ t.bt : Nat) : Int)) := by
  rw [type_totsz_aux_succ]
  by_cases hp : t.ptr ≠ 0
  · rw [if_pos hp, if_pos hp]
  · rw [if_neg hp, if_neg hp]
    have ha : ¬ (t.flags &&& T_ARRAY ≠ 0) := fun hx => h ⟨not_not.mp hp, hx⟩
    rw [if_neg ha]

theorem type_totsz_aux_node (arrays : List array) (structs : List structinfo) (L k : Nat)
    (t : type) (h : isArr t) :
    type_totsz_aux arrays structs L (k + 1) t =
      match type_totsz_aux arrays structs L k (elemOf arrays t) with
      | some z => some (toInt32 (toUnsigned ((arrays.getD t.id array.zero).n * z)))
      | none => none := by
  rw [type_totsz_aux_succ, if_neg (not_not.mpr h.1), if_pos h.2]
  rfl

/-- More fuel does not change a result. -/
theorem type_totsz_aux_mono (arrays : List array) (structs : List structinfo) (L : Nat) :
    ∀ (k k1 : Nat) (t : type) (z : Int), k ≤ k1 →
      type_totsz_aux arrays structs L k t = some z →
      type_totsz_aux arrays structs L k1 t = some z := by
  intro k
  induction k with
  | zero => intro k1 t z _ h; cases h
  | succ k ih =>
    intro k1 t z hk h
    obtain ⟨k2, rfl⟩ : ∃ k2, k1 = k2 + 1 := ⟨k1 - 1, by omega⟩
    by_cases ha : isArr t
    · rw [type_totsz_aux_node _ _ _ _ _ ha] at h ⊢
      cases he : type_totsz_aux arrays structs L k (elemOf arrays t) with
      | none => rw [he] at h; cases h
      | some ze =>
        rw [he] at h
        rw [ih k2 _ ze (by omega) he]
        exact h
    · rw [type_totsz_aux_leaf _ _ _ _ _ ha] at h ⊢
      exact h

theorem elemAt_succ (arrays : List array) (i : Nat) (t : type) :
    elemAt arrays (i + 1) t = elemOf arrays (elemAt arrays i t) := by
  induction i generalizing t with
  | zero => rfl
  | succ i ih =>
    show elemAt arrays (i + 1) (elemOf arrays t) = _
    rw [ih]
    rfl

theorem elemAt_add (arrays : List array) (a b : Nat) (t : type) :
    elemAt arrays (a + b) t = elemAt arrays b (elemAt arrays a t) := by
  induction a generalizing t with
  | zero => rw [Nat.zero_add]; rfl
  | succ a ih =>
    rw [Nat.succ_add]
    show elemAt arrays (a + b) (elemOf arrays t) = elemAt arrays b (elemAt arrays a (elemOf arrays t))
    exact ih _

/-- A result with some fuel gives the step at which the recursion stops. -/
theorem type_totsz_aux_stop (arrays : List array) (structs : List structinfo) (L : Nat) :
    ∀ (k : Nat) (t : type) (z : Int), type_totsz_aux arrays structs L k t = some z →
      ∃ j, j < k ∧ ¬ isArr (elemAt arrays j t) ∧ ∀ i, i < j → isArr (elemAt arrays i t) := by
  intro k
  induction k with
  | zero => intro t z h; cases h
  | succ k ih =>
    intro t z h
    by_cases ha : isArr t
    · rw [type_totsz_aux_node _ _ _ _ _ ha] at h
      cases he : type_totsz_aux arrays structs L k (elemOf arrays t) with
      | none => rw [he] at h; cases h
      | some ze =>
        obtain ⟨j, hj, h1, h2⟩ := ih _ ze he
        refine ⟨j + 1, by omega, h1, fun i hi => ?_⟩
        cases i with
        | zero => exact ha
        | succ i => exact h2 i (by omega)
    · exact ⟨0, by omega, ha, fun i hi => absurd hi (Nat.not_lt_zero i)⟩

/-- If the recursion stops at step `j`, fuel `j + 1` gives a result. -/
theorem type_totsz_aux_of_stop (arrays : List array) (structs : List structinfo) (L : Nat) :
    ∀ (j : Nat) (t : type), ¬ isArr (elemAt arrays j t) →
      (∀ i, i < j → isArr (elemAt arrays i t)) →
      ∃ z, type_totsz_aux arrays structs L (j + 1) t = some z := by
  intro j
  induction j with
  | zero =>
    intro t h _
    exact ⟨_, type_totsz_aux_leaf _ _ _ _ _ h⟩
  | succ j ih =>
    intro t h1 h2
    have ha : isArr t := h2 0 (by omega)
    obtain ⟨ze, he⟩ := ih (elemOf arrays t) h1 (fun i hi => h2 (i + 1) (by omega))
    rw [type_totsz_aux_node _ _ _ _ _ ha, he]
    exact ⟨_, rfl⟩

theorem not_isArr_zero : ¬ isArr type.zero := by
  intro h
  exact h.2 (by decide)

/-- A chain of array descriptors that ends has at most `arrays.length + 1` steps. -/
theorem stop_le_length (arrays : List array) (t : type) (j : Nat)
    (h1 : ¬ isArr (elemAt arrays j t)) (h2 : ∀ i, i < j → isArr (elemAt arrays i t)) :
    j ≤ arrays.length + 1 := by
  by_contra hlt
  have hj : arrays.length + 2 ≤ j := by omega
  have hid : ∀ i, i ≤ arrays.length → (elemAt arrays i t).id < arrays.length := by
    intro i hi
    by_contra hge
    have hz : elemAt arrays (i + 1) t = type.zero := by
      rw [elemAt_succ]
      unfold elemOf
      rw [List.getD_eq_default _ _ (by omega)]
      rfl
    have := h2 (i + 1) (by omega)
    rw [hz] at this
    exact not_isArr_zero this
  let g : Fin (arrays.length + 1) → Fin arrays.length :=
    fun i => ⟨(elemAt arrays i.1 t).id, hid i.1 (by have := i.2; omega)⟩
  obtain ⟨a, b, hab, hg⟩ := Fintype.exists_ne_map_eq_of_card_lt g (by simp)
  have hgid : (elemAt arrays a.1 t).id = (elemAt arrays b.1 t).id := by
    have := congrArg Fin.val hg
    exact this
  have key : ∀ a b : Nat, a < b → b ≤ arrays.length →
      (elemAt arrays a t).id = (elemAt arrays b t).id → False := by
    intro a b hab hb hid2
    have e1 : elemAt arrays (a + 1) t = elemAt arrays (b + 1) t := by
      rw [elemAt_succ, elemAt_succ]
      unfold elemOf
      rw [hid2]
    have e2 : elemAt arrays (a + 1 + (j - (b + 1))) t = elemAt arrays (b + 1 + (j - (b + 1))) t := by
      rw [elemAt_add arrays (a + 1), elemAt_add arrays (b + 1), e1]
    have e3 : b + 1 + (j - (b + 1)) = j := by omega
    rw [e3] at e2
    have := h2 (a + 1 + (j - (b + 1))) (by omega)
    rw [e2] at this
    exact h1 this
  have hne : a.1 ≠ b.1 := fun h => hab (Fin.ext h)
  rcases Nat.lt_or_gt_of_ne hne with h | h
  · exact key a.1 b.1 h (by have := b.2; omega) hgid
  · exact key b.1 a.1 h (by have := a.2; omega) hgid.symm

/-- The fuel of `totsz` is enough whenever any fuel is. -/
theorem totsz_of_aux (e : Env) (s : State) (t : type) (k : Nat) (z : Int)
    (h : type_totsz_aux s.arrays s.structs e.LONGSZ k t = some z) : totsz e s t = some z := by
  obtain ⟨j, _, h1, h2⟩ := type_totsz_aux_stop _ _ _ k t z h
  have hj := stop_le_length s.arrays t j h1 h2
  obtain ⟨z1, hz1⟩ := type_totsz_aux_of_stop s.arrays s.structs e.LONGSZ j t h1 h2
  have h3 : type_totsz_aux s.arrays s.structs e.LONGSZ (s.arrays.length + 2) t = some z1 :=
    type_totsz_aux_mono _ _ _ _ _ _ _ (by omega) hz1
  have h4 : type_totsz_aux s.arrays s.structs e.LONGSZ (max k (s.arrays.length + 2)) t = some z :=
    type_totsz_aux_mono _ _ _ _ _ _ _ (le_max_left _ _) h
  have h5 : type_totsz_aux s.arrays s.structs e.LONGSZ (max k (s.arrays.length + 2)) t = some z1 :=
    type_totsz_aux_mono _ _ _ _ _ _ _ (le_max_right _ _) h3
  rw [h4] at h5
  injection h5 with h5
  unfold totsz
  rw [h3, h5]

theorem ArrWF_aux (arrays : List array) (structs : List structinfo) (L : Nat) (t : type)
    (h : ArrWF arrays t) : ∃ k z, type_totsz_aux arrays structs L k t = some z := by
  induction h with
  | leaf t hl => exact ⟨1, _, type_totsz_aux_leaf _ _ _ 0 _ hl⟩
  | node t ha _ ih =>
    obtain ⟨k, z, hz⟩ := ih
    refine ⟨k + 1, toInt32 (toUnsigned ((arrays.getD t.id array.zero).n * z)), ?_⟩
    rw [type_totsz_aux_node _ _ _ _ _ ha, hz]

theorem type_totsz_ok (e : Env) (s : State) (t : type) (z : Int) (h : totsz e s t = some z) :
    type_totsz e t s = .ok (z, s) := by
  unfold type_totsz
  rw [h]

theorem pop_jump_apply (e : Env) (s : State) (c : Call) (h : s.nts ≠ 0) :
    (ts_pop_de e >>= fun _ => gen c) s = .ok ((), afterJump e s c) := by
  simp only [bind_apply, ts_pop_de_apply e s h, gen_apply, afterJump, List.append_assoc,
    gate_append]

theorem short_loop (e : Env) (operand : P Unit) (sep : Tok) (hsep : sep ≠ Tok.EOF) (c : Call)
    (n : Nat) (s s2 : State) (h : ShortRest e operand sep c n s s2) :
    ∀ k, n < k →
      loop (do
        if (← tok_jmp sep) = 0 then
          operand
          let _ ← ts_pop_de e
          gen c
          pure true
        else pure false) k s = .ok ((), s2) := by
  induction h with
  | stop s hk =>
    intro k hk1
    obtain ⟨k1, rfl⟩ : ∃ k1, k = k1 + 1 := ⟨k - 1, by omega⟩
    rw [loop_succ]
    simp only [bind_apply, tok_jmp_ne s sep hk, one_ne_zero, if_false, pure_apply]
    rfl
  | more n s s1 s3 hk hop hnts _ ih =>
    intro k hk1
    obtain ⟨k1, rfl⟩ : ∃ k1, k = k1 + 1 := ⟨k - 1, by omega⟩
    rw [loop_succ]
    have hn : s1.nts ≠ 0 := by omega
    simp only [bind_apply, tok_jmp_eq s sep hk hsep, if_true, hop, ts_pop_de_apply e s1 hn,
      gen_apply, pure_apply]
    have := ih k1 (by omega)
    simp only [afterJump, List.append_assoc, gate_append] at this ⊢
    exact this

theorem ShortRest_nts (e : Env) (operand : P Unit) (sep : Tok) (c : Call)
    (n : Nat) (s s2 : State) (h : ShortRest e operand sep c n s s2) :
    s2.nts = s.nts := by
  induction h with
  | stop s _ => rfl
  | more n s s1 s3 _ _ hnts _ ih =>
    rw [ih]
    show s1.nts - 1 = s.nts
    omega

theorem tokLoad_nogen (s : State) : (tokLoad s).nogen = s.nogen := rfl

theorem tokLoad_out (s : State) : (tokLoad s).out = s.out := rfl

theorem tokLoad_label (s : State) : (tokLoad s).label = s.label := rfl

theorem tokLoad_nts (s : State) : (tokLoad s).nts = s.nts := rfl

theorem tokLoad_ts (s : State) : (tokLoad s).ts = s.ts := rfl

theorem short_head_apply {α : Type} (e : Env) (s1 : State) (K : Int → Int → P α)
    (jump : Int → Int → Call) (hn : s1.nts ≠ 0) :
    (do
      let l_out ← LABEL
      let l_fail ← LABEL
      o_fork
      let _ ← ts_pop_de e
      gen (jump l_out l_fail)
      K l_out l_fail) (tokLoad s1) =
      K (s1.label + 1) (s1.label + 2)
        (shortHead e (jump (s1.label + 1) (s1.label + 2)) s1) := by
  have e2 : s1.label + 1 + 1 = s1.label + 2 := by omega
  simp only [bind_apply, LABEL, o_fork, gen_apply]
  rw [ts_pop_de_apply e _ (by exact hn)]
  simp only [gen_apply]
  unfold shortHead afterJump
  simp only [tokLoad_nogen, tokLoad_out, tokLoad_label, e2, List.append_assoc, gate_append]

theorem readand_apply (e : Env) (r : Rec) (s s1 s2 : State) (n : Nat)
    (h1 : readbitor e r s = .ok ((), s1)) (hn1 : s1.nts = s.nts + 1)
    (hk : (curTok s1).kind = Tok.andand)
    (hrest : ShortRest e (readbitor e r) Tok.andand (Call.jz (s1.label + 2)) n
      (shortHead e (Call.jz (s1.label + 2)) s1) s2)
    (hfuel : n < r.fuel) :
    readand e r s = .ok ((), shortTail e 1 0 (s1.label + 1) (s1.label + 2) s2) := by
  have hn : s1.nts ≠ 0 := by omega
  have hl := short_loop e (readbitor e r) Tok.andand (by decide) (Call.jz (s1.label + 2)) n _ s2
    hrest r.fuel hfuel
  unfold readand
  rw [bind_apply, h1]
  dsimp only
  rw [bind_apply, tok_see_apply]
  dsimp only
  rw [if_neg (by rw [hk]; simp)]
  unfold o_jz
  rw [short_head_apply e s1 _ (fun _ l => Call.jz l) hn]
  rw [bind_apply, hl]
  dsimp only
  simp only [bind_apply, o_num, o_forkpush, o_jmp, o_label, o_forkjoin, gen_apply,
    ts_push_bt_apply]
  unfold shortTail
  simp only [List.append_assoc, gate_append]
  rfl

theorem reador_apply (e : Env) (r : Rec) (s s1 s2 : State) (n : Nat)
    (h1 : readand e r s = .ok ((), s1)) (hn1 : s1.nts = s.nts + 1)
    (hk : (curTok s1).kind = Tok.oror)
    (hrest : ShortRest e (readand e r) Tok.oror (Call.jnz (s1.label + 1)) n
      (shortHead e (Call.jnz (s1.label + 1)) s1) s2)
    (hfuel : n < r.fuel) :
    reador e r s = .ok ((), shortTail e 0 1 (s1.label + 2) (s1.label + 1) s2) := by
  have hn : s1.nts ≠ 0 := by omega
  have hl := short_loop e (readand e r) Tok.oror (by decide) (Call.jnz (s1.label + 1)) n _ s2
    hrest r.fuel hfuel
  unfold reador
  rw [bind_apply, h1]
  dsimp only
  rw [bind_apply, tok_see_apply]
  dsimp only
  rw [if_neg (by rw [hk]; simp)]
  unfold o_jnz
  rw [short_head_apply e s1 _ (fun l _ => Call.jnz l) hn]
  rw [bind_apply, hl]
  dsimp only
  simp only [bind_apply, o_num, o_forkpush, o_jmp, o_label, o_forkjoin, gen_apply,
    ts_push_bt_apply]
  unfold shortTail
  simp only [List.append_assoc, gate_append]
  rfl

theorem shortHead_nts (e : Env) (c : Call) (s1 : State) :
    (shortHead e c s1).nts = s1.nts - 1 := rfl

theorem ShortRest_pos (e : Env) (operand : P Unit) (sep : Tok) (c : Call)
    (n : Nat) (s s2 : State) (h : ShortRest e operand sep c n s s2) :
    (curTok s2).kind ≠ sep := by
  induction h with
  | stop s hk => exact hk
  | more n s s1 s3 _ _ _ _ ih => exact ih

theorem ShortRest_pos_n (e : Env) (operand : P Unit) (sep : Tok) (c : Call)
    (n : Nat) (s s2 : State) (h : ShortRest e operand sep c n s s2)
    (hk : (curTok s).kind = sep) : 1 ≤ n := by
  cases h with
  | stop _ hne => exact absurd hk hne
  | more n _ s1 _ _ _ _ _ => omega

theorem shortHead_out (e : Env) (c : Call) (s1 : State) :
    (shortHead e c s1).out = s1.out ++ gate s1.nogen
      ([Call.fork] ++ dcalls e s1 1 (s1.ts.getD (s1.nts - 1) type.zero) ++ [c]) := by
  unfold shortHead afterJump
  simp only [tokLoad_nogen, List.append_assoc, gate_append]
  rfl

theorem shortTail_top (e : Env) (a b l1 l2 : Int) (s : State) :
    ((shortTail e a b l1 l2 s).ts.getD s.nts type.zero).bt = 4 ||| BT_SIGNED ∧
    ((shortTail e a b l1 l2 s).ts.getD s.nts type.zero).flags = 0 ∧
    ((shortTail e a b l1 l2 s).ts.getD s.nts type.zero).ptr = 0 ∧
    ((shortTail e a b l1 l2 s).ts.getD s.nts type.zero).addr = 0 := by
  unfold shortTail
  simp only [getD_tset_self]
  trivial

theorem advance_tokLoad (s : State) : advance (tokLoad s) = advance s := by
  show { tokLoad (tokLoad s) with pos := (tokLoad s).pos + 1 } = _
  rw [tokLoad_idem]; rfl

/-! ## The label table stays in order

Every function of the parser preserves `LabelsOk`: the recorded label ids increase with
the index and none exceeds the label counter. -/

section LabelOrder
set_option maxRecDepth 2048
set_option linter.unusedTactic false
set_option linter.unreachableTactic false

theorem Labs_frame {α : Type} (m : P α)
    (h : ∀ s a s1, m s = .ok (a, s1) → s1.labels = s.labels ∧ s1.nlabels = s.nlabels ∧
      s.label ≤ s1.label) : Pres LabelsOk m := by
  intro s a s1 hI hm
  obtain ⟨h1, h2, h3⟩ := h s a s1 hm
  constructor
  · intro i hi
    rw [h1]
    have := hI.1 i (by rw [← h2]; exact hi)
    omega
  · intro i j hij hj
    rw [h1]
    exact hI.2 i j hij (by rw [← h2]; exact hj)

theorem LabelsOk_reset (s : State) (_h : LabelsOk s) :
    LabelsOk { s with label := 0, nlabels := 0 } :=
  ⟨fun i hi => absurd hi (Nat.not_lt_zero i), fun _ j _ hj => absurd hj (Nat.not_lt_zero j)⟩

theorem Labs_LABEL  :
    Pres LabelsOk (LABEL) := by
  apply Labs_frame
  intro s a s1 h
  cases h
  exact ⟨rfl, rfl, by show s.label ≤ s.label + 1; omega⟩

theorem label_id_labs (nm : String) :
    Pres LabelsOk (label_id nm) := by
  intro s a s1 hI h
  rcases label_id_cases nm s s1 a h with ⟨_, h2⟩ | ⟨_, _, h3⟩
  · rw [h2]; exact hI
  · rw [h3]; exact LabelsOk_withNewLabel nm s hI

theorem Labs_gen 
    (c : Call) : Pres LabelsOk (gen c) := by
  apply Labs_frame
  intro s a s1 h
  rw [gen_apply] at h
  cases h
  exact ⟨rfl, rfl, le_refl _⟩

theorem Labs_tok_see :
    Pres LabelsOk tok_see := by
  apply Labs_frame
  intro s a s1 h
  cases h
  exact ⟨rfl, rfl, le_refl _⟩

theorem Labs_tok_get :
    Pres LabelsOk tok_get := by
  apply Labs_frame
  intro s a s1 h
  unfold tok_get at h
  cases h
  split <;> exact ⟨rfl, rfl, le_refl _⟩

theorem Labs_o_popnum (e : Env) (c : Int) :
    Pres LabelsOk (o_popnum e c) := by
  apply Labs_frame
  intro s a s1 h
  unfold o_popnum at h
  split at h
  · cases h; exact ⟨rfl, rfl, le_refl _⟩
  · split at h <;> cases h <;> exact ⟨rfl, rfl, le_refl _⟩

theorem Labs_o_mklocal (e : Env) (z : Int) :
    Pres LabelsOk (o_mklocal e z) := by
  apply Labs_frame
  intro s a s1 h
  cases h; exact ⟨rfl, rfl, le_refl _⟩

theorem Labs_o_arg2loc (e : Env) (z : Int) :
    Pres LabelsOk (o_arg2loc e z) := by
  apply Labs_frame
  intro s a s1 h
  cases h; exact ⟨rfl, rfl, le_refl _⟩

theorem Labs_o_dsnew (e : Env) (nm : String) (z g : Int) :
    Pres LabelsOk (o_dsnew e nm z g) := by
  apply Labs_frame
  intro s a s1 h
  cases h; exact ⟨rfl, rfl, le_refl _⟩

theorem Labs_tok_addr  :
    Pres LabelsOk (tok_addr) := by
  apply Labs_frame
  intro s a s1 h
  cases h; exact ⟨rfl, rfl, le_refl _⟩

theorem Labs_tok_id  :
    Pres LabelsOk (tok_id) := by
  apply Labs_frame
  intro s a s1 h
  cases h; exact ⟨rfl, rfl, le_refl _⟩

theorem Labs_tok_num  :
    Pres LabelsOk (tok_num) := by
  apply Labs_frame
  intro s a s1 h
  cases h; exact ⟨rfl, rfl, le_refl _⟩

theorem Labs_tok_str  :
    Pres LabelsOk (tok_str) := by
  apply Labs_frame
  intro s a s1 h
  cases h; exact ⟨rfl, rfl, le_refl _⟩

theorem Labs_type_totsz (e : Env) (t : type) :
    Pres LabelsOk (type_totsz e t) := by
  apply Labs_frame
  intro s a s1 h
  unfold type_totsz at h
  split at h <;> cases h
  exact ⟨rfl, rfl, le_refl _⟩

theorem Labs_type_szde (e : Env) (t : type) :
    Pres LabelsOk (type_szde e t) := by
  apply Labs_frame
  intro s a s1 h
  unfold type_szde at h
  split at h <;> cases h
  exact ⟨rfl, rfl, le_refl _⟩

theorem Labs_type_alignment (e : Env) (t : type) :
    Pres LabelsOk (type_alignment e t) := by
  apply Labs_frame
  intro s a s1 h
  unfold type_alignment at h
  split at h <;> cases h
  exact ⟨rfl, rfl, le_refl _⟩

theorem Labs_innertype (t : type) :
    Pres LabelsOk (innertype t) := by
  apply Labs_frame
  intro s a s1 h
  unfold innertype at h
  split at h <;> cases h
  exact ⟨rfl, rfl, le_refl _⟩

theorem Labs_ts_pop  :
    Pres LabelsOk (ts_pop) := by
  apply Labs_frame
  intro s a s1 h
  unfold ts_pop at h
  split at h <;> cases h
  exact ⟨rfl, rfl, le_refl _⟩

theorem Labs_local_find (nm : String) :
    Pres LabelsOk (local_find nm) := by
  apply Labs_frame
  intro s a s1 h
  cases h; exact ⟨rfl, rfl, le_refl _⟩

theorem Labs_global_find (nm : String) :
    Pres LabelsOk (global_find nm) := by
  apply Labs_frame
  intro s a s1 h
  cases h; exact ⟨rfl, rfl, le_refl _⟩

theorem Labs_enum_find (nm : String) :
    Pres LabelsOk (enum_find nm) := by
  apply Labs_frame
  intro s a s1 h
  cases h; exact ⟨rfl, rfl, le_refl _⟩

theorem Labs_typedef_find (nm : String) :
    Pres LabelsOk (typedef_find nm) := by
  apply Labs_frame
  intro s a s1 h
  cases h; exact ⟨rfl, rfl, le_refl _⟩

theorem Labs_o_bop (op : Op) (sg : Bool) :
    Pres LabelsOk (o_bop op sg) :=
  Labs_gen _

theorem Labs_o_uop (op : Op) :
    Pres LabelsOk (o_uop op) :=
  Labs_gen _

theorem Labs_o_cast (bt : Nat) :
    Pres LabelsOk (o_cast bt) :=
  Labs_gen _

theorem Labs_o_memcpy  :
    Pres LabelsOk (o_memcpy) :=
  Labs_gen _

theorem Labs_o_memset  :
    Pres LabelsOk (o_memset) :=
  Labs_gen _

theorem Labs_o_call (a : Int) (b : Nat) :
    Pres LabelsOk (o_call a b) :=
  Labs_gen _

theorem Labs_o_ret (a : Int) :
    Pres LabelsOk (o_ret a) :=
  Labs_gen _

theorem Labs_o_assign (bt : Nat) :
    Pres LabelsOk (o_assign bt) :=
  Labs_gen _

theorem Labs_o_deref (bt : Nat) :
    Pres LabelsOk (o_deref bt) :=
  Labs_gen _

theorem Labs_o_load  :
    Pres LabelsOk (o_load) :=
  Labs_gen _

theorem Labs_o_num (a : Int) :
    Pres LabelsOk (o_num a) :=
  Labs_gen _

theorem Labs_o_local (a : Int) :
    Pres LabelsOk (o_local a) :=
  Labs_gen _

theorem Labs_o_sym (a : String) :
    Pres LabelsOk (o_sym a) :=
  Labs_gen _

theorem Labs_o_tmpdrop (a : Int) :
    Pres LabelsOk (o_tmpdrop a) :=
  Labs_gen _

theorem Labs_o_tmpswap  :
    Pres LabelsOk (o_tmpswap) :=
  Labs_gen _

theorem Labs_o_tmpcopy  :
    Pres LabelsOk (o_tmpcopy) :=
  Labs_gen _

theorem Labs_o_label (a : Int) :
    Pres LabelsOk (o_label a) :=
  Labs_gen _

theorem Labs_o_jz (a : Int) :
    Pres LabelsOk (o_jz a) :=
  Labs_gen _

theorem Labs_o_jnz (a : Int) :
    Pres LabelsOk (o_jnz a) :=
  Labs_gen _

theorem Labs_o_jmp (a : Int) :
    Pres LabelsOk (o_jmp a) :=
  Labs_gen _

theorem Labs_o_fork  :
    Pres LabelsOk (o_fork) :=
  Labs_gen _

theorem Labs_o_forkpush  :
    Pres LabelsOk (o_forkpush) :=
  Labs_gen _

theorem Labs_o_forkjoin  :
    Pres LabelsOk (o_forkjoin) :=
  Labs_gen _

theorem Labs_emit (c : Call) :
    Pres LabelsOk (emit c) :=
  Pres_modS _ _ (fun _ hs => hs)

theorem Labs_tok_jump (a : Nat) :
    Pres LabelsOk (tok_jump a) := by
  apply Labs_frame
  intro s a s1 h
  cases h; exact ⟨rfl, rfl, le_refl _⟩

theorem tok_jmp_labs (t : Tok) :
    Pres LabelsOk (tok_jmp t) := by
  unfold tok_jmp
  repeat (with_reducible first
    | ((first | lift_lets | skip); intro x; first
        | (have hx : ∀ a b c, Pres LabelsOk (x a b c) := ?_; clear_value x)
        | (have hx : ∀ a b, Pres LabelsOk (x a b) := ?_; clear_value x)
        | (have hx : ∀ a, Pres LabelsOk (x a) := ?_; clear_value x)
        | clear_value x)
    | (apply Pres_getS_bind; intro s0 hs0)
    | apply Pres_bind
    | apply Pres_pure
    | apply Pres_ite
    | intro _
    | apply_assumption
    | apply Pres_loop
    | apply Pres_iter
    | apply Pres_foldlM
    | apply Labs_gen
    | (apply Pres_modS; intro s hs; with_unfolding_all first | exact hs | exact LabelsOk_reset s hs)
    | apply Labs_tok_see
    | apply Labs_tok_get
    | exact hr
    | split
    | dsimp only)

theorem tok_expect_labs (t : Tok) :
    Pres LabelsOk (tok_expect t) := by
  unfold tok_expect
  repeat (with_reducible first
    | ((first | lift_lets | skip); intro x; first
        | (have hx : ∀ a b c, Pres LabelsOk (x a b c) := ?_; clear_value x)
        | (have hx : ∀ a b, Pres LabelsOk (x a b) := ?_; clear_value x)
        | (have hx : ∀ a, Pres LabelsOk (x a) := ?_; clear_value x)
        | clear_value x)
    | (apply Pres_getS_bind; intro s0 hs0)
    | apply Pres_bind
    | apply Pres_pure
    | apply Pres_ite
    | intro _
    | apply_assumption
    | apply Pres_loop
    | apply Pres_iter
    | apply Pres_foldlM
    | apply Labs_gen
    | (apply Pres_modS; intro s hs; with_unfolding_all first | exact hs | exact LabelsOk_reset s hs)
    | apply Labs_tok_get
    | apply Pres_err
    | exact hr
    | split
    | dsimp only)

theorem ts_push_bt_labs (e : Env) (bt : Nat) :
    Pres LabelsOk (ts_push_bt e bt) := by
  unfold ts_push_bt
  repeat (with_reducible first
    | ((first | lift_lets | skip); intro x; first
        | (have hx : ∀ a b c, Pres LabelsOk (x a b c) := ?_; clear_value x)
        | (have hx : ∀ a b, Pres LabelsOk (x a b) := ?_; clear_value x)
        | (have hx : ∀ a, Pres LabelsOk (x a) := ?_; clear_value x)
        | clear_value x)
    | (apply Pres_getS_bind; intro s0 hs0)
    | apply Pres_bind
    | apply Pres_pure
    | apply Pres_ite
    | intro _
    | apply_assumption
    | apply Pres_loop
    | apply Pres_iter
    | apply Pres_foldlM
    | apply Labs_gen
    | (apply Pres_modS; intro s hs; with_unfolding_all first | exact hs | exact LabelsOk_reset s hs)
    | apply Labs_o_cast
    | exact hr
    | split
    | dsimp only)

theorem ts_push_labs (t : type) :
    Pres LabelsOk (ts_push t) := by
  unfold ts_push
  repeat (with_reducible first
    | ((first | lift_lets | skip); intro x; first
        | (have hx : ∀ a b c, Pres LabelsOk (x a b c) := ?_; clear_value x)
        | (have hx : ∀ a b, Pres LabelsOk (x a b) := ?_; clear_value x)
        | (have hx : ∀ a, Pres LabelsOk (x a) := ?_; clear_value x)
        | clear_value x)
    | (apply Pres_getS_bind; intro s0 hs0)
    | apply Pres_bind
    | apply Pres_pure
    | apply Pres_ite
    | intro _
    | apply_assumption
    | apply Pres_loop
    | apply Pres_iter
    | apply Pres_foldlM
    | apply Labs_gen
    | (apply Pres_modS; intro s hs; with_unfolding_all first | exact hs | exact LabelsOk_reset s hs)
    | exact hr
    | split
    | dsimp only)

theorem ts_push_addr_labs (t : type) :
    Pres LabelsOk (ts_push_addr t) := by
  unfold ts_push_addr
  repeat (with_reducible first
    | ((first | lift_lets | skip); intro x; first
        | (have hx : ∀ a b c, Pres LabelsOk (x a b c) := ?_; clear_value x)
        | (have hx : ∀ a b, Pres LabelsOk (x a b) := ?_; clear_value x)
        | (have hx : ∀ a, Pres LabelsOk (x a) := ?_; clear_value x)
        | clear_value x)
    | (apply Pres_getS_bind; intro s0 hs0)
    | apply Pres_bind
    | apply Pres_pure
    | apply Pres_ite
    | intro _
    | apply_assumption
    | apply Pres_loop
    | apply Pres_iter
    | apply Pres_foldlM
    | apply Labs_gen
    | (apply Pres_modS; intro s hs; with_unfolding_all first | exact hs | exact LabelsOk_reset s hs)
    | apply ts_push_labs
    | exact hr
    | split
    | dsimp only)

theorem ts_de_labs (e : Env) (d : Int) :
    Pres LabelsOk (ts_de e d) := by
  unfold ts_de
  repeat (with_reducible first
    | ((first | lift_lets | skip); intro x; first
        | (have hx : ∀ a b c, Pres LabelsOk (x a b c) := ?_; clear_value x)
        | (have hx : ∀ a b, Pres LabelsOk (x a b) := ?_; clear_value x)
        | (have hx : ∀ a, Pres LabelsOk (x a) := ?_; clear_value x)
        | clear_value x)
    | (apply Pres_getS_bind; intro s0 hs0)
    | apply Pres_bind
    | apply Pres_pure
    | apply Pres_ite
    | intro _
    | apply_assumption
    | apply Pres_loop
    | apply Pres_iter
    | apply Pres_foldlM
    | apply Labs_gen
    | (apply Pres_modS; intro s hs; with_unfolding_all first | exact hs | exact LabelsOk_reset s hs)
    | apply Pres_ub
    | apply Pres_getS
    | apply Labs_o_deref
    | exact hr
    | split
    | dsimp only)

theorem ts_pop_de_labs (e : Env) :
    Pres LabelsOk (ts_pop_de e) := by
  unfold ts_pop_de
  repeat (with_reducible first
    | ((first | lift_lets | skip); intro x; first
        | (have hx : ∀ a b c, Pres LabelsOk (x a b c) := ?_; clear_value x)
        | (have hx : ∀ a b, Pres LabelsOk (x a b) := ?_; clear_value x)
        | (have hx : ∀ a, Pres LabelsOk (x a) := ?_; clear_value x)
        | clear_value x)
    | (apply Pres_getS_bind; intro s0 hs0)
    | apply Pres_bind
    | apply Pres_pure
    | apply Pres_ite
    | intro _
    | apply_assumption
    | apply Pres_loop
    | apply Pres_iter
    | apply Pres_foldlM
    | apply Labs_gen
    | (apply Pres_modS; intro s hs; with_unfolding_all first | exact hs | exact LabelsOk_reset s hs)
    | apply Labs_ts_pop
    | apply ts_de_labs
    | exact hr
    | split
    | dsimp only)

theorem ts_pop_de2_labs (e : Env) :
    Pres LabelsOk (ts_pop_de2 e) := by
  unfold ts_pop_de2
  repeat (with_reducible first
    | ((first | lift_lets | skip); intro x; first
        | (have hx : ∀ a b c, Pres LabelsOk (x a b c) := ?_; clear_value x)
        | (have hx : ∀ a b, Pres LabelsOk (x a b) := ?_; clear_value x)
        | (have hx : ∀ a, Pres LabelsOk (x a) := ?_; clear_value x)
        | clear_value x)
    | (apply Pres_getS_bind; intro s0 hs0)
    | apply Pres_bind
    | apply Pres_pure
    | apply Pres_ite
    | intro _
    | apply_assumption
    | apply Pres_loop
    | apply Pres_iter
    | apply Pres_foldlM
    | apply Labs_gen
    | (apply Pres_modS; intro s hs; with_unfolding_all first | exact hs | exact LabelsOk_reset s hs)
    | apply Labs_o_tmpswap
    | apply ts_pop_de_labs
    | exact hr
    | split
    | dsimp only)

theorem ts_binop_labs (e : Env) (op : Op) :
    Pres LabelsOk (ts_binop e op) := by
  unfold ts_binop
  repeat (with_reducible first
    | ((first | lift_lets | skip); intro x; first
        | (have hx : ∀ a b c, Pres LabelsOk (x a b c) := ?_; clear_value x)
        | (have hx : ∀ a b, Pres LabelsOk (x a b) := ?_; clear_value x)
        | (have hx : ∀ a, Pres LabelsOk (x a) := ?_; clear_value x)
        | clear_value x)
    | (apply Pres_getS_bind; intro s0 hs0)
    | apply Pres_bind
    | apply Pres_pure
    | apply Pres_ite
    | intro _
    | apply_assumption
    | apply Pres_loop
    | apply Pres_iter
    | apply Pres_foldlM
    | apply Labs_gen
    | (apply Pres_modS; intro s hs; with_unfolding_all first | exact hs | exact LabelsOk_reset s hs)
    | apply Labs_o_bop
    | apply ts_push_bt_labs
    | apply ts_pop_de2_labs
    | exact hr
    | split
    | dsimp only)

theorem ts_addop_labs (e : Env) (op : Op) :
    Pres LabelsOk (ts_addop e op) := by
  unfold ts_addop
  repeat (with_reducible first
    | ((first | lift_lets | skip); intro x; first
        | (have hx : ∀ a b c, Pres LabelsOk (x a b c) := ?_; clear_value x)
        | (have hx : ∀ a b, Pres LabelsOk (x a b) := ?_; clear_value x)
        | (have hx : ∀ a, Pres LabelsOk (x a) := ?_; clear_value x)
        | clear_value x)
    | (apply Pres_getS_bind; intro s0 hs0)
    | apply Pres_bind
    | apply Pres_pure
    | apply Pres_ite
    | intro _
    | apply_assumption
    | apply Pres_loop
    | apply Pres_iter
    | apply Pres_foldlM
    | apply Labs_gen
    | (apply Pres_modS; intro s hs; with_unfolding_all first | exact hs | exact LabelsOk_reset s hs)
    | apply Labs_type_szde
    | apply Labs_o_bop
    | apply Labs_o_num
    | apply Labs_o_tmpswap
    | apply ts_push_bt_labs
    | apply ts_push_labs
    | apply ts_pop_de2_labs
    | exact hr
    | split
    | dsimp only)

theorem structdef_labs (e : Env) (id : Nat) (nm : name) (fl : Nat) :
    Pres LabelsOk (structdef e id nm fl) := by
  unfold structdef
  repeat (with_reducible first
    | ((first | lift_lets | skip); intro x; first
        | (have hx : ∀ a b c, Pres LabelsOk (x a b c) := ?_; clear_value x)
        | (have hx : ∀ a b, Pres LabelsOk (x a b) := ?_; clear_value x)
        | (have hx : ∀ a, Pres LabelsOk (x a) := ?_; clear_value x)
        | clear_value x)
    | (apply Pres_getS_bind; intro s0 hs0)
    | apply Pres_bind
    | apply Pres_pure
    | apply Pres_ite
    | intro _
    | apply_assumption
    | apply Pres_loop
    | apply Pres_iter
    | apply Pres_foldlM
    | apply Labs_gen
    | (apply Pres_modS; intro s hs; with_unfolding_all first | exact hs | exact LabelsOk_reset s hs)
    | apply Labs_type_totsz
    | apply Labs_type_alignment
    | apply Pres_getS
    | exact hr
    | split
    | dsimp only)

theorem local_add_labs (e : Env) (nm : name) :
    Pres LabelsOk (local_add e nm) := by
  unfold local_add
  repeat (with_reducible first
    | ((first | lift_lets | skip); intro x; first
        | (have hx : ∀ a b c, Pres LabelsOk (x a b c) := ?_; clear_value x)
        | (have hx : ∀ a b, Pres LabelsOk (x a b) := ?_; clear_value x)
        | (have hx : ∀ a, Pres LabelsOk (x a) := ?_; clear_value x)
        | clear_value x)
    | (apply Pres_getS_bind; intro s0 hs0)
    | apply Pres_bind
    | apply Pres_pure
    | apply Pres_ite
    | intro _
    | apply_assumption
    | apply Pres_loop
    | apply Pres_iter
    | apply Pres_foldlM
    | apply Labs_gen
    | (apply Pres_modS; intro s hs; with_unfolding_all first | exact hs | exact LabelsOk_reset s hs)
    | apply Pres_err
    | apply Pres_getS
    | exact hr
    | split
    | dsimp only)

theorem global_add_labs (e : Env) (nm : name) :
    Pres LabelsOk (global_add e nm) := by
  unfold global_add
  repeat (with_reducible first
    | ((first | lift_lets | skip); intro x; first
        | (have hx : ∀ a b c, Pres LabelsOk (x a b c) := ?_; clear_value x)
        | (have hx : ∀ a b, Pres LabelsOk (x a b) := ?_; clear_value x)
        | (have hx : ∀ a, Pres LabelsOk (x a) := ?_; clear_value x)
        | clear_value x)
    | (apply Pres_getS_bind; intro s0 hs0)
    | apply Pres_bind
    | apply Pres_pure
    | apply Pres_ite
    | intro _
    | apply_assumption
    | apply Pres_loop
    | apply Pres_iter
    | apply Pres_foldlM
    | apply Labs_gen
    | (apply Pres_modS; intro s hs; with_unfolding_all first | exact hs | exact LabelsOk_reset s hs)
    | apply Pres_err
    | apply Pres_getS
    | exact hr
    | split
    | dsimp only)

theorem enum_add_labs (e : Env) (nm : String) (v : Int) :
    Pres LabelsOk (enum_add e nm v) := by
  unfold enum_add
  repeat (with_reducible first
    | ((first | lift_lets | skip); intro x; first
        | (have hx : ∀ a b c, Pres LabelsOk (x a b c) := ?_; clear_value x)
        | (have hx : ∀ a b, Pres LabelsOk (x a b) := ?_; clear_value x)
        | (have hx : ∀ a, Pres LabelsOk (x a) := ?_; clear_value x)
        | clear_value x)
    | (apply Pres_getS_bind; intro s0 hs0)
    | apply Pres_bind
    | apply Pres_pure
    | apply Pres_ite
    | intro _
    | apply_assumption
    | apply Pres_loop
    | apply Pres_iter
    | apply Pres_foldlM
    | apply Labs_gen
    | (apply Pres_modS; intro s hs; with_unfolding_all first | exact hs | exact LabelsOk_reset s hs)
    | apply Pres_err
    | apply Pres_getS
    | exact hr
    | split
    | dsimp only)

theorem typedef_add_labs (e : Env) (nm : String) (t : type) :
    Pres LabelsOk (typedef_add e nm t) := by
  unfold typedef_add
  repeat (with_reducible first
    | ((first | lift_lets | skip); intro x; first
        | (have hx : ∀ a b c, Pres LabelsOk (x a b c) := ?_; clear_value x)
        | (have hx : ∀ a b, Pres LabelsOk (x a b) := ?_; clear_value x)
        | (have hx : ∀ a, Pres LabelsOk (x a) := ?_; clear_value x)
        | clear_value x)
    | (apply Pres_getS_bind; intro s0 hs0)
    | apply Pres_bind
    | apply Pres_pure
    | apply Pres_ite
    | intro _
    | apply_assumption
    | apply Pres_loop
    | apply Pres_iter
    | apply Pres_foldlM
    | apply Labs_gen
    | (apply Pres_modS; intro s hs; with_unfolding_all first | exact hs | exact LabelsOk_reset s hs)
    | apply Pres_err
    | apply Pres_getS
    | exact hr
    | split
    | dsimp only)

theorem struct_find_labs (e : Env) (nm : String) (u : Int) :
    Pres LabelsOk (struct_find e nm u) := by
  unfold struct_find
  repeat (with_reducible first
    | ((first | lift_lets | skip); intro x; first
        | (have hx : ∀ a b c, Pres LabelsOk (x a b c) := ?_; clear_value x)
        | (have hx : ∀ a b, Pres LabelsOk (x a b) := ?_; clear_value x)
        | (have hx : ∀ a, Pres LabelsOk (x a) := ?_; clear_value x)
        | clear_value x)
    | (apply Pres_getS_bind; intro s0 hs0)
    | apply Pres_bind
    | apply Pres_pure
    | apply Pres_ite
    | intro _
    | apply_assumption
    | apply Pres_loop
    | apply Pres_iter
    | apply Pres_foldlM
    | apply Labs_gen
    | (apply Pres_modS; intro s hs; with_unfolding_all first | exact hs | exact LabelsOk_reset s hs)
    | apply Pres_err
    | apply Pres_getS
    | exact hr
    | split
    | dsimp only)

theorem array_add_labs (e : Env) (t : type) (n : Int) :
    Pres LabelsOk (array_add e t n) := by
  unfold array_add
  repeat (with_reducible first
    | ((first | lift_lets | skip); intro x; first
        | (have hx : ∀ a b c, Pres LabelsOk (x a b c) := ?_; clear_value x)
        | (have hx : ∀ a b, Pres LabelsOk (x a b) := ?_; clear_value x)
        | (have hx : ∀ a, Pres LabelsOk (x a) := ?_; clear_value x)
        | clear_value x)
    | (apply Pres_getS_bind; intro s0 hs0)
    | apply Pres_bind
    | apply Pres_pure
    | apply Pres_ite
    | intro _
    | apply_assumption
    | apply Pres_loop
    | apply Pres_iter
    | apply Pres_foldlM
    | apply Labs_gen
    | (apply Pres_modS; intro s hs; with_unfolding_all first | exact hs | exact LabelsOk_reset s hs)
    | apply Pres_err
    | apply Pres_getS
    | exact hr
    | split
    | dsimp only)

theorem struct_field_labs (id : Nat) (nm : String) :
    Pres LabelsOk (struct_field id nm) := by
  unfold struct_field
  repeat (with_reducible first
    | ((first | lift_lets | skip); intro x; first
        | (have hx : ∀ a b c, Pres LabelsOk (x a b c) := ?_; clear_value x)
        | (have hx : ∀ a b, Pres LabelsOk (x a b) := ?_; clear_value x)
        | (have hx : ∀ a, Pres LabelsOk (x a) := ?_; clear_value x)
        | clear_value x)
    | (apply Pres_getS_bind; intro s0 hs0)
    | apply Pres_bind
    | apply Pres_pure
    | apply Pres_ite
    | intro _
    | apply_assumption
    | apply Pres_loop
    | apply Pres_iter
    | apply Pres_foldlM
    | apply Labs_gen
    | (apply Pres_modS; intro s hs; with_unfolding_all first | exact hs | exact LabelsOk_reset s hs)
    | apply Pres_err
    | apply Pres_getS
    | exact hr
    | split
    | dsimp only)

theorem func_create_labs (e : Env) (ret : type) (nm : String) (an : List String) (args : List type) (na : Nat) (varg : Int) :
    Pres LabelsOk (func_create e ret nm an args na varg) := by
  unfold func_create
  repeat (with_reducible first
    | ((first | lift_lets | skip); intro x; first
        | (have hx : ∀ a b c, Pres LabelsOk (x a b c) := ?_; clear_value x)
        | (have hx : ∀ a b, Pres LabelsOk (x a b) := ?_; clear_value x)
        | (have hx : ∀ a, Pres LabelsOk (x a) := ?_; clear_value x)
        | clear_value x)
    | (apply Pres_getS_bind; intro s0 hs0)
    | apply Pres_bind
    | apply Pres_pure
    | apply Pres_ite
    | intro _
    | apply_assumption
    | apply Pres_loop
    | apply Pres_iter
    | apply Pres_foldlM
    | apply Labs_gen
    | (apply Pres_modS; intro s hs; with_unfolding_all first | exact hs | exact LabelsOk_reset s hs)
    | apply Pres_err
    | apply Pres_getS
    | exact hr
    | split
    | dsimp only)

theorem krdef_labs (fid : Nat) (nm : name) (fl : Nat) :
    Pres LabelsOk (krdef fid nm fl) := by
  unfold krdef
  repeat (with_reducible first
    | ((first | lift_lets | skip); intro x; first
        | (have hx : ∀ a b c, Pres LabelsOk (x a b c) := ?_; clear_value x)
        | (have hx : ∀ a b, Pres LabelsOk (x a b) := ?_; clear_value x)
        | (have hx : ∀ a, Pres LabelsOk (x a) := ?_; clear_value x)
        | clear_value x)
    | (apply Pres_getS_bind; intro s0 hs0)
    | apply Pres_bind
    | apply Pres_pure
    | apply Pres_ite
    | intro _
    | apply_assumption
    | apply Pres_loop
    | apply Pres_iter
    | apply Pres_foldlM
    | apply Labs_gen
    | (apply Pres_modS; intro s hs; with_unfolding_all first | exact hs | exact LabelsOk_reset s hs)
    | exact hr
    | split
    | dsimp only)

theorem tmp_str_labs (e : Env) (buf : List Nat) (len : Int) :
    Pres LabelsOk (tmp_str e buf len) := by
  unfold tmp_str
  repeat (with_reducible first
    | ((first | lift_lets | skip); intro x; first
        | (have hx : ∀ a b c, Pres LabelsOk (x a b c) := ?_; clear_value x)
        | (have hx : ∀ a b, Pres LabelsOk (x a b) := ?_; clear_value x)
        | (have hx : ∀ a, Pres LabelsOk (x a) := ?_; clear_value x)
        | clear_value x)
    | (apply Pres_getS_bind; intro s0 hs0)
    | apply Pres_bind
    | apply Pres_pure
    | apply Pres_ite
    | intro _
    | apply_assumption
    | apply Pres_loop
    | apply Pres_iter
    | apply Pres_foldlM
    | apply Labs_gen
    | (apply Pres_modS; intro s hs; with_unfolding_all first | exact hs | exact LabelsOk_reset s hs)
    | apply Labs_o_dsnew
    | apply Labs_emit
    | apply Pres_getS
    | exact hr
    | split
    | dsimp only)

theorem o_sym_tmp_str_labs (e : Env) (buf : List Nat) (len : Int) :
    Pres LabelsOk (o_sym_tmp_str e buf len) := by
  unfold o_sym_tmp_str
  repeat (with_reducible first
    | ((first | lift_lets | skip); intro x; first
        | (have hx : ∀ a b c, Pres LabelsOk (x a b c) := ?_; clear_value x)
        | (have hx : ∀ a b, Pres LabelsOk (x a b) := ?_; clear_value x)
        | (have hx : ∀ a, Pres LabelsOk (x a) := ?_; clear_value x)
        | clear_value x)
    | (apply Pres_getS_bind; intro s0 hs0)
    | apply Pres_bind
    | apply Pres_pure
    | apply Pres_ite
    | intro _
    | apply_assumption
    | apply Pres_loop
    | apply Pres_iter
    | apply Pres_foldlM
    | apply Labs_gen
    | (apply Pres_modS; intro s hs; with_unfolding_all first | exact hs | exact LabelsOk_reset s hs)
    | apply Labs_o_dsnew
    | apply Labs_emit
    | apply Pres_getS
    | apply tmp_str_labs
    | exact hr
    | split
    | dsimp only)

theorem o_jmp_label_id_labs :
    Pres LabelsOk o_jmp_label_id := by
  unfold o_jmp_label_id
  repeat (with_reducible first
    | ((first | lift_lets | skip); intro x; first
        | (have hx : ∀ a b c, Pres LabelsOk (x a b c) := ?_; clear_value x)
        | (have hx : ∀ a b, Pres LabelsOk (x a b) := ?_; clear_value x)
        | (have hx : ∀ a, Pres LabelsOk (x a) := ?_; clear_value x)
        | clear_value x)
    | (apply Pres_getS_bind; intro s0 hs0)
    | apply Pres_bind
    | apply Pres_pure
    | apply Pres_ite
    | intro _
    | apply_assumption
    | apply Pres_loop
    | apply Pres_iter
    | apply Pres_foldlM
    | apply Labs_gen
    | (apply Pres_modS; intro s hs; with_unfolding_all first | exact hs | exact LabelsOk_reset s hs)
    | apply Labs_o_dsnew
    | apply Labs_emit
    | apply Pres_getS
    | apply label_id_labs
    | apply Labs_tok_id
    | exact hr
    | split
    | dsimp only)

theorem o_label_label_id_labs :
    Pres LabelsOk o_label_label_id := by
  unfold o_label_label_id
  repeat (with_reducible first
    | ((first | lift_lets | skip); intro x; first
        | (have hx : ∀ a b c, Pres LabelsOk (x a b c) := ?_; clear_value x)
        | (have hx : ∀ a b, Pres LabelsOk (x a b) := ?_; clear_value x)
        | (have hx : ∀ a, Pres LabelsOk (x a) := ?_; clear_value x)
        | clear_value x)
    | (apply Pres_getS_bind; intro s0 hs0)
    | apply Pres_bind
    | apply Pres_pure
    | apply Pres_ite
    | intro _
    | apply_assumption
    | apply Pres_loop
    | apply Pres_iter
    | apply Pres_foldlM
    | apply Labs_gen
    | (apply Pres_modS; intro s hs; with_unfolding_all first | exact hs | exact LabelsOk_reset s hs)
    | apply Labs_o_dsnew
    | apply Labs_emit
    | apply Pres_getS
    | apply label_id_labs
    | apply Labs_tok_id
    | exact hr
    | split
    | dsimp only)

theorem enum_create_labs (r : Rec) (hr : PresRec LabelsOk r) (e : Env) :
    Pres LabelsOk (enum_create e r) := by
  unfold enum_create
  repeat (with_reducible first
    | ((first | lift_lets | skip); intro x; first
        | (have hx : ∀ a b c, Pres LabelsOk (x a b c) := ?_; clear_value x)
        | (have hx : ∀ a b, Pres LabelsOk (x a b) := ?_; clear_value x)
        | (have hx : ∀ a, Pres LabelsOk (x a) := ?_; clear_value x)
        | clear_value x)
    | (apply Pres_getS_bind; intro s0 hs0)
    | apply Pres_bind
    | apply Pres_pure
    | apply Pres_ite
    | intro _
    | apply_assumption
    | apply Pres_loop
    | apply Pres_iter
    | apply Pres_foldlM
    | apply Labs_gen
    | (apply Pres_modS; intro s hs; with_unfolding_all first | exact hs | exact LabelsOk_reset s hs)
    | apply Labs_o_popnum
    | apply Labs_tok_id
    | apply Pres_err
    | apply tok_jmp_labs
    | apply tok_expect_labs
    | apply ts_pop_de_labs
    | apply enum_add_labs
    | apply hr.readexpr
    | exact hr
    | split
    | dsimp only)

theorem struct_create_labs (r : Rec) (hr : PresRec LabelsOk r) (e : Env) (nm : String) (u : Int) :
    Pres LabelsOk (struct_create e r nm u) := by
  unfold struct_create
  repeat (with_reducible first
    | ((first | lift_lets | skip); intro x; first
        | (have hx : ∀ a b c, Pres LabelsOk (x a b c) := ?_; clear_value x)
        | (have hx : ∀ a b, Pres LabelsOk (x a b) := ?_; clear_value x)
        | (have hx : ∀ a, Pres LabelsOk (x a) := ?_; clear_value x)
        | clear_value x)
    | (apply Pres_getS_bind; intro s0 hs0)
    | apply Pres_bind
    | apply Pres_pure
    | apply Pres_ite
    | intro _
    | apply_assumption
    | apply Pres_loop
    | apply Pres_iter
    | apply Pres_foldlM
    | apply Labs_gen
    | (apply Pres_modS; intro s hs; with_unfolding_all first | exact hs | exact LabelsOk_reset s hs)
    | apply tok_jmp_labs
    | apply tok_expect_labs
    | apply struct_find_labs
    | apply hr.readdefs
    | exact hr
    | split
    | dsimp only)

theorem basetype_step_labs (r : Rec) (hr : PresRec LabelsOk r) (e : Env) (v : BaseVars) :
    Pres LabelsOk (basetype_step e r v) := by
  unfold basetype_step
  repeat (with_reducible first
    | apply Pres_bind
    | apply Pres_pure
    | apply Pres_ite
    | intro _
    | apply Pres_loop
    | apply Pres_iter
    | apply Pres_foldlM
    | apply Labs_gen
    | (apply Pres_modS; intro s hs; with_unfolding_all first | exact hs | exact LabelsOk_reset s hs)
    | apply Labs_tok_see
    | apply Labs_tok_get
    | apply Labs_tok_id
    | apply Labs_typedef_find
    | apply Pres_getS
    | apply tok_jmp_labs
    | apply struct_find_labs
    | apply enum_create_labs
    | apply struct_create_labs
    | exact hr
    | split
    | dsimp only)

theorem basetype_labs (r : Rec) (hr : PresRec LabelsOk r) (e : Env) (t0 : type) :
    Pres LabelsOk (basetype e r t0) := by
  unfold basetype
  repeat (with_reducible first
    | ((first | lift_lets | skip); intro x; first
        | (have hx : ∀ a b c, Pres LabelsOk (x a b c) := ?_; clear_value x)
        | (have hx : ∀ a b, Pres LabelsOk (x a b) := ?_; clear_value x)
        | (have hx : ∀ a, Pres LabelsOk (x a) := ?_; clear_value x)
        | clear_value x)
    | (apply Pres_getS_bind; intro s0 hs0)
    | apply Pres_bind
    | apply Pres_pure
    | apply Pres_ite
    | intro _
    | apply_assumption
    | apply Pres_loop
    | apply Pres_iter
    | apply Pres_foldlM
    | apply Labs_gen
    | (apply Pres_modS; intro s hs; with_unfolding_all first | exact hs | exact LabelsOk_reset s hs)
    | apply basetype_step_labs
    | exact hr
    | split
    | dsimp only)

theorem readptrs_labs (r : Rec) (t : type) :
    Pres LabelsOk (readptrs r t) := by
  unfold readptrs
  repeat (with_reducible first
    | ((first | lift_lets | skip); intro x; first
        | (have hx : ∀ a b c, Pres LabelsOk (x a b c) := ?_; clear_value x)
        | (have hx : ∀ a b, Pres LabelsOk (x a b) := ?_; clear_value x)
        | (have hx : ∀ a, Pres LabelsOk (x a) := ?_; clear_value x)
        | clear_value x)
    | (apply Pres_getS_bind; intro s0 hs0)
    | apply Pres_bind
    | apply Pres_pure
    | apply Pres_ite
    | intro _
    | apply_assumption
    | apply Pres_loop
    | apply Pres_iter
    | apply Pres_foldlM
    | apply Labs_gen
    | (apply Pres_modS; intro s hs; with_unfolding_all first | exact hs | exact LabelsOk_reset s hs)
    | apply tok_jmp_labs
    | exact hr
    | split
    | dsimp only)

theorem readarrays_labs (r : Rec) (hr : PresRec LabelsOk r) (e : Env) (t : type) :
    Pres LabelsOk (readarrays e r t) := by
  unfold readarrays
  repeat (with_reducible first
    | ((first | lift_lets | skip); intro x; first
        | (have hx : ∀ a b c, Pres LabelsOk (x a b c) := ?_; clear_value x)
        | (have hx : ∀ a b, Pres LabelsOk (x a b) := ?_; clear_value x)
        | (have hx : ∀ a, Pres LabelsOk (x a) := ?_; clear_value x)
        | clear_value x)
    | (apply Pres_getS_bind; intro s0 hs0)
    | apply Pres_bind
    | apply Pres_pure
    | apply Pres_ite
    | intro _
    | apply_assumption
    | apply Pres_loop
    | apply Pres_iter
    | apply Pres_foldlM
    | apply Labs_gen
    | (apply Pres_modS; intro s hs; with_unfolding_all first | exact hs | exact LabelsOk_reset s hs)
    | apply Labs_o_popnum
    | apply Pres_err
    | apply tok_jmp_labs
    | apply tok_expect_labs
    | apply ts_pop_de_labs
    | apply array_add_labs
    | apply hr.readexpr
    | exact hr
    | split
    | dsimp only)

theorem readargs_labs (r : Rec) (hr : PresRec LabelsOk r) (e : Env) :
    Pres LabelsOk (readargs e r) := by
  unfold readargs
  repeat (with_reducible first
    | ((first | lift_lets | skip); intro x; first
        | (have hx : ∀ a b c, Pres LabelsOk (x a b c) := ?_; clear_value x)
        | (have hx : ∀ a b, Pres LabelsOk (x a b) := ?_; clear_value x)
        | (have hx : ∀ a, Pres LabelsOk (x a) := ?_; clear_value x)
        | clear_value x)
    | (apply Pres_getS_bind; intro s0 hs0)
    | apply Pres_bind
    | apply Pres_pure
    | apply Pres_ite
    | intro _
    | apply_assumption
    | apply Pres_loop
    | apply Pres_iter
    | apply Pres_foldlM
    | apply Labs_gen
    | (apply Pres_modS; intro s hs; with_unfolding_all first | exact hs | exact LabelsOk_reset s hs)
    | apply Labs_tok_see
    | apply Labs_tok_id
    | apply Pres_getS
    | apply tok_jmp_labs
    | apply tok_expect_labs
    | apply hr.readname
    | exact hr
    | split
    | dsimp only)

theorem setFuncType_labs (e : Env) (cur : type) (loc : Option Nat) (fid : Nat) :
    Pres LabelsOk (setFuncType e cur loc fid) := by
  unfold setFuncType
  repeat (with_reducible first
    | ((first | lift_lets | skip); intro x; first
        | (have hx : ∀ a b c, Pres LabelsOk (x a b c) := ?_; clear_value x)
        | (have hx : ∀ a b, Pres LabelsOk (x a b) := ?_; clear_value x)
        | (have hx : ∀ a, Pres LabelsOk (x a) := ?_; clear_value x)
        | clear_value x)
    | (apply Pres_getS_bind; intro s0 hs0)
    | apply Pres_bind
    | apply Pres_pure
    | apply Pres_ite
    | intro _
    | apply_assumption
    | apply Pres_loop
    | apply Pres_iter
    | apply Pres_foldlM
    | apply Labs_gen
    | (apply Pres_modS; intro s hs; with_unfolding_all first | exact hs | exact LabelsOk_reset s hs)
    | exact hr
    | split
    | dsimp only)

theorem readname_labs (r : Rec) (hr : PresRec LabelsOk r) (e : Env) (hn : Bool) (b : Option type) :
    Pres LabelsOk (readname e r hn b) := by
  unfold readname
  repeat (with_reducible first
    | ((first | lift_lets | skip); intro x; first
        | (have hx : ∀ a b c, Pres LabelsOk (x a b c) := ?_; clear_value x)
        | (have hx : ∀ a b, Pres LabelsOk (x a b) := ?_; clear_value x)
        | (have hx : ∀ a, Pres LabelsOk (x a) := ?_; clear_value x)
        | clear_value x)
    | (apply Pres_getS_bind; intro s0 hs0)
    | apply Pres_bind
    | apply Pres_pure
    | apply Pres_ite
    | intro _
    | apply_assumption
    | apply Pres_loop
    | apply Pres_iter
    | apply Pres_foldlM
    | apply Labs_gen
    | (apply Pres_modS; intro s hs; with_unfolding_all first | exact hs | exact LabelsOk_reset s hs)
    | apply Labs_tok_see
    | apply Labs_tok_id
    | apply Pres_getS
    | apply tok_jmp_labs
    | apply tok_expect_labs
    | apply func_create_labs
    | apply basetype_labs
    | apply readptrs_labs
    | apply readarrays_labs
    | apply readargs_labs
    | apply setFuncType_labs
    | apply hr.readdefs
    | exact hr
    | split
    | dsimp only)

theorem readtype_labs (r : Rec) (hr : PresRec LabelsOk r) (e : Env) :
    Pres LabelsOk (readtype e r) := by
  unfold readtype
  repeat (with_reducible first
    | ((first | lift_lets | skip); intro x; first
        | (have hx : ∀ a b c, Pres LabelsOk (x a b c) := ?_; clear_value x)
        | (have hx : ∀ a b, Pres LabelsOk (x a b) := ?_; clear_value x)
        | (have hx : ∀ a, Pres LabelsOk (x a) := ?_; clear_value x)
        | clear_value x)
    | (apply Pres_getS_bind; intro s0 hs0)
    | apply Pres_bind
    | apply Pres_pure
    | apply Pres_ite
    | intro _
    | apply_assumption
    | apply Pres_loop
    | apply Pres_iter
    | apply Pres_foldlM
    | apply Labs_gen
    | (apply Pres_modS; intro s hs; with_unfolding_all first | exact hs | exact LabelsOk_reset s hs)
    | apply readname_labs
    | exact hr
    | split
    | dsimp only)

theorem readprimary_labs (r : Rec) (hr : PresRec LabelsOk r) (e : Env) :
    Pres LabelsOk (readprimary e r) := by
  unfold readprimary
  repeat (with_reducible first
    | ((first | lift_lets | skip); intro x; first
        | (have hx : ∀ a b c, Pres LabelsOk (x a b c) := ?_; clear_value x)
        | (have hx : ∀ a b, Pres LabelsOk (x a b) := ?_; clear_value x)
        | (have hx : ∀ a, Pres LabelsOk (x a) := ?_; clear_value x)
        | clear_value x)
    | (apply Pres_getS_bind; intro s0 hs0)
    | apply Pres_bind
    | apply Pres_pure
    | apply Pres_ite
    | intro _
    | apply_assumption
    | apply Pres_loop
    | apply Pres_iter
    | apply Pres_foldlM
    | apply Labs_gen
    | (apply Pres_modS; intro s hs; with_unfolding_all first | exact hs | exact LabelsOk_reset s hs)
    | apply Labs_tok_see
    | apply Labs_tok_id
    | apply Labs_tok_num
    | apply Labs_tok_str
    | apply Labs_ts_pop
    | apply Labs_local_find
    | apply Labs_global_find
    | apply Labs_enum_find
    | apply Pres_err
    | apply Pres_getS
    | apply Labs_o_cast
    | apply Labs_o_num
    | apply Labs_o_local
    | apply Labs_o_sym
    | apply Labs_o_tmpdrop
    | apply tok_jmp_labs
    | apply tok_expect_labs
    | apply ts_push_bt_labs
    | apply ts_push_labs
    | apply ts_push_addr_labs
    | apply ts_pop_de_labs
    | apply global_add_labs
    | apply array_add_labs
    | apply tmp_str_labs
    | apply o_sym_tmp_str_labs
    | apply readtype_labs
    | apply hr.readexpr
    | apply hr.readpre
    | exact hr
    | split
    | dsimp only)

theorem arrayderef_labs (e : Env) :
    Pres LabelsOk (arrayderef e) := by
  unfold arrayderef
  repeat (with_reducible first
    | ((first | lift_lets | skip); intro x; first
        | (have hx : ∀ a b c, Pres LabelsOk (x a b c) := ?_; clear_value x)
        | (have hx : ∀ a b, Pres LabelsOk (x a b) := ?_; clear_value x)
        | (have hx : ∀ a, Pres LabelsOk (x a) := ?_; clear_value x)
        | clear_value x)
    | (apply Pres_getS_bind; intro s0 hs0)
    | apply Pres_bind
    | apply Pres_pure
    | apply Pres_ite
    | intro _
    | apply_assumption
    | apply Pres_loop
    | apply Pres_iter
    | apply Pres_foldlM
    | apply Labs_gen
    | (apply Pres_modS; intro s hs; with_unfolding_all first | exact hs | exact LabelsOk_reset s hs)
    | apply Labs_type_totsz
    | apply Labs_ts_pop
    | apply Pres_getS
    | apply Labs_o_bop
    | apply Labs_o_deref
    | apply Labs_o_num
    | apply Labs_o_tmpswap
    | apply ts_push_labs
    | apply ts_pop_de_labs
    | exact hr
    | split
    | dsimp only)

theorem inc_post_labs (e : Env) (op : Op) :
    Pres LabelsOk (inc_post e op) := by
  unfold inc_post
  repeat (with_reducible first
    | ((first | lift_lets | skip); intro x; first
        | (have hx : ∀ a b c, Pres LabelsOk (x a b c) := ?_; clear_value x)
        | (have hx : ∀ a b, Pres LabelsOk (x a b) := ?_; clear_value x)
        | (have hx : ∀ a, Pres LabelsOk (x a) := ?_; clear_value x)
        | clear_value x)
    | (apply Pres_getS_bind; intro s0 hs0)
    | apply Pres_bind
    | apply Pres_pure
    | apply Pres_ite
    | intro _
    | apply_assumption
    | apply Pres_loop
    | apply Pres_iter
    | apply Pres_foldlM
    | apply Labs_gen
    | (apply Pres_modS; intro s hs; with_unfolding_all first | exact hs | exact LabelsOk_reset s hs)
    | apply Labs_type_szde
    | apply Pres_ub
    | apply Pres_getS
    | apply Labs_o_bop
    | apply Labs_o_assign
    | apply Labs_o_load
    | apply Labs_o_num
    | apply Labs_o_tmpdrop
    | apply Labs_o_tmpswap
    | apply Labs_o_tmpcopy
    | apply ts_push_labs
    | apply ts_de_labs
    | apply ts_pop_de_labs
    | exact hr
    | split
    | dsimp only)

theorem readfield_labs  :
    Pres LabelsOk (readfield) := by
  unfold readfield
  repeat (with_reducible first
    | ((first | lift_lets | skip); intro x; first
        | (have hx : ∀ a b c, Pres LabelsOk (x a b c) := ?_; clear_value x)
        | (have hx : ∀ a b, Pres LabelsOk (x a b) := ?_; clear_value x)
        | (have hx : ∀ a, Pres LabelsOk (x a) := ?_; clear_value x)
        | clear_value x)
    | (apply Pres_getS_bind; intro s0 hs0)
    | apply Pres_bind
    | apply Pres_pure
    | apply Pres_ite
    | intro _
    | apply_assumption
    | apply Pres_loop
    | apply Pres_iter
    | apply Pres_foldlM
    | apply Labs_gen
    | (apply Pres_modS; intro s hs; with_unfolding_all first | exact hs | exact LabelsOk_reset s hs)
    | apply Labs_tok_id
    | apply Labs_ts_pop
    | apply Pres_getS
    | apply Labs_o_bop
    | apply Labs_o_num
    | apply tok_expect_labs
    | apply ts_push_addr_labs
    | apply struct_field_labs
    | exact hr
    | split
    | dsimp only)

theorem readcall_labs (r : Rec) (hr : PresRec LabelsOk r) (e : Env) :
    Pres LabelsOk (readcall e r) := by
  unfold readcall
  repeat (with_reducible first
    | ((first | lift_lets | skip); intro x; first
        | (have hx : ∀ a b c, Pres LabelsOk (x a b c) := ?_; clear_value x)
        | (have hx : ∀ a b, Pres LabelsOk (x a b) := ?_; clear_value x)
        | (have hx : ∀ a, Pres LabelsOk (x a) := ?_; clear_value x)
        | clear_value x)
    | (apply Pres_getS_bind; intro s0 hs0)
    | apply Pres_bind
    | apply Pres_pure
    | apply Pres_ite
    | intro _
    | apply_assumption
    | apply Pres_loop
    | apply Pres_iter
    | apply Pres_foldlM
    | apply Labs_gen
    | (apply Pres_modS; intro s hs; with_unfolding_all first | exact hs | exact LabelsOk_reset s hs)
    | apply Labs_tok_see
    | apply Labs_ts_pop
    | apply Pres_getS
    | apply Labs_o_cast
    | apply Labs_o_call
    | apply Labs_o_deref
    | apply tok_jmp_labs
    | apply tok_expect_labs
    | apply ts_push_bt_labs
    | apply ts_push_labs
    | apply ts_pop_de_labs
    | apply hr.readexpr
    | exact hr
    | split
    | dsimp only)

theorem readpost_labs (r : Rec) (hr : PresRec LabelsOk r) (e : Env) :
    Pres LabelsOk (readpost e r) := by
  unfold readpost
  repeat (with_reducible first
    | ((first | lift_lets | skip); intro x; first
        | (have hx : ∀ a b c, Pres LabelsOk (x a b c) := ?_; clear_value x)
        | (have hx : ∀ a b, Pres LabelsOk (x a b) := ?_; clear_value x)
        | (have hx : ∀ a, Pres LabelsOk (x a) := ?_; clear_value x)
        | clear_value x)
    | (apply Pres_getS_bind; intro s0 hs0)
    | apply Pres_bind
    | apply Pres_pure
    | apply Pres_ite
    | intro _
    | apply_assumption
    | apply Pres_loop
    | apply Pres_iter
    | apply Pres_foldlM
    | apply Labs_gen
    | (apply Pres_modS; intro s hs; with_unfolding_all first | exact hs | exact LabelsOk_reset s hs)
    | apply tok_jmp_labs
    | apply tok_expect_labs
    | apply ts_de_labs
    | apply readprimary_labs
    | apply arrayderef_labs
    | apply inc_post_labs
    | apply readfield_labs
    | apply readcall_labs
    | apply hr.readexpr
    | exact hr
    | split
    | dsimp only)

theorem inc_pre_labs (r : Rec) (hr : PresRec LabelsOk r) (e : Env) (op : Op) :
    Pres LabelsOk (inc_pre e r op) := by
  unfold inc_pre
  repeat (with_reducible first
    | ((first | lift_lets | skip); intro x; first
        | (have hx : ∀ a b c, Pres LabelsOk (x a b c) := ?_; clear_value x)
        | (have hx : ∀ a b, Pres LabelsOk (x a b) := ?_; clear_value x)
        | (have hx : ∀ a, Pres LabelsOk (x a) := ?_; clear_value x)
        | clear_value x)
    | (apply Pres_getS_bind; intro s0 hs0)
    | apply Pres_bind
    | apply Pres_pure
    | apply Pres_ite
    | intro _
    | apply_assumption
    | apply Pres_loop
    | apply Pres_iter
    | apply Pres_foldlM
    | apply Labs_gen
    | (apply Pres_modS; intro s hs; with_unfolding_all first | exact hs | exact LabelsOk_reset s hs)
    | apply Labs_type_szde
    | apply Pres_ub
    | apply Pres_getS
    | apply Labs_o_bop
    | apply Labs_o_assign
    | apply Labs_o_num
    | apply Labs_o_tmpcopy
    | apply ts_push_labs
    | apply ts_de_labs
    | apply ts_pop_de_labs
    | apply hr.readpre
    | exact hr
    | split
    | dsimp only)

theorem nogen_inc_labs  :
    Pres LabelsOk (nogen_inc) := by
  unfold nogen_inc
  repeat (with_reducible first
    | ((first | lift_lets | skip); intro x; first
        | (have hx : ∀ a b c, Pres LabelsOk (x a b c) := ?_; clear_value x)
        | (have hx : ∀ a b, Pres LabelsOk (x a b) := ?_; clear_value x)
        | (have hx : ∀ a, Pres LabelsOk (x a) := ?_; clear_value x)
        | clear_value x)
    | (apply Pres_getS_bind; intro s0 hs0)
    | apply Pres_bind
    | apply Pres_pure
    | apply Pres_ite
    | intro _
    | apply_assumption
    | apply Pres_loop
    | apply Pres_iter
    | apply Pres_foldlM
    | apply Labs_gen
    | (apply Pres_modS; intro s hs; with_unfolding_all first | exact hs | exact LabelsOk_reset s hs)
    | exact hr
    | split
    | dsimp only)

theorem nogen_dec_labs  :
    Pres LabelsOk (nogen_dec) := by
  unfold nogen_dec
  repeat (with_reducible first
    | ((first | lift_lets | skip); intro x; first
        | (have hx : ∀ a b c, Pres LabelsOk (x a b c) := ?_; clear_value x)
        | (have hx : ∀ a b, Pres LabelsOk (x a b) := ?_; clear_value x)
        | (have hx : ∀ a, Pres LabelsOk (x a) := ?_; clear_value x)
        | clear_value x)
    | (apply Pres_getS_bind; intro s0 hs0)
    | apply Pres_bind
    | apply Pres_pure
    | apply Pres_ite
    | intro _
    | apply_assumption
    | apply Pres_loop
    | apply Pres_iter
    | apply Pres_foldlM
    | apply Labs_gen
    | (apply Pres_modS; intro s hs; with_unfolding_all first | exact hs | exact LabelsOk_reset s hs)
    | exact hr
    | split
    | dsimp only)

theorem readpre_labs (r : Rec) (hr : PresRec LabelsOk r) (e : Env) :
    Pres LabelsOk (readpre e r) := by
  unfold readpre
  repeat (with_reducible first
    | ((first | lift_lets | skip); intro x; first
        | (have hx : ∀ a b c, Pres LabelsOk (x a b c) := ?_; clear_value x)
        | (have hx : ∀ a b, Pres LabelsOk (x a b) := ?_; clear_value x)
        | (have hx : ∀ a, Pres LabelsOk (x a) := ?_; clear_value x)
        | clear_value x)
    | (apply Pres_getS_bind; intro s0 hs0)
    | apply Pres_bind
    | apply Pres_pure
    | apply Pres_ite
    | intro _
    | apply_assumption
    | apply Pres_loop
    | apply Pres_iter
    | apply Pres_foldlM
    | apply Labs_gen
    | (apply Pres_modS; intro s hs; with_unfolding_all first | exact hs | exact LabelsOk_reset s hs)
    | apply Labs_type_totsz
    | apply Labs_ts_pop
    | apply Pres_err
    | apply Pres_getS
    | apply Labs_o_uop
    | apply Labs_o_deref
    | apply Labs_o_num
    | apply tok_jmp_labs
    | apply tok_expect_labs
    | apply ts_push_bt_labs
    | apply ts_push_labs
    | apply ts_de_labs
    | apply ts_pop_de_labs
    | apply readtype_labs
    | apply readpost_labs
    | apply inc_pre_labs
    | apply nogen_inc_labs
    | apply nogen_dec_labs
    | apply hr.readexpr
    | apply hr.readpre
    | exact hr
    | split
    | dsimp only)

theorem readmul_labs (r : Rec) (hr : PresRec LabelsOk r) (e : Env) :
    Pres LabelsOk (readmul e r) := by
  unfold readmul
  repeat (with_reducible first
    | ((first | lift_lets | skip); intro x; first
        | (have hx : ∀ a b c, Pres LabelsOk (x a b c) := ?_; clear_value x)
        | (have hx : ∀ a b, Pres LabelsOk (x a b) := ?_; clear_value x)
        | (have hx : ∀ a, Pres LabelsOk (x a) := ?_; clear_value x)
        | clear_value x)
    | (apply Pres_getS_bind; intro s0 hs0)
    | apply Pres_bind
    | apply Pres_pure
    | apply Pres_ite
    | intro _
    | apply_assumption
    | apply Pres_loop
    | apply Pres_iter
    | apply Pres_foldlM
    | apply Labs_gen
    | (apply Pres_modS; intro s hs; with_unfolding_all first | exact hs | exact LabelsOk_reset s hs)
    | apply tok_jmp_labs
    | apply ts_binop_labs
    | apply readpre_labs
    | exact hr
    | split
    | dsimp only)

theorem readadd_labs (r : Rec) (hr : PresRec LabelsOk r) (e : Env) :
    Pres LabelsOk (readadd e r) := by
  unfold readadd
  repeat (with_reducible first
    | ((first | lift_lets | skip); intro x; first
        | (have hx : ∀ a b c, Pres LabelsOk (x a b c) := ?_; clear_value x)
        | (have hx : ∀ a b, Pres LabelsOk (x a b) := ?_; clear_value x)
        | (have hx : ∀ a, Pres LabelsOk (x a) := ?_; clear_value x)
        | clear_value x)
    | (apply Pres_getS_bind; intro s0 hs0)
    | apply Pres_bind
    | apply Pres_pure
    | apply Pres_ite
    | intro _
    | apply_assumption
    | apply Pres_loop
    | apply Pres_iter
    | apply Pres_foldlM
    | apply Labs_gen
    | (apply Pres_modS; intro s hs; with_unfolding_all first | exact hs | exact LabelsOk_reset s hs)
    | apply tok_jmp_labs
    | apply ts_addop_labs
    | apply readmul_labs
    | exact hr
    | split
    | dsimp only)

theorem shift_labs (r : Rec) (hr : PresRec LabelsOk r) (e : Env) (op : Op) :
    Pres LabelsOk (shift e r op) := by
  unfold shift
  repeat (with_reducible first
    | ((first | lift_lets | skip); intro x; first
        | (have hx : ∀ a b c, Pres LabelsOk (x a b c) := ?_; clear_value x)
        | (have hx : ∀ a b, Pres LabelsOk (x a b) := ?_; clear_value x)
        | (have hx : ∀ a, Pres LabelsOk (x a) := ?_; clear_value x)
        | clear_value x)
    | (apply Pres_getS_bind; intro s0 hs0)
    | apply Pres_bind
    | apply Pres_pure
    | apply Pres_ite
    | intro _
    | apply_assumption
    | apply Pres_loop
    | apply Pres_iter
    | apply Pres_foldlM
    | apply Labs_gen
    | (apply Pres_modS; intro s hs; with_unfolding_all first | exact hs | exact LabelsOk_reset s hs)
    | apply Labs_o_bop
    | apply ts_push_bt_labs
    | apply ts_pop_de2_labs
    | apply readadd_labs
    | exact hr
    | split
    | dsimp only)

theorem readshift_labs (r : Rec) (hr : PresRec LabelsOk r) (e : Env) :
    Pres LabelsOk (readshift e r) := by
  unfold readshift
  repeat (with_reducible first
    | ((first | lift_lets | skip); intro x; first
        | (have hx : ∀ a b c, Pres LabelsOk (x a b c) := ?_; clear_value x)
        | (have hx : ∀ a b, Pres LabelsOk (x a b) := ?_; clear_value x)
        | (have hx : ∀ a, Pres LabelsOk (x a) := ?_; clear_value x)
        | clear_value x)
    | (apply Pres_getS_bind; intro s0 hs0)
    | apply Pres_bind
    | apply Pres_pure
    | apply Pres_ite
    | intro _
    | apply_assumption
    | apply Pres_loop
    | apply Pres_iter
    | apply Pres_foldlM
    | apply Labs_gen
    | (apply Pres_modS; intro s hs; with_unfolding_all first | exact hs | exact LabelsOk_reset s hs)
    | apply tok_jmp_labs
    | apply readadd_labs
    | apply shift_labs
    | exact hr
    | split
    | dsimp only)

theorem cmp_labs (r : Rec) (hr : PresRec LabelsOk r) (e : Env) (op : Op) :
    Pres LabelsOk (cmp e r op) := by
  unfold cmp
  repeat (with_reducible first
    | ((first | lift_lets | skip); intro x; first
        | (have hx : ∀ a b c, Pres LabelsOk (x a b c) := ?_; clear_value x)
        | (have hx : ∀ a b, Pres LabelsOk (x a b) := ?_; clear_value x)
        | (have hx : ∀ a, Pres LabelsOk (x a) := ?_; clear_value x)
        | clear_value x)
    | (apply Pres_getS_bind; intro s0 hs0)
    | apply Pres_bind
    | apply Pres_pure
    | apply Pres_ite
    | intro _
    | apply_assumption
    | apply Pres_loop
    | apply Pres_iter
    | apply Pres_foldlM
    | apply Labs_gen
    | (apply Pres_modS; intro s hs; with_unfolding_all first | exact hs | exact LabelsOk_reset s hs)
    | apply Labs_o_bop
    | apply ts_push_bt_labs
    | apply ts_pop_de2_labs
    | apply readshift_labs
    | exact hr
    | split
    | dsimp only)

theorem readcmp_labs (r : Rec) (hr : PresRec LabelsOk r) (e : Env) :
    Pres LabelsOk (readcmp e r) := by
  unfold readcmp
  repeat (with_reducible first
    | ((first | lift_lets | skip); intro x; first
        | (have hx : ∀ a b c, Pres LabelsOk (x a b c) := ?_; clear_value x)
        | (have hx : ∀ a b, Pres LabelsOk (x a b) := ?_; clear_value x)
        | (have hx : ∀ a, Pres LabelsOk (x a) := ?_; clear_value x)
        | clear_value x)
    | (apply Pres_getS_bind; intro s0 hs0)
    | apply Pres_bind
    | apply Pres_pure
    | apply Pres_ite
    | intro _
    | apply_assumption
    | apply Pres_loop
    | apply Pres_iter
    | apply Pres_foldlM
    | apply Labs_gen
    | (apply Pres_modS; intro s hs; with_unfolding_all first | exact hs | exact LabelsOk_reset s hs)
    | apply tok_jmp_labs
    | apply readshift_labs
    | apply cmp_labs
    | exact hr
    | split
    | dsimp only)

theorem eq_labs (r : Rec) (hr : PresRec LabelsOk r) (e : Env) (op : Op) :
    Pres LabelsOk (eq e r op) := by
  unfold eq
  repeat (with_reducible first
    | ((first | lift_lets | skip); intro x; first
        | (have hx : ∀ a b c, Pres LabelsOk (x a b c) := ?_; clear_value x)
        | (have hx : ∀ a b, Pres LabelsOk (x a b) := ?_; clear_value x)
        | (have hx : ∀ a, Pres LabelsOk (x a) := ?_; clear_value x)
        | clear_value x)
    | (apply Pres_getS_bind; intro s0 hs0)
    | apply Pres_bind
    | apply Pres_pure
    | apply Pres_ite
    | intro _
    | apply_assumption
    | apply Pres_loop
    | apply Pres_iter
    | apply Pres_foldlM
    | apply Labs_gen
    | (apply Pres_modS; intro s hs; with_unfolding_all first | exact hs | exact LabelsOk_reset s hs)
    | apply Labs_o_bop
    | apply ts_push_bt_labs
    | apply ts_pop_de2_labs
    | apply readcmp_labs
    | exact hr
    | split
    | dsimp only)

theorem readeq_labs (r : Rec) (hr : PresRec LabelsOk r) (e : Env) :
    Pres LabelsOk (readeq e r) := by
  unfold readeq
  repeat (with_reducible first
    | ((first | lift_lets | skip); intro x; first
        | (have hx : ∀ a b c, Pres LabelsOk (x a b c) := ?_; clear_value x)
        | (have hx : ∀ a b, Pres LabelsOk (x a b) := ?_; clear_value x)
        | (have hx : ∀ a, Pres LabelsOk (x a) := ?_; clear_value x)
        | clear_value x)
    | (apply Pres_getS_bind; intro s0 hs0)
    | apply Pres_bind
    | apply Pres_pure
    | apply Pres_ite
    | intro _
    | apply_assumption
    | apply Pres_loop
    | apply Pres_iter
    | apply Pres_foldlM
    | apply Labs_gen
    | (apply Pres_modS; intro s hs; with_unfolding_all first | exact hs | exact LabelsOk_reset s hs)
    | apply tok_jmp_labs
    | apply readcmp_labs
    | apply eq_labs
    | exact hr
    | split
    | dsimp only)

theorem readbitand_labs (r : Rec) (hr : PresRec LabelsOk r) (e : Env) :
    Pres LabelsOk (readbitand e r) := by
  unfold readbitand
  repeat (with_reducible first
    | ((first | lift_lets | skip); intro x; first
        | (have hx : ∀ a b c, Pres LabelsOk (x a b c) := ?_; clear_value x)
        | (have hx : ∀ a b, Pres LabelsOk (x a b) := ?_; clear_value x)
        | (have hx : ∀ a, Pres LabelsOk (x a) := ?_; clear_value x)
        | clear_value x)
    | (apply Pres_getS_bind; intro s0 hs0)
    | apply Pres_bind
    | apply Pres_pure
    | apply Pres_ite
    | intro _
    | apply_assumption
    | apply Pres_loop
    | apply Pres_iter
    | apply Pres_foldlM
    | apply Labs_gen
    | (apply Pres_modS; intro s hs; with_unfolding_all first | exact hs | exact LabelsOk_reset s hs)
    | apply tok_jmp_labs
    | apply ts_binop_labs
    | apply readeq_labs
    | exact hr
    | split
    | dsimp only)

theorem readxor_labs (r : Rec) (hr : PresRec LabelsOk r) (e : Env) :
    Pres LabelsOk (readxor e r) := by
  unfold readxor
  repeat (with_reducible first
    | ((first | lift_lets | skip); intro x; first
        | (have hx : ∀ a b c, Pres LabelsOk (x a b c) := ?_; clear_value x)
        | (have hx : ∀ a b, Pres LabelsOk (x a b) := ?_; clear_value x)
        | (have hx : ∀ a, Pres LabelsOk (x a) := ?_; clear_value x)
        | clear_value x)
    | (apply Pres_getS_bind; intro s0 hs0)
    | apply Pres_bind
    | apply Pres_pure
    | apply Pres_ite
    | intro _
    | apply_assumption
    | apply Pres_loop
    | apply Pres_iter
    | apply Pres_foldlM
    | apply Labs_gen
    | (apply Pres_modS; intro s hs; with_unfolding_all first | exact hs | exact LabelsOk_reset s hs)
    | apply tok_jmp_labs
    | apply ts_binop_labs
    | apply readbitand_labs
    | exact hr
    | split
    | dsimp only)

theorem readbitor_labs (r : Rec) (hr : PresRec LabelsOk r) (e : Env) :
    Pres LabelsOk (readbitor e r) := by
  unfold readbitor
  repeat (with_reducible first
    | ((first | lift_lets | skip); intro x; first
        | (have hx : ∀ a b c, Pres LabelsOk (x a b c) := ?_; clear_value x)
        | (have hx : ∀ a b, Pres LabelsOk (x a b) := ?_; clear_value x)
        | (have hx : ∀ a, Pres LabelsOk (x a) := ?_; clear_value x)
        | clear_value x)
    | (apply Pres_getS_bind; intro s0 hs0)
    | apply Pres_bind
    | apply Pres_pure
    | apply Pres_ite
    | intro _
    | apply_assumption
    | apply Pres_loop
    | apply Pres_iter
    | apply Pres_foldlM
    | apply Labs_gen
    | (apply Pres_modS; intro s hs; with_unfolding_all first | exact hs | exact LabelsOk_reset s hs)
    | apply tok_jmp_labs
    | apply ts_binop_labs
    | apply readxor_labs
    | exact hr
    | split
    | dsimp only)

theorem readand_labs (r : Rec) (hr : PresRec LabelsOk r) (e : Env) :
    Pres LabelsOk (readand e r) := by
  unfold readand
  repeat (with_reducible first
    | ((first | lift_lets | skip); intro x; first
        | (have hx : ∀ a b c, Pres LabelsOk (x a b c) := ?_; clear_value x)
        | (have hx : ∀ a b, Pres LabelsOk (x a b) := ?_; clear_value x)
        | (have hx : ∀ a, Pres LabelsOk (x a) := ?_; clear_value x)
        | clear_value x)
    | (apply Pres_getS_bind; intro s0 hs0)
    | apply Pres_bind
    | apply Pres_pure
    | apply Pres_ite
    | intro _
    | apply_assumption
    | apply Pres_loop
    | apply Pres_iter
    | apply Pres_foldlM
    | apply Labs_gen
    | (apply Pres_modS; intro s hs; with_unfolding_all first | exact hs | exact LabelsOk_reset s hs)
    | apply Labs_tok_see
    | apply Labs_LABEL
    | apply Labs_o_num
    | apply Labs_o_label
    | apply Labs_o_jz
    | apply Labs_o_jmp
    | apply Labs_o_fork
    | apply Labs_o_forkpush
    | apply Labs_o_forkjoin
    | apply tok_jmp_labs
    | apply ts_push_bt_labs
    | apply ts_pop_de_labs
    | apply readbitor_labs
    | exact hr
    | split
    | dsimp only)

theorem reador_labs (r : Rec) (hr : PresRec LabelsOk r) (e : Env) :
    Pres LabelsOk (reador e r) := by
  unfold reador
  repeat (with_reducible first
    | ((first | lift_lets | skip); intro x; first
        | (have hx : ∀ a b c, Pres LabelsOk (x a b c) := ?_; clear_value x)
        | (have hx : ∀ a b, Pres LabelsOk (x a b) := ?_; clear_value x)
        | (have hx : ∀ a, Pres LabelsOk (x a) := ?_; clear_value x)
        | clear_value x)
    | (apply Pres_getS_bind; intro s0 hs0)
    | apply Pres_bind
    | apply Pres_pure
    | apply Pres_ite
    | intro _
    | apply_assumption
    | apply Pres_loop
    | apply Pres_iter
    | apply Pres_foldlM
    | apply Labs_gen
    | (apply Pres_modS; intro s hs; with_unfolding_all first | exact hs | exact LabelsOk_reset s hs)
    | apply Labs_tok_see
    | apply Labs_LABEL
    | apply Labs_o_num
    | apply Labs_o_label
    | apply Labs_o_jnz
    | apply Labs_o_jmp
    | apply Labs_o_fork
    | apply Labs_o_forkpush
    | apply Labs_o_forkjoin
    | apply tok_jmp_labs
    | apply ts_push_bt_labs
    | apply ts_pop_de_labs
    | apply readand_labs
    | exact hr
    | split
    | dsimp only)

theorem readcexpr_const_labs (r : Rec) (hr : PresRec LabelsOk r) (e : Env) :
    Pres LabelsOk (readcexpr_const e r) := by
  unfold readcexpr_const
  repeat (with_reducible first
    | ((first | lift_lets | skip); intro x; first
        | (have hx : ∀ a b c, Pres LabelsOk (x a b c) := ?_; clear_value x)
        | (have hx : ∀ a b, Pres LabelsOk (x a b) := ?_; clear_value x)
        | (have hx : ∀ a, Pres LabelsOk (x a) := ?_; clear_value x)
        | clear_value x)
    | (apply Pres_getS_bind; intro s0 hs0)
    | apply Pres_bind
    | apply Pres_pure
    | apply Pres_ite
    | intro _
    | apply_assumption
    | apply Pres_loop
    | apply Pres_iter
    | apply Pres_foldlM
    | apply Labs_gen
    | (apply Pres_modS; intro s hs; with_unfolding_all first | exact hs | exact LabelsOk_reset s hs)
    | apply Labs_o_popnum
    | apply tok_expect_labs
    | apply ts_de_labs
    | apply ts_pop_de_labs
    | apply nogen_inc_labs
    | apply nogen_dec_labs
    | apply hr.readcexpr
    | exact hr
    | split
    | dsimp only)

theorem readcexpr_labs (r : Rec) (hr : PresRec LabelsOk r) (e : Env) :
    Pres LabelsOk (readcexpr e r) := by
  unfold readcexpr
  repeat (with_reducible first
    | ((first | lift_lets | skip); intro x; first
        | (have hx : ∀ a b c, Pres LabelsOk (x a b c) := ?_; clear_value x)
        | (have hx : ∀ a b, Pres LabelsOk (x a b) := ?_; clear_value x)
        | (have hx : ∀ a, Pres LabelsOk (x a) := ?_; clear_value x)
        | clear_value x)
    | (apply Pres_getS_bind; intro s0 hs0)
    | apply Pres_bind
    | apply Pres_pure
    | apply Pres_ite
    | intro _
    | apply_assumption
    | apply Pres_loop
    | apply Pres_iter
    | apply Pres_foldlM
    | apply Labs_gen
    | (apply Pres_modS; intro s hs; with_unfolding_all first | exact hs | exact LabelsOk_reset s hs)
    | apply Labs_LABEL
    | apply Labs_o_label
    | apply Labs_o_jz
    | apply Labs_o_jmp
    | apply Labs_o_fork
    | apply Labs_o_forkpush
    | apply Labs_o_forkjoin
    | apply tok_jmp_labs
    | apply tok_expect_labs
    | apply ts_de_labs
    | apply ts_pop_de_labs
    | apply reador_labs
    | apply readcexpr_const_labs
    | apply hr.readcexpr
    | exact hr
    | split
    | dsimp only)

theorem opassign_labs (r : Rec) (hr : PresRec LabelsOk r) (e : Env) (op : Op) (p : Int) :
    Pres LabelsOk (opassign e r op p) := by
  unfold opassign
  repeat (with_reducible first
    | ((first | lift_lets | skip); intro x; first
        | (have hx : ∀ a b c, Pres LabelsOk (x a b c) := ?_; clear_value x)
        | (have hx : ∀ a b, Pres LabelsOk (x a b) := ?_; clear_value x)
        | (have hx : ∀ a, Pres LabelsOk (x a) := ?_; clear_value x)
        | clear_value x)
    | (apply Pres_getS_bind; intro s0 hs0)
    | apply Pres_bind
    | apply Pres_pure
    | apply Pres_ite
    | intro _
    | apply_assumption
    | apply Pres_loop
    | apply Pres_iter
    | apply Pres_foldlM
    | apply Labs_gen
    | (apply Pres_modS; intro s hs; with_unfolding_all first | exact hs | exact LabelsOk_reset s hs)
    | apply Labs_ts_pop
    | apply Pres_ub
    | apply Pres_getS
    | apply Labs_o_assign
    | apply Labs_o_tmpcopy
    | apply ts_push_labs
    | apply ts_de_labs
    | apply ts_binop_labs
    | apply ts_addop_labs
    | apply hr.readexpr
    | exact hr
    | split
    | dsimp only)

theorem doassign_labs (e : Env) :
    Pres LabelsOk (doassign e) := by
  unfold doassign
  repeat (with_reducible first
    | ((first | lift_lets | skip); intro x; first
        | (have hx : ∀ a b c, Pres LabelsOk (x a b c) := ?_; clear_value x)
        | (have hx : ∀ a b, Pres LabelsOk (x a b) := ?_; clear_value x)
        | (have hx : ∀ a, Pres LabelsOk (x a) := ?_; clear_value x)
        | clear_value x)
    | (apply Pres_getS_bind; intro s0 hs0)
    | apply Pres_bind
    | apply Pres_pure
    | apply Pres_ite
    | intro _
    | apply_assumption
    | apply Pres_loop
    | apply Pres_iter
    | apply Pres_foldlM
    | apply Labs_gen
    | (apply Pres_modS; intro s hs; with_unfolding_all first | exact hs | exact LabelsOk_reset s hs)
    | apply Labs_type_totsz
    | apply Labs_ts_pop
    | apply Pres_ub
    | apply Pres_getS
    | apply Labs_o_memcpy
    | apply Labs_o_assign
    | apply Labs_o_num
    | apply ts_de_labs
    | apply ts_pop_de_labs
    | exact hr
    | split
    | dsimp only)

theorem readexpr_labs (r : Rec) (hr : PresRec LabelsOk r) (e : Env) :
    Pres LabelsOk (readexpr e r) := by
  unfold readexpr
  repeat (with_reducible first
    | ((first | lift_lets | skip); intro x; first
        | (have hx : ∀ a b c, Pres LabelsOk (x a b c) := ?_; clear_value x)
        | (have hx : ∀ a b, Pres LabelsOk (x a b) := ?_; clear_value x)
        | (have hx : ∀ a, Pres LabelsOk (x a) := ?_; clear_value x)
        | clear_value x)
    | (apply Pres_getS_bind; intro s0 hs0)
    | apply Pres_bind
    | apply Pres_pure
    | apply Pres_ite
    | intro _
    | apply_assumption
    | apply Pres_loop
    | apply Pres_iter
    | apply Pres_foldlM
    | apply Labs_gen
    | (apply Pres_modS; intro s hs; with_unfolding_all first | exact hs | exact LabelsOk_reset s hs)
    | apply tok_jmp_labs
    | apply readcexpr_labs
    | apply opassign_labs
    | apply doassign_labs
    | apply hr.readexpr
    | exact hr
    | split
    | dsimp only)

theorem readestmt_labs (r : Rec) (hr : PresRec LabelsOk r) (e : Env) :
    Pres LabelsOk (readestmt e r) := by
  unfold readestmt
  repeat (with_reducible first
    | ((first | lift_lets | skip); intro x; first
        | (have hx : ∀ a b c, Pres LabelsOk (x a b c) := ?_; clear_value x)
        | (have hx : ∀ a b, Pres LabelsOk (x a b) := ?_; clear_value x)
        | (have hx : ∀ a, Pres LabelsOk (x a) := ?_; clear_value x)
        | clear_value x)
    | (apply Pres_getS_bind; intro s0 hs0)
    | apply Pres_bind
    | apply Pres_pure
    | apply Pres_ite
    | intro _
    | apply_assumption
    | apply Pres_loop
    | apply Pres_iter
    | apply Pres_foldlM
    | apply Labs_gen
    | (apply Pres_modS; intro s hs; with_unfolding_all first | exact hs | exact LabelsOk_reset s hs)
    | apply Labs_o_tmpdrop
    | apply tok_jmp_labs
    | apply readexpr_labs
    | exact hr
    | split
    | dsimp only)

theorem jumpbrace_labs (r : Rec)  :
    Pres LabelsOk (jumpbrace r) := by
  unfold jumpbrace
  repeat (with_reducible first
    | ((first | lift_lets | skip); intro x; first
        | (have hx : ∀ a b c, Pres LabelsOk (x a b c) := ?_; clear_value x)
        | (have hx : ∀ a b, Pres LabelsOk (x a b) := ?_; clear_value x)
        | (have hx : ∀ a, Pres LabelsOk (x a) := ?_; clear_value x)
        | clear_value x)
    | (apply Pres_getS_bind; intro s0 hs0)
    | apply Pres_bind
    | apply Pres_pure
    | apply Pres_ite
    | intro _
    | apply_assumption
    | apply Pres_loop
    | apply Pres_iter
    | apply Pres_foldlM
    | apply Labs_gen
    | (apply Pres_modS; intro s hs; with_unfolding_all first | exact hs | exact LabelsOk_reset s hs)
    | apply Labs_tok_see
    | apply Labs_tok_get
    | apply tok_expect_labs
    | exact hr
    | split
    | dsimp only)

theorem initsize_labs (r : Rec) (hr : PresRec LabelsOk r) (e : Env) :
    Pres LabelsOk (initsize e r) := by
  unfold initsize
  repeat (with_reducible first
    | ((first | lift_lets | skip); intro x; first
        | (have hx : ∀ a b c, Pres LabelsOk (x a b c) := ?_; clear_value x)
        | (have hx : ∀ a b, Pres LabelsOk (x a b) := ?_; clear_value x)
        | (have hx : ∀ a, Pres LabelsOk (x a) := ?_; clear_value x)
        | clear_value x)
    | (apply Pres_getS_bind; intro s0 hs0)
    | apply Pres_bind
    | apply Pres_pure
    | apply Pres_ite
    | intro _
    | apply_assumption
    | apply Pres_loop
    | apply Pres_iter
    | apply Pres_foldlM
    | apply Labs_gen
    | (apply Pres_modS; intro s hs; with_unfolding_all first | exact hs | exact LabelsOk_reset s hs)
    | apply Labs_o_popnum
    | apply Labs_tok_see
    | apply Labs_tok_get
    | apply Labs_tok_addr
    | apply Labs_tok_str
    | apply Labs_tok_jump
    | apply tok_jmp_labs
    | apply tok_expect_labs
    | apply ts_pop_de_labs
    | apply readexpr_labs
    | apply jumpbrace_labs
    | exact hr
    | split
    | dsimp only)

theorem o_localoff_labs (a o : Int) :
    Pres LabelsOk (o_localoff a o) := by
  unfold o_localoff
  repeat (with_reducible first
    | ((first | lift_lets | skip); intro x; first
        | (have hx : ∀ a b c, Pres LabelsOk (x a b c) := ?_; clear_value x)
        | (have hx : ∀ a b, Pres LabelsOk (x a b) := ?_; clear_value x)
        | (have hx : ∀ a, Pres LabelsOk (x a) := ?_; clear_value x)
        | clear_value x)
    | (apply Pres_getS_bind; intro s0 hs0)
    | apply Pres_bind
    | apply Pres_pure
    | apply Pres_ite
    | intro _
    | apply_assumption
    | apply Pres_loop
    | apply Pres_iter
    | apply Pres_foldlM
    | apply Labs_gen
    | (apply Pres_modS; intro s hs; with_unfolding_all first | exact hs | exact LabelsOk_reset s hs)
    | apply Labs_o_bop
    | apply Labs_o_num
    | apply Labs_o_local
    | exact hr
    | split
    | dsimp only)

theorem globalinit_labs (r : Rec) (hr : PresRec LabelsOk r) (e : Env) (nm : name) (off : Int) (t : type) :
    Pres LabelsOk (globalinit e r nm off t) := by
  unfold globalinit
  repeat (with_reducible first
    | ((first | lift_lets | skip); intro x; first
        | (have hx : ∀ a b c, Pres LabelsOk (x a b c) := ?_; clear_value x)
        | (have hx : ∀ a b, Pres LabelsOk (x a b) := ?_; clear_value x)
        | (have hx : ∀ a, Pres LabelsOk (x a) := ?_; clear_value x)
        | clear_value x)
    | (apply Pres_getS_bind; intro s0 hs0)
    | apply Pres_bind
    | apply Pres_pure
    | apply Pres_ite
    | intro _
    | apply_assumption
    | apply Pres_loop
    | apply Pres_iter
    | apply Pres_foldlM
    | apply Labs_gen
    | (apply Pres_modS; intro s hs; with_unfolding_all first | exact hs | exact LabelsOk_reset s hs)
    | apply Labs_tok_see
    | apply Labs_tok_str
    | apply Labs_ts_pop
    | apply Labs_emit
    | apply Pres_getS
    | apply tok_expect_labs
    | apply readexpr_labs
    | exact hr
    | split
    | dsimp only)

theorem localinit_labs (r : Rec) (hr : PresRec LabelsOk r) (e : Env) (a : Int) (off : Int) (t : type) :
    Pres LabelsOk (localinit e r a off t) := by
  unfold localinit
  repeat (with_reducible first
    | ((first | lift_lets | skip); intro x; first
        | (have hx : ∀ a b c, Pres LabelsOk (x a b c) := ?_; clear_value x)
        | (have hx : ∀ a b, Pres LabelsOk (x a b) := ?_; clear_value x)
        | (have hx : ∀ a, Pres LabelsOk (x a) := ?_; clear_value x)
        | clear_value x)
    | (apply Pres_getS_bind; intro s0 hs0)
    | apply Pres_bind
    | apply Pres_pure
    | apply Pres_ite
    | intro _
    | apply_assumption
    | apply Pres_loop
    | apply Pres_iter
    | apply Pres_foldlM
    | apply Labs_gen
    | (apply Pres_modS; intro s hs; with_unfolding_all first | exact hs | exact LabelsOk_reset s hs)
    | apply Labs_tok_see
    | apply Labs_tok_str
    | apply Labs_ts_pop
    | apply Pres_getS
    | apply Labs_o_memcpy
    | apply Labs_o_num
    | apply Labs_o_sym
    | apply Labs_o_tmpdrop
    | apply tok_expect_labs
    | apply ts_push_labs
    | apply tmp_str_labs
    | apply o_sym_tmp_str_labs
    | apply doassign_labs
    | apply readexpr_labs
    | apply o_localoff_labs
    | exact hr
    | split
    | dsimp only)

theorem initset_labs (r : Rec) (hr : PresRec LabelsOk r) (e : Env) (cb : InitCb) (off : Int) (t : type) :
    Pres LabelsOk (initset e r cb off t) := by
  unfold initset
  repeat (with_reducible first
    | ((first | lift_lets | skip); intro x; first
        | (have hx : ∀ a b c, Pres LabelsOk (x a b c) := ?_; clear_value x)
        | (have hx : ∀ a b, Pres LabelsOk (x a b) := ?_; clear_value x)
        | (have hx : ∀ a, Pres LabelsOk (x a) := ?_; clear_value x)
        | clear_value x)
    | (apply Pres_getS_bind; intro s0 hs0)
    | apply Pres_bind
    | apply Pres_pure
    | apply Pres_ite
    | intro _
    | apply_assumption
    | apply Pres_loop
    | apply Pres_iter
    | apply Pres_foldlM
    | apply Labs_gen
    | (apply Pres_modS; intro s hs; with_unfolding_all first | exact hs | exact LabelsOk_reset s hs)
    | apply globalinit_labs
    | apply localinit_labs
    | exact hr
    | split
    | dsimp only)

theorem initexpr_labs (r : Rec) (hr : PresRec LabelsOk r) (e : Env) (t : type) (off : Int) (cb : InitCb) :
    Pres LabelsOk (initexpr e r t off cb) := by
  unfold initexpr
  repeat (with_reducible first
    | ((first | lift_lets | skip); intro x; first
        | (have hx : ∀ a b c, Pres LabelsOk (x a b c) := ?_; clear_value x)
        | (have hx : ∀ a b, Pres LabelsOk (x a b) := ?_; clear_value x)
        | (have hx : ∀ a, Pres LabelsOk (x a) := ?_; clear_value x)
        | clear_value x)
    | (apply Pres_getS_bind; intro s0 hs0)
    | apply Pres_bind
    | apply Pres_pure
    | apply Pres_ite
    | intro _
    | apply_assumption
    | apply Pres_loop
    | apply Pres_iter
    | apply Pres_foldlM
    | apply Labs_gen
    | (apply Pres_modS; intro s hs; with_unfolding_all first | exact hs | exact LabelsOk_reset s hs)
    | apply Labs_o_popnum
    | apply Labs_tok_see
    | apply Labs_tok_id
    | apply Labs_type_totsz
    | apply Labs_innertype
    | apply Pres_getS
    | apply tok_jmp_labs
    | apply tok_expect_labs
    | apply ts_pop_de_labs
    | apply struct_field_labs
    | apply readexpr_labs
    | apply initset_labs
    | apply hr.initexpr
    | exact hr
    | split
    | dsimp only)

theorem globaldef_labs (r : Rec) (hr : PresRec LabelsOk r) (e : Env) (nm : name) (fl : Nat) :
    Pres LabelsOk (globaldef e r nm fl) := by
  unfold globaldef
  repeat (with_reducible first
    | ((first | lift_lets | skip); intro x; first
        | (have hx : ∀ a b c, Pres LabelsOk (x a b c) := ?_; clear_value x)
        | (have hx : ∀ a b, Pres LabelsOk (x a b) := ?_; clear_value x)
        | (have hx : ∀ a, Pres LabelsOk (x a) := ?_; clear_value x)
        | clear_value x)
    | (apply Pres_getS_bind; intro s0 hs0)
    | apply Pres_bind
    | apply Pres_pure
    | apply Pres_ite
    | intro _
    | apply_assumption
    | apply Pres_loop
    | apply Pres_iter
    | apply Pres_foldlM
    | apply Labs_gen
    | (apply Pres_modS; intro s hs; with_unfolding_all first | exact hs | exact LabelsOk_reset s hs)
    | apply Labs_o_dsnew
    | apply Labs_tok_see
    | apply Labs_type_totsz
    | apply Labs_emit
    | apply Pres_getS
    | apply tok_jmp_labs
    | apply global_add_labs
    | apply initsize_labs
    | apply initexpr_labs
    | apply hr.readfunc
    | exact hr
    | split
    | dsimp only)

theorem localdef_labs (r : Rec) (hr : PresRec LabelsOk r) (e : Env) (nm : name) (fl : Nat) :
    Pres LabelsOk (localdef e r nm fl) := by
  unfold localdef
  repeat (with_reducible first
    | ((first | lift_lets | skip); intro x; first
        | (have hx : ∀ a b c, Pres LabelsOk (x a b c) := ?_; clear_value x)
        | (have hx : ∀ a b, Pres LabelsOk (x a b) := ?_; clear_value x)
        | (have hx : ∀ a, Pres LabelsOk (x a) := ?_; clear_value x)
        | clear_value x)
    | (apply Pres_getS_bind; intro s0 hs0)
    | apply Pres_bind
    | apply Pres_pure
    | apply Pres_ite
    | intro _
    | apply_assumption
    | apply Pres_loop
    | apply Pres_iter
    | apply Pres_foldlM
    | apply Labs_gen
    | (apply Pres_modS; intro s hs; with_unfolding_all first | exact hs | exact LabelsOk_reset s hs)
    | apply Labs_o_mklocal
    | apply Labs_type_totsz
    | apply Pres_getS
    | apply Labs_o_memset
    | apply Labs_o_num
    | apply Labs_o_local
    | apply Labs_o_tmpdrop
    | apply tok_jmp_labs
    | apply local_add_labs
    | apply global_add_labs
    | apply initsize_labs
    | apply initexpr_labs
    | apply globaldef_labs
    | exact hr
    | split
    | dsimp only)

theorem typedefdef_labs (e : Env) (nm : name) (fl : Nat) :
    Pres LabelsOk (typedefdef e nm fl) := by
  unfold typedefdef
  repeat (with_reducible first
    | ((first | lift_lets | skip); intro x; first
        | (have hx : ∀ a b c, Pres LabelsOk (x a b c) := ?_; clear_value x)
        | (have hx : ∀ a b, Pres LabelsOk (x a b) := ?_; clear_value x)
        | (have hx : ∀ a, Pres LabelsOk (x a) := ?_; clear_value x)
        | clear_value x)
    | (apply Pres_getS_bind; intro s0 hs0)
    | apply Pres_bind
    | apply Pres_pure
    | apply Pres_ite
    | intro _
    | apply_assumption
    | apply Pres_loop
    | apply Pres_iter
    | apply Pres_foldlM
    | apply Labs_gen
    | (apply Pres_modS; intro s hs; with_unfolding_all first | exact hs | exact LabelsOk_reset s hs)
    | apply typedef_add_labs
    | exact hr
    | split
    | dsimp only)

theorem calldef_labs (r : Rec) (hr : PresRec LabelsOk r) (e : Env) (cb : DefCb) (nm : name) (fl : Nat) :
    Pres LabelsOk (calldef e r cb nm fl) := by
  unfold calldef
  repeat (with_reducible first
    | ((first | lift_lets | skip); intro x; first
        | (have hx : ∀ a b c, Pres LabelsOk (x a b c) := ?_; clear_value x)
        | (have hx : ∀ a b, Pres LabelsOk (x a b) := ?_; clear_value x)
        | (have hx : ∀ a, Pres LabelsOk (x a) := ?_; clear_value x)
        | clear_value x)
    | (apply Pres_getS_bind; intro s0 hs0)
    | apply Pres_bind
    | apply Pres_pure
    | apply Pres_ite
    | intro _
    | apply_assumption
    | apply Pres_loop
    | apply Pres_iter
    | apply Pres_foldlM
    | apply Labs_gen
    | (apply Pres_modS; intro s hs; with_unfolding_all first | exact hs | exact LabelsOk_reset s hs)
    | apply structdef_labs
    | apply krdef_labs
    | apply globaldef_labs
    | apply localdef_labs
    | apply typedefdef_labs
    | exact hr
    | split
    | dsimp only)

theorem readdefs_loop_labs (r : Rec) (hr : PresRec LabelsOk r) (e : Env) (cb : DefCb) (b : type) (fl : Nat) :
    Pres LabelsOk (readdefs_loop e r cb b fl) := by
  unfold readdefs_loop
  repeat (with_reducible first
    | ((first | lift_lets | skip); intro x; first
        | (have hx : ∀ a b c, Pres LabelsOk (x a b c) := ?_; clear_value x)
        | (have hx : ∀ a b, Pres LabelsOk (x a b) := ?_; clear_value x)
        | (have hx : ∀ a, Pres LabelsOk (x a) := ?_; clear_value x)
        | clear_value x)
    | (apply Pres_getS_bind; intro s0 hs0)
    | apply Pres_bind
    | apply Pres_pure
    | apply Pres_ite
    | intro _
    | apply_assumption
    | apply Pres_loop
    | apply Pres_iter
    | apply Pres_foldlM
    | apply Labs_gen
    | (apply Pres_modS; intro s hs; with_unfolding_all first | exact hs | exact LabelsOk_reset s hs)
    | apply tok_jmp_labs
    | apply readname_labs
    | apply calldef_labs
    | exact hr
    | split
    | dsimp only)

theorem readdefs_labs (r : Rec) (hr : PresRec LabelsOk r) (e : Env) (cb : DefCb) :
    Pres LabelsOk (readdefs e r cb) := by
  unfold readdefs
  repeat (with_reducible first
    | ((first | lift_lets | skip); intro x; first
        | (have hx : ∀ a b c, Pres LabelsOk (x a b c) := ?_; clear_value x)
        | (have hx : ∀ a b, Pres LabelsOk (x a b) := ?_; clear_value x)
        | (have hx : ∀ a, Pres LabelsOk (x a) := ?_; clear_value x)
        | clear_value x)
    | (apply Pres_getS_bind; intro s0 hs0)
    | apply Pres_bind
    | apply Pres_pure
    | apply Pres_ite
    | intro _
    | apply_assumption
    | apply Pres_loop
    | apply Pres_iter
    | apply Pres_foldlM
    | apply Labs_gen
    | (apply Pres_modS; intro s hs; with_unfolding_all first | exact hs | exact LabelsOk_reset s hs)
    | apply Labs_tok_see
    | apply basetype_labs
    | apply readdefs_loop_labs
    | exact hr
    | split
    | dsimp only)

theorem readdefs_int_labs (r : Rec) (hr : PresRec LabelsOk r) (e : Env) (cb : DefCb) :
    Pres LabelsOk (readdefs_int e r cb) := by
  unfold readdefs_int
  repeat (with_reducible first
    | ((first | lift_lets | skip); intro x; first
        | (have hx : ∀ a b c, Pres LabelsOk (x a b c) := ?_; clear_value x)
        | (have hx : ∀ a b, Pres LabelsOk (x a b) := ?_; clear_value x)
        | (have hx : ∀ a, Pres LabelsOk (x a) := ?_; clear_value x)
        | clear_value x)
    | (apply Pres_getS_bind; intro s0 hs0)
    | apply Pres_bind
    | apply Pres_pure
    | apply Pres_ite
    | intro _
    | apply_assumption
    | apply Pres_loop
    | apply Pres_iter
    | apply Pres_foldlM
    | apply Labs_gen
    | (apply Pres_modS; intro s hs; with_unfolding_all first | exact hs | exact LabelsOk_reset s hs)
    | apply Labs_tok_see
    | apply basetype_labs
    | apply readdefs_loop_labs
    | exact hr
    | split
    | dsimp only)

theorem readswitch_labs (r : Rec) (hr : PresRec LabelsOk r) (e : Env) :
    Pres LabelsOk (readswitch e r) := by
  unfold readswitch
  repeat (with_reducible first
    | ((first | lift_lets | skip); intro x; first
        | (have hx : ∀ a b c, Pres LabelsOk (x a b c) := ?_; clear_value x)
        | (have hx : ∀ a b, Pres LabelsOk (x a b) := ?_; clear_value x)
        | (have hx : ∀ a, Pres LabelsOk (x a) := ?_; clear_value x)
        | clear_value x)
    | (apply Pres_getS_bind; intro s0 hs0)
    | apply Pres_bind
    | apply Pres_pure
    | apply Pres_ite
    | intro _
    | apply_assumption
    | apply Pres_loop
    | apply Pres_iter
    | apply Pres_foldlM
    | apply Labs_gen
    | (apply Pres_modS; intro s hs; with_unfolding_all first | exact hs | exact LabelsOk_reset s hs)
    | apply Labs_o_mklocal
    | apply Labs_tok_see
    | apply Labs_tok_get
    | apply Labs_LABEL
    | apply Labs_emit
    | apply Pres_getS
    | apply Labs_o_bop
    | apply Labs_o_assign
    | apply Labs_o_deref
    | apply Labs_o_local
    | apply Labs_o_tmpdrop
    | apply Labs_o_tmpswap
    | apply Labs_o_label
    | apply Labs_o_jz
    | apply Labs_o_jmp
    | apply tok_jmp_labs
    | apply tok_expect_labs
    | apply ts_de_labs
    | apply ts_pop_de_labs
    | apply readexpr_labs
    | apply hr.readstmt
    | exact hr
    | split
    | dsimp only)

theorem readstmt_labs (r : Rec) (hr : PresRec LabelsOk r) (e : Env) :
    Pres LabelsOk (readstmt e r) := by
  unfold readstmt
  repeat (with_reducible first
    | ((first | lift_lets | skip); intro x; first
        | (have hx : ∀ a b c, Pres LabelsOk (x a b c) := ?_; clear_value x)
        | (have hx : ∀ a b, Pres LabelsOk (x a b) := ?_; clear_value x)
        | (have hx : ∀ a, Pres LabelsOk (x a) := ?_; clear_value x)
        | clear_value x)
    | (apply Pres_getS_bind; intro s0 hs0)
    | apply Pres_bind
    | apply Pres_pure
    | apply Pres_ite
    | intro _
    | apply_assumption
    | apply Pres_loop
    | apply Pres_iter
    | apply Pres_foldlM
    | apply Labs_gen
    | (apply Pres_modS; intro s hs; with_unfolding_all first | exact hs | exact LabelsOk_reset s hs)
    | apply Labs_tok_see
    | apply Labs_tok_id
    | apply Labs_LABEL
    | apply Pres_getS
    | apply Labs_o_ret
    | apply Labs_o_tmpdrop
    | apply Labs_o_label
    | apply Labs_o_jz
    | apply Labs_o_jnz
    | apply Labs_o_jmp
    | apply tok_jmp_labs
    | apply tok_expect_labs
    | apply ts_pop_de_labs
    | apply label_id_labs
    | apply o_jmp_label_id_labs
    | apply o_label_label_id_labs
    | apply readexpr_labs
    | apply readestmt_labs
    | apply readdefs_labs
    | apply readswitch_labs
    | apply hr.readstmt
    | exact hr
    | split
    | dsimp only)

theorem readfunc_labs (r : Rec) (hr : PresRec LabelsOk r) (e : Env) (nm : name) (fl : Nat) :
    Pres LabelsOk (readfunc e r nm fl) := by
  unfold readfunc
  repeat (with_reducible first
    | ((first | lift_lets | skip); intro x; first
        | (have hx : ∀ a b c, Pres LabelsOk (x a b c) := ?_; clear_value x)
        | (have hx : ∀ a b, Pres LabelsOk (x a b) := ?_; clear_value x)
        | (have hx : ∀ a, Pres LabelsOk (x a) := ?_; clear_value x)
        | clear_value x)
    | (apply Pres_getS_bind; intro s0 hs0)
    | apply Pres_bind
    | apply Pres_pure
    | apply Pres_ite
    | intro _
    | apply_assumption
    | apply Pres_loop
    | apply Pres_iter
    | apply Pres_foldlM
    | apply Labs_gen
    | (apply Pres_modS; intro s hs; with_unfolding_all first | exact hs | exact LabelsOk_reset s hs)
    | apply Labs_o_arg2loc
    | apply Labs_tok_addr
    | apply Labs_tok_jump
    | apply Labs_emit
    | apply Pres_getS
    | apply local_add_labs
    | apply readstmt_labs
    | exact hr
    | split
    | dsimp only)

theorem readdecl_labs (r : Rec) (hr : PresRec LabelsOk r) (e : Env) :
    Pres LabelsOk (readdecl e r) := by
  unfold readdecl
  repeat (with_reducible first
    | ((first | lift_lets | skip); intro x; first
        | (have hx : ∀ a b c, Pres LabelsOk (x a b c) := ?_; clear_value x)
        | (have hx : ∀ a b, Pres LabelsOk (x a b) := ?_; clear_value x)
        | (have hx : ∀ a, Pres LabelsOk (x a) := ?_; clear_value x)
        | clear_value x)
    | (apply Pres_getS_bind; intro s0 hs0)
    | apply Pres_bind
    | apply Pres_pure
    | apply Pres_ite
    | intro _
    | apply_assumption
    | apply Pres_loop
    | apply Pres_iter
    | apply Pres_foldlM
    | apply Labs_gen
    | (apply Pres_modS; intro s hs; with_unfolding_all first | exact hs | exact LabelsOk_reset s hs)
    | apply tok_jmp_labs
    | apply tok_expect_labs
    | apply readdefs_labs
    | apply readdefs_int_labs
    | exact hr
    | split
    | dsimp only)

theorem parse_labs (r : Rec) (hr : PresRec LabelsOk r) (e : Env) :
    Pres LabelsOk (parse e r) := by
  unfold parse
  repeat (with_reducible first
    | ((first | lift_lets | skip); intro x; first
        | (have hx : ∀ a b c, Pres LabelsOk (x a b c) := ?_; clear_value x)
        | (have hx : ∀ a b, Pres LabelsOk (x a b) := ?_; clear_value x)
        | (have hx : ∀ a, Pres LabelsOk (x a) := ?_; clear_value x)
        | clear_value x)
    | (apply Pres_getS_bind; intro s0 hs0)
    | apply Pres_bind
    | apply Pres_pure
    | apply Pres_ite
    | intro _
    | apply_assumption
    | apply Pres_loop
    | apply Pres_iter
    | apply Pres_foldlM
    | apply Labs_gen
    | (apply Pres_modS; intro s hs; with_unfolding_all first | exact hs | exact LabelsOk_reset s hs)
    | apply Labs_tok_see
    | apply readdecl_labs
    | exact hr
    | split
    | dsimp only)

theorem recN_labs (e : Env) (n : Nat) : PresRec LabelsOk (recN e n) := by
  induction n with
  | zero =>
    exact ⟨Pres_outOfFuel _, Pres_outOfFuel _, Pres_outOfFuel _, fun _ _ => Pres_outOfFuel _,
      fun _ => Pres_outOfFuel _, fun _ _ _ => Pres_outOfFuel _, Pres_outOfFuel _,
      fun _ _ => Pres_outOfFuel _⟩
  | succ n ih =>
    exact ⟨readexpr_labs _ ih e, readpre_labs _ ih e,
      readcexpr_labs _ ih e, fun b t => readname_labs _ ih e b t,
      fun cb => readdefs_labs _ ih e cb, fun t o cb => initexpr_labs _ ih e t o cb,
      readstmt_labs _ ih e, fun nm fl => readfunc_labs _ ih e nm fl⟩

end LabelOrder

/-! ## The globals table only grows

Every function of the parser preserves `GKept g0`: the table of globals still holds the
entries it held in the state `g0`, each at its index. -/

section GlobalsKept
set_option maxRecDepth 2048
set_option linter.unusedTactic false
set_option linter.unreachableTactic false

theorem Glob_frame {α : Type} (g0 : State) (m : P α)
    (h : ∀ s a s1, m s = .ok (a, s1) → s1.globals = s.globals ∧ s1.nglobals = s.nglobals) :
    Pres (GKept g0) m := by
  intro s a s1 hI hm
  obtain ⟨h1, h2⟩ := h s a s1 hm
  unfold GKept
  rw [h1, h2]
  exact hI

theorem GKept_restore (g0 s0 s : State) (h0 : GKept g0 s0) (h : GKept g0 s) :
    GKept g0
      { s with nlocals := s0.nlocals, nenums := s0.nenums, ntypedefs := s0.ntypedefs,
               nstructs := s0.nstructs, nfuncs := s0.nfuncs, narrays := s0.narrays,
               nglobals := s0.nglobals } :=
  ⟨h0.1, h.2⟩

theorem GKept_add (g0 s : State) (x : name) (h : GKept g0 s) :
    GKept g0 { s with globals := tset name.zero s.globals s.nglobals x,
                      nglobals := s.nglobals + 1 } := by
  refine ⟨Nat.le_succ_of_le h.1, ?_⟩
  intro i hi
  show (tset name.zero s.globals s.nglobals x).getD i name.zero = _
  rw [getD_tset_ne _ _ _ _ _ (by have := h.1; omega)]
  exact h.2 i hi

theorem Glob_gen (g0 : State)
    (c : Call) : Pres (GKept g0) (gen c) := by
  apply Glob_frame
  intro s a s1 h
  rw [gen_apply] at h
  cases h
  exact ⟨rfl, rfl⟩

theorem Glob_tok_see (g0 : State) :
    Pres (GKept g0) tok_see := by
  apply Glob_frame
  intro s a s1 h
  cases h
  exact ⟨rfl, rfl⟩

theorem Glob_tok_get (g0 : State) :
    Pres (GKept g0) tok_get := by
  apply Glob_frame
  intro s a s1 h
  unfold tok_get at h
  cases h
  split <;> exact ⟨rfl, rfl⟩

theorem Glob_o_popnum (g0 : State) (e : Env) (c : Int) :
    Pres (GKept g0) (o_popnum e c) := by
  apply Glob_frame
  intro s a s1 h
  unfold o_popnum at h
  split at h
  · cases h; exact ⟨rfl, rfl⟩
  · split at h <;> cases h <;> exact ⟨rfl, rfl⟩

theorem Glob_o_mklocal (g0 : State) (e : Env) (z : Int) :
    Pres (GKept g0) (o_mklocal e z) := by
  apply Glob_frame
  intro s a s1 h
  cases h; exact ⟨rfl, rfl⟩

theorem Glob_o_arg2loc (g0 : State) (e : Env) (z : Int) :
    Pres (GKept g0) (o_arg2loc e z) := by
  apply Glob_frame
  intro s a s1 h
  cases h; exact ⟨rfl, rfl⟩

theorem Glob_o_dsnew (g0 : State) (e : Env) (nm : String) (z g : Int) :
    Pres (GKept g0) (o_dsnew e nm z g) := by
  apply Glob_frame
  intro s a s1 h
  cases h; exact ⟨rfl, rfl⟩

theorem Glob_tok_addr (g0 : State)  :
    Pres (GKept g0) (tok_addr) := by
  apply Glob_frame
  intro s a s1 h
  cases h; exact ⟨rfl, rfl⟩

theorem Glob_tok_id (g0 : State)  :
    Pres (GKept g0) (tok_id) := by
  apply Glob_frame
  intro s a s1 h
  cases h; exact ⟨rfl, rfl⟩

theorem Glob_tok_num (g0 : State)  :
    Pres (GKept g0) (tok_num) := by
  apply Glob_frame
  intro s a s1 h
  cases h; exact ⟨rfl, rfl⟩

theorem Glob_tok_str (g0 : State)  :
    Pres (GKept g0) (tok_str) := by
  apply Glob_frame
  intro s a s1 h
  cases h; exact ⟨rfl, rfl⟩

theorem Glob_type_totsz (g0 : State) (e : Env) (t : type) :
    Pres (GKept g0) (type_totsz e t) := by
  apply Glob_frame
  intro s a s1 h
  unfold type_totsz at h
  split at h <;> cases h
  exact ⟨rfl, rfl⟩

theorem Glob_type_szde (g0 : State) (e : Env) (t : type) :
    Pres (GKept g0) (type_szde e t) := by
  apply Glob_frame
  intro s a s1 h
  unfold type_szde at h
  split at h <;> cases h
  exact ⟨rfl, rfl⟩

theorem Glob_type_alignment (g0 : State) (e : Env) (t : type) :
    Pres (GKept g0) (type_alignment e t) := by
  apply Glob_frame
  intro s a s1 h
  unfold type_alignment at h
  split at h <;> cases h
  exact ⟨rfl, rfl⟩

theorem Glob_innertype (g0 : State) (t : type) :
    Pres (GKept g0) (innertype t) := by
  apply Glob_frame
  intro s a s1 h
  unfold innertype at h
  split at h <;> cases h
  exact ⟨rfl, rfl⟩

theorem Glob_ts_pop (g0 : State)  :
    Pres (GKept g0) (ts_pop) := by
  apply Glob_frame
  intro s a s1 h
  unfold ts_pop at h
  split at h <;> cases h
  exact ⟨rfl, rfl⟩

theorem Glob_local_find (g0 : State) (nm : String) :
    Pres (GKept g0) (local_find nm) := by
  apply Glob_frame
  intro s a s1 h
  cases h; exact ⟨rfl, rfl⟩

theorem Glob_global_find (g0 : State) (nm : String) :
    Pres (GKept g0) (global_find nm) := by
  apply Glob_frame
  intro s a s1 h
  cases h; exact ⟨rfl, rfl⟩

theorem Glob_enum_find (g0 : State) (nm : String) :
    Pres (GKept g0) (enum_find nm) := by
  apply Glob_frame
  intro s a s1 h
  cases h; exact ⟨rfl, rfl⟩

theorem Glob_typedef_find (g0 : State) (nm : String) :
    Pres (GKept g0) (typedef_find nm) := by
  apply Glob_frame
  intro s a s1 h
  cases h; exact ⟨rfl, rfl⟩

theorem Glob_LABEL (g0 : State)  :
    Pres (GKept g0) (LABEL) := by
  apply Glob_frame
  intro s a s1 h
  cases h; exact ⟨rfl, rfl⟩

theorem Glob_o_bop (g0 : State) (op : Op) (sg : Bool) :
    Pres (GKept g0) (o_bop op sg) :=
  Glob_gen _ _

theorem Glob_o_uop (g0 : State) (op : Op) :
    Pres (GKept g0) (o_uop op) :=
  Glob_gen _ _

theorem Glob_o_cast (g0 : State) (bt : Nat) :
    Pres (GKept g0) (o_cast bt) :=
  Glob_gen _ _

theorem Glob_o_memcpy (g0 : State)  :
    Pres (GKept g0) (o_memcpy) :=
  Glob_gen _ _

theorem Glob_o_memset (g0 : State)  :
    Pres (GKept g0) (o_memset) :=
  Glob_gen _ _

theorem Glob_o_call (g0 : State) (a : Int) (b : Nat) :
    Pres (GKept g0) (o_call a b) :=
  Glob_gen _ _

theorem Glob_o_ret (g0 : State) (a : Int) :
    Pres (GKept g0) (o_ret a) :=
  Glob_gen _ _

theorem Glob_o_assign (g0 : State) (bt : Nat) :
    Pres (GKept g0) (o_assign bt) :=
  Glob_gen _ _

theorem Glob_o_deref (g0 : State) (bt : Nat) :
    Pres (GKept g0) (o_deref bt) :=
  Glob_gen _ _

theorem Glob_o_load (g0 : State)  :
    Pres (GKept g0) (o_load) :=
  Glob_gen _ _

theorem Glob_o_num (g0 : State) (a : Int) :
    Pres (GKept g0) (o_num a) :=
  Glob_gen _ _

theorem Glob_o_local (g0 : State) (a : Int) :
    Pres (GKept g0) (o_local a) :=
  Glob_gen _ _

theorem Glob_o_sym (g0 : State) (a : String) :
    Pres (GKept g0) (o_sym a) :=
  Glob_gen _ _

theorem Glob_o_tmpdrop (g0 : State) (a : Int) :
    Pres (GKept g0) (o_tmpdrop a) :=
  Glob_gen _ _

theorem Glob_o_tmpswap (g0 : State)  :
    Pres (GKept g0) (o_tmpswap) :=
  Glob_gen _ _

theorem Glob_o_tmpcopy (g0 : State)  :
    Pres (GKept g0) (o_tmpcopy) :=
  Glob_gen _ _

theorem Glob_o_label (g0 : State) (a : Int) :
    Pres (GKept g0) (o_label a) :=
  Glob_gen _ _

theorem Glob_o_jz (g0 : State) (a : Int) :
    Pres (GKept g0) (o_jz a) :=
  Glob_gen _ _

theorem Glob_o_jnz (g0 : State) (a : Int) :
    Pres (GKept g0) (o_jnz a) :=
  Glob_gen _ _

theorem Glob_o_jmp (g0 : State) (a : Int) :
    Pres (GKept g0) (o_jmp a) :=
  Glob_gen _ _

theorem Glob_o_fork (g0 : State)  :
    Pres (GKept g0) (o_fork) :=
  Glob_gen _ _

theorem Glob_o_forkpush (g0 : State)  :
    Pres (GKept g0) (o_forkpush) :=
  Glob_gen _ _

theorem Glob_o_forkjoin (g0 : State)  :
    Pres (GKept g0) (o_forkjoin) :=
  Glob_gen _ _

theorem Glob_emit (g0 : State) (c : Call) :
    Pres (GKept g0) (emit c) :=
  Pres_modS _ _ (fun _ hs => hs)

theorem Glob_tok_jump (g0 : State) (a : Nat) :
    Pres (GKept g0) (tok_jump a) := by
  apply Glob_frame
  intro s a s1 h
  cases h; exact ⟨rfl, rfl⟩

theorem tok_jmp_glob (g0 : State) (t : Tok) :
    Pres (GKept g0) (tok_jmp t) := by
  unfold tok_jmp
  repeat (with_reducible first
    | ((first | lift_lets | skip); intro x; first
        | (have hx : ∀ a b c, Pres (GKept g0) (x a b c) := ?_; clear_value x)
        | (have hx : ∀ a b, Pres (GKept g0) (x a b) := ?_; clear_value x)
        | (have hx : ∀ a, Pres (GKept g0) (x a) := ?_; clear_value x)
        | clear_value x)
    | (apply Pres_getS_bind; intro s0 hs0)
    | apply Pres_bind
    | apply Pres_pure
    | apply Pres_ite
    | intro _
    | apply_assumption
    | apply Pres_loop
    | apply Pres_iter
    | apply Pres_foldlM
    | apply Glob_gen
    | (apply Pres_modS; intro s hs; with_unfolding_all first | exact hs | exact GKept_restore _ s0 s hs0 hs | exact GKept_add _ s _ hs)
    | apply Glob_tok_see
    | apply Glob_tok_get
    | exact hr
    | split
    | dsimp only)

theorem tok_expect_glob (g0 : State) (t : Tok) :
    Pres (GKept g0) (tok_expect t) := by
  unfold tok_expect
  repeat (with_reducible first
    | ((first | lift_lets | skip); intro x; first
        | (have hx : ∀ a b c, Pres (GKept g0) (x a b c) := ?_; clear_value x)
        | (have hx : ∀ a b, Pres (GKept g0) (x a b) := ?_; clear_value x)
        | (have hx : ∀ a, Pres (GKept g0) (x a) := ?_; clear_value x)
        | clear_value x)
    | (apply Pres_getS_bind; intro s0 hs0)
    | apply Pres_bind
    | apply Pres_pure
    | apply Pres_ite
    | intro _
    | apply_assumption
    | apply Pres_loop
    | apply Pres_iter
    | apply Pres_foldlM
    | apply Glob_gen
    | (apply Pres_modS; intro s hs; with_unfolding_all first | exact hs | exact GKept_restore _ s0 s hs0 hs | exact GKept_add _ s _ hs)
    | apply Glob_tok_get
    | apply Pres_err
    | exact hr
    | split
    | dsimp only)

theorem ts_push_bt_glob (g0 : State) (e : Env) (bt : Nat) :
    Pres (GKept g0) (ts_push_bt e bt) := by
  unfold ts_push_bt
  repeat (with_reducible first
    | ((first | lift_lets | skip); intro x; first
        | (have hx : ∀ a b c, Pres (GKept g0) (x a b c) := ?_; clear_value x)
        | (have hx : ∀ a b, Pres (GKept g0) (x a b) := ?_; clear_value x)
        | (have hx : ∀ a, Pres (GKept g0) (x a) := ?_; clear_value x)
        | clear_value x)
    | (apply Pres_getS_bind; intro s0 hs0)
    | apply Pres_bind
    | apply Pres_pure
    | apply Pres_ite
    | intro _
    | apply_assumption
    | apply Pres_loop
    | apply Pres_iter
    | apply Pres_foldlM
    | apply Glob_gen
    | (apply Pres_modS; intro s hs; with_unfolding_all first | exact hs | exact GKept_restore _ s0 s hs0 hs | exact GKept_add _ s _ hs)
    | apply Glob_o_cast
    | exact hr
    | split
    | dsimp only)

theorem ts_push_glob (g0 : State) (t : type) :
    Pres (GKept g0) (ts_push t) := by
  unfold ts_push
  repeat (with_reducible first
    | ((first | lift_lets | skip); intro x; first
        | (have hx : ∀ a b c, Pres (GKept g0) (x a b c) := ?_; clear_value x)
        | (have hx : ∀ a b, Pres (GKept g0) (x a b) := ?_; clear_value x)
        | (have hx : ∀ a, Pres (GKept g0) (x a) := ?_; clear_value x)
        | clear_value x)
    | (apply Pres_getS_bind; intro s0 hs0)
    | apply Pres_bind
    | apply Pres_pure
    | apply Pres_ite
    | intro _
    | apply_assumption
    | apply Pres_loop
    | apply Pres_iter
    | apply Pres_foldlM
    | apply Glob_gen
    | (apply Pres_modS; intro s hs; with_unfolding_all first | exact hs | exact GKept_restore _ s0 s hs0 hs | exact GKept_add _ s _ hs)
    | exact hr
    | split
    | dsimp only)

theorem ts_push_addr_glob (g0 : State) (t : type) :
    Pres (GKept g0) (ts_push_addr t) := by
  unfold ts_push_addr
  repeat (with_reducible first
    | ((first | lift_lets | skip); intro x; first
        | (have hx : ∀ a b c, Pres (GKept g0) (x a b c) := ?_; clear_value x)
        | (have hx : ∀ a b, Pres (GKept g0) (x a b) := ?_; clear_value x)
        | (have hx : ∀ a, Pres (GKept g0) (x a) := ?_; clear_value x)
        | clear_value x)
    | (apply Pres_getS_bind; intro s0 hs0)
    | apply Pres_bind
    | apply Pres_pure
    | apply Pres_ite
    | intro _
    | apply_assumption
    | apply Pres_loop
    | apply Pres_iter
    | apply Pres_foldlM
    | apply Glob_gen
    | (apply Pres_modS; intro s hs; with_unfolding_all first | exact hs | exact GKept_restore _ s0 s hs0 hs | exact GKept_add _ s _ hs)
    | apply ts_push_glob
    | exact hr
    | split
    | dsimp only)

theorem ts_de_glob (g0 : State) (e : Env) (d : Int) :
    Pres (GKept g0) (ts_de e d) := by
  unfold ts_de
  repeat (with_reducible first
    | ((first | lift_lets | skip); intro x; first
        | (have hx : ∀ a b c, Pres (GKept g0) (x a b c) := ?_; clear_value x)
        | (have hx : ∀ a b, Pres (GKept g0) (x a b) := ?_; clear_value x)
        | (have hx : ∀ a, Pres (GKept g0) (x a) := ?_; clear_value x)
        | clear_value x)
    | (apply Pres_getS_bind; intro s0 hs0)
    | apply Pres_bind
    | apply Pres_pure
    | apply Pres_ite
    | intro _
    | apply_assumption
    | apply Pres_loop
    | apply Pres_iter
    | apply Pres_foldlM
    | apply Glob_gen
    | (apply Pres_modS; intro s hs; with_unfolding_all first | exact hs | exact GKept_restore _ s0 s hs0 hs | exact GKept_add _ s _ hs)
    | apply Pres_ub
    | apply Pres_getS
    | apply Glob_o_deref
    | exact hr
    | split
    | dsimp only)

theorem ts_pop_de_glob (g0 : State) (e : Env) :
    Pres (GKept g0) (ts_pop_de e) := by
  unfold ts_pop_de
  repeat (with_reducible first
    | ((first | lift_lets | skip); intro x; first
        | (have hx : ∀ a b c, Pres (GKept g0) (x a b c) := ?_; clear_value x)
        | (have hx : ∀ a b, Pres (GKept g0) (x a b) := ?_; clear_value x)
        | (have hx : ∀ a, Pres (GKept g0) (x a) := ?_; clear_value x)
        | clear_value x)
    | (apply Pres_getS_bind; intro s0 hs0)
    | apply Pres_bind
    | apply Pres_pure
    | apply Pres_ite
    | intro _
    | apply_assumption
    | apply Pres_loop
    | apply Pres_iter
    | apply Pres_foldlM
    | apply Glob_gen
    | (apply Pres_modS; intro s hs; with_unfolding_all first | exact hs | exact GKept_restore _ s0 s hs0 hs | exact GKept_add _ s _ hs)
    | apply Glob_ts_pop
    | apply ts_de_glob
    | exact hr
    | split
    | dsimp only)

theorem ts_pop_de2_glob (g0 : State) (e : Env) :
    Pres (GKept g0) (ts_pop_de2 e) := by
  unfold ts_pop_de2
  repeat (with_reducible first
    | ((first | lift_lets | skip); intro x; first
        | (have hx : ∀ a b c, Pres (GKept g0) (x a b c) := ?_; clear_value x)
        | (have hx : ∀ a b, Pres (GKept g0) (x a b) := ?_; clear_value x)
        | (have hx : ∀ a, Pres (GKept g0) (x a) := ?_; clear_value x)
        | clear_value x)
    | (apply Pres_getS_bind; intro s0 hs0)
    | apply Pres_bind
    | apply Pres_pure
    | apply Pres_ite
    | intro _
    | apply_assumption
    | apply Pres_loop
    | apply Pres_iter
    | apply Pres_foldlM
    | apply Glob_gen
    | (apply Pres_modS; intro s hs; with_unfolding_all first | exact hs | exact GKept_restore _ s0 s hs0 hs | exact GKept_add _ s _ hs)
    | apply Glob_o_tmpswap
    | apply ts_pop_de_glob
    | exact hr
    | split
    | dsimp only)

theorem ts_binop_glob (g0 : State) (e : Env) (op : Op) :
    Pres (GKept g0) (ts_binop e op) := by
  unfold ts_binop
  repeat (with_reducible first
    | ((first | lift_lets | skip); intro x; first
        | (have hx : ∀ a b c, Pres (GKept g0) (x a b c) := ?_; clear_value x)
        | (have hx : ∀ a b, Pres (GKept g0) (x a b) := ?_; clear_value x)
        | (have hx : ∀ a, Pres (GKept g0) (x a) := ?_; clear_value x)
        | clear_value x)
    | (apply Pres_getS_bind; intro s0 hs0)
    | apply Pres_bind
    | apply Pres_pure
    | apply Pres_ite
    | intro _
    | apply_assumption
    | apply Pres_loop
    | apply Pres_iter
    | apply Pres_foldlM
    | apply Glob_gen
    | (apply Pres_modS; intro s hs; with_unfolding_all first | exact hs | exact GKept_restore _ s0 s hs0 hs | exact GKept_add _ s _ hs)
    | apply Glob_o_bop
    | apply ts_push_bt_glob
    | apply ts_pop_de2_glob
    | exact hr
    | split
    | dsimp only)

theorem ts_addop_glob (g0 : State) (e : Env) (op : Op) :
    Pres (GKept g0) (ts_addop e op) := by
  unfold ts_addop
  repeat (with_reducible first
    | ((first | lift_lets | skip); intro x; first
        | (have hx : ∀ a b c, Pres (GKept g0) (x a b c) := ?_; clear_value x)
        | (have hx : ∀ a b, Pres (GKept g0) (x a b) := ?_; clear_value x)
        | (have hx : ∀ a, Pres (GKept g0) (x a) := ?_; clear_value x)
        | clear_value x)
    | (apply Pres_getS_bind; intro s0 hs0)
    | apply Pres_bind
    | apply Pres_pure
    | apply Pres_ite
    | intro _
    | apply_assumption
    | apply Pres_loop
    | apply Pres_iter
    | apply Pres_foldlM
    | apply Glob_gen
    | (apply Pres_modS; intro s hs; with_unfolding_all first | exact hs | exact GKept_restore _ s0 s hs0 hs | exact GKept_add _ s _ hs)
    | apply Glob_type_szde
    | apply Glob_o_bop
    | apply Glob_o_num
    | apply Glob_o_tmpswap
    | apply ts_push_bt_glob
    | apply ts_push_glob
    | apply ts_pop_de2_glob
    | exact hr
    | split
    | dsimp only)

theorem structdef_glob (g0 : State) (e : Env) (id : Nat) (nm : name) (fl : Nat) :
    Pres (GKept g0) (structdef e id nm fl) := by
  unfold structdef
  repeat (with_reducible first
    | ((first | lift_lets | skip); intro x; first
        | (have hx : ∀ a b c, Pres (GKept g0) (x a b c) := ?_; clear_value x)
        | (have hx : ∀ a b, Pres (GKept g0) (x a b) := ?_; clear_value x)
        | (have hx : ∀ a, Pres (GKept g0) (x a) := ?_; clear_value x)
        | clear_value x)
    | (apply Pres_getS_bind; intro s0 hs0)
    | apply Pres_bind
    | apply Pres_pure
    | apply Pres_ite
    | intro _
    | apply_assumption
    | apply Pres_loop
    | apply Pres_iter
    | apply Pres_foldlM
    | apply Glob_gen
    | (apply Pres_modS; intro s hs; with_unfolding_all first | exact hs | exact GKept_restore _ s0 s hs0 hs | exact GKept_add _ s _ hs)
    | apply Glob_type_totsz
    | apply Glob_type_alignment
    | apply Pres_getS
    | exact hr
    | split
    | dsimp only)

theorem local_add_glob (g0 : State) (e : Env) (nm : name) :
    Pres (GKept g0) (local_add e nm) := by
  unfold local_add
  repeat (with_reducible first
    | ((first | lift_lets | skip); intro x; first
        | (have hx : ∀ a b c, Pres (GKept g0) (x a b c) := ?_; clear_value x)
        | (have hx : ∀ a b, Pres (GKept g0) (x a b) := ?_; clear_value x)
        | (have hx : ∀ a, Pres (GKept g0) (x a) := ?_; clear_value x)
        | clear_value x)
    | (apply Pres_getS_bind; intro s0 hs0)
    | apply Pres_bind
    | apply Pres_pure
    | apply Pres_ite
    | intro _
    | apply_assumption
    | apply Pres_loop
    | apply Pres_iter
    | apply Pres_foldlM
    | apply Glob_gen
    | (apply Pres_modS; intro s hs; with_unfolding_all first | exact hs | exact GKept_restore _ s0 s hs0 hs | exact GKept_add _ s _ hs)
    | apply Pres_err
    | apply Pres_getS
    | exact hr
    | split
    | dsimp only)

theorem global_add_glob (g0 : State) (e : Env) (nm : name) :
    Pres (GKept g0) (global_add e nm) := by
  unfold global_add
  repeat (with_reducible first
    | ((first | lift_lets | skip); intro x; first
        | (have hx : ∀ a b c, Pres (GKept g0) (x a b c) := ?_; clear_value x)
        | (have hx : ∀ a b, Pres (GKept g0) (x a b) := ?_; clear_value x)
        | (have hx : ∀ a, Pres (GKept g0) (x a) := ?_; clear_value x)
        | clear_value x)
    | (apply Pres_getS_bind; intro s0 hs0)
    | apply Pres_bind
    | apply Pres_pure
    | apply Pres_ite
    | intro _
    | apply_assumption
    | apply Pres_loop
    | apply Pres_iter
    | apply Pres_foldlM
    | apply Glob_gen
    | (apply Pres_modS; intro s hs; with_unfolding_all first | exact hs | exact GKept_restore _ s0 s hs0 hs | exact GKept_add _ s _ hs)
    | apply Pres_err
    | apply Pres_getS
    | exact hr
    | split
    | dsimp only)

theorem enum_add_glob (g0 : State) (e : Env) (nm : String) (v : Int) :
    Pres (GKept g0) (enum_add e nm v) := by
  unfold enum_add
  repeat (with_reducible first
    | ((first | lift_lets | skip); intro x; first
        | (have hx : ∀ a b c, Pres (GKept g0) (x a b c) := ?_; clear_value x)
        | (have hx : ∀ a b, Pres (GKept g0) (x a b) := ?_; clear_value x)
        | (have hx : ∀ a, Pres (GKept g0) (x a) := ?_; clear_value x)
        | clear_value x)
    | (apply Pres_getS_bind; intro s0 hs0)
    | apply Pres_bind
    | apply Pres_pure
    | apply Pres_ite
    | intro _
    | apply_assumption
    | apply Pres_loop
    | apply Pres_iter
    | apply Pres_foldlM
    | apply Glob_gen
    | (apply Pres_modS; intro s hs; with_unfolding_all first | exact hs | exact GKept_restore _ s0 s hs0 hs | exact GKept_add _ s _ hs)
    | apply Pres_err
    | apply Pres_getS
    | exact hr
    | split
    | dsimp only)

theorem typedef_add_glob (g0 : State) (e : Env) (nm : String) (t : type) :
    Pres (GKept g0) (typedef_add e nm t) := by
  unfold typedef_add
  repeat (with_reducible first
    | ((first | lift_lets | skip); intro x; first
        | (have hx : ∀ a b c, Pres (GKept g0) (x a b c) := ?_; clear_value x)
        | (have hx : ∀ a b, Pres (GKept g0) (x a b) := ?_; clear_value x)
        | (have hx : ∀ a, Pres (GKept g0) (x a) := ?_; clear_value x)
        | clear_value x)
    | (apply Pres_getS_bind; intro s0 hs0)
    | apply Pres_bind
    | apply Pres_pure
    | apply Pres_ite
    | intro _
    | apply_assumption
    | apply Pres_loop
    | apply Pres_iter
    | apply Pres_foldlM
    | apply Glob_gen
    | (apply Pres_modS; intro s hs; with_unfolding_all first | exact hs | exact GKept_restore _ s0 s hs0 hs | exact GKept_add _ s _ hs)
    | apply Pres_err
    | apply Pres_getS
    | exact hr
    | split
    | dsimp only)

theorem struct_find_glob (g0 : State) (e : Env) (nm : String) (u : Int) :
    Pres (GKept g0) (struct_find e nm u) := by
  unfold struct_find
  repeat (with_reducible first
    | ((first | lift_lets | skip); intro x; first
        | (have hx : ∀ a b c, Pres (GKept g0) (x a b c) := ?_; clear_value x)
        | (have hx : ∀ a b, Pres (GKept g0) (x a b) := ?_; clear_value x)
        | (have hx : ∀ a, Pres (GKept g0) (x a) := ?_; clear_value x)
        | clear_value x)
    | (apply Pres_getS_bind; intro s0 hs0)
    | apply Pres_bind
    | apply Pres_pure
    | apply Pres_ite
    | intro _
    | apply_assumption
    | apply Pres_loop
    | apply Pres_iter
    | apply Pres_foldlM
    | apply Glob_gen
    | (apply Pres_modS; intro s hs; with_unfolding_all first | exact hs | exact GKept_restore _ s0 s hs0 hs | exact GKept_add _ s _ hs)
    | apply Pres_err
    | apply Pres_getS
    | exact hr
    | split
    | dsimp only)

theorem array_add_glob (g0 : State) (e : Env) (t : type) (n : Int) :
    Pres (GKept g0) (array_add e t n) := by
  unfold array_add
  repeat (with_reducible first
    | ((first | lift_lets | skip); intro x; first
        | (have hx : ∀ a b c, Pres (GKept g0) (x a b c) := ?_; clear_value x)
        | (have hx : ∀ a b, Pres (GKept g0) (x a b) := ?_; clear_value x)
        | (have hx : ∀ a, Pres (GKept g0) (x a) := ?_; clear_value x)
        | clear_value x)
    | (apply Pres_getS_bind; intro s0 hs0)
    | apply Pres_bind
    | apply Pres_pure
    | apply Pres_ite
    | intro _
    | apply_assumption
    | apply Pres_loop
    | apply Pres_iter
    | apply Pres_foldlM
    | apply Glob_gen
    | (apply Pres_modS; intro s hs; with_unfolding_all first | exact hs | exact GKept_restore _ s0 s hs0 hs | exact GKept_add _ s _ hs)
    | apply Pres_err
    | apply Pres_getS
    | exact hr
    | split
    | dsimp only)

theorem struct_field_glob (g0 : State) (id : Nat) (nm : String) :
    Pres (GKept g0) (struct_field id nm) := by
  unfold struct_field
  repeat (with_reducible first
    | ((first | lift_lets | skip); intro x; first
        | (have hx : ∀ a b c, Pres (GKept g0) (x a b c) := ?_; clear_value x)
        | (have hx : ∀ a b, Pres (GKept g0) (x a b) := ?_; clear_value x)
        | (have hx : ∀ a, Pres (GKept g0) (x a) := ?_; clear_value x)
        | clear_value x)
    | (apply Pres_getS_bind; intro s0 hs0)
    | apply Pres_bind
    | apply Pres_pure
    | apply Pres_ite
    | intro _
    | apply_assumption
    | apply Pres_loop
    | apply Pres_iter
    | apply Pres_foldlM
    | apply Glob_gen
    | (apply Pres_modS; intro s hs; with_unfolding_all first | exact hs | exact GKept_restore _ s0 s hs0 hs | exact GKept_add _ s _ hs)
    | apply Pres_err
    | apply Pres_getS
    | exact hr
    | split
    | dsimp only)

theorem func_create_glob (g0 : State) (e : Env) (ret : type) (nm : String) (an : List String) (args : List type) (na : Nat) (varg : Int) :
    Pres (GKept g0) (func_create e ret nm an args na varg) := by
  unfold func_create
  repeat (with_reducible first
    | ((first | lift_lets | skip); intro x; first
        | (have hx : ∀ a b c, Pres (GKept g0) (x a b c) := ?_; clear_value x)
        | (have hx : ∀ a b, Pres (GKept g0) (x a b) := ?_; clear_value x)
        | (have hx : ∀ a, Pres (GKept g0) (x a) := ?_; clear_value x)
        | clear_value x)
    | (apply Pres_getS_bind; intro s0 hs0)
    | apply Pres_bind
    | apply Pres_pure
    | apply Pres_ite
    | intro _
    | apply_assumption
    | apply Pres_loop
    | apply Pres_iter
    | apply Pres_foldlM
    | apply Glob_gen
    | (apply Pres_modS; intro s hs; with_unfolding_all first | exact hs | exact GKept_restore _ s0 s hs0 hs | exact GKept_add _ s _ hs)
    | apply Pres_err
    | apply Pres_getS
    | exact hr
    | split
    | dsimp only)

theorem krdef_glob (g0 : State) (fid : Nat) (nm : name) (fl : Nat) :
    Pres (GKept g0) (krdef fid nm fl) := by
  unfold krdef
  repeat (with_reducible first
    | ((first | lift_lets | skip); intro x; first
        | (have hx : ∀ a b c, Pres (GKept g0) (x a b c) := ?_; clear_value x)
        | (have hx : ∀ a b, Pres (GKept g0) (x a b) := ?_; clear_value x)
        | (have hx : ∀ a, Pres (GKept g0) (x a) := ?_; clear_value x)
        | clear_value x)
    | (apply Pres_getS_bind; intro s0 hs0)
    | apply Pres_bind
    | apply Pres_pure
    | apply Pres_ite
    | intro _
    | apply_assumption
    | apply Pres_loop
    | apply Pres_iter
    | apply Pres_foldlM
    | apply Glob_gen
    | (apply Pres_modS; intro s hs; with_unfolding_all first | exact hs | exact GKept_restore _ s0 s hs0 hs | exact GKept_add _ s _ hs)
    | exact hr
    | split
    | dsimp only)

theorem tmp_str_glob (g0 : State) (e : Env) (buf : List Nat) (len : Int) :
    Pres (GKept g0) (tmp_str e buf len) := by
  unfold tmp_str
  repeat (with_reducible first
    | ((first | lift_lets | skip); intro x; first
        | (have hx : ∀ a b c, Pres (GKept g0) (x a b c) := ?_; clear_value x)
        | (have hx : ∀ a b, Pres (GKept g0) (x a b) := ?_; clear_value x)
        | (have hx : ∀ a, Pres (GKept g0) (x a) := ?_; clear_value x)
        | clear_value x)
    | (apply Pres_getS_bind; intro s0 hs0)
    | apply Pres_bind
    | apply Pres_pure
    | apply Pres_ite
    | intro _
    | apply_assumption
    | apply Pres_loop
    | apply Pres_iter
    | apply Pres_foldlM
    | apply Glob_gen
    | (apply Pres_modS; intro s hs; with_unfolding_all first | exact hs | exact GKept_restore _ s0 s hs0 hs | exact GKept_add _ s _ hs)
    | apply Glob_o_dsnew
    | apply Glob_emit
    | apply Pres_getS
    | exact hr
    | split
    | dsimp only)

theorem o_sym_tmp_str_glob (g0 : State) (e : Env) (buf : List Nat) (len : Int) :
    Pres (GKept g0) (o_sym_tmp_str e buf len) := by
  unfold o_sym_tmp_str
  repeat (with_reducible first
    | ((first | lift_lets | skip); intro x; first
        | (have hx : ∀ a b c, Pres (GKept g0) (x a b c) := ?_; clear_value x)
        | (have hx : ∀ a b, Pres (GKept g0) (x a b) := ?_; clear_value x)
        | (have hx : ∀ a, Pres (GKept g0) (x a) := ?_; clear_value x)
        | clear_value x)
    | (apply Pres_getS_bind; intro s0 hs0)
    | apply Pres_bind
    | apply Pres_pure
    | apply Pres_ite
    | intro _
    | apply_assumption
    | apply Pres_loop
    | apply Pres_iter
    | apply Pres_foldlM
    | apply Glob_gen
    | (apply Pres_modS; intro s hs; with_unfolding_all first | exact hs | exact GKept_restore _ s0 s hs0 hs | exact GKept_add _ s _ hs)
    | apply Glob_o_dsnew
    | apply Glob_emit
    | apply Pres_getS
    | apply tmp_str_glob
    | exact hr
    | split
    | dsimp only)

theorem label_id_glob (g0 : State) (nm : String) :
    Pres (GKept g0) (label_id nm) := by
  unfold label_id
  repeat (with_reducible first
    | ((first | lift_lets | skip); intro x; first
        | (have hx : ∀ a b c, Pres (GKept g0) (x a b c) := ?_; clear_value x)
        | (have hx : ∀ a b, Pres (GKept g0) (x a b) := ?_; clear_value x)
        | (have hx : ∀ a, Pres (GKept g0) (x a) := ?_; clear_value x)
        | clear_value x)
    | (apply Pres_getS_bind; intro s0 hs0)
    | apply Pres_bind
    | apply Pres_pure
    | apply Pres_ite
    | intro _
    | apply_assumption
    | apply Pres_loop
    | apply Pres_iter
    | apply Pres_foldlM
    | apply Glob_gen
    | (apply Pres_modS; intro s hs; with_unfolding_all first | exact hs | exact GKept_restore _ s0 s hs0 hs | exact GKept_add _ s _ hs)
    | apply Glob_LABEL
    | apply Pres_getS
    | exact hr
    | split
    | dsimp only)

theorem o_jmp_label_id_glob (g0 : State) :
    Pres (GKept g0) o_jmp_label_id := by
  unfold o_jmp_label_id
  repeat (with_reducible first
    | ((first | lift_lets | skip); intro x; first
        | (have hx : ∀ a b c, Pres (GKept g0) (x a b c) := ?_; clear_value x)
        | (have hx : ∀ a b, Pres (GKept g0) (x a b) := ?_; clear_value x)
        | (have hx : ∀ a, Pres (GKept g0) (x a) := ?_; clear_value x)
        | clear_value x)
    | (apply Pres_getS_bind; intro s0 hs0)
    | apply Pres_bind
    | apply Pres_pure
    | apply Pres_ite
    | intro _
    | apply_assumption
    | apply Pres_loop
    | apply Pres_iter
    | apply Pres_foldlM
    | apply Glob_gen
    | (apply Pres_modS; intro s hs; with_unfolding_all first | exact hs | exact GKept_restore _ s0 s hs0 hs | exact GKept_add _ s _ hs)
    | apply Glob_o_dsnew
    | apply Glob_emit
    | apply Pres_getS
    | apply label_id_glob
    | apply Glob_tok_id
    | exact hr
    | split
    | dsimp only)

theorem o_label_label_id_glob (g0 : State) :
    Pres (GKept g0) o_label_label_id := by
  unfold o_label_label_id
  repeat (with_reducible first
    | ((first | lift_lets | skip); intro x; first
        | (have hx : ∀ a b c, Pres (GKept g0) (x a b c) := ?_; clear_value x)
        | (have hx : ∀ a b, Pres (GKept g0) (x a b) := ?_; clear_value x)
        | (have hx : ∀ a, Pres (GKept g0) (x a) := ?_; clear_value x)
        | clear_value x)
    | (apply Pres_getS_bind; intro s0 hs0)
    | apply Pres_bind
    | apply Pres_pure
    | apply Pres_ite
    | intro _
    | apply_assumption
    | apply Pres_loop
    | apply Pres_iter
    | apply Pres_foldlM
    | apply Glob_gen
    | (apply Pres_modS; intro s hs; with_unfolding_all first | exact hs | exact GKept_restore _ s0 s hs0 hs | exact GKept_add _ s _ hs)
    | apply Glob_o_dsnew
    | apply Glob_emit
    | apply Pres_getS
    | apply label_id_glob
    | apply Glob_tok_id
    | exact hr
    | split
    | dsimp only)

theorem enum_create_glob (g0 : State) (r : Rec) (hr : PresRec (GKept g0) r) (e : Env) :
    Pres (GKept g0) (enum_create e r) := by
  unfold enum_create
  repeat (with_reducible first
    | ((first | lift_lets | skip); intro x; first
        | (have hx : ∀ a b c, Pres (GKept g0) (x a b c) := ?_; clear_value x)
        | (have hx : ∀ a b, Pres (GKept g0) (x a b) := ?_; clear_value x)
        | (have hx : ∀ a, Pres (GKept g0) (x a) := ?_; clear_value x)
        | clear_value x)
    | (apply Pres_getS_bind; intro s0 hs0)
    | apply Pres_bind
    | apply Pres_pure
    | apply Pres_ite
    | intro _
    | apply_assumption
    | apply Pres_loop
    | apply Pres_iter
    | apply Pres_foldlM
    | apply Glob_gen
    | (apply Pres_modS; intro s hs; with_unfolding_all first | exact hs | exact GKept_restore _ s0 s hs0 hs | exact GKept_add _ s _ hs)
    | apply Glob_o_popnum
    | apply Glob_tok_id
    | apply Pres_err
    | apply tok_jmp_glob
    | apply tok_expect_glob
    | apply ts_pop_de_glob
    | apply enum_add_glob
    | apply hr.readexpr
    | exact hr
    | split
    | dsimp only)

theorem struct_create_glob (g0 : State) (r : Rec) (hr : PresRec (GKept g0) r) (e : Env) (nm : String) (u : Int) :
    Pres (GKept g0) (struct_create e r nm u) := by
  unfold struct_create
  repeat (with_reducible first
    | ((first | lift_lets | skip); intro x; first
        | (have hx : ∀ a b c, Pres (GKept g0) (x a b c) := ?_; clear_value x)
        | (have hx : ∀ a b, Pres (GKept g0) (x a b) := ?_; clear_value x)
        | (have hx : ∀ a, Pres (GKept g0) (x a) := ?_; clear_value x)
        | clear_value x)
    | (apply Pres_getS_bind; intro s0 hs0)
    | apply Pres_bind
    | apply Pres_pure
    | apply Pres_ite
    | intro _
    | apply_assumption
    | apply Pres_loop
    | apply Pres_iter
    | apply Pres_foldlM
    | apply Glob_gen
    | (apply Pres_modS; intro s hs; with_unfolding_all first | exact hs | exact GKept_restore _ s0 s hs0 hs | exact GKept_add _ s _ hs)
    | apply tok_jmp_glob
    | apply tok_expect_glob
    | apply struct_find_glob
    | apply hr.readdefs
    | exact hr
    | split
    | dsimp only)

theorem basetype_step_glob (g0 : State) (r : Rec) (hr : PresRec (GKept g0) r) (e : Env) (v : BaseVars) :
    Pres (GKept g0) (basetype_step e r v) := by
  unfold basetype_step
  repeat (with_reducible first
    | apply Pres_bind
    | apply Pres_pure
    | apply Pres_ite
    | intro _
    | apply Pres_loop
    | apply Pres_iter
    | apply Pres_foldlM
    | apply Glob_gen
    | (apply Pres_modS; intro s hs; with_unfolding_all first | exact hs | exact GKept_restore _ s0 s hs0 hs | exact GKept_add _ s _ hs)
    | apply Glob_tok_see
    | apply Glob_tok_get
    | apply Glob_tok_id
    | apply Glob_typedef_find
    | apply Pres_getS
    | apply tok_jmp_glob
    | apply struct_find_glob
    | apply enum_create_glob
    | apply struct_create_glob
    | exact hr
    | split
    | dsimp only)

theorem basetype_glob (g0 : State) (r : Rec) (hr : PresRec (GKept g0) r) (e : Env) (t0 : type) :
    Pres (GKept g0) (basetype e r t0) := by
  unfold basetype
  repeat (with_reducible first
    | ((first | lift_lets | skip); intro x; first
        | (have hx : ∀ a b c, Pres (GKept g0) (x a b c) := ?_; clear_value x)
        | (have hx : ∀ a b, Pres (GKept g0) (x a b) := ?_; clear_value x)
        | (have hx : ∀ a, Pres (GKept g0) (x a) := ?_; clear_value x)
        | clear_value x)
    | (apply Pres_getS_bind; intro s0 hs0)
    | apply Pres_bind
    | apply Pres_pure
    | apply Pres_ite
    | intro _
    | apply_assumption
    | apply Pres_loop
    | apply Pres_iter
    | apply Pres_foldlM
    | apply Glob_gen
    | (apply Pres_modS; intro s hs; with_unfolding_all first | exact hs | exact GKept_restore _ s0 s hs0 hs | exact GKept_add _ s _ hs)
    | apply basetype_step_glob
    | exact hr
    | split
    | dsimp only)

theorem readptrs_glob (g0 : State) (r : Rec) (t : type) :
    Pres (GKept g0) (readptrs r t) := by
  unfold readptrs
  repeat (with_reducible first
    | ((first | lift_lets | skip); intro x; first
        | (have hx : ∀ a b c, Pres (GKept g0) (x a b c) := ?_; clear_value x)
        | (have hx : ∀ a b, Pres (GKept g0) (x a b) := ?_; clear_value x)
        | (have hx : ∀ a, Pres (GKept g0) (x a) := ?_; clear_value x)
        | clear_value x)
    | (apply Pres_getS_bind; intro s0 hs0)
    | apply Pres_bind
    | apply Pres_pure
    | apply Pres_ite
    | intro _
    | apply_assumption
    | apply Pres_loop
    | apply Pres_iter
    | apply Pres_foldlM
    | apply Glob_gen
    | (apply Pres_modS; intro s hs; with_unfolding_all first | exact hs | exact GKept_restore _ s0 s hs0 hs | exact GKept_add _ s _ hs)
    | apply tok_jmp_glob
    | exact hr
    | split
    | dsimp only)

theorem readarrays_glob (g0 : State) (r : Rec) (hr : PresRec (GKept g0) r) (e : Env) (t : type) :
    Pres (GKept g0) (readarrays e r t) := by
  unfold readarrays
  repeat (with_reducible first
    | ((first | lift_lets | skip); intro x; first
        | (have hx : ∀ a b c, Pres (GKept g0) (x a b c) := ?_; clear_value x)
        | (have hx : ∀ a b, Pres (GKept g0) (x a b) := ?_; clear_value x)
        | (have hx : ∀ a, Pres (GKept g0) (x a) := ?_; clear_value x)
        | clear_value x)
    | (apply Pres_getS_bind; intro s0 hs0)
    | apply Pres_bind
    | apply Pres_pure
    | apply Pres_ite
    | intro _
    | apply_assumption
    | apply Pres_loop
    | apply Pres_iter
    | apply Pres_foldlM
    | apply Glob_gen
    | (apply Pres_modS; intro s hs; with_unfolding_all first | exact hs | exact GKept_restore _ s0 s hs0 hs | exact GKept_add _ s _ hs)
    | apply Glob_o_popnum
    | apply Pres_err
    | apply tok_jmp_glob
    | apply tok_expect_glob
    | apply ts_pop_de_glob
    | apply array_add_glob
    | apply hr.readexpr
    | exact hr
    | split
    | dsimp only)

theorem readargs_glob (g0 : State) (r : Rec) (hr : PresRec (GKept g0) r) (e : Env) :
    Pres (GKept g0) (readargs e r) := by
  unfold readargs
  repeat (with_reducible first
    | ((first | lift_lets | skip); intro x; first
        | (have hx : ∀ a b c, Pres (GKept g0) (x a b c) := ?_; clear_value x)
        | (have hx : ∀ a b, Pres (GKept g0) (x a b) := ?_; clear_value x)
        | (have hx : ∀ a, Pres (GKept g0) (x a) := ?_; clear_value x)
        | clear_value x)
    | (apply Pres_getS_bind; intro s0 hs0)
    | apply Pres_bind
    | apply Pres_pure
    | apply Pres_ite
    | intro _
    | apply_assumption
    | apply Pres_loop
    | apply Pres_iter
    | apply Pres_foldlM
    | apply Glob_gen
    | (apply Pres_modS; intro s hs; with_unfolding_all first | exact hs | exact GKept_restore _ s0 s hs0 hs | exact GKept_add _ s _ hs)
    | apply Glob_tok_see
    | apply Glob_tok_id
    | apply Pres_getS
    | apply tok_jmp_glob
    | apply tok_expect_glob
    | apply hr.readname
    | exact hr
    | split
    | dsimp only)

theorem setFuncType_glob (g0 : State) (e : Env) (cur : type) (loc : Option Nat) (fid : Nat) :
    Pres (GKept g0) (setFuncType e cur loc fid) := by
  unfold setFuncType
  repeat (with_reducible first
    | ((first | lift_lets | skip); intro x; first
        | (have hx : ∀ a b c, Pres (GKept g0) (x a b c) := ?_; clear_value x)
        | (have hx : ∀ a b, Pres (GKept g0) (x a b) := ?_; clear_value x)
        | (have hx : ∀ a, Pres (GKept g0) (x a) := ?_; clear_value x)
        | clear_value x)
    | (apply Pres_getS_bind; intro s0 hs0)
    | apply Pres_bind
    | apply Pres_pure
    | apply Pres_ite
    | intro _
    | apply_assumption
    | apply Pres_loop
    | apply Pres_iter
    | apply Pres_foldlM
    | apply Glob_gen
    | (apply Pres_modS; intro s hs; with_unfolding_all first | exact hs | exact GKept_restore _ s0 s hs0 hs | exact GKept_add _ s _ hs)
    | exact hr
    | split
    | dsimp only)

theorem readname_glob (g0 : State) (r : Rec) (hr : PresRec (GKept g0) r) (e : Env) (hn : Bool) (b : Option type) :
    Pres (GKept g0) (readname e r hn b) := by
  unfold readname
  repeat (with_reducible first
    | ((first | lift_lets | skip); intro x; first
        | (have hx : ∀ a b c, Pres (GKept g0) (x a b c) := ?_; clear_value x)
        | (have hx : ∀ a b, Pres (GKept g0) (x a b) := ?_; clear_value x)
        | (have hx : ∀ a, Pres (GKept g0) (x a) := ?_; clear_value x)
        | clear_value x)
    | (apply Pres_getS_bind; intro s0 hs0)
    | apply Pres_bind
    | apply Pres_pure
    | apply Pres_ite
    | intro _
    | apply_assumption
    | apply Pres_loop
    | apply Pres_iter
    | apply Pres_foldlM
    | apply Glob_gen
    | (apply Pres_modS; intro s hs; with_unfolding_all first | exact hs | exact GKept_restore _ s0 s hs0 hs | exact GKept_add _ s _ hs)
    | apply Glob_tok_see
    | apply Glob_tok_id
    | apply Pres_getS
    | apply tok_jmp_glob
    | apply tok_expect_glob
    | apply func_create_glob
    | apply basetype_glob
    | apply readptrs_glob
    | apply readarrays_glob
    | apply readargs_glob
    | apply setFuncType_glob
    | apply hr.readdefs
    | exact hr
    | split
    | dsimp only)

theorem readtype_glob (g0 : State) (r : Rec) (hr : PresRec (GKept g0) r) (e : Env) :
    Pres (GKept g0) (readtype e r) := by
  unfold readtype
  repeat (with_reducible first
    | ((first | lift_lets | skip); intro x; first
        | (have hx : ∀ a b c, Pres (GKept g0) (x a b c) := ?_; clear_value x)
        | (have hx : ∀ a b, Pres (GKept g0) (x a b) := ?_; clear_value x)
        | (have hx : ∀ a, Pres (GKept g0) (x a) := ?_; clear_value x)
        | clear_value x)
    | (apply Pres_getS_bind; intro s0 hs0)
    | apply Pres_bind
    | apply Pres_pure
    | apply Pres_ite
    | intro _
    | apply_assumption
    | apply Pres_loop
    | apply Pres_iter
    | apply Pres_foldlM
    | apply Glob_gen
    | (apply Pres_modS; intro s hs; with_unfolding_all first | exact hs | exact GKept_restore _ s0 s hs0 hs | exact GKept_add _ s _ hs)
    | apply readname_glob
    | exact hr
    | split
    | dsimp only)

theorem readprimary_glob (g0 : State) (r : Rec) (hr : PresRec (GKept g0) r) (e : Env) :
    Pres (GKept g0) (readprimary e r) := by
  unfold readprimary
  repeat (with_reducible first
    | ((first | lift_lets | skip); intro x; first
        | (have hx : ∀ a b c, Pres (GKept g0) (x a b c) := ?_; clear_value x)
        | (have hx : ∀ a b, Pres (GKept g0) (x a b) := ?_; clear_value x)
        | (have hx : ∀ a, Pres (GKept g0) (x a) := ?_; clear_value x)
        | clear_value x)
    | (apply Pres_getS_bind; intro s0 hs0)
    | apply Pres_bind
    | apply Pres_pure
    | apply Pres_ite
    | intro _
    | apply_assumption
    | apply Pres_loop
    | apply Pres_iter
    | apply Pres_foldlM
    | apply Glob_gen
    | (apply Pres_modS; intro s hs; with_unfolding_all first | exact hs | exact GKept_restore _ s0 s hs0 hs | exact GKept_add _ s _ hs)
    | apply Glob_tok_see
    | apply Glob_tok_id
    | apply Glob_tok_num
    | apply Glob_tok_str
    | apply Glob_ts_pop
    | apply Glob_local_find
    | apply Glob_global_find
    | apply Glob_enum_find
    | apply Pres_err
    | apply Pres_getS
    | apply Glob_o_cast
    | apply Glob_o_num
    | apply Glob_o_local
    | apply Glob_o_sym
    | apply Glob_o_tmpdrop
    | apply tok_jmp_glob
    | apply tok_expect_glob
    | apply ts_push_bt_glob
    | apply ts_push_glob
    | apply ts_push_addr_glob
    | apply ts_pop_de_glob
    | apply global_add_glob
    | apply array_add_glob
    | apply tmp_str_glob
    | apply o_sym_tmp_str_glob
    | apply readtype_glob
    | apply hr.readexpr
    | apply hr.readpre
    | exact hr
    | split
    | dsimp only)

theorem arrayderef_glob (g0 : State) (e : Env) :
    Pres (GKept g0) (arrayderef e) := by
  unfold arrayderef
  repeat (with_reducible first
    | ((first | lift_lets | skip); intro x; first
        | (have hx : ∀ a b c, Pres (GKept g0) (x a b c) := ?_; clear_value x)
        | (have hx : ∀ a b, Pres (GKept g0) (x a b) := ?_; clear_value x)
        | (have hx : ∀ a, Pres (GKept g0) (x a) := ?_; clear_value x)
        | clear_value x)
    | (apply Pres_getS_bind; intro s0 hs0)
    | apply Pres_bind
    | apply Pres_pure
    | apply Pres_ite
    | intro _
    | apply_assumption
    | apply Pres_loop
    | apply Pres_iter
    | apply Pres_foldlM
    | apply Glob_gen
    | (apply Pres_modS; intro s hs; with_unfolding_all first | exact hs | exact GKept_restore _ s0 s hs0 hs | exact GKept_add _ s _ hs)
    | apply Glob_type_totsz
    | apply Glob_ts_pop
    | apply Pres_getS
    | apply Glob_o_bop
    | apply Glob_o_deref
    | apply Glob_o_num
    | apply Glob_o_tmpswap
    | apply ts_push_glob
    | apply ts_pop_de_glob
    | exact hr
    | split
    | dsimp only)

theorem inc_post_glob (g0 : State) (e : Env) (op : Op) :
    Pres (GKept g0) (inc_post e op) := by
  unfold inc_post
  repeat (with_reducible first
    | ((first | lift_lets | skip); intro x; first
        | (have hx : ∀ a b c, Pres (GKept g0) (x a b c) := ?_; clear_value x)
        | (have hx : ∀ a b, Pres (GKept g0) (x a b) := ?_; clear_value x)
        | (have hx : ∀ a, Pres (GKept g0) (x a) := ?_; clear_value x)
        | clear_value x)
    | (apply Pres_getS_bind; intro s0 hs0)
    | apply Pres_bind
    | apply Pres_pure
    | apply Pres_ite
    | intro _
    | apply_assumption
    | apply Pres_loop
    | apply Pres_iter
    | apply Pres_foldlM
    | apply Glob_gen
    | (apply Pres_modS; intro s hs; with_unfolding_all first | exact hs | exact GKept_restore _ s0 s hs0 hs | exact GKept_add _ s _ hs)
    | apply Glob_type_szde
    | apply Pres_ub
    | apply Pres_getS
    | apply Glob_o_bop
    | apply Glob_o_assign
    | apply Glob_o_load
    | apply Glob_o_num
    | apply Glob_o_tmpdrop
    | apply Glob_o_tmpswap
    | apply Glob_o_tmpcopy
    | apply ts_push_glob
    | apply ts_de_glob
    | apply ts_pop_de_glob
    | exact hr
    | split
    | dsimp only)

theorem readfield_glob (g0 : State)  :
    Pres (GKept g0) (readfield) := by
  unfold readfield
  repeat (with_reducible first
    | ((first | lift_lets | skip); intro x; first
        | (have hx : ∀ a b c, Pres (GKept g0) (x a b c) := ?_; clear_value x)
        | (have hx : ∀ a b, Pres (GKept g0) (x a b) := ?_; clear_value x)
        | (have hx : ∀ a, Pres (GKept g0) (x a) := ?_; clear_value x)
        | clear_value x)
    | (apply Pres_getS_bind; intro s0 hs0)
    | apply Pres_bind
    | apply Pres_pure
    | apply Pres_ite
    | intro _
    | apply_assumption
    | apply Pres_loop
    | apply Pres_iter
    | apply Pres_foldlM
    | apply Glob_gen
    | (apply Pres_modS; intro s hs; with_unfolding_all first | exact hs | exact GKept_restore _ s0 s hs0 hs | exact GKept_add _ s _ hs)
    | apply Glob_tok_id
    | apply Glob_ts_pop
    | apply Pres_getS
    | apply Glob_o_bop
    | apply Glob_o_num
    | apply tok_expect_glob
    | apply ts_push_addr_glob
    | apply struct_field_glob
    | exact hr
    | split
    | dsimp only)

theorem readcall_glob (g0 : State) (r : Rec) (hr : PresRec (GKept g0) r) (e : Env) :
    Pres (GKept g0) (readcall e r) := by
  unfold readcall
  repeat (with_reducible first
    | ((first | lift_lets | skip); intro x; first
        | (have hx : ∀ a b c, Pres (GKept g0) (x a b c) := ?_; clear_value x)
        | (have hx : ∀ a b, Pres (GKept g0) (x a b) := ?_; clear_value x)
        | (have hx : ∀ a, Pres (GKept g0) (x a) := ?_; clear_value x)
        | clear_value x)
    | (apply Pres_getS_bind; intro s0 hs0)
    | apply Pres_bind
    | apply Pres_pure
    | apply Pres_ite
    | intro _
    | apply_assumption
    | apply Pres_loop
    | apply Pres_iter
    | apply Pres_foldlM
    | apply Glob_gen
    | (apply Pres_modS; intro s hs; with_unfolding_all first | exact hs | exact GKept_restore _ s0 s hs0 hs | exact GKept_add _ s _ hs)
    | apply Glob_tok_see
    | apply Glob_ts_pop
    | apply Pres_getS
    | apply Glob_o_cast
    | apply Glob_o_call
    | apply Glob_o_deref
    | apply tok_jmp_glob
    | apply tok_expect_glob
    | apply ts_push_bt_glob
    | apply ts_push_glob
    | apply ts_pop_de_glob
    | apply hr.readexpr
    | exact hr
    | split
    | dsimp only)

theorem readpost_glob (g0 : State) (r : Rec) (hr : PresRec (GKept g0) r) (e : Env) :
    Pres (GKept g0) (readpost e r) := by
  unfold readpost
  repeat (with_reducible first
    | ((first | lift_lets | skip); intro x; first
        | (have hx : ∀ a b c, Pres (GKept g0) (x a b c) := ?_; clear_value x)
        | (have hx : ∀ a b, Pres (GKept g0) (x a b) := ?_; clear_value x)
        | (have hx : ∀ a, Pres (GKept g0) (x a) := ?_; clear_value x)
        | clear_value x)
    | (apply Pres_getS_bind; intro s0 hs0)
    | apply Pres_bind
    | apply Pres_pure
    | apply Pres_ite
    | intro _
    | apply_assumption
    | apply Pres_loop
    | apply Pres_iter
    | apply Pres_foldlM
    | apply Glob_gen
    | (apply Pres_modS; intro s hs; with_unfolding_all first | exact hs | exact GKept_restore _ s0 s hs0 hs | exact GKept_add _ s _ hs)
    | apply tok_jmp_glob
    | apply tok_expect_glob
    | apply ts_de_glob
    | apply readprimary_glob
    | apply arrayderef_glob
    | apply inc_post_glob
    | apply readfield_glob
    | apply readcall_glob
    | apply hr.readexpr
    | exact hr
    | split
    | dsimp only)

theorem inc_pre_glob (g0 : State) (r : Rec) (hr : PresRec (GKept g0) r) (e : Env) (op : Op) :
    Pres (GKept g0) (inc_pre e r op) := by
  unfold inc_pre
  repeat (with_reducible first
    | ((first | lift_lets | skip); intro x; first
        | (have hx : ∀ a b c, Pres (GKept g0) (x a b c) := ?_; clear_value x)
        | (have hx : ∀ a b, Pres (GKept g0) (x a b) := ?_; clear_value x)
        | (have hx : ∀ a, Pres (GKept g0) (x a) := ?_; clear_value x)
        | clear_value x)
    | (apply Pres_getS_bind; intro s0 hs0)
    | apply Pres_bind
    | apply Pres_pure
    | apply Pres_ite
    | intro _
    | apply_assumption
    | apply Pres_loop
    | apply Pres_iter
    | apply Pres_foldlM
    | apply Glob_gen
    | (apply Pres_modS; intro s hs; with_unfolding_all first | exact hs | exact GKept_restore _ s0 s hs0 hs | exact GKept_add _ s _ hs)
    | apply Glob_type_szde
    | apply Pres_ub
    | apply Pres_getS
    | apply Glob_o_bop
    | apply Glob_o_assign
    | apply Glob_o_num
    | apply Glob_o_tmpcopy
    | apply ts_push_glob
    | apply ts_de_glob
    | apply ts_pop_de_glob
    | apply hr.readpre
    | exact hr
    | split
    | dsimp only)

theorem nogen_inc_glob (g0 : State)  :
    Pres (GKept g0) (nogen_inc) := by
  unfold nogen_inc
  repeat (with_reducible first
    | ((first | lift_lets | skip); intro x; first
        | (have hx : ∀ a b c, Pres (GKept g0) (x a b c) := ?_; clear_value x)
        | (have hx : ∀ a b, Pres (GKept g0) (x a b) := ?_; clear_value x)
        | (have hx : ∀ a, Pres (GKept g0) (x a) := ?_; clear_value x)
        | clear_value x)
    | (apply Pres_getS_bind; intro s0 hs0)
    | apply Pres_bind
    | apply Pres_pure
    | apply Pres_ite
    | intro _
    | apply_assumption
    | apply Pres_loop
    | apply Pres_iter
    | apply Pres_foldlM
    | apply Glob_gen
    | (apply Pres_modS; intro s hs; with_unfolding_all first | exact hs | exact GKept_restore _ s0 s hs0 hs | exact GKept_add _ s _ hs)
    | exact hr
    | split
    | dsimp only)

theorem nogen_dec_glob (g0 : State)  :
    Pres (GKept g0) (nogen_dec) := by
  unfold nogen_dec
  repeat (with_reducible first
    | ((first | lift_lets | skip); intro x; first
        | (have hx : ∀ a b c, Pres (GKept g0) (x a b c) := ?_; clear_value x)
        | (have hx : ∀ a b, Pres (GKept g0) (x a b) := ?_; clear_value x)
        | (have hx : ∀ a, Pres (GKept g0) (x a) := ?_; clear_value x)
        | clear_value x)
    | (apply Pres_getS_bind; intro s0 hs0)
    | apply Pres_bind
    | apply Pres_pure
    | apply Pres_ite
    | intro _
    | apply_assumption
    | apply Pres_loop
    | apply Pres_iter
    | apply Pres_foldlM
    | apply Glob_gen
    | (apply Pres_modS; intro s hs; with_unfolding_all first | exact hs | exact GKept_restore _ s0 s hs0 hs | exact GKept_add _ s _ hs)
    | exact hr
    | split
    | dsimp only)

theorem readpre_glob (g0 : State) (r : Rec) (hr : PresRec (GKept g0) r) (e : Env) :
    Pres (GKept g0) (readpre e r) := by
  unfold readpre
  repeat (with_reducible first
    | ((first | lift_lets | skip); intro x; first
        | (have hx : ∀ a b c, Pres (GKept g0) (x a b c) := ?_; clear_value x)
        | (have hx : ∀ a b, Pres (GKept g0) (x a b) := ?_; clear_value x)
        | (have hx : ∀ a, Pres (GKept g0) (x a) := ?_; clear_value x)
        | clear_value x)
    | (apply Pres_getS_bind; intro s0 hs0)
    | apply Pres_bind
    | apply Pres_pure
    | apply Pres_ite
    | intro _
    | apply_assumption
    | apply Pres_loop
    | apply Pres_iter
    | apply Pres_foldlM
    | apply Glob_gen
    | (apply Pres_modS; intro s hs; with_unfolding_all first | exact hs | exact GKept_restore _ s0 s hs0 hs | exact GKept_add _ s _ hs)
    | apply Glob_type_totsz
    | apply Glob_ts_pop
    | apply Pres_err
    | apply Pres_getS
    | apply Glob_o_uop
    | apply Glob_o_deref
    | apply Glob_o_num
    | apply tok_jmp_glob
    | apply tok_expect_glob
    | apply ts_push_bt_glob
    | apply ts_push_glob
    | apply ts_de_glob
    | apply ts_pop_de_glob
    | apply readtype_glob
    | apply readpost_glob
    | apply inc_pre_glob
    | apply nogen_inc_glob
    | apply nogen_dec_glob
    | apply hr.readexpr
    | apply hr.readpre
    | exact hr
    | split
    | dsimp only)

theorem readmul_glob (g0 : State) (r : Rec) (hr : PresRec (GKept g0) r) (e : Env) :
    Pres (GKept g0) (readmul e r) := by
  unfold readmul
  repeat (with_reducible first
    | ((first | lift_lets | skip); intro x; first
        | (have hx : ∀ a b c, Pres (GKept g0) (x a b c) := ?_; clear_value x)
        | (have hx : ∀ a b, Pres (GKept g0) (x a b) := ?_; clear_value x)
        | (have hx : ∀ a, Pres (GKept g0) (x a) := ?_; clear_value x)
        | clear_value x)
    | (apply Pres_getS_bind; intro s0 hs0)
    | apply Pres_bind
    | apply Pres_pure
    | apply Pres_ite
    | intro _
    | apply_assumption
    | apply Pres_loop
    | apply Pres_iter
    | apply Pres_foldlM
    | apply Glob_gen
    | (apply Pres_modS; intro s hs; with_unfolding_all first | exact hs | exact GKept_restore _ s0 s hs0 hs | exact GKept_add _ s _ hs)
    | apply tok_jmp_glob
    | apply ts_binop_glob
    | apply readpre_glob
    | exact hr
    | split
    | dsimp only)

theorem readadd_glob (g0 : State) (r : Rec) (hr : PresRec (GKept g0) r) (e : Env) :
    Pres (GKept g0) (readadd e r) := by
  unfold readadd
  repeat (with_reducible first
    | ((first | lift_lets | skip); intro x; first
        | (have hx : ∀ a b c, Pres (GKept g0) (x a b c) := ?_; clear_value x)
        | (have hx : ∀ a b, Pres (GKept g0) (x a b) := ?_; clear_value x)
        | (have hx : ∀ a, Pres (GKept g0) (x a) := ?_; clear_value x)
        | clear_value x)
    | (apply Pres_getS_bind; intro s0 hs0)
    | apply Pres_bind
    | apply Pres_pure
    | apply Pres_ite
    | intro _
    | apply_assumption
    | apply Pres_loop
    | apply Pres_iter
    | apply Pres_foldlM
    | apply Glob_gen
    | (apply Pres_modS; intro s hs; with_unfolding_all first | exact hs | exact GKept_restore _ s0 s hs0 hs | exact GKept_add _ s _ hs)
    | apply tok_jmp_glob
    | apply ts_addop_glob
    | apply readmul_glob
    | exact hr
    | split
    | dsimp only)

theorem shift_glob (g0 : State) (r : Rec) (hr : PresRec (GKept g0) r) (e : Env) (op : Op) :
    Pres (GKept g0) (shift e r op) := by
  unfold shift
  repeat (with_reducible first
    | ((first | lift_lets | skip); intro x; first
        | (have hx : ∀ a b c, Pres (GKept g0) (x a b c) := ?_; clear_value x)
        | (have hx : ∀ a b, Pres (GKept g0) (x a b) := ?_; clear_value x)
        | (have hx : ∀ a, Pres (GKept g0) (x a) := ?_; clear_value x)
        | clear_value x)
    | (apply Pres_getS_bind; intro s0 hs0)
    | apply Pres_bind
    | apply Pres_pure
    | apply Pres_ite
    | intro _
    | apply_assumption
    | apply Pres_loop
    | apply Pres_iter
    | apply Pres_foldlM
    | apply Glob_gen
    | (apply Pres_modS; intro s hs; with_unfolding_all first | exact hs | exact GKept_restore _ s0 s hs0 hs | exact GKept_add _ s _ hs)
    | apply Glob_o_bop
    | apply ts_push_bt_glob
    | apply ts_pop_de2_glob
    | apply readadd_glob
    | exact hr
    | split
    | dsimp only)

theorem readshift_glob (g0 : State) (r : Rec) (hr : PresRec (GKept g0) r) (e : Env) :
    Pres (GKept g0) (readshift e r) := by
  unfold readshift
  repeat (with_reducible first
    | ((first | lift_lets | skip); intro x; first
        | (have hx : ∀ a b c, Pres (GKept g0) (x a b c) := ?_; clear_value x)
        | (have hx : ∀ a b, Pres (GKept g0) (x a b) := ?_; clear_value x)
        | (have hx : ∀ a, Pres (GKept g0) (x a) := ?_; clear_value x)
        | clear_value x)
    | (apply Pres_getS_bind; intro s0 hs0)
    | apply Pres_bind
    | apply Pres_pure
    | apply Pres_ite
    | intro _
    | apply_assumption
    | apply Pres_loop
    | apply Pres_iter
    | apply Pres_foldlM
    | apply Glob_gen
    | (apply Pres_modS; intro s hs; with_unfolding_all first | exact hs | exact GKept_restore _ s0 s hs0 hs | exact GKept_add _ s _ hs)
    | apply tok_jmp_glob
    | apply readadd_glob
    | apply shift_glob
    | exact hr
    | split
    | dsimp only)

theorem cmp_glob (g0 : State) (r : Rec) (hr : PresRec (GKept g0) r) (e : Env) (op : Op) :
    Pres (GKept g0) (cmp e r op) := by
  unfold cmp
  repeat (with_reducible first
    | ((first | lift_lets | skip); intro x; first
        | (have hx : ∀ a b c, Pres (GKept g0) (x a b c) := ?_; clear_value x)
        | (have hx : ∀ a b, Pres (GKept g0) (x a b) := ?_; clear_value x)
        | (have hx : ∀ a, Pres (GKept g0) (x a) := ?_; clear_value x)
        | clear_value x)
    | (apply Pres_getS_bind; intro s0 hs0)
    | apply Pres_bind
    | apply Pres_pure
    | apply Pres_ite
    | intro _
    | apply_assumption
    | apply Pres_loop
    | apply Pres_iter
    | apply Pres_foldlM
    | apply Glob_gen
    | (apply Pres_modS; intro s hs; with_unfolding_all first | exact hs | exact GKept_restore _ s0 s hs0 hs | exact GKept_add _ s _ hs)
    | apply Glob_o_bop
    | apply ts_push_bt_glob
    | apply ts_pop_de2_glob
    | apply readshift_glob
    | exact hr
    | split
    | dsimp only)

theorem readcmp_glob (g0 : State) (r : Rec) (hr : PresRec (GKept g0) r) (e : Env) :
    Pres (GKept g0) (readcmp e r) := by
  unfold readcmp
  repeat (with_reducible first
    | ((first | lift_lets | skip); intro x; first
        | (have hx : ∀ a b c, Pres (GKept g0) (x a b c) := ?_; clear_value x)
        | (have hx : ∀ a b, Pres (GKept g0) (x a b) := ?_; clear_value x)
        | (have hx : ∀ a, Pres (GKept g0) (x a) := ?_; clear_value x)
        | clear_value x)
    | (apply Pres_getS_bind; intro s0 hs0)
    | apply Pres_bind
    | apply Pres_pure
    | apply Pres_ite
    | intro _
    | apply_assumption
    | apply Pres_loop
    | apply Pres_iter
    | apply Pres_foldlM
    | apply Glob_gen
    | (apply Pres_modS; intro s hs; with_unfolding_all first | exact hs | exact GKept_restore _ s0 s hs0 hs | exact GKept_add _ s _ hs)
    | apply tok_jmp_glob
    | apply readshift_glob
    | apply cmp_glob
    | exact hr
    | split
    | dsimp only)

theorem eq_glob (g0 : State) (r : Rec) (hr : PresRec (GKept g0) r) (e : Env) (op : Op) :
    Pres (GKept g0) (eq e r op) := by
  unfold eq
  repeat (with_reducible first
    | ((first | lift_lets | skip); intro x; first
        | (have hx : ∀ a b c, Pres (GKept g0) (x a b c) := ?_; clear_value x)
        | (have hx : ∀ a b, Pres (GKept g0) (x a b) := ?_; clear_value x)
        | (have hx : ∀ a, Pres (GKept g0) (x a) := ?_; clear_value x)
        | clear_value x)
    | (apply Pres_getS_bind; intro s0 hs0)
    | apply Pres_bind
    | apply Pres_pure
    | apply Pres_ite
    | intro _
    | apply_assumption
    | apply Pres_loop
    | apply Pres_iter
    | apply Pres_foldlM
    | apply Glob_gen
    | (apply Pres_modS; intro s hs; with_unfolding_all first | exact hs | exact GKept_restore _ s0 s hs0 hs | exact GKept_add _ s _ hs)
    | apply Glob_o_bop
    | apply ts_push_bt_glob
    | apply ts_pop_de2_glob
    | apply readcmp_glob
    | exact hr
    | split
    | dsimp only)

theorem readeq_glob (g0 : State) (r : Rec) (hr : PresRec (GKept g0) r) (e : Env) :
    Pres (GKept g0) (readeq e r) := by
  unfold readeq
  repeat (with_reducible first
    | ((first | lift_lets | skip); intro x; first
        | (have hx : ∀ a b c, Pres (GKept g0) (x a b c) := ?_; clear_value x)
        | (have hx : ∀ a b, Pres (GKept g0) (x a b) := ?_; clear_value x)
        | (have hx : ∀ a, Pres (GKept g0) (x a) := ?_; clear_value x)
        | clear_value x)
    | (apply Pres_getS_bind; intro s0 hs0)
    | apply Pres_bind
    | apply Pres_pure
    | apply Pres_ite
    | intro _
    | apply_assumption
    | apply Pres_loop
    | apply Pres_iter
    | apply Pres_foldlM
    | apply Glob_gen
    | (apply Pres_modS; intro s hs; with_unfolding_all first | exact hs | exact GKept_restore _ s0 s hs0 hs | exact GKept_add _ s _ hs)
    | apply tok_jmp_glob
    | apply readcmp_glob
    | apply eq_glob
    | exact hr
    | split
    | dsimp only)

theorem readbitand_glob (g0 : State) (r : Rec) (hr : PresRec (GKept g0) r) (e : Env) :
    Pres (GKept g0) (readbitand e r) := by
  unfold readbitand
  repeat (with_reducible first
    | ((first | lift_lets | skip); intro x; first
        | (have hx : ∀ a b c, Pres (GKept g0) (x a b c) := ?_; clear_value x)
        | (have hx : ∀ a b, Pres (GKept g0) (x a b) := ?_; clear_value x)
        | (have hx : ∀ a, Pres (GKept g0) (x a) := ?_; clear_value x)
        | clear_value x)
    | (apply Pres_getS_bind; intro s0 hs0)
    | apply Pres_bind
    | apply Pres_pure
    | apply Pres_ite
    | intro _
    | apply_assumption
    | apply Pres_loop
    | apply Pres_iter
    | apply Pres_foldlM
    | apply Glob_gen
    | (apply Pres_modS; intro s hs; with_unfolding_all first | exact hs | exact GKept_restore _ s0 s hs0 hs | exact GKept_add _ s _ hs)
    | apply tok_jmp_glob
    | apply ts_binop_glob
    | apply readeq_glob
    | exact hr
    | split
    | dsimp only)

theorem readxor_glob (g0 : State) (r : Rec) (hr : PresRec (GKept g0) r) (e : Env) :
    Pres (GKept g0) (readxor e r) := by
  unfold readxor
  repeat (with_reducible first
    | ((first | lift_lets | skip); intro x; first
        | (have hx : ∀ a b c, Pres (GKept g0) (x a b c) := ?_; clear_value x)
        | (have hx : ∀ a b, Pres (GKept g0) (x a b) := ?_; clear_value x)
        | (have hx : ∀ a, Pres (GKept g0) (x a) := ?_; clear_value x)
        | clear_value x)
    | (apply Pres_getS_bind; intro s0 hs0)
    | apply Pres_bind
    | apply Pres_pure
    | apply Pres_ite
    | intro _
    | apply_assumption
    | apply Pres_loop
    | apply Pres_iter
    | apply Pres_foldlM
    | apply Glob_gen
    | (apply Pres_modS; intro s hs; with_unfolding_all first | exact hs | exact GKept_restore _ s0 s hs0 hs | exact GKept_add _ s _ hs)
    | apply tok_jmp_glob
    | apply ts_binop_glob
    | apply readbitand_glob
    | exact hr
    | split
    | dsimp only)

theorem readbitor_glob (g0 : State) (r : Rec) (hr : PresRec (GKept g0) r) (e : Env) :
    Pres (GKept g0) (readbitor e r) := by
  unfold readbitor
  repeat (with_reducible first
    | ((first | lift_lets | skip); intro x; first
        | (have hx : ∀ a b c, Pres (GKept g0) (x a b c) := ?_; clear_value x)
        | (have hx : ∀ a b, Pres (GKept g0) (x a b) := ?_; clear_value x)
        | (have hx : ∀ a, Pres (GKept g0) (x a) := ?_; clear_value x)
        | clear_value x)
    | (apply Pres_getS_bind; intro s0 hs0)
    | apply Pres_bind
    | apply Pres_pure
    | apply Pres_ite
    | intro _
    | apply_assumption
    | apply Pres_loop
    | apply Pres_iter
    | apply Pres_foldlM
    | apply Glob_gen
    | (apply Pres_modS; intro s hs; with_unfolding_all first | exact hs | exact GKept_restore _ s0 s hs0 hs | exact GKept_add _ s _ hs)
    | apply tok_jmp_glob
    | apply ts_binop_glob
    | apply readxor_glob
    | exact hr
    | split
    | dsimp only)

theorem readand_glob (g0 : State) (r : Rec) (hr : PresRec (GKept g0) r) (e : Env) :
    Pres (GKept g0) (readand e r) := by
  unfold readand
  repeat (with_reducible first
    | ((first | lift_lets | skip); intro x; first
        | (have hx : ∀ a b c, Pres (GKept g0) (x a b c) := ?_; clear_value x)
        | (have hx : ∀ a b, Pres (GKept g0) (x a b) := ?_; clear_value x)
        | (have hx : ∀ a, Pres (GKept g0) (x a) := ?_; clear_value x)
        | clear_value x)
    | (apply Pres_getS_bind; intro s0 hs0)
    | apply Pres_bind
    | apply Pres_pure
    | apply Pres_ite
    | intro _
    | apply_assumption
    | apply Pres_loop
    | apply Pres_iter
    | apply Pres_foldlM
    | apply Glob_gen
    | (apply Pres_modS; intro s hs; with_unfolding_all first | exact hs | exact GKept_restore _ s0 s hs0 hs | exact GKept_add _ s _ hs)
    | apply Glob_tok_see
    | apply Glob_LABEL
    | apply Glob_o_num
    | apply Glob_o_label
    | apply Glob_o_jz
    | apply Glob_o_jmp
    | apply Glob_o_fork
    | apply Glob_o_forkpush
    | apply Glob_o_forkjoin
    | apply tok_jmp_glob
    | apply ts_push_bt_glob
    | apply ts_pop_de_glob
    | apply readbitor_glob
    | exact hr
    | split
    | dsimp only)

theorem reador_glob (g0 : State) (r : Rec) (hr : PresRec (GKept g0) r) (e : Env) :
    Pres (GKept g0) (reador e r) := by
  unfold reador
  repeat (with_reducible first
    | ((first | lift_lets | skip); intro x; first
        | (have hx : ∀ a b c, Pres (GKept g0) (x a b c) := ?_; clear_value x)
        | (have hx : ∀ a b, Pres (GKept g0) (x a b) := ?_; clear_value x)
        | (have hx : ∀ a, Pres (GKept g0) (x a) := ?_; clear_value x)
        | clear_value x)
    | (apply Pres_getS_bind; intro s0 hs0)
    | apply Pres_bind
    | apply Pres_pure
    | apply Pres_ite
    | intro _
    | apply_assumption
    | apply Pres_loop
    | apply Pres_iter
    | apply Pres_foldlM
    | apply Glob_gen
    | (apply Pres_modS; intro s hs; with_unfolding_all first | exact hs | exact GKept_restore _ s0 s hs0 hs | exact GKept_add _ s _ hs)
    | apply Glob_tok_see
    | apply Glob_LABEL
    | apply Glob_o_num
    | apply Glob_o_label
    | apply Glob_o_jnz
    | apply Glob_o_jmp
    | apply Glob_o_fork
    | apply Glob_o_forkpush
    | apply Glob_o_forkjoin
    | apply tok_jmp_glob
    | apply ts_push_bt_glob
    | apply ts_pop_de_glob
    | apply readand_glob
    | exact hr
    | split
    | dsimp only)

theorem readcexpr_const_glob (g0 : State) (r : Rec) (hr : PresRec (GKept g0) r) (e : Env) :
    Pres (GKept g0) (readcexpr_const e r) := by
  unfold readcexpr_const
  repeat (with_reducible first
    | ((first | lift_lets | skip); intro x; first
        | (have hx : ∀ a b c, Pres (GKept g0) (x a b c) := ?_; clear_value x)
        | (have hx : ∀ a b, Pres (GKept g0) (x a b) := ?_; clear_value x)
        | (have hx : ∀ a, Pres (GKept g0) (x a) := ?_; clear_value x)
        | clear_value x)
    | (apply Pres_getS_bind; intro s0 hs0)
    | apply Pres_bind
    | apply Pres_pure
    | apply Pres_ite
    | intro _
    | apply_assumption
    | apply Pres_loop
    | apply Pres_iter
    | apply Pres_foldlM
    | apply Glob_gen
    | (apply Pres_modS; intro s hs; with_unfolding_all first | exact hs | exact GKept_restore _ s0 s hs0 hs | exact GKept_add _ s _ hs)
    | apply Glob_o_popnum
    | apply tok_expect_glob
    | apply ts_de_glob
    | apply ts_pop_de_glob
    | apply nogen_inc_glob
    | apply nogen_dec_glob
    | apply hr.readcexpr
    | exact hr
    | split
    | dsimp only)

theorem readcexpr_glob (g0 : State) (r : Rec) (hr : PresRec (GKept g0) r) (e : Env) :
    Pres (GKept g0) (readcexpr e r) := by
  unfold readcexpr
  repeat (with_reducible first
    | ((first | lift_lets | skip); intro x; first
        | (have hx : ∀ a b c, Pres (GKept g0) (x a b c) := ?_; clear_value x)
        | (have hx : ∀ a b, Pres (GKept g0) (x a b) := ?_; clear_value x)
        | (have hx : ∀ a, Pres (GKept g0) (x a) := ?_; clear_value x)
        | clear_value x)
    | (apply Pres_getS_bind; intro s0 hs0)
    | apply Pres_bind
    | apply Pres_pure
    | apply Pres_ite
    | intro _
    | apply_assumption
    | apply Pres_loop
    | apply Pres_iter
    | apply Pres_foldlM
    | apply Glob_gen
    | (apply Pres_modS; intro s hs; with_unfolding_all first | exact hs | exact GKept_restore _ s0 s hs0 hs | exact GKept_add _ s _ hs)
    | apply Glob_LABEL
    | apply Glob_o_label
    | apply Glob_o_jz
    | apply Glob_o_jmp
    | apply Glob_o_fork
    | apply Glob_o_forkpush
    | apply Glob_o_forkjoin
    | apply tok_jmp_glob
    | apply tok_expect_glob
    | apply ts_de_glob
    | apply ts_pop_de_glob
    | apply reador_glob
    | apply readcexpr_const_glob
    | apply hr.readcexpr
    | exact hr
    | split
    | dsimp only)

theorem opassign_glob (g0 : State) (r : Rec) (hr : PresRec (GKept g0) r) (e : Env) (op : Op) (p : Int) :
    Pres (GKept g0) (opassign e r op p) := by
  unfold opassign
  repeat (with_reducible first
    | ((first | lift_lets | skip); intro x; first
        | (have hx : ∀ a b c, Pres (GKept g0) (x a b c) := ?_; clear_value x)
        | (have hx : ∀ a b, Pres (GKept g0) (x a b) := ?_; clear_value x)
        | (have hx : ∀ a, Pres (GKept g0) (x a) := ?_; clear_value x)
        | clear_value x)
    | (apply Pres_getS_bind; intro s0 hs0)
    | apply Pres_bind
    | apply Pres_pure
    | apply Pres_ite
    | intro _
    | apply_assumption
    | apply Pres_loop
    | apply Pres_iter
    | apply Pres_foldlM
    | apply Glob_gen
    | (apply Pres_modS; intro s hs; with_unfolding_all first | exact hs | exact GKept_restore _ s0 s hs0 hs | exact GKept_add _ s _ hs)
    | apply Glob_ts_pop
    | apply Pres_ub
    | apply Pres_getS
    | apply Glob_o_assign
    | apply Glob_o_tmpcopy
    | apply ts_push_glob
    | apply ts_de_glob
    | apply ts_binop_glob
    | apply ts_addop_glob
    | apply hr.readexpr
    | exact hr
    | split
    | dsimp only)

theorem doassign_glob (g0 : State) (e : Env) :
    Pres (GKept g0) (doassign e) := by
  unfold doassign
  repeat (with_reducible first
    | ((first | lift_lets | skip); intro x; first
        | (have hx : ∀ a b c, Pres (GKept g0) (x a b c) := ?_; clear_value x)
        | (have hx : ∀ a b, Pres (GKept g0) (x a b) := ?_; clear_value x)
        | (have hx : ∀ a, Pres (GKept g0) (x a) := ?_; clear_value x)
        | clear_value x)
    | (apply Pres_getS_bind; intro s0 hs0)
    | apply Pres_bind
    | apply Pres_pure
    | apply Pres_ite
    | intro _
    | apply_assumption
    | apply Pres_loop
    | apply Pres_iter
    | apply Pres_foldlM
    | apply Glob_gen
    | (apply Pres_modS; intro s hs; with_unfolding_all first | exact hs | exact GKept_restore _ s0 s hs0 hs | exact GKept_add _ s _ hs)
    | apply Glob_type_totsz
    | apply Glob_ts_pop
    | apply Pres_ub
    | apply Pres_getS
    | apply Glob_o_memcpy
    | apply Glob_o_assign
    | apply Glob_o_num
    | apply ts_de_glob
    | apply ts_pop_de_glob
    | exact hr
    | split
    | dsimp only)

theorem readexpr_glob (g0 : State) (r : Rec) (hr : PresRec (GKept g0) r) (e : Env) :
    Pres (GKept g0) (readexpr e r) := by
  unfold readexpr
  repeat (with_reducible first
    | ((first | lift_lets | skip); intro x; first
        | (have hx : ∀ a b c, Pres (GKept g0) (x a b c) := ?_; clear_value x)
        | (have hx : ∀ a b, Pres (GKept g0) (x a b) := ?_; clear_value x)
        | (have hx : ∀ a, Pres (GKept g0) (x a) := ?_; clear_value x)
        | clear_value x)
    | (apply Pres_getS_bind; intro s0 hs0)
    | apply Pres_bind
    | apply Pres_pure
    | apply Pres_ite
    | intro _
    | apply_assumption
    | apply Pres_loop
    | apply Pres_iter
    | apply Pres_foldlM
    | apply Glob_gen
    | (apply Pres_modS; intro s hs; with_unfolding_all first | exact hs | exact GKept_restore _ s0 s hs0 hs | exact GKept_add _ s _ hs)
    | apply tok_jmp_glob
    | apply readcexpr_glob
    | apply opassign_glob
    | apply doassign_glob
    | apply hr.readexpr
    | exact hr
    | split
    | dsimp only)

theorem readestmt_glob (g0 : State) (r : Rec) (hr : PresRec (GKept g0) r) (e : Env) :
    Pres (GKept g0) (readestmt e r) := by
  unfold readestmt
  repeat (with_reducible first
    | ((first | lift_lets | skip); intro x; first
        | (have hx : ∀ a b c, Pres (GKept g0) (x a b c) := ?_; clear_value x)
        | (have hx : ∀ a b, Pres (GKept g0) (x a b) := ?_; clear_value x)
        | (have hx : ∀ a, Pres (GKept g0) (x a) := ?_; clear_value x)
        | clear_value x)
    | (apply Pres_getS_bind; intro s0 hs0)
    | apply Pres_bind
    | apply Pres_pure
    | apply Pres_ite
    | intro _
    | apply_assumption
    | apply Pres_loop
    | apply Pres_iter
    | apply Pres_foldlM
    | apply Glob_gen
    | (apply Pres_modS; intro s hs; with_unfolding_all first | exact hs | exact GKept_restore _ s0 s hs0 hs | exact GKept_add _ s _ hs)
    | apply Glob_o_tmpdrop
    | apply tok_jmp_glob
    | apply readexpr_glob
    | exact hr
    | split
    | dsimp only)

theorem jumpbrace_glob (g0 : State) (r : Rec)  :
    Pres (GKept g0) (jumpbrace r) := by
  unfold jumpbrace
  repeat (with_reducible first
    | ((first | lift_lets | skip); intro x; first
        | (have hx : ∀ a b c, Pres (GKept g0) (x a b c) := ?_; clear_value x)
        | (have hx : ∀ a b, Pres (GKept g0) (x a b) := ?_; clear_value x)
        | (have hx : ∀ a, Pres (GKept g0) (x a) := ?_; clear_value x)
        | clear_value x)
    | (apply Pres_getS_bind; intro s0 hs0)
    | apply Pres_bind
    | apply Pres_pure
    | apply Pres_ite
    | intro _
    | apply_assumption
    | apply Pres_loop
    | apply Pres_iter
    | apply Pres_foldlM
    | apply Glob_gen
    | (apply Pres_modS; intro s hs; with_unfolding_all first | exact hs | exact GKept_restore _ s0 s hs0 hs | exact GKept_add _ s _ hs)
    | apply Glob_tok_see
    | apply Glob_tok_get
    | apply tok_expect_glob
    | exact hr
    | split
    | dsimp only)

theorem initsize_glob (g0 : State) (r : Rec) (hr : PresRec (GKept g0) r) (e : Env) :
    Pres (GKept g0) (initsize e r) := by
  unfold initsize
  repeat (with_reducible first
    | ((first | lift_lets | skip); intro x; first
        | (have hx : ∀ a b c, Pres (GKept g0) (x a b c) := ?_; clear_value x)
        | (have hx : ∀ a b, Pres (GKept g0) (x a b) := ?_; clear_value x)
        | (have hx : ∀ a, Pres (GKept g0) (x a) := ?_; clear_value x)
        | clear_value x)
    | (apply Pres_getS_bind; intro s0 hs0)
    | apply Pres_bind
    | apply Pres_pure
    | apply Pres_ite
    | intro _
    | apply_assumption
    | apply Pres_loop
    | apply Pres_iter
    | apply Pres_foldlM
    | apply Glob_gen
    | (apply Pres_modS; intro s hs; with_unfolding_all first | exact hs | exact GKept_restore _ s0 s hs0 hs | exact GKept_add _ s _ hs)
    | apply Glob_o_popnum
    | apply Glob_tok_see
    | apply Glob_tok_get
    | apply Glob_tok_addr
    | apply Glob_tok_str
    | apply Glob_tok_jump
    | apply tok_jmp_glob
    | apply tok_expect_glob
    | apply ts_pop_de_glob
    | apply readexpr_glob
    | apply jumpbrace_glob
    | exact hr
    | split
    | dsimp only)

theorem o_localoff_glob (g0 : State) (a o : Int) :
    Pres (GKept g0) (o_localoff a o) := by
  unfold o_localoff
  repeat (with_reducible first
    | ((first | lift_lets | skip); intro x; first
        | (have hx : ∀ a b c, Pres (GKept g0) (x a b c) := ?_; clear_value x)
        | (have hx : ∀ a b, Pres (GKept g0) (x a b) := ?_; clear_value x)
        | (have hx : ∀ a, Pres (GKept g0) (x a) := ?_; clear_value x)
        | clear_value x)
    | (apply Pres_getS_bind; intro s0 hs0)
    | apply Pres_bind
    | apply Pres_pure
    | apply Pres_ite
    | intro _
    | apply_assumption
    | apply Pres_loop
    | apply Pres_iter
    | apply Pres_foldlM
    | apply Glob_gen
    | (apply Pres_modS; intro s hs; with_unfolding_all first | exact hs | exact GKept_restore _ s0 s hs0 hs | exact GKept_add _ s _ hs)
    | apply Glob_o_bop
    | apply Glob_o_num
    | apply Glob_o_local
    | exact hr
    | split
    | dsimp only)

theorem globalinit_glob (g0 : State) (r : Rec) (hr : PresRec (GKept g0) r) (e : Env) (nm : name) (off : Int) (t : type) :
    Pres (GKept g0) (globalinit e r nm off t) := by
  unfold globalinit
  repeat (with_reducible first
    | ((first | lift_lets | skip); intro x; first
        | (have hx : ∀ a b c, Pres (GKept g0) (x a b c) := ?_; clear_value x)
        | (have hx : ∀ a b, Pres (GKept g0) (x a b) := ?_; clear_value x)
        | (have hx : ∀ a, Pres (GKept g0) (x a) := ?_; clear_value x)
        | clear_value x)
    | (apply Pres_getS_bind; intro s0 hs0)
    | apply Pres_bind
    | apply Pres_pure
    | apply Pres_ite
    | intro _
    | apply_assumption
    | apply Pres_loop
    | apply Pres_iter
    | apply Pres_foldlM
    | apply Glob_gen
    | (apply Pres_modS; intro s hs; with_unfolding_all first | exact hs | exact GKept_restore _ s0 s hs0 hs | exact GKept_add _ s _ hs)
    | apply Glob_tok_see
    | apply Glob_tok_str
    | apply Glob_ts_pop
    | apply Glob_emit
    | apply Pres_getS
    | apply tok_expect_glob
    | apply readexpr_glob
    | exact hr
    | split
    | dsimp only)

theorem localinit_glob (g0 : State) (r : Rec) (hr : PresRec (GKept g0) r) (e : Env) (a : Int) (off : Int) (t : type) :
    Pres (GKept g0) (localinit e r a off t) := by
  unfold localinit
  repeat (with_reducible first
    | ((first | lift_lets | skip); intro x; first
        | (have hx : ∀ a b c, Pres (GKept g0) (x a b c) := ?_; clear_value x)
        | (have hx : ∀ a b, Pres (GKept g0) (x a b) := ?_; clear_value x)
        | (have hx : ∀ a, Pres (GKept g0) (x a) := ?_; clear_value x)
        | clear_value x)
    | (apply Pres_getS_bind; intro s0 hs0)
    | apply Pres_bind
    | apply Pres_pure
    | apply Pres_ite
    | intro _
    | apply_assumption
    | apply Pres_loop
    | apply Pres_iter
    | apply Pres_foldlM
    | apply Glob_gen
    | (apply Pres_modS; intro s hs; with_unfolding_all first | exact hs | exact GKept_restore _ s0 s hs0 hs | exact GKept_add _ s _ hs)
    | apply Glob_tok_see
    | apply Glob_tok_str
    | apply Glob_ts_pop
    | apply Pres_getS
    | apply Glob_o_memcpy
    | apply Glob_o_num
    | apply Glob_o_sym
    | apply Glob_o_tmpdrop
    | apply tok_expect_glob
    | apply ts_push_glob
    | apply tmp_str_glob
    | apply o_sym_tmp_str_glob
    | apply doassign_glob
    | apply readexpr_glob
    | apply o_localoff_glob
    | exact hr
    | split
    | dsimp only)

theorem initset_glob (g0 : State) (r : Rec) (hr : PresRec (GKept g0) r) (e : Env) (cb : InitCb) (off : Int) (t : type) :
    Pres (GKept g0) (initset e r cb off t) := by
  unfold initset
  repeat (with_reducible first
    | ((first | lift_lets | skip); intro x; first
        | (have hx : ∀ a b c, Pres (GKept g0) (x a b c) := ?_; clear_value x)
        | (have hx : ∀ a b, Pres (GKept g0) (x a b) := ?_; clear_value x)
        | (have hx : ∀ a, Pres (GKept g0) (x a) := ?_; clear_value x)
        | clear_value x)
    | (apply Pres_getS_bind; intro s0 hs0)
    | apply Pres_bind
    | apply Pres_pure
    | apply Pres_ite
    | intro _
    | apply_assumption
    | apply Pres_loop
    | apply Pres_iter
    | apply Pres_foldlM
    | apply Glob_gen
    | (apply Pres_modS; intro s hs; with_unfolding_all first | exact hs | exact GKept_restore _ s0 s hs0 hs | exact GKept_add _ s _ hs)
    | apply globalinit_glob
    | apply localinit_glob
    | exact hr
    | split
    | dsimp only)

theorem initexpr_glob (g0 : State) (r : Rec) (hr : PresRec (GKept g0) r) (e : Env) (t : type) (off : Int) (cb : InitCb) :
    Pres (GKept g0) (initexpr e r t off cb) := by
  unfold initexpr
  repeat (with_reducible first
    | ((first | lift_lets | skip); intro x; first
        | (have hx : ∀ a b c, Pres (GKept g0) (x a b c) := ?_; clear_value x)
        | (have hx : ∀ a b, Pres (GKept g0) (x a b) := ?_; clear_value x)
        | (have hx : ∀ a, Pres (GKept g0) (x a) := ?_; clear_value x)
        | clear_value x)
    | (apply Pres_getS_bind; intro s0 hs0)
    | apply Pres_bind
    | apply Pres_pure
    | apply Pres_ite
    | intro _
    | apply_assumption
    | apply Pres_loop
    | apply Pres_iter
    | apply Pres_foldlM
    | apply Glob_gen
    | (apply Pres_modS; intro s hs; with_unfolding_all first | exact hs | exact GKept_restore _ s0 s hs0 hs | exact GKept_add _ s _ hs)
    | apply Glob_o_popnum
    | apply Glob_tok_see
    | apply Glob_tok_id
    | apply Glob_type_totsz
    | apply Glob_innertype
    | apply Pres_getS
    | apply tok_jmp_glob
    | apply tok_expect_glob
    | apply ts_pop_de_glob
    | apply struct_field_glob
    | apply readexpr_glob
    | apply initset_glob
    | apply hr.initexpr
    | exact hr
    | split
    | dsimp only)

theorem globaldef_glob (g0 : State) (r : Rec) (hr : PresRec (GKept g0) r) (e : Env) (nm : name) (fl : Nat) :
    Pres (GKept g0) (globaldef e r nm fl) := by
  unfold globaldef
  repeat (with_reducible first
    | ((first | lift_lets | skip); intro x; first
        | (have hx : ∀ a b c, Pres (GKept g0) (x a b c) := ?_; clear_value x)
        | (have hx : ∀ a b, Pres (GKept g0) (x a b) := ?_; clear_value x)
        | (have hx : ∀ a, Pres (GKept g0) (x a) := ?_; clear_value x)
        | clear_value x)
    | (apply Pres_getS_bind; intro s0 hs0)
    | apply Pres_bind
    | apply Pres_pure
    | apply Pres_ite
    | intro _
    | apply_assumption
    | apply Pres_loop
    | apply Pres_iter
    | apply Pres_foldlM
    | apply Glob_gen
    | (apply Pres_modS; intro s hs; with_unfolding_all first | exact hs | exact GKept_restore _ s0 s hs0 hs | exact GKept_add _ s _ hs)
    | apply Glob_o_dsnew
    | apply Glob_tok_see
    | apply Glob_type_totsz
    | apply Glob_emit
    | apply Pres_getS
    | apply tok_jmp_glob
    | apply global_add_glob
    | apply initsize_glob
    | apply initexpr_glob
    | apply hr.readfunc
    | exact hr
    | split
    | dsimp only)

theorem localdef_glob (g0 : State) (r : Rec) (hr : PresRec (GKept g0) r) (e : Env) (nm : name) (fl : Nat) :
    Pres (GKept g0) (localdef e r nm fl) := by
  unfold localdef
  repeat (with_reducible first
    | ((first | lift_lets | skip); intro x; first
        | (have hx : ∀ a b c, Pres (GKept g0) (x a b c) := ?_; clear_value x)
        | (have hx : ∀ a b, Pres (GKept g0) (x a b) := ?_; clear_value x)
        | (have hx : ∀ a, Pres (GKept g0) (x a) := ?_; clear_value x)
        | clear_value x)
    | (apply Pres_getS_bind; intro s0 hs0)
    | apply Pres_bind
    | apply Pres_pure
    | apply Pres_ite
    | intro _
    | apply_assumption
    | apply Pres_loop
    | apply Pres_iter
    | apply Pres_foldlM
    | apply Glob_gen
    | (apply Pres_modS; intro s hs; with_unfolding_all first | exact hs | exact GKept_restore _ s0 s hs0 hs | exact GKept_add _ s _ hs)
    | apply Glob_o_mklocal
    | apply Glob_type_totsz
    | apply Pres_getS
    | apply Glob_o_memset
    | apply Glob_o_num
    | apply Glob_o_local
    | apply Glob_o_tmpdrop
    | apply tok_jmp_glob
    | apply local_add_glob
    | apply global_add_glob
    | apply initsize_glob
    | apply initexpr_glob
    | apply globaldef_glob
    | exact hr
    | split
    | dsimp only)

theorem typedefdef_glob (g0 : State) (e : Env) (nm : name) (fl : Nat) :
    Pres (GKept g0) (typedefdef e nm fl) := by
  unfold typedefdef
  repeat (with_reducible first
    | ((first | lift_lets | skip); intro x; first
        | (have hx : ∀ a b c, Pres (GKept g0) (x a b c) := ?_; clear_value x)
        | (have hx : ∀ a b, Pres (GKept g0) (x a b) := ?_; clear_value x)
        | (have hx : ∀ a, Pres (GKept g0) (x a) := ?_; clear_value x)
        | clear_value x)
    | (apply Pres_getS_bind; intro s0 hs0)
    | apply Pres_bind
    | apply Pres_pure
    | apply Pres_ite
    | intro _
    | apply_assumption
    | apply Pres_loop
    | apply Pres_iter
    | apply Pres_foldlM
    | apply Glob_gen
    | (apply Pres_modS; intro s hs; with_unfolding_all first | exact hs | exact GKept_restore _ s0 s hs0 hs | exact GKept_add _ s _ hs)
    | apply typedef_add_glob
    | exact hr
    | split
    | dsimp only)

theorem calldef_glob (g0 : State) (r : Rec) (hr : PresRec (GKept g0) r) (e : Env) (cb : DefCb) (nm : name) (fl : Nat) :
    Pres (GKept g0) (calldef e r cb nm fl) := by
  unfold calldef
  repeat (with_reducible first
    | ((first | lift_lets | skip); intro x; first
        | (have hx : ∀ a b c, Pres (GKept g0) (x a b c) := ?_; clear_value x)
        | (have hx : ∀ a b, Pres (GKept g0) (x a b) := ?_; clear_value x)
        | (have hx : ∀ a, Pres (GKept g0) (x a) := ?_; clear_value x)
        | clear_value x)
    | (apply Pres_getS_bind; intro s0 hs0)
    | apply Pres_bind
    | apply Pres_pure
    | apply Pres_ite
    | intro _
    | apply_assumption
    | apply Pres_loop
    | apply Pres_iter
    | apply Pres_foldlM
    | apply Glob_gen
    | (apply Pres_modS; intro s hs; with_unfolding_all first | exact hs | exact GKept_restore _ s0 s hs0 hs | exact GKept_add _ s _ hs)
    | apply structdef_glob
    | apply krdef_glob
    | apply globaldef_glob
    | apply localdef_glob
    | apply typedefdef_glob
    | exact hr
    | split
    | dsimp only)

theorem readdefs_loop_glob (g0 : State) (r : Rec) (hr : PresRec (GKept g0) r) (e : Env) (cb : DefCb) (b : type) (fl : Nat) :
    Pres (GKept g0) (readdefs_loop e r cb b fl) := by
  unfold readdefs_loop
  repeat (with_reducible first
    | ((first | lift_lets | skip); intro x; first
        | (have hx : ∀ a b c, Pres (GKept g0) (x a b c) := ?_; clear_value x)
        | (have hx : ∀ a b, Pres (GKept g0) (x a b) := ?_; clear_value x)
        | (have hx : ∀ a, Pres (GKept g0) (x a) := ?_; clear_value x)
        | clear_value x)
    | (apply Pres_getS_bind; intro s0 hs0)
    | apply Pres_bind
    | apply Pres_pure
    | apply Pres_ite
    | intro _
    | apply_assumption
    | apply Pres_loop
    | apply Pres_iter
    | apply Pres_foldlM
    | apply Glob_gen
    | (apply Pres_modS; intro s hs; with_unfolding_all first | exact hs | exact GKept_restore _ s0 s hs0 hs | exact GKept_add _ s _ hs)
    | apply tok_jmp_glob
    | apply readname_glob
    | apply calldef_glob
    | exact hr
    | split
    | dsimp only)

theorem readdefs_glob (g0 : State) (r : Rec) (hr : PresRec (GKept g0) r) (e : Env) (cb : DefCb) :
    Pres (GKept g0) (readdefs e r cb) := by
  unfold readdefs
  repeat (with_reducible first
    | ((first | lift_lets | skip); intro x; first
        | (have hx : ∀ a b c, Pres (GKept g0) (x a b c) := ?_; clear_value x)
        | (have hx : ∀ a b, Pres (GKept g0) (x a b) := ?_; clear_value x)
        | (have hx : ∀ a, Pres (GKept g0) (x a) := ?_; clear_value x)
        | clear_value x)
    | (apply Pres_getS_bind; intro s0 hs0)
    | apply Pres_bind
    | apply Pres_pure
    | apply Pres_ite
    | intro _
    | apply_assumption
    | apply Pres_loop
    | apply Pres_iter
    | apply Pres_foldlM
    | apply Glob_gen
    | (apply Pres_modS; intro s hs; with_unfolding_all first | exact hs | exact GKept_restore _ s0 s hs0 hs | exact GKept_add _ s _ hs)
    | apply Glob_tok_see
    | apply basetype_glob
    | apply readdefs_loop_glob
    | exact hr
    | split
    | dsimp only)

theorem readdefs_int_glob (g0 : State) (r : Rec) (hr : PresRec (GKept g0) r) (e : Env) (cb : DefCb) :
    Pres (GKept g0) (readdefs_int e r cb) := by
  unfold readdefs_int
  repeat (with_reducible first
    | ((first | lift_lets | skip); intro x; first
        | (have hx : ∀ a b c, Pres (GKept g0) (x a b c) := ?_; clear_value x)
        | (have hx : ∀ a b, Pres (GKept g0) (x a b) := ?_; clear_value x)
        | (have hx : ∀ a, Pres (GKept g0) (x a) := ?_; clear_value x)
        | clear_value x)
    | (apply Pres_getS_bind; intro s0 hs0)
    | apply Pres_bind
    | apply Pres_pure
    | apply Pres_ite
    | intro _
    | apply_assumption
    | apply Pres_loop
    | apply Pres_iter
    | apply Pres_foldlM
    | apply Glob_gen
    | (apply Pres_modS; intro s hs; with_unfolding_all first | exact hs | exact GKept_restore _ s0 s hs0 hs | exact GKept_add _ s _ hs)
    | apply Glob_tok_see
    | apply basetype_glob
    | apply readdefs_loop_glob
    | exact hr
    | split
    | dsimp only)

theorem readswitch_glob (g0 : State) (r : Rec) (hr : PresRec (GKept g0) r) (e : Env) :
    Pres (GKept g0) (readswitch e r) := by
  unfold readswitch
  repeat (with_reducible first
    | ((first | lift_lets | skip); intro x; first
        | (have hx : ∀ a b c, Pres (GKept g0) (x a b c) := ?_; clear_value x)
        | (have hx : ∀ a b, Pres (GKept g0) (x a b) := ?_; clear_value x)
        | (have hx : ∀ a, Pres (GKept g0) (x a) := ?_; clear_value x)
        | clear_value x)
    | (apply Pres_getS_bind; intro s0 hs0)
    | apply Pres_bind
    | apply Pres_pure
    | apply Pres_ite
    | intro _
    | apply_assumption
    | apply Pres_loop
    | apply Pres_iter
    | apply Pres_foldlM
    | apply Glob_gen
    | (apply Pres_modS; intro s hs; with_unfolding_all first | exact hs | exact GKept_restore _ s0 s hs0 hs | exact GKept_add _ s _ hs)
    | apply Glob_o_mklocal
    | apply Glob_tok_see
    | apply Glob_tok_get
    | apply Glob_LABEL
    | apply Glob_emit
    | apply Pres_getS
    | apply Glob_o_bop
    | apply Glob_o_assign
    | apply Glob_o_deref
    | apply Glob_o_local
    | apply Glob_o_tmpdrop
    | apply Glob_o_tmpswap
    | apply Glob_o_label
    | apply Glob_o_jz
    | apply Glob_o_jmp
    | apply tok_jmp_glob
    | apply tok_expect_glob
    | apply ts_de_glob
    | apply ts_pop_de_glob
    | apply readexpr_glob
    | apply hr.readstmt
    | exact hr
    | split
    | dsimp only)

theorem readstmt_glob (g0 : State) (r : Rec) (hr : PresRec (GKept g0) r) (e : Env) :
    Pres (GKept g0) (readstmt e r) := by
  unfold readstmt
  repeat (with_reducible first
    | ((first | lift_lets | skip); intro x; first
        | (have hx : ∀ a b c, Pres (GKept g0) (x a b c) := ?_; clear_value x)
        | (have hx : ∀ a b, Pres (GKept g0) (x a b) := ?_; clear_value x)
        | (have hx : ∀ a, Pres (GKept g0) (x a) := ?_; clear_value x)
        | clear_value x)
    | (apply Pres_getS_bind; intro s0 hs0)
    | apply Pres_bind
    | apply Pres_pure
    | apply Pres_ite
    | intro _
    | apply_assumption
    | apply Pres_loop
    | apply Pres_iter
    | apply Pres_foldlM
    | apply Glob_gen
    | (apply Pres_modS; intro s hs; with_unfolding_all first | exact hs | exact GKept_restore _ s0 s hs0 hs | exact GKept_add _ s _ hs)
    | apply Glob_tok_see
    | apply Glob_tok_id
    | apply Glob_LABEL
    | apply Pres_getS
    | apply Glob_o_ret
    | apply Glob_o_tmpdrop
    | apply Glob_o_label
    | apply Glob_o_jz
    | apply Glob_o_jnz
    | apply Glob_o_jmp
    | apply tok_jmp_glob
    | apply tok_expect_glob
    | apply ts_pop_de_glob
    | apply label_id_glob
    | apply o_jmp_label_id_glob
    | apply o_label_label_id_glob
    | apply readexpr_glob
    | apply readestmt_glob
    | apply readdefs_glob
    | apply readswitch_glob
    | apply hr.readstmt
    | exact hr
    | split
    | dsimp only)

theorem readfunc_glob (g0 : State) (r : Rec) (hr : PresRec (GKept g0) r) (e : Env) (nm : name) (fl : Nat) :
    Pres (GKept g0) (readfunc e r nm fl) := by
  unfold readfunc
  repeat (with_reducible first
    | ((first | lift_lets | skip); intro x; first
        | (have hx : ∀ a b c, Pres (GKept g0) (x a b c) := ?_; clear_value x)
        | (have hx : ∀ a b, Pres (GKept g0) (x a b) := ?_; clear_value x)
        | (have hx : ∀ a, Pres (GKept g0) (x a) := ?_; clear_value x)
        | clear_value x)
    | (apply Pres_getS_bind; intro s0 hs0)
    | apply Pres_bind
    | apply Pres_pure
    | apply Pres_ite
    | intro _
    | apply_assumption
    | apply Pres_loop
    | apply Pres_iter
    | apply Pres_foldlM
    | apply Glob_gen
    | (apply Pres_modS; intro s hs; with_unfolding_all first | exact hs | exact GKept_restore _ s0 s hs0 hs | exact GKept_add _ s _ hs)
    | apply Glob_o_arg2loc
    | apply Glob_tok_addr
    | apply Glob_tok_jump
    | apply Glob_emit
    | apply Pres_getS
    | apply local_add_glob
    | apply readstmt_glob
    | exact hr
    | split
    | dsimp only)

theorem readdecl_glob (g0 : State) (r : Rec) (hr : PresRec (GKept g0) r) (e : Env) :
    Pres (GKept g0) (readdecl e r) := by
  unfold readdecl
  repeat (with_reducible first
    | ((first | lift_lets | skip); intro x; first
        | (have hx : ∀ a b c, Pres (GKept g0) (x a b c) := ?_; clear_value x)
        | (have hx : ∀ a b, Pres (GKept g0) (x a b) := ?_; clear_value x)
        | (have hx : ∀ a, Pres (GKept g0) (x a) := ?_; clear_value x)
        | clear_value x)
    | (apply Pres_getS_bind; intro s0 hs0)
    | apply Pres_bind
    | apply Pres_pure
    | apply Pres_ite
    | intro _
    | apply_assumption
    | apply Pres_loop
    | apply Pres_iter
    | apply Pres_foldlM
    | apply Glob_gen
    | (apply Pres_modS; intro s hs; with_unfolding_all first | exact hs | exact GKept_restore _ s0 s hs0 hs | exact GKept_add _ s _ hs)
    | apply tok_jmp_glob
    | apply tok_expect_glob
    | apply readdefs_glob
    | apply readdefs_int_glob
    | exact hr
    | split
    | dsimp only)

theorem parse_glob (g0 : State) (r : Rec) (hr : PresRec (GKept g0) r) (e : Env) :
    Pres (GKept g0) (parse e r) := by
  unfold parse
  repeat (with_reducible first
    | ((first | lift_lets | skip); intro x; first
        | (have hx : ∀ a b c, Pres (GKept g0) (x a b c) := ?_; clear_value x)
        | (have hx : ∀ a b, Pres (GKept g0) (x a b) := ?_; clear_value x)
        | (have hx : ∀ a, Pres (GKept g0) (x a) := ?_; clear_value x)
        | clear_value x)
    | (apply Pres_getS_bind; intro s0 hs0)
    | apply Pres_bind
    | apply Pres_pure
    | apply Pres_ite
    | intro _
    | apply_assumption
    | apply Pres_loop
    | apply Pres_iter
    | apply Pres_foldlM
    | apply Glob_gen
    | (apply Pres_modS; intro s hs; with_unfolding_all first | exact hs | exact GKept_restore _ s0 s hs0 hs | exact GKept_add _ s _ hs)
    | apply Glob_tok_see
    | apply readdecl_glob
    | exact hr
    | split
    | dsimp only)

theorem recN_glob (g0 : State)
    (e : Env) (n : Nat) : PresRec (GKept g0) (recN e n) := by
  induction n with
  | zero =>
    exact ⟨Pres_outOfFuel _, Pres_outOfFuel _, Pres_outOfFuel _, fun _ _ => Pres_outOfFuel _,
      fun _ => Pres_outOfFuel _, fun _ _ _ => Pres_outOfFuel _, Pres_outOfFuel _,
      fun _ _ => Pres_outOfFuel _⟩
  | succ n ih =>
    exact ⟨readexpr_glob _ _ ih e, readpre_glob _ _ ih e,
      readcexpr_glob _ _ ih e, fun b t => readname_glob _ _ ih e b t,
      fun cb => readdefs_glob _ _ ih e cb, fun t o cb => initexpr_glob _ _ ih e t o cb,
      readstmt_glob _ _ ih e, fun nm fl => readfunc_glob _ _ ih e nm fl⟩

end GlobalsKept

/-! ## No code while `nogen` is set

Every function that the parse of an expression reaches preserves `Quiet g o`: while
`nogen` is positive it makes no call to the code generator, and it returns with `nogen`
as it found it. -/

section QuietKept
set_option maxRecDepth 2048
set_option linter.unusedTactic false
set_option linter.unreachableTactic false

theorem bind_ok_inv {α β : Type} (m : P α) (f : α → P β) (s : State) (b : β) (s2 : State)
    (h : (m >>= f) s = .ok (b, s2)) : ∃ a s1, m s = .ok (a, s1) ∧ f a s1 = .ok (b, s2) := by
  rw [bind_apply] at h
  split at h
  · next a s1 hms => exact ⟨a, s1, hms, h⟩
  · cases h

theorem Quiet_nogen_ne (g : Int) (o : List Call) (s : State) (h : Quiet g o s) :
    s.nogen ≠ 0 := by
  have h1 := h.1
  have h2 := h.2.1
  omega

theorem Quiet_frame {α : Type} (g : Int) (o : List Call) (m : P α)
    (h : ∀ s a s1, m s = .ok (a, s1) → s1.nogen = s.nogen ∧ s1.out = s.out) :
    Pres (Quiet g o) m := by
  intro s a s1 hI hm
  obtain ⟨h1, h2⟩ := h s a s1 hm
  unfold Quiet
  rw [h1, h2]
  exact hI

theorem Quiet_gen (g : Int) (o : List Call)
    (c : Call) : Pres (Quiet g o) (gen c) := by
  intro s a s1 hI hm
  unfold gen at hm
  rw [if_neg (Quiet_nogen_ne g o s hI)] at hm
  cases hm
  exact hI

theorem Quiet_o_popnum (g : Int) (o : List Call) (e : Env) (c : Int) :
    Pres (Quiet g o) (o_popnum e c) := by
  intro s a s1 hI hm
  unfold o_popnum at hm
  rw [if_pos (Quiet_nogen_ne g o s hI)] at hm
  cases hm
  exact hI

theorem o_popnum_quiet_val (g : Int) (o : List Call) (e : Env) (c : Int) (s : State)
    (hI : Quiet g o s) : o_popnum e c s = .ok ((0, c), s) := by
  unfold o_popnum
  rw [if_pos (Quiet_nogen_ne g o s hI)]

theorem Quiet_inc (g : Int) (o : List Call) (s : State) (a : Unit) (s1 : State)
    (hI : Quiet g o s) (h : nogen_inc s = .ok (a, s1)) : Quiet (g + 1) o s1 := by
  cases h
  exact ⟨by have := hI.1; omega, by show s.nogen + 1 = g + 1; rw [hI.2.1], hI.2.2⟩

theorem Quiet_dec (g : Int) (o : List Call) (s : State) (a : Unit) (s1 : State)
    (hI : Quiet (g + 1) o s) (hg : 0 < g) (h : nogen_dec s = .ok (a, s1)) : Quiet g o s1 := by
  cases h
  exact ⟨hg, by show s.nogen - 1 = g; rw [hI.2.1]; omega, hI.2.2⟩

/-- The statements `nogen++; m; nogen--;` and what follows them. -/
theorem Quiet_bracket {β : Type} (g : Int) (o : List Call) (m : P Unit) (k : P β)
    (hm : ∀ g o, Pres (Quiet g o) m) (hk : ∀ g o, Pres (Quiet g o) k) :
    Pres (Quiet g o) (do nogen_inc; m; nogen_dec; k) := by
  intro s a s1 hI h
  obtain ⟨_, sa, h1, h⟩ := bind_ok_inv _ _ _ _ _ h
  obtain ⟨_, sb, h2, h⟩ := bind_ok_inv _ _ _ _ _ h
  obtain ⟨_, sc, h3, h⟩ := bind_ok_inv _ _ _ _ _ h
  have hA := Quiet_inc g o s _ sa hI h1
  have hB := hm (g + 1) o sa _ sb hA h2
  have hC := Quiet_dec g o sb _ sc hB hI.1 h3
  exact hk g o sc a s1 hC h

theorem Quiet_tok_see (g : Int) (o : List Call) :
    Pres (Quiet g o) tok_see := by
  apply Quiet_frame
  intro s a s1 h
  cases h
  exact ⟨rfl, rfl⟩

theorem Quiet_tok_get (g : Int) (o : List Call) :
    Pres (Quiet g o) tok_get := by
  apply Quiet_frame
  intro s a s1 h
  unfold tok_get at h
  cases h
  split <;> exact ⟨rfl, rfl⟩

theorem Quiet_tok_addr (g : Int) (o : List Call)  :
    Pres (Quiet g o) (tok_addr) := by
  apply Quiet_frame
  intro s a s1 h
  cases h; exact ⟨rfl, rfl⟩

theorem Quiet_tok_id (g : Int) (o : List Call)  :
    Pres (Quiet g o) (tok_id) := by
  apply Quiet_frame
  intro s a s1 h
  cases h; exact ⟨rfl, rfl⟩

theorem Quiet_tok_num (g : Int) (o : List Call)  :
    Pres (Quiet g o) (tok_num) := by
  apply Quiet_frame
  intro s a s1 h
  cases h; exact ⟨rfl, rfl⟩

theorem Quiet_tok_str (g : Int) (o : List Call)  :
    Pres (Quiet g o) (tok_str) := by
  apply Quiet_frame
  intro s a s1 h
  cases h; exact ⟨rfl, rfl⟩

theorem Quiet_type_totsz (g : Int) (o : List Call) (e : Env) (t : type) :
    Pres (Quiet g o) (type_totsz e t) := by
  apply Quiet_frame
  intro s a s1 h
  unfold type_totsz at h
  split at h <;> cases h
  exact ⟨rfl, rfl⟩

theorem Quiet_type_szde (g : Int) (o : List Call) (e : Env) (t : type) :
    Pres (Quiet g o) (type_szde e t) := by
  apply Quiet_frame
  intro s a s1 h
  unfold type_szde at h
  split at h <;> cases h
  exact ⟨rfl, rfl⟩

theorem Quiet_type_alignment (g : Int) (o : List Call) (e : Env) (t : type) :
    Pres (Quiet g o) (type_alignment e t) := by
  apply Quiet_frame
  intro s a s1 h
  unfold type_alignment at h
  split at h <;> cases h
  exact ⟨rfl, rfl⟩

theorem Quiet_innertype (g : Int) (o : List Call) (t : type) :
    Pres (Quiet g o) (innertype t) := by
  apply Quiet_frame
  intro s a s1 h
  unfold innertype at h
  split at h <;> cases h
  exact ⟨rfl, rfl⟩

theorem Quiet_ts_pop (g : Int) (o : List Call)  :
    Pres (Quiet g o) (ts_pop) := by
  apply Quiet_frame
  intro s a s1 h
  unfold ts_pop at h
  split at h <;> cases h
  exact ⟨rfl, rfl⟩

theorem Quiet_local_find (g : Int) (o : List Call) (nm : String) :
    Pres (Quiet g o) (local_find nm) := by
  apply Quiet_frame
  intro s a s1 h
  cases h; exact ⟨rfl, rfl⟩

theorem Quiet_global_find (g : Int) (o : List Call) (nm : String) :
    Pres (Quiet g o) (global_find nm) := by
  apply Quiet_frame
  intro s a s1 h
  cases h; exact ⟨rfl, rfl⟩

theorem Quiet_enum_find (g : Int) (o : List Call) (nm : String) :
    Pres (Quiet g o) (enum_find nm) := by
  apply Quiet_frame
  intro s a s1 h
  cases h; exact ⟨rfl, rfl⟩

theorem Quiet_typedef_find (g : Int) (o : List Call) (nm : String) :
    Pres (Quiet g o) (typedef_find nm) := by
  apply Quiet_frame
  intro s a s1 h
  cases h; exact ⟨rfl, rfl⟩

theorem Quiet_LABEL (g : Int) (o : List Call)  :
    Pres (Quiet g o) (LABEL) := by
  apply Quiet_frame
  intro s a s1 h
  cases h; exact ⟨rfl, rfl⟩

theorem Quiet_o_bop (g : Int) (o : List Call) (op : Op) (sg : Bool) :
    Pres (Quiet g o) (o_bop op sg) :=
  Quiet_gen _ _ _

theorem Quiet_o_uop (g : Int) (o : List Call) (op : Op) :
    Pres (Quiet g o) (o_uop op) :=
  Quiet_gen _ _ _

theorem Quiet_o_cast (g : Int) (o : List Call) (bt : Nat) :
    Pres (Quiet g o) (o_cast bt) :=
  Quiet_gen _ _ _

theorem Quiet_o_memcpy (g : Int) (o : List Call)  :
    Pres (Quiet g o) (o_memcpy) :=
  Quiet_gen _ _ _

theorem Quiet_o_memset (g : Int) (o : List Call)  :
    Pres (Quiet g o) (o_memset) :=
  Quiet_gen _ _ _

theorem Quiet_o_call (g : Int) (o : List Call) (a : Int) (b : Nat) :
    Pres (Quiet g o) (o_call a b) :=
  Quiet_gen _ _ _

theorem Quiet_o_ret (g : Int) (o : List Call) (a : Int) :
    Pres (Quiet g o) (o_ret a) :=
  Quiet_gen _ _ _

theorem Quiet_o_assign (g : Int) (o : List Call) (bt : Nat) :
    Pres (Quiet g o) (o_assign bt) :=
  Quiet_gen _ _ _

theorem Quiet_o_deref (g : Int) (o : List Call) (bt : Nat) :
    Pres (Quiet g o) (o_deref bt) :=
  Quiet_gen _ _ _

theorem Quiet_o_load (g : Int) (o : List Call)  :
    Pres (Quiet g o) (o_load) :=
  Quiet_gen _ _ _

theorem Quiet_o_num (g : Int) (o : List Call) (a : Int) :
    Pres (Quiet g o) (o_num a) :=
  Quiet_gen _ _ _

theorem Quiet_o_local (g : Int) (o : List Call) (a : Int) :
    Pres (Quiet g o) (o_local a) :=
  Quiet_gen _ _ _

theorem Quiet_o_sym (g : Int) (o : List Call) (a : String) :
    Pres (Quiet g o) (o_sym a) :=
  Quiet_gen _ _ _

theorem Quiet_o_tmpdrop (g : Int) (o : List Call) (a : Int) :
    Pres (Quiet g o) (o_tmpdrop a) :=
  Quiet_gen _ _ _

theorem Quiet_o_tmpswap (g : Int) (o : List Call)  :
    Pres (Quiet g o) (o_tmpswap) :=
  Quiet_gen _ _ _

theorem Quiet_o_tmpcopy (g : Int) (o : List Call)  :
    Pres (Quiet g o) (o_tmpcopy) :=
  Quiet_gen _ _ _

theorem Quiet_o_label (g : Int) (o : List Call) (a : Int) :
    Pres (Quiet g o) (o_label a) :=
  Quiet_gen _ _ _

theorem Quiet_o_jz (g : Int) (o : List Call) (a : Int) :
    Pres (Quiet g o) (o_jz a) :=
  Quiet_gen _ _ _

theorem Quiet_o_jnz (g : Int) (o : List Call) (a : Int) :
    Pres (Quiet g o) (o_jnz a) :=
  Quiet_gen _ _ _

theorem Quiet_o_jmp (g : Int) (o : List Call) (a : Int) :
    Pres (Quiet g o) (o_jmp a) :=
  Quiet_gen _ _ _

theorem Quiet_o_fork (g : Int) (o : List Call)  :
    Pres (Quiet g o) (o_fork) :=
  Quiet_gen _ _ _

theorem Quiet_o_forkpush (g : Int) (o : List Call)  :
    Pres (Quiet g o) (o_forkpush) :=
  Quiet_gen _ _ _

theorem Quiet_o_forkjoin (g : Int) (o : List Call)  :
    Pres (Quiet g o) (o_forkjoin) :=
  Quiet_gen _ _ _

theorem Quiet_tok_jump (g : Int) (o : List Call) (a : Nat) :
    Pres (Quiet g o) (tok_jump a) := by
  apply Quiet_frame
  intro s a s1 h
  cases h; exact ⟨rfl, rfl⟩

theorem tok_jmp_quiet (g : Int) (o : List Call) (t : Tok) :
    Pres (Quiet g o) (tok_jmp t) := by
  unfold tok_jmp
  repeat (with_reducible first
    | ((first | lift_lets | skip); intro x; first
        | (have hx : ∀ a b c, Pres (Quiet g o) (x a b c) := ?_; clear_value x)
        | (have hx : ∀ a b, Pres (Quiet g o) (x a b) := ?_; clear_value x)
        | (have hx : ∀ a, Pres (Quiet g o) (x a) := ?_; clear_value x)
        | clear_value x)
    | (apply Pres_getS_bind; intro s0 hs0)
    | apply Pres_bind
    | apply Pres_pure
    | apply Pres_ite
    | intro _
    | apply_assumption
    | apply Pres_loop
    | apply Pres_iter
    | apply Pres_foldlM
    | apply Quiet_gen
    | (apply Pres_modS; intro s hs; with_unfolding_all exact hs)
    | apply Quiet_tok_see
    | apply Quiet_tok_get
    | exact hr
    | (with_unfolding_all rfl)
    | split
    | dsimp only)

theorem tok_expect_quiet (g : Int) (o : List Call) (t : Tok) :
    Pres (Quiet g o) (tok_expect t) := by
  unfold tok_expect
  repeat (with_reducible first
    | ((first | lift_lets | skip); intro x; first
        | (have hx : ∀ a b c, Pres (Quiet g o) (x a b c) := ?_; clear_value x)
        | (have hx : ∀ a b, Pres (Quiet g o) (x a b) := ?_; clear_value x)
        | (have hx : ∀ a, Pres (Quiet g o) (x a) := ?_; clear_value x)
        | clear_value x)
    | (apply Pres_getS_bind; intro s0 hs0)
    | apply Pres_bind
    | apply Pres_pure
    | apply Pres_ite
    | intro _
    | apply_assumption
    | apply Pres_loop
    | apply Pres_iter
    | apply Pres_foldlM
    | apply Quiet_gen
    | (apply Pres_modS; intro s hs; with_unfolding_all exact hs)
    | apply Quiet_tok_get
    | apply Pres_err
    | exact hr
    | (with_unfolding_all rfl)
    | split
    | dsimp only)

theorem ts_push_bt_quiet (g : Int) (o : List Call) (e : Env) (bt : Nat) :
    Pres (Quiet g o) (ts_push_bt e bt) := by
  unfold ts_push_bt
  repeat (with_reducible first
    | ((first | lift_lets | skip); intro x; first
        | (have hx : ∀ a b c, Pres (Quiet g o) (x a b c) := ?_; clear_value x)
        | (have hx : ∀ a b, Pres (Quiet g o) (x a b) := ?_; clear_value x)
        | (have hx : ∀ a, Pres (Quiet g o) (x a) := ?_; clear_value x)
        | clear_value x)
    | (apply Pres_getS_bind; intro s0 hs0)
    | apply Pres_bind
    | apply Pres_pure
    | apply Pres_ite
    | intro _
    | apply_assumption
    | apply Pres_loop
    | apply Pres_iter
    | apply Pres_foldlM
    | apply Quiet_gen
    | (apply Pres_modS; intro s hs; with_unfolding_all exact hs)
    | apply Quiet_o_cast
    | exact hr
    | (with_unfolding_all rfl)
    | split
    | dsimp only)

theorem ts_push_quiet (g : Int) (o : List Call) (t : type) :
    Pres (Quiet g o) (ts_push t) := by
  unfold ts_push
  repeat (with_reducible first
    | ((first | lift_lets | skip); intro x; first
        | (have hx : ∀ a b c, Pres (Quiet g o) (x a b c) := ?_; clear_value x)
        | (have hx : ∀ a b, Pres (Quiet g o) (x a b) := ?_; clear_value x)
        | (have hx : ∀ a, Pres (Quiet g o) (x a) := ?_; clear_value x)
        | clear_value x)
    | (apply Pres_getS_bind; intro s0 hs0)
    | apply Pres_bind
    | apply Pres_pure
    | apply Pres_ite
    | intro _
    | apply_assumption
    | apply Pres_loop
    | apply Pres_iter
    | apply Pres_foldlM
    | apply Quiet_gen
    | (apply Pres_modS; intro s hs; with_unfolding_all exact hs)
    | exact hr
    | (with_unfolding_all rfl)
    | split
    | dsimp only)

theorem ts_push_addr_quiet (g : Int) (o : List Call) (t : type) :
    Pres (Quiet g o) (ts_push_addr t) := by
  unfold ts_push_addr
  repeat (with_reducible first
    | ((first | lift_lets | skip); intro x; first
        | (have hx : ∀ a b c, Pres (Quiet g o) (x a b c) := ?_; clear_value x)
        | (have hx : ∀ a b, Pres (Quiet g o) (x a b) := ?_; clear_value x)
        | (have hx : ∀ a, Pres (Quiet g o) (x a) := ?_; clear_value x)
        | clear_value x)
    | (apply Pres_getS_bind; intro s0 hs0)
    | apply Pres_bind
    | apply Pres_pure
    | apply Pres_ite
    | intro _
    | apply_assumption
    | apply Pres_loop
    | apply Pres_iter
    | apply Pres_foldlM
    | apply Quiet_gen
    | (apply Pres_modS; intro s hs; with_unfolding_all exact hs)
    | apply ts_push_quiet
    | exact hr
    | (with_unfolding_all rfl)
    | split
    | dsimp only)

theorem ts_de_quiet (g : Int) (o : List Call) (e : Env) (d : Int) :
    Pres (Quiet g o) (ts_de e d) := by
  unfold ts_de
  repeat (with_reducible first
    | ((first | lift_lets | skip); intro x; first
        | (have hx : ∀ a b c, Pres (Quiet g o) (x a b c) := ?_; clear_value x)
        | (have hx : ∀ a b, Pres (Quiet g o) (x a b) := ?_; clear_value x)
        | (have hx : ∀ a, Pres (Quiet g o) (x a) := ?_; clear_value x)
        | clear_value x)
    | (apply Pres_getS_bind; intro s0 hs0)
    | apply Pres_bind
    | apply Pres_pure
    | apply Pres_ite
    | intro _
    | apply_assumption
    | apply Pres_loop
    | apply Pres_iter
    | apply Pres_foldlM
    | apply Quiet_gen
    | (apply Pres_modS; intro s hs; with_unfolding_all exact hs)
    | apply Pres_ub
    | apply Pres_getS
    | apply Quiet_o_deref
    | exact hr
    | (with_unfolding_all rfl)
    | split
    | dsimp only)

theorem ts_pop_de_quiet (g : Int) (o : List Call) (e : Env) :
    Pres (Quiet g o) (ts_pop_de e) := by
  unfold ts_pop_de
  repeat (with_reducible first
    | ((first | lift_lets | skip); intro x; first
        | (have hx : ∀ a b c, Pres (Quiet g o) (x a b c) := ?_; clear_value x)
        | (have hx : ∀ a b, Pres (Quiet g o) (x a b) := ?_; clear_value x)
        | (have hx : ∀ a, Pres (Quiet g o) (x a) := ?_; clear_value x)
        | clear_value x)
    | (apply Pres_getS_bind; intro s0 hs0)
    | apply Pres_bind
    | apply Pres_pure
    | apply Pres_ite
    | intro _
    | apply_assumption
    | apply Pres_loop
    | apply Pres_iter
    | apply Pres_foldlM
    | apply Quiet_gen
    | (apply Pres_modS; intro s hs; with_unfolding_all exact hs)
    | apply Quiet_ts_pop
    | apply ts_de_quiet
    | exact hr
    | (with_unfolding_all rfl)
    | split
    | dsimp only)

theorem ts_pop_de2_quiet (g : Int) (o : List Call) (e : Env) :
    Pres (Quiet g o) (ts_pop_de2 e) := by
  unfold ts_pop_de2
  repeat (with_reducible first
    | ((first | lift_lets | skip); intro x; first
        | (have hx : ∀ a b c, Pres (Quiet g o) (x a b c) := ?_; clear_value x)
        | (have hx : ∀ a b, Pres (Quiet g o) (x a b) := ?_; clear_value x)
        | (have hx : ∀ a, Pres (Quiet g o) (x a) := ?_; clear_value x)
        | clear_value x)
    | (apply Pres_getS_bind; intro s0 hs0)
    | apply Pres_bind
    | apply Pres_pure
    | apply Pres_ite
    | intro _
    | apply_assumption
    | apply Pres_loop
    | apply Pres_iter
    | apply Pres_foldlM
    | apply Quiet_gen
    | (apply Pres_modS; intro s hs; with_unfolding_all exact hs)
    | apply Quiet_o_tmpswap
    | apply ts_pop_de_quiet
    | exact hr
    | (with_unfolding_all rfl)
    | split
    | dsimp only)

theorem ts_binop_quiet (g : Int) (o : List Call) (e : Env) (op : Op) :
    Pres (Quiet g o) (ts_binop e op) := by
  unfold ts_binop
  repeat (with_reducible first
    | ((first | lift_lets | skip); intro x; first
        | (have hx : ∀ a b c, Pres (Quiet g o) (x a b c) := ?_; clear_value x)
        | (have hx : ∀ a b, Pres (Quiet g o) (x a b) := ?_; clear_value x)
        | (have hx : ∀ a, Pres (Quiet g o) (x a) := ?_; clear_value x)
        | clear_value x)
    | (apply Pres_getS_bind; intro s0 hs0)
    | apply Pres_bind
    | apply Pres_pure
    | apply Pres_ite
    | intro _
    | apply_assumption
    | apply Pres_loop
    | apply Pres_iter
    | apply Pres_foldlM
    | apply Quiet_gen
    | (apply Pres_modS; intro s hs; with_unfolding_all exact hs)
    | apply Quiet_o_bop
    | apply ts_push_bt_quiet
    | apply ts_pop_de2_quiet
    | exact hr
    | (with_unfolding_all rfl)
    | split
    | dsimp only)

theorem ts_addop_quiet (g : Int) (o : List Call) (e : Env) (op : Op) :
    Pres (Quiet g o) (ts_addop e op) := by
  unfold ts_addop
  repeat (with_reducible first
    | ((first | lift_lets | skip); intro x; first
        | (have hx : ∀ a b c, Pres (Quiet g o) (x a b c) := ?_; clear_value x)
        | (have hx : ∀ a b, Pres (Quiet g o) (x a b) := ?_; clear_value x)
        | (have hx : ∀ a, Pres (Quiet g o) (x a) := ?_; clear_value x)
        | clear_value x)
    | (apply Pres_getS_bind; intro s0 hs0)
    | apply Pres_bind
    | apply Pres_pure
    | apply Pres_ite
    | intro _
    | apply_assumption
    | apply Pres_loop
    | apply Pres_iter
    | apply Pres_foldlM
    | apply Quiet_gen
    | (apply Pres_modS; intro s hs; with_unfolding_all exact hs)
    | apply Quiet_type_szde
    | apply Quiet_o_bop
    | apply Quiet_o_num
    | apply Quiet_o_tmpswap
    | apply ts_push_bt_quiet
    | apply ts_push_quiet
    | apply ts_pop_de2_quiet
    | exact hr
    | (with_unfolding_all rfl)
    | split
    | dsimp only)

theorem structdef_quiet (g : Int) (o : List Call) (e : Env) (id : Nat) (nm : name) (fl : Nat) :
    Pres (Quiet g o) (structdef e id nm fl) := by
  unfold structdef
  repeat (with_reducible first
    | ((first | lift_lets | skip); intro x; first
        | (have hx : ∀ a b c, Pres (Quiet g o) (x a b c) := ?_; clear_value x)
        | (have hx : ∀ a b, Pres (Quiet g o) (x a b) := ?_; clear_value x)
        | (have hx : ∀ a, Pres (Quiet g o) (x a) := ?_; clear_value x)
        | clear_value x)
    | (apply Pres_getS_bind; intro s0 hs0)
    | apply Pres_bind
    | apply Pres_pure
    | apply Pres_ite
    | intro _
    | apply_assumption
    | apply Pres_loop
    | apply Pres_iter
    | apply Pres_foldlM
    | apply Quiet_gen
    | (apply Pres_modS; intro s hs; with_unfolding_all exact hs)
    | apply Quiet_type_totsz
    | apply Quiet_type_alignment
    | apply Pres_getS
    | exact hr
    | (with_unfolding_all rfl)
    | split
    | dsimp only)

theorem global_add_quiet (g : Int) (o : List Call) (e : Env) (nm : name) :
    Pres (Quiet g o) (global_add e nm) := by
  unfold global_add
  repeat (with_reducible first
    | ((first | lift_lets | skip); intro x; first
        | (have hx : ∀ a b c, Pres (Quiet g o) (x a b c) := ?_; clear_value x)
        | (have hx : ∀ a b, Pres (Quiet g o) (x a b) := ?_; clear_value x)
        | (have hx : ∀ a, Pres (Quiet g o) (x a) := ?_; clear_value x)
        | clear_value x)
    | (apply Pres_getS_bind; intro s0 hs0)
    | apply Pres_bind
    | apply Pres_pure
    | apply Pres_ite
    | intro _
    | apply_assumption
    | apply Pres_loop
    | apply Pres_iter
    | apply Pres_foldlM
    | apply Quiet_gen
    | (apply Pres_modS; intro s hs; with_unfolding_all exact hs)
    | apply Pres_err
    | apply Pres_getS
    | exact hr
    | (with_unfolding_all rfl)
    | split
    | dsimp only)

theorem enum_add_quiet (g : Int) (o : List Call) (e : Env) (nm : String) (v : Int) :
    Pres (Quiet g o) (enum_add e nm v) := by
  unfold enum_add
  repeat (with_reducible first
    | ((first | lift_lets | skip); intro x; first
        | (have hx : ∀ a b c, Pres (Quiet g o) (x a b c) := ?_; clear_value x)
        | (have hx : ∀ a b, Pres (Quiet g o) (x a b) := ?_; clear_value x)
        | (have hx : ∀ a, Pres (Quiet g o) (x a) := ?_; clear_value x)
        | clear_value x)
    | (apply Pres_getS_bind; intro s0 hs0)
    | apply Pres_bind
    | apply Pres_pure
    | apply Pres_ite
    | intro _
    | apply_assumption
    | apply Pres_loop
    | apply Pres_iter
    | apply Pres_foldlM
    | apply Quiet_gen
    | (apply Pres_modS; intro s hs; with_unfolding_all exact hs)
    | apply Pres_err
    | apply Pres_getS
    | exact hr
    | (with_unfolding_all rfl)
    | split
    | dsimp only)

theorem typedef_add_quiet (g : Int) (o : List Call) (e : Env) (nm : String) (t : type) :
    Pres (Quiet g o) (typedef_add e nm t) := by
  unfold typedef_add
  repeat (with_reducible first
    | ((first | lift_lets | skip); intro x; first
        | (have hx : ∀ a b c, Pres (Quiet g o) (x a b c) := ?_; clear_value x)
        | (have hx : ∀ a b, Pres (Quiet g o) (x a b) := ?_; clear_value x)
        | (have hx : ∀ a, Pres (Quiet g o) (x a) := ?_; clear_value x)
        | clear_value x)
    | (apply Pres_getS_bind; intro s0 hs0)
    | apply Pres_bind
    | apply Pres_pure
    | apply Pres_ite
    | intro _
    | apply_assumption
    | apply Pres_loop
    | apply Pres_iter
    | apply Pres_foldlM
    | apply Quiet_gen
    | (apply Pres_modS; intro s hs; with_unfolding_all exact hs)
    | apply Pres_err
    | apply Pres_getS
    | exact hr
    | (with_unfolding_all rfl)
    | split
    | dsimp only)

theorem struct_find_quiet (g : Int) (o : List Call) (e : Env) (nm : String) (u : Int) :
    Pres (Quiet g o) (struct_find e nm u) := by
  unfold struct_find
  repeat (with_reducible first
    | ((first | lift_lets | skip); intro x; first
        | (have hx : ∀ a b c, Pres (Quiet g o) (x a b c) := ?_; clear_value x)
        | (have hx : ∀ a b, Pres (Quiet g o) (x a b) := ?_; clear_value x)
        | (have hx : ∀ a, Pres (Quiet g o) (x a) := ?_; clear_value x)
        | clear_value x)
    | (apply Pres_getS_bind; intro s0 hs0)
    | apply Pres_bind
    | apply Pres_pure
    | apply Pres_ite
    | intro _
    | apply_assumption
    | apply Pres_loop
    | apply Pres_iter
    | apply Pres_foldlM
    | apply Quiet_gen
    | (apply Pres_modS; intro s hs; with_unfolding_all exact hs)
    | apply Pres_err
    | apply Pres_getS
    | exact hr
    | (with_unfolding_all rfl)
    | split
    | dsimp only)

theorem array_add_quiet (g : Int) (o : List Call) (e : Env) (t : type) (n : Int) :
    Pres (Quiet g o) (array_add e t n) := by
  unfold array_add
  repeat (with_reducible first
    | ((first | lift_lets | skip); intro x; first
        | (have hx : ∀ a b c, Pres (Quiet g o) (x a b c) := ?_; clear_value x)
        | (have hx : ∀ a b, Pres (Quiet g o) (x a b) := ?_; clear_value x)
        | (have hx : ∀ a, Pres (Quiet g o) (x a) := ?_; clear_value x)
        | clear_value x)
    | (apply Pres_getS_bind; intro s0 hs0)
    | apply Pres_bind
    | apply Pres_pure
    | apply Pres_ite
    | intro _
    | apply_assumption
    | apply Pres_loop
    | apply Pres_iter
    | apply Pres_foldlM
    | apply Quiet_gen
    | (apply Pres_modS; intro s hs; with_unfolding_all exact hs)
    | apply Pres_err
    | apply Pres_getS
    | exact hr
    | (with_unfolding_all rfl)
    | split
    | dsimp only)

theorem struct_field_quiet (g : Int) (o : List Call) (id : Nat) (nm : String) :
    Pres (Quiet g o) (struct_field id nm) := by
  unfold struct_field
  repeat (with_reducible first
    | ((first | lift_lets | skip); intro x; first
        | (have hx : ∀ a b c, Pres (Quiet g o) (x a b c) := ?_; clear_value x)
        | (have hx : ∀ a b, Pres (Quiet g o) (x a b) := ?_; clear_value x)
        | (have hx : ∀ a, Pres (Quiet g o) (x a) := ?_; clear_value x)
        | clear_value x)
    | (apply Pres_getS_bind; intro s0 hs0)
    | apply Pres_bind
    | apply Pres_pure
    | apply Pres_ite
    | intro _
    | apply_assumption
    | apply Pres_loop
    | apply Pres_iter
    | apply Pres_foldlM
    | apply Quiet_gen
    | (apply Pres_modS; intro s hs; with_unfolding_all exact hs)
    | apply Pres_err
    | apply Pres_getS
    | exact hr
    | (with_unfolding_all rfl)
    | split
    | dsimp only)

theorem func_create_quiet (g : Int) (o : List Call) (e : Env) (ret : type) (nm : String) (an : List String) (args : List type) (na : Nat) (varg : Int) :
    Pres (Quiet g o) (func_create e ret nm an args na varg) := by
  unfold func_create
  repeat (with_reducible first
    | ((first | lift_lets | skip); intro x; first
        | (have hx : ∀ a b c, Pres (Quiet g o) (x a b c) := ?_; clear_value x)
        | (have hx : ∀ a b, Pres (Quiet g o) (x a b) := ?_; clear_value x)
        | (have hx : ∀ a, Pres (Quiet g o) (x a) := ?_; clear_value x)
        | clear_value x)
    | (apply Pres_getS_bind; intro s0 hs0)
    | apply Pres_bind
    | apply Pres_pure
    | apply Pres_ite
    | intro _
    | apply_assumption
    | apply Pres_loop
    | apply Pres_iter
    | apply Pres_foldlM
    | apply Quiet_gen
    | (apply Pres_modS; intro s hs; with_unfolding_all exact hs)
    | apply Pres_err
    | apply Pres_getS
    | exact hr
    | (with_unfolding_all rfl)
    | split
    | dsimp only)

theorem krdef_quiet (g : Int) (o : List Call) (fid : Nat) (nm : name) (fl : Nat) :
    Pres (Quiet g o) (krdef fid nm fl) := by
  unfold krdef
  repeat (with_reducible first
    | ((first | lift_lets | skip); intro x; first
        | (have hx : ∀ a b c, Pres (Quiet g o) (x a b c) := ?_; clear_value x)
        | (have hx : ∀ a b, Pres (Quiet g o) (x a b) := ?_; clear_value x)
        | (have hx : ∀ a, Pres (Quiet g o) (x a) := ?_; clear_value x)
        | clear_value x)
    | (apply Pres_getS_bind; intro s0 hs0)
    | apply Pres_bind
    | apply Pres_pure
    | apply Pres_ite
    | intro _
    | apply_assumption
    | apply Pres_loop
    | apply Pres_iter
    | apply Pres_foldlM
    | apply Quiet_gen
    | (apply Pres_modS; intro s hs; with_unfolding_all exact hs)
    | exact hr
    | (with_unfolding_all rfl)
    | split
    | dsimp only)

theorem o_sym_tmp_str_quiet (g : Int) (o : List Call) (e : Env) (buf : List Nat) (len : Int) :
    Pres (Quiet g o) (o_sym_tmp_str e buf len) := by
  intro s a s1 hI hm
  unfold o_sym_tmp_str at hm
  obtain ⟨s0, s2, h1, hm⟩ := bind_ok_inv _ _ _ _ _ hm
  cases h1
  rw [if_neg (Quiet_nogen_ne g o s hI)] at hm
  cases hm
  exact hI

theorem enum_create_quiet (g : Int) (o : List Call) (r : Rec) (hr : QuietRec r) (e : Env) :
    Pres (Quiet g o) (enum_create e r) := by
  unfold enum_create
  repeat (with_reducible first
    | ((first | lift_lets | skip); intro x; first
        | (have hx : ∀ a b c, Pres (Quiet g o) (x a b c) := ?_; clear_value x)
        | (have hx : ∀ a b, Pres (Quiet g o) (x a b) := ?_; clear_value x)
        | (have hx : ∀ a, Pres (Quiet g o) (x a) := ?_; clear_value x)
        | clear_value x)
    | (apply Pres_getS_bind; intro s0 hs0)
    | apply Pres_bind
    | apply Pres_pure
    | apply Pres_ite
    | intro _
    | apply_assumption
    | apply Pres_loop
    | apply Pres_iter
    | apply Pres_foldlM
    | apply Quiet_gen
    | (apply Pres_modS; intro s hs; with_unfolding_all exact hs)
    | apply Quiet_o_popnum
    | apply Quiet_tok_id
    | apply Pres_err
    | apply tok_jmp_quiet
    | apply tok_expect_quiet
    | apply ts_pop_de_quiet
    | apply enum_add_quiet
    | apply hr.readexpr
    | exact hr
    | (with_unfolding_all rfl)
    | split
    | dsimp only)

theorem struct_create_quiet (g : Int) (o : List Call) (r : Rec) (hr : QuietRec r) (e : Env) (nm : String) (u : Int) :
    Pres (Quiet g o) (struct_create e r nm u) := by
  unfold struct_create
  repeat (with_reducible first
    | ((first | lift_lets | skip); intro x; first
        | (have hx : ∀ a b c, Pres (Quiet g o) (x a b c) := ?_; clear_value x)
        | (have hx : ∀ a b, Pres (Quiet g o) (x a b) := ?_; clear_value x)
        | (have hx : ∀ a, Pres (Quiet g o) (x a) := ?_; clear_value x)
        | clear_value x)
    | (apply Pres_getS_bind; intro s0 hs0)
    | apply Pres_bind
    | apply Pres_pure
    | apply Pres_ite
    | intro _
    | apply_assumption
    | apply Pres_loop
    | apply Pres_iter
    | apply Pres_foldlM
    | apply Quiet_gen
    | (apply Pres_modS; intro s hs; with_unfolding_all exact hs)
    | apply tok_jmp_quiet
    | apply tok_expect_quiet
    | apply struct_find_quiet
    | apply hr.readdefs
    | exact hr
    | (with_unfolding_all rfl)
    | split
    | dsimp only)

theorem basetype_step_quiet (g : Int) (o : List Call) (r : Rec) (hr : QuietRec r) (e : Env) (v : BaseVars) :
    Pres (Quiet g o) (basetype_step e r v) := by
  unfold basetype_step
  repeat (with_reducible first
    | apply Pres_bind
    | apply Pres_pure
    | apply Pres_ite
    | intro _
    | apply Pres_loop
    | apply Pres_iter
    | apply Pres_foldlM
    | apply Quiet_gen
    | (apply Pres_modS; intro s hs; with_unfolding_all exact hs)
    | apply Quiet_tok_see
    | apply Quiet_tok_get
    | apply Quiet_tok_id
    | apply Quiet_typedef_find
    | apply Pres_getS
    | apply tok_jmp_quiet
    | apply struct_find_quiet
    | apply enum_create_quiet
    | apply struct_create_quiet
    | exact hr
    | (with_unfolding_all rfl)
    | split
    | dsimp only)

theorem basetype_quiet (g : Int) (o : List Call) (r : Rec) (hr : QuietRec r) (e : Env) (t0 : type) :
    Pres (Quiet g o) (basetype e r t0) := by
  unfold basetype
  repeat (with_reducible first
    | ((first | lift_lets | skip); intro x; first
        | (have hx : ∀ a b c, Pres (Quiet g o) (x a b c) := ?_; clear_value x)
        | (have hx : ∀ a b, Pres (Quiet g o) (x a b) := ?_; clear_value x)
        | (have hx : ∀ a, Pres (Quiet g o) (x a) := ?_; clear_value x)
        | clear_value x)
    | (apply Pres_getS_bind; intro s0 hs0)
    | apply Pres_bind
    | apply Pres_pure
    | apply Pres_ite
    | intro _
    | apply_assumption
    | apply Pres_loop
    | apply Pres_iter
    | apply Pres_foldlM
    | apply Quiet_gen
    | (apply Pres_modS; intro s hs; with_unfolding_all exact hs)
    | apply basetype_step_quiet
    | exact hr
    | (with_unfolding_all rfl)
    | split
    | dsimp only)

theorem readptrs_quiet (g : Int) (o : List Call) (r : Rec) (t : type) :
    Pres (Quiet g o) (readptrs r t) := by
  unfold readptrs
  repeat (with_reducible first
    | ((first | lift_lets | skip); intro x; first
        | (have hx : ∀ a b c, Pres (Quiet g o) (x a b c) := ?_; clear_value x)
        | (have hx : ∀ a b, Pres (Quiet g o) (x a b) := ?_; clear_value x)
        | (have hx : ∀ a, Pres (Quiet g o) (x a) := ?_; clear_value x)
        | clear_value x)
    | (apply Pres_getS_bind; intro s0 hs0)
    | apply Pres_bind
    | apply Pres_pure
    | apply Pres_ite
    | intro _
    | apply_assumption
    | apply Pres_loop
    | apply Pres_iter
    | apply Pres_foldlM
    | apply Quiet_gen
    | (apply Pres_modS; intro s hs; with_unfolding_all exact hs)
    | apply tok_jmp_quiet
    | exact hr
    | (with_unfolding_all rfl)
    | split
    | dsimp only)

theorem readarrays_quiet (g : Int) (o : List Call) (r : Rec) (hr : QuietRec r) (e : Env) (t : type) :
    Pres (Quiet g o) (readarrays e r t) := by
  unfold readarrays
  repeat (with_reducible first
    | ((first | lift_lets | skip); intro x; first
        | (have hx : ∀ a b c, Pres (Quiet g o) (x a b c) := ?_; clear_value x)
        | (have hx : ∀ a b, Pres (Quiet g o) (x a b) := ?_; clear_value x)
        | (have hx : ∀ a, Pres (Quiet g o) (x a) := ?_; clear_value x)
        | clear_value x)
    | (apply Pres_getS_bind; intro s0 hs0)
    | apply Pres_bind
    | apply Pres_pure
    | apply Pres_ite
    | intro _
    | apply_assumption
    | apply Pres_loop
    | apply Pres_iter
    | apply Pres_foldlM
    | apply Quiet_gen
    | (apply Pres_modS; intro s hs; with_unfolding_all exact hs)
    | apply Quiet_o_popnum
    | apply Pres_err
    | apply tok_jmp_quiet
    | apply tok_expect_quiet
    | apply ts_pop_de_quiet
    | apply array_add_quiet
    | apply hr.readexpr
    | exact hr
    | (with_unfolding_all rfl)
    | split
    | dsimp only)

theorem readargs_quiet (g : Int) (o : List Call) (r : Rec) (hr : QuietRec r) (e : Env) :
    Pres (Quiet g o) (readargs e r) := by
  unfold readargs
  repeat (with_reducible first
    | ((first | lift_lets | skip); intro x; first
        | (have hx : ∀ a b c, Pres (Quiet g o) (x a b c) := ?_; clear_value x)
        | (have hx : ∀ a b, Pres (Quiet g o) (x a b) := ?_; clear_value x)
        | (have hx : ∀ a, Pres (Quiet g o) (x a) := ?_; clear_value x)
        | clear_value x)
    | (apply Pres_getS_bind; intro s0 hs0)
    | apply Pres_bind
    | apply Pres_pure
    | apply Pres_ite
    | intro _
    | apply_assumption
    | apply Pres_loop
    | apply Pres_iter
    | apply Pres_foldlM
    | apply Quiet_gen
    | (apply Pres_modS; intro s hs; with_unfolding_all exact hs)
    | apply Quiet_tok_see
    | apply Quiet_tok_id
    | apply Pres_getS
    | apply tok_jmp_quiet
    | apply tok_expect_quiet
    | apply hr.readname
    | exact hr
    | (with_unfolding_all rfl)
    | split
    | dsimp only)

theorem setFuncType_quiet (g : Int) (o : List Call) (e : Env) (cur : type) (loc : Option Nat) (fid : Nat) :
    Pres (Quiet g o) (setFuncType e cur loc fid) := by
  unfold setFuncType
  repeat (with_reducible first
    | ((first | lift_lets | skip); intro x; first
        | (have hx : ∀ a b c, Pres (Quiet g o) (x a b c) := ?_; clear_value x)
        | (have hx : ∀ a b, Pres (Quiet g o) (x a b) := ?_; clear_value x)
        | (have hx : ∀ a, Pres (Quiet g o) (x a) := ?_; clear_value x)
        | clear_value x)
    | (apply Pres_getS_bind; intro s0 hs0)
    | apply Pres_bind
    | apply Pres_pure
    | apply Pres_ite
    | intro _
    | apply_assumption
    | apply Pres_loop
    | apply Pres_iter
    | apply Pres_foldlM
    | apply Quiet_gen
    | (apply Pres_modS; intro s hs; with_unfolding_all exact hs)
    | exact hr
    | (with_unfolding_all rfl)
    | split
    | dsimp only)

theorem readname_quiet (g : Int) (o : List Call) (r : Rec) (hr : QuietRec r) (e : Env) (hn : Bool) (b : Option type) :
    Pres (Quiet g o) (readname e r hn b) := by
  unfold readname
  repeat (with_reducible first
    | ((first | lift_lets | skip); intro x; first
        | (have hx : ∀ a b c, Pres (Quiet g o) (x a b c) := ?_; clear_value x)
        | (have hx : ∀ a b, Pres (Quiet g o) (x a b) := ?_; clear_value x)
        | (have hx : ∀ a, Pres (Quiet g o) (x a) := ?_; clear_value x)
        | clear_value x)
    | (apply Pres_getS_bind; intro s0 hs0)
    | apply Pres_bind
    | apply Pres_pure
    | apply Pres_ite
    | intro _
    | apply_assumption
    | apply Pres_loop
    | apply Pres_iter
    | apply Pres_foldlM
    | apply Quiet_gen
    | (apply Pres_modS; intro s hs; with_unfolding_all exact hs)
    | apply Quiet_tok_see
    | apply Quiet_tok_id
    | apply Pres_getS
    | apply tok_jmp_quiet
    | apply tok_expect_quiet
    | apply func_create_quiet
    | apply basetype_quiet
    | apply readptrs_quiet
    | apply readarrays_quiet
    | apply readargs_quiet
    | apply setFuncType_quiet
    | apply hr.readdefs
    | exact hr
    | (with_unfolding_all rfl)
    | split
    | dsimp only)

theorem readtype_quiet (g : Int) (o : List Call) (r : Rec) (hr : QuietRec r) (e : Env) :
    Pres (Quiet g o) (readtype e r) := by
  unfold readtype
  repeat (with_reducible first
    | ((first | lift_lets | skip); intro x; first
        | (have hx : ∀ a b c, Pres (Quiet g o) (x a b c) := ?_; clear_value x)
        | (have hx : ∀ a b, Pres (Quiet g o) (x a b) := ?_; clear_value x)
        | (have hx : ∀ a, Pres (Quiet g o) (x a) := ?_; clear_value x)
        | clear_value x)
    | (apply Pres_getS_bind; intro s0 hs0)
    | apply Pres_bind
    | apply Pres_pure
    | apply Pres_ite
    | intro _
    | apply_assumption
    | apply Pres_loop
    | apply Pres_iter
    | apply Pres_foldlM
    | apply Quiet_gen
    | (apply Pres_modS; intro s hs; with_unfolding_all exact hs)
    | apply readname_quiet
    | exact hr
    | (with_unfolding_all rfl)
    | split
    | dsimp only)

theorem readprimary_quiet (g : Int) (o : List Call) (r : Rec) (hr : QuietRec r) (e : Env) :
    Pres (Quiet g o) (readprimary e r) := by
  unfold readprimary
  repeat (with_reducible first
    | ((first | lift_lets | skip); intro x; first
        | (have hx : ∀ a b c, Pres (Quiet g o) (x a b c) := ?_; clear_value x)
        | (have hx : ∀ a b, Pres (Quiet g o) (x a b) := ?_; clear_value x)
        | (have hx : ∀ a, Pres (Quiet g o) (x a) := ?_; clear_value x)
        | clear_value x)
    | (apply Pres_getS_bind; intro s0 hs0)
    | apply Pres_bind
    | apply Pres_pure
    | apply Pres_ite
    | intro _
    | apply_assumption
    | apply Pres_loop
    | apply Pres_iter
    | apply Pres_foldlM
    | apply Quiet_gen
    | (apply Pres_modS; intro s hs; with_unfolding_all exact hs)
    | apply Quiet_tok_see
    | apply Quiet_tok_id
    | apply Quiet_tok_num
    | apply Quiet_tok_str
    | apply Quiet_ts_pop
    | apply Quiet_local_find
    | apply Quiet_global_find
    | apply Quiet_enum_find
    | apply Pres_err
    | apply Pres_getS
    | apply Quiet_o_cast
    | apply Quiet_o_num
    | apply Quiet_o_local
    | apply Quiet_o_sym
    | apply Quiet_o_tmpdrop
    | apply tok_jmp_quiet
    | apply tok_expect_quiet
    | apply ts_push_bt_quiet
    | apply ts_push_quiet
    | apply ts_push_addr_quiet
    | apply ts_pop_de_quiet
    | apply global_add_quiet
    | apply array_add_quiet
    | apply tmp_str_quiet
    | apply o_sym_tmp_str_quiet
    | apply readtype_quiet
    | apply hr.readexpr
    | apply hr.readpre
    | exact hr
    | (with_unfolding_all rfl)
    | split
    | dsimp only)

theorem arrayderef_quiet (g : Int) (o : List Call) (e : Env) :
    Pres (Quiet g o) (arrayderef e) := by
  unfold arrayderef
  repeat (with_reducible first
    | ((first | lift_lets | skip); intro x; first
        | (have hx : ∀ a b c, Pres (Quiet g o) (x a b c) := ?_; clear_value x)
        | (have hx : ∀ a b, Pres (Quiet g o) (x a b) := ?_; clear_value x)
        | (have hx : ∀ a, Pres (Quiet g o) (x a) := ?_; clear_value x)
        | clear_value x)
    | (apply Pres_getS_bind; intro s0 hs0)
    | apply Pres_bind
    | apply Pres_pure
    | apply Pres_ite
    | intro _
    | apply_assumption
    | apply Pres_loop
    | apply Pres_iter
    | apply Pres_foldlM
    | apply Quiet_gen
    | (apply Pres_modS; intro s hs; with_unfolding_all exact hs)
    | apply Quiet_type_totsz
    | apply Quiet_ts_pop
    | apply Pres_getS
    | apply Quiet_o_bop
    | apply Quiet_o_deref
    | apply Quiet_o_num
    | apply Quiet_o_tmpswap
    | apply ts_push_quiet
    | apply ts_pop_de_quiet
    | exact hr
    | (with_unfolding_all rfl)
    | split
    | dsimp only)

theorem inc_post_quiet (g : Int) (o : List Call) (e : Env) (op : Op) :
    Pres (Quiet g o) (inc_post e op) := by
  unfold inc_post
  repeat (with_reducible first
    | ((first | lift_lets | skip); intro x; first
        | (have hx : ∀ a b c, Pres (Quiet g o) (x a b c) := ?_; clear_value x)
        | (have hx : ∀ a b, Pres (Quiet g o) (x a b) := ?_; clear_value x)
        | (have hx : ∀ a, Pres (Quiet g o) (x a) := ?_; clear_value x)
        | clear_value x)
    | (apply Pres_getS_bind; intro s0 hs0)
    | apply Pres_bind
    | apply Pres_pure
    | apply Pres_ite
    | intro _
    | apply_assumption
    | apply Pres_loop
    | apply Pres_iter
    | apply Pres_foldlM
    | apply Quiet_gen
    | (apply Pres_modS; intro s hs; with_unfolding_all exact hs)
    | apply Quiet_type_szde
    | apply Pres_ub
    | apply Pres_getS
    | apply Quiet_o_bop
    | apply Quiet_o_assign
    | apply Quiet_o_load
    | apply Quiet_o_num
    | apply Quiet_o_tmpdrop
    | apply Quiet_o_tmpswap
    | apply Quiet_o_tmpcopy
    | apply ts_push_quiet
    | apply ts_de_quiet
    | apply ts_pop_de_quiet
    | exact hr
    | (with_unfolding_all rfl)
    | split
    | dsimp only)

theorem readfield_quiet (g : Int) (o : List Call)  :
    Pres (Quiet g o) (readfield) := by
  unfold readfield
  repeat (with_reducible first
    | ((first | lift_lets | skip); intro x; first
        | (have hx : ∀ a b c, Pres (Quiet g o) (x a b c) := ?_; clear_value x)
        | (have hx : ∀ a b, Pres (Quiet g o) (x a b) := ?_; clear_value x)
        | (have hx : ∀ a, Pres (Quiet g o) (x a) := ?_; clear_value x)
        | clear_value x)
    | (apply Pres_getS_bind; intro s0 hs0)
    | apply Pres_bind
    | apply Pres_pure
    | apply Pres_ite
    | intro _
    | apply_assumption
    | apply Pres_loop
    | apply Pres_iter
    | apply Pres_foldlM
    | apply Quiet_gen
    | (apply Pres_modS; intro s hs; with_unfolding_all exact hs)
    | apply Quiet_tok_id
    | apply Quiet_ts_pop
    | apply Pres_getS
    | apply Quiet_o_bop
    | apply Quiet_o_num
    | apply tok_expect_quiet
    | apply ts_push_addr_quiet
    | apply struct_field_quiet
    | exact hr
    | (with_unfolding_all rfl)
    | split
    | dsimp only)

theorem readcall_quiet (g : Int) (o : List Call) (r : Rec) (hr : QuietRec r) (e : Env) :
    Pres (Quiet g o) (readcall e r) := by
  unfold readcall
  repeat (with_reducible first
    | ((first | lift_lets | skip); intro x; first
        | (have hx : ∀ a b c, Pres (Quiet g o) (x a b c) := ?_; clear_value x)
        | (have hx : ∀ a b, Pres (Quiet g o) (x a b) := ?_; clear_value x)
        | (have hx : ∀ a, Pres (Quiet g o) (x a) := ?_; clear_value x)
        | clear_value x)
    | (apply Pres_getS_bind; intro s0 hs0)
    | apply Pres_bind
    | apply Pres_pure
    | apply Pres_ite
    | intro _
    | apply_assumption
    | apply Pres_loop
    | apply Pres_iter
    | apply Pres_foldlM
    | apply Quiet_gen
    | (apply Pres_modS; intro s hs; with_unfolding_all exact hs)
    | apply Quiet_tok_see
    | apply Quiet_ts_pop
    | apply Pres_getS
    | apply Quiet_o_cast
    | apply Quiet_o_call
    | apply Quiet_o_deref
    | apply tok_jmp_quiet
    | apply tok_expect_quiet
    | apply ts_push_bt_quiet
    | apply ts_push_quiet
    | apply ts_pop_de_quiet
    | apply hr.readexpr
    | exact hr
    | (with_unfolding_all rfl)
    | split
    | dsimp only)

theorem readpost_quiet (g : Int) (o : List Call) (r : Rec) (hr : QuietRec r) (e : Env) :
    Pres (Quiet g o) (readpost e r) := by
  unfold readpost
  repeat (with_reducible first
    | ((first | lift_lets | skip); intro x; first
        | (have hx : ∀ a b c, Pres (Quiet g o) (x a b c) := ?_; clear_value x)
        | (have hx : ∀ a b, Pres (Quiet g o) (x a b) := ?_; clear_value x)
        | (have hx : ∀ a, Pres (Quiet g o) (x a) := ?_; clear_value x)
        | clear_value x)
    | (apply Pres_getS_bind; intro s0 hs0)
    | apply Pres_bind
    | apply Pres_pure
    | apply Pres_ite
    | intro _
    | apply_assumption
    | apply Pres_loop
    | apply Pres_iter
    | apply Pres_foldlM
    | apply Quiet_gen
    | (apply Pres_modS; intro s hs; with_unfolding_all exact hs)
    | apply tok_jmp_quiet
    | apply tok_expect_quiet
    | apply ts_de_quiet
    | apply readprimary_quiet
    | apply arrayderef_quiet
    | apply inc_post_quiet
    | apply readfield_quiet
    | apply readcall_quiet
    | apply hr.readexpr
    | exact hr
    | (with_unfolding_all rfl)
    | split
    | dsimp only)

theorem inc_pre_quiet (g : Int) (o : List Call) (r : Rec) (hr : QuietRec r) (e : Env) (op : Op) :
    Pres (Quiet g o) (inc_pre e r op) := by
  unfold inc_pre
  repeat (with_reducible first
    | ((first | lift_lets | skip); intro x; first
        | (have hx : ∀ a b c, Pres (Quiet g o) (x a b c) := ?_; clear_value x)
        | (have hx : ∀ a b, Pres (Quiet g o) (x a b) := ?_; clear_value x)
        | (have hx : ∀ a, Pres (Quiet g o) (x a) := ?_; clear_value x)
        | clear_value x)
    | (apply Pres_getS_bind; intro s0 hs0)
    | apply Pres_bind
    | apply Pres_pure
    | apply Pres_ite
    | intro _
    | apply_assumption
    | apply Pres_loop
    | apply Pres_iter
    | apply Pres_foldlM
    | apply Quiet_gen
    | (apply Pres_modS; intro s hs; with_unfolding_all exact hs)
    | apply Quiet_type_szde
    | apply Pres_ub
    | apply Pres_getS
    | apply Quiet_o_bop
    | apply Quiet_o_assign
    | apply Quiet_o_num
    | apply Quiet_o_tmpcopy
    | apply ts_push_quiet
    | apply ts_de_quiet
    | apply ts_pop_de_quiet
    | apply hr.readpre
    | exact hr
    | (with_unfolding_all rfl)
    | split
    | dsimp only)

/-- The `sizeof` branch of `readpre`, after the keyword. -/
theorem sizeof_branch_quiet (g : Int) (o : List Call) (r : Rec) (hr : QuietRec r) (e : Env) :
    Pres (Quiet g o) (do
      let op ← tok_jmp Tok.lparen
      let t ← readtype e r
      let t ←
        if t.1 ≠ 0 then do
          nogen_inc
          if op = 0 then r.readexpr else r.readpre
          nogen_dec
          ts_pop
        else pure t.2
      o_num (← type_totsz e t)
      ts_push_bt e e.LONGSZ
      if op = 0 then tok_expect Tok.rparen else pure ()) := by
  have tail : ∀ (op : Int) (t : type), Pres (Quiet g o) (do
      o_num (← type_totsz e t)
      ts_push_bt e e.LONGSZ
      if op = 0 then tok_expect Tok.rparen else pure ()) := by
    intro op t
    apply Pres_bind
    · apply Quiet_type_totsz
    · intro z
      apply Pres_bind
      · apply Quiet_o_num
      · intro _
        apply Pres_bind
        · apply ts_push_bt_quiet
        · intro _
          apply Pres_ite
          · apply tok_expect_quiet
          · apply Pres_pure
  intro s a s1 hI h
  obtain ⟨op, sa, h1, h⟩ := bind_ok_inv _ _ _ _ _ h
  have hA := tok_jmp_quiet g o _ s op sa hI h1
  obtain ⟨t, sb, h2, h⟩ := bind_ok_inv _ _ _ _ _ h
  have hB := readtype_quiet g o r hr e sa t sb hA h2
  by_cases ht : t.1 ≠ 0
  · simp only [if_pos ht] at h
    obtain ⟨_, sd, h4, h⟩ := bind_ok_inv _ _ _ _ _ h
    have hD := Quiet_inc g o sb _ sd hB h4
    have hE : ∃ se, Quiet (g + 1) o se ∧
        (nogen_dec >>= fun _ => ts_pop >>= fun t1 => (do
          o_num (← type_totsz e t1)
          ts_push_bt e e.LONGSZ
          if op = 0 then tok_expect Tok.rparen else pure ())) se = .ok (a, s1) := by
      by_cases hop : op = 0
      · simp only [if_pos hop] at h
        obtain ⟨_, se, h5, h⟩ := bind_ok_inv _ _ _ _ _ h
        refine ⟨se, hr.readexpr (g + 1) o sd _ se hD h5, ?_⟩
        simp only [if_pos hop]
        exact h
      · simp only [if_neg hop] at h
        obtain ⟨_, se, h5, h⟩ := bind_ok_inv _ _ _ _ _ h
        refine ⟨se, hr.readpre (g + 1) o sd _ se hD h5, ?_⟩
        simp only [if_neg hop]
        exact h
    obtain ⟨se, hE2, h6⟩ := hE
    obtain ⟨_, sf, h7, h6⟩ := bind_ok_inv _ _ _ _ _ h6
    have hF := Quiet_dec g o se _ sf hE2 hI.1 h7
    obtain ⟨t1, sc, h8, h6⟩ := bind_ok_inv _ _ _ _ _ h6
    have hG := Quiet_ts_pop g o sf t1 sc hF h8
    exact tail op t1 sc a s1 hG h6
  · simp only [if_neg ht] at h
    exact tail op t.2 sb a s1 hB h

theorem readpre_quiet (g : Int) (o : List Call) (r : Rec) (hr : QuietRec r) (e : Env) :
    Pres (Quiet g o) (readpre e r) := by
  unfold readpre
  repeat (with_reducible first
    | exact sizeof_branch_quiet g o r hr e
    | ((first | lift_lets | skip); intro x; first
        | (have hx : ∀ a b c, Pres (Quiet g o) (x a b c) := ?_; clear_value x)
        | (have hx : ∀ a b, Pres (Quiet g o) (x a b) := ?_; clear_value x)
        | (have hx : ∀ a, Pres (Quiet g o) (x a) := ?_; clear_value x)
        | clear_value x)
    | (apply Pres_getS_bind; intro s0 hs0)
    | apply Pres_bind
    | apply Pres_pure
    | apply Pres_ite
    | intro _
    | apply_assumption
    | apply Pres_loop
    | apply Pres_iter
    | apply Pres_foldlM
    | apply Quiet_gen
    | (apply Pres_modS; intro s hs; with_unfolding_all exact hs)
    | apply Quiet_type_totsz
    | apply Quiet_ts_pop
    | apply Pres_err
    | apply Pres_getS
    | apply Quiet_o_uop
    | apply Quiet_o_deref
    | apply Quiet_o_num
    | apply tok_jmp_quiet
    | apply tok_expect_quiet
    | apply ts_push_bt_quiet
    | apply ts_push_quiet
    | apply ts_de_quiet
    | apply ts_pop_de_quiet
    | apply readtype_quiet
    | apply readpost_quiet
    | apply inc_pre_quiet
    | apply nogen_inc_quiet
    | apply nogen_dec_quiet
    | apply hr.readexpr
    | apply hr.readpre
    | exact hr
    | (with_unfolding_all rfl)
    | split
    | dsimp only)

theorem readmul_quiet (g : Int) (o : List Call) (r : Rec) (hr : QuietRec r) (e : Env) :
    Pres (Quiet g o) (readmul e r) := by
  unfold readmul
  repeat (with_reducible first
    | ((first | lift_lets | skip); intro x; first
        | (have hx : ∀ a b c, Pres (Quiet g o) (x a b c) := ?_; clear_value x)
        | (have hx : ∀ a b, Pres (Quiet g o) (x a b) := ?_; clear_value x)
        | (have hx : ∀ a, Pres (Quiet g o) (x a) := ?_; clear_value x)
        | clear_value x)
    | (apply Pres_getS_bind; intro s0 hs0)
    | apply Pres_bind
    | apply Pres_pure
    | apply Pres_ite
    | intro _
    | apply_assumption
    | apply Pres_loop
    | apply Pres_iter
    | apply Pres_foldlM
    | apply Quiet_gen
    | (apply Pres_modS; intro s hs; with_unfolding_all exact hs)
    | apply tok_jmp_quiet
    | apply ts_binop_quiet
    | apply readpre_quiet
    | exact hr
    | (with_unfolding_all rfl)
    | split
    | dsimp only)

theorem readadd_quiet (g : Int) (o : List Call) (r : Rec) (hr : QuietRec r) (e : Env) :
    Pres (Quiet g o) (readadd e r) := by
  unfold readadd
  repeat (with_reducible first
    | ((first | lift_lets | skip); intro x; first
        | (have hx : ∀ a b c, Pres (Quiet g o) (x a b c) := ?_; clear_value x)
        | (have hx : ∀ a b, Pres (Quiet g o) (x a b) := ?_; clear_value x)
        | (have hx : ∀ a, Pres (Quiet g o) (x a) := ?_; clear_value x)
        | clear_value x)
    | (apply Pres_getS_bind; intro s0 hs0)
    | apply Pres_bind
    | apply Pres_pure
    | apply Pres_ite
    | intro _
    | apply_assumption
    | apply Pres_loop
    | apply Pres_iter
    | apply Pres_foldlM
    | apply Quiet_gen
    | (apply Pres_modS; intro s hs; with_unfolding_all exact hs)
    | apply tok_jmp_quiet
    | apply ts_addop_quiet
    | apply readmul_quiet
    | exact hr
    | (with_unfolding_all rfl)
    | split
    | dsimp only)

theorem shift_quiet (g : Int) (o : List Call) (r : Rec) (hr : QuietRec r) (e : Env) (op : Op) :
    Pres (Quiet g o) (shift e r op) := by
  unfold shift
  repeat (with_reducible first
    | ((first | lift_lets | skip); intro x; first
        | (have hx : ∀ a b c, Pres (Quiet g o) (x a b c) := ?_; clear_value x)
        | (have hx : ∀ a b, Pres (Quiet g o) (x a b) := ?_; clear_value x)
        | (have hx : ∀ a, Pres (Quiet g o) (x a) := ?_; clear_value x)
        | clear_value x)
    | (apply Pres_getS_bind; intro s0 hs0)
    | apply Pres_bind
    | apply Pres_pure
    | apply Pres_ite
    | intro _
    | apply_assumption
    | apply Pres_loop
    | apply Pres_iter
    | apply Pres_foldlM
    | apply Quiet_gen
    | (apply Pres_modS; intro s hs; with_unfolding_all exact hs)
    | apply Quiet_o_bop
    | apply ts_push_bt_quiet
    | apply ts_pop_de2_quiet
    | apply readadd_quiet
    | exact hr
    | (with_unfolding_all rfl)
    | split
    | dsimp only)

theorem readshift_quiet (g : Int) (o : List Call) (r : Rec) (hr : QuietRec r) (e : Env) :
    Pres (Quiet g o) (readshift e r) := by
  unfold readshift
  repeat (with_reducible first
    | ((first | lift_lets | skip); intro x; first
        | (have hx : ∀ a b c, Pres (Quiet g o) (x a b c) := ?_; clear_value x)
        | (have hx : ∀ a b, Pres (Quiet g o) (x a b) := ?_; clear_value x)
        | (have hx : ∀ a, Pres (Quiet g o) (x a) := ?_; clear_value x)
        | clear_value x)
    | (apply Pres_getS_bind; intro s0 hs0)
    | apply Pres_bind
    | apply Pres_pure
    | apply Pres_ite
    | intro _
    | apply_assumption
    | apply Pres_loop
    | apply Pres_iter
    | apply Pres_foldlM
    | apply Quiet_gen
    | (apply Pres_modS; intro s hs; with_unfolding_all exact hs)
    | apply tok_jmp_quiet
    | apply readadd_quiet
    | apply shift_quiet
    | exact hr
    | (with_unfolding_all rfl)
    | split
    | dsimp only)

theorem cmp_quiet (g : Int) (o : List Call) (r : Rec) (hr : QuietRec r) (e : Env) (op : Op) :
    Pres (Quiet g o) (cmp e r op) := by
  unfold cmp
  repeat (with_reducible first
    | ((first | lift_lets | skip); intro x; first
        | (have hx : ∀ a b c, Pres (Quiet g o) (x a b c) := ?_; clear_value x)
        | (have hx : ∀ a b, Pres (Quiet g o) (x a b) := ?_; clear_value x)
        | (have hx : ∀ a, Pres (Quiet g o) (x a) := ?_; clear_value x)
        | clear_value x)
    | (apply Pres_getS_bind; intro s0 hs0)
    | apply Pres_bind
    | apply Pres_pure
    | apply Pres_ite
    | intro _
    | apply_assumption
    | apply Pres_loop
    | apply Pres_iter
    | apply Pres_foldlM
    | apply Quiet_gen
    | (apply Pres_modS; intro s hs; with_unfolding_all exact hs)
    | apply Quiet_o_bop
    | apply ts_push_bt_quiet
    | apply ts_pop_de2_quiet
    | apply readshift_quiet
    | exact hr
    | (with_unfolding_all rfl)
    | split
    | dsimp only)

theorem readcmp_quiet (g : Int) (o : List Call) (r : Rec) (hr : QuietRec r) (e : Env) :
    Pres (Quiet g o) (readcmp e r) := by
  unfold readcmp
  repeat (with_reducible first
    | ((first | lift_lets | skip); intro x; first
        | (have hx : ∀ a b c, Pres (Quiet g o) (x a b c) := ?_; clear_value x)
        | (have hx : ∀ a b, Pres (Quiet g o) (x a b) := ?_; clear_value x)
        | (have hx : ∀ a, Pres (Quiet g o) (x a) := ?_; clear_value x)
        | clear_value x)
    | (apply Pres_getS_bind; intro s0 hs0)
    | apply Pres_bind
    | apply Pres_pure
    | apply Pres_ite
    | intro _
    | apply_assumption
    | apply Pres_loop
    | apply Pres_iter
    | apply Pres_foldlM
    | apply Quiet_gen
    | (apply Pres_modS; intro s hs; with_unfolding_all exact hs)
    | apply tok_jmp_quiet
    | apply readshift_quiet
    | apply cmp_quiet
    | exact hr
    | (with_unfolding_all rfl)
    | split
    | dsimp only)

theorem eq_quiet (g : Int) (o : List Call) (r : Rec) (hr : QuietRec r) (e : Env) (op : Op) :
    Pres (Quiet g o) (eq e r op) := by
  unfold eq
  repeat (with_reducible first
    | ((first | lift_lets | skip); intro x; first
        | (have hx : ∀ a b c, Pres (Quiet g o) (x a b c) := ?_; clear_value x)
        | (have hx : ∀ a b, Pres (Quiet g o) (x a b) := ?_; clear_value x)
        | (have hx : ∀ a, Pres (Quiet g o) (x a) := ?_; clear_value x)
        | clear_value x)
    | (apply Pres_getS_bind; intro s0 hs0)
    | apply Pres_bind
    | apply Pres_pure
    | apply Pres_ite
    | intro _
    | apply_assumption
    | apply Pres_loop
    | apply Pres_iter
    | apply Pres_foldlM
    | apply Quiet_gen
    | (apply Pres_modS; intro s hs; with_unfolding_all exact hs)
    | apply Quiet_o_bop
    | apply ts_push_bt_quiet
    | apply ts_pop_de2_quiet
    | apply readcmp_quiet
    | exact hr
    | (with_unfolding_all rfl)
    | split
    | dsimp only)

theorem readeq_quiet (g : Int) (o : List Call) (r : Rec) (hr : QuietRec r) (e : Env) :
    Pres (Quiet g o) (readeq e r) := by
  unfold readeq
  repeat (with_reducible first
    | ((first | lift_lets | skip); intro x; first
        | (have hx : ∀ a b c, Pres (Quiet g o) (x a b c) := ?_; clear_value x)
        | (have hx : ∀ a b, Pres (Quiet g o) (x a b) := ?_; clear_value x)
        | (have hx : ∀ a, Pres (Quiet g o) (x a) := ?_; clear_value x)
        | clear_value x)
    | (apply Pres_getS_bind; intro s0 hs0)
    | apply Pres_bind
    | apply Pres_pure
    | apply Pres_ite
    | intro _
    | apply_assumption
    | apply Pres_loop
    | apply Pres_iter
    | apply Pres_foldlM
    | apply Quiet_gen
    | (apply Pres_modS; intro s hs; with_unfolding_all exact hs)
    | apply tok_jmp_quiet
    | apply readcmp_quiet
    | apply eq_quiet
    | exact hr
    | (with_unfolding_all rfl)
    | split
    | dsimp only)

theorem readbitand_quiet (g : Int) (o : List Call) (r : Rec) (hr : QuietRec r) (e : Env) :
    Pres (Quiet g o) (readbitand e r) := by
  unfold readbitand
  repeat (with_reducible first
    | ((first | lift_lets | skip); intro x; first
        | (have hx : ∀ a b c, Pres (Quiet g o) (x a b c) := ?_; clear_value x)
        | (have hx : ∀ a b, Pres (Quiet g o) (x a b) := ?_; clear_value x)
        | (have hx : ∀ a, Pres (Quiet g o) (x a) := ?_; clear_value x)
        | clear_value x)
    | (apply Pres_getS_bind; intro s0 hs0)
    | apply Pres_bind
    | apply Pres_pure
    | apply Pres_ite
    | intro _
    | apply_assumption
    | apply Pres_loop
    | apply Pres_iter
    | apply Pres_foldlM
    | apply Quiet_gen
    | (apply Pres_modS; intro s hs; with_unfolding_all exact hs)
    | apply tok_jmp_quiet
    | apply ts_binop_quiet
    | apply readeq_quiet
    | exact hr
    | (with_unfolding_all rfl)
    | split
    | dsimp only)

theorem readxor_quiet (g : Int) (o : List Call) (r : Rec) (hr : QuietRec r) (e : Env) :
    Pres (Quiet g o) (readxor e r) := by
  unfold readxor
  repeat (with_reducible first
    | ((first | lift_lets | skip); intro x; first
        | (have hx : ∀ a b c, Pres (Quiet g o) (x a b c) := ?_; clear_value x)
        | (have hx : ∀ a b, Pres (Quiet g o) (x a b) := ?_; clear_value x)
        | (have hx : ∀ a, Pres (Quiet g o) (x a) := ?_; clear_value x)
        | clear_value x)
    | (apply Pres_getS_bind; intro s0 hs0)
    | apply Pres_bind
    | apply Pres_pure
    | apply Pres_ite
    | intro _
    | apply_assumption
    | apply Pres_loop
    | apply Pres_iter
    | apply Pres_foldlM
    | apply Quiet_gen
    | (apply Pres_modS; intro s hs; with_unfolding_all exact hs)
    | apply tok_jmp_quiet
    | apply ts_binop_quiet
    | apply readbitand_quiet
    | exact hr
    | (with_unfolding_all rfl)
    | split
    | dsimp only)

theorem readbitor_quiet (g : Int) (o : List Call) (r : Rec) (hr : QuietRec r) (e : Env) :
    Pres (Quiet g o) (readbitor e r) := by
  unfold readbitor
  repeat (with_reducible first
    | ((first | lift_lets | skip); intro x; first
        | (have hx : ∀ a b c, Pres (Quiet g o) (x a b c) := ?_; clear_value x)
        | (have hx : ∀ a b, Pres (Quiet g o) (x a b) := ?_; clear_value x)
        | (have hx : ∀ a, Pres (Quiet g o) (x a) := ?_; clear_value x)
        | clear_value x)
    | (apply Pres_getS_bind; intro s0 hs0)
    | apply Pres_bind
    | apply Pres_pure
    | apply Pres_ite
    | intro _
    | apply_assumption
    | apply Pres_loop
    | apply Pres_iter
    | apply Pres_foldlM
    | apply Quiet_gen
    | (apply Pres_modS; intro s hs; with_unfolding_all exact hs)
    | apply tok_jmp_quiet
    | apply ts_binop_quiet
    | apply readxor_quiet
    | exact hr
    | (with_unfolding_all rfl)
    | split
    | dsimp only)

theorem readand_quiet (g : Int) (o : List Call) (r : Rec) (hr : QuietRec r) (e : Env) :
    Pres (Quiet g o) (readand e r) := by
  unfold readand
  repeat (with_reducible first
    | ((first | lift_lets | skip); intro x; first
        | (have hx : ∀ a b c, Pres (Quiet g o) (x a b c) := ?_; clear_value x)
        | (have hx : ∀ a b, Pres (Quiet g o) (x a b) := ?_; clear_value x)
        | (have hx : ∀ a, Pres (Quiet g o) (x a) := ?_; clear_value x)
        | clear_value x)
    | (apply Pres_getS_bind; intro s0 hs0)
    | apply Pres_bind
    | apply Pres_pure
    | apply Pres_ite
    | intro _
    | apply_assumption
    | apply Pres_loop
    | apply Pres_iter
    | apply Pres_foldlM
    | apply Quiet_gen
    | (apply Pres_modS; intro s hs; with_unfolding_all exact hs)
    | apply Quiet_tok_see
    | apply Quiet_LABEL
    | apply Quiet_o_num
    | apply Quiet_o_label
    | apply Quiet_o_jz
    | apply Quiet_o_jmp
    | apply Quiet_o_fork
    | apply Quiet_o_forkpush
    | apply Quiet_o_forkjoin
    | apply tok_jmp_quiet
    | apply ts_push_bt_quiet
    | apply ts_pop_de_quiet
    | apply readbitor_quiet
    | exact hr
    | (with_unfolding_all rfl)
    | split
    | dsimp only)

theorem reador_quiet (g : Int) (o : List Call) (r : Rec) (hr : QuietRec r) (e : Env) :
    Pres (Quiet g o) (reador e r) := by
  unfold reador
  repeat (with_reducible first
    | ((first | lift_lets | skip); intro x; first
        | (have hx : ∀ a b c, Pres (Quiet g o) (x a b c) := ?_; clear_value x)
        | (have hx : ∀ a b, Pres (Quiet g o) (x a b) := ?_; clear_value x)
        | (have hx : ∀ a, Pres (Quiet g o) (x a) := ?_; clear_value x)
        | clear_value x)
    | (apply Pres_getS_bind; intro s0 hs0)
    | apply Pres_bind
    | apply Pres_pure
    | apply Pres_ite
    | intro _
    | apply_assumption
    | apply Pres_loop
    | apply Pres_iter
    | apply Pres_foldlM
    | apply Quiet_gen
    | (apply Pres_modS; intro s hs; with_unfolding_all exact hs)
    | apply Quiet_tok_see
    | apply Quiet_LABEL
    | apply Quiet_o_num
    | apply Quiet_o_label
    | apply Quiet_o_jnz
    | apply Quiet_o_jmp
    | apply Quiet_o_fork
    | apply Quiet_o_forkpush
    | apply Quiet_o_forkjoin
    | apply tok_jmp_quiet
    | apply ts_push_bt_quiet
    | apply ts_pop_de_quiet
    | apply readand_quiet
    | exact hr
    | (with_unfolding_all rfl)
    | split
    | dsimp only)

theorem readcexpr_const_quiet (g : Int) (o : List Call) (r : Rec) (hr : QuietRec r) (e : Env) :
    Pres (Quiet g o) (readcexpr_const e r) := by
  intro s a s1 hI h
  unfold readcexpr_const at h
  obtain ⟨c, s0, h0, h⟩ := bind_ok_inv _ _ _ _ _ h
  rw [o_popnum_quiet_val g o e _ s hI] at h0
  cases h0
  rw [if_neg (fun hx => hx rfl)] at h
  by_cases hc : e.garbage = 0
  · simp only [if_pos hc, if_neg (fun hx : ¬ e.garbage = 0 => hx hc)] at h
    obtain ⟨_, sa, h1, h⟩ := bind_ok_inv _ _ _ _ _ h
    have hA := Quiet_inc g o s _ sa hI h1
    obtain ⟨_, sb, h2, h⟩ := bind_ok_inv _ _ _ _ _ h
    have hB := hr.readcexpr (g + 1) o sa _ sb hA h2
    obtain ⟨_, sc, h3, h⟩ := bind_ok_inv _ _ _ _ _ h
    have hC := ts_pop_de_quiet (g + 1) o e sb _ sc hB h3
    obtain ⟨_, sd, h4, h⟩ := bind_ok_inv _ _ _ _ _ h
    have hD := tok_expect_quiet (g + 1) o _ sc _ sd hC h4
    obtain ⟨_, se, h5, h⟩ := bind_ok_inv _ _ _ _ _ h
    have hE := Quiet_dec g o sd _ se hD hI.1 h5
    obtain ⟨_, sf, h6, h⟩ := bind_ok_inv _ _ _ _ _ h
    have hF := hr.readcexpr g o se _ sf hE h6
    obtain ⟨_, sg, h7, h⟩ := bind_ok_inv _ _ _ _ _ h
    have hG := ts_de_quiet g o e 1 sf _ sg hF h7
    cases h
    exact hG
  · simp only [if_neg hc, if_pos (show e.garbage ≠ 0 from hc)] at h
    obtain ⟨_, sa, h1, h⟩ := bind_ok_inv _ _ _ _ _ h
    cases h1
    obtain ⟨_, sb, h2, h⟩ := bind_ok_inv _ _ _ _ _ h
    have hB := hr.readcexpr g o s _ sb hI h2
    obtain ⟨_, sc, h3, h⟩ := bind_ok_inv _ _ _ _ _ h
    have hC := ts_pop_de_quiet g o e sb _ sc hB h3
    obtain ⟨_, sd, h4, h⟩ := bind_ok_inv _ _ _ _ _ h
    have hD := tok_expect_quiet g o _ sc _ sd hC h4
    obtain ⟨_, se, h5, h⟩ := bind_ok_inv _ _ _ _ _ h
    have hE := Quiet_inc g o sd _ se hD h5
    obtain ⟨_, sf, h6, h⟩ := bind_ok_inv _ _ _ _ _ h
    have hF := hr.readcexpr (g + 1) o se _ sf hE h6
    obtain ⟨_, sg, h7, h⟩ := bind_ok_inv _ _ _ _ _ h
    have hG := ts_de_quiet (g + 1) o e 1 sf _ sg hF h7
    obtain ⟨_, sh, h8, h⟩ := bind_ok_inv _ _ _ _ _ h
    have hH := Quiet_dec g o sg _ sh hG hI.1 h8
    cases h
    exact hH

theorem readcexpr_quiet (g : Int) (o : List Call) (r : Rec) (hr : QuietRec r) (e : Env) :
    Pres (Quiet g o) (readcexpr e r) := by
  unfold readcexpr
  repeat (with_reducible first
    | ((first | lift_lets | skip); intro x; first
        | (have hx : ∀ a b c, Pres (Quiet g o) (x a b c) := ?_; clear_value x)
        | (have hx : ∀ a b, Pres (Quiet g o) (x a b) := ?_; clear_value x)
        | (have hx : ∀ a, Pres (Quiet g o) (x a) := ?_; clear_value x)
        | clear_value x)
    | (apply Pres_getS_bind; intro s0 hs0)
    | apply Pres_bind
    | apply Pres_pure
    | apply Pres_ite
    | intro _
    | apply_assumption
    | apply Pres_loop
    | apply Pres_iter
    | apply Pres_foldlM
    | apply Quiet_gen
    | (apply Pres_modS; intro s hs; with_unfolding_all exact hs)
    | apply Quiet_LABEL
    | apply Quiet_o_label
    | apply Quiet_o_jz
    | apply Quiet_o_jmp
    | apply Quiet_o_fork
    | apply Quiet_o_forkpush
    | apply Quiet_o_forkjoin
    | apply tok_jmp_quiet
    | apply tok_expect_quiet
    | apply ts_de_quiet
    | apply ts_pop_de_quiet
    | apply reador_quiet
    | apply readcexpr_const_quiet
    | apply hr.readcexpr
    | exact hr
    | (with_unfolding_all rfl)
    | split
    | dsimp only)

theorem opassign_quiet (g : Int) (o : List Call) (r : Rec) (hr : QuietRec r) (e : Env) (op : Op) (p : Int) :
    Pres (Quiet g o) (opassign e r op p) := by
  unfold opassign
  repeat (with_reducible first
    | ((first | lift_lets | skip); intro x; first
        | (have hx : ∀ a b c, Pres (Quiet g o) (x a b c) := ?_; clear_value x)
        | (have hx : ∀ a b, Pres (Quiet g o) (x a b) := ?_; clear_value x)
        | (have hx : ∀ a, Pres (Quiet g o) (x a) := ?_; clear_value x)
        | clear_value x)
    | (apply Pres_getS_bind; intro s0 hs0)
    | apply Pres_bind
    | apply Pres_pure
    | apply Pres_ite
    | intro _
    | apply_assumption
    | apply Pres_loop
    | apply Pres_iter
    | apply Pres_foldlM
    | apply Quiet_gen
    | (apply Pres_modS; intro s hs; with_unfolding_all exact hs)
    | apply Quiet_ts_pop
    | apply Pres_ub
    | apply Pres_getS
    | apply Quiet_o_assign
    | apply Quiet_o_tmpcopy
    | apply ts_push_quiet
    | apply ts_de_quiet
    | apply ts_binop_quiet
    | apply ts_addop_quiet
    | apply hr.readexpr
    | exact hr
    | (with_unfolding_all rfl)
    | split
    | dsimp only)

theorem doassign_quiet (g : Int) (o : List Call) (e : Env) :
    Pres (Quiet g o) (doassign e) := by
  unfold doassign
  repeat (with_reducible first
    | ((first | lift_lets | skip); intro x; first
        | (have hx : ∀ a b c, Pres (Quiet g o) (x a b c) := ?_; clear_value x)
        | (have hx : ∀ a b, Pres (Quiet g o) (x a b) := ?_; clear_value x)
        | (have hx : ∀ a, Pres (Quiet g o) (x a) := ?_; clear_value x)
        | clear_value x)
    | (apply Pres_getS_bind; intro s0 hs0)
    | apply Pres_bind
    | apply Pres_pure
    | apply Pres_ite
    | intro _
    | apply_assumption
    | apply Pres_loop
    | apply Pres_iter
    | apply Pres_foldlM
    | apply Quiet_gen
    | (apply Pres_modS; intro s hs; with_unfolding_all exact hs)
    | apply Quiet_type_totsz
    | apply Quiet_ts_pop
    | apply Pres_ub
    | apply Pres_getS
    | apply Quiet_o_memcpy
    | apply Quiet_o_assign
    | apply Quiet_o_num
    | apply ts_de_quiet
    | apply ts_pop_de_quiet
    | exact hr
    | (with_unfolding_all rfl)
    | split
    | dsimp only)

theorem readexpr_quiet (g : Int) (o : List Call) (r : Rec) (hr : QuietRec r) (e : Env) :
    Pres (Quiet g o) (readexpr e r) := by
  unfold readexpr
  repeat (with_reducible first
    | ((first | lift_lets | skip); intro x; first
        | (have hx : ∀ a b c, Pres (Quiet g o) (x a b c) := ?_; clear_value x)
        | (have hx : ∀ a b, Pres (Quiet g o) (x a b) := ?_; clear_value x)
        | (have hx : ∀ a, Pres (Quiet g o) (x a) := ?_; clear_value x)
        | clear_value x)
    | (apply Pres_getS_bind; intro s0 hs0)
    | apply Pres_bind
    | apply Pres_pure
    | apply Pres_ite
    | intro _
    | apply_assumption
    | apply Pres_loop
    | apply Pres_iter
    | apply Pres_foldlM
    | apply Quiet_gen
    | (apply Pres_modS; intro s hs; with_unfolding_all exact hs)
    | apply tok_jmp_quiet
    | apply readcexpr_quiet
    | apply opassign_quiet
    | apply doassign_quiet
    | apply hr.readexpr
    | exact hr
    | (with_unfolding_all rfl)
    | split
    | dsimp only)

theorem typedefdef_quiet (g : Int) (o : List Call) (e : Env) (nm : name) (fl : Nat) :
    Pres (Quiet g o) (typedefdef e nm fl) := by
  unfold typedefdef
  repeat (with_reducible first
    | ((first | lift_lets | skip); intro x; first
        | (have hx : ∀ a b c, Pres (Quiet g o) (x a b c) := ?_; clear_value x)
        | (have hx : ∀ a b, Pres (Quiet g o) (x a b) := ?_; clear_value x)
        | (have hx : ∀ a, Pres (Quiet g o) (x a) := ?_; clear_value x)
        | clear_value x)
    | (apply Pres_getS_bind; intro s0 hs0)
    | apply Pres_bind
    | apply Pres_pure
    | apply Pres_ite
    | intro _
    | apply_assumption
    | apply Pres_loop
    | apply Pres_iter
    | apply Pres_foldlM
    | apply Quiet_gen
    | (apply Pres_modS; intro s hs; with_unfolding_all exact hs)
    | apply typedef_add_quiet
    | exact hr
    | (with_unfolding_all rfl)
    | split
    | dsimp only)

theorem calldef_quiet (g : Int) (o : List Call) (r : Rec) (e : Env) (cb : DefCb) (nm : name)
    (fl : Nat) (hcb : DefCb.silent cb = true) :
    Pres (Quiet g o) (calldef e r cb nm fl) := by
  cases cb with
  | structdef id => exact structdef_quiet g o e id nm fl
  | krdef fid => exact krdef_quiet g o fid nm fl
  | typedefdef => exact typedefdef_quiet g o e nm fl
  | localdef => cases hcb
  | globaldef => cases hcb

theorem readdefs_loop_quiet (g : Int) (o : List Call) (r : Rec) (hr : QuietRec r) (e : Env) (cb : DefCb) (b : type) (fl : Nat) (hcb : DefCb.silent cb = true) :
    Pres (Quiet g o) (readdefs_loop e r cb b fl) := by
  unfold readdefs_loop
  repeat (with_reducible first
    | ((first | lift_lets | skip); intro x; first
        | (have hx : ∀ a b c, Pres (Quiet g o) (x a b c) := ?_; clear_value x)
        | (have hx : ∀ a b, Pres (Quiet g o) (x a b) := ?_; clear_value x)
        | (have hx : ∀ a, Pres (Quiet g o) (x a) := ?_; clear_value x)
        | clear_value x)
    | (apply Pres_getS_bind; intro s0 hs0)
    | apply Pres_bind
    | apply Pres_pure
    | apply Pres_ite
    | intro _
    | apply_assumption
    | apply Pres_loop
    | apply Pres_iter
    | apply Pres_foldlM
    | apply Quiet_gen
    | (apply Pres_modS; intro s hs; with_unfolding_all exact hs)
    | apply tok_jmp_quiet
    | apply readname_quiet
    | apply calldef_quiet
    | exact hr
    | (with_unfolding_all rfl)
    | split
    | dsimp only)

theorem readdefs_quiet (g : Int) (o : List Call) (r : Rec) (hr : QuietRec r) (e : Env) (cb : DefCb) (hcb : DefCb.silent cb = true) :
    Pres (Quiet g o) (readdefs e r cb) := by
  unfold readdefs
  repeat (with_reducible first
    | ((first | lift_lets | skip); intro x; first
        | (have hx : ∀ a b c, Pres (Quiet g o) (x a b c) := ?_; clear_value x)
        | (have hx : ∀ a b, Pres (Quiet g o) (x a b) := ?_; clear_value x)
        | (have hx : ∀ a, Pres (Quiet g o) (x a) := ?_; clear_value x)
        | clear_value x)
    | (apply Pres_getS_bind; intro s0 hs0)
    | apply Pres_bind
    | apply Pres_pure
    | apply Pres_ite
    | intro _
    | apply_assumption
    | apply Pres_loop
    | apply Pres_iter
    | apply Pres_foldlM
    | apply Quiet_gen
    | (apply Pres_modS; intro s hs; with_unfolding_all exact hs)
    | apply Quiet_tok_see
    | apply basetype_quiet
    | apply readdefs_loop_quiet
    | exact hr
    | (with_unfolding_all rfl)
    | split
    | dsimp only)

theorem recN_quiet (e : Env) (n : Nat) : QuietRec (recN e n) := by
  induction n with
  | zero =>
    exact ⟨fun _ _ => Pres_outOfFuel _, fun _ _ => Pres_outOfFuel _, fun _ _ => Pres_outOfFuel _,
      fun _ _ _ _ => Pres_outOfFuel _, fun _ _ _ _ => Pres_outOfFuel _⟩
  | succ n ih =>
    exact ⟨fun g o => readexpr_quiet g o _ ih e, fun g o => readpre_quiet g o _ ih e,
      fun g o => readcexpr_quiet g o _ ih e, fun g o b t => readname_quiet g o _ ih e b t,
      fun g o cb hcb => readdefs_quiet g o _ ih e cb hcb⟩

end QuietKept
/-! ## The claims -/

/-- C1 (the code at the failing input): for `i + p` with `i : int` and `p : int *`, where
the pointer is the right operand (on top of the type stack), `ts_addop(O_ADD)` swaps the
operands, swaps them back and issues `o_bop(O_ADD)`: the integer is not multiplied by
`type_szde(p) = 4`.  For `p + i` the integer is multiplied by 4.  The last part is the
same for the statements `i + p; p + i;` read by the parser in a function body. -/
theorem ts_addop_int_plus_ptr_unscaled :
    outOf (ts_addop demoEnv Op.ADD (stackOf [tInt, tIntPtr])) =
      some [Call.tmpswap, Call.tmpswap, Call.tmpswap, Call.tmpswap, Call.bop Op.ADD false] ∧
    outOf (ts_addop demoEnv Op.ADD (stackOf [tIntPtr, tInt])) =
      some [Call.tmpswap, Call.tmpswap, Call.num 4, Call.bop Op.MUL false,
        Call.bop Op.ADD false] ∧
    szde demoEnv (stackOf [tInt, tIntPtr]) tIntPtr = some 4 ∧
    (outOf (parse demoEnv (recN demoEnv 20) (State.init ptrAddProg))).map pass2Calls = some
      [Call.tmpdrop (-1), Call.tmpdrop (-1), Call.tmpdrop (-1),
       Call.local_ 0, Call.local_ 1, Call.deref 8, Call.tmpswap, Call.deref 260, Call.tmpswap,
       Call.tmpswap, Call.tmpswap, Call.bop Op.ADD false,
       Call.tmpdrop (-1), Call.tmpdrop (-1),
       Call.local_ 1, Call.local_ 0, Call.deref 260, Call.tmpswap, Call.deref 8, Call.tmpswap,
       Call.num 4, Call.bop Op.MUL false, Call.bop Op.ADD false] := by
  decide!

/-- C2: in `ts_addop(O_SUB)` with two pointer operands, the calls made (through the
`nogen` macros) are the loads of `ts_pop_de2`, the subtraction, then `o_num(sz)` and
`o_bop(O_DIV)` with `sz` the `type_szde` of the pointer type (of the operand on top,
read as the C `int sz`), which are left out exactly when `sz` is at most 1; the entry
pushed has base type `LONGSZ | BT_SIGNED`, pointer depth 0, no flags and `addr` 0. -/
theorem ts_addop_sub_ptr_ptr (e : Env) (s : State) (k z : Nat) (h : s.nts = k + 2)
    (h1 : (deval s (s.ts.getD (k + 1) type.zero)).ptr ≠ 0)
    (h2 : (deval s (s.ts.getD k type.zero)).ptr ≠ 0)
    (hz : szde e s (deval s (s.ts.getD (k + 1) type.zero)) = some z) :
    ∃ s1, ts_addop e Op.SUB s = .ok ((), s1) ∧ s1.nts = k + 1 ∧
      (s1.ts.getD k type.zero).bt = e.LONGSZ ||| BT_SIGNED ∧
      (s1.ts.getD k type.zero).ptr = 0 ∧
      (s1.ts.getD k type.zero).flags = 0 ∧
      (s1.ts.getD k type.zero).addr = 0 ∧
      s1.out = s.out ++ gate s.nogen
        (dcalls e s 1 (s.ts.getD (k + 1) type.zero) ++ [Call.tmpswap] ++
          dcalls e s 1 (s.ts.getD k type.zero) ++ [Call.tmpswap] ++
          [Call.bop Op.SUB false] ++
          (if toInt32 z > 1 then [Call.num (toInt32 z), Call.bop Op.DIV false] else []) ++
          (if e.NCCWORDCAST then [Call.cast (e.LONGSZ ||| BT_SIGNED)] else [])) := by
  have hz1 : ∀ ts nts out, szde e { s with ts := ts, nts := nts, out := out }
      (deval s (s.ts.getD (k + 1) type.zero)) = some z := fun _ _ _ => hz
  unfold ts_addop
  simp only [bind_apply, ts_pop_de2_apply e s k h, h1, h2, false_and, and_false, if_false,
    ne_eq, not_true_eq_false, not_false_eq_true, and_self, if_true, pure_apply, o_bop, gen_apply,
    type_szde_apply e _ _ z (hz1 _ _ _)]
  by_cases hgt : toInt32 z > 1
  · simp only [hgt, if_true, bind_apply, o_num, o_bop, gen_apply, ts_push_bt_apply]
    refine ⟨_, rfl, rfl, ?_, ?_, ?_, ?_, ?_⟩ <;>
      simp only [getD_tset_self, List.append_assoc, gate_append, List.singleton_append]
  · simp only [hgt, if_false, bind_apply, pure_apply, ts_push_bt_apply]
    refine ⟨_, rfl, rfl, ?_, ?_, ?_, ?_, ?_⟩ <;>
      simp only [getD_tset_self, List.append_assoc, gate_append, List.nil_append]

theorem ts_addop_sub_ptr_ptr_witness :
    (stackOf [tIntPtr, tIntPtr]).nts = 0 + 2 ∧
    ∃ s1, ts_addop demoEnv Op.SUB (stackOf [tIntPtr, tIntPtr]) = .ok ((), s1) ∧
      s1.out = [Call.tmpswap, Call.tmpswap, Call.bop Op.SUB false, Call.num 4,
        Call.bop Op.DIV false] :=
  ⟨rfl, (ts_addop_sub_ptr_ptr demoEnv (stackOf [tIntPtr, tIntPtr]) 0 4 rfl (by decide) (by decide)
    (by decide)).imp (fun _ h => ⟨h.1, h.2.2.2.2.2.2.trans (by decide)⟩)⟩

/-- C3 (as amended): a member added by `structdef` to a struct that is not a union is
placed at `ALIGN(size, a)`, where `size` is the running size of the struct and `a` is
`type_alignment` of the member type when that is not an array, and
`MIN(LONGSZ, type_totsz(element type))` when it is an array of pointer depth 0; when
`a` is a power of two and `size` is not negative, that offset is `size` rounded up to a
multiple of `a`. -/
theorem structdef_offset (e : Env) (id : Nat) (nm : name) (flags : Nat) (s s1 : State)
    (hu : (s.structs.getD id structinfo.zero).isunion = 0)
    (h : structdef e id nm flags s = .ok ((), s1)) :
    ∃ a : Int,
      (if nm.type.flags &&& T_ARRAY ≠ 0 ∧ nm.type.ptr = 0 then
        ∃ z, totsz e s (s.arrays.getD nm.type.id array.zero).type = some z ∧
          a = MIN (e.LONGSZ : Int) z
       else alignment e s nm.type = some a) ∧
      (s1.structs.getD id structinfo.zero).fields =
        (s.structs.getD id structinfo.zero).fields ++
          [{ nm with addr := ALIGN (s.structs.getD id structinfo.zero).size a }] ∧
      (∀ j : Nat, a = 2 ^ j → 0 ≤ (s.structs.getD id structinfo.zero).size →
        ALIGN (s.structs.getD id structinfo.zero).size a =
          ((s.structs.getD id structinfo.zero).size + a - 1) / a * a) := by
  obtain ⟨a, z, ha, _, hs1⟩ := structdef_struct_ok e id nm flags s s1 hu h
  refine ⟨a, ?_, by rw [hs1], ?_⟩
  · unfold structAlign at ha
    cases hal : alignment e s nm.type with
    | none => rw [hal] at ha; cases ha
    | some al =>
      rw [hal] at ha
      by_cases harr : nm.type.flags &&& T_ARRAY ≠ 0 ∧ nm.type.ptr = 0
      · rw [if_pos harr]
        simp only [if_pos harr] at ha
        cases hze : totsz e s (s.arrays.getD nm.type.id array.zero).type with
        | none => rw [hze] at ha; cases ha
        | some ze =>
          rw [hze] at ha
          exact ⟨ze, rfl, by cases ha; rfl⟩
      · rw [if_neg harr]
        simp only [if_neg harr] at ha
        exact ha
  · intro j hj hsz
    rw [hj]
    exact ALIGN_two_pow _ j hsz

theorem structdef_offset_witness :
    (structState.structs.getD 0 structinfo.zero).isunion = 0 ∧
    ∃ a : Int, alignment demoEnv structState tChar = some a ∧
      (structState1.structs.getD 0 structinfo.zero).fields =
        [{ member "c" tChar with addr := ALIGN 0 a }] :=
  ⟨rfl, (structdef_offset demoEnv 0 (member "c" tChar) 0 structState structState1 rfl
    (by decide!)).imp (fun _ h => ⟨h.1, h.2.1⟩)⟩

/-- C3 (counterexample): in `struct S { char c; char a[2][2]; }` the member `a` is
placed at offset 2, although the running size is 1 and `type_alignment` of its type
is 1; so it is when the parser reads that declaration. -/
theorem structdef_array_member_offset :
    sizeOf 0 (structdef demoEnv 0 (member "c" tChar) 0 structState) = some 1 ∧
    alignment demoEnv structState1 tChar22 = some 1 ∧
    fieldsOf 0 (structdef demoEnv 0 (member "a" tChar22) 0 structState1) =
      some [("c", 0), ("a", 2)] ∧
    (2 : Int) ≠ (1 + 1 - 1) / 1 * 1 ∧
    fieldsOf 0 (parse demoEnv (recN demoEnv 20) (State.init arrayMemberProg)) =
      some [("c", 0), ("a", 2)] := by
  decide!

/-- C4 (as amended): when members are added by `structdef` to a fresh struct that is
not a union, they are stored in declaration order; each member whose alignment (as
`structdef` computes it) is at least 1 has an offset that is at least the previous
member's offset plus the previous member's `type_totsz`; and the struct size is the
last member's offset plus its size (no tail padding). -/
theorem structdef_struct_layout (e : Env) (id : Nat) (s s1 : State) (l : List FieldDecl)
    (h : Adds e id s l s1)
    (hu : (s.structs.getD id structinfo.zero).isunion = 0)
    (hf : (s.structs.getD id structinfo.zero).fields = [])
    (hs : (s.structs.getD id structinfo.zero).size = 0) :
    List.Forall₂ (fun d f => f = { d.nm with addr := f.addr }) l
      (s1.structs.getD id structinfo.zero).fields ∧
    List.Chain' (fun p q : FieldDecl × name => 1 ≤ q.1.al → p.2.addr + p.1.sz ≤ q.2.addr)
      (List.zip l (s1.structs.getD id structinfo.zero).fields) ∧
    (∀ d f, (List.zip l (s1.structs.getD id structinfo.zero).fields).getLast? = some (d, f) →
      (s1.structs.getD id structinfo.zero).size = f.addr + d.sz) := by
  obtain ⟨_, hfields, hsize⟩ := adds_struct e id s s1 l h hu
  rw [hf, List.nil_append, hs] at hfields
  rw [hs] at hsize
  rw [hfields, hsize]
  exact ⟨laidOut_forall₂ 0 l, laidOut_chain 0 l, fun d f hl => laidOut_last 0 l d f hl⟩

theorem structdef_struct_layout_witness :
    (structState.structs.getD 0 structinfo.zero).isunion = 0 ∧
    (structState.structs.getD 0 structinfo.zero).fields = [] ∧
    (structState.structs.getD 0 structinfo.zero).size = 0 ∧
    (structState2.structs.getD 0 structinfo.zero).size = 8 ∧
    (structState2.structs.getD 0 structinfo.zero).fields.map (fun f => (f.name, f.addr))
      = [("c", 0), ("i", 4)] ∧
    List.Chain' (fun p q : FieldDecl × name => 1 ≤ q.1.al → p.2.addr + p.1.sz ≤ q.2.addr)
      (List.zip [{ nm := member "c" tChar, al := 1, sz := 1 },
          { nm := member "i" tInt, al := 4, sz := 4 }]
        (structState2.structs.getD 0 structinfo.zero).fields) :=
  ⟨rfl, rfl, rfl, by decide!, by decide!,
    (structdef_struct_layout demoEnv 0 structState structState2
      [{ nm := member "c" tChar, al := 1, sz := 1 }, { nm := member "i" tInt, al := 4, sz := 4 }]
      (@Adds.addStruct demoEnv 0 structState structState1 structState2 _ (member "i" tInt) 0 4 4
        (@Adds.addStruct demoEnv 0 structState structState structState1 [] (member "c" tChar) 0 1 1
          (@Adds.nil demoEnv 0 structState) rfl (by decide!) (by decide!) (by decide!))
        (by decide!) (by decide!) (by decide!) (by decide!))
      rfl rfl rfl).2.1⟩

/-- C4 (counterexample): in `struct S { int a; void v; int b; }` the members `v` and
`b` are both placed at offset 0, on top of `a`, which occupies bytes 0 to 3; so they
are when the parser reads that declaration. -/
theorem structdef_zero_size_member_overlap :
    fieldsOf 0 ((structdef demoEnv 0 (member "a" tInt) 0 >>= fun _ =>
        structdef demoEnv 0 (member "v" tVoid) 0 >>= fun _ =>
        structdef demoEnv 0 (member "b" tInt) 0) structState) =
      some [("a", 0), ("v", 0), ("b", 0)] ∧
    totsz demoEnv structState tInt = some 4 ∧
    ¬ ((0 : Int) + 4 ≤ 0) ∧
    fieldsOf 0 (parse demoEnv (recN demoEnv 20) (State.init voidMemberProg)) =
      some [("a", 0), ("v", 0), ("b", 0)] := by
  decide!

/-- C5: when members are added by `structdef` to a fresh union, every member is stored
with offset 0, in declaration order, and the size of the union is the maximum of
`type_totsz` over the members (0 when there is none). -/
theorem structdef_union_layout (e : Env) (id : Nat) (s s1 : State) (l : List FieldDecl)
    (h : Adds e id s l s1)
    (hu : (s.structs.getD id structinfo.zero).isunion ≠ 0)
    (hf : (s.structs.getD id structinfo.zero).fields = [])
    (hs : (s.structs.getD id structinfo.zero).size = 0) :
    (s1.structs.getD id structinfo.zero).fields = l.map (fun d => { d.nm with addr := 0 }) ∧
    (∀ f ∈ (s1.structs.getD id structinfo.zero).fields, f.addr = 0) ∧
    (s1.structs.getD id structinfo.zero).size = (l.map (fun d => d.sz)).foldl max 0 := by
  obtain ⟨_, hfields, hsize⟩ := adds_union e id s s1 l h hu
  rw [hf, List.nil_append] at hfields
  rw [hs] at hsize
  refine ⟨hfields, ?_, hsize⟩
  intro f hfm
  rw [hfields, List.mem_map] at hfm
  obtain ⟨d, _, rfl⟩ := hfm
  rfl

theorem structdef_union_layout_witness :
    (unionState.structs.getD 0 structinfo.zero).isunion ≠ 0 ∧
    (unionState.structs.getD 0 structinfo.zero).fields = [] ∧
    (unionState.structs.getD 0 structinfo.zero).size = 0 ∧
    (unionState2.structs.getD 0 structinfo.zero).fields =
      [member "c" tChar, member "i" tInt] ∧
    (unionState2.structs.getD 0 structinfo.zero).size = 4 :=
  ⟨by decide, rfl, rfl,
    (structdef_union_layout demoEnv 0 unionState unionState2
      [{ nm := member "c" tChar, al := 0, sz := 1 }, { nm := member "i" tInt, al := 0, sz := 4 }]
      (@Adds.addUnion demoEnv 0 unionState unionState1 unionState2 _ (member "i" tInt) 0 4
        (@Adds.addUnion demoEnv 0 unionState unionState unionState1 [] (member "c" tChar) 0 1
          (@Adds.nil demoEnv 0 unionState) (by decide) (by decide) (by decide!))
        (by decide!) (by decide!) (by decide!))
      (by decide) rfl rfl).1,
    (structdef_union_layout demoEnv 0 unionState unionState2
      [{ nm := member "c" tChar, al := 0, sz := 1 }, { nm := member "i" tInt, al := 0, sz := 4 }]
      (@Adds.addUnion demoEnv 0 unionState unionState1 unionState2 _ (member "i" tInt) 0 4
        (@Adds.addUnion demoEnv 0 unionState unionState unionState1 [] (member "c" tChar) 0 1
          (@Adds.nil demoEnv 0 unionState) (by decide) (by decide) (by decide!))
        (by decide!) (by decide!) (by decide!))
      (by decide) rfl rfl).2.2⟩

/-- C6 (as amended): `readstmt` sets the type stack depth `nts` to 0 when it starts,
not when it returns: its result does not depend on the depth it finds, and after an
expression statement `n;` (`n` a number literal) it returns with `nts = 1`, the entry of
the value of the expression, which stays until the next statement starts. -/
theorem readstmt_type_stack (e : Env) (r : Rec) (s : State) (k : Nat) (hf : r.fuel = k + 1)
    (hnum : (curTok s).kind = Tok.NUM) (hsemi : (curTok (advance s)).kind = Tok.semi) :
    readstmt e r s = readstmt e r { s with nts := 0 } ∧
    ∃ s1, readstmt e r s = .ok ((), s1) ∧ s1.nts = 1 ∧ s1.pos = s.pos + 2 :=
  ⟨readstmt_resets e r s, readstmt_num e r s k hf hnum hsemi⟩

theorem readstmt_type_stack_witness :
    (recN demoEnv 20).fuel = 19 + 1 ∧ (curTok (State.init numStmt)).kind = Tok.NUM ∧
    (curTok (advance (State.init numStmt))).kind = Tok.semi ∧
    ∃ s1, readstmt demoEnv (recN demoEnv 20) (State.init numStmt) = .ok ((), s1) ∧ s1.nts = 1 ∧
      s1.pos = 2 :=
  ⟨rfl, rfl, rfl,
    (readstmt_type_stack demoEnv (recN demoEnv 20) (State.init numStmt) 19 rfl rfl rfl).2⟩

/-- C6 (counterexample): after `readstmt` has read the complete statement `1;` the type
stack depth `nts` is 1, not 0. -/
theorem readstmt_expr_stmt_depth :
    (readstmt demoEnv (recN demoEnv 20) (State.init numStmt)).toOption.map
      (fun x => (x.2.pos, x.2.nts)) = some (2, 1) := by
  decide!

/-- C7 (as amended): after `readstmt` has read a compound statement, the lengths of the
locals, typedefs and structs tables (and of the globals, enums, functions and arrays
tables) are what they were on entry, every typedef entry that existed on entry is
unchanged, and every struct descriptor that existed on entry keeps its name and its
union flag, whatever the block contained. -/
theorem readstmt_block_restores (e : Env) (n : Nat) (s s1 : State)
    (hb : (curTok s).kind = Tok.lbrace) (h : readstmt e (recN e n) s = .ok ((), s1)) :
    (s1.nlocals = s.nlocals ∧ s1.ntypedefs = s.ntypedefs ∧ s1.nstructs = s.nstructs ∧
      s1.nglobals = s.nglobals ∧ s1.nenums = s.nenums ∧ s1.nfuncs = s.nfuncs ∧
      s1.narrays = s.narrays) ∧
    (∀ i, i < s.ntypedefs →
      s1.typedefs.getD i typdefinfo.zero = s.typedefs.getD i typdefinfo.zero) ∧
    (∀ i, i < s.nstructs →
      (s1.structs.getD i structinfo.zero).name = (s.structs.getD i structinfo.zero).name ∧
      (s1.structs.getD i structinfo.zero).isunion
        = (s.structs.getD i structinfo.zero).isunion) := by
  have hk := readstmt_pres s.ntypedefs s.typedefs s.nstructs s.structs (recN e n)
    (recN_pres _ _ _ _ e n) e s () s1
    ⟨⟨Nat.le_refl _, fun _ _ => rfl⟩, Nat.le_refl _, fun _ _ => ⟨rfl, rfl⟩⟩ h
  refine ⟨?_, hk.1.2, hk.2.2⟩
  have hb1 : (curTok { s with nts := 0, out := s.out ++ gate s.nogen [Call.tmpdrop (-1)] }).kind
      = Tok.lbrace := hb
  unfold readstmt at h
  simp only [bind_apply, o_tmpdrop, gen_apply, modS_apply] at h
  rw [tok_jmp_eq _ Tok.lbrace hb1 (by decide)] at h
  simp only [getS_apply, if_true, bind_apply, modS_apply] at h
  split at h
  · next a s2 hloop =>
    injection h with h; injection h with _ h; subst h
    exact ⟨rfl, rfl, rfl, rfl, rfl, rfl, rfl⟩
  · cases h

theorem readstmt_block_restores_witness :
    (curTok blockEntry).kind = Tok.lbrace ∧
    readstmt demoEnv (recN demoEnv 20) blockEntry = .ok ((), blockExit) ∧
    blockExit.nstructs = blockEntry.nstructs ∧
    (blockExit.structs.getD 0 structinfo.zero).name
      = (blockEntry.structs.getD 0 structinfo.zero).name ∧ blockExit.pos = 18 :=
  ⟨by decide!, by decide!,
    (readstmt_block_restores demoEnv 20 blockEntry blockExit (by decide!)
      (by decide!)).1.2.2.1,
    ((readstmt_block_restores demoEnv 20 blockEntry blockExit (by decide!)
      (by decide!)).2.2 0 (by decide!)).1, by decide!⟩

/-- C7 (counterexample): `struct S { int a; };` exists when the block
`{ struct S { int b; }; }` is entered; after `readstmt` has read the block the table
has its old length, but the descriptor of `S` has a second member `b` and size 8. -/
theorem readstmt_block_changes_struct :
    blockEntry.nstructs = 1 ∧
    (blockEntry.structs.getD 0 structinfo.zero).fields.map (fun f => (f.name, f.addr))
      = [("a", 0)] ∧
    (blockEntry.structs.getD 0 structinfo.zero).size = 4 ∧
    readstmt demoEnv (recN demoEnv 20) blockEntry = .ok ((), blockExit) ∧
    blockExit.nstructs = 1 ∧
    (blockExit.structs.getD 0 structinfo.zero).fields.map (fun f => (f.name, f.addr))
      = [("a", 0), ("b", 4)] ∧
    (blockExit.structs.getD 0 structinfo.zero).size = 8 := by
  decide!

/-- C8 (the code at the failing input): for
`struct S; int f() { struct S { char c; } *p; p + 1; }` the calls made while the body is
read in pass 1 and in pass 2 differ: pass 1 leaves a member `c` in the descriptor of
`S`, pass 2 adds `c` again, so that in pass 2 the struct has size 2 and `p + 1` issues
`o_num(2)` and `o_bop(O_MUL)`, which pass 1 does not. -/
theorem readfunc_passes_differ :
    (outOf (parse demoEnv (recN demoEnv 30) (State.init twoPassProg))).map pass1Calls = some
      [Call.tmpdrop (-1), Call.tmpdrop (-1), Call.mklocal 8, Call.tmpdrop (-1), Call.tmpdrop (-1),
       Call.local_ 0, Call.num 1, Call.tmpswap, Call.deref 8, Call.tmpswap,
       Call.bop Op.ADD false] ∧
    (outOf (parse demoEnv (recN demoEnv 30) (State.init twoPassProg))).map pass2Calls = some
      [Call.tmpdrop (-1), Call.tmpdrop (-1), Call.mklocal 8, Call.tmpdrop (-1), Call.tmpdrop (-1),
       Call.local_ 0, Call.num 1, Call.tmpswap, Call.deref 8, Call.tmpswap, Call.num 2,
       Call.bop Op.MUL false, Call.bop Op.ADD false] := by
  decide!

/-- C9: for all base types `bt1` and `bt2`, `bt_op(bt1, bt2)` has the signed flag set
exactly when `bt1` or `bt2` has it, and its width is the maximum of the two widths
and 4. -/
theorem bt_op_spec (bt1 bt2 : Nat) :
    (bt_op bt1 bt2 &&& BT_SIGNED ≠ 0 ↔ (bt1 &&& BT_SIGNED ≠ 0 ∨ bt2 &&& BT_SIGNED ≠ 0)) ∧
    BT_SZ (bt_op bt1 bt2) = max (max (BT_SZ bt1) (BT_SZ bt2)) 4 := by
  have h1 := BT_SZ_lt bt1
  have h2 := BT_SZ_lt bt2
  have hm : MAXn (MAXn (BT_SZ bt1) (BT_SZ bt2)) 4 = max (max (BT_SZ bt1) (BT_SZ bt2)) 4 := by
    unfold MAXn; split_ifs <;> omega
  have hlt : max (max (BT_SZ bt1) (BT_SZ bt2)) 4 < 256 := by omega
  obtain ⟨ha, hb⟩ := sign_or_width (bt1 ||| bt2) _ hlt
  constructor
  · unfold bt_op BT_SIGNED
    rw [hm]
    show (((bt1 ||| bt2) &&& 256) ||| _) &&& 256 ≠ 0 ↔ _
    rw [ha, and_256_ne_zero, and_256_ne_zero, and_256_ne_zero, Nat.testBit_or]
    simp
  · unfold bt_op
    rw [hm]
    show (((bt1 ||| bt2) &&& 256) ||| _) &&& 255 = _
    exact hb

/-- C10 (as amended): for `O_DIV` and `O_MOD` the signed flag of the type `ts_binop`
pushes, and the `O_SIGNED` bit of the operator handed to `o_bop`, are those of the left
operand (the entry below the top of the type stack), whatever the right operand is. -/
theorem ts_binop_div_mod_sign (e : Env) (s : State) (k : Nat) (op : Op)
    (h : s.nts = k + 2) (hop : op = Op.DIV ∨ op = Op.MOD) :
    ∃ s1, ts_binop e op s = .ok ((), s1) ∧ s1.nts = k + 1 ∧
      ((s1.ts.getD k type.zero).bt &&& BT_SIGNED =
        TYPE_BT e (deval s (s.ts.getD k type.zero)) &&& BT_SIGNED) ∧
      s1.out = s.out ++ gate s.nogen
        (dcalls e s 1 (s.ts.getD (k + 1) type.zero) ++ [Call.tmpswap] ++
          dcalls e s 1 (s.ts.getD k type.zero) ++ [Call.tmpswap] ++
          [Call.bop op (decide (TYPE_BT e (deval s (s.ts.getD k type.zero)) &&& BT_SIGNED ≠ 0))] ++
          (if e.NCCWORDCAST then
            [Call.cast (BT (TYPE_BT e (deval s (s.ts.getD k type.zero)) &&& BT_SIGNED)
              (bt_op (TYPE_BT e (deval s (s.ts.getD (k + 1) type.zero)))
                (TYPE_BT e (deval s (s.ts.getD k type.zero)))))]
          else [])) := by
  unfold ts_binop
  simp only [bind_apply, ts_pop_de2_apply e s k h, hop, if_true, o_bop, gen_apply,
    ts_push_bt_apply, BT_sign]
  refine ⟨_, rfl, rfl, ?_, ?_⟩
  · simp only [getD_tset_self, BT_sign]
  · simp only [List.append_assoc, gate_append]

theorem ts_binop_div_mod_sign_witness :
    (stackOf [tUInt, tInt]).nts = 0 + 2 ∧
    ∃ s1, ts_binop demoEnv Op.MOD (stackOf [tUInt, tInt]) = .ok ((), s1) ∧ s1.nts = 0 + 1 ∧
      (s1.ts.getD 0 type.zero).bt &&& BT_SIGNED = 0 :=
  ⟨rfl, (ts_binop_div_mod_sign demoEnv (stackOf [tUInt, tInt]) 0 Op.MOD rfl (Or.inr rfl)).imp
    (fun _ h => ⟨h.1, h.2.1, h.2.2.1.trans (by decide)⟩)⟩

/-- C10 (counterexample): for `int / unsigned` the right operand (the top of the type
stack) is unsigned, yet `ts_binop(O_DIV)` pushes the signed type `int` and hands
`O_DIV | O_SIGNED` to `o_bop`. -/
theorem ts_binop_div_left_sign :
    (tUInt.bt &&& BT_SIGNED = 0) ∧
    topOf (ts_binop demoEnv Op.DIV (stackOf [tInt, tUInt])) = some tInt ∧
    outOf (ts_binop demoEnv Op.DIV (stackOf [tInt, tUInt])) =
      some [Call.tmpswap, Call.tmpswap, Call.bop Op.DIV true] := by
  decide
/-! ## Claims C11 to C20 -/

/-- C11 (counterexample): `unsigned char` (base type 1) is narrower than 4 bytes and
unsigned; `bt_uop` gives 4 for it, the unsigned 4-byte type, not the signed one.  The
parser pushes this type for `-c` in `int f() { unsigned char c; -c; }`. -/
theorem bt_uop_unsigned_char :
    BT_SZ 1 < 4 ∧ 1 &&& BT_SIGNED = 0 ∧ bt_uop 1 = 4 ∧ bt_uop 1 &&& BT_SIGNED = 0 ∧
    bt_uop 1 ≠ 4 ||| BT_SIGNED ∧
    (topOf (parse demoEnv (recN demoEnv 30) (State.init negUCharProg))).map (fun t => t.bt)
      = some 4 := by
  refine ⟨by decide, by decide, by decide, by decide, by decide, by decide!⟩

/-- C11 (as amended): for every base type narrower than 4 bytes, `bt_uop(bt)`, the
promotion used by unary `+`, `-` and `~`, is the 4-byte type with the signedness of
`bt`: its width is 4 and it is signed exactly when `bt` is. -/
theorem bt_uop_narrow (bt : Nat) (h : BT_SZ bt < 4) :
    bt_uop bt = (bt &&& BT_SIGNED) ||| 4 ∧ BT_SZ (bt_uop bt) = 4 ∧
    (bt_uop bt &&& BT_SIGNED ≠ 0 ↔ bt &&& BT_SIGNED ≠ 0) := by
  have h4 : BT_SZ 4 = 4 := by decide
  have hm : MAXn (MAXn (BT_SZ bt) (BT_SZ 4)) 4 = 4 := by
    rw [h4]; unfold MAXn; split_ifs <;> omega
  have heq : bt_uop bt = (bt &&& BT_SIGNED) ||| 4 := by
    unfold bt_uop bt_op
    rw [hm]
    show ((bt ||| 4) &&& 256) ||| 4 = (bt &&& 256) ||| 4
    rw [or4_and_256]
  obtain ⟨ha, hb⟩ := sign_or_width bt 4 (by decide)
  refine ⟨heq, ?_, ?_⟩
  · rw [heq]; exact hb
  · rw [heq]
    show ((bt &&& 256) ||| 4) &&& 256 ≠ 0 ↔ bt &&& 256 ≠ 0
    rw [ha]

theorem bt_uop_narrow_witness :
    BT_SZ (2 ||| BT_SIGNED) < 4 ∧ bt_uop (2 ||| BT_SIGNED) = 4 ||| BT_SIGNED ∧
    BT_SZ 2 < 4 ∧ bt_uop 2 = 4 :=
  ⟨by decide, ((bt_uop_narrow (2 ||| BT_SIGNED) (by decide)).1).trans (by decide),
   by decide, by decide⟩

/-- C12 (counterexample): the type `int` with pointer depth -1 has no array descriptor
under it, its pointer depth is not greater than 0, it is neither an array nor a struct,
and the width of its base type is 4; `type_totsz` returns `LONGSZ` = 8 for it.  The
parser hands this type to `type_totsz` in `int f() { int x; x[0]; }`, where `arrayderef`
then scales the index by 8. -/
theorem type_totsz_negative_depth :
    ArrWF (State.init []).arrays tIntBelow ∧ ¬ (0 < tIntBelow.ptr) ∧
    tIntBelow.flags &&& T_ARRAY = 0 ∧ tIntBelow.flags &&& T_STRUCT = 0 ∧
    BT_SZ tIntBelow.bt = 4 ∧
    type_totsz demoEnv tIntBelow (State.init []) = .ok (8, State.init []) ∧
    (outOf (parse demoEnv (recN demoEnv 30) (State.init indexIntProg))).map pass2Calls = some
      [Call.tmpdrop (-1), Call.tmpdrop (-1), Call.mklocal 4, Call.tmpdrop (-1),
       Call.tmpdrop (-1), Call.local_ 0, Call.num 0, Call.tmpswap,
       Call.deref (4 ||| BT_SIGNED), Call.tmpswap, Call.num 8, Call.bop Op.MUL false,
       Call.bop Op.ADD false] := by
  refine ⟨ArrWF.leaf _ (by decide), by decide, by decide, by decide, by decide, by decide!,
    by decide!⟩

/-- C12 (as amended): for every type `t` whose array descriptors are well-founded,
`type_totsz(t)` returns, and its result is: the word size `LONGSZ` if the pointer depth
of `t` is not 0 (positive or negative); otherwise, if `t` is an array, the `int` product
of the length and `type_totsz` of the element type, which is the length times
`type_totsz` of the element type whenever that number is in the range of `int`, and
that number reduced to 32 bits (two's complement) in general; otherwise the size in its
descriptor if `t` is a struct or union; otherwise the width of the base type of `t`. -/
theorem type_totsz_spec (e : Env) (s : State) (t : type) (h : ArrWF s.arrays t) :
    ∃ z, type_totsz e t s = .ok (z, s) ∧
      (t.ptr ≠ 0 → z = (e.LONGSZ : Int)) ∧
      (t.ptr = 0 → t.flags &&& T_ARRAY ≠ 0 →
        ∃ ze, type_totsz e (s.arrays.getD t.id array.zero).type s = .ok (ze, s) ∧
          z = toInt32 (toUnsigned ((s.arrays.getD t.id array.zero).n * ze)) ∧
          (-2147483648 ≤ (s.arrays.getD t.id array.zero).n * ze →
            (s.arrays.getD t.id array.zero).n * ze ≤ 2147483647 →
            z = (s.arrays.getD t.id array.zero).n * ze)) ∧
      (t.ptr = 0 → t.flags &&& T_ARRAY = 0 → t.flags &&& T_STRUCT ≠ 0 →
        z = (s.structs.getD t.id structinfo.zero).size) ∧
      (t.ptr = 0 → t.flags &&& T_ARRAY = 0 → t.flags &&& T_STRUCT = 0 →
        z = ((BT_SZ t.bt : Nat) : Int)) := by
  obtain ⟨k, z, hz⟩ := ArrWF_aux s.arrays s.structs e.LONGSZ t h
  refine ⟨z, type_totsz_ok e s t z (totsz_of_aux e s t k z hz), ?_, ?_, ?_, ?_⟩
  · intro hp
    cases k with
    | zero => cases hz
    | succ k =>
      rw [type_totsz_aux_succ, if_pos hp] at hz
      injection hz with hz
      exact hz.symm
  · intro hp ha
    cases k with
    | zero => cases hz
    | succ k =>
      rw [type_totsz_aux_node _ _ _ _ _ ⟨hp, ha⟩] at hz
      cases he : type_totsz_aux s.arrays s.structs e.LONGSZ k (elemOf s.arrays t) with
      | none => rw [he] at hz; cases hz
      | some ze =>
        rw [he] at hz
        injection hz with hz
        exact ⟨ze, type_totsz_ok e s _ ze (totsz_of_aux e s _ k ze he), hz.symm,
          fun h0 h1 => hz.symm.trans (toInt32_toUnsigned_range _ h0 h1)⟩
  · intro hp ha hs
    cases k with
    | zero => cases hz
    | succ k =>
      rw [type_totsz_aux_leaf _ _ _ _ _ (fun hx => hx.2 ha), if_neg (not_not.mpr hp),
        if_pos hs] at hz
      injection hz with hz
      exact hz.symm
  · intro hp ha hs
    cases k with
    | zero => cases hz
    | succ k =>
      rw [type_totsz_aux_leaf _ _ _ _ _ (fun hx => hx.2 ha), if_neg (not_not.mpr hp),
        if_neg (not_not.mpr hs)] at hz
      injection hz with hz
      exact hz.symm

theorem type_totsz_spec_witness :
    ArrWF structState.arrays tChar22 ∧
    ∃ z, type_totsz demoEnv tChar22 structState = .ok (z, structState) ∧
      ∃ ze, type_totsz demoEnv (structState.arrays.getD tChar22.id array.zero).type structState
          = .ok (ze, structState) ∧
        z = toInt32 (toUnsigned ((structState.arrays.getD tChar22.id array.zero).n * ze)) ∧
        (-2147483648 ≤ (structState.arrays.getD tChar22.id array.zero).n * ze →
          (structState.arrays.getD tChar22.id array.zero).n * ze ≤ 2147483647 →
          z = (structState.arrays.getD tChar22.id array.zero).n * ze) :=
  have hw : ArrWF structState.arrays tChar22 :=
    ArrWF.node _ (by decide) (ArrWF.node _ (by decide) (ArrWF.leaf _ (by decide)))
  ⟨hw,
   let ⟨z, h1, _, h3, _⟩ := type_totsz_spec demoEnv structState tChar22 hw
   ⟨z, h1, h3 (by decide) (by decide)⟩⟩

/-- C13: `array2ptr(t)`: if `t` is an array of pointer depth 0 it becomes the element
type recorded in the array table with the pointer depth incremented by 1; every other
`t` is unchanged; and `array2ptr` is idempotent, the pointer depths recorded in the
array table being depths (not negative). -/
theorem array2ptr_spec (arrays : List array) (t : type) :
    (t.flags &&& T_ARRAY ≠ 0 ∧ t.ptr = 0 →
      array2ptr arrays t = { (arrays.getD t.id array.zero).type with
        ptr := (arrays.getD t.id array.zero).type.ptr + 1 }) ∧
    (¬ (t.flags &&& T_ARRAY ≠ 0 ∧ t.ptr = 0) → array2ptr arrays t = t) ∧
    (0 ≤ (arrays.getD t.id array.zero).type.ptr →
      array2ptr arrays (array2ptr arrays t) = array2ptr arrays t) := by
  refine ⟨fun h => by unfold array2ptr; rw [if_pos h], fun h => by unfold array2ptr; rw [if_neg h],
    fun h => ?_⟩
  by_cases hc : t.flags &&& T_ARRAY ≠ 0 ∧ t.ptr = 0
  · have h1 : array2ptr arrays t = { (arrays.getD t.id array.zero).type with
        ptr := (arrays.getD t.id array.zero).type.ptr + 1 } := by
      unfold array2ptr; rw [if_pos hc]
    rw [h1]
    unfold array2ptr
    rw [if_neg]
    intro hx
    have : (arrays.getD t.id array.zero).type.ptr + 1 = 0 := hx.2
    omega
  · have h1 : array2ptr arrays t = t := by unfold array2ptr; rw [if_neg hc]
    rw [h1, h1]

theorem array2ptr_spec_witness :
    0 ≤ (arrayUseEnd.arrays.getD (arrayUseEnd.ts.getD 0 type.zero).id array.zero).type.ptr ∧
    arrayUseEnd.ts.getD 0 type.zero
      = { bt := 8, flags := T_ARRAY, ptr := 0, id := 0, addr := 1 } ∧
    array2ptr arrayUseEnd.arrays (arrayUseEnd.ts.getD 0 type.zero) = tIntPtr ∧
    array2ptr arrayUseEnd.arrays (array2ptr arrayUseEnd.arrays (arrayUseEnd.ts.getD 0 type.zero))
      = array2ptr arrayUseEnd.arrays (arrayUseEnd.ts.getD 0 type.zero) ∧
    array2ptr arrayUseEnd.arrays tIntPtr = tIntPtr :=
  ⟨by decide!, by decide!, by decide!,
   (array2ptr_spec arrayUseEnd.arrays (arrayUseEnd.ts.getD 0 type.zero)).2.2 (by decide!),
   by decide!⟩

/-- C14: `ts_de` on a non-empty type stack.  The depth is unchanged, the entries below
the top are untouched and the top entry ends with `addr = 0`.  `ts_de(0)` issues no
call.  `ts_de(1)` on an entry that is not an array of pointer depth 0 issues exactly
`o_deref(TYPE_BT(entry))` when the entry has `addr` set and is a pointer or not a
function, and nothing otherwise (calls go through the `nogen` macro), and only clears
`addr`.  An array entry of pointer depth 0, with `addr` set or not, becomes the element
type with the pointer depth incremented, and no call is issued for it: the element
types in the array table carry `addr = 0`. -/
theorem ts_de_spec (e : Env) (s : State) (d : Int) (h : s.nts ≠ 0) :
    ∃ s1, ts_de e d s = .ok ((), s1) ∧ s1.nts = s.nts ∧
      (s1.ts.getD (s.nts - 1) type.zero).addr = 0 ∧
      (∀ j, j ≠ s.nts - 1 → s1.ts.getD j type.zero = s.ts.getD j type.zero) ∧
      (d = 0 → s1.out = s.out) ∧
      (d ≠ 0 → ¬ ((s.ts.getD (s.nts - 1) type.zero).flags &&& T_ARRAY ≠ 0 ∧
          (s.ts.getD (s.nts - 1) type.zero).ptr = 0) →
        s1.ts.getD (s.nts - 1) type.zero = { s.ts.getD (s.nts - 1) type.zero with addr := 0 } ∧
        s1.out = s.out ++ gate s.nogen
          (if (s.ts.getD (s.nts - 1) type.zero).addr ≠ 0 ∧
              ((s.ts.getD (s.nts - 1) type.zero).ptr ≠ 0 ∨
                (s.ts.getD (s.nts - 1) type.zero).flags &&& T_FUNC = 0)
           then [Call.deref (TYPE_BT e (s.ts.getD (s.nts - 1) type.zero))] else [])) ∧
      ((s.ts.getD (s.nts - 1) type.zero).flags &&& T_ARRAY ≠ 0 ∧
          (s.ts.getD (s.nts - 1) type.zero).ptr = 0 →
        (s.arrays.getD (s.ts.getD (s.nts - 1) type.zero).id array.zero).type.addr = 0 →
        s1.ts.getD (s.nts - 1) type.zero =
          { (s.arrays.getD (s.ts.getD (s.nts - 1) type.zero).id array.zero).type with
            ptr := (s.arrays.getD (s.ts.getD (s.nts - 1) type.zero).id array.zero).type.ptr + 1 } ∧
        s1.out = s.out) := by
  refine ⟨_, ts_de_apply e d s h, rfl, ?_, ?_, ?_, ?_, ?_⟩
  · show (List.getD (tset type.zero s.ts (s.nts - 1) _) (s.nts - 1) type.zero).addr = 0
    rw [getD_tset_self]
    rfl
  · intro j hj
    exact getD_tset_ne _ _ _ _ _ hj
  · intro hd
    show s.out ++ gate s.nogen (dcalls e s d _) = s.out
    unfold dcalls
    rw [if_neg (fun hx => hx.1 hd), gate_nil, List.append_nil]
  · intro hd hna
    have ha : array2ptr s.arrays (s.ts.getD (s.nts - 1) type.zero) = s.ts.getD (s.nts - 1) type.zero := by
      unfold array2ptr; rw [if_neg hna]
    constructor
    · show List.getD (tset type.zero s.ts (s.nts - 1) _) (s.nts - 1) type.zero = _
      rw [getD_tset_self]
      unfold deval
      rw [ha]
    · show s.out ++ gate s.nogen (dcalls e s d _) = _
      unfold dcalls
      rw [ha]
      simp only [hd, ne_eq, not_false_eq_true, true_and]
  · intro harr hel
    have ha : array2ptr s.arrays (s.ts.getD (s.nts - 1) type.zero) =
        { (s.arrays.getD (s.ts.getD (s.nts - 1) type.zero).id array.zero).type with
          ptr := (s.arrays.getD (s.ts.getD (s.nts - 1) type.zero).id array.zero).type.ptr + 1 } := by
      unfold array2ptr; rw [if_pos harr]
    constructor
    · show List.getD (tset type.zero s.ts (s.nts - 1) _) (s.nts - 1) type.zero = _
      rw [getD_tset_self]
      unfold deval
      rw [ha]
      simp only [hel]
    · show s.out ++ gate s.nogen (dcalls e s d _) = s.out
      unfold dcalls
      rw [ha]
      rw [if_neg (fun hx => hx.2.1 hel), gate_nil, List.append_nil]

theorem ts_de_spec_witness :
    arrayUseEnd.nts ≠ 0 ∧
    (arrayUseEnd.arrays.getD (arrayUseEnd.ts.getD (arrayUseEnd.nts - 1) type.zero).id
      array.zero).type.addr = 0 ∧
    ∃ s1, ts_de demoEnv 1 arrayUseEnd = .ok ((), s1) ∧ s1.nts = arrayUseEnd.nts ∧
      s1.ts.getD (arrayUseEnd.nts - 1) type.zero = tIntPtr ∧ s1.out = arrayUseEnd.out :=
  ⟨by decide!, by decide!,
   let ⟨s1, h1, h2, _, _, _, _, h7⟩ := ts_de_spec demoEnv arrayUseEnd 1 (by decide!)
   ⟨s1, h1, h2, ((h7 (by decide!) (by decide!)).1).trans (by decide!),
     (h7 (by decide!) (by decide!)).2⟩⟩

/-- C15: a chain `e1 && e2 && ... && en` with at least two operands.  Let `readbitor`
read the first operand from `s` to `s1`, where the cursor is at `&&`, and let
`l = s1.label`.  `readand` allocates the labels `l + 1` and `l + 2`, issues `o_fork()`,
pops the operand and issues `o_jz(l + 2)` right after what the operand (and its load)
issued; for every further operand it consumes `&&`, reads the operand, pops it and
issues `o_jz(l + 2)` again (the passes `ShortRest`, at least one), and after the last
operand it issues `o_num(1)`, `o_forkpush()`, `o_jmp(l + 1)`, `o_label(l + 2)`,
`o_num(0)`, `o_forkpush()`, `o_forkjoin()`, `o_label(l + 1)` and pushes the type `int`:
the type stack is one entry deeper than in `s`.  `reador` does the same with `readand`
as operand reader, `||`, `o_jnz` to the label `l + 1`, the literals 0 and 1 exchanged
and `l + 2` as the label of the join.  All calls go through the `nogen` macros. -/
theorem short_circuit_chain (e : Env) (r : Rec) :
    (∀ (s s1 s2 : State) (n : Nat),
      readbitor e r s = .ok ((), s1) → s1.nts = s.nts + 1 → (curTok s1).kind = Tok.andand →
      ShortRest e (readbitor e r) Tok.andand (Call.jz (s1.label + 2)) n
        (shortHead e (Call.jz (s1.label + 2)) s1) s2 →
      n < r.fuel →
      ∃ s3, readand e r s = .ok ((), s3) ∧ 1 ≤ n ∧
        (shortHead e (Call.jz (s1.label + 2)) s1).out = s1.out ++ gate s1.nogen
          ([Call.fork] ++ dcalls e s1 1 (s1.ts.getD (s1.nts - 1) type.zero) ++
            [Call.jz (s1.label + 2)]) ∧
        s3.out = s2.out ++ gate s2.nogen
          ([Call.num 1, Call.forkpush, Call.jmp (s1.label + 1), Call.label (s1.label + 2),
            Call.num 0, Call.forkpush, Call.forkjoin, Call.label (s1.label + 1)] ++
           (if e.NCCWORDCAST then [Call.cast (4 ||| BT_SIGNED)] else [])) ∧
        s3.nts = s.nts + 1 ∧
        (s3.ts.getD s.nts type.zero).bt = 4 ||| BT_SIGNED ∧
        (s3.ts.getD s.nts type.zero).flags = 0 ∧ (s3.ts.getD s.nts type.zero).ptr = 0 ∧
        (s3.ts.getD s.nts type.zero).addr = 0) ∧
    (∀ (s s1 s2 : State) (n : Nat),
      readand e r s = .ok ((), s1) → s1.nts = s.nts + 1 → (curTok s1).kind = Tok.oror →
      ShortRest e (readand e r) Tok.oror (Call.jnz (s1.label + 1)) n
        (shortHead e (Call.jnz (s1.label + 1)) s1) s2 →
      n < r.fuel →
      ∃ s3, reador e r s = .ok ((), s3) ∧ 1 ≤ n ∧
        (shortHead e (Call.jnz (s1.label + 1)) s1).out = s1.out ++ gate s1.nogen
          ([Call.fork] ++ dcalls e s1 1 (s1.ts.getD (s1.nts - 1) type.zero) ++
            [Call.jnz (s1.label + 1)]) ∧
        s3.out = s2.out ++ gate s2.nogen
          ([Call.num 0, Call.forkpush, Call.jmp (s1.label + 2), Call.label (s1.label + 1),
            Call.num 1, Call.forkpush, Call.forkjoin, Call.label (s1.label + 2)] ++
           (if e.NCCWORDCAST then [Call.cast (4 ||| BT_SIGNED)] else [])) ∧
        s3.nts = s.nts + 1 ∧
        (s3.ts.getD s.nts type.zero).bt = 4 ||| BT_SIGNED ∧
        (s3.ts.getD s.nts type.zero).flags = 0 ∧ (s3.ts.getD s.nts type.zero).ptr = 0 ∧
        (s3.ts.getD s.nts type.zero).addr = 0) := by
  constructor
  · intro s s1 s2 n h1 hn1 hk hrest hfuel
    have hnts : s2.nts = s.nts := by
      rw [ShortRest_nts _ _ _ _ _ _ _ hrest, shortHead_nts]; omega
    have htop := shortTail_top e 1 0 (s1.label + 1) (s1.label + 2) s2
    rw [hnts] at htop
    exact ⟨_, readand_apply e r s s1 s2 n h1 hn1 hk hrest hfuel,
      ShortRest_pos_n _ _ _ _ _ _ _ hrest hk, shortHead_out _ _ _, rfl,
      by show s2.nts + 1 = _; rw [hnts], htop⟩
  · intro s s1 s2 n h1 hn1 hk hrest hfuel
    have hnts : s2.nts = s.nts := by
      rw [ShortRest_nts _ _ _ _ _ _ _ hrest, shortHead_nts]; omega
    have htop := shortTail_top e 0 1 (s1.label + 2) (s1.label + 1) s2
    rw [hnts] at htop
    exact ⟨_, reador_apply e r s s1 s2 n h1 hn1 hk hrest hfuel,
      ShortRest_pos_n _ _ _ _ _ _ _ hrest hk, shortHead_out _ _ _, rfl,
      by show s2.nts + 1 = _; rw [hnts], htop⟩

theorem short_circuit_chain_witness :
    ∃ s3, readand demoEnv (recN demoEnv 20) (State.init andProg) = .ok ((), s3) ∧
      s3.nts = 1 ∧
      s3.out = [Call.num 1, Call.fork, Call.jz 2, Call.num 2, Call.jz 2, Call.num 3, Call.jz 2,
        Call.num 1, Call.forkpush, Call.jmp 1, Call.label 2, Call.num 0, Call.forkpush,
        Call.forkjoin, Call.label 1] :=
  let ⟨s3, h1, _, _, h4, h5, _⟩ :=
    (short_circuit_chain demoEnv (recN demoEnv 20)).1 (State.init andProg) andS1
      (tokLoad (afterJump demoEnv andS3 (Call.jz 2))) 2
      (by decide!) (by decide!) (by decide!)
      (ShortRest.more 1 _ andS2 _ (by decide!) (by decide!) (by decide!)
        (ShortRest.more 0 _ andS3 _ (by decide!) (by decide!) (by decide!)
          (ShortRest.stop _ (by decide!))))
      (by decide!)
  ⟨s3, h1, h5, h4.trans (by decide!)⟩

theorem basetype_step_not_type (e : Env) (r : Rec) (v : BaseVars) (s : State)
    (hn : startsType s = false) (hi : v.i = 0) :
    basetype_step e r v s = .ok (({ v with ret := some 1 }, false), tokLoad s) := by
  unfold startsType at hn
  simp only [Bool.or_eq_false_iff, decide_eq_false_iff_not, Bool.and_eq_false_iff,
    List.mem_cons, List.mem_singleton, not_or, List.mem_nil_iff, or_false, ne_eq,
    Decidable.not_not] at hn
  obtain ⟨⟨k1, k2, k3, k4, k5, k6, k7, k8, k9, k10, k11, k12⟩, hn2⟩ := hn
  unfold basetype_step
  simp only [bind_apply, tok_see_apply]
  split
  · rename_i hx
    have hname : (curTok s).kind = Tok.NAME := hx
    have hid : (tokLoad s).tokid = (curTok s).id := by
      unfold tokLoad
      simp only [hname, if_true]
    have htd : typedef_find_aux s.typedefs (curTok s).id s.ntypedefs = -1 := by
      rcases hn2 with h1 | h1
      · exact absurd hname h1
      · exact h1
    have htd2 : typedef_find_aux (tokLoad s).typedefs (tokLoad s).tokid (tokLoad s).ntypedefs
        = -1 := by
      rw [hid]; exact htd
    simp only [bind_apply, tokLoad_idem, tok_id, typedef_find,
      htd2, ne_eq, not_true_eq_false, if_false, hi, pure_apply, if_true]
  · simp only [bind_apply, tokLoad_idem, pure_apply,
      ne_eq, not_true_eq_false, hi, if_true, if_false]

theorem readtype_not_type (e : Env) (r : Rec) (s : State) (t : Int × type) (s1 : State)
    (hn : startsType s = false) (h : readtype e r s = .ok (t, s1)) :
    t.1 ≠ 0 ∧ s1 = tokLoad s := by
  unfold readtype readname basetype at h
  cases hf : r.fuel with
  | zero =>
    rw [hf] at h
    simp only [bind_apply, iter, outOfFuel] at h
    cases h
  | succ k =>
    rw [hf] at h
    have hb := basetype_step_not_type e r
      ({ sign := 1, size := 4, i := 0, flags := 0,
         t := { type.zero with flags := 0, ptr := 0, addr := 0 }, ret := none } : BaseVars)
      s hn rfl
    simp only [bind_apply, iter_succ, hb, pure_apply,
      Bool.false_eq_true, if_false, ne_eq, one_ne_zero, not_false_eq_true, if_true] at h
    cases h
    exact ⟨one_ne_zero, rfl⟩

theorem ts_pop_inv (s : State) (t : type) (s1 : State) (h : ts_pop s = .ok (t, s1)) :
    t = s.ts.getD (s.nts - 1) type.zero ∧ s1 = { s with nts := s.nts - 1 } := by
  unfold ts_pop at h
  split at h
  · cases h
  · cases h; exact ⟨rfl, rfl⟩

theorem tok_expect_inv (tok : Tok) (s : State) (a : Unit) (s1 : State)
    (h : tok_expect tok s = .ok (a, s1)) : s1.out = s.out ∧ s1.nogen = s.nogen := by
  unfold tok_expect at h
  simp only [bind_apply, tok_get] at h
  split at h
  · cases h
  · cases h
    split <;> exact ⟨rfl, rfl⟩

theorem type_totsz_inv (e : Env) (t : type) (s : State) (z : Int) (s1 : State)
    (h : type_totsz e t s = .ok (z, s1)) : totsz e s t = some z ∧ s1 = s := by
  unfold type_totsz at h
  split at h
  · next z1 hz => cases h; exact ⟨hz, rfl⟩
  · cases h

/-- What follows the operand in the `sizeof` branch of `readpre`. -/
theorem sizeof_rest (e : Env) (op : Int) (g : Int) (o : List Call) (se s1 : State)
    (hn : se.nogen = g + 1) (ho : se.out = o)
    (h : (nogen_dec >>= fun _ => ts_pop >>= fun t1 => (do
          o_num (← type_totsz e t1)
          ts_push_bt e e.LONGSZ
          if op = 0 then tok_expect Tok.rparen else pure ())) se = .ok ((), s1)) :
    ∃ z, totsz e se (se.ts.getD (se.nts - 1) type.zero) = some z ∧
      s1.out = o ++ gate g
        (Call.num z :: if e.NCCWORDCAST then [Call.cast e.LONGSZ] else []) ∧
      s1.nogen = g := by
  obtain ⟨_, sf, h1, ha⟩ := bind_ok_inv _ _ _ _ _ h
  cases h1
  obtain ⟨t1, sc, h2, hb⟩ := bind_ok_inv _ _ _ _ _ ha
  obtain ⟨ht, hsc⟩ := ts_pop_inv _ _ _ h2
  obtain ⟨z, sd, h3, hc⟩ := bind_ok_inv _ _ _ _ _ hb
  obtain ⟨hz, hsd⟩ := type_totsz_inv _ _ _ _ _ h3
  obtain ⟨_, sg, h4, hd⟩ := bind_ok_inv _ _ _ _ _ hc
  unfold o_num at h4
  rw [gen_apply] at h4
  cases h4
  obtain ⟨_, sh, h5, h⟩ := bind_ok_inv _ _ _ _ _ hd
  rw [ts_push_bt_apply] at h5
  cases h5
  have hfin : s1.out = (sd.out ++ gate sd.nogen [Call.num z]) ++ gate sd.nogen
      (if e.NCCWORDCAST then [Call.cast e.LONGSZ] else []) ∧ s1.nogen = sd.nogen := by
    split at h
    · exact tok_expect_inv _ _ _ _ h
    · cases h; exact ⟨rfl, rfl⟩
  have hcn2 : sd.nogen = g := by
    rw [hsd, hsc]; show se.nogen - 1 = g; omega
  have hco2 : sd.out = o := by rw [hsd, hsc]; exact ho
  refine ⟨z, ?_, ?_, hfin.2.trans hcn2⟩
  · have hz2 : totsz e se t1 = some z := by
      rw [hsc] at hz
      exact hz
    rw [ht] at hz2
    exact hz2
  · rw [hfin.1, hcn2, hco2, List.append_assoc, gate_append]
    rfl

theorem tok_jmp_skip {α : Type} (tok : Tok) (s : State) (A B : P α)
    (h : (curTok s).kind ≠ tok) :
    (tok_jmp tok >>= fun c => if c = 0 then A else B) s = B (tokLoad s) := by
  simp only [bind_apply, tok_jmp_ne s tok h, one_ne_zero, if_false]

theorem tok_jmp_take {α : Type} (tok : Tok) (s : State) (A B : P α)
    (h : (curTok s).kind = tok) (hne : tok ≠ Tok.EOF) :
    (tok_jmp tok >>= fun c => if c = 0 then A else B) s = A (advance s) := by
  simp only [bind_apply, tok_jmp_eq s tok h hne, if_true]

theorem sizeofOperandState_nogen (s : State) :
    (sizeofOperandState s).nogen = s.nogen + 1 ∧ (sizeofOperandState s).out = s.out := by
  unfold sizeofOperandState sizeofOperandAt
  split <;> exact ⟨rfl, rfl⟩

/-- C16: `sizeof` with an expression operand.  Let the token at the cursor be `sizeof`,
let `nogen` not be negative, and let the operand (what follows the keyword and, if there
is one, the opening parenthesis) not start a type name, which is what makes `readpre`
take it for an expression.  If `readpre` returns, then the operand was parsed (by
`readexpr` after a parenthesis, by `readpre` otherwise) from a state with `nogen` one
higher than on entry and the calls received so far unchanged; the parse of the operand
made no call to the code generator and left `nogen` as it found it; and over the whole
`sizeof` expression the code generator received exactly `o_num(z)`, where `z` is
`type_totsz` of the type the operand left on the type stack (followed by the `o_cast` of
`ts_push_bt` in a build with `NCCWORDCAST`; nothing at all if `nogen` was already set),
with `nogen` as on entry.  This holds whatever the operand contains, string literals and
calls to undeclared functions included. -/
theorem sizeof_expr_no_calls (e : Env) (n : Nat) (s s1 : State)
    (hk : (curTok s).kind = Tok.SIZEOF) (hg : 0 ≤ s.nogen)
    (hop : startsType (sizeofOperandAt s) = false)
    (h : readpre e (recN e n) s = .ok ((), s1)) :
    (sizeofOperandState s).nogen = s.nogen + 1 ∧ (sizeofOperandState s).out = s.out ∧
    ∃ s2 z,
      sizeofOperand (recN e n) s (sizeofOperandState s) = .ok ((), s2) ∧
      s2.nogen = s.nogen + 1 ∧ s2.out = s.out ∧
      totsz e s2 (s2.ts.getD (s2.nts - 1) type.zero) = some z ∧
      s1.out = s.out ++ gate s.nogen
        (Call.num z :: if e.NCCWORDCAST then [Call.cast e.LONGSZ] else []) ∧
      s1.nogen = s.nogen := by
  refine ⟨(sizeofOperandState_nogen s).1, (sizeofOperandState_nogen s).2, ?_⟩
  have hq : Quiet (s.nogen + 1) s.out (sizeofOperandState s) :=
    ⟨by omega, (sizeofOperandState_nogen s).1, (sizeofOperandState_nogen s).2⟩
  have hk1 : (curTok (tokLoad s)).kind = Tok.SIZEOF := hk
  unfold readpre at h
  rw [tok_jmp_skip _ _ _ _ (by rw [hk]; decide),
    tok_jmp_skip _ _ _ _ (by rw [hk1]; decide), tokLoad_idem,
    tok_jmp_skip _ _ _ _ (by rw [hk1]; decide), tokLoad_idem,
    tok_jmp_skip _ _ _ _ (by rw [hk1]; decide), tokLoad_idem,
    tok_jmp_skip _ _ _ _ (by rw [hk1]; decide), tokLoad_idem,
    tok_jmp_skip _ _ _ _ (by rw [hk1]; decide), tokLoad_idem,
    tok_jmp_skip _ _ _ _ (by rw [hk1]; decide), tokLoad_idem,
    tok_jmp_skip _ _ _ _ (by rw [hk1]; decide), tokLoad_idem,
    tok_jmp_take _ _ _ _ hk1 (by decide), advance_tokLoad] at h
  obtain ⟨op, sa, h1, hb⟩ := bind_ok_inv _ _ _ _ _ h
  obtain ⟨t, sb, h2, hc⟩ := bind_ok_inv _ _ _ _ _ hb
  have hsa : sa = if (curTok (advance s)).kind = Tok.lparen then advance (advance s)
      else tokLoad (advance s) := by
    by_cases hp : (curTok (advance s)).kind = Tok.lparen
    · rw [tok_jmp_eq _ _ hp (by decide)] at h1
      cases h1
      rw [if_pos hp]
    · rw [tok_jmp_ne _ _ hp] at h1
      cases h1
      rw [if_neg hp]
  have hop0 : op = 0 ↔ (curTok (advance s)).kind = Tok.lparen := by
    by_cases hp : (curTok (advance s)).kind = Tok.lparen
    · rw [tok_jmp_eq _ _ hp (by decide)] at h1
      cases h1
      exact ⟨fun _ => hp, fun _ => rfl⟩
    · rw [tok_jmp_ne _ _ hp] at h1
      cases h1
      exact ⟨fun hx => absurd hx one_ne_zero, fun hx => absurd hx hp⟩
  have hload : tokLoad sa = tokLoad (sizeofOperandAt s) := by
    rw [hsa]
    unfold sizeofOperandAt
    split
    · rfl
    · rw [tokLoad_idem]
  have hty : startsType sa = false := by
    rw [hsa]
    unfold sizeofOperandAt at hop
    split
    · next hp => rw [if_pos hp] at hop; exact hop
    · next hp => rw [if_neg hp] at hop; exact hop
  obtain ⟨ht, hsb⟩ := readtype_not_type e _ sa t sb hty h2
  simp only [if_pos ht] at hc
  obtain ⟨_, sd, h4, hd⟩ := bind_ok_inv _ _ _ _ _ hc
  have hsd : sd = sizeofOperandState s := by
    cases h4
    show incNogen sb = incNogen (tokLoad (sizeofOperandAt s))
    rw [hsb, hload]
  rw [hsd] at hd
  have hE : ∃ se, sizeofOperand (recN e n) s (sizeofOperandState s) = .ok ((), se) ∧
      (nogen_dec >>= fun _ => ts_pop >>= fun t1 => (do
        o_num (← type_totsz e t1)
        ts_push_bt e e.LONGSZ
        if op = 0 then tok_expect Tok.rparen else pure ())) se = .ok ((), s1) := by
    unfold sizeofOperand
    by_cases hp : op = 0
    · simp only [if_pos hp] at hd
      obtain ⟨_, se, h5, hf⟩ := bind_ok_inv _ _ _ _ _ hd
      refine ⟨se, ?_, ?_⟩
      · rw [if_pos (hop0.mp hp)]; exact h5
      · simp only [if_pos hp]; exact hf
    · simp only [if_neg hp] at hd
      obtain ⟨_, se, h5, hf⟩ := bind_ok_inv _ _ _ _ _ hd
      refine ⟨se, ?_, ?_⟩
      · rw [if_neg (fun hx => hp (hop0.mpr hx))]; exact h5
      · simp only [if_neg hp]; exact hf
  obtain ⟨se, hrun, hrest⟩ := hE
  have hqe : Quiet (s.nogen + 1) s.out se := by
    unfold sizeofOperand at hrun
    split at hrun
    · exact (recN_quiet e n).readexpr _ _ _ _ _ hq hrun
    · exact (recN_quiet e n).readpre _ _ _ _ _ hq hrun
  obtain ⟨z, hz, hout, hng⟩ := sizeof_rest e op s.nogen s.out se s1 hqe.2.1 hqe.2.2 hrest
  exact ⟨se, z, hrun, hqe.2.1, hqe.2.2, hz, hout, hng⟩

theorem sizeof_expr_no_calls_witness :
    ((curTok (State.init sizeofStrStmt)).kind = Tok.SIZEOF ∧
      readpre demoEnv (recN demoEnv 20) (State.init sizeofStrStmt) = .ok ((), sizeofStrEnd) ∧
      sizeofStrEnd.out = [Call.num 3] ∧
      ∃ s2 z,
        sizeofOperand (recN demoEnv 20) (State.init sizeofStrStmt)
          (sizeofOperandState (State.init sizeofStrStmt)) = .ok ((), s2) ∧
        s2.nogen = (State.init sizeofStrStmt).nogen + 1 ∧
        s2.out = (State.init sizeofStrStmt).out ∧
        totsz demoEnv s2 (s2.ts.getD (s2.nts - 1) type.zero) = some z ∧
        sizeofStrEnd.out = (State.init sizeofStrStmt).out ++
          gate (State.init sizeofStrStmt).nogen
            (Call.num z :: if demoEnv.NCCWORDCAST then [Call.cast demoEnv.LONGSZ] else []) ∧
        sizeofStrEnd.nogen = (State.init sizeofStrStmt).nogen) ∧
    ((curTok (State.init sizeofCallStmt)).kind = Tok.SIZEOF ∧
      readpre demoEnv (recN demoEnv 20) (State.init sizeofCallStmt) = .ok ((), sizeofCallEnd) ∧
      sizeofCallEnd.out = [Call.num 4] ∧
      ∃ s2 z,
        sizeofOperand (recN demoEnv 20) (State.init sizeofCallStmt)
          (sizeofOperandState (State.init sizeofCallStmt)) = .ok ((), s2) ∧
        s2.nogen = (State.init sizeofCallStmt).nogen + 1 ∧
        s2.out = (State.init sizeofCallStmt).out ∧
        totsz demoEnv s2 (s2.ts.getD (s2.nts - 1) type.zero) = some z ∧
        sizeofCallEnd.out = (State.init sizeofCallStmt).out ++
          gate (State.init sizeofCallStmt).nogen
            (Call.num z :: if demoEnv.NCCWORDCAST then [Call.cast demoEnv.LONGSZ] else []) ∧
        sizeofCallEnd.nogen = (State.init sizeofCallStmt).nogen) :=
  have h1 : readpre demoEnv (recN demoEnv 20) (State.init sizeofStrStmt)
      = .ok ((), sizeofStrEnd) := by decide!
  have h2 : readpre demoEnv (recN demoEnv 20) (State.init sizeofCallStmt)
      = .ok ((), sizeofCallEnd) := by decide!
  ⟨⟨by decide, h1, by decide!,
    (sizeof_expr_no_calls demoEnv 20 _ _ (by decide) (by decide) (by decide) h1).2.2⟩,
   ⟨by decide, h2, by decide!,
    (sizeof_expr_no_calls demoEnv 20 _ _ (by decide) (by decide) (by decide) h2).2.2⟩⟩

/-- C17 (the code at the failing input): for `= { (1, 2), 3 }`, a list of two elements,
`initsize` returns 3 (it takes the comma inside the parentheses for the end of an
element), so that `int a[] = { (1, 2), 3 };` declares an array of 3 `int` (12 bytes)
and stores two elements.  It returns 5 for `= { 1, 2, 3, 4, 5 }` and 3 for
`= { 1, { 2, 3 }, 4 }`, with the cursor where it was. -/
theorem initsize_paren_comma :
    initsizeOf parenInit = some (3, 0) ∧
    (outOf (parse demoEnv (recN demoEnv 30) (State.init parenArrayProg))) = some
      [Call.dsnew "a" 12 1, Call.num 1, Call.tmpdrop 1, Call.num 2,
       Call.dsset "a" 0 (4 ||| BT_SIGNED), Call.num 3, Call.dsset "a" 4 (4 ||| BT_SIGNED)] ∧
    initsizeOf fiveInit = some (5, 0) ∧ initsizeOf nestedInit = some (3, 0) := by
  refine ⟨by decide!, by decide!, by decide!, by decide!⟩

/-- C18: `struct_find` is find-or-create keyed by the tag name and the union flag.  For
a non-empty name: when descriptors with that name and flag exist, the index of the
newest is returned and the state is unchanged; when none exists and the table has room,
a descriptor that is zero but for the name and the flag is stored at index `nstructs`,
every other entry is kept, that index is returned, and a second `struct_find` with the
same key returns it again without changing anything; and the indices returned for a
struct and a union of one name differ. -/
theorem struct_find_find_or_create (e : Env) (nm : String) (u : Int) (s : State)
    (hnm : nm ≠ "") :
    (∀ i, i < s.nstructs → hasTag s nm u i →
      (∀ j, i < j → j < s.nstructs → ¬ hasTag s nm u j) →
      struct_find e nm u s = .ok (i, s)) ∧
    ((∀ i, i < s.nstructs → ¬ hasTag s nm u i) → s.nstructs + 1 < e.NSTRUCTS →
      struct_find e nm u s = .ok (s.nstructs, withNewStruct s nm u) ∧
      (withNewStruct s nm u).nstructs = s.nstructs + 1 ∧
      (withNewStruct s nm u).structs.getD s.nstructs structinfo.zero
        = { structinfo.zero with name := nm, isunion := u } ∧
      (∀ j, j ≠ s.nstructs → (withNewStruct s nm u).structs.getD j structinfo.zero
        = s.structs.getD j structinfo.zero) ∧
      struct_find e nm u (withNewStruct s nm u) = .ok (s.nstructs, withNewStruct s nm u)) ∧
    (∀ (u2 : Int) (i j : Nat) (s1 s2 : State), u2 ≠ u →
      struct_find e nm u s = .ok (i, s1) → struct_find e nm u2 s1 = .ok (j, s2) → i ≠ j) := by
  refine ⟨?_, ?_, ?_⟩
  · intro i hi ht hnew
    apply struct_find_found
    rw [struct_find_aux_some]
    exact ⟨hi, (hasTag_iff s nm u i hnm).2 ht, fun j h1 h2 hp =>
      hnew j h1 h2 ((hasTag_iff s nm u j hnm).1 hp)⟩
  · intro hno hcap
    have hn : struct_find_aux s.structs nm u s.nstructs = none := by
      rw [struct_find_aux_none]
      exact fun i hi hp => hno i hi ((hasTag_iff s nm u i hnm).1 hp)
    refine ⟨struct_find_new e nm u s hn hcap, rfl, getD_tset_self _ _ _ _, ?_, ?_⟩
    · intro j hj
      exact getD_tset_ne _ _ _ _ _ hj
    · apply struct_find_found
      rw [struct_find_aux_some]
      refine ⟨Nat.lt_succ_self _, ?_, fun j h1 h2 => ?_⟩
      · have hg : (withNewStruct s nm u).structs.getD s.nstructs structinfo.zero
            = { structinfo.zero with name := nm, isunion := u } := getD_tset_self _ _ _ _
        rw [hg]
        exact ⟨hnm, rfl, rfl⟩
      · have : j < s.nstructs + 1 := h2
        omega
  · intro u2 i j s1 s2 hu h1 h2 hij
    have r1 := struct_find_result e nm u s s1 i hnm h1
    have r2 := struct_find_result e nm u2 s1 s2 j hnm h2
    subst hij
    cases hf : struct_find_aux s1.structs nm u2 s1.nstructs with
    | some k =>
      rw [struct_find_found e nm u2 s1 k hf] at h2
      injection h2 with h2; injection h2 with h3 h4
      subst h3
      have := ((struct_find_aux_some _ _ _ _ _).1 hf).2.1.2.2
      exact hu (this.symm.trans r1.2.2)
    | none =>
      by_cases hcap : s1.nstructs + 1 < e.NSTRUCTS
      · rw [struct_find_new e nm u2 s1 hf hcap] at h2
        injection h2 with h2; injection h2 with h3 h4
        omega
      · rw [struct_find_full e nm u2 s1 hf hcap] at h2
        cases h2

theorem struct_find_find_or_create_witness :
    struct_find demoEnv "S" 0 structState = .ok (0, structState) ∧
    struct_find demoEnv "S" 1 structState = .ok (1, withNewStruct structState "S" 1) ∧
    struct_find demoEnv "S" 1 (withNewStruct structState "S" 1)
      = .ok (1, withNewStruct structState "S" 1) :=
  ⟨(struct_find_find_or_create demoEnv "S" 0 structState (by decide)).1 0 (by decide)
      (by decide) (fun j h1 h2 => absurd h2 (by show ¬ j < 1; omega)),
   ((struct_find_find_or_create demoEnv "S" 1 structState (by decide)).2.1
      (fun i hi => by
        have hi0 : i = 0 := by have : i < 1 := hi; omega
        subst hi0; decide) (by decide)).1,
   ((struct_find_find_or_create demoEnv "S" 1 structState (by decide)).2.1
      (fun i hi => by
        have hi0 : i = 0 := by have : i < 1 := hi; omega
        subst hi0; decide) (by decide)).2.2.2.2⟩

/-- C19: `label_id` allocates an id on first mention and is stable afterwards.  Let the
label table be in order in `s` (as it is when `readfunc` starts a pass with an empty
table) and let the parser get from `s` to `t` within the function.  A name that is not
in the table receives the incremented label counter, which no recorded name has, and is
recorded with it; once `label_id` has returned `i` for a name, every later call with
that name returns `i` and leaves the state, so the label counter and the label table,
unchanged; and calls with two different names return different ids.  The order of
the table is kept by every statement `readstmt` reads, so that in the state it ends in
two different recorded names have different ids as well. -/
theorem label_id_stable (s t : State) (nm : String) (hs : LabelsOk s) (hr : LabelRun s t) :
    (label_find t.labels nm t.nlabels = none →
      label_id nm t = .ok (t.label + 1, withNewLabel t nm) ∧
      (withNewLabel t nm).label = t.label + 1 ∧
      (withNewLabel t nm).nlabels = t.nlabels + 1 ∧
      (withNewLabel t nm).labels.getD t.nlabels ("", 0) = (nm, t.label + 1) ∧
      (∀ j, j ≠ t.nlabels →
        (withNewLabel t nm).labels.getD j ("", 0) = t.labels.getD j ("", 0)) ∧
      (∀ j, j < t.nlabels → (t.labels.getD j ("", 0)).2 ≠ t.label + 1)) ∧
    (∀ (i : Int) (t1 t2 : State), label_id nm t = .ok (i, t1) → LabelRun t1 t2 →
      label_id nm t2 = .ok (i, t2)) ∧
    (∀ (b : String) (i j : Int) (t1 t2 t3 : State), b ≠ nm →
      label_id nm t = .ok (i, t1) → LabelRun t1 t2 → label_id b t2 = .ok (j, t3) → i ≠ j) ∧
    (∀ (e : Env) (k : Nat) (u : State) (b : String) (i j : Int), b ≠ nm →
      readstmt e (recN e k) t = .ok ((), u) →
      label_find u.labels nm u.nlabels = some i → label_find u.labels b u.nlabels = some j →
      i ≠ j) := by
  have ht : LabelsOk t := LabelRun_ok s t hs hr
  have hrec : ∀ (i : Int) (t1 : State), label_id nm t = .ok (i, t1) →
      label_find t1.labels nm t1.nlabels = some i ∧ LabelsOk t1 := by
    intro i t1 h
    rcases label_id_cases nm t t1 i h with ⟨h1, h2⟩ | ⟨_, h2, h3⟩
    · rw [h2]; exact ⟨h1, ht⟩
    · rw [h3, h2]; exact ⟨label_find_withNewLabel nm t, LabelsOk_withNewLabel nm t ht⟩
  refine ⟨?_, ?_, ?_, ?_⟩
  · intro hn
    refine ⟨label_id_fresh nm t hn, rfl, rfl, getD_tset_self _ _ _ _, ?_, ?_⟩
    · intro j hj
      exact getD_tset_ne _ _ _ _ _ hj
    · intro j hj
      have := ht.1 j hj
      omega
  · intro i t1 t2 h1 h2
    exact label_id_known nm t2 i (LabelRun_keep t1 t2 nm i h2 (hrec i t1 h1).1)
  · intro b i j t1 t2 t3 hb h1 h2 h3 hij
    have r1 := hrec i t1 h1
    have k2 : label_find t2.labels nm t2.nlabels = some i := LabelRun_keep t1 t2 nm i h2 r1.1
    have o2 : LabelsOk t2 := LabelRun_ok t1 t2 r1.2 h2
    rcases label_id_cases b t2 t3 j h3 with ⟨h4, _⟩ | ⟨_, h5, _⟩
    · exact LabelsOk_distinct t2 nm b i j o2 k2 h4 (fun h => hb h.symm) hij
    · obtain ⟨p, hp, ep⟩ := label_find_some _ _ _ _ k2
      have := o2.1 p hp
      rw [ep] at this
      have : i ≤ t2.label := this
      omega
  · intro e k u b i j hb hrun ha hb2
    exact LabelsOk_distinct u nm b i j
      (readstmt_labs (recN e k) (recN_labs e k) e t () u ht hrun) ha hb2 (fun h => hb h.symm)

theorem label_id_stable_witness :
    LabelsOk passStart ∧
    label_id "out" passStart = .ok (1, withNewLabel passStart "out") ∧
    label_id "out" (withNewLabel passStart "out") = .ok (1, withNewLabel passStart "out") ∧
    label_id "again" (withNewLabel passStart "out")
      = .ok (2, withNewLabel (withNewLabel passStart "out") "again") :=
  ⟨LabelsOk_of_nlabels_zero passStart rfl,
   ((label_id_stable passStart passStart "out"
      (LabelsOk_of_nlabels_zero passStart rfl) (LabelRun.refl _)).1 (by decide)).1,
   (label_id_stable passStart passStart "out"
      (LabelsOk_of_nlabels_zero passStart rfl) (LabelRun.refl _)).2.1 1 _ _
      (by decide) (LabelRun.refl _),
   by decide⟩

/-- C20: `local_find(name)` returns the largest index below `nlocals` whose entry has
that name, and -1 exactly when no entry below `nlocals` has it; `local_add` of an
entry succeeds while the table is not full, and right after it `local_find` of the
entry's name returns the index of the new entry, whatever older entries are called. -/
theorem local_find_newest (e : Env) (nm : String) (s : State) :
    local_find nm s = .ok (name_find s.locals nm s.nlocals, s) ∧
    (name_find s.locals nm s.nlocals = -1 ↔
      ∀ i, i < s.nlocals → (s.locals.getD i name.zero).name ≠ nm) ∧
    (∀ k : Nat, name_find s.locals nm s.nlocals = (k : Int) ↔
      (k < s.nlocals ∧ (s.locals.getD k name.zero).name = nm ∧
        ∀ j, k < j → j < s.nlocals → (s.locals.getD j name.zero).name ≠ nm)) ∧
    (name_find s.locals nm s.nlocals = -1 ∨
      ∃ k : Nat, name_find s.locals nm s.nlocals = (k : Int)) ∧
    (∀ x : name, x.name = nm → s.nlocals < e.NLOCALS →
      ∃ s1, local_add e x s = .ok ((), s1) ∧ s1.nlocals = s.nlocals + 1 ∧
        s1.locals.getD s.nlocals name.zero = x ∧
        local_find nm s1 = .ok ((s.nlocals : Int), s1)) := by
  refine ⟨rfl, (name_find_spec _ _ _).1, (name_find_spec _ _ _).2, ?_, ?_⟩
  · by_cases h : ∀ i, i < s.nlocals → (s.locals.getD i name.zero).name ≠ nm
    · exact Or.inl ((name_find_spec _ _ _).1.2 h)
    · right
      generalize s.nlocals = n at h ⊢
      induction n with
      | zero => exact absurd (fun i hi => absurd hi (Nat.not_lt_zero i)) h
      | succ n ih =>
        by_cases hn : (s.locals.getD n name.zero).name = nm
        · exact ⟨n, by show (if _ then _ else _) = _; rw [if_pos hn]⟩
        · have : name_find s.locals nm (n + 1) = name_find s.locals nm n := by
            show (if _ then _ else _) = _
            rw [if_neg hn]
          rw [this]
          apply ih
          intro h2
          apply h
          intro i hi
          by_cases hin : i = n
          · subst hin; exact hn
          · exact h2 i (by omega)
  · intro x hx hcap
    refine ⟨_, local_add_ok e x s hcap, rfl, getD_tset_self _ _ _ _, ?_⟩
    show Except.ok (name_find (tset name.zero s.locals s.nlocals x) nm (s.nlocals + 1), _) = _
    have : name_find (tset name.zero s.locals s.nlocals x) nm (s.nlocals + 1) = (s.nlocals : Int) := by
      show (if _ then _ else _) = _
      rw [if_pos (by rw [getD_tset_self]; exact hx)]
    rw [this]

theorem local_find_newest_witness :
    local_find "x" shadowState = .ok (0, shadowState) ∧
    local_find "z" shadowState = .ok (-1, shadowState) ∧
    ∃ s1, local_add demoEnv (member "x" tChar) shadowState = .ok ((), s1) ∧
      s1.nlocals = 3 ∧ s1.locals.getD 2 name.zero = member "x" tChar ∧
      local_find "x" s1 = .ok (2, s1) :=
  ⟨by decide, by decide,
   (local_find_newest demoEnv "x" shadowState).2.2.2.2 (member "x" tChar) rfl (by decide)⟩

/-! ## Tables, declarators, and the remaining expression and statement claims -/

theorem local_add_check (e : Env) (nm : name) (s : State) :
    local_add e nm s = if e.NLOCALS ≤ s.nlocals then .error (Err.err "nomem: NLOCALS reached!\n")
      else .ok ((), { s with locals := tset name.zero s.locals s.nlocals nm,
                             nlocals := s.nlocals + 1 }) := by
  unfold local_add
  simp only [bind_apply, getS_apply, ge_iff_le]
  split <;> rfl

theorem global_add_check (e : Env) (nm : name) (s : State) :
    global_add e nm s
      = if e.NGLOBALS ≤ s.nglobals then .error (Err.err "nomem: NGLOBALS reached!\n")
        else .ok ((), { s with globals := tset name.zero s.globals s.nglobals nm,
                               nglobals := s.nglobals + 1 }) := by
  unfold global_add
  simp only [bind_apply, getS_apply, ge_iff_le]
  split <;> rfl

theorem enum_add_check (e : Env) (nm : String) (v : Int) (s : State) :
    enum_add e nm v s
      = if e.NENUMS ≤ s.nenums + 1 then .error (Err.err "nomem: NENUMS reached!\n")
        else .ok ((), { s with
          enums := tset enumval.zero s.enums s.nenums
            { name := nm, n := toInt32 (toUnsigned v) },
          nenums := s.nenums + 1 }) := by
  unfold enum_add
  simp only [bind_apply, getS_apply, modS_apply, ge_iff_le]
  split <;> rfl

theorem typedef_add_check (e : Env) (nm : String) (t : type) (s : State) :
    typedef_add e nm t s
      = if e.NTYPEDEFS ≤ s.ntypedefs + 1 then .error (Err.err "nomem: NTYPEDEFS reached!\n")
        else .ok ((), { s with
          typedefs := tset typdefinfo.zero s.typedefs s.ntypedefs { name := nm, type := t },
          ntypedefs := s.ntypedefs + 1 }) := by
  unfold typedef_add
  simp only [bind_apply, getS_apply, modS_apply, ge_iff_le]
  split <;> rfl

theorem array_add_check (e : Env) (t : type) (n : Int) (s : State) :
    array_add e t n s
      = if e.NARRAYS ≤ s.narrays + 1 then .error (Err.err "nomem: NARRAYS reached!\n")
        else .ok (s.narrays, { s with
          arrays := tset array.zero s.arrays s.narrays
            { type := t, n := toInt32 (toUnsigned n) },
          narrays := s.narrays + 1 }) := by
  unfold array_add
  simp only [bind_apply, getS_apply, modS_apply, ge_iff_le]
  split <;> rfl

theorem func_create_check (e : Env) (ret : type) (nm : String) (argnames : List String)
    (args : List type) (nargs : Nat) (varg : Int) (s : State) :
    func_create e ret nm argnames args nargs varg s
      = if e.NFUNCS ≤ s.nfuncs + 1 then .error (Err.err "nomem: NFUNCS reached!\n")
        else .ok (s.nfuncs, { s with
          funcs := tset funcinfo.zero s.funcs s.nfuncs
            { args := args.take nargs, ret := ret, nargs := nargs, varg := varg,
              argnames := argnames.take nargs, name := nm },
          nfuncs := s.nfuncs + 1 }) := by
  unfold func_create
  simp only [bind_apply, getS_apply, modS_apply, ge_iff_le]
  split <;> rfl

theorem struct_find_check (e : Env) (nm : String) (u : Int) (s : State)
    (h : struct_find_aux s.structs nm u s.nstructs = none) :
    struct_find e nm u s
      = if e.NSTRUCTS ≤ s.nstructs + 1 then .error (Err.err "nomem: NSTRUCTS reached!\n")
        else .ok (s.nstructs, { s with
          structs := tset structinfo.zero s.structs s.nstructs
            { structinfo.zero with name := nm, isunion := u },
          nstructs := s.nstructs + 1 }) := by
  unfold struct_find
  simp only [bind_apply, getS_apply, h, modS_apply, ge_iff_le]
  split <;> rfl

/-- C21 (counterexample): in `int g; { extern int x; h(); } k();` the table of globals
is not append-only.  Inside the block, the statement `extern int x;` appends `x` at index
1 and the statement `h();` appends `h` at index 2; when the block closes `nglobals` is
set back to 1, which cuts both entries off; the next statement, `k();`, appends `k` at
index 1, the slot that held `x`. -/
theorem globals_cut_at_block_end :
    readstmt demoEnv (recN demoEnv 19) cutInner = .ok ((), cutInner1) ∧
    cutInner.nglobals = 1 ∧ cutInner1.nglobals = 2 ∧
    (cutInner1.globals.getD 1 name.zero).name = "x" ∧
    readstmt demoEnv (recN demoEnv 19) (tokLoad cutInner1) = .ok ((), cutInner2) ∧
    cutInner2.nglobals = 3 ∧ (cutInner2.globals.getD 1 name.zero).name = "x" ∧
    (cutInner2.globals.getD 2 name.zero).name = "h" ∧
    readstmt demoEnv (recN demoEnv 20) cutEntry = .ok ((), cutExit) ∧
    cutExit.globals = cutInner2.globals ∧ cutExit.nglobals = 1 ∧
    readstmt demoEnv (recN demoEnv 20) cutExit = .ok ((), cutNext) ∧
    cutNext.nglobals = 2 ∧ (cutNext.globals.getD 1 name.zero).name = "k" := by
  refine ⟨by decide!, by decide!, by decide!, by decide!, by decide!, by decide!, by decide!,
    by decide!, by decide!, by decide!, by decide!, by decide!, by decide!, by decide!⟩

/-- C21 (as amended): whatever statement `readstmt` reads (a compound statement
included), the table of globals after the statement is at least as long as before the
statement and holds every entry it held before the statement, at the same index.  (What
the statements inside a compound statement append is cut off when the block closes.) -/
theorem readstmt_globals_kept (e : Env) (n : Nat) (s s1 : State)
    (h : readstmt e (recN e n) s = .ok ((), s1)) :
    s.nglobals ≤ s1.nglobals ∧
    ∀ i, i < s.nglobals → s1.globals.getD i name.zero = s.globals.getD i name.zero :=
  readstmt_glob s (recN e n) (recN_glob s e n) e s () s1 ⟨Nat.le_refl _, fun _ _ => rfl⟩ h

theorem readstmt_globals_kept_witness :
    readstmt demoEnv (recN demoEnv 20) globEntry = .ok ((), globExit) ∧
    globEntry.nglobals = 1 ∧ (globEntry.globals.getD 0 name.zero).name = "g" ∧
    (globEntry.nglobals ≤ globExit.nglobals ∧
      ∀ i, i < globEntry.nglobals →
        globExit.globals.getD i name.zero = globEntry.globals.getD i name.zero) :=
  ⟨by decide!, by decide!, by decide!,
    readstmt_globals_kept demoEnv 20 globEntry globExit (by decide!)⟩

/-- C22 (the code at the failing input): with `NENUMS = 16` a declaration of fifteen
enumerators is read, and the sixteenth enumerator of `enum { a0, ..., a15, };` raises
`nomem: NENUMS reached!` although the table holds only fifteen entries.  In a state whose
tables all hold fifteen of sixteen entries `local_add` and `global_add` return, while
`enum_add`, `typedef_add`, `array_add`, the create path of `struct_find` and
`func_create` raise the error of their table. -/
theorem enum_add_full_one_early :
    demoEnv.NENUMS = 16 ∧
    (parse demoEnv (recN demoEnv 40) (State.init enum15Prog)).toOption.map
      (fun x => x.2.nenums) = some 15 ∧
    parse demoEnv (recN demoEnv 40) (State.init enum16Prog)
      = .error (Err.err "nomem: NENUMS reached!\n") ∧
    returns (local_add demoEnv name.zero fifteen) = true ∧
    returns (global_add demoEnv name.zero fifteen) = true ∧
    failsWith (enum_add demoEnv "a" 0 fifteen) "nomem: NENUMS reached!\n" = true ∧
    failsWith (typedef_add demoEnv "a" tInt fifteen) "nomem: NTYPEDEFS reached!\n" = true ∧
    failsWith (array_add demoEnv tInt 1 fifteen) "nomem: NARRAYS reached!\n" = true ∧
    failsWith (struct_find demoEnv "a" 0 fifteen) "nomem: NSTRUCTS reached!\n" = true ∧
    failsWith (func_create demoEnv tInt "a" [] [] 0 0 fifteen) "nomem: NFUNCS reached!\n"
      = true := by
  decide!

/-- C25 (counterexample): at the token `;`, which cannot begin a primary expression,
`readprimary` returns normally without consuming it; the statement `;` of
`int f() { ; }` is read without any error. -/
theorem readprimary_semi_returns :
    readprimary demoEnv (recN demoEnv 20) (State.init [tk Tok.semi])
      = .ok ((), State.init [tk Tok.semi]) ∧
    returns (parse demoEnv (recN demoEnv 20) (State.init
      [tk Tok.INT, ident "f", tk Tok.lparen, tk Tok.rparen, tk Tok.lbrace, tk Tok.semi,
       tk Tok.rbrace])) = true := by
  decide!

/-- C25 (as amended): when the current token is not a number, a string literal, an
identifier or `(`, `readprimary` returns normally and leaves the state as it is: no
token is consumed, nothing is pushed on the type stack, no call is made and no error is
raised. -/
theorem readprimary_no_primary (e : Env) (r : Rec) (s : State)
    (h1 : (curTok s).kind ≠ Tok.NUM) (h2 : (curTok s).kind ≠ Tok.STR)
    (h3 : (curTok s).kind ≠ Tok.NAME) (h4 : (curTok s).kind ≠ Tok.lparen) :
    readprimary e r s = .ok ((), s) := by
  have hl : tokLoad s = s := tokLoad_of_plain s h3 h1 h2
  unfold readprimary
  simp only [bind_apply]
  rw [tok_jmp_ne s _ h1, hl]
  simp only [one_ne_zero, if_false, bind_apply]
  rw [tok_jmp_ne s _ h2, hl]
  simp only [one_ne_zero, if_false, bind_apply]
  rw [tok_jmp_ne s _ h3, hl]
  simp only [one_ne_zero, if_false, bind_apply]
  rw [tok_jmp_ne s _ h4, hl]
  simp only [one_ne_zero, if_false, pure_apply]

theorem readprimary_no_primary_witness :
    (curTok (State.init [tk Tok.rparen])).kind ≠ Tok.NUM ∧
    readprimary demoEnv (recN demoEnv 20) (State.init [tk Tok.rparen])
      = .ok ((), State.init [tk Tok.rparen]) :=
  ⟨by decide, readprimary_no_primary demoEnv (recN demoEnv 20) (State.init [tk Tok.rparen])
    (by decide) (by decide) (by decide) (by decide)⟩

theorem readpre_amp (e : Env) (r : Rec) (s s1 : State)
    (ht : (curTok s).kind = Tok.amp) (hr : r.readpre (advance s) = .ok ((), s1))
    (hn : s1.nts ≠ 0) :
    readpre e r s =
      if (s1.ts.getD (s1.nts - 1) type.zero).addr = 0 then
        .error (Err.err "cannot use the address\n")
      else
        .ok ((), { s1 with
          ts := tset type.zero s1.ts (s1.nts - 1)
            { (s1.ts.getD (s1.nts - 1) type.zero) with
              ptr := (s1.ts.getD (s1.nts - 1) type.zero).ptr + 1, addr := 0 } }) := by
  have e1 : s1.nts - 1 + 1 = s1.nts := by omega
  unfold readpre
  simp only [bind_apply]
  rw [tok_jmp_eq s Tok.amp ht (by decide)]
  simp only [if_true, bind_apply, hr, ts_pop_apply s1 hn]
  split
  · rfl
  · simp only [ts_push, modS_apply, e1]

/-- C26: for `& operand`, where reading the operand leaves at least one entry on the
type stack, `readpre` raises `cannot use the address` exactly when the `addr` flag of
the operand's entry is clear; otherwise it makes no call to the code generator (the
calls are those made while the operand was read) and replaces the entry by the same type
with the pointer depth incremented by 1 and the `addr` flag cleared. -/
theorem readpre_address_of (e : Env) (r : Rec) (s s1 : State)
    (ht : (curTok s).kind = Tok.amp) (hr : r.readpre (advance s) = .ok ((), s1))
    (hn : s1.nts ≠ 0) :
    (readpre e r s = .error (Err.err "cannot use the address\n") ↔
      (s1.ts.getD (s1.nts - 1) type.zero).addr = 0) ∧
    ((s1.ts.getD (s1.nts - 1) type.zero).addr ≠ 0 →
      ∃ s2, readpre e r s = .ok ((), s2) ∧ s2.out = s1.out ∧ s2.nts = s1.nts ∧
        s2.ts.getD (s1.nts - 1) type.zero =
          { (s1.ts.getD (s1.nts - 1) type.zero) with
            ptr := (s1.ts.getD (s1.nts - 1) type.zero).ptr + 1, addr := 0 } ∧
        (∀ i, i ≠ s1.nts - 1 → s2.ts.getD i type.zero = s1.ts.getD i type.zero)) := by
  rw [readpre_amp e r s s1 ht hr hn]
  constructor
  · constructor
    · intro h
      by_contra hc
      rw [if_neg hc] at h
      cases h
    · intro h
      rw [if_pos h]
  · intro h
    rw [if_neg h]
    refine ⟨_, rfl, rfl, rfl, ?_, ?_⟩
    · exact getD_tset_self _ _ _ _
    · intro i hi
      exact getD_tset_ne _ _ _ _ _ hi

theorem readpre_address_of_witness :
    ((curTok addrState).kind = Tok.amp ∧
      (recN demoEnv 20).readpre (advance addrState) = .ok ((), addrOperand) ∧
      addrOperand.ts.getD (addrOperand.nts - 1) type.zero = { tInt with addr := 1 } ∧
      ∃ s2, readpre demoEnv (recN demoEnv 20) addrState = .ok ((), s2) ∧
        s2.out = addrOperand.out ∧ s2.nts = addrOperand.nts ∧
        s2.ts.getD (addrOperand.nts - 1) type.zero =
          { (addrOperand.ts.getD (addrOperand.nts - 1) type.zero) with
            ptr := (addrOperand.ts.getD (addrOperand.nts - 1) type.zero).ptr + 1, addr := 0 } ∧
        (∀ i, i ≠ addrOperand.nts - 1 →
          s2.ts.getD i type.zero = addrOperand.ts.getD i type.zero)) ∧
    ((curTok addrNumState).kind = Tok.amp ∧
      (recN demoEnv 20).readpre (advance addrNumState) = .ok ((), addrNumOperand) ∧
      (addrNumOperand.ts.getD (addrNumOperand.nts - 1) type.zero).addr = 0 ∧
      readpre demoEnv (recN demoEnv 20) addrNumState
        = .error (Err.err "cannot use the address\n")) :=
  ⟨⟨by decide!, by decide!, by decide!,
    (readpre_address_of demoEnv (recN demoEnv 20) addrState addrOperand (by decide!)
      (by decide!) (by decide!)).2 (by decide!)⟩,
   ⟨by decide!, by decide!, by decide!,
    (readpre_address_of demoEnv (recN demoEnv 20) addrNumState addrNumOperand (by decide!)
      (by decide!) (by decide!)).1.2 (by decide!)⟩⟩

/-- C27 (counterexample): in `int f(int x, int y) { switch (x) { case y: ; } }` the case
label `y` is a variable and does not fold, even for a code generator whose `o_popnum`
never succeeds; the program is read without an error, `o_popnum` is never called, and
the label is compared with the switch value at run time (`o_bop(O_EQ)`, `o_jz`). -/
theorem readswitch_case_variable :
    (outOf (parse neverFold (recN neverFold 30) (State.init caseVarProg))).map pass1Calls = some
      [Call.tmpdrop (-1), Call.tmpdrop (-1), Call.mklocal 8, Call.local_ 0, Call.deref 260,
       Call.local_ 0, Call.tmpswap, Call.assign 260, Call.tmpdrop 1, Call.label 1,
       Call.local_ 1, Call.deref 260, Call.local_ 0, Call.deref 260, Call.bop Op.EQ false,
       Call.jz 4, Call.tmpdrop 1, Call.label 2, Call.tmpdrop (-1), Call.tmpdrop (-1),
       Call.rmlocal 0 8, Call.jmp 3, Call.label 4, Call.label 3] := by
  decide!

/-- C28 (the code at the failing input): for `int a[] = { [2] = 7, 8 };` `initsize`
counts four elements (the element after the designator is element 3) and the array gets
16 bytes, but `initexpr` stores 7 at offset 8 (element 2) and 8 at offset 4: the element
after the designator goes to element 1, the position it has in the list. -/
theorem initexpr_designator_next :
    (initsize demoEnv (recN demoEnv 20) (State.init desigInit)).toOption.map (fun x => x.1)
      = some 4 ∧
    outOf (parse demoEnv (recN demoEnv 30) (State.init desigProg)) = some
      [Call.num 2, Call.popnum, Call.dsnew "a" 16 1, Call.num 2, Call.popnum, Call.num 7,
       Call.dsset "a" 8 260, Call.num 8, Call.dsset "a" 4 260] := by
  decide!

theorem initsize_eof_loop (r : Rec) (k : Nat) (s : State) (h : (curTok s).kind = Tok.EOF) :
    loop (do
      if (← tok_see) ≠ Tok.rbrace then
        if (← tok_see) ≠ Tok.comma then
          if (← tok_get) = Tok.lbrace then jumpbrace r else pure ()
          pure true
        else pure false
      else pure false) k s = .error Err.fuel := by
  induction k generalizing s with
  | zero => rfl
  | succ k ih =>
    rw [loop_succ]
    have h1 : (curTok (tokLoad s)).kind = Tok.EOF := h
    have h2 : (curTok (tokLoad (tokLoad s))).kind = Tok.EOF := h
    simp only [bind_apply, tok_see_apply, h, h1, tok_get, h2, ne_eq, if_true, if_false,
      pure_apply, reduceCtorEq, not_false_eq_true]
    exact ih _ h

theorem recN_fuel (e : Env) (n : Nat) : (recN e n).fuel = n := by
  cases n <;> rfl

/-- C30 (the code at the failing input): for the tokens `= { 1` followed by the end of
the input, `initsize` does not return and raises no error, however many steps it is
given: its inner loop, which skips to the next `,` or `}`, keeps reading the end-of-file
token. -/
theorem initsize_unterminated_never_returns (n : Nat) :
    initsize demoEnv (recN demoEnv n) (State.init openInit) = .error Err.fuel := by
  unfold initsize
  simp only [bind_apply, tok_addr]
  rw [tok_jmp_eq _ Tok.assign (by decide) (by decide)]
  simp only [ne_eq, not_true_eq_false, if_false, bind_apply]
  rw [tok_jmp_ne _ Tok.STR (by decide)]
  simp only [one_ne_zero, if_false, bind_apply]
  rw [tok_expect_eq _ Tok.lbrace (by decide) (by decide), recN_fuel]
  cases n with
  | zero => rfl
  | succ m =>
    simp only [iter_succ, bind_apply]
    rw [tok_jmp_ne _ Tok.rbrace (by decide)]
    simp only [one_ne_zero, if_false, bind_apply]
    rw [tok_jmp_ne _ Tok.lbrack (by decide)]
    simp only [one_ne_zero, if_false, bind_apply, pure_apply]
    rw [loop_succ]
    simp only [bind_apply, tok_see_apply]
    rw [if_pos (by decide)]
    simp only [bind_apply, tok_see_apply]
    rw [if_pos (by decide)]
    simp only [bind_apply, tok_get]
    rw [if_neg (by decide)]
    simp only [bind_apply, pure_apply, if_true]
    rw [initsize_eof_loop _ _ _ (by decide)]

theorem o_popnum_keeps (e : Env) (c0 : Int) (s s0 : State) (x : Int × Int)
    (h : o_popnum e c0 s = .ok (x, s0)) : s0.nogen = s.nogen ∧ s0.nts = s.nts := by
  unfold o_popnum at h
  split at h
  · cases h; exact ⟨rfl, rfl⟩
  · split at h <;> cases h <;> exact ⟨rfl, rfl⟩

theorem nogen_inc_apply (s : State) : nogen_inc s = .ok ((), incNogen s) := rfl

theorem nogen_dec_apply (s : State) : nogen_dec s = .ok ((), decNogen s) := rfl

theorem ts_pop_de_afterPop (e : Env) (s : State) (h : s.nts ≠ 0) :
    ts_pop_de e s = .ok (deval s (s.ts.getD (s.nts - 1) type.zero), afterPop e s) :=
  ts_pop_de_apply e s h

theorem ts_de_inv (e : Env) (s : State) (a : Unit) (s1 : State)
    (h : ts_de e 1 s = .ok (a, s1)) : s.nts ≠ 0 ∧ s1 = afterDe e s := by
  by_cases hn : s.nts = 0
  · unfold ts_de at h
    simp only [bind_apply, getS_apply, hn, if_true, one_ne_zero, if_false] at h
    cases h
  · rw [ts_de_apply e 1 s hn] at h
    cases h
    exact ⟨hn, rfl⟩

theorem ts_pop_de_inv (e : Env) (s : State) (t : type) (s1 : State)
    (h : ts_pop_de e s = .ok (t, s1)) : s.nts ≠ 0 ∧ s1 = afterPop e s := by
  by_cases hn : s.nts = 0
  · unfold ts_pop_de at h
    obtain ⟨_, sa, h1, h2⟩ := bind_ok_inv _ _ _ _ _ h
    exact absurd hn (ts_de_inv e s _ sa h1).1
  · rw [ts_pop_de_afterPop e s hn] at h
    cases h
    exact ⟨hn, rfl⟩

theorem tok_expect_kind (tok : Tok) (s : State) (a : Unit) (s1 : State)
    (h : tok_expect tok s = .ok (a, s1)) : (curTok s).kind = tok := by
  unfold tok_expect at h
  simp only [bind_apply, tok_get] at h
  by_cases hk : (curTok s).kind = tok
  · exact hk
  · rw [if_pos hk] at h
    cases h

/-- C29: let `o_popnum` fold the condition to `c`.  `readcexpr_const` reads the arm before
the `:` in the state `armA`, with `nogen` one higher than on entry if `c` is zero and
unchanged otherwise, and the arm after the `:` in the state `armB`, with `nogen` one
higher than on entry if `c` is not zero and unchanged otherwise.  If the two arms are
read, each leaving `nogen` as it found it and one more entry on the type stack, then
`readcexpr_const` returns 0 in the state `armEnd`, which is the state the second arm left
after `ts_de(1)` and the closing change of `nogen`, with `nogen` as on entry and exactly
one more entry on the type stack than on entry.  Conversely, whenever `readcexpr_const`
returns, it returns 0, both arms have been read in those states, with a `:` between them,
and the state it returns in is `armEnd` of what the second arm left. -/
theorem readcexpr_const_dead_arm (e : Env) (r : Rec) (s s0 : State) (c : Int)
    (hp : o_popnum e e.garbage s = .ok ((0, c), s0)) :
    (armA c s0).nogen = s.nogen + (if c = 0 then 1 else 0) ∧
    (∀ a1 b1 : State,
      r.readcexpr (armA c s0) = .ok ((), a1) → a1.nogen = (armA c s0).nogen →
      a1.nts = (armA c s0).nts + 1 → (curTok a1).kind = Tok.colon →
      r.readcexpr (armB e c a1) = .ok ((), b1) → b1.nogen = (armB e c a1).nogen →
      b1.nts = (armB e c a1).nts + 1 →
        (armB e c a1).nogen = s.nogen + (if c = 0 then 0 else 1) ∧
        readcexpr_const e r s = .ok (0, armEnd e c b1) ∧
        (armEnd e c b1).nogen = s.nogen ∧ (armEnd e c b1).nts = s.nts + 1) ∧
    (∀ (ret : Int) (s2 : State), readcexpr_const e r s = .ok (ret, s2) →
      ret = 0 ∧ ∃ a1 b1 : State,
        r.readcexpr (armA c s0) = .ok ((), a1) ∧ a1.nts ≠ 0 ∧
        (curTok a1).kind = Tok.colon ∧
        r.readcexpr (armB e c a1) = .ok ((), b1) ∧ b1.nts ≠ 0 ∧
        s2 = armEnd e c b1) := by
  obtain ⟨hk1, hk2⟩ := o_popnum_keeps e _ s s0 _ hp
  refine ⟨?_, ?_, ?_⟩
  · unfold armA
    split
    · show s0.nogen + 1 = _; rw [hk1]
    · show s0.nogen = _; rw [hk1]; simp
  · intro a1 b1 hA hAn hAt hcol hB hBn hBt
    have hcol1 : (curTok (afterPop e a1)).kind = Tok.colon := hcol
    by_cases hc : c = 0
    · subst hc
      have hA0 : r.readcexpr (incNogen s0) = .ok ((), a1) := hA
      have hB0 : r.readcexpr (decNogen (advance (afterPop e a1))) = .ok ((), b1) := hB
      have hAn0 : a1.nogen = s0.nogen + 1 := hAn
      have hAt0 : a1.nts = s0.nts + 1 := hAt
      have hBn0 : b1.nogen = a1.nogen - 1 := hBn
      have hBt0 : b1.nts = a1.nts - 1 + 1 := hBt
      have hn1 : a1.nts ≠ 0 := by omega
      have hn2 : b1.nts ≠ 0 := by omega
      refine ⟨by show a1.nogen - 1 = _; rw [hAn0, hk1]; simp, ?_, ?_, ?_⟩
      · unfold readcexpr_const
        simp only [bind_apply, hp, ne_eq, not_true_eq_false, if_false, if_true, nogen_inc_apply,
          nogen_dec_apply, hA0, ts_pop_de_afterPop e a1 hn1,
          tok_expect_eq _ Tok.colon hcol1 (by decide), hB0, ts_de_apply e 1 b1 hn2, pure_apply]
        rfl
      · show b1.nogen = s.nogen
        rw [hBn0, hAn0, hk1]; omega
      · show b1.nts = s.nts + 1
        rw [hBt0, hAt0, hk2]; omega
    · have hA0 : r.readcexpr s0 = .ok ((), a1) := by
        have := hA; unfold armA at this; rwa [if_neg hc] at this
      have hB0 : r.readcexpr (incNogen (advance (afterPop e a1))) = .ok ((), b1) := by
        have := hB; unfold armB at this; rwa [if_pos hc] at this
      have hAn0 : a1.nogen = s0.nogen := by
        have := hAn; unfold armA at this; rwa [if_neg hc] at this
      have hAt0 : a1.nts = s0.nts + 1 := by
        have := hAt; unfold armA at this; rwa [if_neg hc] at this
      have hBn0 : b1.nogen = a1.nogen + 1 := by
        have := hBn; unfold armB at this; rwa [if_pos hc] at this
      have hBt0 : b1.nts = a1.nts - 1 + 1 := by
        have := hBt; unfold armB at this; rwa [if_pos hc] at this
      have hn1 : a1.nts ≠ 0 := by omega
      have hn2 : b1.nts ≠ 0 := by omega
      have hend : armEnd e c b1 = decNogen (afterDe e b1) := by
        unfold armEnd; rw [if_pos hc]
      refine ⟨by unfold armB; rw [if_pos hc, if_neg hc]; show a1.nogen + 1 = _; rw [hAn0, hk1],
        ?_, ?_, ?_⟩
      · unfold readcexpr_const
        simp only [bind_apply, hp, ne_eq, not_true_eq_false, if_false, hc, not_false_eq_true,
          if_true, nogen_inc_apply, nogen_dec_apply, pure_apply, hA0,
          ts_pop_de_afterPop e a1 hn1, tok_expect_eq _ Tok.colon hcol1 (by decide), hB0,
          ts_de_apply e 1 b1 hn2]
        rw [hend]
        rfl
      · rw [hend]
        show b1.nogen - 1 = s.nogen
        rw [hBn0, hAn0, hk1]; omega
      · rw [hend]
        show b1.nts = s.nts + 1
        rw [hBt0, hAt0, hk2]; omega
  · intro ret s2 h
    unfold readcexpr_const at h
    obtain ⟨x, sx, h0, ha⟩ := bind_ok_inv _ _ _ _ _ h
    rw [hp] at h0
    cases h0
    rw [if_neg (fun hx => hx rfl)] at ha
    by_cases hc : c = 0
    · simp only [if_pos hc, if_neg (fun hx : ¬ c = 0 => hx hc)] at ha
      obtain ⟨_, sa, h1, hb⟩ := bind_ok_inv _ _ _ _ _ ha
      cases h1
      obtain ⟨_, a1, h2, hd⟩ := bind_ok_inv _ _ _ _ _ hb
      obtain ⟨_, sc, h3, hf⟩ := bind_ok_inv _ _ _ _ _ hd
      obtain ⟨hn1, hsc⟩ := ts_pop_de_inv e a1 _ sc h3
      obtain ⟨_, sd, h4, hg⟩ := bind_ok_inv _ _ _ _ _ hf
      have hcol := tok_expect_kind _ _ _ _ h4
      rw [tok_expect_eq _ _ hcol (by decide)] at h4
      cases h4
      obtain ⟨_, se, h5, hi⟩ := bind_ok_inv _ _ _ _ _ hg
      cases h5
      obtain ⟨_, b1, h6, hj⟩ := bind_ok_inv _ _ _ _ _ hi
      obtain ⟨_, sg, h7, hl⟩ := bind_ok_inv _ _ _ _ _ hj
      obtain ⟨hn2, hsg⟩ := ts_de_inv e b1 _ sg h7
      cases hl
      have hA : r.readcexpr (armA c s0) = .ok ((), a1) := by
        unfold armA; rw [if_pos hc]; exact h2
      have hcol1 : (curTok a1).kind = Tok.colon := by rw [hsc] at hcol; exact hcol
      have hB : r.readcexpr (armB e c a1) = .ok ((), b1) := by
        unfold armB; rw [if_neg (fun hx : c ≠ 0 => hx hc), ← hsc]; exact h6
      refine ⟨rfl, a1, b1, hA, hn1, hcol1, hB, hn2, ?_⟩
      unfold armEnd
      rw [if_neg (fun hx : c ≠ 0 => hx hc)]
      exact hsg
    · simp only [if_neg hc, if_pos (show c ≠ 0 from hc)] at ha
      obtain ⟨_, sa, h1, hb⟩ := bind_ok_inv _ _ _ _ _ ha
      cases h1
      obtain ⟨_, a1, h2, hd⟩ := bind_ok_inv _ _ _ _ _ hb
      obtain ⟨_, sc, h3, hf⟩ := bind_ok_inv _ _ _ _ _ hd
      obtain ⟨hn1, hsc⟩ := ts_pop_de_inv e a1 _ sc h3
      obtain ⟨_, sd, h4, hg⟩ := bind_ok_inv _ _ _ _ _ hf
      have hcol := tok_expect_kind _ _ _ _ h4
      rw [tok_expect_eq _ _ hcol (by decide)] at h4
      cases h4
      obtain ⟨_, se, h5, hi⟩ := bind_ok_inv _ _ _ _ _ hg
      cases h5
      obtain ⟨_, b1, h6, hj⟩ := bind_ok_inv _ _ _ _ _ hi
      obtain ⟨_, sg, h7, hl⟩ := bind_ok_inv _ _ _ _ _ hj
      obtain ⟨hn2, hsg⟩ := ts_de_inv e b1 _ sg h7
      obtain ⟨_, sh, h8, hm⟩ := bind_ok_inv _ _ _ _ _ hl
      cases h8
      cases hm
      have hA : r.readcexpr (armA c s0) = .ok ((), a1) := by
        unfold armA; rw [if_neg hc]; exact h2
      have hcol1 : (curTok a1).kind = Tok.colon := by rw [hsc] at hcol; exact hcol
      have hB : r.readcexpr (armB e c a1) = .ok ((), b1) := by
        unfold armB; rw [if_pos hc, ← hsc]; exact h6
      refine ⟨rfl, a1, b1, hA, hn1, hcol1, hB, hn2, ?_⟩
      unfold armEnd
      rw [if_pos hc, ← hsg]
      rfl

theorem readcexpr_const_dead_arm_witness :
    (o_popnum forkEnv forkEnv.garbage (condState 0) = .ok ((0, 0), condFolded 0) ∧
      (recN forkEnv 20).readcexpr (armA 0 (condFolded 0)) = .ok ((), condArmA 0) ∧
      (recN forkEnv 20).readcexpr (armB forkEnv 0 (condArmA 0)) = .ok ((), condArmB 0) ∧
      (condArmB 0).out = (condState 0).out ++ [Call.popnum, Call.num 3] ∧
      (armA 0 (condFolded 0)).nogen = (condState 0).nogen + 1 ∧
      ((armB forkEnv 0 (condArmA 0)).nogen
          = (condState 0).nogen + (if (0 : Int) = 0 then 0 else 1) ∧
        readcexpr_const forkEnv (recN forkEnv 20) (condState 0)
          = .ok (0, armEnd forkEnv 0 (condArmB 0)) ∧
        (armEnd forkEnv 0 (condArmB 0)).nogen = (condState 0).nogen ∧
        (armEnd forkEnv 0 (condArmB 0)).nts = (condState 0).nts + 1)) ∧
    (o_popnum forkEnv forkEnv.garbage (condState 1) = .ok ((0, 1), condFolded 1) ∧
      (condArmB 1).out = (condState 1).out ++ [Call.popnum, Call.num 2] ∧
      (armB forkEnv 1 (condArmA 1)).nogen = (condState 1).nogen + 1 ∧
      ((armB forkEnv 1 (condArmA 1)).nogen
          = (condState 1).nogen + (if (1 : Int) = 0 then 0 else 1) ∧
        readcexpr_const forkEnv (recN forkEnv 20) (condState 1)
          = .ok (0, armEnd forkEnv 1 (condArmB 1)) ∧
        (armEnd forkEnv 1 (condArmB 1)).nogen = (condState 1).nogen ∧
        (armEnd forkEnv 1 (condArmB 1)).nts = (condState 1).nts + 1)) :=
  ⟨⟨by decide!, by decide!, by decide!, by decide!, by decide!,
    (readcexpr_const_dead_arm forkEnv (recN forkEnv 20) (condState 0) (condFolded 0) 0
      (by decide!)).2.1 (condArmA 0) (condArmB 0) (by decide!) (by decide!) (by decide!)
      (by decide!) (by decide!) (by decide!) (by decide!)⟩,
   ⟨by decide!, by decide!, by decide!,
    (readcexpr_const_dead_arm forkEnv (recN forkEnv 20) (condState 1) (condFolded 1) 1
      (by decide!)).2.1 (condArmA 1) (condArmB 1) (by decide!) (by decide!) (by decide!)
      (by decide!) (by decide!) (by decide!) (by decide!)⟩⟩

theorem readswitch_loop (e : Env) (r : Rec) :
    readswitch e r = (do
      let o_break := (← getS).l_break
      let val_addr ← o_mklocal e e.LONGSZ
      let l_failed ← LABEL
      let l_matched ← LABEL
      let lb ← LABEL
      modS fun s => { s with l_break := lb }
      tok_expect Tok.lparen
      readexpr e r
      let t ← ts_pop_de e
      o_local val_addr
      o_tmpswap
      o_assign (TYPE_BT e t)
      ts_de e 0
      o_tmpdrop 1
      tok_expect Tok.rparen
      tok_expect Tok.lbrace
      let v ← iter (switchStep e r val_addr t) r.fuel
        { ncases := 0, l_failed := l_failed, l_matched := l_matched, l_default := 0 }
      emit (Call.rmlocal val_addr e.LONGSZ)
      let lb ← (do pure (← getS).l_break)
      o_jmp lb
      o_label v.l_failed
      if v.l_default ≠ 0 then o_jmp v.l_default else pure ()
      o_label lb
      modS fun s => { s with l_break := o_break }) := rfl

/-- C27 (as amended): at a `case` label `readswitch` does not fold the expression of the
label: whatever `o_popnum` would answer, once the expression has been read (leaving an
entry on the type stack) and is followed by `:`, the pass through the loop of
`readswitch` returns normally, having issued the calls that load the switch value and
compare it with the label at run time and jump to a fresh label if they differ. -/
theorem switchStep_case_runtime (e : Env) (r : Rec) (val_addr : Int) (t : type)
    (v : SwitchVars) (s sL : State)
    (hc : (curTok s).kind = Tok.CASE)
    (hL : readexpr e r (caseEntry v s) = .ok ((), sL)) (hn : sL.nts ≠ 0)
    (hcol : (curTok sL).kind = Tok.colon) :
    ∃ s1, switchStep e r val_addr t v s
        = .ok (({ ncases := v.ncases + 1, l_failed := s.label + 1,
                  l_matched := sL.label + 1, l_default := v.l_default }, true), s1) ∧
      s1.out = sL.out ++ gate sL.nogen
        (dcalls e sL 1 (sL.ts.getD (sL.nts - 1) type.zero) ++
          [Call.local_ val_addr, Call.deref (TYPE_BT e t), Call.bop Op.EQ false,
           Call.jz (s.label + 1), Call.tmpdrop 1, Call.label v.l_matched]) := by
  have hl : tokLoad s = s :=
    tokLoad_of_plain s (by rw [hc]; decide) (by rw [hc]; decide) (by rw [hc]; decide)
  have hne : (curTok s).kind ≠ Tok.EOF := by rw [hc]; decide
  unfold switchStep
  simp only [bind_apply]
  rw [tok_jmp_ne s Tok.rbrace (by rw [hc]; decide), hl]
  simp only [one_ne_zero, if_false, bind_apply, tok_see_apply, hl, hc, ne_eq, not_true_eq_false,
    pure_apply, decide_True, decide_not, Bool.not_true, Bool.false_eq_true, not_false_eq_true,
    if_true]
  have hcol1 : (sL.toks.getD sL.pos
      { kind := Tok.EOF, id := "", num := 0, bt := 0, str := [] }).kind = Tok.colon := hcol
  by_cases hv : v.ncases = 0
  · have hL0 := hL
    simp only [caseEntry, hv, ne_eq, not_true_eq_false, if_false, List.nil_append] at hL0
    simp only [hv, not_true_eq_false, if_false, bind_apply, pure_apply, tok_get, hne, hc, if_true,
      o_label, gen_apply, LABEL, modS_apply]
    erw [hL0]
    simp only [ts_pop_de_afterPop e sL hn, o_local, o_deref, o_bop, o_jz, o_tmpdrop, gen_apply,
      tok_expect, tok_get, bind_apply, curTok, afterPop, hcol1, reduceCtorEq, if_false, ne_eq,
      not_true_eq_false, pure_apply]
    refine ⟨_, rfl, ?_⟩
    simp only [advance, tokLoad, List.append_assoc, gate_append]
    rfl
  · have hL0 := hL
    simp only [caseEntry, hv, ne_eq, not_false_eq_true, if_true, ← gate_append,
      ← List.append_assoc] at hL0
    have hc1 : (s.toks.getD s.pos
        { kind := Tok.EOF, id := "", num := 0, bt := 0, str := [] }).kind = Tok.CASE := hc
    simp only [hv, not_false_eq_true, if_true, bind_apply, pure_apply, tok_get, curTok, hc1,
      o_label, o_jmp, gen_apply, LABEL, modS_apply, if_false, reduceCtorEq]
    erw [hL0]
    simp only [ts_pop_de_afterPop e sL hn, o_local, o_deref, o_bop, o_jz, o_tmpdrop, gen_apply,
      tok_expect, tok_get, bind_apply, curTok, afterPop, hcol1, reduceCtorEq, if_false, ne_eq,
      not_true_eq_false, pure_apply]
    refine ⟨_, rfl, ?_⟩
    simp only [advance, tokLoad, List.append_assoc, gate_append]
    rfl

theorem switchStep_case_runtime_witness :
    (curTok caseState).kind = Tok.CASE ∧
    readexpr neverFold (recN neverFold 20) (caseEntry caseVars caseState)
      = .ok ((), caseLabelEnd) ∧
    neverFold.popnum caseLabelEnd.out = none ∧
    ∃ s1, switchStep neverFold (recN neverFold 20) 0 tInt caseVars caseState
        = .ok (({ ncases := caseVars.ncases + 1, l_failed := caseState.label + 1,
                  l_matched := caseLabelEnd.label + 1, l_default := caseVars.l_default },
                true), s1) ∧
      s1.out = caseLabelEnd.out ++ gate caseLabelEnd.nogen
        (dcalls neverFold caseLabelEnd 1
            (caseLabelEnd.ts.getD (caseLabelEnd.nts - 1) type.zero) ++
          [Call.local_ 0, Call.deref (TYPE_BT neverFold tInt), Call.bop Op.EQ false,
           Call.jz (caseState.label + 1), Call.tmpdrop 1, Call.label caseVars.l_matched]) :=
  ⟨by decide!, by decide!, rfl,
    switchStep_case_runtime neverFold (recN neverFold 20) 0 tInt caseVars caseState
      caseLabelEnd (by decide!) (by decide!) (by decide!) (by decide!)⟩

theorem advance_tokid (s : State) (h : (curTok s).kind = Tok.NAME) :
    (advance s).tokid = (curTok s).id := by
  show (if (curTok s).kind = Tok.NAME then (curTok s).id else s.tokid) = _
  rw [if_pos h]

theorem readargs_loop (r : Rec) (s : State) (ts : List type) (nms : List String) (varg : Int)
    (s2 : State) (h : ArgsRead r s ts nms varg s2) :
    ∀ (k : Nat) (a : List type) (b : List String), ts.length < k →
      iter (fun (v : List type × List String × Int) => do
        if (← tok_see) = Tok.rparen then pure (v, false)
        else if (← tok_jmp Tok.ellipsis) = 0 then pure ((v.1, v.2.1, 1), false)
        else
          let a ← r.readname true none
          let a ←
            if a.1 ≠ 0 then do
              tok_expect Tok.NAME
              pure ({ type.zero with bt := 4 ||| BT_SIGNED }, ← tok_id)
            else pure (a.2.1, a.2.2)
          let s ← getS
          let v1 := (v.1 ++ [array2ptr s.arrays a.1], v.2.1 ++ [a.2], v.2.2)
          if (← tok_jmp Tok.comma) ≠ 0 then pure (v1, false) else pure (v1, true)) k (a, b, 0) s
        = .ok ((a ++ ts, b ++ nms, varg), s2) := by
  induction h with
  | close s hk =>
    intro k a b hlt
    obtain ⟨k1, rfl⟩ : ∃ k1, k = k1 + 1 := ⟨k - 1, by omega⟩
    rw [iter_succ]
    simp only [bind_apply, tok_see_apply, hk, if_true, pure_apply, Bool.false_eq_true, if_false,
      List.append_nil]
  | dots s hk =>
    intro k a b hlt
    obtain ⟨k1, rfl⟩ : ∃ k1, k = k1 + 1 := ⟨k - 1, by omega⟩
    have hk1 : (curTok (tokLoad s)).kind = Tok.ellipsis := hk
    rw [iter_succ]
    simp only [bind_apply, tok_see_apply, hk, reduceCtorEq, if_false,
      tok_jmp_eq (tokLoad s) Tok.ellipsis hk1 (by decide), advance_tokLoad, if_true, pure_apply,
      Bool.false_eq_true, List.append_nil]
  | last s t nm s1 hk1 hk2 hp hc =>
    intro k a b hlt
    obtain ⟨k1, rfl⟩ : ∃ k1, k = k1 + 1 := ⟨k - 1, by omega⟩
    have hk3 : (curTok (tokLoad s)).kind ≠ Tok.ellipsis := hk2
    rw [iter_succ]
    rcases hp with h | ⟨rc, t0, nm0, s0, hrc, h, hkn, rfl, rfl, rfl⟩
    · simp only [bind_apply, tok_see_apply, hk1, if_false,
        tok_jmp_ne (tokLoad s) Tok.ellipsis hk3, tokLoad_idem, one_ne_zero, h, ne_eq,
        not_true_eq_false, getS_apply, tok_jmp_ne s1 Tok.comma hc, not_false_eq_true, if_true,
        pure_apply, Bool.false_eq_true]
    · have hc1 : (curTok (advance s0)).kind ≠ Tok.comma := hc
      simp only [bind_apply, tok_see_apply, hk1, if_false,
        tok_jmp_ne (tokLoad s) Tok.ellipsis hk3, tokLoad_idem, one_ne_zero, h, ne_eq, hrc,
        tok_expect_eq s0 Tok.NAME hkn (by decide), tok_id, advance_tokid s0 hkn,
        not_true_eq_false, getS_apply, tok_jmp_ne (advance s0) Tok.comma hc1, not_false_eq_true,
        if_true, pure_apply, Bool.false_eq_true]
  | more s t nm s1 ts nms varg s2 hk1 hk2 hp hc _ ih =>
    intro k a b hlt
    obtain ⟨k1, rfl⟩ : ∃ k1, k = k1 + 1 := ⟨k - 1, by omega⟩
    have hk3 : (curTok (tokLoad s)).kind ≠ Tok.ellipsis := hk2
    have hlt1 : ts.length < k1 := by
      simp only [List.length_cons] at hlt; omega
    have hi := ih k1 (a ++ [array2ptr s1.arrays t]) (b ++ [nm]) hlt1
    simp only [List.append_assoc, List.singleton_append] at hi
    rw [iter_succ]
    rcases hp with h | ⟨rc, t0, nm0, s0, hrc, h, hkn, rfl, rfl, rfl⟩
    · simp only [bind_apply, tok_see_apply, hk1, if_false,
        tok_jmp_ne (tokLoad s) Tok.ellipsis hk3, tokLoad_idem, one_ne_zero, h, ne_eq,
        not_true_eq_false, getS_apply, tok_jmp_eq s1 Tok.comma hc (by decide),
        not_false_eq_true, if_true, pure_apply]
      exact hi
    · have hc1 : (curTok (advance s0)).kind = Tok.comma := hc
      simp only [bind_apply, tok_see_apply, hk1, if_false,
        tok_jmp_ne (tokLoad s) Tok.ellipsis hk3, tokLoad_idem, one_ne_zero, h, ne_eq, hrc,
        tok_expect_eq s0 Tok.NAME hkn (by decide), tok_id, advance_tokid s0 hkn,
        not_true_eq_false, getS_apply, tok_jmp_eq (advance s0) Tok.comma hc1 (by decide),
        not_false_eq_true, if_true, pure_apply]
      exact hi

/-- C23: for a parameter list `( ... )` whose parameters are read as `ArgsRead`
describes, `readargs` records for every parameter its declared type with an array type
replaced by the pointer to the element type, and it returns 0 if exactly one parameter
was read and its type has base type 0 at pointer depth 0 (the type `void`; `void *` has
pointer depth 1), and the number of parameters read otherwise. -/
theorem readargs_spec (e : Env) (r : Rec) (s s2 : State) (ts : List type) (nms : List String)
    (varg : Int) (hl : (curTok s).kind = Tok.lparen)
    (h : ArgsRead r (advance s) ts nms varg s2) (hr : (curTok s2).kind = Tok.rparen)
    (hf : ts.length < r.fuel) :
    readargs e r s =
      .ok ((if ts.length = 1 ∧ TYPE_BT e (ts.getD 0 type.zero) = 0 then 0 else ts.length,
            ts, nms, varg), advance s2) := by
  have hloop := readargs_loop r (advance s) ts nms varg s2 h r.fuel [] [] hf
  unfold readargs
  simp only [bind_apply, tok_expect_eq s Tok.lparen hl (by decide)]
  rw [hloop]
  simp only [List.nil_append, tok_expect_eq s2 Tok.rparen hr (by decide)]
  split <;> rfl

theorem readargs_spec_witness :
    (array2ptr arrParamA.arrays tIntArr3 = tIntPtr ∧
      array2ptr arrParamB.arrays tChar = tChar ∧
      readargs demoEnv (recN demoEnv 20) (State.init arrParams) =
        .ok ((if [array2ptr arrParamA.arrays tIntArr3, array2ptr arrParamB.arrays tChar].length
                  = 1 ∧
                TYPE_BT demoEnv
                  ([array2ptr arrParamA.arrays tIntArr3,
                    array2ptr arrParamB.arrays tChar].getD 0 type.zero) = 0
              then 0
              else [array2ptr arrParamA.arrays tIntArr3,
                    array2ptr arrParamB.arrays tChar].length,
              [array2ptr arrParamA.arrays tIntArr3, array2ptr arrParamB.arrays tChar],
              ["a", "b"], 0), advance (tokLoad arrParamB)) ∧
      (valueOf (readargs demoEnv (recN demoEnv 20) (State.init arrParams))).map (fun x => x.1)
        = some 2) ∧
    (array2ptr voidParamEnd.arrays tVoid = tVoid ∧
      readargs demoEnv (recN demoEnv 20) (State.init voidParams) =
        .ok ((if [array2ptr voidParamEnd.arrays tVoid].length = 1 ∧
                TYPE_BT demoEnv ([array2ptr voidParamEnd.arrays tVoid].getD 0 type.zero) = 0
              then 0 else [array2ptr voidParamEnd.arrays tVoid].length,
              [array2ptr voidParamEnd.arrays tVoid], [""], 0),
            advance (tokLoad voidParamEnd)) ∧
      (valueOf (readargs demoEnv (recN demoEnv 20) (State.init voidParams))).map (fun x => x.1)
        = some 0) ∧
    (valueOf (readargs demoEnv (recN demoEnv 20) (State.init voidPtrParams))).map
      (fun x => (x.1, x.2.1.map (fun (t : type) => (t.bt, t.ptr)))) = some (1, [(1, 1)]) :=
  ⟨⟨by decide!, by decide!,
    readargs_spec demoEnv (recN demoEnv 20) (State.init arrParams) (tokLoad arrParamB)
      [array2ptr arrParamA.arrays tIntArr3, array2ptr arrParamB.arrays tChar] ["a", "b"] 0
      (by decide!)
      (ArgsRead.more (advance (State.init arrParams)) tIntArr3 "a" arrParamA
        [array2ptr arrParamB.arrays tChar] ["b"] 0 (tokLoad arrParamB) (by decide!) (by decide!)
        (Or.inl (by decide!)) (by decide!)
        (ArgsRead.last (advance arrParamA) tChar "b" arrParamB (by decide!) (by decide!)
          (Or.inl (by decide!)) (by decide!)))
      (by decide!) (by decide!),
    by decide!⟩,
   ⟨by decide!,
    readargs_spec demoEnv (recN demoEnv 20) (State.init voidParams) (tokLoad voidParamEnd)
      [array2ptr voidParamEnd.arrays tVoid] [""] 0 (by decide!)
      (ArgsRead.last (advance (State.init voidParams)) tVoid "" voidParamEnd (by decide!)
        (by decide!) (Or.inl (by decide!)) (by decide!))
      (by decide!) (by decide!),
    by decide!⟩,
   by decide!⟩

theorem readarrays_loop (e : Env) (r : Rec) (s : State) (ds : List Int) (s3 : State)
    (h : DimsRead e r s ds s3) :
    ∀ (k : Nat) (acc : List Int), ds.length < k →
      iter (fun (arsz : List Int) => do
        if (← tok_jmp Tok.lbrack) = 0 then
          let n ←
            if (← tok_jmp Tok.rbrack) ≠ 0 then do
              r.readexpr
              let _ ← ts_pop_de e
              let c ← o_popnum e 0
              if c.1 ≠ 0 then err "const expr expected\n"
              else
                tok_expect Tok.rbrack
                pure c.2
            else pure 0
          pure (arsz ++ [n], true)
        else pure (arsz, false)) k acc s = .ok (acc ++ ds, s3) := by
  induction h with
  | stop s hk =>
    intro k acc hlt
    obtain ⟨k1, rfl⟩ : ∃ k1, k = k1 + 1 := ⟨k - 1, by omega⟩
    rw [iter_succ]
    simp only [bind_apply, tok_jmp_ne s Tok.lbrack hk, one_ne_zero, if_false, pure_apply,
      Bool.false_eq_true, List.append_nil]
  | empty s ds s3 hk1 hk2 _ ih =>
    intro k acc hlt
    obtain ⟨k1, rfl⟩ : ∃ k1, k = k1 + 1 := ⟨k - 1, by omega⟩
    have hlt1 : ds.length < k1 := by
      simp only [List.length_cons] at hlt; omega
    have hi := ih k1 (acc ++ [0]) hlt1
    simp only [List.append_assoc, List.singleton_append] at hi
    rw [iter_succ]
    simp only [bind_apply, tok_jmp_eq s Tok.lbrack hk1 (by decide), if_true,
      tok_jmp_eq (advance s) Tok.rbrack hk2 (by decide), ne_eq, not_true_eq_false, if_false,
      pure_apply]
    exact hi
  | dim s s1 s2 d ds s3 hk1 hk2 hr hn hp hk3 _ ih =>
    intro k acc hlt
    obtain ⟨k1, rfl⟩ : ∃ k1, k = k1 + 1 := ⟨k - 1, by omega⟩
    have hlt1 : ds.length < k1 := by
      simp only [List.length_cons] at hlt; omega
    have hi := ih k1 (acc ++ [d]) hlt1
    simp only [List.append_assoc, List.singleton_append] at hi
    rw [iter_succ]
    simp only [bind_apply, tok_jmp_eq s Tok.lbrack hk1 (by decide), if_true,
      tok_jmp_ne (advance s) Tok.rbrack hk2, ne_eq, one_ne_zero, not_false_eq_true, hr,
      ts_pop_de_afterPop e s1 hn, hp, not_true_eq_false, if_false,
      tok_expect_eq s2 Tok.rbrack hk3 (by decide), pure_apply]
    exact hi

theorem dimsArrays_below (e : Env) (t : type) (n0 : Nat) (arrays : List array) (ds : List Int)
    (i : Nat) (hi : i < n0) :
    (dimsArrays e t n0 arrays ds).getD i array.zero = arrays.getD i array.zero := by
  induction ds with
  | nil => rfl
  | cons d ds ih =>
    show (tset array.zero (dimsArrays e t n0 arrays ds) (n0 + ds.length) _).getD i array.zero = _
    rw [getD_tset_ne _ _ _ _ _ (by omega), ih]

theorem dimsArrays_at (e : Env) (t : type) (n0 : Nat) (arrays : List array) (pre : List Int)
    (d : Int) (suf : List Int) :
    (dimsArrays e t n0 arrays (pre ++ d :: suf)).getD (n0 + suf.length) array.zero
      = { type := dimsType e t n0 suf, n := d } := by
  induction pre with
  | nil => exact getD_tset_self _ _ _ _
  | cons p pre ih =>
    show (tset array.zero (dimsArrays e t n0 arrays (pre ++ d :: suf))
      (n0 + (pre ++ d :: suf).length) _).getD (n0 + suf.length) array.zero = _
    rw [getD_tset_ne _ _ _ _ _ (by simp only [List.length_append, List.length_cons]; omega), ih]

theorem isArr_arrayOver (e : Env) (t : type) (id : Nat) : isArr (arrayOver e t id) :=
  ⟨rfl, by show T_ARRAY &&& T_ARRAY ≠ 0; decide⟩

theorem Below_aux (arrays arrays1 : List array) (structs : List structinfo) (L n : Nat)
    (hag : ∀ i, i < n → arrays1.getD i array.zero = arrays.getD i array.zero) (t : type)
    (h : Below arrays n t) :
    ∀ k, type_totsz_aux arrays1 structs L k t = type_totsz_aux arrays structs L k t := by
  induction h with
  | leaf t hl =>
    intro k
    cases k with
    | zero => rfl
    | succ k => rw [type_totsz_aux_leaf _ _ _ _ _ hl, type_totsz_aux_leaf _ _ _ _ _ hl]
  | node t ha hid _ ih =>
    intro k
    cases k with
    | zero => rfl
    | succ k =>
      have he : elemOf arrays1 t = elemOf arrays t := by
        unfold elemOf; rw [hag _ hid]
      rw [type_totsz_aux_node _ _ _ _ _ ha, type_totsz_aux_node _ _ _ _ _ ha, he, ih k,
        hag _ hid]

theorem foldlM_append_apply {α β : Type} (f : β → α → P β) (l1 l2 : List α) :
    ∀ (b : β) (s : State),
      (List.foldlM f b (l1 ++ l2) : P β) s = match (List.foldlM f b l1 : P β) s with
        | .ok (x, s1) => (List.foldlM f x l2 : P β) s1
        | .error err => .error err := by
  induction l1 with
  | nil => intro b s; rfl
  | cons a l1 ih =>
    intro b s
    rw [List.cons_append, List.foldlM_cons, List.foldlM_cons, bind_apply, bind_apply]
    cases f b a s with
    | error err => rfl
    | ok x => exact ih x.1 x.2

theorem readarrays_fold (e : Env) (t : type) (s1 : State) (ds : List Int)
    (hcap : s1.narrays + ds.length < e.NARRAYS)
    (hd : ∀ d, d ∈ ds → -2147483648 ≤ d ∧ d ≤ 2147483647) :
    (ds.reverse.foldlM (fun (acc : type × Option Nat) (n : Int) => do
      let id ← array_add e acc.1 n
      pure ({ acc.1 with id := id, flags := T_ARRAY, bt := e.LONGSZ, ptr := 0 },
        match acc.2 with
        | none => some id
        | some k => some k)) (t, none) : P (type × Option Nat)) s1
      = .ok ((dimsType e t s1.narrays ds, if ds = [] then none else some s1.narrays),
          { s1 with arrays := dimsArrays e t s1.narrays s1.arrays ds,
                    narrays := s1.narrays + ds.length }) := by
  induction ds with
  | nil => rfl
  | cons d ds ih =>
    have hcap1 : s1.narrays + ds.length < e.NARRAYS := by
      simp only [List.length_cons] at hcap; omega
    have hno : ¬ e.NARRAYS ≤ s1.narrays + ds.length + 1 := by
      simp only [List.length_cons] at hcap; omega
    have hd0 := hd d (List.mem_cons_self d ds)
    rw [List.reverse_cons, foldlM_append_apply,
      ih hcap1 (fun x hx => hd x (List.mem_cons_of_mem d hx))]
    simp only [List.foldlM_cons, List.foldlM_nil, bind_apply, array_add_check, hno, if_false,
      pure_apply, toInt32_toUnsigned_range d hd0.1 hd0.2]
    cases ds with
    | nil => rfl
    | cons d1 ds1 => rfl

theorem dimsType_elem (e : Env) (t : type) (n0 : Nat) (arrays : List array) (pre : List Int)
    (d : Int) (suf : List Int) :
    elemOf (dimsArrays e t n0 arrays (pre ++ d :: suf)) (dimsType e t n0 (d :: suf))
      = dimsType e t n0 suf := by
  show ((dimsArrays e t n0 arrays (pre ++ d :: suf)).getD (n0 + suf.length) array.zero).type = _
  rw [dimsArrays_at]

theorem dimsType_chain (e : Env) (t : type) (n0 : Nat) (arrays : List array) (ds : List Int) :
    ∀ i, i ≤ ds.length →
      elemAt (dimsArrays e t n0 arrays ds) i (dimsType e t n0 ds) = dimsType e t n0 (ds.drop i) := by
  intro i
  induction i with
  | zero => intro _; rfl
  | succ i ih =>
    intro hi
    have hlt : i < ds.length := by omega
    rw [elemAt_succ, ih (by omega)]
    have hsplit : ds = ds.take i ++ ds.get ⟨i, hlt⟩ :: ds.drop (i + 1) := by
      rw [List.get_eq_getElem, List.getElem_cons_drop, List.take_append_drop]
    have hd : ds.drop i = ds.get ⟨i, hlt⟩ :: ds.drop (i + 1) := by
      rw [List.get_eq_getElem, List.getElem_cons_drop]
    rw [hd]
    nth_rewrite 1 [hsplit]
    exact dimsType_elem e t n0 arrays _ _ _

theorem dimsType_totsz (e : Env) (t : type) (n0 : Nat) (arrays : List array)
    (structs : List structinfo) (L k : Nat) (z : Int) (ds : List Int)
    (hz : type_totsz_aux (dimsArrays e t n0 arrays ds) structs L k t = some z) :
    ∀ (pre suf : List Int), ds = pre ++ suf →
      type_totsz_aux (dimsArrays e t n0 arrays ds) structs L (k + suf.length)
        (dimsType e t n0 suf)
        = some (if suf = [] then z else toInt32 (toUnsigned (suf.prod * z))) := by
  intro pre suf
  induction suf generalizing pre with
  | nil =>
    intro _
    rw [if_pos rfl]
    exact hz
  | cons d suf ih =>
    intro hds
    have h1 := ih (pre ++ [d]) (by rw [hds, List.append_assoc]; rfl)
    have ha : isArr (dimsType e t n0 (d :: suf)) := isArr_arrayOver e _ _
    have hk : k + (d :: suf).length = (k + suf.length) + 1 := by
      simp only [List.length_cons]; omega
    rw [hk, type_totsz_aux_node _ _ _ _ _ ha]
    subst hds
    rw [dimsType_elem, h1, if_neg (List.cons_ne_nil d suf)]
    show some (toInt32 (toUnsigned (((dimsArrays e t n0 arrays (pre ++ d :: suf)).getD
      (n0 + suf.length) array.zero).n * _))) = _
    rw [dimsArrays_at, List.prod_cons]
    by_cases hs : suf = []
    · rw [if_pos hs, hs, List.prod_nil, mul_one]
    · rw [if_neg hs, int32_mul_int32, mul_assoc]

theorem dims_split (ds : List Int) (i : Nat) (h : i < ds.length) :
    ds = ds.take i ++ ds.getD i 0 :: ds.drop (i + 1) ∧
    ds.drop i = ds.getD i 0 :: ds.drop (i + 1) := by
  have hg : ds.getD i 0 = ds.get ⟨i, h⟩ := by
    rw [List.getD_eq_getElem?_getD, List.getElem?_eq_getElem h]; rfl
  have hd : ds.drop i = ds.get ⟨i, h⟩ :: ds.drop (i + 1) := by
    rw [List.get_eq_getElem, List.getElem_cons_drop]
  rw [hg, ← hd, List.take_append_drop]
  exact ⟨rfl, rfl⟩

/-- C24: for the dimensions `[d1]...[dk]` (read as `DimsRead` describes, at most 16 of
them, with room for `k` more descriptors) over the type `t`, whose own descriptors lie
below the ones added, when every dimension and the number `d1 * ... * dk * type_totsz(t)`
are in the range of `int` (the type of the parameter of `array_add` and of the result of
`type_totsz`): `readarrays` adds exactly `k` descriptors, the innermost dimension first;
the resulting type is an array whose chain of element types has the lengths `d1`, ...,
`dk` and ends in `t`, and its `type_totsz` is `d1 * ... * dk` times that of `t`.  With no
brackets the type is unchanged and the result is `NULL`. -/
theorem readarrays_spec (e : Env) (r : Rec) (t : type) (s s1 : State) (ds : List Int) (z : Int)
    (h : DimsRead e r s ds s1) (hf : ds.length < r.fuel) (_h16 : ds.length ≤ 16)
    (hcap : s1.narrays + ds.length < e.NARRAYS)
    (hT : Below s1.arrays s1.narrays t) (hz : totsz e s1 t = some z)
    (hd : ∀ d, d ∈ ds → -2147483648 ≤ d ∧ d ≤ 2147483647)
    (hp : -2147483648 ≤ ds.prod * z ∧ ds.prod * z ≤ 2147483647) :
    ∃ R inner s2, readarrays e r t s = .ok ((R, inner), s2) ∧
      s2 = { s1 with arrays := s2.arrays, narrays := s1.narrays + ds.length } ∧
      (∀ i, i < s1.narrays → s2.arrays.getD i array.zero = s1.arrays.getD i array.zero) ∧
      (∀ j, j < ds.length →
        (s2.arrays.getD (s1.narrays + j) array.zero).n = ds.getD (ds.length - 1 - j) 0) ∧
      (∀ i, i < ds.length → isArr (elemAt s2.arrays i R) ∧
        (elemAt s2.arrays i R).id = s1.narrays + (ds.length - 1 - i) ∧
        (s2.arrays.getD (elemAt s2.arrays i R).id array.zero).n = ds.getD i 0) ∧
      elemAt s2.arrays ds.length R = t ∧
      totsz e s2 R = some (ds.prod * z) ∧
      (ds = [] → R = t ∧ inner = none ∧ s2 = s1) ∧
      (ds ≠ [] → inner = some s1.narrays) := by
  have hloop := readarrays_loop e r s ds s1 h r.fuel [] hf
  have hfold := readarrays_fold e t s1 ds hcap hd
  refine ⟨dimsType e t s1.narrays ds, if ds = [] then none else some s1.narrays,
    { s1 with arrays := dimsArrays e t s1.narrays s1.arrays ds,
              narrays := s1.narrays + ds.length }, ?_, rfl, ?_, ?_, ?_, ?_, ?_, ?_, ?_⟩
  · unfold readarrays
    rw [bind_apply, hloop]
    exact hfold
  · intro i hi
    exact dimsArrays_below e t s1.narrays s1.arrays ds i hi
  · intro j hj
    obtain ⟨h1, _⟩ := dims_split ds (ds.length - 1 - j) (by omega)
    have hl : (ds.drop (ds.length - 1 - j + 1)).length = j := by
      rw [List.length_drop]; omega
    have key := dimsArrays_at e t s1.narrays s1.arrays (ds.take (ds.length - 1 - j))
      (ds.getD (ds.length - 1 - j) 0) (ds.drop (ds.length - 1 - j + 1))
    rw [← h1, hl] at key
    show ((dimsArrays e t s1.narrays s1.arrays ds).getD (s1.narrays + j) array.zero).n = _
    rw [key]
  · intro i hi
    obtain ⟨h1, h2⟩ := dims_split ds i hi
    have hl : (ds.drop (i + 1)).length = ds.length - 1 - i := by
      rw [List.length_drop]; omega
    have hc : elemAt (dimsArrays e t s1.narrays s1.arrays ds) i (dimsType e t s1.narrays ds)
        = arrayOver e (dimsType e t s1.narrays (ds.drop (i + 1)))
            (s1.narrays + (ds.length - 1 - i)) := by
      rw [dimsType_chain e t s1.narrays s1.arrays ds i (by omega), h2, ← hl]
      rfl
    show isArr (elemAt (dimsArrays e t s1.narrays s1.arrays ds) i _) ∧
      (elemAt (dimsArrays e t s1.narrays s1.arrays ds) i _).id = _ ∧
      ((dimsArrays e t s1.narrays s1.arrays ds).getD
        (elemAt (dimsArrays e t s1.narrays s1.arrays ds) i _).id array.zero).n = _
    rw [hc]
    refine ⟨isArr_arrayOver e _ _, rfl, ?_⟩
    have key := dimsArrays_at e t s1.narrays s1.arrays (ds.take i) (ds.getD i 0)
      (ds.drop (i + 1))
    rw [← h1, hl] at key
    show ((dimsArrays e t s1.narrays s1.arrays ds).getD (s1.narrays + (ds.length - 1 - i))
      array.zero).n = _
    rw [key]
  · show elemAt (dimsArrays e t s1.narrays s1.arrays ds) ds.length _ = t
    rw [dimsType_chain e t s1.narrays s1.arrays ds ds.length (le_refl _), List.drop_length]
    rfl
  · have hz1 : type_totsz_aux (dimsArrays e t s1.narrays s1.arrays ds) s1.structs e.LONGSZ
        (s1.arrays.length + 2) t = some z := by
      rw [Below_aux s1.arrays _ s1.structs e.LONGSZ s1.narrays
        (fun i hi => dimsArrays_below e t s1.narrays s1.arrays ds i hi) t hT]
      exact hz
    have hv : (if ds = [] then z else toInt32 (toUnsigned (ds.prod * z))) = ds.prod * z := by
      by_cases hn : ds = []
      · rw [if_pos hn, hn, List.prod_nil, one_mul]
      · rw [if_neg hn, toInt32_toUnsigned_range _ hp.1 hp.2]
    have ht := dimsType_totsz e t s1.narrays s1.arrays s1.structs e.LONGSZ _ z ds hz1 [] ds rfl
    rw [hv] at ht
    exact totsz_of_aux e _ _ _ _ ht
  · intro hd
    subst hd
    exact ⟨rfl, rfl, rfl⟩
  · intro hd
    rw [if_neg hd]

theorem readarrays_spec_witness :
    DimsRead demoEnv (recN demoEnv 20) (State.init dimToks) [2, 3] (tokLoad (advance dimB2)) ∧
    (∃ R inner s2, readarrays demoEnv (recN demoEnv 20) tInt (State.init dimToks)
        = .ok ((R, inner), s2) ∧
      s2.narrays = (tokLoad (advance dimB2)).narrays + 2 ∧
      totsz demoEnv s2 R = some (([2, 3] : List Int).prod * 4)) ∧
    valueOf (readarrays demoEnv (recN demoEnv 20) tInt (State.init dimToks))
      = some ({ bt := 8, flags := T_ARRAY, ptr := 0, id := 1, addr := 0 }, some 0) ∧
    (stateOf (readarrays demoEnv (recN demoEnv 20) tInt (State.init dimToks))).map
      (fun x => (x.narrays, x.arrays))
      = some (2, [{ type := tInt, n := 3 },
                  { type := { bt := 8, flags := T_ARRAY, ptr := 0, id := 0, addr := 0 },
                    n := 2 }]) := by
  have hd : DimsRead demoEnv (recN demoEnv 20) (State.init dimToks) [2, 3]
      (tokLoad (advance dimB2)) :=
    DimsRead.dim (State.init dimToks) dimA1 dimA2 2 [3] _ (by decide!) (by decide!)
      (by decide!) (by decide!) (by decide!) (by decide!)
      (DimsRead.dim (advance dimA2) dimB1 dimB2 3 [] _ (by decide!) (by decide!)
        (by decide!) (by decide!) (by decide!) (by decide!)
        (DimsRead.stop (advance dimB2) (by decide!)))
  refine ⟨hd, ?_, by decide!, by decide!⟩
  obtain ⟨R, inner, s2, h1, h2, _, _, _, _, h7, _, _⟩ :=
    readarrays_spec demoEnv (recN demoEnv 20) tInt (State.init dimToks)
      (tokLoad (advance dimB2)) [2, 3] 4 hd (by decide!) (by decide) (by decide!)
      (Below.leaf tInt (by decide)) (by decide!) (by decide) (by decide)
  exact ⟨R, inner, s2, h1, congrArg State.narrays h2, h7⟩

/-! ## The growable buffer, and initializers of incomplete arrays -/

theorem madd_ok (e : MemEnv) (a b : Int) (h1 : a + b ≤ e.imax) (h2 : 0 ≤ a + b)
    (h3 : 0 ≤ e.imax) : madd e a b = .ok (a + b) := by
  unfold madd
  rw [if_neg (by omega)]

theorem malloc_length (e : MemEnv) (sz : Int) (h : 0 ≤ sz) :
    ((malloc e sz).length : Int) = sz := by
  unfold malloc
  rw [List.length_map, List.length_range, Int.toNat_of_nonneg h]

theorem memcpy_ok (dst : List Nat) (off : Nat) (src : List Nat) (len : Nat)
    (h1 : off + len ≤ dst.length) (h2 : len ≤ src.length) :
    memcpy dst off src len = .ok (dst.take off ++ src.take len ++ dst.drop (off + len)) := by
  unfold memcpy
  rw [if_pos ⟨by omega, by omega, by omega, by omega⟩]
  rfl

theorem memcpy_length (dst : List Nat) (off : Nat) (src : List Nat) (len : Nat)
    (h1 : off + len ≤ dst.length) (h2 : len ≤ src.length) :
    (dst.take off ++ src.take len ++ dst.drop (off + len)).length = dst.length := by
  simp only [List.length_append, List.length_take, List.length_drop]
  omega

theorem memcpy_head (dst : List Nat) (off : Nat) (src : List Nat) (len : Nat)
    (h1 : off + len ≤ dst.length) :
    (dst.take off ++ src.take len ++ dst.drop (off + len)).take off = dst.take off := by
  rw [List.append_assoc]
  exact List.take_left' (by rw [List.length_take]; omega)

theorem memcpy_body (dst : List Nat) (off : Nat) (src : List Nat) (len : Nat)
    (h1 : off + len ≤ dst.length) (h2 : len ≤ src.length) :
    ((dst.take off ++ src.take len ++ dst.drop (off + len)).drop off).take len
      = src.take len := by
  rw [List.append_assoc, List.drop_left' (by rw [List.length_take]; omega)]
  exact List.take_left' (by rw [List.length_take]; omega)

theorem mem_extend_ok (e : MemEnv) (m : mem) (data : List Nat) (hm : Holds m data)
    (h1 : m.sz + m.sz ≤ e.imax) (h2 : MEMSZ ≤ e.imax) :
    ∃ m1, mem_extend e m = .ok m1 ∧ Holds m1 data ∧ m1.n = m.n ∧ m.sz < m1.sz := by
  obtain ⟨hn, hle, hs⟩ := hm
  have hn0 : 0 ≤ m.n := by rw [hn]; exact Int.natCast_nonneg _
  have h512 : MEMSZ = 512 := rfl
  by_cases hz : m.sz = 0
  · have hnz : m.n = 0 := by omega
    have hd : data.length = 0 := by omega
    refine ⟨{ s := some (malloc e MEMSZ), sz := MEMSZ, n := m.n }, ?_, ⟨hn, ?_, ?_⟩, rfl, ?_⟩
    · unfold mem_extend
      simp only [hz, ne_eq, not_true_eq_false, if_false, hnz]
      rfl
    · show m.n ≤ MEMSZ
      omega
    · intro _
      refine ⟨_, rfl, malloc_length e MEMSZ (by omega), ?_⟩
      rw [hd, List.take_zero]
      exact (List.length_eq_zero.mp hd).symm
    · show m.sz < MEMSZ
      omega
  · obtain ⟨old, hso, hol, hod⟩ := hs hz
    have hsz : 0 < m.sz := by omega
    have hmadd := madd_ok e m.sz m.sz h1 (by omega) (by omega)
    have hml := malloc_length e (m.sz + m.sz) (by omega)
    by_cases hnz : m.n = 0
    · have hd : data.length = 0 := by omega
      refine ⟨{ s := some (malloc e (m.sz + m.sz)), sz := m.sz + m.sz, n := m.n }, ?_,
        ⟨hn, ?_, ?_⟩, rfl, ?_⟩
      · unfold mem_extend
        simp only [hz, ne_eq, not_false_eq_true, if_true, hmadd, hnz, not_true_eq_false,
          if_false]
        rfl
      · show m.n ≤ m.sz + m.sz
        omega
      · intro _
        refine ⟨_, rfl, hml, ?_⟩
        rw [hd, List.take_zero]
        exact (List.length_eq_zero.mp hd).symm
      · show m.sz < m.sz + m.sz
        omega
    · have hc1 : 0 + data.length ≤ (malloc e (m.sz + m.sz)).length := by omega
      have hc2 : data.length ≤ old.length := by omega
      have hcp0 : memcpy (malloc e (m.sz + m.sz)) 0 old data.length
          = .ok ((malloc e (m.sz + m.sz)).take 0 ++ old.take data.length ++
              (malloc e (m.sz + m.sz)).drop (0 + data.length)) :=
        memcpy_ok (malloc e (m.sz + m.sz)) 0 old data.length hc1 hc2
      refine ⟨{ s := some ((malloc e (m.sz + m.sz)).take 0 ++ old.take data.length ++
          (malloc e (m.sz + m.sz)).drop (0 + data.length)), sz := m.sz + m.sz, n := m.n }, ?_,
        ⟨hn, ?_, ?_⟩, rfl, ?_⟩
      · unfold mem_extend
        simp only [hz, ne_eq, not_false_eq_true, if_true, hmadd, hnz, hso]
        rw [hn]
        simp only [bind, Except.bind, hcp0]
        rfl
      · show m.n ≤ m.sz + m.sz
        omega
      · intro _
        refine ⟨_, rfl, ?_, ?_⟩
        · rw [memcpy_length _ 0 old data.length hc1 hc2]
          exact hml
        · rw [List.take_zero, List.nil_append, Nat.zero_add]
          rw [List.take_left' (by rw [List.length_take]; omega)]
          exact hod
      · show m.sz < m.sz + m.sz
        omega

theorem mem_grow_succ (e : MemEnv) (len : Int) (k : Nat) (m : mem) :
    mem_grow e len (k + 1) m = (do
      let a ← madd e m.n len
      let b ← madd e a 1
      if b ≥ m.sz then mem_grow e len k (← mem_extend e m) else pure m) := rfl

theorem mem_grow_ok (e : MemEnv) (len : Nat) (data : List Nat) (h2 : MEMSZ ≤ e.imax) :
    ∀ (k : Nat) (m : mem), Holds m data → 2 * (m.n + len + 1) ≤ e.imax →
      m.n + len + 1 < m.sz + k →
      ∃ m1, mem_grow e len (k + 1) m = .ok m1 ∧ Holds m1 data ∧ m1.n = m.n ∧
        m1.n + len + 1 < m1.sz := by
  intro k
  induction k with
  | zero =>
    intro m hm hmax hlt
    have hn0 : 0 ≤ m.n := by rw [hm.1]; exact Int.natCast_nonneg _
    refine ⟨m, ?_, hm, rfl, by omega⟩
    rw [mem_grow_succ]
    simp only [madd_ok e m.n len (by omega) (by omega) (by omega),
      madd_ok e (m.n + len) 1 (by omega) (by omega) (by omega), bind, Except.bind]
    rw [if_neg (by omega)]
    rfl
  | succ k ih =>
    intro m hm hmax hlt
    have hn0 : 0 ≤ m.n := by rw [hm.1]; exact Int.natCast_nonneg _
    have ha := madd_ok e m.n len (by omega) (by omega) (by omega)
    have hb := madd_ok e (m.n + len) 1 (by omega) (by omega) (by omega)
    by_cases hc : m.n + len + 1 < m.sz
    · refine ⟨m, ?_, hm, rfl, hc⟩
      rw [mem_grow_succ]
      simp only [ha, hb, bind, Except.bind]
      rw [if_neg (by omega)]
      rfl
    · obtain ⟨m1, he, hm1, hn1, hs1⟩ := mem_extend_ok e m data hm (by omega) h2
      obtain ⟨m2, hg, hm2, hn2, hs2⟩ := ih m1 hm1 (by rw [hn1]; exact hmax)
        (by rw [hn1]; push_cast at hlt ⊢; omega)
      refine ⟨m2, ?_, hm2, by rw [hn2, hn1], hs2⟩
      rw [mem_grow_succ]
      simp only [ha, hb, bind, Except.bind]
      rw [if_pos (by omega)]
      simp only [he]
      exact hg

theorem toInt32_toUnsigned (i : Int) (h0 : 0 ≤ i) (h1 : i ≤ 2147483647) :
    toInt32 (toUnsigned i) = i := by
  unfold toInt32 toUnsigned
  have e1 : i % 4294967296 = i := Int.emod_eq_of_lt h0 (by omega)
  have e2 : (i.toNat : Int) = i := Int.toNat_of_nonneg h0
  rw [e1]
  have e3 : i.toNat % 4294967296 = i.toNat := Nat.mod_eq_of_lt (by omega)
  rw [e3, if_pos (by omega), e2]

theorem mem_buf_ok (m : mem) (blk : List Nat) (i : Nat) (hs : m.s = some blk)
    (hn : m.n = i) (hi : i < blk.length) :
    mem_buf m = .ok (blk.set i 0, { m with s := some (blk.set i 0) }) := by
  unfold mem_buf
  simp only [hs, hn, Int.toNat_ofNat]
  rw [if_pos ⟨by omega, by omega⟩]

/-- C32: for every buffer that holds the bytes `data` (`n` of them) and every `len >= 0`
not above the size of `buf`, as long as the sizes stay inside the integer types
(`2 * (n + len + 1)` and `MEMSZ` in the type of the members, `n + len` in `int`) and the
loop is given enough passes, `mem_put(mem, buf, len)` returns, leaves the first `n` bytes
as they were, stores the `len` bytes of `buf` after them, makes `mem_len` return
`n + len`, and leaves `n + 1 < sz` for the new `n`, so that `mem_buf` writes its
terminator inside the block and returns the stored bytes followed by 0. -/
theorem mem_put_spec (e : MemEnv) (fuel : Nat) (m : mem) (data buf : List Nat) (len : Nat)
    (hm : Holds m data) (hbuf : len ≤ buf.length)
    (hmax : 2 * (m.n + len + 1) ≤ e.imax) (h512 : MEMSZ ≤ e.imax)
    (hint : m.n + len ≤ 2147483647) (hfuel : m.n + len + 2 < fuel) :
    ∃ m1 b, mem_put e fuel m buf len = .ok m1 ∧ m1.s = some b ∧ (b.length : Int) = m1.sz ∧
      b.take data.length = data ∧
      (b.drop data.length).take len = buf.take len ∧
      m1.n = m.n + len ∧ mem_len m1 = m.n + len ∧ m1.n + 1 < m1.sz ∧
      ∃ b1 m2, mem_buf m1 = .ok (b1, m2) ∧ b1.length = b.length ∧
        b1.take (data.length + len) = data ++ buf.take len ∧
        b1.getD (data.length + len) 1 = 0 := by
  have hn0 : 0 ≤ m.n := by rw [hm.1]; exact Int.natCast_nonneg _
  have hsz0 : 0 ≤ m.sz := by have := hm.2.1; omega
  obtain ⟨k, rfl⟩ : ∃ k, fuel = k + 1 := ⟨fuel - 1, by omega⟩
  obtain ⟨m1, hg, hm1, hn1, hs1⟩ := mem_grow_ok e len data h512 k m hm hmax
    (by push_cast at hfuel ⊢; omega)
  obtain ⟨hd1, _, hb1⟩ := hm1
  obtain ⟨b, hsb, hlb, htb⟩ := hb1 (by omega)
  have hc1 : data.length + len ≤ b.length := by omega
  have hcp : memcpy b m1.n buf len
      = .ok (b.take data.length ++ buf.take len ++ b.drop (data.length + len)) := by
    rw [hd1]
    exact memcpy_ok b data.length buf len hc1 hbuf
  have hadd := madd_ok e m1.n len (by omega) (by omega) (by omega)
  have hlen := memcpy_length b data.length buf len hc1 hbuf
  have hhead := memcpy_head b data.length buf len hc1
  have hbody := memcpy_body b data.length buf len hc1 hbuf
  have hput : mem_put e (k + 1) m buf len = .ok
      { s := some (b.take data.length ++ buf.take len ++ b.drop (data.length + len)),
        sz := m1.sz, n := m1.n + len } := by
    unfold mem_put mem_cpy
    simp only [hg, bind, Except.bind, hsb, hcp, hadd, pure, Except.pure]
  refine ⟨_, _, hput, rfl, ?_, ?_, hbody, ?_, ?_, ?_, ?_⟩
  · rw [hlen]; exact hlb
  · rw [hhead]; exact htb
  · show m1.n + len = m.n + len
    rw [hn1]
  · show toInt32 (toUnsigned (m1.n + len)) = m.n + len
    rw [hn1]
    exact toInt32_toUnsigned _ (by omega) hint
  · show m1.n + len + 1 < m1.sz
    exact hs1
  · have hb := mem_buf_ok
      { s := some (b.take data.length ++ buf.take len ++ b.drop (data.length + len)),
        sz := m1.sz, n := m1.n + len } _ (data.length + len) rfl
      (by show m1.n + (len : Int) = ((data.length + len : Nat) : Int); rw [hd1]; push_cast; rfl)
      (by rw [hlen]; omega)
    refine ⟨_, _, hb, ?_, ?_, ?_⟩
    · rw [List.length_set]
    · rw [List.set_take, List.set_eq_of_length_le (by rw [List.length_take]; omega)]
      rw [List.take_left' (by
        rw [List.length_append, List.length_take, List.length_take]; omega), htb]
    · rw [List.getD_eq_getElem?_getD, List.getElem?_set_self (by rw [hlen]; omega)]
      rfl

theorem mem_put_spec_witness :
    Holds mem3 [1, 2, 3] ∧ mem3.sz = 512 ∧
    ∃ m1 b, mem_put memEnv 700 mem3 bytes600 ((600 : Nat) : Int) = .ok m1 ∧ m1.s = some b ∧
      (b.length : Int) = m1.sz ∧
      b.take [1, 2, 3].length = [1, 2, 3] ∧
      (b.drop [1, 2, 3].length).take 600 = bytes600.take 600 ∧
      m1.n = mem3.n + ((600 : Nat) : Int) ∧ mem_len m1 = mem3.n + ((600 : Nat) : Int) ∧
      m1.n + 1 < m1.sz ∧
      ∃ b1 m2, mem_buf m1 = .ok (b1, m2) ∧ b1.length = b.length ∧
        b1.take ([1, 2, 3].length + 600) = [1, 2, 3] ++ bytes600.take 600 ∧
        b1.getD ([1, 2, 3].length + 600) 1 = 0 :=
  have hm : Holds mem3 [1, 2, 3] :=
    ⟨by decide!, by decide!, fun _ => ⟨(mem3.s.getD []), by decide!, by decide!, by decide!⟩⟩
  ⟨hm, by decide!,
    mem_put_spec memEnv 700 mem3 [1, 2, 3] bytes600 600 hm (by decide!) (by decide!)
      (by decide!) (by decide!) (by decide!)⟩

/-- C31 (the code at the failing input): for `int a[] = { 1, [0] = 2, 3 };` `initsize`
computes the length 2 (after the designator `[0]` it counts on from the length reached so
far) and the object gets 8 bytes, but `initexpr` stores the last element at the index it
has in the list, 2: at offset 8, beyond the object.  The same happens for the local
array of `int f() { int a[] = { 1, [0] = 2, 3 }; }`: `o_mklocal(8)`, and a store at
`local + 8`. -/
theorem initexpr_store_beyond_initsize :
    (initsize demoEnv (recN demoEnv 20) (State.init backDesigInit)).toOption.map (fun x => x.1)
      = some 2 ∧
    outOf (parse demoEnv (recN demoEnv 30) (State.init backDesigProg)) = some
      [Call.num 0, Call.popnum, Call.dsnew "a" 8 1, Call.num 1, Call.dsset "a" 0 260,
       Call.num 0, Call.popnum, Call.num 2, Call.dsset "a" 0 260, Call.num 3,
       Call.dsset "a" 8 260] ∧
    (outOf (parse demoEnv (recN demoEnv 30) (State.init backDesigLocal))).map pass1Calls = some
      [Call.tmpdrop (-1), Call.tmpdrop (-1), Call.num 0, Call.popnum, Call.mklocal 8,
       Call.local_ 0, Call.num 0, Call.num 8, Call.memset, Call.tmpdrop 1,
       Call.local_ 0, Call.num 1, Call.assign 260, Call.tmpdrop 1,
       Call.num 0, Call.popnum, Call.local_ 0, Call.num 2, Call.assign 260, Call.tmpdrop 1,
       Call.local_ 0, Call.num 8, Call.bop Op.ADD false, Call.num 3, Call.assign 260,
       Call.tmpdrop 1] := by
  decide!


end Ncc
